import Mathlib

/-!
# EHOW3D: a shallow embedding of the numerical core of `euler3D.c`

The C program works on `double`; the embedding is written over an arbitrary
linearly ordered field `K`, so that every definition is executable on `ℚ` and
every theorem can be read on `ℝ` (exact real arithmetic).  C arrays
(`double *`) are functions from the index to the value.  The preprocessor
flags of the source (`TYPE_REC`, `ST`, `MULTICOMPONENT`, ...) are ordinary
arguments of the functions that depend on them.
-/

namespace EHOW3D

variable {K : Type} [LinearOrderedField K]

/-! ## Constants of the source (`#define`s) -/

/-- The constant `epsilon` (1.0E-6) of the WENO weights. -/
def epsilon : K := 1 / 1000000

/-- The constant `epsilon2` (1.0E-40) of the TENO weights. -/
def epsilon2 : K := 1 / 10 ^ 40

/-- The TENO cut-off `_CT_` (1.0e-6). -/
def CT : K := 1 / 1000000

/-- The TENO exponent `_Q_` (6.0); `pow(x, _Q_)` is the sixth power. -/
def Q : Nat := 6

/-- The constant `TOL4` (1.0E-4). -/
def TOL4 : K := 1 / 10000

/-- The constant `TOL14` (1.0E-14). -/
def TOL14 : K := 1 / 10 ^ 14

/-- Gravity `_g_` (9.8). -/
def g : K := 98 / 10

/-- Ratio of specific heats `_gamma_` (1.4). -/
def gamma : K := 14 / 10

/-- The macro `MIN(x,y) (x < y ? x : y)`. -/
def MIN (x y : K) : K := if x < y then x else y

/-- The macro `MAX(x,y) (x > y ? x : y)`. -/
def MAX (x y : K) : K := if x > y then x else y

/-- The macro `ABS(x) (x < 0 ? -x : x)`, for an argument that is a single
identifier or member access (the only way the modelled functions use it). -/
def ABS (x : K) : K := if x < 0 then -x else x

/-! ## Reconstruction (`weno3R` ... `weno7L`)

`typeRec` is the flag `TYPE_REC`: 0 for WENO, 1 for TENO, anything else UWC.
Each routine is split in two: the weights `w_k`, and the combination of the
candidate polynomials with these weights. -/

/-- Weights `(w0, w1)` computed by `weno3R`. -/
def weno3R_weights (typeRec : Nat) (phi : Nat → K) : K × K :=
  let g0 : K := 2 / 3
  let g1 : K := 1 / 3
  if typeRec = 0 then
    let b0 := (phi 1 - phi 0) * (phi 1 - phi 0)
    let b1 := (phi 2 - phi 1) * (phi 2 - phi 1)
    let a0 := g0 / ((b0 + epsilon) * (b0 + epsilon))
    let a1 := g1 / ((b1 + epsilon) * (b1 + epsilon))
    let a_sum := a0 + a1
    (a0 / a_sum, a1 / a_sum)
  else if typeRec = 1 then
    let b0 := (phi 1 - phi 0) * (phi 1 - phi 0)
    let b1 := (phi 2 - phi 1) * (phi 2 - phi 1)
    let a0 := 1 / (b0 + epsilon2) ^ Q
    let a1 := 1 / (b1 + epsilon2) ^ Q
    let c0 := a0 / (a0 + a1)
    let c1 := a1 / (a0 + a1)
    let c0 : K := if c0 < CT then 0 else 1
    let c1 : K := if c1 < CT then 0 else 1
    let a0 := g0 * c0
    let a1 := g1 * c1
    (a0 / (a0 + a1), a1 / (a0 + a1))
  else
    (g0, g1)

/-- The routine `weno3R`: value at the left face of the central cell. -/
def weno3R (typeRec : Nat) (phi : Nat → K) : K :=
  let w := weno3R_weights typeRec phi
  w.1 * (1 / 2 * phi 1 + 1 / 2 * phi 0) + w.2 * (-(1 / 2) * phi 2 + 3 / 2 * phi 1)

/-- Weights `(w0, w1)` computed by `weno3L`. -/
def weno3L_weights (typeRec : Nat) (phi : Nat → K) : K × K :=
  let g0 : K := 1 / 3
  let g1 : K := 2 / 3
  if typeRec = 0 then
    let b0 := (phi 1 - phi 0) * (phi 1 - phi 0)
    let b1 := (phi 2 - phi 1) * (phi 2 - phi 1)
    let a0 := g0 / ((b0 + epsilon) * (b0 + epsilon))
    let a1 := g1 / ((b1 + epsilon) * (b1 + epsilon))
    let a_sum := a0 + a1
    (a0 / a_sum, a1 / a_sum)
  else if typeRec = 1 then
    let b0 := (phi 1 - phi 0) * (phi 1 - phi 0)
    let b1 := (phi 2 - phi 1) * (phi 2 - phi 1)
    let a0 := 1 / (b0 + epsilon2) ^ Q
    let a1 := 1 / (b1 + epsilon2) ^ Q
    let c0 := a0 / (a0 + a1)
    let c1 := a1 / (a0 + a1)
    let c0 : K := if c0 < CT then 0 else 1
    let c1 : K := if c1 < CT then 0 else 1
    let a0 := g0 * c0
    let a1 := g1 * c1
    (a0 / (a0 + a1), a1 / (a0 + a1))
  else
    (g0, g1)

/-- The routine `weno3L`: value at the right face of the central cell. -/
def weno3L (typeRec : Nat) (phi : Nat → K) : K :=
  let w := weno3L_weights typeRec phi
  w.1 * (-(1 / 2) * phi 0 + 3 / 2 * phi 1) + w.2 * (1 / 2 * phi 1 + 1 / 2 * phi 2)

/-- Smoothness indicators `(b0, b1, b2)` of the fifth-order routines. -/
def weno5_beta (phi : Nat → K) : K × K × K :=
  (13 / 12 * (phi 0 - 2 * phi 1 + phi 2) * (phi 0 - 2 * phi 1 + phi 2)
      + 1 / 4 * (phi 0 - 4 * phi 1 + 3 * phi 2) * (phi 0 - 4 * phi 1 + 3 * phi 2),
   13 / 12 * (phi 1 - 2 * phi 2 + phi 3) * (phi 1 - 2 * phi 2 + phi 3)
      + 1 / 4 * (phi 1 - phi 3) * (phi 1 - phi 3),
   13 / 12 * (phi 2 - 2 * phi 3 + phi 4) * (phi 2 - 2 * phi 3 + phi 4)
      + 1 / 4 * (3 * phi 2 - 4 * phi 3 + phi 4) * (3 * phi 2 - 4 * phi 3 + phi 4))

/-- Weights of a fifth-order routine with optimal weights `(g0, g1, g2)`: the
part of `weno5R` and `weno5L` between the assignment of the `g_k` and the final
combination (the two routines differ only in `g_k`). -/
def weno5_weights (g0 g1 g2 : K) (typeRec : Nat) (phi : Nat → K) : K × K × K :=
  if typeRec = 0 then
    let b0 := (weno5_beta phi).1
    let b1 := (weno5_beta phi).2.1
    let b2 := (weno5_beta phi).2.2
    let a0 := g0 / ((b0 + epsilon) * (b0 + epsilon))
    let a1 := g1 / ((b1 + epsilon) * (b1 + epsilon))
    let a2 := g2 / ((b2 + epsilon) * (b2 + epsilon))
    let a_sum := a0 + a1 + a2
    (a0 / a_sum, a1 / a_sum, a2 / a_sum)
  else if typeRec = 1 then
    let b0 := (weno5_beta phi).1
    let b1 := (weno5_beta phi).2.1
    let b2 := (weno5_beta phi).2.2
    let a0 := 1 / (b0 + epsilon2) ^ Q
    let a1 := 1 / (b1 + epsilon2) ^ Q
    let a2 := 1 / (b2 + epsilon2) ^ Q
    let c0 := a0 / (a0 + a1 + a2)
    let c1 := a1 / (a0 + a1 + a2)
    let c2 := a2 / (a0 + a1 + a2)
    let c0 : K := if c0 < CT then 0 else 1
    let c1 : K := if c1 < CT then 0 else 1
    let c2 : K := if c2 < CT then 0 else 1
    let a0 := g0 * c0
    let a1 := g1 * c1
    let a2 := g2 * c2
    (a0 / (a0 + a1 + a2), a1 / (a0 + a1 + a2), a2 / (a0 + a1 + a2))
  else
    (g0, g1, g2)

/-- Weights `(w0, w1, w2)` computed by `weno5R`. -/
def weno5R_weights (typeRec : Nat) (phi : Nat → K) : K × K × K :=
  weno5_weights (3 / 10) (3 / 5) (1 / 10) typeRec phi

/-- The routine `weno5R`. -/
def weno5R (typeRec : Nat) (phi : Nat → K) : K :=
  let w := weno5R_weights typeRec phi
  w.1 * (1 / 3 * phi 2 + 5 / 6 * phi 1 - 1 / 6 * phi 0)
    + w.2.1 * (-(1 / 6) * phi 3 + 5 / 6 * phi 2 + 1 / 3 * phi 1)
    + w.2.2 * (1 / 3 * phi 4 - 7 / 6 * phi 3 + 11 / 6 * phi 2)

/-- Weights `(w0, w1, w2)` computed by `weno5L`. -/
def weno5L_weights (typeRec : Nat) (phi : Nat → K) : K × K × K :=
  weno5_weights (1 / 10) (3 / 5) (3 / 10) typeRec phi

/-- The routine `weno5L`. -/
def weno5L (typeRec : Nat) (phi : Nat → K) : K :=
  let w := weno5L_weights typeRec phi
  w.2.2 * (1 / 3 * phi 2 + 5 / 6 * phi 3 - 1 / 6 * phi 4)
    + w.2.1 * (-(1 / 6) * phi 1 + 5 / 6 * phi 2 + 1 / 3 * phi 3)
    + w.1 * (1 / 3 * phi 0 - 7 / 6 * phi 1 + 11 / 6 * phi 2)

/-- Smoothness indicators `(b0, b1, b2, b3)` of the seventh-order routines. -/
def weno7_beta (phi : Nat → K) : K × K × K × K :=
  (phi 0 * (547 * phi 0 - 3882 * phi 1 + 4642 * phi 2 - 1854 * phi 3)
      + phi 1 * (7043 * phi 1 - 17246 * phi 2 + 7042 * phi 3)
      + phi 2 * (11003 * phi 2 - 9402 * phi 3) + phi 3 * 2107 * phi 3,
   phi 1 * (267 * phi 1 - 1642 * phi 2 + 1602 * phi 3 - 494 * phi 4)
      + phi 2 * (2843 * phi 2 - 5966 * phi 3 + 1922 * phi 4)
      + phi 3 * (3443 * phi 3 - 2522 * phi 4) + phi 4 * 547 * phi 4,
   phi 2 * (547 * phi 2 - 2522 * phi 3 + 1922 * phi 4 - 494 * phi 5)
      + phi 3 * (3443 * phi 3 - 5966 * phi 4 + 1602 * phi 5)
      + phi 4 * (2843 * phi 4 - 1642 * phi 5) + phi 5 * 267 * phi 5,
   phi 3 * (2107 * phi 3 - 9402 * phi 4 + 7042 * phi 5 - 1854 * phi 6)
      + phi 4 * (11003 * phi 4 - 17246 * phi 5 + 4642 * phi 6)
      + phi 5 * (7043 * phi 5 - 3882 * phi 6) + phi 6 * 547 * phi 6)

/-- Weights of a seventh-order routine with optimal weights `(g0, g1, g2, g3)`:
the part of `weno7R` and `weno7L` between the assignment of the `g_k` and the
final combination (the two routines differ only in `g_k`). -/
def weno7_weights (g0 g1 g2 g3 : K) (typeRec : Nat) (phi : Nat → K) : K × K × K × K :=
  if typeRec = 0 then
    let b0 := (weno7_beta phi).1
    let b1 := (weno7_beta phi).2.1
    let b2 := (weno7_beta phi).2.2.1
    let b3 := (weno7_beta phi).2.2.2
    let a0 := g0 / ((b0 + epsilon) * (b0 + epsilon))
    let a1 := g1 / ((b1 + epsilon) * (b1 + epsilon))
    let a2 := g2 / ((b2 + epsilon) * (b2 + epsilon))
    let a3 := g3 / ((b3 + epsilon) * (b3 + epsilon))
    let a_sum := a0 + a1 + a2 + a3
    (a0 / a_sum, a1 / a_sum, a2 / a_sum, a3 / a_sum)
  else if typeRec = 1 then
    let b0 := (weno7_beta phi).1
    let b1 := (weno7_beta phi).2.1
    let b2 := (weno7_beta phi).2.2.1
    let b3 := (weno7_beta phi).2.2.2
    let a0 := 1 / (b0 + epsilon2) ^ Q
    let a1 := 1 / (b1 + epsilon2) ^ Q
    let a2 := 1 / (b2 + epsilon2) ^ Q
    let a3 := 1 / (b3 + epsilon2) ^ Q
    let c0 := a0 / (a0 + a1 + a2 + a3)
    let c1 := a1 / (a0 + a1 + a2 + a3)
    let c2 := a2 / (a0 + a1 + a2 + a3)
    let c3 := a3 / (a0 + a1 + a2 + a3)
    let c0 : K := if c0 < CT then 0 else 1
    let c1 : K := if c1 < CT then 0 else 1
    let c2 : K := if c2 < CT then 0 else 1
    let c3 : K := if c3 < CT then 0 else 1
    let a0 := g0 * c0
    let a1 := g1 * c1
    let a2 := g2 * c2
    let a3 := g3 * c3
    (a0 / (a0 + a1 + a2 + a3), a1 / (a0 + a1 + a2 + a3), a2 / (a0 + a1 + a2 + a3),
      a3 / (a0 + a1 + a2 + a3))
  else
    (g0, g1, g2, g3)

/-- Weights `(w0, w1, w2, w3)` computed by `weno7R`. -/
def weno7R_weights (typeRec : Nat) (phi : Nat → K) : K × K × K × K :=
  weno7_weights (4 / 35) (18 / 35) (12 / 35) (1 / 35) typeRec phi

/-- The routine `weno7R`. -/
def weno7R (typeRec : Nat) (phi : Nat → K) : K :=
  let w := weno7R_weights typeRec phi
  w.1 * (1 / 4 * phi 3 + 13 / 12 * phi 2 - 5 / 12 * phi 1 + 1 / 12 * phi 0)
    + w.2.1 * (-(1 / 12) * phi 4 + 7 / 12 * phi 3 + 7 / 12 * phi 2 - 1 / 12 * phi 1)
    + w.2.2.1 * (1 / 12 * phi 5 - 5 / 12 * phi 4 + 13 / 12 * phi 3 + 1 / 4 * phi 2)
    + w.2.2.2 * (-(1 / 4) * phi 6 + 13 / 12 * phi 5 - 23 / 12 * phi 4 + 25 / 12 * phi 3)

/-- Weights `(w0, w1, w2, w3)` computed by `weno7L`. -/
def weno7L_weights (typeRec : Nat) (phi : Nat → K) : K × K × K × K :=
  weno7_weights (1 / 35) (12 / 35) (18 / 35) (4 / 35) typeRec phi

/-- The routine `weno7L`. -/
def weno7L (typeRec : Nat) (phi : Nat → K) : K :=
  let w := weno7L_weights typeRec phi
  w.1 * (-(1 / 4) * phi 0 + 13 / 12 * phi 1 - 23 / 12 * phi 2 + 25 / 12 * phi 3)
    + w.2.1 * (1 / 12 * phi 1 - 5 / 12 * phi 2 + 13 / 12 * phi 3 + 1 / 4 * phi 4)
    + w.2.2.1 * (-(1 / 12) * phi 2 + 7 / 12 * phi 3 + 7 / 12 * phi 4 - 1 / 12 * phi 5)
    + w.2.2.2 * (1 / 4 * phi 3 + 13 / 12 * phi 4 - 5 / 12 * phi 5 + 1 / 12 * phi 6)

/-! ## Data model (`t_node`, `t_wall`, `t_triangle`, `t_cell`, `t_mesh`, `t_sim`)

A pointer into the cell or wall array is the index of the element it points
to: `wall.cellR` is the index of the right cell, `cell.w1` the index of the
first wall.  Integer fields that hold sizes and indices of the arrays are
natural numbers; flags and stencil entries, which the source also sets to
negative values, are integers. -/

/-- The struct `t_node_`. -/
structure Node (K : Type) where
  id : Nat
  x : K
  y : K
  z : K

/-- The struct `t_triangle_`. -/
structure Triangle (K : Type) where
  outside : Int
  nr : Nat → K
  absnr : K
  p1 : Nat → K
  p2 : Nat → K
  p3 : Nat → K
  imin : Nat → Int
  imax : Nat → Int

/-- The struct `t_wall_`. -/
structure Wall (K : Type) where
  id : Nat
  stencil : Int
  UL : Nat → K
  UR : Nat → K
  fR_star : Nat → K
  fL_star : Nat → K
  ULe : Nat → K
  URe : Nat → K
  pRe : K
  pLe : K
  cellR_id : Nat
  cellL_id : Nat
  cellR : Nat
  cellL : Nat
  nx : K
  ny : K
  nz : K
  z : K
  wtype : Int
  boundId : Int
  vel : K

/-! ## Riemann solvers -/

/-- The function `pressure_from_energy`; `ST` is the source flag. -/
def pressure_from_energy (ST : Nat) (gm E u v w rho z : K) : K :=
  if ST = 3 then
    (gm - 1) * (E - 1 / 2 * rho * (u * u + v * v + w * w) - rho * g * z)
  else
    (gm - 1) * (E - 1 / 2 * rho * (u * u + v * v + w * w))

/-- The function `energy_from_pressure`; `ST` is the source flag. -/
def energy_from_pressure (ST : Nat) (gm p u v w rho z : K) : K :=
  if ST = 3 then
    p / (gm - 1) + 1 / 2 * rho * (u * u + v * v + w * w) + rho * g * z
  else
    p / (gm - 1) + 1 / 2 * rho * (u * u + v * v + w * w)

/-- The block "Rotation of array of variables" shared by the Riemann solvers:
the array `W` obtained from a state `U` and the wall normal.  Entry 5 is the
one the solvers assign (and read) only under `MULTICOMPONENT`. -/
def rotation (nx ny nz : K) (U : Nat → K) : Nat → K := fun m =>
  match m with
  | 0 => U 0
  | 1 => U 1 * nx + U 2 * ny + U 3 * nz
  | 2 => -U 1 * ny + U 2 * nx + U 2 * nz
  | 3 => U 3 * nx + U 3 * ny - U 1 * nz
  | 4 => U 4
  | 5 => U 5
  | _ => 0

/-- The block "Inverse rotation of the flux" shared by the Riemann solvers:
components 0..4 are written from `F_star`, the others keep the value `old`
that the flux array held. -/
def inverse_rotation (nx ny nz : K) (F_star old : Nat → K) : Nat → K := fun m =>
  match m with
  | 0 => F_star 0
  | 1 => F_star 1 * nx - F_star 2 * ny - F_star 3 * nz
  | 2 => F_star 1 * ny + F_star 2 * nx + F_star 2 * nz
  | 3 => F_star 3 * nx + F_star 3 * ny + F_star 1 * nz
  | 4 => F_star 4
  | m => old m

/-- The perturbation arrays `WRprime`, `WLprime` of HLLE and HLLC: a copy of
`W`, from which the rotated equilibrium state is subtracted in components
0, 2, 3, 4 when `ST` is 2 or 3. -/
def Wprime (ST : Nat) (W We : Nat → K) : Nat → K := fun m =>
  if ST = 2 ∨ ST = 3 then
    (if m = 0 ∨ m = 2 ∨ m = 3 ∨ m = 4 then W m - We m else W m)
  else W m

/-- The intermediate quantities of the Riemann solvers, named as the local
variables of the source. -/
structure Riemann (K : Type) where
  WR : Nat → K
  WL : Nat → K
  gammaL : K
  gammaR : K
  uL : K
  uR : K
  vL : K
  vR : K
  wL : K
  wR : K
  pL : K
  pR : K
  HL : K
  HR : K
  cL : K
  cR : K
  u_hat : K
  v_hat : K
  w_hat : K
  H_hat : K
  gamma_hat : K
  c_hat : K
  FR : Nat → K
  FL : Nat → K
  S1 : K
  S2 : K
  maxS : K
  diffS : K

/-- The body of `compute_euler_HLLE` from the rotation up to and including the
wave-speed estimates.  `sqrt` is the square root of `math.h`. -/
def HLLE_vars (sqrt : K → K) (ST : Nat) (MULTICOMPONENT : Bool) (MULTI_TYPE : Nat)
    (wall : Wall K) : Riemann K :=
  let WR := rotation wall.nx wall.ny wall.nz wall.UR
  let WL := rotation wall.nx wall.ny wall.nz wall.UL
  let phiL := WL 5 / WL 0
  let phiR := WR 5 / WR 0
  let gammaL : K :=
    if MULTICOMPONENT then (if MULTI_TYPE = 1 then phiL else 1 + 1 / phiL) else gamma
  let gammaR : K :=
    if MULTICOMPONENT then (if MULTI_TYPE = 1 then phiR else 1 + 1 / phiR) else gamma
  let uL := WL 1 / WL 0
  let uR := WR 1 / WR 0
  let vL := WL 2 / WL 0
  let vR := WR 2 / WR 0
  let wL := WL 3 / WL 0
  let wR := WR 3 / WR 0
  let pL := pressure_from_energy ST gammaL (WL 4) uL vL wL (WL 0) wall.z
  let pR := pressure_from_energy ST gammaR (WR 4) uR vR wR (WR 0) wall.z
  let HL := if ST = 3 then (WL 4 - WL 0 * g * wall.z + pL) / WL 0 else (WL 4 + pL) / WL 0
  let HR := if ST = 3 then (WR 4 - WR 0 * g * wall.z + pR) / WR 0 else (WR 4 + pR) / WR 0
  let cL := sqrt (gammaL * pL / WL 0)
  let cR := sqrt (gammaR * pR / WR 0)
  let raizrhoL := sqrt (WL 0)
  let raizrhoR := sqrt (WR 0)
  let sumRaizRho := raizrhoR + raizrhoL
  let u_hat := (uR * raizrhoR + uL * raizrhoL) / sumRaizRho
  let v_hat := (vR * raizrhoR + vL * raizrhoL) / sumRaizRho
  let w_hat := (wR * raizrhoR + wL * raizrhoL) / sumRaizRho
  let H_hat := (HR * raizrhoR + HL * raizrhoL) / sumRaizRho
  let gamma_hat : K :=
    if MULTICOMPONENT then
      (if MULTI_TYPE = 1 then 1 + 1 / ((phiR * raizrhoR + phiL * raizrhoL) / sumRaizRho)
       else (gammaR * raizrhoR + gammaL * raizrhoL) / sumRaizRho)
    else gamma
  let c_hat :=
    sqrt ((gamma_hat - 1) * (H_hat - 1 / 2 * (u_hat * u_hat + v_hat * v_hat + w_hat * w_hat)))
  let pRe := wall.pRe
  let pLe := wall.pLe
  let FR : Nat → K := fun m =>
    match m with
    | 0 => WR 1
    | 1 => if ST = 2 ∨ ST = 3 then WR 1 * uR + (pR - pRe) else WR 1 * uR + pR
    | 2 => WR 1 * vR
    | 3 => WR 1 * wR
    | 4 => uR * (WR 4 + pR)
    | _ => 0
  let FL : Nat → K := fun m =>
    match m with
    | 0 => WL 1
    | 1 => if ST = 2 ∨ ST = 3 then WL 1 * uL + (pL - pLe) else WL 1 * uL + pL
    | 2 => WL 1 * vL
    | 3 => WL 1 * wL
    | 4 => uL * (WL 4 + pL)
    | _ => 0
  let S1 := MIN (uL - cL) (u_hat - c_hat)
  let S2 := MAX (uR + cR) (u_hat + c_hat)
  let maxS := MAX (ABS S1) (ABS S2)
  let diffS := S2 - S1
  { WR := WR, WL := WL, gammaL := gammaL,
    gammaR := gammaR, uL := uL, uR := uR, vL := vL, vR := vR, wL := wL, wR := wR,
    pL := pL, pR := pR, HL := HL, HR := HR, cL := cL, cR := cR, u_hat := u_hat,
    v_hat := v_hat, w_hat := w_hat, H_hat := H_hat, gamma_hat := gamma_hat, c_hat := c_hat,
    FR := FR, FL := FL, S1 := S1, S2 := S2, maxS := maxS, diffS := diffS }

/-- The loop "HLLE flux calculation": the array `F_star` in the rotated frame,
from the solver variables and the perturbation arrays. -/
def HLLE_F_star (r : Riemann K) (WRprime WLprime : Nat → K) : Nat → K := fun m =>
  if r.S1 ≥ 0 then r.FL m
  else if r.S2 ≤ 0 then r.FR m
  else (r.S2 * r.FL m - r.S1 * r.FR m + r.S1 * r.S2 * (WRprime m - WLprime m)) / r.diffS

/-- The function `compute_euler_HLLE`: the wall with its two fluxes written
(components 0..4), and the new value of `*lambda_max`. -/
def compute_euler_HLLE (sqrt : K → K) (ST : Nat) (MULTICOMPONENT : Bool) (MULTI_TYPE : Nat)
    (wall : Wall K) (lambda_max : K) : Wall K × K :=
  let r := HLLE_vars sqrt ST MULTICOMPONENT MULTI_TYPE wall
  let WRe := rotation wall.nx wall.ny wall.nz wall.URe
  let WLe := rotation wall.nx wall.ny wall.nz wall.ULe
  let WRprime := Wprime ST r.WR WRe
  let WLprime := Wprime ST r.WL WLe
  let F_star := HLLE_F_star r WRprime WLprime
  let fR_star := inverse_rotation wall.nx wall.ny wall.nz F_star wall.fR_star
  let fL_star : Nat → K := fun m => if m < 5 then fR_star m else wall.fL_star m
  ({ wall with fR_star := fR_star, fL_star := fL_star }, MAX lambda_max r.maxS)

/-- The body of `compute_euler_HLLC` from the rotation up to and including the
wave-speed estimates (single gamma, pressure and enthalpy without the `ST`
branches of HLLE, equilibrium pressure in the flux only for `ST` 2). -/
def HLLC_vars (sqrt : K → K) (ST : Nat) (wall : Wall K) : Riemann K :=
  let WR := rotation wall.nx wall.ny wall.nz wall.UR
  let WL := rotation wall.nx wall.ny wall.nz wall.UL
  let uL := WL 1 / WL 0
  let uR := WR 1 / WR 0
  let vL := WL 2 / WL 0
  let vR := WR 2 / WR 0
  let wL := WL 3 / WL 0
  let wR := WR 3 / WR 0
  let pL := (gamma - 1) * (WL 4 - 1 / 2 * WL 0 * (uL * uL + vL * vL + wL * wL))
  let pR := (gamma - 1) * (WR 4 - 1 / 2 * WR 0 * (uR * uR + vR * vR + wR * wR))
  let HL := (WL 4 + pL) / WL 0
  let HR := (WR 4 + pR) / WR 0
  let cL := sqrt (gamma * pL / WL 0)
  let cR := sqrt (gamma * pR / WR 0)
  let raizrhoL := sqrt (WL 0)
  let raizrhoR := sqrt (WR 0)
  let sumRaizRho := raizrhoR + raizrhoL
  let u_hat := (uR * raizrhoR + uL * raizrhoL) / sumRaizRho
  let v_hat := (vR * raizrhoR + vL * raizrhoL) / sumRaizRho
  let w_hat := (wR * raizrhoR + wL * raizrhoL) / sumRaizRho
  let H_hat := (HR * raizrhoR + HL * raizrhoL) / sumRaizRho
  let c_hat :=
    sqrt ((gamma - 1) * (H_hat - 1 / 2 * (u_hat * u_hat + v_hat * v_hat + w_hat * w_hat)))
  let pRe := wall.pRe
  let pLe := wall.pLe
  let FR : Nat → K := fun m =>
    match m with
    | 0 => WR 1
    | 1 => if ST = 2 then WR 1 * uR + (pR - pRe) else WR 1 * uR + pR
    | 2 => WR 1 * vR
    | 3 => WR 1 * wR
    | 4 => uR * (WR 4 + pR)
    | _ => 0
  let FL : Nat → K := fun m =>
    match m with
    | 0 => WL 1
    | 1 => if ST = 2 then WL 1 * uL + (pL - pLe) else WL 1 * uL + pL
    | 2 => WL 1 * vL
    | 3 => WL 1 * wL
    | 4 => uL * (WL 4 + pL)
    | _ => 0
  let S1 := MIN (uL - cL) (u_hat - c_hat)
  let S2 := MAX (uR + cR) (u_hat + c_hat)
  let maxS := MAX (ABS S1) (ABS S2)
  let diffS := S2 - S1
  { WR := WR, WL := WL, gammaL := gamma,
    gammaR := gamma, uL := uL, uR := uR, vL := vL, vR := vR, wL := wL, wR := wR,
    pL := pL, pR := pR, HL := HL, HR := HR, cL := cL, cR := cR, u_hat := u_hat,
    v_hat := v_hat, w_hat := w_hat, H_hat := H_hat, gamma_hat := gamma, c_hat := c_hat,
    FR := FR, FL := FL, S1 := S1, S2 := S2, maxS := maxS, diffS := diffS }

/-- The contact speed `S_star` of `compute_euler_HLLC`. -/
def HLLC_S_star (r : Riemann K) : K :=
  (r.pR - r.pL + r.WL 1 * (r.S1 - r.uL) - r.WR 1 * (r.S2 - r.uR))
    / (r.WL 0 * (r.S1 - r.uL) - r.WR 0 * (r.S2 - r.uR))

/-- The star state `W_star` of `compute_euler_HLLC` (only computed, and only
used, when `S1 < 0 < S2`). -/
def HLLC_W_star (r : Riemann K) (WRprime WLprime : Nat → K) : Nat → K :=
  let S_star := HLLC_S_star r
  let uK := if S_star ≤ 0 then r.uR else r.uL
  let vK := if S_star ≤ 0 then r.vR else r.vL
  let wK := if S_star ≤ 0 then r.wR else r.wL
  let rhoK := if S_star ≤ 0 then WRprime 0 else WLprime 0
  let rhoK2 := if S_star ≤ 0 then r.WR 0 else r.WL 0
  let SK := if S_star ≤ 0 then r.S2 else r.S1
  let pK := if S_star ≤ 0 then r.pR else r.pL
  let EK := if S_star ≤ 0 then r.WR 4 else r.WL 4
  let aux := rhoK * (SK - uK) / (SK - S_star)
  fun m =>
    match m with
    | 0 => aux
    | 1 => aux * S_star
    | 2 => aux * vK
    | 3 => aux * wK
    | 4 => aux * (EK / rhoK2 + (S_star - uK) * (S_star + pK / (rhoK2 * (SK - uK))))
    | _ => 0

/-- The block "HLLC flux calculation": the array `F_star` in the rotated
frame. -/
def HLLC_F_star (r : Riemann K) (WRprime WLprime : Nat → K) : Nat → K := fun m =>
  if r.S1 ≥ 0 then r.FL m
  else if r.S2 ≤ 0 then r.FR m
  else if HLLC_S_star r ≤ 0 then
    r.FR m + r.S2 * (HLLC_W_star r WRprime WLprime m - WRprime m)
  else
    r.FL m + r.S1 * (HLLC_W_star r WRprime WLprime m - WLprime m)

/-- The function `compute_euler_HLLC`. -/
def compute_euler_HLLC (sqrt : K → K) (ST : Nat) (wall : Wall K) (lambda_max : K) :
    Wall K × K :=
  let r := HLLC_vars sqrt ST wall
  let WRe := rotation wall.nx wall.ny wall.nz wall.URe
  let WLe := rotation wall.nx wall.ny wall.nz wall.ULe
  let WRprime := Wprime ST r.WR WRe
  let WLprime := Wprime ST r.WL WLe
  let F_star := HLLC_F_star r WRprime WLprime
  let fR_star := inverse_rotation wall.nx wall.ny wall.nz F_star wall.fR_star
  let fL_star : Nat → K := fun m => if m < 5 then fR_star m else wall.fL_star m
  ({ wall with fR_star := fR_star, fL_star := fL_star }, MAX lambda_max r.maxS)

/-- The body of `compute_euler_HLLS` from the rotation up to and including the
wave-speed estimates (`S1`, `S2` are the Roe speeds alone). -/
def HLLS_vars (sqrt : K → K) (MULTICOMPONENT : Bool) (MULTI_TYPE : Nat)
    (wall : Wall K) : Riemann K :=
  let WR := rotation wall.nx wall.ny wall.nz wall.UR
  let WL := rotation wall.nx wall.ny wall.nz wall.UL
  let phiL := WL 5 / WL 0
  let phiR := WR 5 / WR 0
  let gammaL : K :=
    if MULTICOMPONENT then (if MULTI_TYPE = 1 then phiL else 1 + 1 / phiL) else gamma
  let gammaR : K :=
    if MULTICOMPONENT then (if MULTI_TYPE = 1 then phiR else 1 + 1 / phiR) else gamma
  let uL := WL 1 / WL 0
  let uR := WR 1 / WR 0
  let vL := WL 2 / WL 0
  let vR := WR 2 / WR 0
  let wL := WL 3 / WL 0
  let wR := WR 3 / WR 0
  let pL := (gammaL - 1) * (WL 4 - 1 / 2 * WL 0 * (uL * uL + vL * vL + wL * wL))
  let pR := (gammaR - 1) * (WR 4 - 1 / 2 * WR 0 * (uR * uR + vR * vR + wR * wR))
  let HL := (WL 4 + pL) / WL 0
  let HR := (WR 4 + pR) / WR 0
  let cL := sqrt (gammaL * pL / WL 0)
  let cR := sqrt (gammaR * pR / WR 0)
  let raizrhoL := sqrt (WL 0)
  let raizrhoR := sqrt (WR 0)
  let sumRaizRho := raizrhoR + raizrhoL
  let u_hat := (uR * raizrhoR + uL * raizrhoL) / sumRaizRho
  let v_hat := (vR * raizrhoR + vL * raizrhoL) / sumRaizRho
  let w_hat := (wR * raizrhoR + wL * raizrhoL) / sumRaizRho
  let H_hat := (HR * raizrhoR + HL * raizrhoL) / sumRaizRho
  let gamma_hat : K :=
    if MULTICOMPONENT then
      (if MULTI_TYPE = 1 then 1 + 1 / ((phiR * raizrhoR + phiL * raizrhoL) / sumRaizRho)
       else (gammaR * raizrhoR + gammaL * raizrhoL) / sumRaizRho)
    else gamma
  let c_hat :=
    sqrt ((gamma_hat - 1) * (H_hat - 1 / 2 * (u_hat * u_hat + v_hat * v_hat + w_hat * w_hat)))
  let FR : Nat → K := fun m =>
    match m with
    | 0 => WR 1
    | 1 => WR 1 * uR + pR
    | 2 => WR 1 * vR
    | 3 => WR 1 * wR
    | 4 => uR * (WR 4 + pR)
    | _ => 0
  let FL : Nat → K := fun m =>
    match m with
    | 0 => WL 1
    | 1 => WL 1 * uL + pL
    | 2 => WL 1 * vL
    | 3 => WL 1 * wL
    | 4 => uL * (WL 4 + pL)
    | _ => 0
  let S1 := u_hat - c_hat
  let S2 := u_hat + c_hat
  let maxS := MAX (ABS S1) (ABS S2)
  let diffS := S2 - S1
  { WR := WR, WL := WL, gammaL := gammaL,
    gammaR := gammaR, uL := uL, uR := uR, vL := vL, vR := vR, wL := wL, wR := wR,
    pL := pL, pR := pR, HL := HL, HR := HR, cL := cL, cR := cR, u_hat := u_hat,
    v_hat := v_hat, w_hat := w_hat, H_hat := H_hat, gamma_hat := gamma_hat, c_hat := c_hat,
    FR := FR, FL := FL, S1 := S1, S2 := S2, maxS := maxS, diffS := diffS }

/-- The source-integral array `S` of `compute_euler_HLLS` (block "Source
term"). -/
def HLLS_S (wall : Wall K) (r : Riemann K) : Nat → K :=
  let pRe := wall.pRe
  let pLe := wall.pLe
  let rhoRe := wall.URe 0
  let rhoLe := wall.ULe 0
  let S1bar : K :=
    if ABS wall.nz > TOL14 then (r.WR 0 + r.WL 0) * (pRe - pLe) / (rhoRe + rhoLe) else 0
  fun m =>
    match m with
    | 0 => 0
    | 1 => S1bar
    | 2 => 0
    | 3 => 0
    | 4 => S1bar * r.u_hat
    | _ => 0

/-- The array `B` of `compute_euler_HLLS`. -/
def HLLS_B (wall : Wall K) (r : Riemann K) : Nat → K :=
  let pRe := wall.pRe
  let pLe := wall.pLe
  let rhoRe := wall.URe 0
  let rhoLe := wall.ULe 0
  let S := HLLS_S wall r
  let psi := (rhoRe - rhoLe) * r.c_hat * r.c_hat / (pRe - pLe + TOL14)
  let chi := 1 / 2 * (psi - 1) * (r.v_hat * r.v_hat + r.w_hat * r.w_hat)
  fun m =>
    match m with
    | 0 => -psi * S 1 / (r.S1 * r.S2)
    | 1 => 0
    | 2 => -psi * r.v_hat / (r.S1 * r.S2) * S 1
    | 3 => -psi * r.w_hat / (r.S1 * r.S2) * S 1
    | 4 => -(r.H_hat - r.u_hat * r.u_hat + chi) / (r.S1 * r.S2) * S 1
    | _ => 0

/-- First loop "HLLS flux calculation" (comment `fL_star`): the rotated flux
seen by the left cell. -/
def HLLS_F_star_L (wall : Wall K) (r : Riemann K) : Nat → K := fun m =>
  if r.S1 ≥ 0 then r.FL m
  else if r.S2 ≤ 0 then r.FR m - HLLS_S wall r m
  else (r.S2 * r.FL m - r.S1 * r.FR m + r.S1 * r.S2 * (r.WR m - r.WL m)
          + r.S1 * (HLLS_S wall r m - r.S2 * HLLS_B wall r m)) / r.diffS

/-- Second loop (comment `fR_star`): the rotated flux seen by the right cell. -/
def HLLS_F_star_R (wall : Wall K) (r : Riemann K) : Nat → K := fun m =>
  if r.S1 ≥ 0 then r.FL m + HLLS_S wall r m
  else if r.S2 ≤ 0 then r.FR m
  else (r.S2 * r.FL m - r.S1 * r.FR m + r.S1 * r.S2 * (r.WR m - r.WL m)
          + r.S2 * (HLLS_S wall r m - r.S1 * HLLS_B wall r m)) / r.diffS

/-- The function `compute_euler_HLLS` (its argument `sim` is not used). -/
def compute_euler_HLLS (sqrt : K → K) (MULTICOMPONENT : Bool) (MULTI_TYPE : Nat)
    (wall : Wall K) (lambda_max : K) : Wall K × K :=
  let r := HLLS_vars sqrt MULTICOMPONENT MULTI_TYPE wall
  let fL_star := inverse_rotation wall.nx wall.ny wall.nz (HLLS_F_star_L wall r) wall.fL_star
  let fR_star := inverse_rotation wall.nx wall.ny wall.nz (HLLS_F_star_R wall r) wall.fR_star
  ({ wall with fL_star := fL_star, fR_star := fR_star }, MAX lambda_max r.maxS)

/-- The physical Euler flux of a state `U` in the direction `(nx, ny, nz)`:
`(rho*u_n, rho*u_n*velocity + p*normal, u_n*(E+p))` in components 0..4, with
`u_n` the normal velocity and `p = (gamma-1)*(E - rho*|velocity|^2/2)`.
This is the reference the consistency statements compare the solvers with; it
is not a function of the source. -/
def euler_flux (nx ny nz : K) (U : Nat → K) : Nat → K :=
  let u := U 1 / U 0
  let v := U 2 / U 0
  let w := U 3 / U 0
  let un := u * nx + v * ny + w * nz
  let p := (gamma - 1) * (U 4 - 1 / 2 * U 0 * (u * u + v * v + w * w))
  fun m =>
    match m with
    | 0 => U 0 * un
    | 1 => U 0 * un * u + p * nx
    | 2 => U 0 * un * v + p * ny
    | 3 => U 0 * un * w + p * nz
    | 4 => un * (U 4 + p)
    | _ => 0

/-- The struct `t_cell_`.  The field `tri` holds the triangle the pointer
`tri` points to (triangles are not modified after they are read). -/
structure Cell (K : Type) where
  id : Nat
  l : Nat
  m : Nat
  n : Nat
  U : Nat → K
  U_aux : Nat → K
  Ue : Nat → K
  S : Nat → K
  S_corr : Nat → K
  pres : K
  prese : K
  u_int : K
  dx : K
  dy : K
  dz : K
  xc : K
  yc : K
  zc : K
  n1 : Nat
  n2 : Nat
  n3 : Nat
  n4 : Nat
  n5 : Nat
  n6 : Nat
  n7 : Nat
  n8 : Nat
  w1_id : Nat
  w2_id : Nat
  w3_id : Nat
  w4_id : Nat
  w5_id : Nat
  w6_id : Nat
  w1 : Nat
  w2 : Nat
  w3 : Nat
  w4 : Nat
  w5 : Nat
  w6 : Nat
  type : Int
  ghost : Int
  xim : K
  yim : K
  zim : K
  ni : Nat → Nat
  li : Nat → K
  distabs : K
  distsolx : Int
  distsoly : Int
  distsolz : Int
  solid_id : Int
  triangle_id : Int
  out : Int
  tri : Triangle K
  st_sizeX : Int
  st_sizeY : Int
  st_sizeZ : Int
  stX : Nat → Int
  stY : Nat → Int
  stZ : Nat → Int

/-- The struct `t_sim_`. -/
structure Sim (K : Type) where
  dt : K
  t : K
  CFL : K
  tf : K
  tVolc : K
  rk_steps : Int
  order : Int
  nvar : Nat

/-- The struct `t_mesh_` (the back pointer `sim` is passed as an argument
where it is used). -/
structure Mesh (K : Type) where
  xcells : Nat
  ycells : Nat
  zcells : Nat
  dx : K
  dy : K
  dz : K
  Lx : K
  Ly : K
  Lz : K
  u_x : K
  u_y : K
  u_z : K
  ncells : Nat
  nwalls : Nat
  nnodes : Nat
  bc : Nat → Int
  flux_bc_flag : Int
  cell_bc_flag : Int
  periodicX : Int
  periodicY : Int
  periodicZ : Int
  cell : Nat → Cell K
  wall : Nat → Wall K
  node : Nat → Node K
  lambda_max : K
  tke : K
  mass : K
  energy : K

/-- The struct `t_stl_` (without the file name). -/
structure Stl (K : Type) where
  ntri : Int
  nver : Int
  Xmin : Nat → K
  Xmax : Nat → K
  imin : Nat → Int
  imax : Nat → Int
  triangle : Nat → Triangle K

/-- The struct `t_solid_` (without the file names). -/
structure Solids (K : Type) where
  nsolid : Int
  stl : Nat → Stl K

/-- A counted loop `for (i = 0; i < n; i++) body`, acting on the state `s`. -/
def forLoop {σ : Type} : Nat → (Nat → σ → σ) → σ → σ
  | 0, _, s => s
  | n + 1, body, s => body n (forLoop n body s)

/-! ## Boundary fluxes and scalar transport -/

/-- The function `compute_transmissive_euler`: the flux of the inner state
(`FR` for the boundary faces 1, 4, 5, `FL` otherwise), with the pressure of
the body of the function (no `ST` branch). -/
def compute_transmissive_euler (MULTICOMPONENT : Bool) (MULTI_TYPE : Nat)
    (wall : Wall K) (wp : Int) : Wall K :=
  let WR := rotation wall.nx wall.ny wall.nz wall.UR
  let WL := rotation wall.nx wall.ny wall.nz wall.UL
  let phiL := WL 5 / WL 0
  let phiR := WR 5 / WR 0
  let gammaL : K :=
    if MULTICOMPONENT then (if MULTI_TYPE = 1 then phiL else 1 + 1 / phiL) else gamma
  let gammaR : K :=
    if MULTICOMPONENT then (if MULTI_TYPE = 1 then phiR else 1 + 1 / phiR) else gamma
  let uL := WL 1 / WL 0
  let uR := WR 1 / WR 0
  let vL := WL 2 / WL 0
  let vR := WR 2 / WR 0
  let wL := WL 3 / WL 0
  let wR := WR 3 / WR 0
  let pL := (gammaL - 1) * (WL 4 - 1 / 2 * WL 0 * (uL * uL + vL * vL + wL * wL))
  let pR := (gammaR - 1) * (WR 4 - 1 / 2 * WR 0 * (uR * uR + vR * vR + wR * wR))
  let FR : Nat → K := fun m =>
    match m with
    | 0 => WR 1
    | 1 => WR 1 * uR + pR
    | 2 => WR 1 * vR
    | 3 => WR 1 * wR
    | 4 => uR * (WR 4 + pR)
    | _ => 0
  let FL : Nat → K := fun m =>
    match m with
    | 0 => WL 1
    | 1 => WL 1 * uL + pL
    | 2 => WL 1 * vL
    | 3 => WL 1 * wL
    | 4 => uL * (WL 4 + pL)
    | _ => 0
  let F_star : Nat → K := fun m => if wp = 1 ∨ wp = 4 ∨ wp = 5 then FR m else FL m
  let fR_star := inverse_rotation wall.nx wall.ny wall.nz F_star wall.fR_star
  let fL_star : Nat → K := fun m => if m < 5 then fR_star m else wall.fL_star m
  { wall with fR_star := fR_star, fL_star := fL_star }

/-- The mirrored state of `compute_solid_euler_hlle`: a copy of the rotated
inner state with the normal momentum (component 1) negated. -/
def mirror (W : Nat → K) : Nat → K := fun m => if m = 1 then -W m else W m

/-- The body of `compute_solid_euler_hlle` up to the wave-speed estimates.
`wp` is the boundary face; the inner state is `WR` for faces 1, 4, 5 and `WL`
otherwise, and the other state is its mirror image. -/
def solid_vars (sqrt : K → K) (ST : Nat) (wall : Wall K) (wp : Int) : Riemann K :=
  let WR0 := rotation wall.nx wall.ny wall.nz wall.UR
  let WL0 := rotation wall.nx wall.ny wall.nz wall.UL
  let WL : Nat → K := fun m =>
    if wp = 1 ∨ wp = 4 ∨ wp = 5 then (if m < 5 then mirror WR0 m else WL0 m) else WL0 m
  let WR : Nat → K := fun m =>
    if wp = 1 ∨ wp = 4 ∨ wp = 5 then WR0 m else (if m < 5 then mirror WL0 m else WR0 m)
  let pRe := if wp = 1 ∨ wp = 4 ∨ wp = 5 then wall.pRe else wall.pLe
  let pLe := if wp = 1 ∨ wp = 4 ∨ wp = 5 then wall.pRe else wall.pLe
  let uL := WL 1 / WL 0
  let uR := WR 1 / WR 0
  let vL := WL 2 / WL 0
  let vR := WR 2 / WR 0
  let wL := WL 3 / WL 0
  let wR := WR 3 / WR 0
  let pL := pressure_from_energy ST gamma (WL 4) uL vL wL (WL 0) wall.z
  let pR := pressure_from_energy ST gamma (WR 4) uR vR wR (WR 0) wall.z
  let HL := if ST = 3 then (WL 4 - WL 0 * g * wall.z + pL) / WL 0 else (WL 4 + pL) / WL 0
  let HR := if ST = 3 then (WR 4 - WR 0 * g * wall.z + pR) / WR 0 else (WR 4 + pR) / WR 0
  let cL := sqrt (gamma * pL / WL 0)
  let cR := sqrt (gamma * pR / WR 0)
  let raizrhoL := sqrt (WL 0)
  let raizrhoR := sqrt (WR 0)
  let sumRaizRho := raizrhoR + raizrhoL
  let u_hat := (uR * raizrhoR + uL * raizrhoL) / sumRaizRho
  let v_hat := (vR * raizrhoR + vL * raizrhoL) / sumRaizRho
  let w_hat := (wR * raizrhoR + wL * raizrhoL) / sumRaizRho
  let H_hat := (HR * raizrhoR + HL * raizrhoL) / sumRaizRho
  let c_hat :=
    sqrt ((gamma - 1) * (H_hat - 1 / 2 * (u_hat * u_hat + v_hat * v_hat + w_hat * w_hat)))
  let FR : Nat → K := fun m =>
    match m with
    | 0 => WR 1
    | 1 => if ST = 2 ∨ ST = 3 then WR 1 * uR + (pR - pRe) else WR 1 * uR + pR
    | 2 => WR 1 * vR
    | 3 => WR 1 * wR
    | 4 => uR * (WR 4 + pR)
    | _ => 0
  let FL : Nat → K := fun m =>
    match m with
    | 0 => WL 1
    | 1 => if ST = 2 ∨ ST = 3 then WL 1 * uL + (pL - pLe) else WL 1 * uL + pL
    | 2 => WL 1 * vL
    | 3 => WL 1 * wL
    | 4 => uL * (WL 4 + pL)
    | _ => 0
  let S1 := MIN (uL - cL) (u_hat - c_hat)
  let S2 := MAX (uR + cR) (u_hat + c_hat)
  let maxS := MAX (ABS S1) (ABS S2)
  let diffS := S2 - S1
  { WR := WR, WL := WL, gammaL := gamma,
    gammaR := gamma, uL := uL, uR := uR, vL := vL, vR := vR, wL := wL, wR := wR,
    pL := pL, pR := pR, HL := HL, HR := HR, cL := cL, cR := cR, u_hat := u_hat,
    v_hat := v_hat, w_hat := w_hat, H_hat := H_hat, gamma_hat := gamma, c_hat := c_hat,
    FR := FR, FL := FL, S1 := S1, S2 := S2, maxS := maxS, diffS := diffS }

/-- The arrays `WR`, `WL` of `compute_solid_euler_hlle` as they stand when the
HLLE combination reads them: for `ST` 2 or 3 components 0 and 4 have been
replaced by the perturbation (`rhoprime`, `Eprime`) of the inner state, the
same on both sides. -/
def solid_Wprime (ST : Nat) (wall : Wall K) (wp : Int) (r : Riemann K) :
    (Nat → K) × (Nat → K) :=
  let rhoprime := if wp = 1 ∨ wp = 4 ∨ wp = 5 then r.WR 0 - wall.URe 0 else r.WL 0 - wall.ULe 0
  let Eprime := if wp = 1 ∨ wp = 4 ∨ wp = 5 then r.WR 4 - wall.URe 4 else r.WL 4 - wall.ULe 4
  if ST = 2 ∨ ST = 3 then
    (fun m => if m = 0 then rhoprime else if m = 4 then Eprime else r.WR m,
     fun m => if m = 0 then rhoprime else if m = 4 then Eprime else r.WL m)
  else (r.WR, r.WL)

/-- The function `compute_solid_euler_hlle`. -/
def compute_solid_euler_hlle (sqrt : K → K) (ST : Nat) (wall : Wall K) (lambda_max : K)
    (wp : Int) : Wall K × K :=
  let r := solid_vars sqrt ST wall wp
  let Wp := solid_Wprime ST wall wp r
  let F_star := HLLE_F_star r Wp.1 Wp.2
  let fR_star := inverse_rotation wall.nx wall.ny wall.nz F_star wall.fR_star
  let fL_star : Nat → K := fun m => if m < 5 then fR_star m else wall.fL_star m
  ({ wall with fR_star := fR_star, fL_star := fL_star }, MAX lambda_max r.maxS)

/-- The function `compute_transport`. -/
def compute_transport (LINEAR_TRANSPORT : Bool) (wall : Wall K) : Wall K :=
  let f5 : K :=
    if wall.fR_star 0 < TOL14 then wall.fR_star 0 * wall.UR 5 / wall.UR 0
    else wall.fL_star 0 * wall.UL 5 / wall.UL 0
  let fR_star := Function.update wall.fR_star 5 f5
  let fL_star := Function.update wall.fL_star 5 (fR_star 5)
  if LINEAR_TRANSPORT then
    { wall with
      fR_star := fun m => if m = 1 ∨ m = 2 ∨ m = 3 ∨ m = 4 then 0 else fR_star m,
      fL_star := fun m => if m = 1 ∨ m = 2 ∨ m = 3 ∨ m = 4 then 0 else fL_star m }
  else
    { wall with fR_star := fR_star, fL_star := fL_star }

/-! ## Reconstruction at the walls and the flux loop -/

/-- The build flags of the Euler configuration (`EULER` 1; `SW`, `BURGERS`,
`LINEAR` and `ROE` 0, the last three solvers being stubs that abort). -/
structure Flags where
  TYPE_REC : Nat
  ST : Nat
  MULTICOMPONENT : Bool
  MULTI_TYPE : Nat
  LINEAR_TRANSPORT : Bool
  HLLE : Bool
  HLLC : Bool
  HLLS : Bool

/-- The stencil a wall takes from a cell: the y-stencil when `nx < TOL4` and
`nz < TOL4`, else the x-stencil when `nz < TOL4`, else the z-stencil. -/
def wall_stencil (wall : Wall K) (c : Cell K) : Int × (Nat → Int) :=
  if wall.nx < TOL4 ∧ wall.nz < TOL4 then (c.st_sizeY, c.stY)
  else if wall.nz < TOL4 then (c.st_sizeX, c.stX)
  else (c.st_sizeZ, c.stZ)

/-- One reconstruction block (`RIGHT RECONSTRUCTION` or `LEFT RECONSTRUCTION`)
of `compute_fluxes` and `equilibrium_reconstruction`: `w3`, `w5`, `w7` are the
three routines of the side, `field` selects `U` or `Ue`, `own` is the cell the
stencil belongs to and `old` the array that is overwritten. -/
def reconstruct (w3 w5 w7 : (Nat → K) → K) (order : Int) (st : Nat → Int)
    (cell : Nat → Cell K) (field : Cell K → Nat → K) (own : Cell K) (nvar : Nat)
    (old : Nat → K) : Nat → K :=
  if order = 1 then
    forLoop nvar (fun k A => Function.update A k (field own k)) old
  else if order = 3 then
    forLoop nvar (fun k A => Function.update A k
      (w3 (fun i => if i < 3 then field (cell (st i).toNat) k else 0))) old
  else if order = 5 then
    forLoop nvar (fun k A => Function.update A k
      (w5 (fun i => if i < 5 then field (cell (st i).toNat) k else 0))) old
  else if order = 7 then
    forLoop nvar (fun k A => Function.update A k
      (w7 (fun i => if i < 7 then field (cell (st i).toNat) k else 0))) old
  else old

/-- The blocks `RIGHT RECONSTRUCTION` and `LEFT RECONSTRUCTION` of the wall
loop of `compute_fluxes`: the wall with `UR` and `UL` reconstructed from the
states `U` of the cells. -/
def compute_fluxes_reconstruct (fl : Flags) (mesh : Mesh K) (sim : Sim K) (wall : Wall K) :
    Wall K :=
  let stR := wall_stencil wall (mesh.cell wall.cellR)
  let UR := reconstruct (weno3R fl.TYPE_REC) (weno5R fl.TYPE_REC) (weno7R fl.TYPE_REC)
    stR.1 stR.2 mesh.cell Cell.U (mesh.cell wall.cellR) sim.nvar wall.UR
  let stL := wall_stencil wall (mesh.cell wall.cellL)
  let UL := reconstruct (weno3L fl.TYPE_REC) (weno5L fl.TYPE_REC) (weno7L fl.TYPE_REC)
    stL.1 stL.2 mesh.cell Cell.U (mesh.cell wall.cellL) sim.nvar wall.UL
  { wall with UR := UR, UL := UL }

/-- The body of the wall loop of `compute_fluxes` for one wall; `none` is the
`exit(1)` taken when a boundary wall has `boundId` 999. -/
def compute_fluxes_wall (sqrt : K → K) (fl : Flags) (mesh : Mesh K) (sim : Sim K)
    (wall : Wall K) (lambdaMax : K) : Option (Wall K × K) :=
  if wall.wtype ≠ 0 then
    let wall := compute_fluxes_reconstruct fl mesh sim wall
    let r : Option (Wall K × K) :=
      if wall.wtype = 1 then
        if fl.LINEAR_TRANSPORT then some (wall, lambdaMax)
        else
          let a :=
            if fl.HLLE then
              compute_euler_HLLE sqrt fl.ST fl.MULTICOMPONENT fl.MULTI_TYPE wall lambdaMax
            else (wall, lambdaMax)
          let b := if fl.HLLC then compute_euler_HLLC sqrt fl.ST a.1 a.2 else a
          let c :=
            if fl.HLLS then compute_euler_HLLS sqrt fl.MULTICOMPONENT fl.MULTI_TYPE b.1 b.2
            else b
          some c
      else if wall.wtype = 3 then
        if wall.boundId = 999 then none
        else some (compute_transmissive_euler fl.MULTICOMPONENT fl.MULTI_TYPE wall wall.boundId,
          lambdaMax)
      else if wall.wtype = 4 then
        if wall.boundId = 999 then none
        else some (compute_solid_euler_hlle sqrt fl.ST wall lambdaMax wall.boundId)
      else some (wall, lambdaMax)
    r.map (fun q => (compute_transport fl.LINEAR_TRANSPORT q.1, q.2))
  else some (wall, lambdaMax)

/-- The function `compute_fluxes`: the wall loop, run in index order, with
the reduction variable `lambdaMax` started at 0 and stored in the mesh. -/
def compute_fluxes (sqrt : K → K) (fl : Flags) (mesh : Mesh K) (sim : Sim K) :
    Option (Mesh K) :=
  let r := forLoop mesh.nwalls
    (fun n (st : Option ((Nat → Wall K) × K)) =>
      st.bind (fun s =>
        (compute_fluxes_wall sqrt fl mesh sim (s.1 n) s.2).map
          (fun q => (Function.update s.1 n q.1, q.2))))
    (some (mesh.wall, 0))
  r.map (fun s => { mesh with wall := s.1, lambda_max := s.2 })

/-- The body of the wall loop of `equilibrium_reconstruction` for one wall. -/
def equilibrium_reconstruction_wall (fl : Flags) (mesh : Mesh K) (sim : Sim K)
    (wall : Wall K) : Wall K :=
  if wall.wtype ≠ 0 then
    let stR := wall_stencil wall (mesh.cell wall.cellR)
    let URe := reconstruct (weno3R fl.TYPE_REC) (weno5R fl.TYPE_REC) (weno7R fl.TYPE_REC)
      stR.1 stR.2 mesh.cell Cell.Ue (mesh.cell wall.cellR) sim.nvar wall.URe
    let stL := wall_stencil wall (mesh.cell wall.cellL)
    let ULe := reconstruct (weno3L fl.TYPE_REC) (weno5L fl.TYPE_REC) (weno7L fl.TYPE_REC)
      stL.1 stL.2 mesh.cell Cell.Ue (mesh.cell wall.cellL) sim.nvar wall.ULe
    let uL := ULe 1 / ULe 0
    let uR := URe 1 / URe 0
    let vL := ULe 2 / ULe 0
    let vR := URe 2 / URe 0
    let wL := ULe 3 / ULe 0
    let wR := URe 3 / URe 0
    { wall with
      URe := URe, ULe := ULe,
      pLe := pressure_from_energy fl.ST gamma (ULe 4) uL vL wL (ULe 0) wall.z,
      pRe := pressure_from_energy fl.ST gamma (URe 4) uR vR wR (URe 0) wall.z }
  else wall

/-- The function `equilibrium_reconstruction`: the wall loop, then the cell
loop that sets `S_corr[3]`. -/
def equilibrium_reconstruction (fl : Flags) (mesh : Mesh K) (sim : Sim K) : Mesh K :=
  let wall := forLoop mesh.nwalls
    (fun n w => Function.update w n (equilibrium_reconstruction_wall fl mesh sim (w n)))
    mesh.wall
  let cell := forLoop mesh.ncells
    (fun i c =>
      if (c i).type ≠ 0 then
        Function.update c i { c i with
          S_corr := Function.update (c i).S_corr 3
            (((wall (c i).w6).pLe - (wall (c i).w5).pRe) / (c i).dz + g * (c i).Ue 0) }
      else c)
    mesh.cell
  { mesh with wall := wall, cell := cell }

/-- The function `compute_source`; `ST` is the source flag (the call is
compiled only when `ST` is not 0). -/
def compute_source (ST : Nat) (mesh : Mesh K) : Mesh K :=
  { mesh with cell := (forLoop mesh.ncells
      (fun i c =>
        if ST = 1 then
          if (c i).type ≠ 0 ∧ (c i).st_sizeZ > 1 then
            Function.update c i { c i with
              S := Function.update
                (Function.update (c i).S 3 (-g * (c i).U 0 + (c i).S_corr 3))
                4 (-g * (c i).U 3) }
          else c
        else if ST = 2 then
          if (c i).type ≠ 0 then
            Function.update c i { c i with
              S := Function.update
                (Function.update (c i).S 3 (-g * ((c i).U 0 - (c i).Ue 0)))
                4 (-g * (c i).U 3) }
          else c
        else
          if (c i).type ≠ 0 then
            Function.update c i { c i with
              S := Function.update
                (Function.update (c i).S 3 (-g * ((c i).U 0 - (c i).Ue 0)))
                4 0 }
          else c)
      mesh.cell) }

/-! ## Integrator -/

/-- The bracket of the update routines: the flux difference of component `k`
across the cell `c`, read through its wall pointers. -/
def flux_divergence (wall : Nat → Wall K) (c : Cell K) (k : Nat) : K :=
  ((wall c.w2).fL_star k - (wall c.w4).fR_star k) / c.dx
    + ((wall c.w3).fL_star k - (wall c.w1).fR_star k) / c.dy
    + ((wall c.w6).fL_star k - (wall c.w5).fR_star k) / c.dz

/-- The function `update_cell` (first order).  The messages it prints when the
new density is below `TOL14` do not change the mesh; they are the list
`update_cell_printed`. -/
def update_cell (mesh : Mesh K) (sim : Sim K) : Mesh K :=
  { mesh with cell := (forLoop mesh.ncells
      (fun i cell =>
        if (cell i).type ≠ 0 ∧ (cell i).ghost ≠ 1 then
          Function.update cell i { cell i with
            U := forLoop sim.nvar
              (fun k U => Function.update U k
                (U k - sim.dt * (flux_divergence mesh.wall (cell i) k)))
              (cell i).U }
        else cell)
      mesh.cell) }

/-- The cell indices printed by `update_cell` (`printf("celda %d: rHO ...")`),
in the order of printing: the loop of `update_cell` with the list of printed
indices carried along.  After each message the program waits for a key
(`getchar`) and goes on with the next cell. -/
def update_cell_printed (mesh : Mesh K) (sim : Sim K) : List Nat :=
  (forLoop mesh.ncells
    (fun i (s : (Nat → Cell K) × List Nat) =>
      if (s.1 i).type ≠ 0 ∧ (s.1 i).ghost ≠ 1 then
        let U := forLoop sim.nvar
          (fun k U => Function.update U k
            (U k - sim.dt * (flux_divergence mesh.wall (s.1 i) k)))
          (s.1 i).U
        (Function.update s.1 i { (s.1 i) with U := U },
          if U 0 < TOL14 then s.2 ++ [i] else s.2)
      else s)
    (mesh.cell, [])).2

/-- The function `update_cellK1` (first stage of SSP-RK3). -/
def update_cellK1 (mesh : Mesh K) (sim : Sim K) : Mesh K :=
  { mesh with cell := (forLoop mesh.ncells
      (fun i cell =>
        if (cell i).type ≠ 0 ∧ (cell i).ghost ≠ 1 then
          let UA := forLoop sim.nvar
            (fun k (s : (Nat → K) × (Nat → K)) =>
              let U_aux := Function.update s.2 k (s.1 k)
              (Function.update s.1 k
                (s.1 k - sim.dt * (flux_divergence mesh.wall (cell i) k - (cell i).S k)),
               U_aux))
            ((cell i).U, (cell i).U_aux)
          Function.update cell i { cell i with U := UA.1, U_aux := UA.2 }
        else cell)
      mesh.cell) }

/-- The function `update_cellK2` (second stage of SSP-RK3). -/
def update_cellK2 (mesh : Mesh K) (sim : Sim K) : Mesh K :=
  { mesh with cell := (forLoop mesh.ncells
      (fun i cell =>
        if (cell i).type ≠ 0 ∧ (cell i).ghost ≠ 1 then
          Function.update cell i { cell i with
            U := forLoop sim.nvar
              (fun k U => Function.update U k
                (3 / 4 * (cell i).U_aux k + 1 / 4 * U k
                  - 1 / 4 * sim.dt * (flux_divergence mesh.wall (cell i) k - (cell i).S k)))
              (cell i).U }
        else cell)
      mesh.cell) }

/-- The function `update_cellK3` (third stage of SSP-RK3). -/
def update_cellK3 (mesh : Mesh K) (sim : Sim K) : Mesh K :=
  { mesh with cell := (forLoop mesh.ncells
      (fun i cell =>
        if (cell i).type ≠ 0 ∧ (cell i).ghost ≠ 1 then
          Function.update cell i { cell i with
            U := forLoop sim.nvar
              (fun k U => Function.update U k
                (1 / 3 * (cell i).U_aux k + 2 / 3 * U k
                  - 2 / 3 * sim.dt * (flux_divergence mesh.wall (cell i) k - (cell i).S k)))
              (cell i).U }
        else cell)
      mesh.cell) }

/-- The function `mass_calculation`. -/
def mass_calculation (mesh : Mesh K) : Mesh K :=
  let area := mesh.dx * mesh.dy * mesh.dz
  { mesh with mass := (forLoop mesh.ncells
      (fun i massAux =>
        if (mesh.cell i).type ≠ 0 then massAux + (mesh.cell i).U 0 * area else massAux)
      0) }

/-- What `main` does from its call of `equilibrium_reconstruction` to the end
of the first Runge-Kutta stage of the first time step when the source is on:
`equilibrium_reconstruction`, then `compute_fluxes`, `compute_source` and
`update_cellK1`.  The time step is `sim.dt` as given (`update_dt`, which only
sets it, is left out); `none` is the `exit(1)` of `compute_fluxes`. -/
def first_stage (sqrt : K → K) (fl : Flags) (mesh : Mesh K) (sim : Sim K) : Option (Mesh K) :=
  (compute_fluxes sqrt fl (equilibrium_reconstruction fl mesh sim) sim).map
    (fun m => update_cellK1 (compute_source fl.ST m) sim)

/-- The mass flux `fL_star[0]` that `compute_fluxes` with `compute_euler_HLLS`
writes on wall `j` of the mesh returned by `equilibrium_reconstruction` (the
normal components of the rotation leave component 0 as it is). -/
def HLLS_mass_flux (sqrt : K → K) (fl : Flags) (mesh : Mesh K) (sim : Sim K) (j : Nat) : K :=
  HLLS_F_star_L
    (compute_fluxes_reconstruct fl (equilibrium_reconstruction fl mesh sim) sim
      ((equilibrium_reconstruction fl mesh sim).wall j))
    (HLLS_vars sqrt false fl.MULTI_TYPE
      (compute_fluxes_reconstruct fl (equilibrium_reconstruction fl mesh sim) sim
        ((equilibrium_reconstruction fl mesh sim).wall j))) 0

/-- The wall `j` as the first stage hands it to the Riemann solver: the wall
of the mesh returned by `equilibrium_reconstruction`, after the reconstruction
blocks of `compute_fluxes` have set `UL` and `UR`. -/
def first_stage_wall (fl : Flags) (mesh : Mesh K) (sim : Sim K) (j : Nat) : Wall K :=
  compute_fluxes_reconstruct fl (equilibrium_reconstruction fl mesh sim) sim
    ((equilibrium_reconstruction fl mesh sim).wall j)

/-! ## Ghost cells -/

/-- The array `auxval` of `update_ghost_cells` for the ghost cell `n`: the
conserved variables interpolated at its image point from the eight
neighbours `ni[q]` with the weights `li[q]`, read from the cell array as it
stands when the cell is reached. -/
def ghost_auxval (sim : Sim K) (cell : Nat → Cell K) (n : Nat) : Nat → K :=
  forLoop sim.nvar
    (fun k a => Function.update a k
      (forLoop 8 (fun q acc => acc + (cell n).li q * (cell ((cell n).ni q)).U k) 0))
    (fun _ => 0)

/-- One iteration of the cell loop of `update_ghost_cells`. -/
def ghost_step (sim : Sim K) (n : Nat) (cell : Nat → Cell K) : Nat → Cell K :=
  if (cell n).ghost = 1 then
    let triangle := (cell n).tri
    let auxval := ghost_auxval sim cell n
    let dotprod := triangle.nr 0 * auxval 1 + triangle.nr 1 * auxval 2
      + triangle.nr 2 * auxval 3
    Function.update cell n { cell n with
      U := (forLoop sim.nvar
        (fun k U => Function.update U k
          (if k = 1 ∨ k = 2 ∨ k = 3 then auxval k - 2 * dotprod * triangle.nr (k - 1)
           else auxval k))
        (cell n).U) }
  else cell

/-- The function `update_ghost_cells`. -/
def update_ghost_cells (sim : Sim K) (mesh : Mesh K) (solids : Solids K) : Mesh K :=
  if solids.nsolid > 0 then
    { mesh with cell := (forLoop mesh.ncells (ghost_step sim) mesh.cell) }
  else mesh

/-- The operator `L = -divF + S` of the Runge-Kutta stages for component `k`
of a cell, from the wall fluxes and the source held by the mesh (reference
notion of the integrator statements). -/
def L_op (wall : Nat → Wall K) (c : Cell K) (k : Nat) : K :=
  -(flux_divergence wall c k) + c.S k

/-! ## Mesh construction (`create_mesh`) -/

/-- A write to one wall of the wall array: `wall[j] = f(wall[j])`. -/
def wset (w : Nat → Wall K) (j : Nat) (f : Wall K → Wall K) : Nat → Wall K :=
  Function.update w j (f (w j))

/-- The first cell loop of `create_mesh` (initial values). -/
def create_mesh_cells_init (mesh : Mesh K) : Nat → Cell K :=
  forLoop mesh.zcells (fun n c =>
    forLoop mesh.ycells (fun m c =>
      forLoop mesh.xcells (fun l c =>
        Function.update c (mesh.xcells * m + l + n * mesh.xcells * mesh.ycells)
          { c (mesh.xcells * m + l + n * mesh.xcells * mesh.ycells) with
            id := 999, l := l, m := m, n := n,
            w1_id := 999, w2_id := 999, w3_id := 999, w4_id := 999, w5_id := 999, w6_id := 999,
            dx := mesh.dx, dy := mesh.dy, dz := mesh.dz, xc := 999, yc := 999, zc := 999,
            xim := 999, yim := 999, zim := 999, distabs := 9999999999999,
            distsolx := 9999999, distsoly := 9999999, distsolz := 9999999, out := 0,
            n1 := 999, n2 := 999, n3 := 999, n4 := 999, n5 := 999, n6 := 999, n7 := 999,
            n8 := 999 }) c) c) mesh.cell

/-- The body of the loop "Walls and nodes of the cells" of `create_mesh` for the
cell `(l, m, n)`: the cell `k` with its wall and node identifiers, wall
pointers, sizes and centre.  `nwalls` is the number of walls. -/
def create_mesh_cell (mesh : Mesh K) (nwalls l m n : Nat) (c : Cell K) : Cell K :=
  let xcells := mesh.xcells
  let ycells := mesh.ycells
  let zcells := mesh.zcells
  let k := l + m * xcells + n * xcells * ycells
  let k2d := l + m * xcells
  let w1_id := 3 * k2d + m + n * (3 * xcells * ycells + xcells + ycells)
  let w4_id := w1_id + 1
  let w5_id := w1_id + 2
  let w2_id := if l = xcells - 1 then w1_id + 4 - 1 else w1_id + 4
  let w3_id :=
    if m = ycells - 1 then (3 * xcells * ycells + xcells + ycells) * (n + 1) - xcells + l
    else w1_id + xcells * 3 + 1
  let w6_id :=
    if n = zcells - 1 then nwalls - xcells * ycells + l + m * xcells
    else w5_id + (3 * xcells * ycells + xcells + ycells)
  let n1 := k2d + m + n * (xcells + 1) * (ycells + 1)
  let n2 := n1 + 1
  let n3 := n2 + xcells + 1
  let n4 := n2 + xcells
  let n5 := n1 + (xcells + 1) * (ycells + 1)
  let n6 := n5 + 1
  let n7 := n6 + xcells + 1
  let n8 := n6 + xcells
  { c with
    id := k, l := l, m := m,
    w1_id := w1_id, w4_id := w4_id, w5_id := w5_id, w2_id := w2_id, w3_id := w3_id,
    w6_id := w6_id,
    w1 := w1_id, w2 := w2_id, w3 := w3_id, w4 := w4_id, w5 := w5_id, w6 := w6_id,
    dx := mesh.dx, dy := mesh.dy, dz := mesh.dz,
    xc := ((l : K) + 1 / 2) * mesh.dx, yc := ((m : K) + 1 / 2) * mesh.dy,
    zc := ((n : K) + 1 / 2) * mesh.dz,
    n1 := n1, n2 := n2, n3 := n3, n4 := n4, n5 := n5, n6 := n6, n7 := n7, n8 := n8 }

/-- A sequence of assignments to fields of walls, each given by the index of
the wall and the change made to it, carried out in order. -/
def apply_writes (ws : List (Nat × (Wall K → Wall K))) (w : Nat → Wall K) : Nat → Wall K :=
  ws.foldl (fun w p => wset w p.1 p.2) w

/-- The body of the loop "normal vectors of the walls" of `create_mesh` for the
cell `c`: eighteen assignments, in the order of the source. -/
def create_mesh_normals_writes (c : Cell K) : List (Nat × (Wall K → Wall K)) :=
  [ (c.w1_id, fun x => { x with nx := 0 }),
    (c.w4_id, fun x => { x with nx := 1 }),
    (c.w1_id, fun x => { x with ny := 1 }),
    (c.w4_id, fun x => { x with ny := 0 }),
    (c.w1_id, fun x => { x with nz := 0 }),
    (c.w4_id, fun x => { x with nz := 0 }),
    (c.w3_id, fun x => { x with nx := 0 }),
    (c.w2_id, fun x => { x with nx := 1 }),
    (c.w3_id, fun x => { x with ny := 1 }),
    (c.w2_id, fun x => { x with ny := 0 }),
    (c.w3_id, fun x => { x with nz := 0 }),
    (c.w2_id, fun x => { x with nz := 0 }),
    (c.w5_id, fun x => { x with nx := 0 }),
    (c.w6_id, fun x => { x with nx := 0 }),
    (c.w5_id, fun x => { x with ny := 0 }),
    (c.w6_id, fun x => { x with ny := 0 }),
    (c.w5_id, fun x => { x with nz := 1 }),
    (c.w6_id, fun x => { x with nz := 1 }) ]

/-- The body of the loop "Assigment of wall's neighbour cells" of `create_mesh`
for the cell `(l, m, n)`, as the sequence of its assignments; `cell` is the
cell array (read only).  A pointer assignment `cellR = &(cell[i])` stores the
index `i`. -/
def create_mesh_neighbours_writes (mesh : Mesh K) (cell : Nat → Cell K) (l m n : Nat) :
    List (Nat × (Wall K → Wall K)) :=
  let xcells := mesh.xcells
  let ycells := mesh.ycells
  let zcells := mesh.zcells
  let k := l + m * xcells + n * xcells * ycells
  [ ((cell k).w1, fun x => { x with cellR_id := (cell k).id }),
    ((cell k).w4, fun x => { x with cellR_id := (cell k).id }),
    ((cell k).w5, fun x => { x with cellR_id := (cell k).id }),
    ((cell k).w2, fun x => { x with cellL_id := (cell k).id }),
    ((cell k).w3, fun x => { x with cellL_id := (cell k).id }),
    ((cell k).w6, fun x => { x with cellL_id := (cell k).id }),
    ((cell k).w1, fun x => { x with cellR := k }),
    ((cell k).w4, fun x => { x with cellR := k }),
    ((cell k).w5, fun x => { x with cellR := k }),
    ((cell k).w2, fun x => { x with cellL := k }),
    ((cell k).w3, fun x => { x with cellL := k }),
    ((cell k).w6, fun x => { x with cellL := k }) ]
  ++ (if m = 0 then
        [ ((cell k).w1, fun x => { x with cellL_id := (cell (k + (ycells - 1) * xcells)).id }),
          ((cell k).w1, fun x => { x with cellL := k + (ycells - 1) * xcells }) ]
      else [])
  ++ (if m = ycells - 1 then
        [ ((cell k).w3, fun x => { x with cellR_id := (cell (k - m * xcells)).id }),
          ((cell k).w3, fun x => { x with cellR := k - m * xcells }) ]
      else [])
  ++ (if l = 0 then
        [ ((cell k).w4, fun x => { x with cellL_id := (cell (k + (xcells - 1))).id }),
          ((cell k).w4, fun x => { x with cellL := k + (xcells - 1) }) ]
      else [])
  ++ (if l = xcells - 1 then
        [ ((cell k).w2, fun x => { x with cellR_id := (cell (k - (xcells - 1))).id }),
          ((cell k).w2, fun x => { x with cellR := k - (xcells - 1) }) ]
      else [])
  ++ (if n = 0 then
        [ ((cell k).w5,
            fun x => { x with cellL_id := (cell (k + (zcells - 1) * xcells * ycells)).id }),
          ((cell k).w5, fun x => { x with cellL := k + (zcells - 1) * xcells * ycells }) ]
      else [])
  ++ (if n = zcells - 1 then
        [ ((cell k).w6,
            fun x => { x with cellR_id := (cell (k - (zcells - 1) * xcells * ycells)).id }),
          ((cell k).w6, fun x => { x with cellR := k - (zcells - 1) * xcells * ycells }) ]
      else [])

/-- The body of the last loop of `create_mesh` for the cell `c`: the height
`z` of its six walls. -/
def create_mesh_heights_writes (c : Cell K) : List (Nat × (Wall K → Wall K)) :=
  [ (c.w1, fun x => { x with z := c.zc }),
    (c.w4, fun x => { x with z := c.zc }),
    (c.w2, fun x => { x with z := c.zc }),
    (c.w3, fun x => { x with z := c.zc }),
    (c.w5, fun x => { x with z := c.zc - 1 / 2 * c.dz }),
    (c.w6, fun x => { x with z := c.zc + 1 / 2 * c.dz }) ]

/-- The number of walls that `create_mesh` computes. -/
def create_mesh_nwalls (mesh : Mesh K) : Nat :=
  3 * (mesh.xcells * mesh.ycells * mesh.zcells) + mesh.xcells * mesh.zcells
    + mesh.ycells * mesh.zcells + mesh.xcells * mesh.ycells

/-- The loop "Walls and nodes of the cells" of `create_mesh`, run on the
initialised cells. -/
def create_mesh_cells (mesh : Mesh K) : Nat → Cell K :=
  forLoop mesh.zcells (fun n c =>
    forLoop mesh.ycells (fun m c =>
      forLoop mesh.xcells (fun l c =>
        Function.update c (l + m * mesh.xcells + n * mesh.xcells * mesh.ycells)
          (create_mesh_cell mesh (create_mesh_nwalls mesh) l m n
            (c (l + m * mesh.xcells + n * mesh.xcells * mesh.ycells))))
        c) c) (create_mesh_cells_init mesh)

/-- The loop "normal vectors of the walls" of `create_mesh`. -/
def create_mesh_normals (mesh : Mesh K) (wall : Nat → Wall K) : Nat → Wall K :=
  forLoop (mesh.xcells * mesh.ycells * mesh.zcells)
    (fun k w => apply_writes (create_mesh_normals_writes (create_mesh_cells mesh k)) w) wall

/-- The loop "Assigment of wall's neighbour cells" of `create_mesh`. -/
def create_mesh_neighbours (mesh : Mesh K) (wall : Nat → Wall K) : Nat → Wall K :=
  forLoop mesh.zcells (fun n w =>
    forLoop mesh.ycells (fun m w =>
      forLoop mesh.xcells (fun l w =>
        apply_writes (create_mesh_neighbours_writes mesh (create_mesh_cells mesh) l m n) w)
        w) w) wall

/-- The loop of `create_mesh` that clears the source arrays `S` and `S_corr`
of every cell. -/
def create_mesh_sources (mesh : Mesh K) (sim : Sim K) : Nat → Cell K :=
  forLoop (mesh.xcells * mesh.ycells * mesh.zcells) (fun n c =>
    Function.update c n
      (forLoop sim.nvar (fun k (x : Cell K) =>
        { x with S := Function.update x.S k 0, S_corr := Function.update x.S_corr k 0 })
        (c n))) (create_mesh_cells mesh)

/-- The last loop of `create_mesh`: the heights of the walls. -/
def create_mesh_heights (mesh : Mesh K) (sim : Sim K) (wall : Nat → Wall K) : Nat → Wall K :=
  forLoop (mesh.xcells * mesh.ycells * mesh.zcells)
    (fun n w => apply_writes (create_mesh_heights_writes (create_mesh_sources mesh sim n)) w) wall

/-- The function `create_mesh`.  The arrays it allocates start with the
contents of the argument (arbitrary); sizes, spacings and boundary codes are
read from the argument, as `main` has set them. -/
def create_mesh (mesh : Mesh K) (sim : Sim K) : Mesh K :=
  let xcells := mesh.xcells
  let ycells := mesh.ycells
  let zcells := mesh.zcells
  let ncells := xcells * ycells * zcells
  let nwalls := create_mesh_nwalls mesh
  let wall1 := forLoop nwalls (fun k w => wset w k (fun x => { x with id := k })) mesh.wall
  let wall2 := create_mesh_normals mesh wall1
  let nnodes := (xcells + 1) * (ycells + 1) * (zcells + 1)
  let node :=
    forLoop (zcells + 1) (fun n nd =>
      forLoop (ycells + 1) (fun m nd =>
        forLoop (xcells + 1) (fun l nd =>
          Function.update nd ((xcells + 1) * (ycells + 1) * n + (xcells + 1) * m + l)
            { id := (xcells + 1) * (ycells + 1) * n + (xcells + 1) * m + l,
              x := (l : K) * mesh.dx, y := (m : K) * mesh.dy, z := (n : K) * mesh.dz })
          nd) nd) mesh.node
  let cell_bc_flag : Int :=
    if mesh.bc 0 = 99 ∧ mesh.bc 1 = 99 ∧ mesh.bc 2 = 99 ∧ mesh.bc 3 = 99 then 1 else 0
  let flux_bc_flag : Int :=
    if mesh.bc 0 ≠ 1 ∨ mesh.bc 1 ≠ 1 ∨ mesh.bc 2 ≠ 1 ∨ mesh.bc 3 ≠ 1 ∨ mesh.bc 4 ≠ 1
        ∨ mesh.bc 5 ≠ 1 then 1 else 0
  let periodicX : Int := if mesh.bc 1 = 1 ∧ mesh.bc 3 = 1 then 1 else 0
  let periodicY : Int := if mesh.bc 0 = 1 ∧ mesh.bc 2 = 1 then 1 else 0
  let periodicZ : Int := if mesh.bc 4 = 1 ∧ mesh.bc 5 = 1 then 1 else 0
  let wall3 := create_mesh_neighbours mesh wall2
  let cell3 := create_mesh_sources mesh sim
  let wall4 := create_mesh_heights mesh sim wall3
  { mesh with
    tke := 0, ncells := ncells, nwalls := nwalls, nnodes := nnodes, cell := cell3,
    wall := wall4, node := node, cell_bc_flag := cell_bc_flag, flux_bc_flag := flux_bc_flag,
    periodicX := periodicX, periodicY := periodicY, periodicZ := periodicZ }

/-! ## Time step, stencils and set-up checks -/

/-- The function `update_dt`: the simulation parameters with the new time
step.  The quotient `CFL*dl/lambda_max` is a quotient of doubles: when
`lambda_max` is zero it is `+inf` for a positive numerator, which exceeds every
`tf - t`, so that the step is clipped; for a numerator that is zero or
negative it is `NaN` or `-inf`, the comparison is false and `dt` is left with
that value, which is no number: the result is then `none`. -/
def update_dt (mesh : Mesh K) (sim : Sim K) : Option (Sim K) :=
  let dl := MIN mesh.dx mesh.dy
  let dl := MIN dl mesh.dz
  if mesh.lambda_max = 0 then
    if sim.CFL * dl > 0 then some { sim with dt := sim.tf - sim.t + TOL14 } else none
  else
    let dt := sim.CFL * dl / mesh.lambda_max
    if dt + sim.t > sim.tf then some { sim with dt := sim.tf - sim.t + TOL14 }
    else some { sim with dt := dt }

/-- The macro `MIN` applied to `int` operands. -/
def MIN_int (x y : Int) : Int := if x < y then x else y

/-- The block `if(mesh->periodicX==0)` of the loop nest "special cases at
boundary cells" of `update_stencils` for a cell with x-index `l`; `semiSt` is
`(order-1)*0.5` converted to `int`. -/
def update_stencils_sizeX (mesh : Mesh K) (semiSt : Int) (l : Nat) (c : Cell K) : Cell K :=
  if mesh.periodicX = 0 then
    let c :=
      if (l : Int) < semiSt then
        { c with st_sizeX := MIN_int c.st_sizeX (2 * (l : Int) + 1) }
      else if (mesh.xcells : Int) - ((l : Int) + 1) < semiSt then
        { c with st_sizeX := MIN_int c.st_sizeX (2 * ((mesh.xcells : Int) - ((l : Int) + 1)) + 1) }
      else c
    { c with st_sizeX := MIN_int c.st_sizeX (2 * c.distsolx - 1) }
  else c

/-- The block `if(mesh->periodicY==0)` of the same loop nest. -/
def update_stencils_sizeY (mesh : Mesh K) (semiSt : Int) (m : Nat) (c : Cell K) : Cell K :=
  if mesh.periodicY = 0 then
    let c :=
      if (m : Int) < semiSt then
        { c with st_sizeY := MIN_int c.st_sizeY (2 * (m : Int) + 1) }
      else if (mesh.ycells : Int) - ((m : Int) + 1) < semiSt then
        { c with st_sizeY := MIN_int c.st_sizeY (2 * ((mesh.ycells : Int) - ((m : Int) + 1)) + 1) }
      else c
    { c with st_sizeY := MIN_int c.st_sizeY (2 * c.distsoly - 1) }
  else c

/-- The block `if(mesh->periodicZ==0)` of the same loop nest. -/
def update_stencils_sizeZ (mesh : Mesh K) (semiSt : Int) (n : Nat) (c : Cell K) : Cell K :=
  if mesh.periodicZ = 0 then
    let c :=
      if (n : Int) < semiSt then
        { c with st_sizeZ := MIN_int c.st_sizeZ (2 * (n : Int) + 1) }
      else if (mesh.zcells : Int) - ((n : Int) + 1) < semiSt then
        { c with st_sizeZ := MIN_int c.st_sizeZ (2 * ((mesh.zcells : Int) - ((n : Int) + 1)) + 1) }
      else c
    { c with st_sizeZ := MIN_int c.st_sizeZ (2 * c.distsolz - 1) }
  else c

/-- The body of the loop nest "special cases at boundary cells" of
`update_stencils` for the cell `(l, m, n)`: the three blocks in order. -/
def update_stencils_sizes (mesh : Mesh K) (semiSt : Int) (l m n : Nat) (c : Cell K) : Cell K :=
  update_stencils_sizeZ mesh semiSt n
    (update_stencils_sizeY mesh semiSt m (update_stencils_sizeX mesh semiSt l c))

/-- The coordinate along one axis that `update_stencils` computes for entry
`p` of a stencil of size `size` of a cell with coordinate `c` on an axis of
`cells` cells: `c - (size-1)/2 + p`, moved by one axis length into the grid
when the axis is periodic. -/
def stencil_coord (periodic : Int) (cells c : Nat) (size : Int) (p : Nat) : Int :=
  let e := (c : Int) - Int.tdiv (size - 1) 2 + (p : Int)
  if periodic = 0 then e
  else
    let e := if e < 0 then e + (cells : Int) * 1 else e
    if e > (cells : Int) - 1 then e + (cells : Int) * (-1) else e

/-- The body of the last loop nest of `update_stencils` for the cell
`(l, m, n)`: the three loops over the stencil entries. -/
def update_stencils_entries (mesh : Mesh K) (l m n : Nat) (c : Cell K) : Cell K :=
  let k2d : Int := (l : Int) + (m : Int) * (mesh.xcells : Int)
  let stX := forLoop c.st_sizeX.toNat (fun p st =>
    Function.update st p
      (stencil_coord mesh.periodicX mesh.xcells l c.st_sizeX p
        + (mesh.xcells : Int) * (m : Int) + (mesh.xcells : Int) * (mesh.ycells : Int) * (n : Int)))
    c.stX
  let stY := forLoop c.st_sizeY.toNat (fun p st =>
    Function.update st p
      ((mesh.xcells : Int) * stencil_coord mesh.periodicY mesh.ycells m c.st_sizeY p + (l : Int)
        + (mesh.xcells : Int) * (mesh.ycells : Int) * (n : Int)))
    c.stY
  let stZ := forLoop c.st_sizeZ.toNat (fun p st =>
    Function.update st p
      ((mesh.ycells : Int) * (mesh.xcells : Int)
          * stencil_coord mesh.periodicZ mesh.zcells n c.st_sizeZ p + k2d))
    c.stZ
  { c with stX := stX, stY := stY, stZ := stZ }

/-- The function `update_stencils`. -/
def update_stencils (mesh : Mesh K) (sim : Sim K) : Mesh K :=
  let xcells := mesh.xcells
  let ycells := mesh.ycells
  let zcells := mesh.zcells
  let cell := forLoop mesh.ncells (fun k cell =>
    Function.update cell k
      { cell k with st_sizeX := sim.order, st_sizeY := sim.order, st_sizeZ := sim.order })
    mesh.cell
  let semiSt : Int := Int.tdiv (sim.order - 1) 2
  let cell :=
    forLoop zcells (fun n cell =>
      forLoop ycells (fun m cell =>
        forLoop xcells (fun l cell =>
          Function.update cell (l + m * xcells + n * xcells * ycells)
            (update_stencils_sizes mesh semiSt l m n (cell (l + m * xcells + n * xcells * ycells))))
          cell) cell) cell
  let cell := forLoop mesh.ncells (fun k cell =>
    Function.update cell k
      (forLoop 9 (fun p (c : Cell K) =>
        { c with stX := Function.update c.stX p (-1), stY := Function.update c.stY p (-1),
                 stZ := Function.update c.stZ p (-1) }) (cell k)))
    cell
  let cell :=
    forLoop zcells (fun n cell =>
      forLoop ycells (fun m cell =>
        forLoop xcells (fun l cell =>
          Function.update cell (l + m * xcells + n * xcells * ycells)
            (update_stencils_entries mesh l m n (cell (l + m * xcells + n * xcells * ycells))))
          cell) cell) cell
  { mesh with cell := cell }

/-- The function `print_info`: the checks of the configuration and the
replacement of periodic boundary codes on axes that are too short.  What the
function prints is not modelled; `none` is `exit(1)`.  `ROE` is 0. -/
def print_info (fl : Flags) (mesh : Mesh K) (sim : Sim K) : Option (Mesh K) :=
  if fl.ST ≠ 1 ∧ fl.HLLS = true then none
  else if (if fl.HLLE then 1 else 0) + (if fl.HLLS then 1 else 0) + 0
      + (if fl.HLLC then 1 else 0) > 1 then none
  else if (mesh.bc 1 = 1 ∧ mesh.bc 3 ≠ 1) ∨ (mesh.bc 1 ≠ 1 ∧ mesh.bc 3 = 1) then none
  else if (mesh.bc 0 = 1 ∧ mesh.bc 2 ≠ 1) ∨ (mesh.bc 0 ≠ 1 ∧ mesh.bc 2 = 1) then none
  else if (mesh.bc 4 = 1 ∧ mesh.bc 5 ≠ 1) ∨ (mesh.bc 4 ≠ 1 ∧ mesh.bc 5 = 1) then none
  else
    let bc := mesh.bc
    let bc :=
      if bc 1 = 1 ∧ (mesh.xcells : Int) ≤ Int.tdiv (sim.order - 1) 2 then
        Function.update (Function.update bc 1 3) 3 3
      else bc
    let bc :=
      if bc 0 = 1 ∧ (mesh.ycells : Int) ≤ Int.tdiv (sim.order - 1) 2 then
        Function.update (Function.update bc 0 3) 2 3
      else bc
    let bc :=
      if bc 4 = 1 ∧ (mesh.zcells : Int) ≤ Int.tdiv (sim.order - 1) 2 then
        Function.update (Function.update bc 4 3) 5 3
      else bc
    some { mesh with bc := bc }

/-! ## Solids: ghost cells, solid cells, image points and wall types

The functions of the build with `ALLOW_SOLIDS`. -/

/-- The function `update_wall_type`: with at least one solid, a wall between
two ghost cells, between a ghost and a solid cell, or between two solid cells
becomes inactive (`wtype = 0`); with no solid it only prints a warning. -/
def update_wall_type (mesh : Mesh K) (solids : Solids K) : Mesh K :=
  if solids.nsolid < 1 then mesh
  else
    { mesh with wall := (forLoop mesh.nwalls
        (fun n wall =>
          if (mesh.cell (wall n).cellL).ghost > 0 ∧ (mesh.cell (wall n).cellR).ghost > 0 then
            Function.update wall n { (wall n) with wtype := 0 }
          else if (mesh.cell (wall n).cellR).type = 0 ∧ (mesh.cell (wall n).cellL).ghost > 0 then
            Function.update wall n { (wall n) with wtype := 0 }
          else if (mesh.cell (wall n).cellL).type = 0 ∧ (mesh.cell (wall n).cellR).ghost > 0 then
            Function.update wall n { (wall n) with wtype := 0 }
          else if (mesh.cell (wall n).cellL).type = 0 ∧ (mesh.cell (wall n).cellR).type = 0 then
            Function.update wall n { (wall n) with wtype := 0 }
          else wall)
        mesh.wall) }

/-- The function `vector_product`: the cross product of two arrays of three
entries. -/
def vector_product (input1 input2 : Nat → K) : Nat → K := fun q =>
  match q with
  | 0 => input1 1 * input2 2 - input1 2 * input2 1
  | 1 => input1 2 * input2 0 - input1 0 * input2 2
  | 2 => input1 0 * input2 1 - input1 1 * input2 0
  | _ => 0

/-- The function `dot_product`. -/
def dot_product (input1 input2 : Nat → K) : K :=
  input1 0 * input2 0 + input1 1 * input2 1 + input1 2 * input2 2

/-- The point-in-triangle test of `assign_cell_type`: the three products
`s1`, `s2`, `s3` of the point `xc` and the triangle are all positive. -/
def point_in_triangle (tri : Triangle K) (xc : Nat → K) : Prop :=
  let v1 : Nat → K := fun q => tri.p2 q - tri.p1 q
  let v2 : Nat → K := fun q => tri.p3 q - tri.p2 q
  let v3 : Nat → K := fun q => tri.p1 q - tri.p3 q
  let dc1 : Nat → K := fun q => xc q - tri.p1 q
  let dc2 : Nat → K := fun q => xc q - tri.p2 q
  let dc3 : Nat → K := fun q => xc q - tri.p3 q
  let vp1 := vector_product v1 dc1
  let vp2 := vector_product v2 dc2
  let vp3 := vector_product v3 dc3
  let s1 := dot_product vp1 vp2
  let s2 := dot_product vp2 vp3
  let s3 := dot_product vp3 vp1
  s1 > 0 ∧ s2 > 0 ∧ s3 > 0

instance point_in_triangle_decidable (tri : Triangle K) (xc : Nat → K) :
    Decidable (point_in_triangle tri xc) := by
  unfold point_in_triangle
  exact inferInstance

/-- The body of the innermost loop of the ghost-identification pass of
`assign_cell_type`, for the cell `c` (`cell[n]`) and the triangle `tri`
(`triangle[m]` of solid `l`); `dp` is the width of the ghost layer.  A cell
found outside the triangle is reverted (`ghost = 0`) or marked `out`; a cell
below the triangle, within `dp` of its plane, whose foot point `xc` lies in
the triangle and which is closer to this triangle than to those seen before is
tagged as ghost, and its image point is recorded. -/
def assign_cell_type_ghost_visit (dp : K) (l m : Int) (tri : Triangle K) (c : Cell K) :
    Cell K :=
  let dif : Nat → K := fun q =>
    match q with
    | 0 => c.xc - tri.p1 0
    | 1 => c.yc - tri.p1 1
    | _ => c.zc - tri.p1 2
  let proj := dif 0 * tri.nr 0 + dif 1 * tri.nr 1 + dif 2 * tri.nr 2
  let dist := proj / tri.absnr
  let c1 : Cell K :=
    if proj > 0 ∧ c.ghost > 0 ∧ |dist| < c.distabs then { c with ghost := 0 } else c
  if proj ≤ 0 ∧ c1.out < 1 then
    if |dist| < dp then
      let xc : Nat → K := fun q =>
        match q with
        | 0 => c1.xc - dist * tri.nr 0
        | 1 => c1.yc - dist * tri.nr 1
        | _ => c1.zc - dist * tri.nr 2
      if point_in_triangle tri xc then
        if |dist| < c1.distabs then
          let dist2 : K := if |dist| < TOL14 then -TOL14 else dist
          { c1 with
            ghost := 1, solid_id := l, triangle_id := m, tri := tri, distabs := |dist2|,
            xim := xc 0 - dist2 * tri.nr 0,
            yim := xc 1 - dist2 * tri.nr 1,
            zim := xc 2 - dist2 * tri.nr 2 }
        else c1
      else c1
    else c1
  else { c1 with out := 1 }

/-- A loop `for (i = lo; i <= hi; i++) body` over `int` bounds. -/
def forRange {σ : Type} (lo hi : Int) (body : Int → σ → σ) (s : σ) : σ :=
  forLoop (hi - lo + 1).toNat (fun t => body (lo + (t : Int))) s

/-- The search along one grid line in the solid-marking pass of
`assign_cell_type`: the loop over the `cells` cells `na i1` of the line, for a
cell at position `c` on it.  The state is `(df0, q, ct)`: the least distance
to a ghost cell found so far, the index of that ghost cell (`-1` when none),
and the number of ghost cells on the line.  The source has this text three
times, once per axis. -/
def solid_ray_search (cells : Nat) (c : Int) (na : Int → Int) (cell : Nat → Cell K) :
    Int × Int × Int :=
  forLoop cells
    (fun i1 (s : Int × Int × Int) =>
      if (cell (na (i1 : Int)).toNat).ghost = 1 then
        if |(i1 : Int) - c| ≤ s.1 then (|(i1 : Int) - c|, na (i1 : Int), s.2.2 + 1)
        else (s.1, s.2.1, s.2.2 + 1)
      else s)
    ((cells : Int), -1, 0)

/-- The flag (`solx`, `soly` or `solz`) set by one ray of the solid-marking
pass for the cell `n`: 1 when the line holds more than one ghost cell and the
nearest one, `q`, has `(coord q - coord n) * nr[comp] > 0`, else 0. -/
def solid_ray (cells : Nat) (c : Int) (na : Int → Int) (coord : Cell K → K) (comp : Nat)
    (cell : Nat → Cell K) (n : Nat) : Int :=
  let s := solid_ray_search cells c na cell
  if s.2.1 > -1 ∧ s.2.2 > 1 then
    if (coord (cell s.2.1.toNat) - coord (cell n)) * (cell s.2.1.toNat).tri.nr comp > 0 then 1
    else 0
  else 0

/-- The flag `solx` of the cell `(i, j, k)` with index `n`. -/
def solid_ray_x (mesh : Mesh K) (i j k : Int) (cell : Nat → Cell K) (n : Nat) : Int :=
  solid_ray mesh.xcells i
    (fun i1 => (mesh.xcells : Int) * j + i1 + k * (mesh.xcells : Int) * (mesh.ycells : Int))
    (fun c => c.xc) 0 cell n

/-- The flag `soly` of the cell `(i, j, k)` with index `n`, when its block is
entered. -/
def solid_ray_y (mesh : Mesh K) (i j k : Int) (cell : Nat → Cell K) (n : Nat) : Int :=
  solid_ray mesh.ycells j
    (fun i2 => (mesh.xcells : Int) * i2 + i + k * (mesh.xcells : Int) * (mesh.ycells : Int))
    (fun c => c.yc) 1 cell n

/-- The flag `solz` of the cell `(i, j, k)` with index `n`, when its block is
entered. -/
def solid_ray_z (mesh : Mesh K) (i j k : Int) (cell : Nat → Cell K) (n : Nat) : Int :=
  solid_ray mesh.zcells k
    (fun i3 => (mesh.xcells : Int) * j + i + i3 * (mesh.xcells : Int) * (mesh.ycells : Int))
    (fun c => c.zc) 2 cell n

/-- The body of the solid-marking pass of `assign_cell_type` for the cell
`(i, j, k)`: the three rays, and the test `solx==1&&soly==1` that tags the
cell as solid (`solz` is computed and not used). -/
def assign_cell_type_solid_visit (mesh : Mesh K) (i j k : Int) (cell : Nat → Cell K) :
    Nat → Cell K :=
  let n := ((mesh.xcells : Int) * j + i + k * (mesh.xcells : Int) * (mesh.ycells : Int)).toNat
  if (cell n).ghost ≠ 1 then
    let solx := solid_ray_x mesh i j k cell n
    let soly := if (cell n).type ≠ 0 then solid_ray_y mesh i j k cell n else 0
    let solz := if (cell n).type ≠ 0 then solid_ray_z mesh i j k cell n else 0
    if solx = 1 ∧ soly = 1 then Function.update cell n { (cell n) with type := 0 }
    else cell
  else cell

/-- The solid-marking pass of `assign_cell_type`: the loop over the solids
and over the cells of the bounding box of each. -/
def assign_cell_type_solids (mesh : Mesh K) (solids : Solids K) (cell : Nat → Cell K) :
    Nat → Cell K :=
  forLoop solids.nsolid.toNat
    (fun l cell =>
      forRange ((solids.stl l).imin 0) ((solids.stl l).imax 0)
        (fun i cell =>
          forRange ((solids.stl l).imin 1) ((solids.stl l).imax 1)
            (fun j cell =>
              forRange ((solids.stl l).imin 2) ((solids.stl l).imax 2)
                (fun k cell => assign_cell_type_solid_visit mesh i j k cell)
                cell)
            cell)
        cell)
    cell

/-- The conversion of a `double` to `int` (truncation toward zero). -/
def double_to_int [FloorRing K] (x : K) : Int := if x < 0 then -⌊-x⌋ else ⌊x⌋

/-- The block of `assign_image_cells` that finds the eight cells around the
image point of the cell `c`: the index ranges `imin..imax`, `jmin..jmax`,
`kmin..kmax` and the array `ni`, whose entries past 7 are those of `c`. -/
def image_neighbours [FloorRing K] (mesh : Mesh K) (c : Cell K) : Nat → Nat :=
  let imin : Int := double_to_int (MAX ((c.xim - mesh.dx / 2) / mesh.dx) 0)
  let imax : Int := MIN_int (imin + 1) ((mesh.xcells : Int) - 1)
  let jmin : Int := double_to_int (MAX ((c.yim - mesh.dy / 2) / mesh.dy) 0)
  let jmax : Int := MIN_int (jmin + 1) ((mesh.ycells : Int) - 1)
  let kmin : Int := double_to_int (MAX ((c.zim - mesh.dz / 2) / mesh.dz) 0)
  let kmax : Int := MIN_int (kmin + 1) ((mesh.zcells : Int) - 1)
  fun q =>
    match q with
    | 0 => (imin + jmin * mesh.xcells + kmin * mesh.xcells * mesh.ycells).toNat
    | 1 => (imax + jmin * mesh.xcells + kmin * mesh.xcells * mesh.ycells).toNat
    | 2 => (imax + jmax * mesh.xcells + kmin * mesh.xcells * mesh.ycells).toNat
    | 3 => (imin + jmax * mesh.xcells + kmin * mesh.xcells * mesh.ycells).toNat
    | 4 => (imin + jmin * mesh.xcells + kmax * mesh.xcells * mesh.ycells).toNat
    | 5 => (imax + jmin * mesh.xcells + kmax * mesh.xcells * mesh.ycells).toNat
    | 6 => (imax + jmax * mesh.xcells + kmax * mesh.xcells * mesh.ycells).toNat
    | 7 => (imin + jmax * mesh.xcells + kmax * mesh.xcells * mesh.ycells).toNat
    | q => c.ni q

/-- The distance `di[q]` of `assign_image_cells` between the image point of
the cell `c` and the centre of the cell `nb`; `sqrt` is `pow(., 0.5)`. -/
def image_distance (sqrt : K → K) (c nb : Cell K) : K :=
  let aux1 := c.xim - nb.xc
  let aux2 := c.yim - nb.yc
  let aux3 := c.zim - nb.zc
  sqrt (aux1 * aux1 + aux2 * aux2 + aux3 * aux3)

/-- The weight `li[q]` of `assign_image_cells`, before it is normalised, of the
neighbour `nb` of the image point of the cell `c`. -/
def image_weight (sqrt : K → K) (c nb : Cell K) : K :=
  let di := image_distance sqrt c nb
  if nb.ghost ≠ 1 then 1 / (di * di + TOL14) else 0

/-- The body of the cell loop of `assign_image_cells` for the cell `n`. -/
def image_step [FloorRing K] (sqrt : K → K) (mesh : Mesh K) (n : Nat) (cell : Nat → Cell K) :
    Nat → Cell K :=
  if (cell n).ghost = 1 then
    if (cell n).xim > 0 ∧ (cell n).xim < mesh.Lx ∧ (cell n).yim > 0 ∧ (cell n).yim < mesh.Ly
        ∧ (cell n).zim > 0 ∧ (cell n).zim < mesh.Lz then
      let cell := Function.update cell n { (cell n) with ni := image_neighbours mesh (cell n) }
      let li : Nat → K := fun q => image_weight sqrt (cell n) (cell ((cell n).ni q))
      let sum := forLoop 8 (fun q sum => sum + li q) 0
      if sum < TOL14 then
        Function.update cell n { (cell n) with type := 0, ghost := 0 }
      else
        Function.update cell n
          { (cell n) with li := fun q => if q < 8 then li q / sum else (cell n).li q }
    else Function.update cell n { (cell n) with type := 0, ghost := 0 }
  else cell

/-- The function `assign_image_cells`. -/
def assign_image_cells [FloorRing K] (sqrt : K → K) (mesh : Mesh K) (solids : Solids K) :
    Mesh K :=
  if solids.nsolid < 1 then mesh
  else { mesh with cell := (forLoop mesh.ncells (image_step sqrt mesh) mesh.cell) }

/-- The body of the first wall loop of `assign_wall_type`: the wall becomes a
normal wall without boundary id and then, in the build with `ALLOW_SOLIDS`, a
solid wall when exactly one of its two cells is solid (with the boundary id of
the face the fluid cell sees) and an inactive wall when both are. -/
def assign_wall_type_wall (ALLOW_SOLIDS : Bool) (mesh : Mesh K) (wall : Wall K) : Wall K :=
  let wall : Wall K := { wall with wtype := 1, boundId := 999 }
  if ALLOW_SOLIDS then
    if wall.nx > TOL4 then
      if (mesh.cell wall.cellL).type = 0 ∧ (mesh.cell wall.cellR).type ≠ 0 then
        { wall with wtype := 4, boundId := 4 }
      else if (mesh.cell wall.cellR).type = 0 ∧ (mesh.cell wall.cellL).type ≠ 0 then
        { wall with wtype := 4, boundId := 2 }
      else if (mesh.cell wall.cellL).type = 0 ∧ (mesh.cell wall.cellR).type = 0 then
        { wall with wtype := 0 }
      else wall
    else if wall.ny > TOL4 then
      if (mesh.cell wall.cellL).type = 0 ∧ (mesh.cell wall.cellR).type ≠ 0 then
        { wall with wtype := 4, boundId := 1 }
      else if (mesh.cell wall.cellR).type = 0 ∧ (mesh.cell wall.cellL).type ≠ 0 then
        { wall with wtype := 4, boundId := 3 }
      else if (mesh.cell wall.cellL).type = 0 ∧ (mesh.cell wall.cellR).type = 0 then
        { wall with wtype := 0 }
      else wall
    else
      if (mesh.cell wall.cellL).type = 0 ∧ (mesh.cell wall.cellR).type ≠ 0 then
        { wall with wtype := 4, boundId := 5 }
      else if (mesh.cell wall.cellR).type = 0 ∧ (mesh.cell wall.cellL).type ≠ 0 then
        { wall with wtype := 4, boundId := 6 }
      else if (mesh.cell wall.cellL).type = 0 ∧ (mesh.cell wall.cellR).type = 0 then
        { wall with wtype := 0 }
      else wall
  else wall

/-- The body of the six boundary loops of `assign_wall_type` for the boundary
cell `k`, whose wall `wid` on the face `face` takes the boundary code `code`
when the cell is not solid and becomes inactive when it is. -/
def assign_wall_type_face (mesh : Mesh K) (k wid : Nat) (code face : Int)
    (wall : Nat → Wall K) : Nat → Wall K :=
  if (mesh.cell k).type ≠ 0 then
    wset wall wid (fun w => { w with wtype := code, boundId := face })
  else wset wall wid (fun w => { w with wtype := 0 })

/-- The function `assign_wall_type`: the loop over the walls, then the loops
over the cells of the faces 1 (`-y`), 3 (`+y`), 2 (`+x`), 4 (`-x`), 5 (`-z`)
and 6 (`+z`), in this order.  The last row, column and layer are `ycells-1`,
`xcells-1` and `zcells-1` of a grid with at least one cell on each axis. -/
def assign_wall_type (ALLOW_SOLIDS : Bool) (mesh : Mesh K) : Mesh K :=
  let X := mesh.xcells
  let Y := mesh.ycells
  let Z := mesh.zcells
  let wall := forLoop mesh.nwalls
    (fun n w => Function.update w n (assign_wall_type_wall ALLOW_SOLIDS mesh (w n))) mesh.wall
  let wall := forLoop X (fun l w => forLoop Z (fun n w =>
    assign_wall_type_face mesh (X * 0 + l + n * X * Y)
      (mesh.cell (X * 0 + l + n * X * Y)).w1_id (mesh.bc 0) 1 w) w) wall
  let wall := forLoop X (fun l w => forLoop Z (fun n w =>
    assign_wall_type_face mesh (X * (Y - 1) + l + n * X * Y)
      (mesh.cell (X * (Y - 1) + l + n * X * Y)).w3_id (mesh.bc 2) 3 w) w) wall
  let wall := forLoop Y (fun m w => forLoop Z (fun n w =>
    assign_wall_type_face mesh (X * m + (X - 1) + n * X * Y)
      (mesh.cell (X * m + (X - 1) + n * X * Y)).w2_id (mesh.bc 1) 2 w) w) wall
  let wall := forLoop Y (fun m w => forLoop Z (fun n w =>
    assign_wall_type_face mesh (X * m + 0 + n * X * Y)
      (mesh.cell (X * m + 0 + n * X * Y)).w4_id (mesh.bc 3) 4 w) w) wall
  let wall := forLoop Y (fun m w => forLoop X (fun l w =>
    assign_wall_type_face mesh (X * m + l + 0 * X * Y)
      (mesh.cell (X * m + l + 0 * X * Y)).w5_id (mesh.bc 4) 5 w) w) wall
  let wall := forLoop Y (fun m w => forLoop X (fun l w =>
    assign_wall_type_face mesh (X * m + l + (Z - 1) * X * Y)
      (mesh.cell (X * m + l + (Z - 1) * X * Y)).w6_id (mesh.bc 5) 6 w) w) wall
  { mesh with wall := wall }

/-! ## Reference description of the wall numbering

The following definitions are not functions of the source: they state, in
closed form, which wall every identifier denotes, and are what the wiring
built by `create_mesh` is compared with. -/

/-- The index of the cell `(l, m, n)` in the cell array. -/
def cell_index (X Y l m n : Nat) : Nat := l + m * X + n * X * Y

/-- The identifier of the first wall (`w1`, the -y face) of the cell
`(l, m, n)`; its -x and -z faces are the next two identifiers. -/
def wall_base (X Y l m n : Nat) : Nat := 3 * (l + m * X) + m + n * (3 * X * Y + X + Y)

/-- Orientation (0 for x, 1 for y, 2 for z), left cell and right cell of a
wall. -/
structure WallInfo where
  axis : Nat
  L : Nat
  R : Nat

/-- Which wall the identifier `j` denotes on a grid of `X * Y * Z` cells with
periodic wiring: each layer `n` holds, row by row, three walls per cell (its
-y, -x, -z faces) and one closing +x wall per row, then the `X` closing +y
walls of the layer; the `X * Y` closing +z walls come after the last layer. -/
def wall_info (X Y Z j : Nat) : WallInfo :=
  let layer := 3 * X * Y + X + Y
  let row := 3 * X + 1
  if j < Z * layer then
    let n := j / layer
    let r := j % layer
    if r < Y * row then
      let m := r / row
      let q := r % row
      if q < 3 * X then
        let l := q / 3
        let t := cell_index X Y l m n
        if q % 3 = 0 then
          { axis := 1, R := t, L := if m = 0 then t + (Y - 1) * X else t - X }
        else if q % 3 = 1 then
          { axis := 0, R := t, L := if l = 0 then t + (X - 1) else t - 1 }
        else
          { axis := 2, R := t, L := if n = 0 then t + (Z - 1) * X * Y else t - X * Y }
      else
        { axis := 0, L := cell_index X Y (X - 1) m n, R := cell_index X Y 0 m n }
    else
      { axis := 1, L := cell_index X Y (r - Y * row) (Y - 1) n,
        R := cell_index X Y (r - Y * row) 0 n }
  else
    { axis := 2, L := (j - Z * layer) + (Z - 1) * X * Y, R := j - Z * layer }

/-- The premises of the well-balanced statements for the cell `i` of the mesh
`M` (a notion of the statements, not of the source): source mode 1 with only
the HLLS solver compiled in; every cell at rest in its equilibrium state
(`U = Ue`, no momentum); the cell is integrated and interior (`st_sizeZ > 1`,
so that `compute_source` sets its source), with `S[1]` and `S[2]` zero as
`create_mesh` leaves them; its six walls are interior walls (`wtype` 1) with
the normals of a Cartesian cell and stencils of a size the reconstruction
handles; the energy is horizontally uniform on the stencils of its four
lateral walls; and the equilibrium densities reconstructed at its two
z-walls are positive. -/
structure HydrostaticCell (fl : Flags) (M : Mesh K) (sim : Sim K) (i : Nat) : Prop where
  source_mode : fl.ST = 1
  solver : fl.HLLE = false ∧ fl.HLLC = false ∧ fl.HLLS = true ∧ fl.LINEAR_TRANSPORT = false
    ∧ fl.MULTICOMPONENT = false
  nvar_ge : 5 ≤ sim.nvar
  equilibrium : ∀ c k, (M.cell c).U k = (M.cell c).Ue k
  rest : ∀ c, (M.cell c).U 1 = 0 ∧ (M.cell c).U 2 = 0 ∧ (M.cell c).U 3 = 0
  bound_ids : ∀ j, j < M.nwalls → (M.wall j).wtype = 3 ∨ (M.wall j).wtype = 4 →
    (M.wall j).boundId ≠ 999
  cell_lt : i < M.ncells
  integrated : (M.cell i).type ≠ 0 ∧ (M.cell i).ghost ≠ 1
  interior : (M.cell i).st_sizeZ > 1
  source_zero : (M.cell i).S 1 = 0 ∧ (M.cell i).S 2 = 0
  walls : ∀ j, (j = (M.cell i).w1 ∨ j = (M.cell i).w2 ∨ j = (M.cell i).w3
      ∨ j = (M.cell i).w4 ∨ j = (M.cell i).w5 ∨ j = (M.cell i).w6) →
    j < M.nwalls ∧ (M.wall j).wtype = 1
    ∧ ((wall_stencil (M.wall j) (M.cell (M.wall j).cellR)).1 = 1
      ∨ (wall_stencil (M.wall j) (M.cell (M.wall j).cellR)).1 = 3
      ∨ (wall_stencil (M.wall j) (M.cell (M.wall j).cellR)).1 = 5
      ∨ (wall_stencil (M.wall j) (M.cell (M.wall j).cellR)).1 = 7)
    ∧ ((wall_stencil (M.wall j) (M.cell (M.wall j).cellL)).1 = 1
      ∨ (wall_stencil (M.wall j) (M.cell (M.wall j).cellL)).1 = 3
      ∨ (wall_stencil (M.wall j) (M.cell (M.wall j).cellL)).1 = 5
      ∨ (wall_stencil (M.wall j) (M.cell (M.wall j).cellL)).1 = 7)
  normals_x : ∀ j, (j = (M.cell i).w2 ∨ j = (M.cell i).w4) →
    (M.wall j).nx = 1 ∧ (M.wall j).ny = 0 ∧ (M.wall j).nz = 0
  normals_y : ∀ j, (j = (M.cell i).w1 ∨ j = (M.cell i).w3) →
    (M.wall j).nx = 0 ∧ (M.wall j).ny = 1 ∧ (M.wall j).nz = 0
  normals_z : ∀ j, (j = (M.cell i).w5 ∨ j = (M.cell i).w6) →
    (M.wall j).nx = 0 ∧ (M.wall j).ny = 0 ∧ (M.wall j).nz = 1
  uniform : ∀ j, (j = (M.cell i).w1 ∨ j = (M.cell i).w2 ∨ j = (M.cell i).w3
      ∨ j = (M.cell i).w4) →
    ∀ s, (s = (M.wall j).cellL ∨ s = (M.wall j).cellR) →
      (M.cell s).U 4 = (M.cell i).U 4
      ∧ ∀ p : Nat, (p : Int) < (wall_stencil (M.wall j) (M.cell s)).1 →
          (M.cell ((wall_stencil (M.wall j) (M.cell s)).2 p).toNat).U 4 = (M.cell i).U 4
  density_pos : ∀ j, (j = (M.cell i).w5 ∨ j = (M.cell i).w6) →
    0 < ((equilibrium_reconstruction fl M sim).wall j).ULe 0
    ∧ 0 < ((equilibrium_reconstruction fl M sim).wall j).URe 0

/-- The mesh `M` has the connectivity of the mesh `G`: the same numbers of
cells and walls, in every cell the same six wall pointers and sizes, and on
every wall the same neighbour cells and normal.  States, sources and fluxes
are left free. -/
def same_connectivity (M G : Mesh K) : Prop :=
  M.ncells = G.ncells ∧ M.nwalls = G.nwalls
  ∧ (∀ i, i < G.ncells →
      (M.cell i).w1 = (G.cell i).w1 ∧ (M.cell i).w2 = (G.cell i).w2
      ∧ (M.cell i).w3 = (G.cell i).w3 ∧ (M.cell i).w4 = (G.cell i).w4
      ∧ (M.cell i).w5 = (G.cell i).w5 ∧ (M.cell i).w6 = (G.cell i).w6
      ∧ (M.cell i).dx = (G.cell i).dx ∧ (M.cell i).dy = (G.cell i).dy
      ∧ (M.cell i).dz = (G.cell i).dz)
  ∧ (∀ j, j < G.nwalls →
      (M.wall j).cellL = (G.wall j).cellL ∧ (M.wall j).cellR = (G.wall j).cellR
      ∧ (M.wall j).nx = (G.wall j).nx ∧ (M.wall j).ny = (G.wall j).ny
      ∧ (M.wall j).nz = (G.wall j).nz)

/-- The physical flux of a rotated state `W` with pressure `p`, in the form in
which the solvers assign `FL` and `FR` when no equilibrium pressure is
subtracted (auxiliary notion of the consistency proofs). -/
def rotated_flux (W : Nat → K) (p : K) : Nat → K := fun m =>
  match m with
  | 0 => W 1
  | 1 => W 1 * (W 1 / W 0) + p
  | 2 => W 1 * (W 2 / W 0)
  | 3 => W 1 * (W 3 / W 0)
  | 4 => W 1 / W 0 * (W 4 + p)
  | _ => 0

/-! ## Reference notions of the boundary-flux and stencil statements -/

/-- The physical Euler flux of a state `U` in the direction `(nx, ny, nz)`
with the pressure `p` given: `(rho*u_n, rho*u_n*velocity + p*normal, u_n*(E+p))`
in components 0..4.  Reference of the boundary-flux statements, not a function
of the source. -/
def euler_flux_with (nx ny nz : K) (U : Nat → K) (p : K) : Nat → K :=
  let u := U 1 / U 0
  let v := U 2 / U 0
  let w := U 3 / U 0
  let un := u * nx + v * ny + w * nz
  fun m =>
    match m with
    | 0 => U 0 * un
    | 1 => U 0 * un * u + p * nx
    | 2 => U 0 * un * v + p * ny
    | 3 => U 0 * un * w + p * nz
    | 4 => un * (U 4 + p)
    | _ => 0

/-- The state `U` reflected in the plane with unit normal `(nx, ny, nz)`: the
momentum along the normal is negated, every other component is copied.
Reference of the solid-wall statement, not a function of the source. -/
def mirror_state (nx ny nz : K) (U : Nat → K) : Nat → K := fun m =>
  match m with
  | 1 => U 1 - 2 * (U 1 * nx + U 2 * ny + U 3 * nz) * nx
  | 2 => U 2 - 2 * (U 1 * nx + U 2 * ny + U 3 * nz) * ny
  | 3 => U 3 - 2 * (U 1 * nx + U 2 * ny + U 3 * nz) * nz
  | m => U m

/-- The wall of the mirrored Riemann problem of a solid wall with boundary id
`wp`: the outer state is the mirror image of the inner state (`UR` for faces
1, 4, 5, `UL` otherwise), and the outer equilibrium state and pressure are
those of the inner side.  Reference of the solid-wall statement, not a
function of the source. -/
def mirrored_wall (wall : Wall K) (wp : Int) : Wall K :=
  if wp = 1 ∨ wp = 4 ∨ wp = 5 then
    { wall with
      UL := mirror_state wall.nx wall.ny wall.nz wall.UR, ULe := wall.URe, pLe := wall.pRe }
  else
    { wall with
      UR := mirror_state wall.nx wall.ny wall.nz wall.UL, URe := wall.ULe, pRe := wall.pLe }

/-- The part of `compute_euler_HLLE` (single gamma) and of
`compute_solid_euler_hlle` that follows the rotation, as a function of the two
rotated states, the two equilibrium pressures and the height of the wall: the
two bodies are the same text from `uL=WL[1]/WL[0]` to `diffS=S2-S1`.  Auxiliary
notion of the comparison of the two functions. -/
def HLLE_core (sqrt : K → K) (ST : Nat) (WL WR : Nat → K) (pLe pRe z : K) : Riemann K :=
  let uL := WL 1 / WL 0
  let uR := WR 1 / WR 0
  let vL := WL 2 / WL 0
  let vR := WR 2 / WR 0
  let wL := WL 3 / WL 0
  let wR := WR 3 / WR 0
  let pL := pressure_from_energy ST gamma (WL 4) uL vL wL (WL 0) z
  let pR := pressure_from_energy ST gamma (WR 4) uR vR wR (WR 0) z
  let HL := if ST = 3 then (WL 4 - WL 0 * g * z + pL) / WL 0 else (WL 4 + pL) / WL 0
  let HR := if ST = 3 then (WR 4 - WR 0 * g * z + pR) / WR 0 else (WR 4 + pR) / WR 0
  let cL := sqrt (gamma * pL / WL 0)
  let cR := sqrt (gamma * pR / WR 0)
  let raizrhoL := sqrt (WL 0)
  let raizrhoR := sqrt (WR 0)
  let sumRaizRho := raizrhoR + raizrhoL
  let u_hat := (uR * raizrhoR + uL * raizrhoL) / sumRaizRho
  let v_hat := (vR * raizrhoR + vL * raizrhoL) / sumRaizRho
  let w_hat := (wR * raizrhoR + wL * raizrhoL) / sumRaizRho
  let H_hat := (HR * raizrhoR + HL * raizrhoL) / sumRaizRho
  let c_hat :=
    sqrt ((gamma - 1) * (H_hat - 1 / 2 * (u_hat * u_hat + v_hat * v_hat + w_hat * w_hat)))
  let FR : Nat → K := fun m =>
    match m with
    | 0 => WR 1
    | 1 => if ST = 2 ∨ ST = 3 then WR 1 * uR + (pR - pRe) else WR 1 * uR + pR
    | 2 => WR 1 * vR
    | 3 => WR 1 * wR
    | 4 => uR * (WR 4 + pR)
    | _ => 0
  let FL : Nat → K := fun m =>
    match m with
    | 0 => WL 1
    | 1 => if ST = 2 ∨ ST = 3 then WL 1 * uL + (pL - pLe) else WL 1 * uL + pL
    | 2 => WL 1 * vL
    | 3 => WL 1 * wL
    | 4 => uL * (WL 4 + pL)
    | _ => 0
  let S1 := MIN (uL - cL) (u_hat - c_hat)
  let S2 := MAX (uR + cR) (u_hat + c_hat)
  let maxS := MAX (ABS S1) (ABS S2)
  let diffS := S2 - S1
  { WR := WR, WL := WL, gammaL := gamma,
    gammaR := gamma, uL := uL, uR := uR, vL := vL, vR := vR, wL := wL, wR := wR,
    pL := pL, pR := pR, HL := HL, HR := HR, cL := cL, cR := cR, u_hat := u_hat,
    v_hat := v_hat, w_hat := w_hat, H_hat := H_hat, gamma_hat := gamma, c_hat := c_hat,
    FR := FR, FL := FL, S1 := S1, S2 := S2, maxS := maxS, diffS := diffS }

/-- What the amended stencil-size invariant says of one axis, for a cell with
coordinate `c` on an axis of `cells` cells with periodicity flag `periodic`,
recorded distance `dsolid` to the nearest solid cell and stencil size `s`: `s`
is 1, 3, 5 or 7 and at most `order`; on a non-periodic axis `s` is at most
`2*dsolid - 1` and, when the axis has one cell or at least `order - 2` cells,
at most `2*d + 1` for the distance `d` to either boundary; on a periodic axis
`s` is `order`.  A notion of the statement, not of the source. -/
def stencil_size_ok (order periodic : Int) (cells c : Nat) (dsolid s : Int) : Prop :=
  (s = 1 ∨ s = 3 ∨ s = 5 ∨ s = 7) ∧ s ≤ order
  ∧ (periodic = 0 →
      s ≤ 2 * dsolid - 1
      ∧ ((cells = 1 ∨ order - 2 ≤ (cells : Int)) →
          s ≤ 2 * (c : Int) + 1 ∧ s ≤ 2 * ((cells : Int) - 1 - (c : Int)) + 1))
  ∧ (periodic ≠ 0 → s = order)

/-- What the stencil-entry statement says of one axis: `st` is the stencil
array, `s` its size, `c` the coordinate of the cell on the axis, `index q` the
index of the cell with coordinate `q` on the axis and the other two
coordinates of the cell.  Every entry `p < s` is the index of a cell of the
strip, with coordinate `c - (s-1)/2 + p` (reduced modulo the axis length on a
periodic axis), and the middle entry is the cell itself.  A notion of the
statement, not of the source. -/
def stencil_entries_ok (periodic : Int) (cells c : Nat) (s : Int) (st : Nat → Int)
    (index : Nat → Nat) : Prop :=
  (∀ p : Nat, (p : Int) < s →
    ∃ q : Nat, q < cells ∧ st p = (index q : Int)
      ∧ (periodic = 0 → (q : Int) = (c : Int) - (s - 1) / 2 + (p : Int))
      ∧ (periodic ≠ 0 → (q : Int) = ((c : Int) - (s - 1) / 2 + (p : Int)) % (cells : Int)))
  ∧ st ((s - 1) / 2).toNat = (index c : Int)

/-- The wall of the flipped Riemann problem: the two states exchanged, each
with its wall-normal momentum negated (`mirror_state`).  Reference of the
mirror-symmetry statement, not a function of the source. -/
def flipped_wall (wall : Wall K) : Wall K :=
  { wall with
    UL := mirror_state wall.nx wall.ny wall.nz wall.UR,
    UR := mirror_state wall.nx wall.ny wall.nz wall.UL }

/-- Two cell arrays that differ at most in the `type` of their cells. -/
def same_but_type (a b : Nat → Cell K) : Prop :=
  ∀ j, (a j).ghost = (b j).ghost ∧ (a j).xc = (b j).xc ∧ (a j).yc = (b j).yc
    ∧ (a j).zc = (b j).zc ∧ (a j).tri = (b j).tri

/-- What it means for a ray of the solid-marking pass to succeed, for a cell
`n` at position `c` on a line of `cells` cells `na 0, na 1, ...`: the line
holds two ghost cells at least, at the positions `a` and `b`, the one at `a`
is the nearest to `c` (the one with the larger position when two are equally
near), and `(coord q - coord n) * nr[comp] > 0` for that cell `q`.  A notion of
the statement, not of the source. -/
def ray_sees (cells : Nat) (c : Int) (na : Int → Int) (coord : Cell K → K) (comp : Nat)
    (cell : Nat → Cell K) (n : Nat) : Prop :=
  ∃ a b : Nat, a < cells ∧ b < cells ∧ a ≠ b
    ∧ (cell (na (a : Int)).toNat).ghost = 1 ∧ (cell (na (b : Int)).toNat).ghost = 1
    ∧ (∀ i1 : Nat, i1 < cells → (cell (na (i1 : Int)).toNat).ghost = 1 →
        |(a : Int) - c| < |(i1 : Int) - c| ∨ (|(a : Int) - c| = |(i1 : Int) - c| ∧ i1 ≤ a))
    ∧ (coord (cell (na (a : Int)).toNat) - coord (cell n))
        * (cell (na (a : Int)).toNat).tri.nr comp > 0

/-- The cell array at the time the loop of `assign_image_cells` reaches the
cell `n`: the cells below `n` as the call leaves them (`after`), the others as
they were before the call (`before`).  A notion of the statement. -/
def cells_when (n : Nat) (before after : Nat → Cell K) : Nat → Cell K :=
  fun j => if j < n then after j else before j

/-- The sum of the eight weights of the neighbours `ni` of the image point of
the cell `c`, before they are normalised.  A notion of the statement. -/
def weight_sum (sqrt : K → K) (c : Cell K) (cell : Nat → Cell K) (ni : Nat → Nat) : K :=
  (Finset.range 8).sum (fun q => image_weight sqrt c (cell (ni q)))

/-! ## Fragments of the reconstruction routines named in the statements -/

/-- Smoothness indicators `(b0, b1)` of the third-order routines. -/
def weno3_beta (phi : Nat → K) : K × K :=
  ((phi 1 - phi 0) * (phi 1 - phi 0), (phi 2 - phi 1) * (phi 2 - phi 1))

/-- Cut-off of the TENO branch, `c < _CT_ ? 0. : 1.`. -/
def teno_cut (c : K) : K := if c < CT then 0 else 1

/-- Normalised measures `(c0, c1)` of the TENO branch of the third-order
routines, before the cut-off is applied. -/
def teno3_chi (phi : Nat → K) : K × K :=
  let b0 := (phi 1 - phi 0) * (phi 1 - phi 0)
  let b1 := (phi 2 - phi 1) * (phi 2 - phi 1)
  let a0 := 1 / (b0 + epsilon2) ^ Q
  let a1 := 1 / (b1 + epsilon2) ^ Q
  (a0 / (a0 + a1), a1 / (a0 + a1))

/-- Normalised measures `(c0, c1, c2)` of the TENO branch of the fifth-order
routines, before the cut-off is applied. -/
def teno5_chi (phi : Nat → K) : K × K × K :=
  let b0 := (weno5_beta phi).1
  let b1 := (weno5_beta phi).2.1
  let b2 := (weno5_beta phi).2.2
  let a0 := 1 / (b0 + epsilon2) ^ Q
  let a1 := 1 / (b1 + epsilon2) ^ Q
  let a2 := 1 / (b2 + epsilon2) ^ Q
  (a0 / (a0 + a1 + a2), a1 / (a0 + a1 + a2), a2 / (a0 + a1 + a2))

/-- Normalised measures `(c0, c1, c2, c3)` of the TENO branch of the
seventh-order routines, before the cut-off is applied. -/
def teno7_chi (phi : Nat → K) : K × K × K × K :=
  let b0 := (weno7_beta phi).1
  let b1 := (weno7_beta phi).2.1
  let b2 := (weno7_beta phi).2.2.1
  let b3 := (weno7_beta phi).2.2.2
  let a0 := 1 / (b0 + epsilon2) ^ Q
  let a1 := 1 / (b1 + epsilon2) ^ Q
  let a2 := 1 / (b2 + epsilon2) ^ Q
  let a3 := 1 / (b3 + epsilon2) ^ Q
  (a0 / (a0 + a1 + a2 + a3), a1 / (a0 + a1 + a2 + a3), a2 / (a0 + a1 + a2 + a3),
    a3 / (a0 + a1 + a2 + a3))

/-! ## Reference notions of the reconstruction statements -/

/-- Reference notion: the stencil of `n` values read in the opposite
direction. -/
def reverse_stencil (n : Nat) (phi : Nat → K) : Nat → K := fun i => phi (n - 1 - i)

/-- Reference statement for a TENO routine with two sub-stencils, optimal
weights `g`, normalised measures `chi` and final weights `w`: the measures sum
to one, one of them is at least `1/4 > CT` and passes the cut-off, the final
normalisation `g0*c0 + g1*c1` is strictly positive, `w` is the quotient by
it, every weight lies in `[0, 1]`, and a measure below `CT` gives weight 0. -/
def teno_safe2 (g0 g1 : K) (chi w : K × K) : Prop :=
  chi.1 + chi.2 = 1
  ∧ (CT : K) < 1 / 4
  ∧ ((1 / 4 ≤ chi.1 ∧ teno_cut chi.1 = 1) ∨ (1 / 4 ≤ chi.2 ∧ teno_cut chi.2 = 1))
  ∧ 0 < g0 * teno_cut chi.1 + g1 * teno_cut chi.2
  ∧ w = (g0 * teno_cut chi.1 / (g0 * teno_cut chi.1 + g1 * teno_cut chi.2),
         g1 * teno_cut chi.2 / (g0 * teno_cut chi.1 + g1 * teno_cut chi.2))
  ∧ (0 ≤ w.1 ∧ w.1 ≤ 1) ∧ (0 ≤ w.2 ∧ w.2 ≤ 1)
  ∧ (chi.1 < CT → w.1 = 0) ∧ (chi.2 < CT → w.2 = 0)

/-- Reference statement for a TENO routine with three sub-stencils (see
`teno_safe2`). -/
def teno_safe3 (g0 g1 g2 : K) (chi w : K × K × K) : Prop :=
  chi.1 + chi.2.1 + chi.2.2 = 1
  ∧ (CT : K) < 1 / 4
  ∧ ((1 / 4 ≤ chi.1 ∧ teno_cut chi.1 = 1) ∨ (1 / 4 ≤ chi.2.1 ∧ teno_cut chi.2.1 = 1)
      ∨ (1 / 4 ≤ chi.2.2 ∧ teno_cut chi.2.2 = 1))
  ∧ 0 < g0 * teno_cut chi.1 + g1 * teno_cut chi.2.1 + g2 * teno_cut chi.2.2
  ∧ w = (g0 * teno_cut chi.1
            / (g0 * teno_cut chi.1 + g1 * teno_cut chi.2.1 + g2 * teno_cut chi.2.2),
         g1 * teno_cut chi.2.1
            / (g0 * teno_cut chi.1 + g1 * teno_cut chi.2.1 + g2 * teno_cut chi.2.2),
         g2 * teno_cut chi.2.2
            / (g0 * teno_cut chi.1 + g1 * teno_cut chi.2.1 + g2 * teno_cut chi.2.2))
  ∧ (0 ≤ w.1 ∧ w.1 ≤ 1) ∧ (0 ≤ w.2.1 ∧ w.2.1 ≤ 1) ∧ (0 ≤ w.2.2 ∧ w.2.2 ≤ 1)
  ∧ (chi.1 < CT → w.1 = 0) ∧ (chi.2.1 < CT → w.2.1 = 0) ∧ (chi.2.2 < CT → w.2.2 = 0)

/-- Reference statement for a TENO routine with four sub-stencils (see
`teno_safe2`). -/
def teno_safe4 (g0 g1 g2 g3 : K) (chi w : K × K × K × K) : Prop :=
  chi.1 + chi.2.1 + chi.2.2.1 + chi.2.2.2 = 1
  ∧ (CT : K) < 1 / 4
  ∧ ((1 / 4 ≤ chi.1 ∧ teno_cut chi.1 = 1) ∨ (1 / 4 ≤ chi.2.1 ∧ teno_cut chi.2.1 = 1)
      ∨ (1 / 4 ≤ chi.2.2.1 ∧ teno_cut chi.2.2.1 = 1)
      ∨ (1 / 4 ≤ chi.2.2.2 ∧ teno_cut chi.2.2.2 = 1))
  ∧ 0 < g0 * teno_cut chi.1 + g1 * teno_cut chi.2.1 + g2 * teno_cut chi.2.2.1
        + g3 * teno_cut chi.2.2.2
  ∧ w = (g0 * teno_cut chi.1
            / (g0 * teno_cut chi.1 + g1 * teno_cut chi.2.1 + g2 * teno_cut chi.2.2.1
                + g3 * teno_cut chi.2.2.2),
         g1 * teno_cut chi.2.1
            / (g0 * teno_cut chi.1 + g1 * teno_cut chi.2.1 + g2 * teno_cut chi.2.2.1
                + g3 * teno_cut chi.2.2.2),
         g2 * teno_cut chi.2.2.1
            / (g0 * teno_cut chi.1 + g1 * teno_cut chi.2.1 + g2 * teno_cut chi.2.2.1
                + g3 * teno_cut chi.2.2.2),
         g3 * teno_cut chi.2.2.2
            / (g0 * teno_cut chi.1 + g1 * teno_cut chi.2.1 + g2 * teno_cut chi.2.2.1
                + g3 * teno_cut chi.2.2.2))
  ∧ (0 ≤ w.1 ∧ w.1 ≤ 1) ∧ (0 ≤ w.2.1 ∧ w.2.1 ≤ 1) ∧ (0 ≤ w.2.2.1 ∧ w.2.2.1 ≤ 1)
  ∧ (0 ≤ w.2.2.2 ∧ w.2.2.2 ≤ 1)
  ∧ (chi.1 < CT → w.1 = 0) ∧ (chi.2.1 < CT → w.2.1 = 0) ∧ (chi.2.2.1 < CT → w.2.2.1 = 0)
  ∧ (chi.2.2.2 < CT → w.2.2.2 = 0)

/-- A wall at rest in its equilibrium state, for the source mode `ST` (a
notion of the statements, not of the source): in the five Euler components
the two states equal the two equilibrium states, they carry no momentum, the
densities are positive, and the stored equilibrium pressures are positive and
are the pressures of the equilibrium states. -/
def wall_at_rest (ST : Nat) (W : Wall K) : Prop :=
  (∀ k, k < 5 → W.UL k = W.ULe k) ∧ (∀ k, k < 5 → W.UR k = W.URe k)
  ∧ (W.UL 1 = 0 ∧ W.UL 2 = 0 ∧ W.UL 3 = 0) ∧ (W.UR 1 = 0 ∧ W.UR 2 = 0 ∧ W.UR 3 = 0)
  ∧ (0 < W.UL 0 ∧ 0 < W.UR 0) ∧ (0 < W.pLe ∧ 0 < W.pRe)
  ∧ W.pLe = pressure_from_energy ST gamma (W.ULe 4) (W.ULe 1 / W.ULe 0)
      (W.ULe 2 / W.ULe 0) (W.ULe 3 / W.ULe 0) (W.ULe 0) W.z
  ∧ W.pRe = pressure_from_energy ST gamma (W.URe 4) (W.URe 1 / W.URe 0)
      (W.URe 2 / W.URe 0) (W.URe 3 / W.URe 0) (W.URe 0) W.z

/-- A solid wall with boundary id `wp` whose inner state (`UR` for `wp` in 1,
4, 5, `UL` otherwise) is at rest in its equilibrium state, for the source mode
`ST` (a notion of the statements, not of the source). -/
def solid_wall_at_rest (ST : Nat) (W : Wall K) (wp : Int) : Prop :=
  if wp = 1 ∨ wp = 4 ∨ wp = 5 then
    (∀ k, k < 5 → W.UR k = W.URe k) ∧ (W.UR 1 = 0 ∧ W.UR 2 = 0 ∧ W.UR 3 = 0)
    ∧ 0 < W.UR 0 ∧ 0 < W.pRe
    ∧ W.pRe = pressure_from_energy ST gamma (W.URe 4) (W.URe 1 / W.URe 0)
        (W.URe 2 / W.URe 0) (W.URe 3 / W.URe 0) (W.URe 0) W.z
  else
    (∀ k, k < 5 → W.UL k = W.ULe k) ∧ (W.UL 1 = 0 ∧ W.UL 2 = 0 ∧ W.UL 3 = 0)
    ∧ 0 < W.UL 0 ∧ 0 < W.pLe
    ∧ W.pLe = pressure_from_energy ST gamma (W.ULe 4) (W.ULe 1 / W.ULe 0)
        (W.ULe 2 / W.ULe 0) (W.ULe 3 / W.ULe 0) (W.ULe 0) W.z

/-- The premises of the fixed-point statement of the perturbation modes for
the cell `i` of the mesh `M` (a notion of the statements, not of the source):
source mode 2 or 3 with only the HLLE solver compiled in and a single gamma;
at most six variables; no boundary wall without a boundary id; the cell is
integrated, its density is the equilibrium density and it has no vertical
momentum, so that `compute_source` gives `S[3] = S[4] = 0`, and the other
components of `S` are zero as `create_mesh` leaves them; each of its six walls
is an inner wall at rest or a solid wall whose inner state is at rest, after
the reconstruction of `compute_fluxes`, and on a solid wall the density
`UR[0]` by which `compute_transport` divides is not zero. -/
structure RestCell (fl : Flags) (M : Mesh K) (sim : Sim K) (i : Nat) : Prop where
  mode : fl.ST = 2 ∨ fl.ST = 3
  solver : fl.HLLE = true ∧ fl.HLLC = false ∧ fl.HLLS = false ∧ fl.LINEAR_TRANSPORT = false
    ∧ fl.MULTICOMPONENT = false
  nvar_le : sim.nvar ≤ 6
  bound_ids : ∀ j, j < M.nwalls → (M.wall j).wtype = 3 ∨ (M.wall j).wtype = 4 →
    (M.wall j).boundId ≠ 999
  cell_lt : i < M.ncells
  integrated : (M.cell i).type ≠ 0 ∧ (M.cell i).ghost ≠ 1
  equilibrium : (M.cell i).U 0 = (M.cell i).Ue 0 ∧ (M.cell i).U 3 = 0
  source_zero : (M.cell i).S 0 = 0 ∧ (M.cell i).S 1 = 0 ∧ (M.cell i).S 2 = 0
    ∧ (M.cell i).S 5 = 0
  walls : ∀ j, (j = (M.cell i).w1 ∨ j = (M.cell i).w2 ∨ j = (M.cell i).w3
      ∨ j = (M.cell i).w4 ∨ j = (M.cell i).w5 ∨ j = (M.cell i).w6) →
    j < M.nwalls
    ∧ (((M.wall j).wtype = 1
        ∧ wall_at_rest fl.ST (compute_fluxes_reconstruct fl M sim (M.wall j)))
      ∨ ((M.wall j).wtype = 4
        ∧ solid_wall_at_rest fl.ST (compute_fluxes_reconstruct fl M sim (M.wall j))
            (M.wall j).boundId
        ∧ (compute_fluxes_reconstruct fl M sim (M.wall j)).UR 0 ≠ 0))

/-- The wall `j` is one of the six walls the cell `c` points to (a notion of
the statements). -/
def cell_wall (c : Cell K) (j : Nat) : Prop :=
  j = c.w1 ∨ j = c.w2 ∨ j = c.w3 ∨ j = c.w4 ∨ j = c.w5 ∨ j = c.w6

/-- What the wall-type statement assumes of the connectivity around the cell
`i` of the mesh `M` (a notion of the statement, not of the source), as
`create_mesh` builds it: each of the six walls of the cell is a wall of the
mesh and has the cell as its left or right cell, and a wall that a boundary
loop of `assign_wall_type` writes for a cell of its face belongs to no other
cell (the walls of the faces of the domain are not shared). -/
structure CellWiring (M : Mesh K) (i : Nat) : Prop where
  walls : ∀ j, cell_wall (M.cell i) j →
    j < M.nwalls ∧ ((M.wall j).cellL = i ∨ (M.wall j).cellR = i)
  face1 : ∀ l n, l < M.xcells → n < M.zcells →
    cell_wall (M.cell i) (M.cell (M.xcells * 0 + l + n * M.xcells * M.ycells)).w1_id →
    M.xcells * 0 + l + n * M.xcells * M.ycells = i
  face3 : ∀ l n, l < M.xcells → n < M.zcells →
    cell_wall (M.cell i)
      (M.cell (M.xcells * (M.ycells - 1) + l + n * M.xcells * M.ycells)).w3_id →
    M.xcells * (M.ycells - 1) + l + n * M.xcells * M.ycells = i
  face2 : ∀ m n, m < M.ycells → n < M.zcells →
    cell_wall (M.cell i)
      (M.cell (M.xcells * m + (M.xcells - 1) + n * M.xcells * M.ycells)).w2_id →
    M.xcells * m + (M.xcells - 1) + n * M.xcells * M.ycells = i
  face4 : ∀ m n, m < M.ycells → n < M.zcells →
    cell_wall (M.cell i) (M.cell (M.xcells * m + 0 + n * M.xcells * M.ycells)).w4_id →
    M.xcells * m + 0 + n * M.xcells * M.ycells = i
  face5 : ∀ m l, m < M.ycells → l < M.xcells →
    cell_wall (M.cell i) (M.cell (M.xcells * m + l + 0 * M.xcells * M.ycells)).w5_id →
    M.xcells * m + l + 0 * M.xcells * M.ycells = i
  face6 : ∀ m l, m < M.ycells → l < M.xcells →
    cell_wall (M.cell i)
      (M.cell (M.xcells * m + l + (M.zcells - 1) * M.xcells * M.ycells)).w6_id →
    M.xcells * m + l + (M.zcells - 1) * M.xcells * M.ycells = i

/-! ## Concrete data used to instantiate the theorems -/

/-- An array with the six given entries (and 0 beyond). -/
def state6 (a b c d e f : K) : Nat → K := fun m =>
  match m with
  | 0 => a
  | 1 => b
  | 2 => c
  | 3 => d
  | 4 => e
  | 5 => f
  | _ => 0

/-- A wall with every field 0. -/
def zeroWall : Wall K :=
  { id := 0, stencil := 0, UL := fun _ => 0, UR := fun _ => 0, fR_star := fun _ => 0,
    fL_star := fun _ => 0, ULe := fun _ => 0, URe := fun _ => 0, pRe := 0, pLe := 0,
    cellR_id := 0, cellL_id := 0, cellR := 0, cellL := 0, nx := 0, ny := 0, nz := 0, z := 0,
    wtype := 0, boundId := 0, vel := 0 }

/-- A triangle with every field 0. -/
def zeroTriangle : Triangle K :=
  { outside := 0, nr := fun _ => 0, absnr := 0, p1 := fun _ => 0, p2 := fun _ => 0,
    p3 := fun _ => 0, imin := fun _ => 0, imax := fun _ => 0 }

/-- A cell with every field 0. -/
def zeroCell : Cell K :=
  { id := 0, l := 0, m := 0, n := 0, U := fun _ => 0, U_aux := fun _ => 0, Ue := fun _ => 0,
    S := fun _ => 0, S_corr := fun _ => 0, pres := 0, prese := 0, u_int := 0, dx := 0, dy := 0,
    dz := 0, xc := 0, yc := 0, zc := 0, n1 := 0, n2 := 0, n3 := 0, n4 := 0, n5 := 0, n6 := 0,
    n7 := 0, n8 := 0, w1_id := 0, w2_id := 0, w3_id := 0, w4_id := 0, w5_id := 0, w6_id := 0,
    w1 := 0, w2 := 0, w3 := 0, w4 := 0, w5 := 0, w6 := 0, type := 0, ghost := 0, xim := 0,
    yim := 0, zim := 0, ni := fun _ => 0, li := fun _ => 0, distabs := 0, distsolx := 0,
    distsoly := 0, distsolz := 0, solid_id := 0, triangle_id := 0, out := 0,
    tri := zeroTriangle, st_sizeX := 0, st_sizeY := 0, st_sizeZ := 0, stX := fun _ => 0,
    stY := fun _ => 0, stZ := fun _ => 0 }

/-- A mesh with every field 0. -/
def zeroMesh : Mesh K :=
  { xcells := 0, ycells := 0, zcells := 0, dx := 0, dy := 0, dz := 0, Lx := 0, Ly := 0,
    Lz := 0, u_x := 0, u_y := 0, u_z := 0, ncells := 0, nwalls := 0, nnodes := 0,
    bc := fun _ => 0, flux_bc_flag := 0, cell_bc_flag := 0, periodicX := 0, periodicY := 0,
    periodicZ := 0, cell := fun _ => zeroCell, wall := fun _ => zeroWall,
    node := fun _ => { id := 0, x := 0, y := 0, z := 0 }, lambda_max := 0, tke := 0, mass := 0,
    energy := 0 }

/-- Simulation parameters of an Euler run (`nvar` 6) with time step `dt`. -/
def eulerSim (dt : K) (order : Int) : Sim K :=
  { dt := dt, t := 0, CFL := 0, tf := 0, tVolc := 0, rk_steps := if order = 1 then 1 else 3,
    order := order, nvar := 6 }

/-- The state at rest with density 1 and pressure 1 (`E = p/(gamma-1) = 5/2`). -/
def restState : Nat → K := state6 1 0 0 0 (5 / 2) 0

/-- An x-wall between two copies of `restState`. -/
def restWall : Wall K :=
  { (zeroWall : Wall K) with UL := restState, UR := restState, nx := 1, wtype := 1 }

/-- A cell of fluid at rest (`restState`) whose equilibrium density is 2. -/
def oneCell : Cell K :=
  { (zeroCell : Cell K) with
    U := restState, Ue := state6 2 0 0 0 5 0, dx := 1, dy := 1, dz := 1, type := 1 }

/-- A mesh of one fluid cell, `oneCell`, with all wall fluxes 0. -/
def oneCellMesh : Mesh K :=
  { (zeroMesh : Mesh K) with
    xcells := 1, ycells := 1, zcells := 1, dx := 1, dy := 1, dz := 1, ncells := 1,
    cell := fun _ => oneCell }

/-- One solid, with no triangle data (only `nsolid` is read by the ghost
update). -/
def oneSolid : Solids K :=
  { nsolid := 1,
    stl := fun _ => { ntri := 0, nver := 0, Xmin := fun _ => 0, Xmax := fun _ => 0,
                      imin := fun _ => 0, imax := fun _ => 0, triangle := fun _ => zeroTriangle } }

/-- A mesh of two cells: cell 0 is a ghost cell whose triangle has normal
`(1, 0, 0)` and whose image point takes its whole weight from cell 1; cell 1 is
fluid with state `(1, 2, 3, 4, 5, 6)`. -/
def ghostMesh : Mesh K :=
  { (zeroMesh : Mesh K) with
    xcells := 2, ycells := 1, zcells := 1, ncells := 2,
    cell := fun i =>
      if i = 0 then
        { (zeroCell : Cell K) with
          type := 1, ghost := 1, ni := fun _ => 1, li := fun q => if q = 0 then 1 else 0,
          tri := { (zeroTriangle : Triangle K) with nr := state6 1 0 0 0 0 0, absnr := 1 } }
      else
        { (zeroCell : Cell K) with id := 1, l := 1, type := 1, U := state6 1 2 3 4 5 6 } }

/-- A grid of `2 x 2 x 2` cells of unit size with all six faces periodic
(boundary code 1), before `create_mesh`. -/
def periodicGrid : Mesh K :=
  { (zeroMesh : Mesh K) with
    xcells := 2, ycells := 2, zcells := 2, dx := 1, dy := 1, dz := 1, bc := fun _ => 1 }

/-- The mesh `create_mesh` builds from `periodicGrid`, filled with fluid cells
of density `1 + i` in cell `i`, no source, and the mass flux 1 through every
wall. -/
def periodicFlowMesh : Mesh K :=
  { create_mesh (periodicGrid : Mesh K) (eulerSim 0 1) with
    cell := fun i =>
      { (create_mesh (periodicGrid : Mesh K) (eulerSim 0 1)).cell i with
        U := state6 (1 + (i : K)) 0 0 0 (5 / 2) 0, S := fun _ => 0, type := 1, ghost := 0 },
    wall := fun j =>
      { (create_mesh (periodicGrid : Mesh K) (eulerSim 0 1)).wall j with
        fL_star := fun _ => 1, fR_star := fun _ => 1 } }

/-- The build flags of source mode 1: augmented source with the HLLS solver,
UWC reconstruction, one component. -/
def hllsFlags : Flags :=
  { TYPE_REC := 2, ST := 1, MULTICOMPONENT := false, MULTI_TYPE := 0, LINEAR_TRANSPORT := false,
    HLLE := false, HLLC := false, HLLS := true }

/-- The states of the three cells of `columnMesh`, from the bottom: at rest,
with densities 10, 9, 5 and energies 25, 20, 10 (pressures 10, 8, 4). -/
def columnState (n : Nat) : Nat → K :=
  if n = 0 then state6 10 0 0 0 25 0
  else if n = 1 then state6 9 0 0 0 20 0
  else state6 5 0 0 0 10 0

/-- The cell `n` of `columnMesh`: wall pointers as `create_mesh` numbers them
on a grid of `1 x 1 x 3` cells, stencils as `update_stencils` sets them at
order 3 with periodic x and y and closed z (the middle cell has the z-stencil
0, 1, 2, the other two have size 1), state `columnState n` in `U` and `Ue`. -/
def columnCell (n : Nat) : Cell K :=
  { (zeroCell : Cell K) with
    id := n, n := n, U := columnState n, Ue := columnState n, dx := 1, dy := 1, dz := 1,
    type := 1,
    w1_id := 5 * n, w4_id := 5 * n + 1, w5_id := 5 * n + 2, w2_id := 5 * n + 3,
    w3_id := 5 * n + 4, w6_id := if n = 2 then 15 else 5 * n + 7,
    w1 := 5 * n, w4 := 5 * n + 1, w5 := 5 * n + 2, w2 := 5 * n + 3, w3 := 5 * n + 4,
    w6 := if n = 2 then 15 else 5 * n + 7,
    st_sizeX := 3, st_sizeY := 3, st_sizeZ := if n = 1 then 3 else 1,
    stX := fun p => if p < 3 then (n : Int) else -1,
    stY := fun p => if p < 3 then (n : Int) else -1,
    stZ := fun p =>
      if n = 1 then (if p < 3 then (p : Int) else -1) else (if p < 1 then (n : Int) else -1) }

/-- The wall `j` of `columnMesh`: in layer `j / 5` the walls `5n, 5n+4` are the
y-walls, `5n+1, 5n+3` the x-walls and `5n+2` the lower z-wall of cell `n`;
wall 15 closes the top.  Neighbours as `create_mesh` wires them, types and
boundary identifiers as `assign_wall_type` sets them with periodic x and y and
solid bottom and top. -/
def columnWall (j : Nat) : Wall K :=
  { (zeroWall : Wall K) with
    id := j,
    cellR_id := if j = 15 then 0 else j / 5,
    cellL_id := if j = 15 then 2 else if j % 5 = 2 then (if j / 5 = 0 then 2 else j / 5 - 1)
      else j / 5,
    cellR := if j = 15 then 0 else j / 5,
    cellL := if j = 15 then 2 else if j % 5 = 2 then (if j / 5 = 0 then 2 else j / 5 - 1)
      else j / 5,
    nx := if j ≠ 15 ∧ (j % 5 = 1 ∨ j % 5 = 3) then 1 else 0,
    ny := if j ≠ 15 ∧ (j % 5 = 0 ∨ j % 5 = 4) then 1 else 0,
    nz := if j = 15 ∨ j % 5 = 2 then 1 else 0,
    wtype := if j = 2 ∨ j = 15 then 4 else 1,
    boundId := if j = 15 then 6 else if j % 5 = 0 then 1 else if j % 5 = 1 then 4
      else if j % 5 = 3 then 2 else if j % 5 = 4 then 3 else if j = 2 then 5 else 999 }

/-- A column of three cells of unit size at rest in equilibrium (`U = Ue`),
periodic in x and y. -/
def columnMesh : Mesh K :=
  { (zeroMesh : Mesh K) with
    xcells := 1, ycells := 1, zcells := 3, dx := 1, dy := 1, dz := 1, ncells := 3, nwalls := 16,
    bc := fun k => if k < 4 then 1 else 4, periodicX := 1, periodicY := 1,
    cell := columnCell, wall := columnWall }

/-- An x-wall at height `z = 1` between two copies of the state at rest with
density 1 and pressure 1 in the energy convention of source mode 3
(`E = p/(gamma-1) + rho*g*z = 5/2 + 49/5`). -/
def gravityWall : Wall K :=
  { (zeroWall : Wall K) with
    UL := state6 1 0 0 0 (123 / 10) 0, UR := state6 1 0 0 0 (123 / 10) 0, nx := 1, z := 1,
    wtype := 3, boundId := 2 }

/-- A wall with a small positive mass flux (`TOL14/2` on both sides) and
different scalar concentrations on its two sides (1 on the right, 2 on the
left). -/
def slowWall : Wall K :=
  { (zeroWall : Wall K) with
    UL := state6 1 0 0 0 (5 / 2) 2, UR := state6 1 0 0 0 (5 / 2) 1, nx := 1,
    fR_star := state6 (TOL14 / 2) 0 0 0 0 0, fL_star := state6 (TOL14 / 2) 0 0 0 0 0, wtype := 1 }

/-- A row of three cells, periodic in x and transmissive in y and z, whose
middle cell is solid: the two fluid cells record the distance 1 to it along
x, every other recorded distance is the initial `9999999`. -/
def solidRowMesh : Mesh K :=
  { (zeroMesh : Mesh K) with
    xcells := 3, ycells := 1, zcells := 1, ncells := 3, periodicX := 1,
    bc := fun k => if k = 1 ∨ k = 3 then 1 else 3,
    cell := fun i =>
      { (zeroCell : Cell K) with
        id := i, l := i, type := if i = 1 then 0 else 1,
        distsolx := if i = 1 then 9999999 else 1, distsoly := 9999999, distsolz := 9999999 } }

/-- A row of two fluid cells with transmissive boundaries on all faces and no
solid cell (every recorded distance is the initial `9999999`). -/
def shortRowMesh : Mesh K :=
  { (zeroMesh : Mesh K) with
    xcells := 2, ycells := 1, zcells := 1, ncells := 2, bc := fun _ => 3,
    cell := fun i =>
      { (zeroCell : Cell K) with
        id := i, l := i, type := 1, distsolx := 9999999, distsoly := 9999999,
        distsolz := 9999999 } }

/-- The values of the build switches in the source: TENO reconstruction,
source mode 3, one component, HLLE solver. -/
def buildFlags : Flags :=
  { TYPE_REC := 1, ST := 3, MULTICOMPONENT := false, MULTI_TYPE := 2, LINEAR_TRANSPORT := false,
    HLLE := true, HLLC := false, HLLS := false }

/-- A mesh with one wall, inactive (`wtype = 0`), whose stored fluxes are 1 in
every component. -/
def inactiveWallMesh : Mesh K :=
  { (zeroMesh : Mesh K) with
    nwalls := 1,
    wall := fun _ => { (zeroWall : Wall K) with fL_star := fun _ => 1, fR_star := fun _ => 1 } }

/-- The mesh `oneCellMesh` with every wall holding left flux 1 and right flux 0
in every component: the cell loses `3*dt` of every conserved variable. -/
def drainMesh : Mesh K :=
  { (oneCellMesh : Mesh K) with
    wall := fun _ => { (zeroWall : Wall K) with fL_star := fun _ => 1 } }

/-- Two solid cells with one wall between them, marked as an interior wall. -/
def solidPairMesh : Mesh K :=
  { (zeroMesh : Mesh K) with
    xcells := 2, ycells := 1, zcells := 1, ncells := 2, nwalls := 1,
    wall := fun _ => { (zeroWall : Wall K) with cellL := 0, cellR := 1, nx := 1, wtype := 1 } }

/-- An x-wall between the states `(1, 1, 0, 0, 3, 0)` and `(2, 0, 1, 0, 6, 0)`. -/
def shearWall : Wall K :=
  { (zeroWall : Wall K) with
    UL := state6 1 1 0 0 3 0, UR := state6 2 0 1 0 6 0, nx := 1, wtype := 1 }

/-- The triangle with corners `(0,0,0)`, `(4,0,0)`, `(0,4,0)` and unit normal
`(0,0,1)`. -/
def flatTriangle : Triangle K :=
  { (zeroTriangle : Triangle K) with
    nr := fun q => if q = 2 then 1 else 0, absnr := 1,
    p2 := fun q => if q = 0 then 4 else 0, p3 := fun q => if q = 1 then 4 else 0 }

/-- A cell with centre `(1, 1, -1/2)`, not yet tagged (`distabs = 100`). -/
def belowCell : Cell K :=
  { (zeroCell : Cell K) with xc := 1, yc := 1, zc := -1 / 2, type := 1, distabs := 100 }

/-- A grid of `3 x 1 x 3` unit cells; the four cells next to the centre cell 4
in the x and z directions (the cells 1, 3, 5, 7) are ghost cells, with a
triangle of normal `(1, 1, 1)`. -/
def rayMeshXZ : Mesh K :=
  { (zeroMesh : Mesh K) with
    xcells := 3, ycells := 1, zcells := 3, dx := 1, dy := 1, dz := 1, ncells := 9,
    cell := fun n =>
      { (zeroCell : Cell K) with
        xc := ((n % 3 : Nat) : K) + 1 / 2, yc := 1 / 2, zc := ((n / 3 : Nat) : K) + 1 / 2,
        type := 1, ghost := if n % 2 = 1 then 1 else 0,
        tri := { (zeroTriangle : Triangle K) with nr := fun _ => 1, absnr := 1 } } }

/-- One solid whose bounding box is the cell `(1, 0, 1)`. -/
def centreSolidXZ : Solids K :=
  { nsolid := 1,
    stl := fun _ =>
      { ntri := 0, nver := 0, Xmin := fun _ => 0, Xmax := fun _ => 0,
        imin := fun q => if q = 1 then 0 else 1, imax := fun q => if q = 1 then 0 else 1,
        triangle := fun _ => zeroTriangle } }

/-- A grid of `3 x 3 x 1` unit cells; the four cells next to the centre cell 4
in the x and y directions (the cells 1, 3, 5, 7) are ghost cells, with a
triangle of normal `(1, 1, 1)`. -/
def rayMeshXY : Mesh K :=
  { (zeroMesh : Mesh K) with
    xcells := 3, ycells := 3, zcells := 1, dx := 1, dy := 1, dz := 1, ncells := 9,
    cell := fun n =>
      { (zeroCell : Cell K) with
        xc := ((n % 3 : Nat) : K) + 1 / 2, yc := ((n / 3 : Nat) : K) + 1 / 2, zc := 1 / 2,
        type := 1, ghost := if n % 2 = 1 then 1 else 0,
        tri := { (zeroTriangle : Triangle K) with nr := fun _ => 1, absnr := 1 } } }

/-- One solid whose bounding box is the cell `(1, 1, 0)`. -/
def centreSolidXY : Solids K :=
  { nsolid := 1,
    stl := fun _ =>
      { ntri := 0, nver := 0, Xmin := fun _ => 0, Xmax := fun _ => 0,
        imin := fun q => if q = 2 then 0 else 1, imax := fun q => if q = 2 then 0 else 1,
        triangle := fun _ => zeroTriangle } }

/-- A row of three unit cells with one solid: the cells 0 and 1 are ghost
cells, the image point of cell 0 is `(2, 1/2, 1/2)`, between the centres of
the cells 1 and 2, and the image point of cell 1, `(0, 1/2, 1/2)`, is on the
boundary of the domain; cell 2 is fluid. -/
def imageMesh : Mesh K :=
  { (zeroMesh : Mesh K) with
    xcells := 3, ycells := 1, zcells := 1, dx := 1, dy := 1, dz := 1, Lx := 3, Ly := 1, Lz := 1,
    ncells := 3,
    cell := fun n =>
      { (zeroCell : Cell K) with
        xc := (n : K) + 1 / 2, yc := 1 / 2, zc := 1 / 2, type := 1,
        ghost := if n < 2 then 1 else 0,
        xim := if n = 0 then 2 else 0, yim := 1 / 2, zim := 1 / 2 } }

/-- A mesh of unit cells on which no wave speed has been recorded
(`lambda_max = 0`, as `compute_fluxes` leaves it when every wall is a
transmissive boundary wall). -/
def stillMesh : Mesh K :=
  { (zeroMesh : Mesh K) with dx := 1, dy := 1, dz := 1 }

/-- Simulation parameters with `CFL = 1/2`, `t = 1/4`, `tf = 1`. -/
def quarterSim : Sim K :=
  { (eulerSim (0 : K) 3) with CFL := 1 / 2, t := 1 / 4, tf := 1 }

/-- A y-wall between two fluids at rest along the normal, with pressure 1,
densities 1 and 4 and different tangential velocities. -/
def contactWall : Wall K :=
  { (zeroWall : Wall K) with
    UL := state6 1 1 0 2 5 0, UR := state6 4 (-4) 0 0 (9 / 2) 0, ny := 1, wtype := 1 }

/-- A z-wall between the states at rest `UL = ULe` and `UR = URe` (energies
`EL`, `ER`), with the equilibrium pressures `(gamma - 1) E` of the two
sides. -/
def balanceWall (rhoL EL rhoR ER : K) : Wall K :=
  { (zeroWall : Wall K) with
    UL := state6 rhoL 0 0 0 EL 0, ULe := state6 rhoL 0 0 0 EL 0,
    UR := state6 rhoR 0 0 0 ER 0, URe := state6 rhoR 0 0 0 ER 0,
    pLe := (gamma - 1) * EL, pRe := (gamma - 1) * ER, nz := 1, wtype := 1 }

/-- One cell at rest in equilibrium (density 9, energy 20) between its lower
z-wall (wall 0, from a cell of density 10 and energy 25) and its upper z-wall
(wall 1, to a cell of density 5 and energy 10), with `S_corr[3]` as
`equilibrium_reconstruction` sets it. -/
def balanceMesh : Mesh K :=
  { (zeroMesh : Mesh K) with
    xcells := 1, ycells := 1, zcells := 1, dx := 1, dy := 1, dz := 1, ncells := 1, nwalls := 2,
    cell := fun _ =>
      { (zeroCell : Cell K) with
        U := state6 9 0 0 0 20 0, Ue := state6 9 0 0 0 20 0, dx := 1, dy := 1, dz := 1,
        type := 1, st_sizeZ := 3, w5 := 0, w6 := 1,
        S_corr := fun k =>
          if k = 3 then ((gamma - 1) * 20 - (gamma - 1) * 20) / 1 + g * 9 else 0 },
    wall := fun j => if j = 0 then balanceWall 10 25 9 20 else balanceWall 9 20 5 10 }

/-- The build flags of the perturbation mode 2 with the HLLE solver, UWC
reconstruction, one component. -/
def hlleFlags : Flags :=
  { TYPE_REC := 2, ST := 2, MULTICOMPONENT := false, MULTI_TYPE := 0, LINEAR_TRANSPORT := false,
    HLLE := true, HLLC := false, HLLS := false }

/-- The state at rest with density 9 and energy 20 (pressure 8). -/
def hydroState : Nat → K := state6 9 0 0 0 20 0

/-- The pressure of `hydroState`, `(gamma - 1) * 20`. -/
def hydroPressure : K := 8

/-- The wall `j` of `hydroMesh`: the walls 0..3 are the lateral walls, inner
walls that join the cell to itself; the walls 4 and 5 are the solid walls at
the bottom (boundary id 5) and at the top (boundary id 6).  Every wall holds
`hydroState` as state and as equilibrium state on both sides, with the
equilibrium pressure 8. -/
def hydroWall (j : Nat) : Wall K :=
  { (zeroWall : Wall K) with
    id := j, UL := hydroState, UR := hydroState, ULe := hydroState, URe := hydroState,
    pLe := hydroPressure, pRe := hydroPressure,
    nx := if j = 1 ∨ j = 3 then 1 else 0,
    ny := if j = 0 ∨ j = 2 then 1 else 0,
    nz := if j = 4 ∨ j = 5 then 1 else 0,
    wtype := if j < 4 then 1 else 4,
    boundId := if j = 4 then 5 else if j = 5 then 6 else 999 }

/-- A mesh of one cell of fluid at rest in its equilibrium state
(`hydroState`), with first-order stencils, between a solid floor and a solid
lid, its lateral walls joining it to itself. -/
def hydroMesh : Mesh K :=
  { (zeroMesh : Mesh K) with
    xcells := 1, ycells := 1, zcells := 1, dx := 1, dy := 1, dz := 1, ncells := 1, nwalls := 6,
    cell := fun _ =>
      { (zeroCell : Cell K) with
        U := hydroState, U_aux := hydroState, Ue := hydroState, dx := 1, dy := 1, dz := 1,
        type := 1, w1 := 0, w2 := 1, w3 := 2, w4 := 3, w5 := 4, w6 := 5,
        st_sizeX := 1, st_sizeY := 1, st_sizeZ := 1 },
    wall := hydroWall }

/-! # Theorems

## Counted loops -/

lemma forLoop_succ {σ : Type} (n : Nat) (body : Nat → σ → σ) (s : σ) :
    forLoop (n + 1) body s = body n (forLoop n body s) := rfl

/-- A loop whose iteration `i` rewrites entry `i` of an array from the old value of that entry
only. -/
lemma forLoop_pointwise {α : Type} (h : Nat → α → α) (n : Nat) (c0 : Nat → α) :
    forLoop n (fun i c => Function.update c i (h i (c i))) c0
      = fun i => if i < n then h i (c0 i) else c0 i := by
  induction n with
  | zero => funext i; simp [forLoop]
  | succ n ih =>
    rw [forLoop_succ, ih]
    funext i
    by_cases hi : i = n
    · subst hi; simp
    · rw [Function.update_noteq hi]
      have : i < n + 1 ↔ i < n := by omega
      simp only [this]

/-- The same for a guarded write. -/
lemma forLoop_pointwise_if {α : Type} (P : α → Prop) [DecidablePred P] (gfun : α → α) (n : Nat)
    (c0 : Nat → α) :
    forLoop n (fun i c => if P (c i) then Function.update c i (gfun (c i)) else c) c0
      = fun i => if i < n then (if P (c0 i) then gfun (c0 i) else c0 i) else c0 i := by
  have e : (fun i (c : Nat → α) => if P (c i) then Function.update c i (gfun (c i)) else c)
      = fun i c => Function.update c i ((fun _ a => if P a then gfun a else a) i (c i)) := by
    funext i c
    by_cases hp : P (c i)
    · simp [hp]
    · simp [hp]
  rw [e]
  exact forLoop_pointwise (fun _ a => if P a then gfun a else a) n c0

lemma forLoop_pair {α : Type} (f : Nat → α → α) (n : Nat) (U0 A0 : Nat → α) :
    forLoop n (fun k (s : (Nat → α) × (Nat → α)) =>
        (Function.update s.1 k (f k (s.1 k)), Function.update s.2 k (s.1 k))) (U0, A0)
      = (fun k => if k < n then f k (U0 k) else U0 k, fun k => if k < n then U0 k else A0 k) := by
  induction n with
  | zero => simp [forLoop]
  | succ n ih =>
    rw [forLoop_succ, ih]
    refine Prod.ext ?_ ?_ <;> funext i <;> by_cases hi : i = n
    · subst hi; simp
    · simp only [Function.update_noteq hi]
      have : i < n + 1 ↔ i < n := by omega
      simp only [this]
    · subst hi; simp
    · simp only [Function.update_noteq hi]
      have : i < n + 1 ↔ i < n := by omega
      simp only [this]

lemma forLoop_congr {σ : Type} (n : Nat) (body body' : Nat → σ → σ)
    (h : ∀ i, i < n → ∀ s, body i s = body' i s) (s : σ) :
    forLoop n body s = forLoop n body' s := by
  induction n with
  | zero => rfl
  | succ n ih =>
    rw [forLoop_succ, forLoop_succ, ih (fun i hi => h i (by omega)), h n (by omega)]

lemma forLoop_add {σ : Type} (a b : Nat) (body : Nat → σ → σ) (s : σ) :
    forLoop (a + b) body s = forLoop b (fun i => body (a + i)) (forLoop a body s) := by
  induction b with
  | zero => rfl
  | succ b ih =>
    rw [← Nat.add_assoc, forLoop_succ, forLoop_succ, ih]

/-- Two nested counted loops are one loop over the row-major index. -/
lemma forLoop_nested {σ : Type} (Y X : Nat) (body : Nat → Nat → σ → σ) (s : σ) :
    forLoop Y (fun m s => forLoop X (fun l s => body l m s) s) s
      = forLoop (Y * X) (fun t s => body (t % X) (t / X) s) s := by
  induction Y with
  | zero => simp [forLoop]
  | succ Y ih =>
    rw [forLoop_succ, ih, Nat.succ_mul, forLoop_add]
    apply forLoop_congr
    intro i hi s
    have hX : 0 < X := by omega
    have h1 : (Y * X + i) % X = i := by
      rw [Nat.mul_comm, Nat.mul_add_mod, Nat.mod_eq_of_lt hi]
    have h2 : (Y * X + i) / X = Y := by
      rw [Nat.mul_comm, Nat.mul_add_div hX, Nat.div_eq_of_lt hi, Nat.add_zero]
    simp only [h1, h2]

/-- Three nested counted loops are one loop over the row-major index. -/
lemma forLoop_nested3 {σ : Type} (Z Y X : Nat) (body : Nat → Nat → Nat → σ → σ) (s : σ) :
    forLoop Z (fun n s => forLoop Y (fun m s => forLoop X (fun l s => body l m n s) s) s) s
      = forLoop (Z * (Y * X)) (fun t s => body (t % X) (t / X % Y) (t / (Y * X)) s) s := by
  have h1 : (fun n s => forLoop Y (fun m s => forLoop X (fun l s => body l m n s) s) s)
      = fun n s => forLoop (Y * X) (fun t s => body (t % X) (t / X) n s) s := by
    funext n s
    exact forLoop_nested Y X (fun l m s => body l m n s) s
  rw [h1, forLoop_nested Z (Y * X) (fun t n s => body (t % X) (t / X) n s)]
  apply forLoop_congr
  intro t _ s
  have e1 : t % (Y * X) % X = t % X := Nat.mod_mul_left_mod t Y X
  have e2 : t % (Y * X) / X = t / X % Y := by
    rw [Nat.mul_comm Y X, Nat.mod_mul_right_div_self]
  simp only [e1, e2]

/-- Row-major decoding. -/
lemma rowmajor_decode (X Y l m n : Nat) (hl : l < X) (hm : m < Y) :
    (l + m * X + n * X * Y) % X = l ∧ (l + m * X + n * X * Y) / X % Y = m
      ∧ (l + m * X + n * X * Y) / (Y * X) = n := by
  have hX : 0 < X := by omega
  have hY : 0 < Y := by omega
  have e : l + m * X + n * X * Y = l + X * (m + Y * n) := by ring
  have d1 : (l + X * (m + Y * n)) / X = m + Y * n := by
    rw [Nat.add_mul_div_left _ _ hX, Nat.div_eq_of_lt hl, Nat.zero_add]
  refine ⟨?_, ?_, ?_⟩
  · rw [e, Nat.add_mul_mod_self_left, Nat.mod_eq_of_lt hl]
  · rw [e, d1, Nat.add_mul_mod_self_left, Nat.mod_eq_of_lt hm]
  · rw [e, Nat.mul_comm Y X, ← Nat.div_div_eq_div_mul, d1, Nat.add_mul_div_left _ _ hY,
      Nat.div_eq_of_lt hm, Nat.zero_add]

/-- Row-major encoding of a decoded index. -/
lemma rowmajor_encode (X Y t : Nat) :
    t % X + t / X % Y * X + t / (Y * X) * X * Y = t := by
  have h1 := Nat.mod_add_div t X
  have h2 := Nat.mod_add_div (t / X) Y
  have h3 : t / (Y * X) = t / X / Y := by rw [Nat.mul_comm, Nat.div_div_eq_div_mul]
  rw [h3]
  calc t % X + t / X % Y * X + t / X / Y * X * Y
      = t % X + X * (t / X % Y + Y * (t / X / Y)) := by ring
    _ = t % X + X * (t / X) := by rw [h2]
    _ = t := h1

lemma rowmajor_bounds (X Y Z t : Nat) (ht : t < Z * (Y * X)) :
    t % X < X ∧ t / X % Y < Y ∧ t / (Y * X) < Z := by
  have hX : 0 < X := by
    rcases Nat.eq_zero_or_pos X with h | h
    · subst h; simp at ht
    · exact h
  have hY : 0 < Y := by
    rcases Nat.eq_zero_or_pos Y with h | h
    · subst h; simp at ht
    · exact h
  refine ⟨Nat.mod_lt _ hX, Nat.mod_lt _ hY, ?_⟩
  rw [Nat.div_lt_iff_lt_mul (by positivity)]
  exact ht

/-! ## Reconstruction weights -/

lemma epsilon_pos : (0 : K) < epsilon := by unfold epsilon; positivity
lemma epsilon2_pos : (0 : K) < epsilon2 := by unfold epsilon2; positivity
lemma CT_lt : (CT : K) < 1 / 4 := by
  unfold CT
  norm_num

lemma weno_alpha_pos {gk b : K} (hg : 0 < gk) (hb : 0 ≤ b) :
    0 < gk / ((b + epsilon) * (b + epsilon)) := by
  have h : (0 : K) < b + epsilon := add_pos_of_nonneg_of_pos hb epsilon_pos
  positivity

lemma teno_alpha_pos {b : K} (hb : 0 ≤ b) : (0 : K) < 1 / (b + epsilon2) ^ Q := by
  have h : (0 : K) < b + epsilon2 := add_pos_of_nonneg_of_pos hb epsilon2_pos
  positivity

lemma norm2 {a0 a1 : K} (h : 0 < a0 + a1) : a0 / (a0 + a1) + a1 / (a0 + a1) = 1 := by
  field_simp

lemma norm3 {a0 a1 a2 : K} (h : 0 < a0 + a1 + a2) :
    a0 / (a0 + a1 + a2) + a1 / (a0 + a1 + a2) + a2 / (a0 + a1 + a2) = 1 := by
  field_simp

lemma norm4 {a0 a1 a2 a3 : K} (h : 0 < a0 + a1 + a2 + a3) :
    a0 / (a0 + a1 + a2 + a3) + a1 / (a0 + a1 + a2 + a3) + a2 / (a0 + a1 + a2 + a3)
      + a3 / (a0 + a1 + a2 + a3) = 1 := by
  field_simp

lemma cut_nonneg (x : K) : (0 : K) ≤ (if x < CT then (0 : K) else 1) := by
  split_ifs <;> norm_num

lemma cut_pos_of {gk x : K} (hg : 0 < gk) (hx : 1 / 4 ≤ x) :
    0 < gk * (if x < CT then (0 : K) else 1) := by
  have hc := CT_lt (K := K)
  have : ¬ x < CT := by linarith
  simp [this, hg]

lemma cutg_nonneg {gk : K} (hg : 0 < gk) (x : K) :
    0 ≤ gk * (if x < CT then (0 : K) else 1) := mul_nonneg hg.le (cut_nonneg x)

lemma cut2_pos {g0 g1 a0 a1 : K} (hg0 : 0 < g0) (hg1 : 0 < g1) (h0 : 0 < a0) (h1 : 0 < a1) :
    0 < g0 * (if a0 / (a0 + a1) < CT then (0 : K) else 1)
      + g1 * (if a1 / (a0 + a1) < CT then (0 : K) else 1) := by
  have hs := norm2 (add_pos h0 h1)
  have n0 := cutg_nonneg hg0 (a0 / (a0 + a1))
  have n1 := cutg_nonneg hg1 (a1 / (a0 + a1))
  rcases le_or_lt (1 / 4) (a0 / (a0 + a1)) with c0 | c0
  · have := cut_pos_of hg0 c0; linarith
  rcases le_or_lt (1 / 4) (a1 / (a0 + a1)) with c1 | c1
  · have := cut_pos_of hg1 c1; linarith
  exfalso; linarith

lemma cut3_pos {g0 g1 g2 a0 a1 a2 : K} (hg0 : 0 < g0) (hg1 : 0 < g1) (hg2 : 0 < g2)
    (h0 : 0 < a0) (h1 : 0 < a1) (h2 : 0 < a2) :
    0 < g0 * (if a0 / (a0 + a1 + a2) < CT then (0 : K) else 1)
      + g1 * (if a1 / (a0 + a1 + a2) < CT then (0 : K) else 1)
      + g2 * (if a2 / (a0 + a1 + a2) < CT then (0 : K) else 1) := by
  have hs := norm3 (add_pos (add_pos h0 h1) h2)
  have n0 := cutg_nonneg hg0 (a0 / (a0 + a1 + a2))
  have n1 := cutg_nonneg hg1 (a1 / (a0 + a1 + a2))
  have n2 := cutg_nonneg hg2 (a2 / (a0 + a1 + a2))
  rcases le_or_lt (1 / 4) (a0 / (a0 + a1 + a2)) with c0 | c0
  · have := cut_pos_of hg0 c0; linarith
  rcases le_or_lt (1 / 4) (a1 / (a0 + a1 + a2)) with c1 | c1
  · have := cut_pos_of hg1 c1; linarith
  rcases le_or_lt (1 / 4) (a2 / (a0 + a1 + a2)) with c2 | c2
  · have := cut_pos_of hg2 c2; linarith
  exfalso; linarith

lemma cut4_pos {g0 g1 g2 g3 a0 a1 a2 a3 : K} (hg0 : 0 < g0) (hg1 : 0 < g1) (hg2 : 0 < g2)
    (hg3 : 0 < g3) (h0 : 0 < a0) (h1 : 0 < a1) (h2 : 0 < a2) (h3 : 0 < a3) :
    0 < g0 * (if a0 / (a0 + a1 + a2 + a3) < CT then (0 : K) else 1)
      + g1 * (if a1 / (a0 + a1 + a2 + a3) < CT then (0 : K) else 1)
      + g2 * (if a2 / (a0 + a1 + a2 + a3) < CT then (0 : K) else 1)
      + g3 * (if a3 / (a0 + a1 + a2 + a3) < CT then (0 : K) else 1) := by
  have hs := norm4 (add_pos (add_pos (add_pos h0 h1) h2) h3)
  have n0 := cutg_nonneg hg0 (a0 / (a0 + a1 + a2 + a3))
  have n1 := cutg_nonneg hg1 (a1 / (a0 + a1 + a2 + a3))
  have n2 := cutg_nonneg hg2 (a2 / (a0 + a1 + a2 + a3))
  have n3 := cutg_nonneg hg3 (a3 / (a0 + a1 + a2 + a3))
  rcases le_or_lt (1 / 4) (a0 / (a0 + a1 + a2 + a3)) with c0 | c0
  · have := cut_pos_of hg0 c0; linarith
  rcases le_or_lt (1 / 4) (a1 / (a0 + a1 + a2 + a3)) with c1 | c1
  · have := cut_pos_of hg1 c1; linarith
  rcases le_or_lt (1 / 4) (a2 / (a0 + a1 + a2 + a3)) with c2 | c2
  · have := cut_pos_of hg2 c2; linarith
  rcases le_or_lt (1 / 4) (a3 / (a0 + a1 + a2 + a3)) with c3 | c3
  · have := cut_pos_of hg3 c3; linarith
  exfalso; linarith

lemma weno5_beta_nonneg (phi : Nat → K) :
    0 ≤ (weno5_beta phi).1 ∧ 0 ≤ (weno5_beta phi).2.1 ∧ 0 ≤ (weno5_beta phi).2.2 := by
  simp only [weno5_beta]
  refine ⟨?_, ?_, ?_⟩
  · nlinarith [mul_self_nonneg (phi 0 - 2 * phi 1 + phi 2),
      mul_self_nonneg (phi 0 - 4 * phi 1 + 3 * phi 2)]
  · nlinarith [mul_self_nonneg (phi 1 - 2 * phi 2 + phi 3), mul_self_nonneg (phi 1 - phi 3)]
  · nlinarith [mul_self_nonneg (phi 2 - 2 * phi 3 + phi 4),
      mul_self_nonneg (3 * phi 2 - 4 * phi 3 + phi 4)]

lemma quad_b0 (x0 x1 x2 x3 : K) :
    x0 * (547 * x0 - 3882 * x1 + 4642 * x2 - 1854 * x3)
      + x1 * (7043 * x1 - 17246 * x2 + 7042 * x3)
      + x2 * (11003 * x2 - 9402 * x3) + x3 * 2107 * x3
    = 547 * (x0 - 1941 / 547 * x1 + 2321 / 547 * x2 - 927 / 547 * x3) ^ 2
      + 85040 / 547 * (x1 - 5293 / 2126 * x2 + 3167 / 2126 * x3) ^ 2
      + 203060 / 1063 * (x2 - x3) ^ 2 := by ring

lemma quad_b1 (x0 x1 x2 x3 : K) :
    x0 * (267 * x0 - 1642 * x1 + 1602 * x2 - 494 * x3)
      + x1 * (2843 * x1 - 5966 * x2 + 1922 * x3)
      + x2 * (3443 * x2 - 2522 * x3) + x3 * 547 * x3
    = 267 * (x0 - 821 / 267 * x1 + 3 * x2 - 247 / 267 * x3) ^ 2
      + 85040 / 267 * (x1 - 3471 / 2126 * x2 + 1345 / 2126 * x3) ^ 2
      + 203060 / 1063 * (x2 - x3) ^ 2 := by ring

lemma quad_b2 (x0 x1 x2 x3 : K) :
    x0 * (547 * x0 - 2522 * x1 + 1922 * x2 - 494 * x3)
      + x1 * (3443 * x1 - 5966 * x2 + 1602 * x3)
      + x2 * (2843 * x2 - 1642 * x3) + x3 * 267 * x3
    = 547 * (x0 - 1261 / 547 * x1 + 961 / 547 * x2 - 247 / 547 * x3) ^ 2
      + 293200 / 547 * (x1 - 10497 / 7330 * x2 + 3167 / 7330 * x3) ^ 2
      + 40612 / 733 * (x2 - x3) ^ 2 := by ring

lemma quad_b3 (x0 x1 x2 x3 : K) :
    x0 * (2107 * x0 - 9402 * x1 + 7042 * x2 - 1854 * x3)
      + x1 * (11003 * x1 - 17246 * x2 + 4642 * x3)
      + x2 * (7043 * x2 - 3882 * x3) + x3 * 547 * x3
    = 2107 * (x0 - 4701 / 2107 * x1 + 503 / 301 * x2 - 927 / 2107 * x3) ^ 2
      + 1083920 / 2107 * (x1 - 40411 / 27098 * x2 + 13313 / 27098 * x3) ^ 2
      + 203060 / 13549 * (x2 - x3) ^ 2 := by ring

lemma weno7_beta_nonneg (phi : Nat → K) :
    0 ≤ (weno7_beta phi).1 ∧ 0 ≤ (weno7_beta phi).2.1 ∧ 0 ≤ (weno7_beta phi).2.2.1
      ∧ 0 ≤ (weno7_beta phi).2.2.2 := by
  simp only [weno7_beta]
  refine ⟨?_, ?_, ?_, ?_⟩
  · rw [quad_b0]; positivity
  · rw [quad_b1]; positivity
  · rw [quad_b2]; positivity
  · rw [quad_b3]; positivity



lemma weno3R_weights_sum (typeRec : Nat) (phi : Nat → K) :
    (weno3R_weights typeRec phi).1 + (weno3R_weights typeRec phi).2 = 1 := by
  unfold weno3R_weights
  have hb0 : (0 : K) ≤ (phi 1 - phi 0) * (phi 1 - phi 0) := mul_self_nonneg _
  have hb1 : (0 : K) ≤ (phi 2 - phi 1) * (phi 2 - phi 1) := mul_self_nonneg _
  by_cases h0 : typeRec = 0
  · simp only [h0, if_true]
    exact norm2 (add_pos (weno_alpha_pos (by norm_num) hb0) (weno_alpha_pos (by norm_num) hb1))
  · by_cases h1 : typeRec = 1
    · simp only [h1, if_true, if_false, one_ne_zero]
      exact norm2 (cut2_pos (by norm_num) (by norm_num) (teno_alpha_pos hb0) (teno_alpha_pos hb1))
    · simp only [h0, h1, if_false]
      norm_num

lemma weno3L_weights_sum (typeRec : Nat) (phi : Nat → K) :
    (weno3L_weights typeRec phi).1 + (weno3L_weights typeRec phi).2 = 1 := by
  unfold weno3L_weights
  have hb0 : (0 : K) ≤ (phi 1 - phi 0) * (phi 1 - phi 0) := mul_self_nonneg _
  have hb1 : (0 : K) ≤ (phi 2 - phi 1) * (phi 2 - phi 1) := mul_self_nonneg _
  by_cases h0 : typeRec = 0
  · simp only [h0, if_true]
    exact norm2 (add_pos (weno_alpha_pos (by norm_num) hb0) (weno_alpha_pos (by norm_num) hb1))
  · by_cases h1 : typeRec = 1
    · simp only [h1, if_true, if_false, one_ne_zero]
      exact norm2 (cut2_pos (by norm_num) (by norm_num) (teno_alpha_pos hb0) (teno_alpha_pos hb1))
    · simp only [h0, h1, if_false]
      norm_num

lemma weno5_weights_sum {g0 g1 g2 : K} (hg0 : 0 < g0) (hg1 : 0 < g1) (hg2 : 0 < g2)
    (hg : g0 + g1 + g2 = 1) (typeRec : Nat) (phi : Nat → K) :
    (weno5_weights g0 g1 g2 typeRec phi).1 + (weno5_weights g0 g1 g2 typeRec phi).2.1
      + (weno5_weights g0 g1 g2 typeRec phi).2.2 = 1 := by
  unfold weno5_weights
  obtain ⟨hb0, hb1, hb2⟩ := weno5_beta_nonneg phi
  by_cases h0 : typeRec = 0
  · simp only [h0, if_true]
    exact norm3 (add_pos (add_pos (weno_alpha_pos hg0 hb0) (weno_alpha_pos hg1 hb1))
      (weno_alpha_pos hg2 hb2))
  · by_cases h1 : typeRec = 1
    · simp only [h1, if_true, if_false, one_ne_zero]
      exact norm3 (cut3_pos hg0 hg1 hg2 (teno_alpha_pos hb0) (teno_alpha_pos hb1)
        (teno_alpha_pos hb2))
    · simp only [h0, h1, if_false]
      exact hg

lemma weno7_weights_sum {g0 g1 g2 g3 : K} (hg0 : 0 < g0) (hg1 : 0 < g1) (hg2 : 0 < g2)
    (hg3 : 0 < g3) (hg : g0 + g1 + g2 + g3 = 1) (typeRec : Nat) (phi : Nat → K) :
    (weno7_weights g0 g1 g2 g3 typeRec phi).1 + (weno7_weights g0 g1 g2 g3 typeRec phi).2.1
      + (weno7_weights g0 g1 g2 g3 typeRec phi).2.2.1
      + (weno7_weights g0 g1 g2 g3 typeRec phi).2.2.2 = 1 := by
  unfold weno7_weights
  obtain ⟨hb0, hb1, hb2, hb3⟩ := weno7_beta_nonneg phi
  by_cases h0 : typeRec = 0
  · simp only [h0, if_true]
    exact norm4 (add_pos (add_pos (add_pos (weno_alpha_pos hg0 hb0) (weno_alpha_pos hg1 hb1))
      (weno_alpha_pos hg2 hb2)) (weno_alpha_pos hg3 hb3))
  · by_cases h1 : typeRec = 1
    · simp only [h1, if_true, if_false, one_ne_zero]
      exact norm4 (cut4_pos hg0 hg1 hg2 hg3 (teno_alpha_pos hb0) (teno_alpha_pos hb1)
        (teno_alpha_pos hb2) (teno_alpha_pos hb3))
    · simp only [h0, h1, if_false]
      exact hg

/-- Claim C1: in each of the six reconstruction routines (`weno3R`, `weno3L`,
`weno5R`, `weno5L`, `weno7R`, `weno7L`) and for every value of `TYPE_REC` (WENO,
TENO, UWC) and every stencil `phi`, the weights that multiply the candidate
polynomials add up to 1 in exact arithmetic. -/
theorem weno_weights_sum_one (typeRec : Nat) (phi : Nat → K) :
    ((weno3R_weights typeRec phi).1 + (weno3R_weights typeRec phi).2 = 1)
    ∧ ((weno3L_weights typeRec phi).1 + (weno3L_weights typeRec phi).2 = 1)
    ∧ ((weno5R_weights typeRec phi).1 + (weno5R_weights typeRec phi).2.1
        + (weno5R_weights typeRec phi).2.2 = 1)
    ∧ ((weno5L_weights typeRec phi).1 + (weno5L_weights typeRec phi).2.1
        + (weno5L_weights typeRec phi).2.2 = 1)
    ∧ ((weno7R_weights typeRec phi).1 + (weno7R_weights typeRec phi).2.1
        + (weno7R_weights typeRec phi).2.2.1 + (weno7R_weights typeRec phi).2.2.2 = 1)
    ∧ ((weno7L_weights typeRec phi).1 + (weno7L_weights typeRec phi).2.1
        + (weno7L_weights typeRec phi).2.2.1 + (weno7L_weights typeRec phi).2.2.2 = 1) := by
  refine ⟨weno3R_weights_sum typeRec phi, weno3L_weights_sum typeRec phi, ?_, ?_, ?_, ?_⟩
  · exact weno5_weights_sum (by norm_num) (by norm_num) (by norm_num) (by norm_num) typeRec phi
  · exact weno5_weights_sum (by norm_num) (by norm_num) (by norm_num) (by norm_num) typeRec phi
  · exact weno7_weights_sum (by norm_num) (by norm_num) (by norm_num) (by norm_num)
      (by norm_num) typeRec phi
  · exact weno7_weights_sum (by norm_num) (by norm_num) (by norm_num) (by norm_num)
      (by norm_num) typeRec phi

/-! ## Linear exactness of the UWC reconstruction -/

lemma integral_eval_eq (p : Polynomial ℝ) (hp : p.natDegree < 7) (a b : ℝ) :
    (∫ x in a..b, p.eval x) = ∑ i in Finset.range 7,
      p.coeff i * ((b ^ (i + 1) - a ^ (i + 1)) / (i + 1)) := by
  have h : ∀ x : ℝ, p.eval x = ∑ i in Finset.range 7, p.coeff i * x ^ i := fun x =>
    Polynomial.eval_eq_sum_range' hp x
  simp only [h]
  rw [intervalIntegral.integral_finset_sum]
  · refine Finset.sum_congr rfl (fun i _ => ?_)
    rw [intervalIntegral.integral_const_mul, integral_pow]
  · intro i _
    exact (Continuous.intervalIntegrable (by continuity) _ _)

lemma eval_eq7 (p : Polynomial ℝ) (hp : p.natDegree < 7) (x : ℝ) :
    p.eval x = ∑ i in Finset.range 7, p.coeff i * x ^ i :=
  Polynomial.eval_eq_sum_range' hp x

lemma coeff_zero_of_lt (p : Polynomial ℝ) {n i : ℕ} (hp : p.natDegree ≤ n) (hi : n < i) :
    p.coeff i = 0 := Polynomial.coeff_eq_zero_of_natDegree_lt (lt_of_le_of_lt hp hi)

set_option maxHeartbeats 1600000 in
lemma uwc_exact3 (typeRec : Nat) (h0 : typeRec ≠ 0) (h1 : typeRec ≠ 1)
    (p : Polynomial ℝ) (hp : p.natDegree ≤ 2) (phi : Nat → ℝ)
    (hphi : ∀ j, j < 3 →
      phi j = ∫ x in ((j : ℝ) - 1 - 1 / 2)..((j : ℝ) - 1 + 1 / 2), p.eval x) :
    weno3L typeRec phi = p.eval (1 / 2) ∧ weno3R typeRec phi = p.eval (-(1 / 2)) := by
  have hp7 : p.natDegree < 7 := by omega
  have c3 := coeff_zero_of_lt p hp (by norm_num : 2 < 3)
  have c4 := coeff_zero_of_lt p hp (by norm_num : 2 < 4)
  have c5 := coeff_zero_of_lt p hp (by norm_num : 2 < 5)
  have c6 := coeff_zero_of_lt p hp (by norm_num : 2 < 6)
  have hI : ∀ a b : ℝ, (∫ x in a..b, p.eval x) = ∑ i in Finset.range 7,
      p.coeff i * ((b ^ (i + 1) - a ^ (i + 1)) / (i + 1)) := integral_eval_eq p hp7
  have e1 := eval_eq7 p hp7 (1 / 2)
  have e2 := eval_eq7 p hp7 (-(1 / 2))
  simp only [weno3L, weno3R, weno3L_weights, weno3R_weights, h0, h1, if_false,
    hphi 0 (by norm_num), hphi 1 (by norm_num), hphi 2 (by norm_num), hI, e1, e2]
  simp only [Finset.sum_range_succ, Finset.sum_range_zero, c3, c4, c5, c6]
  constructor <;> (push_cast; ring)

set_option maxHeartbeats 1600000 in
lemma uwc_exact5 (typeRec : Nat) (h0 : typeRec ≠ 0) (h1 : typeRec ≠ 1)
    (p : Polynomial ℝ) (hp : p.natDegree ≤ 4) (phi : Nat → ℝ)
    (hphi : ∀ j, j < 5 →
      phi j = ∫ x in ((j : ℝ) - 2 - 1 / 2)..((j : ℝ) - 2 + 1 / 2), p.eval x) :
    weno5L typeRec phi = p.eval (1 / 2) ∧ weno5R typeRec phi = p.eval (-(1 / 2)) := by
  have hp7 : p.natDegree < 7 := by omega
  have c5 := coeff_zero_of_lt p hp (by norm_num : 4 < 5)
  have c6 := coeff_zero_of_lt p hp (by norm_num : 4 < 6)
  have hI : ∀ a b : ℝ, (∫ x in a..b, p.eval x) = ∑ i in Finset.range 7,
      p.coeff i * ((b ^ (i + 1) - a ^ (i + 1)) / (i + 1)) := integral_eval_eq p hp7
  have e1 := eval_eq7 p hp7 (1 / 2)
  have e2 := eval_eq7 p hp7 (-(1 / 2))
  simp only [weno5L, weno5R, weno5L_weights, weno5R_weights, weno5_weights, h0, h1, if_false,
    hphi 0 (by norm_num), hphi 1 (by norm_num), hphi 2 (by norm_num), hphi 3 (by norm_num), hphi 4 (by norm_num), hI, e1, e2]
  simp only [Finset.sum_range_succ, Finset.sum_range_zero, c5, c6]
  constructor <;> (push_cast; ring)

set_option maxHeartbeats 1600000 in
lemma uwc_exact7 (typeRec : Nat) (h0 : typeRec ≠ 0) (h1 : typeRec ≠ 1)
    (p : Polynomial ℝ) (hp : p.natDegree ≤ 6) (phi : Nat → ℝ)
    (hphi : ∀ j, j < 7 →
      phi j = ∫ x in ((j : ℝ) - 3 - 1 / 2)..((j : ℝ) - 3 + 1 / 2), p.eval x) :
    weno7L typeRec phi = p.eval (1 / 2) ∧ weno7R typeRec phi = p.eval (-(1 / 2)) := by
  have hp7 : p.natDegree < 7 := by omega
  have hI : ∀ a b : ℝ, (∫ x in a..b, p.eval x) = ∑ i in Finset.range 7,
      p.coeff i * ((b ^ (i + 1) - a ^ (i + 1)) / (i + 1)) := integral_eval_eq p hp7
  have e1 := eval_eq7 p hp7 (1 / 2)
  have e2 := eval_eq7 p hp7 (-(1 / 2))
  simp only [weno7L, weno7R, weno7L_weights, weno7R_weights, weno7_weights, h0, h1, if_false,
    hphi 0 (by norm_num), hphi 1 (by norm_num), hphi 2 (by norm_num), hphi 3 (by norm_num), hphi 4 (by norm_num), hphi 5 (by norm_num), hphi 6 (by norm_num), hI, e1, e2]
  simp only [Finset.sum_range_succ, Finset.sum_range_zero]
  constructor <;> (push_cast; ring)

/-- Claim C2: with the UWC weights (`TYPE_REC` neither 0 nor 1), for each order
`N` in {3, 5, 7} and every real polynomial `p` of degree at most `N-1`: when
`phi j` is the average of `p` over the unit cell centred at `j - (N-1)/2`, the
routine `wenoNL` returns `p(1/2)` and `wenoNR` returns `p(-1/2)`. -/
theorem uwc_linearly_exact (typeRec : Nat) (h0 : typeRec ≠ 0) (h1 : typeRec ≠ 1)
    (p : Polynomial ℝ) (phi : Nat → ℝ) :
    (p.natDegree ≤ 2 →
      (∀ j, j < 3 → phi j = ∫ x in ((j : ℝ) - 1 - 1 / 2)..((j : ℝ) - 1 + 1 / 2), p.eval x) →
      weno3L typeRec phi = p.eval (1 / 2) ∧ weno3R typeRec phi = p.eval (-(1 / 2)))
    ∧ (p.natDegree ≤ 4 →
      (∀ j, j < 5 → phi j = ∫ x in ((j : ℝ) - 2 - 1 / 2)..((j : ℝ) - 2 + 1 / 2), p.eval x) →
      weno5L typeRec phi = p.eval (1 / 2) ∧ weno5R typeRec phi = p.eval (-(1 / 2)))
    ∧ (p.natDegree ≤ 6 →
      (∀ j, j < 7 → phi j = ∫ x in ((j : ℝ) - 3 - 1 / 2)..((j : ℝ) - 3 + 1 / 2), p.eval x) →
      weno7L typeRec phi = p.eval (1 / 2) ∧ weno7R typeRec phi = p.eval (-(1 / 2))) :=
  ⟨fun hp => uwc_exact3 typeRec h0 h1 p hp phi, fun hp => uwc_exact5 typeRec h0 h1 p hp phi,
    fun hp => uwc_exact7 typeRec h0 h1 p hp phi⟩

/-- Instance of `uwc_linearly_exact`: the polynomial `X` and its cell averages,
for the three orders, with `TYPE_REC = 2`. -/
theorem uwc_linearly_exact_witness :
    ((2 : Nat) ≠ 0 ∧ (2 : Nat) ≠ 1 ∧ (Polynomial.X : Polynomial ℝ).natDegree ≤ 2)
    ∧ (weno3L 2 (fun j : Nat =>
          ∫ x in ((j : ℝ) - 1 - 1 / 2)..((j : ℝ) - 1 + 1 / 2), (Polynomial.X : Polynomial ℝ).eval x)
        = (Polynomial.X : Polynomial ℝ).eval (1 / 2)
      ∧ weno3R 2 (fun j : Nat =>
          ∫ x in ((j : ℝ) - 1 - 1 / 2)..((j : ℝ) - 1 + 1 / 2), (Polynomial.X : Polynomial ℝ).eval x)
        = (Polynomial.X : Polynomial ℝ).eval (-(1 / 2)))
    ∧ (weno5L 2 (fun j : Nat =>
          ∫ x in ((j : ℝ) - 2 - 1 / 2)..((j : ℝ) - 2 + 1 / 2), (Polynomial.X : Polynomial ℝ).eval x)
        = (Polynomial.X : Polynomial ℝ).eval (1 / 2)
      ∧ weno5R 2 (fun j : Nat =>
          ∫ x in ((j : ℝ) - 2 - 1 / 2)..((j : ℝ) - 2 + 1 / 2), (Polynomial.X : Polynomial ℝ).eval x)
        = (Polynomial.X : Polynomial ℝ).eval (-(1 / 2)))
    ∧ (weno7L 2 (fun j : Nat =>
          ∫ x in ((j : ℝ) - 3 - 1 / 2)..((j : ℝ) - 3 + 1 / 2), (Polynomial.X : Polynomial ℝ).eval x)
        = (Polynomial.X : Polynomial ℝ).eval (1 / 2)
      ∧ weno7R 2 (fun j : Nat =>
          ∫ x in ((j : ℝ) - 3 - 1 / 2)..((j : ℝ) - 3 + 1 / 2), (Polynomial.X : Polynomial ℝ).eval x)
        = (Polynomial.X : Polynomial ℝ).eval (-(1 / 2))) :=
  ⟨⟨by decide, by decide, Polynomial.natDegree_X_le.trans (by decide)⟩,
   (uwc_linearly_exact 2 (by decide) (by decide) Polynomial.X _).1
     (Polynomial.natDegree_X_le.trans (by decide)) (fun _ _ => rfl),
   (uwc_linearly_exact 2 (by decide) (by decide) Polynomial.X _).2.1
     (Polynomial.natDegree_X_le.trans (by decide)) (fun _ _ => rfl),
   (uwc_linearly_exact 2 (by decide) (by decide) Polynomial.X _).2.2
     (Polynomial.natDegree_X_le.trans (by decide)) (fun _ _ => rfl)⟩

/-! ## Riemann solvers: consistency of HLLE and HLLC -/

section rot
variable (nx ny nz : K) (U F old : Nat → K)
lemma rotation_0 : rotation nx ny nz U 0 = U 0 := rfl
lemma rotation_1 : rotation nx ny nz U 1 = U 1 * nx + U 2 * ny + U 3 * nz := rfl
lemma rotation_2 : rotation nx ny nz U 2 = -U 1 * ny + U 2 * nx + U 2 * nz := rfl
lemma rotation_3 : rotation nx ny nz U 3 = U 3 * nx + U 3 * ny - U 1 * nz := rfl
lemma rotation_4 : rotation nx ny nz U 4 = U 4 := rfl
lemma rotation_5 : rotation nx ny nz U 5 = U 5 := rfl
lemma inverse_rotation_0 : inverse_rotation nx ny nz F old 0 = F 0 := rfl
lemma inverse_rotation_1 :
    inverse_rotation nx ny nz F old 1 = F 1 * nx - F 2 * ny - F 3 * nz := rfl
lemma inverse_rotation_2 :
    inverse_rotation nx ny nz F old 2 = F 1 * ny + F 2 * nx + F 2 * nz := rfl
lemma inverse_rotation_3 :
    inverse_rotation nx ny nz F old 3 = F 3 * nx + F 3 * ny + F 1 * nz := rfl
lemma inverse_rotation_4 : inverse_rotation nx ny nz F old 4 = F 4 := rfl
end rot

lemma inverse_rotation_rotated_flux (nx ny nz : K) (U old : Nat → K) (hrho : U 0 ≠ 0)
    (hn : (nx = 1 ∧ ny = 0 ∧ nz = 0) ∨ (nx = 0 ∧ ny = 1 ∧ nz = 0) ∨ (nx = 0 ∧ ny = 0 ∧ nz = 1))
    (m : Nat) (hm : m < 5) :
    inverse_rotation nx ny nz
      (rotated_flux (rotation nx ny nz U)
        ((gamma - 1) * (rotation nx ny nz U 4 - 1 / 2 * rotation nx ny nz U 0
          * (rotation nx ny nz U 1 / rotation nx ny nz U 0
              * (rotation nx ny nz U 1 / rotation nx ny nz U 0)
            + rotation nx ny nz U 2 / rotation nx ny nz U 0
              * (rotation nx ny nz U 2 / rotation nx ny nz U 0)
            + rotation nx ny nz U 3 / rotation nx ny nz U 0
              * (rotation nx ny nz U 3 / rotation nx ny nz U 0))))) old m
      = euler_flux nx ny nz U m := by
  have e0 : euler_flux nx ny nz U 0 = U 0 * (U 1 / U 0 * nx + U 2 / U 0 * ny + U 3 / U 0 * nz) :=
    rfl
  have e1 : euler_flux nx ny nz U 1 = U 0 * (U 1 / U 0 * nx + U 2 / U 0 * ny + U 3 / U 0 * nz)
      * (U 1 / U 0) + (gamma - 1) * (U 4 - 1 / 2 * U 0 * (U 1 / U 0 * (U 1 / U 0)
        + U 2 / U 0 * (U 2 / U 0) + U 3 / U 0 * (U 3 / U 0))) * nx := rfl
  have e2 : euler_flux nx ny nz U 2 = U 0 * (U 1 / U 0 * nx + U 2 / U 0 * ny + U 3 / U 0 * nz)
      * (U 2 / U 0) + (gamma - 1) * (U 4 - 1 / 2 * U 0 * (U 1 / U 0 * (U 1 / U 0)
        + U 2 / U 0 * (U 2 / U 0) + U 3 / U 0 * (U 3 / U 0))) * ny := rfl
  have e3 : euler_flux nx ny nz U 3 = U 0 * (U 1 / U 0 * nx + U 2 / U 0 * ny + U 3 / U 0 * nz)
      * (U 3 / U 0) + (gamma - 1) * (U 4 - 1 / 2 * U 0 * (U 1 / U 0 * (U 1 / U 0)
        + U 2 / U 0 * (U 2 / U 0) + U 3 / U 0 * (U 3 / U 0))) * nz := rfl
  have e4 : euler_flux nx ny nz U 4 = (U 1 / U 0 * nx + U 2 / U 0 * ny + U 3 / U 0 * nz)
      * (U 4 + (gamma - 1) * (U 4 - 1 / 2 * U 0 * (U 1 / U 0 * (U 1 / U 0)
        + U 2 / U 0 * (U 2 / U 0) + U 3 / U 0 * (U 3 / U 0)))) := rfl
  have r0 : ∀ (W : Nat → K) (p : K), rotated_flux W p 0 = W 1 := fun _ _ => rfl
  have r1 : ∀ (W : Nat → K) (p : K), rotated_flux W p 1 = W 1 * (W 1 / W 0) + p :=
    fun _ _ => rfl
  have r2 : ∀ (W : Nat → K) (p : K), rotated_flux W p 2 = W 1 * (W 2 / W 0) := fun _ _ => rfl
  have r3 : ∀ (W : Nat → K) (p : K), rotated_flux W p 3 = W 1 * (W 3 / W 0) := fun _ _ => rfl
  have r4 : ∀ (W : Nat → K) (p : K), rotated_flux W p 4 = W 1 / W 0 * (W 4 + p) :=
    fun _ _ => rfl
  have c1 : ∀ a : K, a * U 0 / U 0 = a := fun a => mul_div_cancel_right₀ a hrho
  have c2 : ∀ a : K, -(a * U 0) / U 0 = -a := fun a => by rw [neg_div, c1]
  obtain ⟨u, hu⟩ : ∃ u, U 1 = u * U 0 := ⟨U 1 / U 0, by field_simp⟩
  obtain ⟨v, hv⟩ : ∃ v, U 2 = v * U 0 := ⟨U 2 / U 0, by field_simp⟩
  obtain ⟨w, hw⟩ : ∃ w, U 3 = w * U 0 := ⟨U 3 / U 0, by field_simp⟩
  rcases hn with ⟨h1, h2, h3⟩ | ⟨h1, h2, h3⟩ | ⟨h1, h2, h3⟩ <;> subst h1 h2 h3 <;>
    interval_cases m <;>
    simp only [inverse_rotation_0, inverse_rotation_1, inverse_rotation_2, inverse_rotation_3,
      inverse_rotation_4, r0, r1, r2, r3, r4, e0, e1, e2, e3, e4, rotation_0, rotation_1,
      rotation_2, rotation_3, rotation_4, mul_zero, mul_one, add_zero, zero_add, sub_zero,
      neg_zero, zero_mul, zero_sub, hu, hv, hw, c1, c2, neg_mul] <;>
    ring1


lemma HLLE_F_star_consistent (r : Riemann K) (W' : Nat → K) (hd : r.diffS = r.S2 - r.S1)
    (hF : r.FR = r.FL) (m : Nat) : HLLE_F_star r W' W' m = r.FL m := by
  unfold HLLE_F_star
  by_cases h1 : r.S1 ≥ 0
  · simp [h1]
  · by_cases h2 : r.S2 ≤ 0
    · simp [h1, h2, hF]
    · simp only [h1, h2, if_false, hF, hd, sub_self, mul_zero, add_zero]
      have hne : r.S2 - r.S1 ≠ 0 := by
        have a := not_le.mp h1
        have b := not_le.mp h2
        have : 0 < r.S2 - r.S1 := by linarith
        exact this.ne'
      rw [← sub_mul, mul_comm, mul_div_assoc, div_self hne, mul_one]

lemma HLLE_vars_FL (sqrt : K → K) (mt : Nat) (wall : Wall K) :
    (HLLE_vars sqrt 0 false mt wall).FL
      = rotated_flux (rotation wall.nx wall.ny wall.nz wall.UL)
        ((gamma - 1) * (rotation wall.nx wall.ny wall.nz wall.UL 4
          - 1 / 2 * rotation wall.nx wall.ny wall.nz wall.UL 0
          * (rotation wall.nx wall.ny wall.nz wall.UL 1 / rotation wall.nx wall.ny wall.nz wall.UL 0
              * (rotation wall.nx wall.ny wall.nz wall.UL 1
                / rotation wall.nx wall.ny wall.nz wall.UL 0)
            + rotation wall.nx wall.ny wall.nz wall.UL 2
                / rotation wall.nx wall.ny wall.nz wall.UL 0
              * (rotation wall.nx wall.ny wall.nz wall.UL 2
                / rotation wall.nx wall.ny wall.nz wall.UL 0)
            + rotation wall.nx wall.ny wall.nz wall.UL 3
                / rotation wall.nx wall.ny wall.nz wall.UL 0
              * (rotation wall.nx wall.ny wall.nz wall.UL 3
                / rotation wall.nx wall.ny wall.nz wall.UL 0)))) := by
  funext m
  rcases m with _ | _ | _ | _ | _ | _ <;>
    simp [HLLE_vars, rotated_flux, pressure_from_energy]

lemma HLLE_consistent_generic (sqrt : K → K) (mt : Nat) (wall : Wall K) (lambda_max : K)
    (U : Nat → K) (hL : wall.UL = U) (hR : wall.UR = U) (hrho : U 0 ≠ 0)
    (hn : (wall.nx = 1 ∧ wall.ny = 0 ∧ wall.nz = 0) ∨ (wall.nx = 0 ∧ wall.ny = 1 ∧ wall.nz = 0)
      ∨ (wall.nx = 0 ∧ wall.ny = 0 ∧ wall.nz = 1)) (m : Nat) (hm : m < 5) :
    (compute_euler_HLLE sqrt 0 false mt wall lambda_max).1.fL_star m
        = euler_flux wall.nx wall.ny wall.nz U m
    ∧ (compute_euler_HLLE sqrt 0 false mt wall lambda_max).1.fR_star m
        = euler_flux wall.nx wall.ny wall.nz U m := by
  have hF : (HLLE_vars sqrt 0 false mt wall).FR = (HLLE_vars sqrt 0 false mt wall).FL := by
    simp [HLLE_vars, hL, hR]
  have hW : (HLLE_vars sqrt 0 false mt wall).WR = (HLLE_vars sqrt 0 false mt wall).WL := by
    simp only [HLLE_vars, hL, hR]
  have e : Wprime 0 (HLLE_vars sqrt 0 false mt wall).WR
      (rotation wall.nx wall.ny wall.nz wall.URe)
      = Wprime 0 (HLLE_vars sqrt 0 false mt wall).WL
      (rotation wall.nx wall.ny wall.nz wall.ULe) := by
    funext j; simp [Wprime, hW]
  have key : HLLE_F_star (HLLE_vars sqrt 0 false mt wall)
      (Wprime 0 (HLLE_vars sqrt 0 false mt wall).WR (rotation wall.nx wall.ny wall.nz wall.URe))
      (Wprime 0 (HLLE_vars sqrt 0 false mt wall).WL (rotation wall.nx wall.ny wall.nz wall.ULe))
      = (HLLE_vars sqrt 0 false mt wall).FL := by
    funext k
    rw [e]
    exact HLLE_F_star_consistent _ _ rfl hF k
  have hfR : (compute_euler_HLLE sqrt 0 false mt wall lambda_max).1.fR_star m
        = euler_flux wall.nx wall.ny wall.nz U m := by
    simp only [compute_euler_HLLE, key, HLLE_vars_FL, hL]
    exact inverse_rotation_rotated_flux _ _ _ U _ hrho hn m hm
  refine ⟨?_, hfR⟩
  have : (compute_euler_HLLE sqrt 0 false mt wall lambda_max).1.fL_star m
      = (compute_euler_HLLE sqrt 0 false mt wall lambda_max).1.fR_star m := by
    simp only [compute_euler_HLLE, hm, if_true]
  rw [this, hfR]

/-- Claim C3 (HLLE flux consistency): with the source off (`ST = 0`) and a
single gamma (`MULTICOMPONENT` off), for each axis-unit wall normal and every
state `U` with positive density and pressure, if `UL = UR = U` then
`compute_euler_HLLE` writes `fL* = fR* = F(U)`, the physical Euler flux of `U`
in the wall-normal direction, in components 0..4. -/
theorem HLLE_flux_consistency (MULTI_TYPE : Nat) (wall : Wall ℝ) (lambda_max : ℝ) (U : Nat → ℝ)
    (hn : (wall.nx = 1 ∧ wall.ny = 0 ∧ wall.nz = 0) ∨ (wall.nx = 0 ∧ wall.ny = 1 ∧ wall.nz = 0)
      ∨ (wall.nx = 0 ∧ wall.ny = 0 ∧ wall.nz = 1))
    (hL : wall.UL = U) (hR : wall.UR = U) (hrho : 0 < U 0)
    (_hp : 0 < (gamma - 1) * (U 4 - 1 / 2 * U 0
      * (U 1 / U 0 * (U 1 / U 0) + U 2 / U 0 * (U 2 / U 0) + U 3 / U 0 * (U 3 / U 0)))) :
    ∀ m, m < 5 →
      (compute_euler_HLLE Real.sqrt 0 false MULTI_TYPE wall lambda_max).1.fL_star m
          = euler_flux wall.nx wall.ny wall.nz U m
      ∧ (compute_euler_HLLE Real.sqrt 0 false MULTI_TYPE wall lambda_max).1.fR_star m
          = euler_flux wall.nx wall.ny wall.nz U m :=
  fun m hm => HLLE_consistent_generic Real.sqrt MULTI_TYPE wall lambda_max U hL hR hrho.ne' hn m hm

/-- Instance of `HLLE_flux_consistency`: the x-wall `restWall` between two
copies of the state at rest, x-momentum component. -/
theorem HLLE_flux_consistency_witness :
    (0 < (restState : Nat → ℝ) 0
      ∧ 0 < (gamma - 1) * ((restState : Nat → ℝ) 4 - 1 / 2 * (restState : Nat → ℝ) 0
        * ((restState : Nat → ℝ) 1 / (restState : Nat → ℝ) 0
            * ((restState : Nat → ℝ) 1 / (restState : Nat → ℝ) 0)
          + (restState : Nat → ℝ) 2 / (restState : Nat → ℝ) 0
            * ((restState : Nat → ℝ) 2 / (restState : Nat → ℝ) 0)
          + (restState : Nat → ℝ) 3 / (restState : Nat → ℝ) 0
            * ((restState : Nat → ℝ) 3 / (restState : Nat → ℝ) 0))))
    ∧ ((compute_euler_HLLE Real.sqrt 0 false 0 (restWall : Wall ℝ) 0).1.fL_star 1
          = euler_flux (restWall : Wall ℝ).nx (restWall : Wall ℝ).ny (restWall : Wall ℝ).nz
              restState 1
      ∧ (compute_euler_HLLE Real.sqrt 0 false 0 (restWall : Wall ℝ) 0).1.fR_star 1
          = euler_flux (restWall : Wall ℝ).nx (restWall : Wall ℝ).ny (restWall : Wall ℝ).nz
              restState 1) :=
  ⟨⟨by norm_num [restState, state6], by norm_num [restState, state6, gamma]⟩,
   HLLE_flux_consistency 0 restWall 0 restState (Or.inl ⟨rfl, rfl, rfl⟩) rfl rfl
     (by norm_num [restState, state6]) (by norm_num [restState, state6, gamma]) 1 (by norm_num)⟩

lemma MIN_self (x : K) : MIN x x = x := by simp [MIN]
lemma MAX_self (x : K) : MAX x x = x := by simp [MAX]

lemma roe_avg_same (a s : K) (hs : 0 < s) : (a * s + a * s) / (s + s) = a := by
  have : s + s ≠ 0 := by positivity
  field_simp
  ring

/-- Sound speed identity: `(gamma-1)*(H - q/2) = gamma*p/rho`. -/
lemma sound_speed_arg (gm E rho q : K) (hrho : rho ≠ 0) :
    (gm - 1) * ((E + (gm - 1) * (E - 1 / 2 * rho * q)) / rho - 1 / 2 * q)
      = gm * ((gm - 1) * (E - 1 / 2 * rho * q)) / rho := by
  field_simp
  ring

/-- The variables of HLLC on equal left and right states (source off). -/
lemma HLLC_vars_same (wall : Wall ℝ) (U : Nat → ℝ) (hL : wall.UL = U) (hR : wall.UR = U)
    (W : Nat → ℝ) (hW : W = rotation wall.nx wall.ny wall.nz U) (hrho : 0 < W 0)
    (p : ℝ) (hp : p = (gamma - 1) * (W 4 - 1 / 2 * W 0
      * (W 1 / W 0 * (W 1 / W 0) + W 2 / W 0 * (W 2 / W 0) + W 3 / W 0 * (W 3 / W 0)))) :
    let r := HLLC_vars Real.sqrt 0 wall
    r.WL = W ∧ r.WR = W ∧ r.FR = r.FL ∧ r.uL = W 1 / W 0 ∧ r.uR = W 1 / W 0
      ∧ r.vL = W 2 / W 0 ∧ r.vR = W 2 / W 0 ∧ r.wL = W 3 / W 0 ∧ r.wR = W 3 / W 0
      ∧ r.pL = p ∧ r.pR = p
      ∧ r.S1 = W 1 / W 0 - Real.sqrt (gamma * p / W 0)
      ∧ r.S2 = W 1 / W 0 + Real.sqrt (gamma * p / W 0) := by
  intro r
  have hs : 0 < Real.sqrt (W 0) := Real.sqrt_pos.mpr hrho
  have hWL : r.WL = W := by simp only [r, HLLC_vars, hL, hW]
  have hWR : r.WR = W := by simp only [r, HLLC_vars, hR, hW]
  have hF : r.FR = r.FL := by simp [r, HLLC_vars, hL, hR]
  have huh : r.u_hat = W 1 / W 0 := by
    simp only [r, HLLC_vars, hL, hR, ← hW]
    exact roe_avg_same _ _ hs
  have hvh : r.v_hat = W 2 / W 0 := by
    simp only [r, HLLC_vars, hL, hR, ← hW]
    exact roe_avg_same _ _ hs
  have hwh : r.w_hat = W 3 / W 0 := by
    simp only [r, HLLC_vars, hL, hR, ← hW]
    exact roe_avg_same _ _ hs
  have hHh : r.H_hat = (W 4 + p) / W 0 := by
    simp only [r, HLLC_vars, hL, hR, ← hW, ← hp]
    exact roe_avg_same _ _ hs
  have hch : r.c_hat = Real.sqrt (gamma * p / W 0) := by
    have e : r.c_hat = Real.sqrt ((gamma - 1) * (r.H_hat - 1 / 2
        * (r.u_hat * r.u_hat + r.v_hat * r.v_hat + r.w_hat * r.w_hat))) := rfl
    rw [e, huh, hvh, hwh, hHh, hp, sound_speed_arg _ _ _ _ hrho.ne']
  have hcL : r.cL = Real.sqrt (gamma * p / W 0) := by
    simp only [r, HLLC_vars, hL, ← hW, ← hp]
  have hcR : r.cR = Real.sqrt (gamma * p / W 0) := by
    simp only [r, HLLC_vars, hR, ← hW, ← hp]
  have huL : r.uL = W 1 / W 0 := by simp only [r, HLLC_vars, hL, ← hW]
  have huR : r.uR = W 1 / W 0 := by simp only [r, HLLC_vars, hR, ← hW]
  have hS1 : r.S1 = W 1 / W 0 - Real.sqrt (gamma * p / W 0) := by
    have e : r.S1 = MIN (r.uL - r.cL) (r.u_hat - r.c_hat) := rfl
    rw [e, huL, hcL, huh, hch, MIN_self]
  have hS2 : r.S2 = W 1 / W 0 + Real.sqrt (gamma * p / W 0) := by
    have e : r.S2 = MAX (r.uR + r.cR) (r.u_hat + r.c_hat) := rfl
    rw [e, huR, hcR, huh, hch, MAX_self]
  refine ⟨hWL, hWR, hF, huL, huR, ?_, ?_, ?_, ?_, ?_, ?_, hS1, hS2⟩
  · simp only [r, HLLC_vars, hL, ← hW]
  · simp only [r, HLLC_vars, hR, ← hW]
  · simp only [r, HLLC_vars, hL, ← hW]
  · simp only [r, HLLC_vars, hR, ← hW]
  · simp only [r, HLLC_vars, hL, ← hW, ← hp]
  · simp only [r, HLLC_vars, hR, ← hW, ← hp]

lemma HLLC_vars_FL (sqrt : K → K) (wall : Wall K) :
    (HLLC_vars sqrt 0 wall).FL
      = rotated_flux (rotation wall.nx wall.ny wall.nz wall.UL)
        ((gamma - 1) * (rotation wall.nx wall.ny wall.nz wall.UL 4
          - 1 / 2 * rotation wall.nx wall.ny wall.nz wall.UL 0
          * (rotation wall.nx wall.ny wall.nz wall.UL 1 / rotation wall.nx wall.ny wall.nz wall.UL 0
              * (rotation wall.nx wall.ny wall.nz wall.UL 1
                / rotation wall.nx wall.ny wall.nz wall.UL 0)
            + rotation wall.nx wall.ny wall.nz wall.UL 2
                / rotation wall.nx wall.ny wall.nz wall.UL 0
              * (rotation wall.nx wall.ny wall.nz wall.UL 2
                / rotation wall.nx wall.ny wall.nz wall.UL 0)
            + rotation wall.nx wall.ny wall.nz wall.UL 3
                / rotation wall.nx wall.ny wall.nz wall.UL 0
              * (rotation wall.nx wall.ny wall.nz wall.UL 3
                / rotation wall.nx wall.ny wall.nz wall.UL 0)))) := by
  funext m
  rcases m with _ | _ | _ | _ | _ | _ <;>
    simp [HLLC_vars, rotated_flux]

/-- Contact speed and star state of HLLC on equal states. -/
lemma HLLC_star_same (r : Riemann ℝ) (W : Nat → ℝ) (p c : ℝ) (hrho : 0 < W 0) (hc : 0 < c)
    (hWL : r.WL = W) (hWR : r.WR = W) (huL : r.uL = W 1 / W 0) (huR : r.uR = W 1 / W 0)
    (hvL : r.vL = W 2 / W 0) (hvR : r.vR = W 2 / W 0) (hwL : r.wL = W 3 / W 0)
    (hwR : r.wR = W 3 / W 0) (hpL : r.pL = p) (hpR : r.pR = p)
    (hS1 : r.S1 = W 1 / W 0 - c) (hS2 : r.S2 = W 1 / W 0 + c) :
    HLLC_S_star r = W 1 / W 0 ∧ ∀ m, m < 5 → HLLC_W_star r W W m = W m := by
  have hS : HLLC_S_star r = W 1 / W 0 := by
    simp only [HLLC_S_star, hWL, hWR, huL, huR, hpL, hpR, hS1, hS2]
    have h1 : W 0 * (W 1 / W 0 - c - W 1 / W 0) - W 0 * (W 1 / W 0 + c - W 1 / W 0)
        = -(2 * c * W 0) := by ring
    have h2 : p - p + W 1 * (W 1 / W 0 - c - W 1 / W 0) - W 1 * (W 1 / W 0 + c - W 1 / W 0)
        = W 1 / W 0 * -(2 * c * W 0) := by field_simp; ring
    rw [h1, h2]
    have : -(2 * c * W 0) ≠ 0 := by
      have : 0 < 2 * c * W 0 := by positivity
      linarith
    rw [mul_div_assoc, div_self this, mul_one]
  refine ⟨hS, ?_⟩
  intro m hm
  have hc' : c ≠ 0 := hc.ne'
  have hr : W 0 ≠ 0 := hrho.ne'
  by_cases hle : W 1 / W 0 ≤ 0
  · have aux : W 0 * (W 1 / W 0 + c - W 1 / W 0) / (W 1 / W 0 + c - W 1 / W 0) = W 0 := by
      have : W 1 / W 0 + c - W 1 / W 0 = c := by ring
      rw [this, mul_div_assoc, div_self hc', mul_one]
    interval_cases m <;>
      simp only [HLLC_W_star, hS, hle, if_true, hWR, huR, hvR, hwR, hpR, hS2, aux, sub_self,
        zero_mul, add_zero] <;>
      field_simp
  · have aux : W 0 * (W 1 / W 0 - c - W 1 / W 0) / (W 1 / W 0 - c - W 1 / W 0) = W 0 := by
      have : W 1 / W 0 - c - W 1 / W 0 = -c := by ring
      rw [this, mul_div_assoc, div_self (neg_ne_zero.mpr hc'), mul_one]
    interval_cases m <;>
      simp only [HLLC_W_star, hS, hle, if_false, hWL, huL, hvL, hwL, hpL, hS1, aux, sub_self,
        zero_mul, add_zero] <;>
      field_simp

lemma HLLC_F_star_same (r : Riemann ℝ) (W : Nat → ℝ) (hF : r.FR = r.FL)
    (hstar : ∀ m, m < 5 → HLLC_W_star r W W m = W m) (m : Nat) (hm : m < 5) :
    HLLC_F_star r W W m = r.FL m := by
  unfold HLLC_F_star
  split_ifs <;> simp [hF, hstar m hm]


lemma gamma_pos : (0 : K) < gamma := by unfold gamma; norm_num

lemma rotated_pressure (nx ny nz : K) (U : Nat → K)
    (hn : (nx = 1 ∧ ny = 0 ∧ nz = 0) ∨ (nx = 0 ∧ ny = 1 ∧ nz = 0) ∨ (nx = 0 ∧ ny = 0 ∧ nz = 1)) :
    (gamma - 1) * (rotation nx ny nz U 4 - 1 / 2 * rotation nx ny nz U 0
      * (rotation nx ny nz U 1 / rotation nx ny nz U 0
          * (rotation nx ny nz U 1 / rotation nx ny nz U 0)
        + rotation nx ny nz U 2 / rotation nx ny nz U 0
          * (rotation nx ny nz U 2 / rotation nx ny nz U 0)
        + rotation nx ny nz U 3 / rotation nx ny nz U 0
          * (rotation nx ny nz U 3 / rotation nx ny nz U 0)))
    = (gamma - 1) * (U 4 - 1 / 2 * U 0
      * (U 1 / U 0 * (U 1 / U 0) + U 2 / U 0 * (U 2 / U 0) + U 3 / U 0 * (U 3 / U 0))) := by
  rcases hn with ⟨h1, h2, h3⟩ | ⟨h1, h2, h3⟩ | ⟨h1, h2, h3⟩ <;> subst h1 h2 h3 <;>
    simp only [rotation_0, rotation_1, rotation_2, rotation_3, rotation_4, mul_zero, mul_one,
      add_zero, zero_add, sub_zero, neg_zero, zero_mul, zero_sub, neg_mul, neg_div, neg_neg,
      mul_neg] <;>
    ring1

/-- Claim C4 (HLLC flux consistency): with the source off (`ST = 0`), for each
axis-unit wall normal and every state `U` with positive density and pressure,
if `UL = UR = U` then `compute_euler_HLLC` computes the contact speed
`S* = u_n` (the wall-normal velocity) and writes `fL* = fR* = F(U)`, the
physical Euler flux of `U` in the wall-normal direction, in components 0..4. -/
theorem HLLC_flux_consistency (wall : Wall ℝ) (lambda_max : ℝ) (U : Nat → ℝ)
    (hn : (wall.nx = 1 ∧ wall.ny = 0 ∧ wall.nz = 0) ∨ (wall.nx = 0 ∧ wall.ny = 1 ∧ wall.nz = 0)
      ∨ (wall.nx = 0 ∧ wall.ny = 0 ∧ wall.nz = 1))
    (hL : wall.UL = U) (hR : wall.UR = U) (hrho : 0 < U 0)
    (hp : 0 < (gamma - 1) * (U 4 - 1 / 2 * U 0
      * (U 1 / U 0 * (U 1 / U 0) + U 2 / U 0 * (U 2 / U 0) + U 3 / U 0 * (U 3 / U 0)))) :
    HLLC_S_star (HLLC_vars Real.sqrt 0 wall)
        = (U 1 * wall.nx + U 2 * wall.ny + U 3 * wall.nz) / U 0
    ∧ ∀ m, m < 5 →
      (compute_euler_HLLC Real.sqrt 0 wall lambda_max).1.fL_star m
          = euler_flux wall.nx wall.ny wall.nz U m
      ∧ (compute_euler_HLLC Real.sqrt 0 wall lambda_max).1.fR_star m
          = euler_flux wall.nx wall.ny wall.nz U m := by
  have hW0 : rotation wall.nx wall.ny wall.nz U 0 = U 0 := rfl
  have hrho' : 0 < rotation wall.nx wall.ny wall.nz U 0 := hrho
  have hpW := rotated_pressure wall.nx wall.ny wall.nz U hn
  obtain ⟨hWL, hWR, hF, huL, huR, hvL, hvR, hwL, hwR, hpL, hpR, hS1, hS2⟩ :=
    HLLC_vars_same wall U hL hR _ rfl hrho' _ rfl
  have hc : 0 < Real.sqrt (gamma * ((gamma - 1) * (rotation wall.nx wall.ny wall.nz U 4
      - 1 / 2 * rotation wall.nx wall.ny wall.nz U 0
      * (rotation wall.nx wall.ny wall.nz U 1 / rotation wall.nx wall.ny wall.nz U 0
          * (rotation wall.nx wall.ny wall.nz U 1 / rotation wall.nx wall.ny wall.nz U 0)
        + rotation wall.nx wall.ny wall.nz U 2 / rotation wall.nx wall.ny wall.nz U 0
          * (rotation wall.nx wall.ny wall.nz U 2 / rotation wall.nx wall.ny wall.nz U 0)
        + rotation wall.nx wall.ny wall.nz U 3 / rotation wall.nx wall.ny wall.nz U 0
          * (rotation wall.nx wall.ny wall.nz U 3 / rotation wall.nx wall.ny wall.nz U 0))))
      / rotation wall.nx wall.ny wall.nz U 0) := by
    rw [hpW]
    exact Real.sqrt_pos.mpr (div_pos (mul_pos gamma_pos hp) hrho)
  obtain ⟨hS, hstar⟩ := HLLC_star_same _ _ _ _ hrho' hc hWL hWR huL huR hvL hvR hwL hwR hpL hpR
    hS1 hS2
  refine ⟨by rw [hS]; rfl, ?_⟩
  intro m hm
  have hWp : ∀ We : Nat → ℝ, Wprime 0 (rotation wall.nx wall.ny wall.nz U) We
      = rotation wall.nx wall.ny wall.nz U := by
    intro We; funext j; simp [Wprime]
  have hfR : (compute_euler_HLLC Real.sqrt 0 wall lambda_max).1.fR_star m
        = euler_flux wall.nx wall.ny wall.nz U m := by
    have key : HLLC_F_star (HLLC_vars Real.sqrt 0 wall)
        (Wprime 0 (HLLC_vars Real.sqrt 0 wall).WR (rotation wall.nx wall.ny wall.nz wall.URe))
        (Wprime 0 (HLLC_vars Real.sqrt 0 wall).WL (rotation wall.nx wall.ny wall.nz wall.ULe))
        = fun k => if k < 5 then (HLLC_vars Real.sqrt 0 wall).FL k
            else HLLC_F_star (HLLC_vars Real.sqrt 0 wall)
              (rotation wall.nx wall.ny wall.nz U) (rotation wall.nx wall.ny wall.nz U) k := by
      funext k
      rw [hWR, hWL, hWp, hWp]
      by_cases hk : k < 5
      · simp only [hk, if_true]
        exact HLLC_F_star_same _ _ hF hstar k hk
      · simp only [hk, if_false]
    have hinv : ∀ (F G old : Nat → ℝ), (∀ k, k < 5 → F k = G k) →
        inverse_rotation wall.nx wall.ny wall.nz F old m
          = inverse_rotation wall.nx wall.ny wall.nz G old m := by
      intro F G old h
      have h0 := h 0 (by norm_num)
      have h1 := h 1 (by norm_num)
      have h2 := h 2 (by norm_num)
      have h3 := h 3 (by norm_num)
      have h4 := h 4 (by norm_num)
      interval_cases m <;>
        simp only [inverse_rotation_0, inverse_rotation_1, inverse_rotation_2,
          inverse_rotation_3, inverse_rotation_4, h0, h1, h2, h3, h4]
    have e1 : (compute_euler_HLLC Real.sqrt 0 wall lambda_max).1.fR_star m
        = inverse_rotation wall.nx wall.ny wall.nz (HLLC_vars Real.sqrt 0 wall).FL
            wall.fR_star m := by
      simp only [compute_euler_HLLC, key]
      exact hinv _ _ _ (fun k hk => by simp only [hk, if_true])
    rw [e1, HLLC_vars_FL, hL]
    exact inverse_rotation_rotated_flux _ _ _ U _ hrho.ne' hn m hm
  refine ⟨?_, hfR⟩
  have : (compute_euler_HLLC Real.sqrt 0 wall lambda_max).1.fL_star m
      = (compute_euler_HLLC Real.sqrt 0 wall lambda_max).1.fR_star m := by
    simp only [compute_euler_HLLC, hm, if_true]
  rw [this, hfR]

/-- Instance of `HLLC_flux_consistency`: the x-wall `restWall` between two
copies of the state at rest, x-momentum component. -/
theorem HLLC_flux_consistency_witness :
    (0 < (restState : Nat → ℝ) 0
      ∧ 0 < (gamma - 1) * ((restState : Nat → ℝ) 4 - 1 / 2 * (restState : Nat → ℝ) 0
        * ((restState : Nat → ℝ) 1 / (restState : Nat → ℝ) 0
            * ((restState : Nat → ℝ) 1 / (restState : Nat → ℝ) 0)
          + (restState : Nat → ℝ) 2 / (restState : Nat → ℝ) 0
            * ((restState : Nat → ℝ) 2 / (restState : Nat → ℝ) 0)
          + (restState : Nat → ℝ) 3 / (restState : Nat → ℝ) 0
            * ((restState : Nat → ℝ) 3 / (restState : Nat → ℝ) 0))))
    ∧ HLLC_S_star (HLLC_vars Real.sqrt 0 (restWall : Wall ℝ))
        = ((restState : Nat → ℝ) 1 * (restWall : Wall ℝ).nx
            + (restState : Nat → ℝ) 2 * (restWall : Wall ℝ).ny
            + (restState : Nat → ℝ) 3 * (restWall : Wall ℝ).nz) / (restState : Nat → ℝ) 0
    ∧ ((compute_euler_HLLC Real.sqrt 0 (restWall : Wall ℝ) 0).1.fL_star 1
          = euler_flux (restWall : Wall ℝ).nx (restWall : Wall ℝ).ny (restWall : Wall ℝ).nz
              restState 1
      ∧ (compute_euler_HLLC Real.sqrt 0 (restWall : Wall ℝ) 0).1.fR_star 1
          = euler_flux (restWall : Wall ℝ).nx (restWall : Wall ℝ).ny (restWall : Wall ℝ).nz
              restState 1) :=
  ⟨⟨by norm_num [restState, state6], by norm_num [restState, state6, gamma]⟩,
   (HLLC_flux_consistency restWall 0 restState (Or.inl ⟨rfl, rfl, rfl⟩) rfl rfl
     (by norm_num [restState, state6]) (by norm_num [restState, state6, gamma])).1,
   (HLLC_flux_consistency restWall 0 restState (Or.inl ⟨rfl, rfl, rfl⟩) rfl rfl
     (by norm_num [restState, state6]) (by norm_num [restState, state6, gamma])).2 1
     (by norm_num)⟩

/-! ## HLLS: the two wall fluxes differ by the source integral -/

lemma HLLS_diff_core (r : Riemann K) (S B : Nat → K) (m : Nat) (hd : r.diffS ≠ 0)
    (hdd : r.diffS = r.S2 - r.S1) :
    (r.S2 * r.FL m - r.S1 * r.FR m + r.S1 * r.S2 * (r.WR m - r.WL m)
        + r.S2 * (S m - r.S1 * B m)) / r.diffS
    - (r.S2 * r.FL m - r.S1 * r.FR m + r.S1 * r.S2 * (r.WR m - r.WL m)
        + r.S1 * (S m - r.S2 * B m)) / r.diffS = S m := by
  rw [← sub_div, eq_comm, eq_div_iff hd, hdd]
  ring

lemma HLLS_S_values (wall : Wall K) (r : Riemann K) :
    HLLS_S wall r 0 = 0
    ∧ HLLS_S wall r 1 = (if ABS wall.nz > TOL14
        then (r.WR 0 + r.WL 0) * (wall.pRe - wall.pLe) / (wall.URe 0 + wall.ULe 0) else 0)
    ∧ HLLS_S wall r 2 = 0 ∧ HLLS_S wall r 3 = 0
    ∧ HLLS_S wall r 4 = HLLS_S wall r 1 * r.u_hat := ⟨rfl, rfl, rfl, rfl, rfl⟩

lemma TOL14_pos : (0 : K) < TOL14 := by unfold TOL14; positivity
lemma TOL14_lt_one : (TOL14 : K) < 1 := by
  unfold TOL14
  rw [div_lt_one (by positivity)]
  norm_num

/-- Claim C7: in `compute_euler_HLLS`, for every wall input with Roe sound
speed `c_hat > 0`, in each of the three branches (`S1 >= 0`, `S2 <= 0`,
otherwise) the rotated flux for the right cell and the one for the left cell
differ exactly by the source array: `F_R* - F_L* = S = (0, S1bar, 0, 0,
S1bar*u_hat)`, where `S1bar = (rho_L + rho_R)*(pRe - pLe)/(rhoLe + rhoRe)` on
z-walls (`nz = 1`) and `S1bar = 0` on x- and y-walls (`nz = 0`); in particular
the two mass fluxes written to the wall are equal. -/
theorem HLLS_flux_difference (sqrt : K → K) (MULTICOMPONENT : Bool) (MULTI_TYPE : Nat)
    (wall : Wall K) (lambda_max : K)
    (hc : 0 < (HLLS_vars sqrt MULTICOMPONENT MULTI_TYPE wall).c_hat) :
    (∀ m, HLLS_F_star_R wall (HLLS_vars sqrt MULTICOMPONENT MULTI_TYPE wall) m
          - HLLS_F_star_L wall (HLLS_vars sqrt MULTICOMPONENT MULTI_TYPE wall) m
        = HLLS_S wall (HLLS_vars sqrt MULTICOMPONENT MULTI_TYPE wall) m)
    ∧ (∀ m, HLLS_S wall (HLLS_vars sqrt MULTICOMPONENT MULTI_TYPE wall) m
        = (if m = 1 then HLLS_S wall (HLLS_vars sqrt MULTICOMPONENT MULTI_TYPE wall) 1
           else if m = 4 then HLLS_S wall (HLLS_vars sqrt MULTICOMPONENT MULTI_TYPE wall) 1
              * (HLLS_vars sqrt MULTICOMPONENT MULTI_TYPE wall).u_hat
           else 0))
    ∧ (wall.nz = 1 → HLLS_S wall (HLLS_vars sqrt MULTICOMPONENT MULTI_TYPE wall) 1
        = (wall.UL 0 + wall.UR 0) * (wall.pRe - wall.pLe) / (wall.ULe 0 + wall.URe 0))
    ∧ (wall.nz = 0 → HLLS_S wall (HLLS_vars sqrt MULTICOMPONENT MULTI_TYPE wall) 1 = 0)
    ∧ (compute_euler_HLLS sqrt MULTICOMPONENT MULTI_TYPE wall lambda_max).1.fR_star 0
        = (compute_euler_HLLS sqrt MULTICOMPONENT MULTI_TYPE wall lambda_max).1.fL_star 0 := by
  have hdd : (HLLS_vars sqrt MULTICOMPONENT MULTI_TYPE wall).diffS
      = (HLLS_vars sqrt MULTICOMPONENT MULTI_TYPE wall).S2
        - (HLLS_vars sqrt MULTICOMPONENT MULTI_TYPE wall).S1 := rfl
  have h1 : (HLLS_vars sqrt MULTICOMPONENT MULTI_TYPE wall).S1
      = (HLLS_vars sqrt MULTICOMPONENT MULTI_TYPE wall).u_hat
        - (HLLS_vars sqrt MULTICOMPONENT MULTI_TYPE wall).c_hat := rfl
  have h2 : (HLLS_vars sqrt MULTICOMPONENT MULTI_TYPE wall).S2
      = (HLLS_vars sqrt MULTICOMPONENT MULTI_TYPE wall).u_hat
        + (HLLS_vars sqrt MULTICOMPONENT MULTI_TYPE wall).c_hat := rfl
  have hd : (HLLS_vars sqrt MULTICOMPONENT MULTI_TYPE wall).diffS ≠ 0 := by
    rw [hdd, h1, h2]
    have : (0 : K) < 2 * (HLLS_vars sqrt MULTICOMPONENT MULTI_TYPE wall).c_hat := by positivity
    intro h
    linarith
  have hdiff : ∀ m, HLLS_F_star_R wall (HLLS_vars sqrt MULTICOMPONENT MULTI_TYPE wall) m
          - HLLS_F_star_L wall (HLLS_vars sqrt MULTICOMPONENT MULTI_TYPE wall) m
        = HLLS_S wall (HLLS_vars sqrt MULTICOMPONENT MULTI_TYPE wall) m := by
    intro m
    unfold HLLS_F_star_R HLLS_F_star_L
    by_cases c1 : (HLLS_vars sqrt MULTICOMPONENT MULTI_TYPE wall).S1 ≥ 0
    · simp only [c1, if_true]; ring
    · by_cases c2 : (HLLS_vars sqrt MULTICOMPONENT MULTI_TYPE wall).S2 ≤ 0
      · simp only [c1, c2, if_true, if_false]; ring
      · simp only [c1, c2, if_false]
        exact HLLS_diff_core _ _ _ m hd hdd
  have hWR0 : (HLLS_vars sqrt MULTICOMPONENT MULTI_TYPE wall).WR 0 = wall.UR 0 := rfl
  have hWL0 : (HLLS_vars sqrt MULTICOMPONENT MULTI_TYPE wall).WL 0 = wall.UL 0 := rfl
  obtain ⟨s0, s1, s2, s3, s4⟩ := HLLS_S_values wall (HLLS_vars sqrt MULTICOMPONENT MULTI_TYPE wall)
  refine ⟨hdiff, ?_, ?_, ?_, ?_⟩
  · intro m
    rcases m with _ | _ | _ | _ | _ | _ <;> simp [s0, s2, s3, s4]
    rfl
  · intro hz
    have : ABS wall.nz > (TOL14 : K) := by
      rw [hz]; simp only [ABS]; norm_num; exact TOL14_lt_one
    rw [s1, if_pos this, hWR0, hWL0]
    ring
  · intro hz
    have : ¬ ABS wall.nz > (TOL14 : K) := by
      rw [hz]; simp only [ABS]; norm_num; exact TOL14_pos.le
    rw [s1, if_neg this]
  · have := hdiff 0
    rw [s0, sub_eq_zero] at this
    simpa [compute_euler_HLLS, inverse_rotation] using this

lemma restWall_c_hat_pos : 0 < (HLLS_vars Real.sqrt false 0 (restWall : Wall ℝ)).c_hat := by
  have e : (HLLS_vars Real.sqrt false 0 (restWall : Wall ℝ)).c_hat = Real.sqrt (7 / 5) := by
    simp only [HLLS_vars, restWall, zeroWall, restState, state6, rotation, gamma, Bool.false_eq_true,
      if_false, Real.sqrt_one]
    norm_num
  rw [e]
  exact Real.sqrt_pos.mpr (by norm_num)

/-- Instance of `HLLS_flux_difference`: the wall `restWall`, over the reals
with the real square root. -/
theorem HLLS_flux_difference_witness :
    0 < (HLLS_vars Real.sqrt false 0 (restWall : Wall ℝ)).c_hat
    ∧ (∀ m, HLLS_F_star_R restWall (HLLS_vars Real.sqrt false 0 (restWall : Wall ℝ)) m
          - HLLS_F_star_L restWall (HLLS_vars Real.sqrt false 0 (restWall : Wall ℝ)) m
        = HLLS_S restWall (HLLS_vars Real.sqrt false 0 (restWall : Wall ℝ)) m)
    ∧ (compute_euler_HLLS Real.sqrt false 0 (restWall : Wall ℝ) 0).1.fR_star 0
        = (compute_euler_HLLS Real.sqrt false 0 (restWall : Wall ℝ) 0).1.fL_star 0 :=
  ⟨restWall_c_hat_pos,
   (HLLS_flux_difference Real.sqrt false 0 restWall 0 restWall_c_hat_pos).1,
   (HLLS_flux_difference Real.sqrt false 0 restWall 0 restWall_c_hat_pos).2.2.2.2⟩

/-! ## The integrator -/

lemma update_cell_cell (mesh : Mesh K) (sim : Sim K) (i : Nat) :
    (update_cell mesh sim).cell i
      = if i < mesh.ncells then
          (if (mesh.cell i).type ≠ 0 ∧ (mesh.cell i).ghost ≠ 1 then
            { mesh.cell i with
              U := fun k => if k < sim.nvar then
                (mesh.cell i).U k - sim.dt * flux_divergence mesh.wall (mesh.cell i) k
                else (mesh.cell i).U k }
           else mesh.cell i)
        else mesh.cell i := by
  unfold update_cell
  simp only
  rw [forLoop_pointwise_if (fun c : Cell K => c.type ≠ 0 ∧ c.ghost ≠ 1)
    (fun c => { c with U := (forLoop sim.nvar
      (fun k U => Function.update U k (U k - sim.dt * flux_divergence mesh.wall c k)) c.U) })]
  simp only [forLoop_pointwise
    (fun k u => u - sim.dt * flux_divergence mesh.wall (mesh.cell i) k)]

lemma update_cellK1_cell (mesh : Mesh K) (sim : Sim K) (i : Nat) :
    (update_cellK1 mesh sim).cell i
      = if i < mesh.ncells then
          (if (mesh.cell i).type ≠ 0 ∧ (mesh.cell i).ghost ≠ 1 then
            { mesh.cell i with
              U := fun k => if k < sim.nvar then
                (mesh.cell i).U k - sim.dt * (flux_divergence mesh.wall (mesh.cell i) k
                  - (mesh.cell i).S k)
                else (mesh.cell i).U k
              U_aux := fun k => if k < sim.nvar then (mesh.cell i).U k
                else (mesh.cell i).U_aux k }
           else mesh.cell i)
        else mesh.cell i := by
  unfold update_cellK1
  simp only
  rw [forLoop_pointwise_if (fun c : Cell K => c.type ≠ 0 ∧ c.ghost ≠ 1)
    (fun c => { c with
      U := (forLoop sim.nvar
        (fun k (s : (Nat → K) × (Nat → K)) =>
          (Function.update s.1 k (s.1 k - sim.dt * (flux_divergence mesh.wall c k - c.S k)),
           Function.update s.2 k (s.1 k))) (c.U, c.U_aux)).1
      U_aux := (forLoop sim.nvar
        (fun k (s : (Nat → K) × (Nat → K)) =>
          (Function.update s.1 k (s.1 k - sim.dt * (flux_divergence mesh.wall c k - c.S k)),
           Function.update s.2 k (s.1 k))) (c.U, c.U_aux)).2 })]
  simp only [forLoop_pair (fun k u => u - sim.dt * (flux_divergence mesh.wall (mesh.cell i) k
    - (mesh.cell i).S k))]

lemma update_cellK2_cell (mesh : Mesh K) (sim : Sim K) (i : Nat) :
    (update_cellK2 mesh sim).cell i
      = if i < mesh.ncells then
          (if (mesh.cell i).type ≠ 0 ∧ (mesh.cell i).ghost ≠ 1 then
            { mesh.cell i with
              U := fun k => if k < sim.nvar then
                3 / 4 * (mesh.cell i).U_aux k + 1 / 4 * (mesh.cell i).U k
                  - 1 / 4 * sim.dt * (flux_divergence mesh.wall (mesh.cell i) k
                    - (mesh.cell i).S k)
                else (mesh.cell i).U k }
           else mesh.cell i)
        else mesh.cell i := by
  unfold update_cellK2
  simp only
  rw [forLoop_pointwise_if (fun c : Cell K => c.type ≠ 0 ∧ c.ghost ≠ 1)
    (fun c => { c with U := (forLoop sim.nvar
      (fun k U => Function.update U k (3 / 4 * c.U_aux k + 1 / 4 * U k
        - 1 / 4 * sim.dt * (flux_divergence mesh.wall c k - c.S k))) c.U) })]
  simp only [forLoop_pointwise (fun k u => 3 / 4 * (mesh.cell i).U_aux k + 1 / 4 * u
        - 1 / 4 * sim.dt * (flux_divergence mesh.wall (mesh.cell i) k - (mesh.cell i).S k))]

lemma update_cellK3_cell (mesh : Mesh K) (sim : Sim K) (i : Nat) :
    (update_cellK3 mesh sim).cell i
      = if i < mesh.ncells then
          (if (mesh.cell i).type ≠ 0 ∧ (mesh.cell i).ghost ≠ 1 then
            { mesh.cell i with
              U := fun k => if k < sim.nvar then
                1 / 3 * (mesh.cell i).U_aux k + 2 / 3 * (mesh.cell i).U k
                  - 2 / 3 * sim.dt * (flux_divergence mesh.wall (mesh.cell i) k
                    - (mesh.cell i).S k)
                else (mesh.cell i).U k }
           else mesh.cell i)
        else mesh.cell i := by
  unfold update_cellK3
  simp only
  rw [forLoop_pointwise_if (fun c : Cell K => c.type ≠ 0 ∧ c.ghost ≠ 1)
    (fun c => { c with U := (forLoop sim.nvar
      (fun k U => Function.update U k (1 / 3 * c.U_aux k + 2 / 3 * U k
        - 2 / 3 * sim.dt * (flux_divergence mesh.wall c k - c.S k))) c.U) })]
  simp only [forLoop_pointwise (fun k u => 1 / 3 * (mesh.cell i).U_aux k + 2 / 3 * u
        - 2 / 3 * sim.dt * (flux_divergence mesh.wall (mesh.cell i) k - (mesh.cell i).S k))]


/-- Claim C9 (SSP-RK3): for every integrated cell `i` and component `k`, with
`L = -divF + S` evaluated from the wall fluxes and source that the mesh holds
at each stage, `update_cellK1`, `update_cellK2`, `update_cellK3` applied in
order compute `U1 = Un + dt*L(Un)`, `U2 = 3/4*Un + 1/4*U1 + 1/4*dt*L(U1)` and
`U(n+1) = 1/3*Un + 2/3*U2 + 2/3*dt*L(U2)`, and `U_aux` equals `Un` during
stages 2 and 3.  The meshes `m2`, `m3` entering stages 2 and 3 carry the `U`,
`U_aux` of the previous stage for the cell; their fluxes and sources are
arbitrary (they are recomputed between the stages). -/
theorem ssp_rk3_stages (m1 m2 m3 : Mesh K) (sim : Sim K) (i k : Nat)
    (hi : i < m1.ncells) (hk : k < sim.nvar)
    (hint : (m1.cell i).type ≠ 0 ∧ (m1.cell i).ghost ≠ 1)
    (hn2 : m2.ncells = m1.ncells) (hn3 : m3.ncells = m1.ncells)
    (ht2 : (m2.cell i).type = (m1.cell i).type ∧ (m2.cell i).ghost = (m1.cell i).ghost)
    (ht3 : (m3.cell i).type = (m1.cell i).type ∧ (m3.cell i).ghost = (m1.cell i).ghost)
    (h2 : (m2.cell i).U = ((update_cellK1 m1 sim).cell i).U
      ∧ (m2.cell i).U_aux = ((update_cellK1 m1 sim).cell i).U_aux)
    (h3 : (m3.cell i).U = ((update_cellK2 m2 sim).cell i).U
      ∧ (m3.cell i).U_aux = ((update_cellK2 m2 sim).cell i).U_aux) :
    ((update_cellK1 m1 sim).cell i).U k
        = (m1.cell i).U k + sim.dt * L_op m1.wall (m1.cell i) k
    ∧ ((update_cellK2 m2 sim).cell i).U k
        = 3 / 4 * (m1.cell i).U k + 1 / 4 * ((update_cellK1 m1 sim).cell i).U k
          + 1 / 4 * sim.dt * L_op m2.wall (m2.cell i) k
    ∧ ((update_cellK3 m3 sim).cell i).U k
        = 1 / 3 * (m1.cell i).U k + 2 / 3 * ((update_cellK2 m2 sim).cell i).U k
          + 2 / 3 * sim.dt * L_op m3.wall (m3.cell i) k
    ∧ (m2.cell i).U_aux k = (m1.cell i).U k
    ∧ ((update_cellK2 m2 sim).cell i).U_aux k = (m1.cell i).U k
    ∧ (m3.cell i).U_aux k = (m1.cell i).U k
    ∧ ((update_cellK3 m3 sim).cell i).U_aux k = (m1.cell i).U k := by
  have hint2 : (m2.cell i).type ≠ 0 ∧ (m2.cell i).ghost ≠ 1 := by rw [ht2.1, ht2.2]; exact hint
  have hint3 : (m3.cell i).type ≠ 0 ∧ (m3.cell i).ghost ≠ 1 := by rw [ht3.1, ht3.2]; exact hint
  have hi2 : i < m2.ncells := by omega
  have hi3 : i < m3.ncells := by omega
  have k1 := update_cellK1_cell m1 sim i
  have k2 := update_cellK2_cell m2 sim i
  have k3 := update_cellK3_cell m3 sim i
  simp only [hi, hint, hi2, hint2, hi3, hint3, if_true, ne_eq, not_false_eq_true, and_self]
    at k1 k2 k3
  have a2 : (m2.cell i).U_aux k = (m1.cell i).U k := by
    rw [h2.2, k1]; simp only [hk, if_true]
  have a3 : (m3.cell i).U_aux k = (m1.cell i).U k := by
    rw [h3.2, k2]; exact a2
  have u1 : ((update_cellK1 m1 sim).cell i).U k
      = (m1.cell i).U k + sim.dt * L_op m1.wall (m1.cell i) k := by
    rw [k1]; simp only [hk, if_true, L_op]; ring
  have u2 : ((update_cellK2 m2 sim).cell i).U k
      = 3 / 4 * (m1.cell i).U k + 1 / 4 * ((update_cellK1 m1 sim).cell i).U k
        + 1 / 4 * sim.dt * L_op m2.wall (m2.cell i) k := by
    rw [k2]; simp only [hk, if_true, L_op, a2, h2.1]; ring
  have u3 : ((update_cellK3 m3 sim).cell i).U k
      = 1 / 3 * (m1.cell i).U k + 2 / 3 * ((update_cellK2 m2 sim).cell i).U k
        + 2 / 3 * sim.dt * L_op m3.wall (m3.cell i) k := by
    rw [k3]; simp only [hk, if_true, L_op, a3, h3.1]; ring
  refine ⟨u1, u2, u3, a2, ?_, a3, ?_⟩
  · rw [k2]; exact a2
  · rw [k3]; exact a3

/-- Claim C10, what the code does: for an integrated cell `update_cell` writes
`U - dt*divF`, without the source, whereas `update_cellK1` writes
`U - dt*(divF - S)`; the two results differ by `dt*S`. -/
theorem update_cell_drops_source (mesh : Mesh K) (sim : Sim K) (i k : Nat)
    (hi : i < mesh.ncells) (hk : k < sim.nvar)
    (hint : (mesh.cell i).type ≠ 0 ∧ (mesh.cell i).ghost ≠ 1) :
    ((update_cell mesh sim).cell i).U k
        = (mesh.cell i).U k - sim.dt * flux_divergence mesh.wall (mesh.cell i) k
    ∧ ((update_cellK1 mesh sim).cell i).U k
        = (mesh.cell i).U k - sim.dt * (flux_divergence mesh.wall (mesh.cell i) k
            - (mesh.cell i).S k)
    ∧ ((update_cellK1 mesh sim).cell i).U k - ((update_cell mesh sim).cell i).U k
        = sim.dt * (mesh.cell i).S k := by
  have k0 := update_cell_cell mesh sim i
  have k1 := update_cellK1_cell mesh sim i
  simp only [hi, hint, if_true, ne_eq, not_false_eq_true, and_self] at k0 k1
  have e0 : ((update_cell mesh sim).cell i).U k
      = (mesh.cell i).U k - sim.dt * flux_divergence mesh.wall (mesh.cell i) k := by
    rw [k0]; simp only [hk, if_true]
  have e1 : ((update_cellK1 mesh sim).cell i).U k
      = (mesh.cell i).U k - sim.dt * (flux_divergence mesh.wall (mesh.cell i) k
          - (mesh.cell i).S k) := by
    rw [k1]; simp only [hk, if_true]
  refine ⟨e0, e1, ?_⟩
  rw [e0, e1]; ring

/-- Instance of `ssp_rk3_stages`: the one-cell mesh, each stage entered with the
mesh the previous stage returned, density component. -/
theorem ssp_rk3_stages_witness :
    ((0 : Nat) < (oneCellMesh : Mesh ℚ).ncells ∧ (0 : Nat) < (eulerSim (1 / 10 : ℚ) 3).nvar
      ∧ ((oneCellMesh : Mesh ℚ).cell 0).type ≠ 0 ∧ ((oneCellMesh : Mesh ℚ).cell 0).ghost ≠ 1)
    ∧ ((update_cellK1 (oneCellMesh : Mesh ℚ) (eulerSim (1 / 10) 3)).cell 0).U 0
        = ((oneCellMesh : Mesh ℚ).cell 0).U 0
          + (eulerSim (1 / 10 : ℚ) 3).dt * L_op (oneCellMesh : Mesh ℚ).wall (oneCellMesh.cell 0) 0 :=
  ⟨⟨by decide, by decide, by decide, by decide⟩,
   (ssp_rk3_stages (oneCellMesh : Mesh ℚ) (update_cellK1 oneCellMesh (eulerSim (1 / 10) 3))
      (update_cellK2 (update_cellK1 oneCellMesh (eulerSim (1 / 10) 3)) (eulerSim (1 / 10) 3))
      (eulerSim (1 / 10) 3) 0 0 (by decide) (by decide) ⟨by decide, by decide⟩ rfl rfl
      ⟨rfl, rfl⟩ ⟨rfl, rfl⟩ ⟨rfl, rfl⟩ ⟨rfl, rfl⟩).1⟩

/-- Claim C10 at a concrete input: one fluid cell with density 1, equilibrium
density 2, zero wall fluxes, `dt = 1/10`, source mode 3.  `compute_source` sets
`S[3] = 49/5`; `update_cell` leaves the z-momentum at 0 while `update_cellK1`
makes it `49/50`. -/
theorem update_cell_source_example :
    ((compute_source 3 (oneCellMesh : Mesh ℚ)).cell 0).S 3 = 49 / 5
    ∧ ((update_cell (compute_source 3 (oneCellMesh : Mesh ℚ)) (eulerSim (1 / 10) 1)).cell 0).U 3
        = 0
    ∧ ((update_cellK1 (compute_source 3 (oneCellMesh : Mesh ℚ)) (eulerSim (1 / 10) 1)).cell 0).U 3
        = 49 / 50 := by
  have hS : ((compute_source 3 (oneCellMesh : Mesh ℚ)).cell 0).S 3 = 49 / 5 := by
    simp [compute_source, forLoop, oneCellMesh, oneCell, zeroCell, restState, state6, g]
    norm_num
  have hc : (compute_source 3 (oneCellMesh : Mesh ℚ)).ncells = 1 := rfl
  have ht : ((compute_source 3 (oneCellMesh : Mesh ℚ)).cell 0).type = 1 := by
    simp [compute_source, forLoop, oneCellMesh, oneCell, zeroCell]
  have hg : ((compute_source 3 (oneCellMesh : Mesh ℚ)).cell 0).ghost = 0 := by
    simp [compute_source, forLoop, oneCellMesh, oneCell, zeroCell]
  have hU : ((compute_source 3 (oneCellMesh : Mesh ℚ)).cell 0).U 3 = 0 := by
    simp [compute_source, forLoop, oneCellMesh, oneCell, zeroCell, restState, state6]
  have hw : (compute_source 3 (oneCellMesh : Mesh ℚ)).wall = fun _ => zeroWall := rfl
  obtain ⟨e0, e1, _⟩ := update_cell_drops_source (compute_source 3 (oneCellMesh : Mesh ℚ))
    (eulerSim (1 / 10) 1) 0 3 (by rw [hc]; decide) (by decide)
    ⟨by rw [ht]; decide, by rw [hg]; decide⟩
  refine ⟨hS, ?_, ?_⟩
  · rw [e0, hU, hw]
    simp [flux_divergence, zeroWall]
  · rw [e1, hU, hw, hS]
    simp [flux_divergence, zeroWall, eulerSim]
    norm_num

/-! ## Ghost cells -/

/-- A loop whose iteration `j` leaves every entry but `j` alone: entry `n` is final after
iteration `n`. -/
lemma forLoop_frame {α : Type} (body : Nat → (Nat → α) → (Nat → α))
    (hb : ∀ j c i, i ≠ j → body j c i = c i) (c0 : Nat → α) (n m : Nat) (h : n < m) :
    forLoop m body c0 n = body n (forLoop n body c0) n := by
  induction m with
  | zero => omega
  | succ m ih =>
    rw [forLoop_succ]
    by_cases hm : n = m
    · subst hm; rfl
    · rw [hb m _ n hm]
      exact ih (by omega)

lemma ghost_step_other (sim : Sim K) (j : Nat) (c : Nat → Cell K) (i : Nat) (h : i ≠ j) :
    ghost_step sim j c i = c i := by
  unfold ghost_step
  by_cases hg : (c j).ghost = 1
  · simp only [hg, if_true]
    exact Function.update_noteq h _ _
  · simp only [hg, if_false]

lemma ghost_step_fields (sim : Sim K) (j : Nat) (c : Nat → Cell K) (i : Nat) :
    (ghost_step sim j c i).ghost = (c i).ghost ∧ (ghost_step sim j c i).tri = (c i).tri
    ∧ (ghost_step sim j c i).li = (c i).li ∧ (ghost_step sim j c i).ni = (c i).ni := by
  by_cases hi : i = j
  · subst hi
    unfold ghost_step
    by_cases hg : (c i).ghost = 1
    · simp only [hg, if_true, Function.update_same, and_self]
    · simp only [hg, if_false, and_self]
  · rw [ghost_step_other sim j c i hi]
    exact ⟨rfl, rfl, rfl, rfl⟩

/-- The loop changes nothing but `U`. -/
lemma ghost_loop_fields (sim : Sim K) (c0 : Nat → Cell K) (j i : Nat) :
    (forLoop j (ghost_step sim) c0 i).ghost = (c0 i).ghost
    ∧ (forLoop j (ghost_step sim) c0 i).tri = (c0 i).tri
    ∧ (forLoop j (ghost_step sim) c0 i).li = (c0 i).li
    ∧ (forLoop j (ghost_step sim) c0 i).ni = (c0 i).ni := by
  induction j with
  | zero => exact ⟨rfl, rfl, rfl, rfl⟩
  | succ j ih =>
    rw [forLoop_succ]
    obtain ⟨h1, h2, h3, h4⟩ := ghost_step_fields sim j (forLoop j (ghost_step sim) c0) i
    exact ⟨h1.trans ih.1, h2.trans ih.2.1, h3.trans ih.2.2.1, h4.trans ih.2.2.2⟩

lemma ghost_step_not_ghost (sim : Sim K) (n : Nat) (c : Nat → Cell K)
    (h : ¬ (c n).ghost = 1) : ghost_step sim n c = c := by
  unfold ghost_step
  simp only [h, if_false]

/-- A non-ghost cell keeps its state through the loop. -/
lemma ghost_loop_U (sim : Sim K) (c0 : Nat → Cell K) (j i : Nat) (h : (c0 i).ghost ≠ 1) :
    (forLoop j (ghost_step sim) c0 i).U = (c0 i).U := by
  induction j with
  | zero => rfl
  | succ j ih =>
    rw [forLoop_succ]
    by_cases hi : i = j
    · subst hi
      have hg : ¬ (forLoop i (ghost_step sim) c0 i).ghost = 1 := by
        rw [(ghost_loop_fields sim c0 i i).1]; exact h
      rw [ghost_step_not_ghost sim i _ hg]; exact ih
    · rw [ghost_step_other sim j _ i hi]
      exact ih

lemma ghost_step_self (sim : Sim K) (n : Nat) (c : Nat → Cell K) (hg : (c n).ghost = 1)
    (k : Nat) (hk : k < sim.nvar) :
    (ghost_step sim n c n).U k
      = if k = 1 ∨ k = 2 ∨ k = 3 then
          ghost_auxval sim c n k - 2 * ((c n).tri.nr 0 * ghost_auxval sim c n 1
            + (c n).tri.nr 1 * ghost_auxval sim c n 2
            + (c n).tri.nr 2 * ghost_auxval sim c n 3) * (c n).tri.nr (k - 1)
        else ghost_auxval sim c n k := by
  unfold ghost_step
  simp only [hg, if_true, Function.update_same]
  rw [forLoop_pointwise (fun k _ => if k = 1 ∨ k = 2 ∨ k = 3 then
      ghost_auxval sim c n k - 2 * ((c n).tri.nr 0 * ghost_auxval sim c n 1
        + (c n).tri.nr 1 * ghost_auxval sim c n 2
        + (c n).tri.nr 2 * ghost_auxval sim c n 3) * (c n).tri.nr (k - 1)
      else ghost_auxval sim c n k)]
  simp only [hk, if_true]

/-- The interpolation reads only `U`, `li`, `ni`; it is the same on two arrays that agree on
those for the cell and its neighbours of non-zero weight. -/
lemma forLoop_sum_congr (f f' : Nat → K) (n : Nat) (h : ∀ q, q < n → f q = f' q) :
    forLoop n (fun q acc => acc + f q) 0 = forLoop n (fun q acc => acc + f' q) 0 := by
  induction n with
  | zero => rfl
  | succ n ih =>
    rw [forLoop_succ, forLoop_succ, ih (fun q hq => h q (by omega)), h n (by omega)]

lemma ghost_auxval_eq (sim : Sim K) (c : Nat → Cell K) (n k : Nat) (hk : k < sim.nvar) :
    ghost_auxval sim c n k
      = forLoop 8 (fun q acc => acc + (c n).li q * (c ((c n).ni q)).U k) 0 := by
  unfold ghost_auxval
  rw [forLoop_pointwise (fun k _ =>
    forLoop 8 (fun q acc => acc + (c n).li q * (c ((c n).ni q)).U k) 0)]
  simp only [hk, if_true]

/-- The summation loop over `q` is a finite sum. -/
lemma forLoop_sum_range (f : Nat → K) (n : Nat) :
    forLoop n (fun q sum => sum + f q) 0 = (Finset.range n).sum f := by
  induction n with
  | zero => rfl
  | succ n ih => rw [forLoop_succ, ih, Finset.sum_range_succ]

/-- The array `auxval` is the weighted sum of the states of the eight
neighbours. -/
lemma ghost_auxval_sum (sim : Sim K) (c : Nat → Cell K) (n k : Nat) (hk : k < sim.nvar) :
    ghost_auxval sim c n k
      = Finset.sum (Finset.range 8) (fun q => (c n).li q * (c ((c n).ni q)).U k) := by
  rw [ghost_auxval_eq sim c n k hk]
  exact forLoop_sum_range (fun q => (c n).li q * (c ((c n).ni q)).U k) 8

/-- Claim C8 (ghost-cell reflection): in an Euler run (`nvar = 6`) with at
least one solid, for every ghost cell `n` whose triangle normal `nr` is a unit
vector, after `update_ghost_cells` the ghost momentum `mg` and the momentum
`mi` interpolated at the image point satisfy `mg . nr = -(mi . nr)` and
`mg - (mg . nr) nr = mi - (mi . nr) nr`, while density, energy and scalar
equal the interpolated values.  The interpolated state is
`mi[k] = sum over q < 8 of li[q] * U[ni[q]][k]`, with `U` read from the cell
array `cur` as it stands when the loop reaches the cell (the cells before `n`
have been processed); when the neighbours that are ghost cells have weight 0
it is the same sum over the state the function was called with. -/
theorem ghost_cell_reflection (sim : Sim K) (mesh : Mesh K) (solids : Solids K) (n : Nat)
    (hsol : 0 < solids.nsolid) (hnvar : sim.nvar = 6) (hn : n < mesh.ncells)
    (hg : (mesh.cell n).ghost = 1)
    (hunit : (mesh.cell n).tri.nr 0 * (mesh.cell n).tri.nr 0
      + (mesh.cell n).tri.nr 1 * (mesh.cell n).tri.nr 1
      + (mesh.cell n).tri.nr 2 * (mesh.cell n).tri.nr 2 = 1) :
    let nr := (mesh.cell n).tri.nr
    let cur := forLoop n (ghost_step sim) mesh.cell
    let mi : Nat → K := fun k =>
      Finset.sum (Finset.range 8)
        (fun q => (mesh.cell n).li q * (cur ((mesh.cell n).ni q)).U k)
    let mg := ((update_ghost_cells sim mesh solids).cell n).U
    (mg 1 * nr 0 + mg 2 * nr 1 + mg 3 * nr 2 = -(mi 1 * nr 0 + mi 2 * nr 1 + mi 3 * nr 2))
    ∧ (∀ j, j < 3 →
        mg (j + 1) - (mg 1 * nr 0 + mg 2 * nr 1 + mg 3 * nr 2) * nr j
          = mi (j + 1) - (mi 1 * nr 0 + mi 2 * nr 1 + mi 3 * nr 2) * nr j)
    ∧ mg 0 = mi 0 ∧ mg 4 = mi 4 ∧ mg 5 = mi 5
    ∧ ((∀ q, q < 8 → (mesh.cell ((mesh.cell n).ni q)).ghost = 1 → (mesh.cell n).li q = 0) →
        ∀ k, k < 6 →
          mi k = Finset.sum (Finset.range 8)
            (fun q => (mesh.cell n).li q * (mesh.cell ((mesh.cell n).ni q)).U k)) := by
  intro nr cur mi mg
  have hf := ghost_loop_fields sim mesh.cell n n
  have hmi : ∀ k, k < sim.nvar → ghost_auxval sim cur n k = mi k := by
    intro k hk
    rw [ghost_auxval_sum sim cur n k hk]
    show Finset.sum (Finset.range 8)
        (fun q => (forLoop n (ghost_step sim) mesh.cell n).li q
          * (cur ((forLoop n (ghost_step sim) mesh.cell n).ni q)).U k) = _
    rw [hf.2.2.1, hf.2.2.2]
  have hfin : ∀ k, k < sim.nvar → mg k
      = if k = 1 ∨ k = 2 ∨ k = 3 then
          mi k - 2 * (nr 0 * mi 1 + nr 1 * mi 2 + nr 2 * mi 3) * nr (k - 1)
        else mi k := by
    intro k hk
    have h1 : (update_ghost_cells sim mesh solids).cell n
        = ghost_step sim n (forLoop n (ghost_step sim) mesh.cell) n := by
      unfold update_ghost_cells
      simp only [gt_iff_lt, hsol, if_true]
      exact forLoop_frame _ (ghost_step_other sim) _ n _ hn
    have h2 := ghost_step_self sim n (forLoop n (ghost_step sim) mesh.cell)
      (by rw [hf.1, hg]) k hk
    rw [← hmi k hk, ← hmi 1 (by omega), ← hmi 2 (by omega), ← hmi 3 (by omega)]
    simp only [mg, h1, h2, hf.2.1, nr, cur]
  have m0 := hfin 0 (by omega)
  have m1 := hfin 1 (by omega)
  have m2 := hfin 2 (by omega)
  have m3 := hfin 3 (by omega)
  have m4 := hfin 4 (by omega)
  have m5 := hfin 5 (by omega)
  simp only [true_or, or_true, if_true, Nat.sub_self, Nat.reduceSub, OfNat.ofNat_ne_one,
    OfNat.zero_ne_ofNat, OfNat.ofNat_ne_zero, zero_ne_one, or_self, if_false, Nat.reduceEqDiff,
    ] at m0 m1 m2 m3 m4 m5
  refine ⟨?_, ?_, m0, m4, m5, ?_⟩
  · rw [m1, m2, m3]
    have : (mi 1 - 2 * (nr 0 * mi 1 + nr 1 * mi 2 + nr 2 * mi 3) * nr 0) * nr 0
        + (mi 2 - 2 * (nr 0 * mi 1 + nr 1 * mi 2 + nr 2 * mi 3) * nr 1) * nr 1
        + (mi 3 - 2 * (nr 0 * mi 1 + nr 1 * mi 2 + nr 2 * mi 3) * nr 2) * nr 2
        = (mi 1 * nr 0 + mi 2 * nr 1 + mi 3 * nr 2)
          - 2 * (nr 0 * mi 1 + nr 1 * mi 2 + nr 2 * mi 3)
            * (nr 0 * nr 0 + nr 1 * nr 1 + nr 2 * nr 2) := by ring
    rw [this, hunit]
    ring
  · intro j hj
    have hdot : mg 1 * nr 0 + mg 2 * nr 1 + mg 3 * nr 2
        = -(mi 1 * nr 0 + mi 2 * nr 1 + mi 3 * nr 2) := by
      rw [m1, m2, m3]
      have : (mi 1 - 2 * (nr 0 * mi 1 + nr 1 * mi 2 + nr 2 * mi 3) * nr 0) * nr 0
          + (mi 2 - 2 * (nr 0 * mi 1 + nr 1 * mi 2 + nr 2 * mi 3) * nr 1) * nr 1
          + (mi 3 - 2 * (nr 0 * mi 1 + nr 1 * mi 2 + nr 2 * mi 3) * nr 2) * nr 2
          = (mi 1 * nr 0 + mi 2 * nr 1 + mi 3 * nr 2)
            - 2 * (nr 0 * mi 1 + nr 1 * mi 2 + nr 2 * mi 3)
              * (nr 0 * nr 0 + nr 1 * nr 1 + nr 2 * nr 2) := by ring
      rw [this, hunit]
      ring
    rw [hdot]
    interval_cases j
    · rw [m1]; ring
    · rw [m2]; ring
    · rw [m3]; ring
  · intro hw k _
    show Finset.sum (Finset.range 8)
        (fun q => (mesh.cell n).li q * (cur ((mesh.cell n).ni q)).U k) = _
    apply Finset.sum_congr rfl
    intro q hq
    have hq8 : q < 8 := Finset.mem_range.mp hq
    by_cases hgq : (mesh.cell ((mesh.cell n).ni q)).ghost = 1
    · rw [hw q hq8 hgq, zero_mul, zero_mul]
    · show (mesh.cell n).li q * (forLoop n (ghost_step sim) mesh.cell ((mesh.cell n).ni q)).U k
        = _
      rw [ghost_loop_U sim mesh.cell n _ hgq]

/-- Instance of `ghost_cell_reflection`: the ghost cell 0 of `ghostMesh`, with
normal `(1, 0, 0)` and the whole weight on cell 1, whose state is
`(1, 2, 3, 4, 5, 6)`: the ghost cell receives `(1, -2, 3, 4, 5, 6)`. -/
theorem ghost_cell_reflection_witness :
    ((0 : Int) < (oneSolid : Solids ℚ).nsolid ∧ (eulerSim (0 : ℚ) 3).nvar = 6
      ∧ (0 : Nat) < (ghostMesh : Mesh ℚ).ncells ∧ ((ghostMesh : Mesh ℚ).cell 0).ghost = 1
      ∧ ((ghostMesh : Mesh ℚ).cell 0).tri.nr 0 * ((ghostMesh : Mesh ℚ).cell 0).tri.nr 0
        + ((ghostMesh : Mesh ℚ).cell 0).tri.nr 1 * ((ghostMesh : Mesh ℚ).cell 0).tri.nr 1
        + ((ghostMesh : Mesh ℚ).cell 0).tri.nr 2 * ((ghostMesh : Mesh ℚ).cell 0).tri.nr 2 = 1)
    ∧ ((update_ghost_cells (eulerSim (0 : ℚ) 3) ghostMesh oneSolid).cell 0).U 0 = 1
    ∧ ((update_ghost_cells (eulerSim (0 : ℚ) 3) ghostMesh oneSolid).cell 0).U 1 = -2
    ∧ ((update_ghost_cells (eulerSim (0 : ℚ) 3) ghostMesh oneSolid).cell 0).U 2 = 3
    ∧ ((update_ghost_cells (eulerSim (0 : ℚ) 3) ghostMesh oneSolid).cell 0).U 3 = 4
    ∧ ((update_ghost_cells (eulerSim (0 : ℚ) 3) ghostMesh oneSolid).cell 0).U 4 = 5
    ∧ ((update_ghost_cells (eulerSim (0 : ℚ) 3) ghostMesh oneSolid).cell 0).U 5 = 6 := by
  have hunit : ((ghostMesh : Mesh ℚ).cell 0).tri.nr 0 * ((ghostMesh : Mesh ℚ).cell 0).tri.nr 0
        + ((ghostMesh : Mesh ℚ).cell 0).tri.nr 1 * ((ghostMesh : Mesh ℚ).cell 0).tri.nr 1
        + ((ghostMesh : Mesh ℚ).cell 0).tri.nr 2 * ((ghostMesh : Mesh ℚ).cell 0).tri.nr 2 = 1 := by
    norm_num [ghostMesh, zeroTriangle, state6]
  have h := ghost_cell_reflection (eulerSim (0 : ℚ) 3) ghostMesh oneSolid 0 (by decide) rfl
    (by decide) rfl hunit
  simp only at h
  obtain ⟨hd, ht, h0, h4, h5, -⟩ := h
  have hmi : ∀ k, Finset.sum (Finset.range 8)
      (fun q => ((ghostMesh : Mesh ℚ).cell 0).li q
        * (forLoop 0 (ghost_step (eulerSim (0 : ℚ) 3)) (ghostMesh : Mesh ℚ).cell
            (((ghostMesh : Mesh ℚ).cell 0).ni q)).U k) = state6 1 2 3 4 5 6 k := by
    intro k
    simp [Finset.sum_range_succ, ghostMesh, forLoop, zeroCell]
  have n0 : ((ghostMesh : Mesh ℚ).cell 0).tri.nr 0 = 1 := rfl
  have n1 : ((ghostMesh : Mesh ℚ).cell 0).tri.nr 1 = 0 := rfl
  have n2 : ((ghostMesh : Mesh ℚ).cell 0).tri.nr 2 = 0 := rfl
  have t1 := ht 1 (by decide)
  have t2 := ht 2 (by decide)
  simp only [hmi, n0, n1, n2, state6] at hd t1 t2 h0 h4 h5
  refine ⟨⟨by decide, rfl, by decide, rfl, hunit⟩, h0, ?_, ?_, ?_, h4, h5⟩
  · linarith
  · linarith
  · linarith

/-! ## The wall numbering of `create_mesh` -/

/-- Quotient and remainder of `a + b * c` by `c`. -/
lemma div_mod_of_lt (a b c : Nat) (h : a < c) : (a + b * c) / c = b ∧ (a + b * c) % c = a := by
  have hc : 0 < c := by omega
  constructor
  · rw [Nat.add_mul_div_right _ _ hc, Nat.div_eq_of_lt h, Nat.zero_add]
  · rw [Nat.add_mul_mod_self_right, Nat.mod_eq_of_lt h]

lemma row_bound (X Y l m s : Nat) (hl : l < X) (hm : m < Y) (hs : s < 4)
    (hs3 : s = 3 → l = X - 1) :
    3 * l + s + m * (3 * X + 1) < Y * (3 * X + 1) := by
  have h1 : (m + 1) * (3 * X + 1) ≤ Y * (3 * X + 1) := Nat.mul_le_mul_right _ hm
  have h2 : 3 * l + s < 3 * X + 1 := by
    by_cases h : s = 3
    · have := hs3 h; omega
    · omega
  nlinarith

lemma layer_bound (X Y Z n r : Nat) (hn : n < Z) (hr : r < 3 * X * Y + X + Y) :
    r + n * (3 * X * Y + X + Y) < Z * (3 * X * Y + X + Y) := by
  have h1 : (n + 1) * (3 * X * Y + X + Y) ≤ Z * (3 * X * Y + X + Y) :=
    Nat.mul_le_mul_right _ hn
  nlinarith

/-- The three walls a cell owns. -/
lemma wall_info_regular (X Y Z l m n s : Nat) (hl : l < X) (hm : m < Y) (hn : n < Z)
    (hs : s < 3) :
    wall_info X Y Z (wall_base X Y l m n + s)
      = if s = 0 then
          { axis := 1, R := cell_index X Y l m n,
            L := if m = 0 then cell_index X Y l m n + (Y - 1) * X else cell_index X Y l m n - X }
        else if s = 1 then
          { axis := 0, R := cell_index X Y l m n,
            L := if l = 0 then cell_index X Y l m n + (X - 1) else cell_index X Y l m n - 1 }
        else
          { axis := 2, R := cell_index X Y l m n,
            L := if n = 0 then cell_index X Y l m n + (Z - 1) * X * Y
                 else cell_index X Y l m n - X * Y } := by
  have hrow := row_bound X Y l m s hl hm (by omega) (by omega)
  have e1 : wall_base X Y l m n + s
      = (3 * l + s + m * (3 * X + 1)) + n * (3 * X * Y + X + Y) := by
    unfold wall_base; ring
  have hlay : 3 * l + s + m * (3 * X + 1) < 3 * X * Y + X + Y := by nlinarith
  have hj := layer_bound X Y Z n _ hn hlay
  obtain ⟨d1, d2⟩ := div_mod_of_lt _ n _ hlay
  have hq : 3 * l + s < 3 * X + 1 := by omega
  obtain ⟨d3, d4⟩ := div_mod_of_lt _ m _ hq
  have hq3 : 3 * l + s < 3 * X := by omega
  have d5 : (3 * l + s) / 3 = l := by omega
  have d6 : (3 * l + s) % 3 = s := by omega
  unfold wall_info
  simp only [e1, hj, if_true, d1, d2, hrow, d3, d4, hq3, d5, d6]


/-- The closing +x wall of a row. -/
lemma wall_info_xlast (X Y Z m n : Nat) (hX : 0 < X) (hm : m < Y) (hn : n < Z) :
    wall_info X Y Z (wall_base X Y (X - 1) m n + 4 - 1)
      = { axis := 0, L := cell_index X Y (X - 1) m n, R := cell_index X Y 0 m n } := by
  have hl : X - 1 < X := by omega
  have hrow := row_bound X Y (X - 1) m 3 hl hm (by omega) (fun _ => rfl)
  have e1 : wall_base X Y (X - 1) m n + 4 - 1
      = (3 * (X - 1) + 3 + m * (3 * X + 1)) + n * (3 * X * Y + X + Y) := by
    unfold wall_base
    have : 3 * (X - 1 + m * X) + m + n * (3 * X * Y + X + Y) + 4 - 1
        = 3 * (X - 1 + m * X) + m + n * (3 * X * Y + X + Y) + 3 := by omega
    rw [this]; ring
  have hlay : 3 * (X - 1) + 3 + m * (3 * X + 1) < 3 * X * Y + X + Y := by nlinarith
  have hj := layer_bound X Y Z n _ hn hlay
  obtain ⟨d1, d2⟩ := div_mod_of_lt _ n _ hlay
  have hq : 3 * (X - 1) + 3 < 3 * X + 1 := by omega
  obtain ⟨d3, d4⟩ := div_mod_of_lt _ m _ hq
  have hq3 : ¬ 3 * (X - 1) + 3 < 3 * X := by omega
  unfold wall_info
  simp only [e1, hj, if_true, d1, d2, hrow, d3, d4, hq3, if_false]

/-- The closing +y walls of a layer. -/
lemma wall_info_ylast (X Y Z l n : Nat) (hl : l < X) (_hY : 0 < Y) (hn : n < Z) :
    wall_info X Y Z ((3 * X * Y + X + Y) * (n + 1) - X + l)
      = { axis := 1, L := cell_index X Y l (Y - 1) n, R := cell_index X Y l 0 n } := by
  have e0 : 3 * X * Y + X + Y = Y * (3 * X + 1) + X := by ring
  have e1 : (3 * X * Y + X + Y) * (n + 1) - X + l
      = (Y * (3 * X + 1) + l) + n * (3 * X * Y + X + Y) := by
    have : (3 * X * Y + X + Y) * (n + 1) = (Y * (3 * X + 1) + n * (3 * X * Y + X + Y)) + X := by
      ring
    rw [this, Nat.add_sub_cancel]; ring
  have hlay : Y * (3 * X + 1) + l < 3 * X * Y + X + Y := by rw [e0]; omega
  have hj := layer_bound X Y Z n _ hn hlay
  obtain ⟨d1, d2⟩ := div_mod_of_lt _ n _ hlay
  have hr : ¬ Y * (3 * X + 1) + l < Y * (3 * X + 1) := by omega
  have hsub : Y * (3 * X + 1) + l - Y * (3 * X + 1) = l := by omega
  unfold wall_info
  simp only [e1, hj, if_true, d1, d2, hr, if_false, hsub]

/-- The closing +z walls of the grid. -/
lemma wall_info_zlast (X Y Z l m : Nat) :
    wall_info X Y Z (3 * (X * Y * Z) + X * Z + Y * Z + X * Y - X * Y + l + m * X)
      = { axis := 2, L := cell_index X Y l m (Z - 1) , R := cell_index X Y l m 0 } := by
  have e1 : 3 * (X * Y * Z) + X * Z + Y * Z + X * Y - X * Y + l + m * X
      = Z * (3 * X * Y + X + Y) + (l + m * X) := by
    rw [Nat.add_sub_cancel]; ring
  have hj : ¬ Z * (3 * X * Y + X + Y) + (l + m * X) < Z * (3 * X * Y + X + Y) := by omega
  have hsub : Z * (3 * X * Y + X + Y) + (l + m * X) - Z * (3 * X * Y + X + Y) = l + m * X := by
    omega
  unfold wall_info
  simp only [e1, hj, if_false, hsub, cell_index]
  congr 1
  ring

/-! ### The six walls of a cell -/

lemma cell_index_lt (X Y Z l m n : Nat) (hl : l < X) (hm : m < Y) (hn : n < Z) :
    cell_index X Y l m n < X * Y * Z := by
  unfold cell_index
  have h1 : (m + 1) * X ≤ Y * X := Nat.mul_le_mul_right _ hm
  have h2 : (n + 1) * (X * Y) ≤ Z * (X * Y) := Nat.mul_le_mul_right _ hn
  nlinarith

lemma wall_base_lt (X Y Z l m n s : Nat) (hl : l < X) (hm : m < Y) (hn : n < Z) (hs : s < 4)
    (hs3 : s = 3 → l = X - 1) :
    wall_base X Y l m n + s < Z * (3 * X * Y + X + Y) := by
  have hrow := row_bound X Y l m s hl hm hs hs3
  have e1 : wall_base X Y l m n + s
      = (3 * l + s + m * (3 * X + 1)) + n * (3 * X * Y + X + Y) := by
    unfold wall_base; ring
  have hlay : 3 * l + s + m * (3 * X + 1) < 3 * X * Y + X + Y := by nlinarith
  rw [e1]
  exact layer_bound X Y Z n _ hn hlay

lemma wall_info_w1 (X Y Z l m n : Nat) (hl : l < X) (hm : m < Y) (hn : n < Z) :
    wall_info X Y Z (wall_base X Y l m n)
      = { axis := 1, R := cell_index X Y l m n,
          L := if m = 0 then cell_index X Y l m n + (Y - 1) * X else cell_index X Y l m n - X } := by
  have h := wall_info_regular X Y Z l m n 0 hl hm hn (by omega)
  simpa using h

lemma wall_info_w4 (X Y Z l m n : Nat) (hl : l < X) (hm : m < Y) (hn : n < Z) :
    wall_info X Y Z (wall_base X Y l m n + 1)
      = { axis := 0, R := cell_index X Y l m n,
          L := if l = 0 then cell_index X Y l m n + (X - 1) else cell_index X Y l m n - 1 } := by
  have h := wall_info_regular X Y Z l m n 1 hl hm hn (by omega)
  simpa using h

lemma wall_info_w5 (X Y Z l m n : Nat) (hl : l < X) (hm : m < Y) (hn : n < Z) :
    wall_info X Y Z (wall_base X Y l m n + 2)
      = { axis := 2, R := cell_index X Y l m n,
          L := if n = 0 then cell_index X Y l m n + (Z - 1) * X * Y
               else cell_index X Y l m n - X * Y } := by
  have h := wall_info_regular X Y Z l m n 2 hl hm hn (by omega)
  simpa using h

lemma wall_info_w2 (X Y Z l m n : Nat) (hl : l < X) (hm : m < Y) (hn : n < Z) :
    wall_info X Y Z (if l = X - 1 then wall_base X Y l m n + 4 - 1 else wall_base X Y l m n + 4)
      = { axis := 0, L := cell_index X Y l m n,
          R := if l = X - 1 then cell_index X Y l m n - (X - 1)
               else cell_index X Y l m n + 1 } := by
  by_cases h : l = X - 1
  · rw [if_pos h, if_pos h, h, wall_info_xlast X Y Z m n (by omega) hm hn]
    congr 1
    unfold cell_index; omega
  · rw [if_neg h, if_neg h]
    have e : wall_base X Y l m n + 4 = wall_base X Y (l + 1) m n + 1 := by
      unfold wall_base; ring
    rw [e, wall_info_w4 X Y Z (l + 1) m n (by omega) hm hn]
    have e2 : cell_index X Y (l + 1) m n = cell_index X Y l m n + 1 := by
      unfold cell_index; ring
    simp [e2]

lemma wall_info_w3 (X Y Z l m n : Nat) (hl : l < X) (hm : m < Y) (hn : n < Z) :
    wall_info X Y Z (if m = Y - 1 then (3 * X * Y + X + Y) * (n + 1) - X + l
        else wall_base X Y l m n + X * 3 + 1)
      = { axis := 1, L := cell_index X Y l m n,
          R := if m = Y - 1 then cell_index X Y l m n - m * X
               else cell_index X Y l m n + X } := by
  by_cases h : m = Y - 1
  · rw [if_pos h, if_pos h, wall_info_ylast X Y Z l n hl (by omega) hn, ← h]
    congr 1
    unfold cell_index; omega
  · rw [if_neg h, if_neg h]
    have e : wall_base X Y l m n + X * 3 + 1 = wall_base X Y l (m + 1) n := by
      unfold wall_base; ring
    rw [e, wall_info_w1 X Y Z l (m + 1) n hl (by omega) hn]
    have e2 : cell_index X Y l (m + 1) n = cell_index X Y l m n + X := by
      unfold cell_index; ring
    simp [e2]

lemma wall_info_w6 (X Y Z l m n : Nat) (hl : l < X) (hm : m < Y) (hn : n < Z) :
    wall_info X Y Z (if n = Z - 1 then
        3 * (X * Y * Z) + X * Z + Y * Z + X * Y - X * Y + l + m * X
        else wall_base X Y l m n + 2 + (3 * X * Y + X + Y))
      = { axis := 2, L := cell_index X Y l m n,
          R := if n = Z - 1 then cell_index X Y l m n - (Z - 1) * X * Y
               else cell_index X Y l m n + X * Y } := by
  by_cases h : n = Z - 1
  · rw [if_pos h, if_pos h, wall_info_zlast X Y Z l m, ← h]
    congr 1
    unfold cell_index
    have : n * X * Y = 0 + n * X * Y := by ring
    omega
  · rw [if_neg h, if_neg h]
    have e : wall_base X Y l m n + 2 + (3 * X * Y + X + Y) = wall_base X Y l m (n + 1) + 2 := by
      unfold wall_base; ring
    rw [e, wall_info_w5 X Y Z l m (n + 1) hl hm (by omega)]
    have e2 : cell_index X Y l m (n + 1) = cell_index X Y l m n + X * Y := by
      unfold cell_index; ring
    simp [e2]

/-- The six wall identifiers of a cell are below the number of walls. -/
lemma wall_ids_lt (X Y Z l m n : Nat) (hl : l < X) (hm : m < Y) (hn : n < Z) :
    let b := wall_base X Y l m n
    let nwalls := 3 * (X * Y * Z) + X * Z + Y * Z + X * Y
    b < nwalls ∧ b + 1 < nwalls ∧ b + 2 < nwalls
    ∧ (if l = X - 1 then b + 4 - 1 else b + 4) < nwalls
    ∧ (if m = Y - 1 then (3 * X * Y + X + Y) * (n + 1) - X + l else b + X * 3 + 1) < nwalls
    ∧ (if n = Z - 1 then nwalls - X * Y + l + m * X else b + 2 + (3 * X * Y + X + Y))
        < nwalls := by
  intro b nwalls
  have hN : nwalls = Z * (3 * X * Y + X + Y) + X * Y := by
    simp only [nwalls]; ring
  have b0 := wall_base_lt X Y Z l m n 0 hl hm hn (by omega) (by omega)
  have b1 := wall_base_lt X Y Z l m n 1 hl hm hn (by omega) (by omega)
  have b2 := wall_base_lt X Y Z l m n 2 hl hm hn (by omega) (by omega)
  refine ⟨by omega, by omega, by omega, ?_, ?_, ?_⟩
  · by_cases h : l = X - 1
    · rw [if_pos h]
      have := wall_base_lt X Y Z l m n 3 hl hm hn (by omega) (fun _ => h)
      omega
    · rw [if_neg h]
      have e : wall_base X Y l m n + 4 = wall_base X Y (l + 1) m n + 1 := by
        unfold wall_base; ring
      have := wall_base_lt X Y Z (l + 1) m n 1 (by omega) hm hn (by omega) (by omega)
      simp only [b]; omega
  · by_cases h : m = Y - 1
    · rw [if_pos h]
      have h1 : (3 * X * Y + X + Y) * (n + 1) ≤ (3 * X * Y + X + Y) * Z :=
        Nat.mul_le_mul_left _ hn
      have h2 : X ≤ (3 * X * Y + X + Y) * (n + 1) :=
        Nat.le_trans (by omega) (Nat.le_mul_of_pos_right (3 * X * Y + X + Y) (Nat.succ_pos n))
      have h3 : (3 * X * Y + X + Y) * Z = Z * (3 * X * Y + X + Y) := by ring
      omega
    · rw [if_neg h]
      have e : wall_base X Y l m n + X * 3 + 1 = wall_base X Y l (m + 1) n := by
        unfold wall_base; ring
      have := wall_base_lt X Y Z l (m + 1) n 0 hl (by omega) hn (by omega) (by omega)
      simp only [b]; omega
  · by_cases h : n = Z - 1
    · rw [if_pos h]
      have h1 : (m + 1) * X ≤ Y * X := Nat.mul_le_mul_right _ hm
      have h2 : l + m * X < X * Y := by nlinarith
      omega
    · rw [if_neg h]
      have e : wall_base X Y l m n + 2 + (3 * X * Y + X + Y) = wall_base X Y l m (n + 1) + 2 := by
        unfold wall_base; ring
      have := wall_base_lt X Y Z l m (n + 1) 2 hl hm (by omega) (by omega) (by omega)
      simp only [b]; omega

/-! ### Sequences of assignments to walls -/

lemma wset_apply (w : Nat → Wall K) (i : Nat) (f : Wall K → Wall K) (j : Nat) :
    wset w i f j = if j = i then f (w j) else w j := by
  unfold wset
  by_cases h : j = i
  · subst h; simp
  · simp [Function.update_noteq h, h]

lemma apply_writes_cons (p : Nat × (Wall K → Wall K)) (ws : List (Nat × (Wall K → Wall K)))
    (w : Nat → Wall K) :
    apply_writes (p :: ws) w = apply_writes ws (wset w p.1 p.2) := rfl

/-- Assignments that do not touch a field leave it as it was. -/
lemma apply_writes_frame {β : Type} (π : Wall K → β) (ws : List (Nat × (Wall K → Wall K)))
    (h : ∀ p ∈ ws, ∀ x, π (p.2 x) = π x) (w : Nat → Wall K) (j : Nat) :
    π (apply_writes ws w j) = π (w j) := by
  induction ws generalizing w with
  | nil => rfl
  | cons p ws ih =>
    rw [apply_writes_cons, ih (fun q hq => h q (List.mem_cons_of_mem _ hq)), wset_apply]
    by_cases hj : j = p.1
    · rw [if_pos hj]; exact h p (List.mem_cons_self _ _) _
    · rw [if_neg hj]

/-- If every assignment either leaves a field alone or stores the value `e`
prescribes for the wall it writes, a wall that holds the prescribed value
keeps it. -/
lemma apply_writes_keep {β : Type} (π : Wall K → β) (e : Nat → β)
    (ws : List (Nat × (Wall K → Wall K)))
    (hok : ∀ p ∈ ws, ∀ x, π (p.2 x) = π x ∨ π (p.2 x) = e p.1)
    (w : Nat → Wall K) (j : Nat) (h : π (w j) = e j) :
    π (apply_writes ws w j) = e j := by
  induction ws generalizing w with
  | nil => exact h
  | cons p ws ih =>
    rw [apply_writes_cons]
    apply ih (fun q hq => hok q (List.mem_cons_of_mem _ hq))
    rw [wset_apply]
    by_cases hj : j = p.1
    · rw [if_pos hj]
      rcases hok p (List.mem_cons_self _ _) (w j) with h1 | h1
      · rw [h1, h]
      · rw [h1, hj]
    · rw [if_neg hj]; exact h

/-- Under the same condition, a wall to which the field is assigned at least
once ends with the prescribed value. -/
lemma apply_writes_set {β : Type} (π : Wall K → β) (e : Nat → β)
    (ws : List (Nat × (Wall K → Wall K)))
    (hok : ∀ p ∈ ws, ∀ x, π (p.2 x) = π x ∨ π (p.2 x) = e p.1)
    (w : Nat → Wall K) (j : Nat) (hset : ∃ p ∈ ws, p.1 = j ∧ ∀ x, π (p.2 x) = e j) :
    π (apply_writes ws w j) = e j := by
  induction ws generalizing w with
  | nil => obtain ⟨p, hp, _⟩ := hset; cases hp
  | cons p ws ih =>
    rw [apply_writes_cons]
    obtain ⟨q, hq, hq1, hq2⟩ := hset
    rcases List.mem_cons.1 hq with hqp | hqw
    · apply apply_writes_keep π e ws (fun q hq => hok q (List.mem_cons_of_mem _ hq))
      rw [wset_apply, ← hqp, hq1, if_pos rfl]
      exact hq2 _
    · exact ih (fun q hq => hok q (List.mem_cons_of_mem _ hq)) _ ⟨q, hqw, hq1, hq2⟩

lemma loop_writes_frame {β : Type} (π : Wall K → β) (N : Nat)
    (ws : Nat → List (Nat × (Wall K → Wall K)))
    (h : ∀ t, t < N → ∀ p ∈ ws t, ∀ x, π (p.2 x) = π x) (w : Nat → Wall K) (j : Nat) :
    π (forLoop N (fun t w => apply_writes (ws t) w) w j) = π (w j) := by
  induction N with
  | zero => rfl
  | succ N ih =>
    rw [forLoop_succ, apply_writes_frame π (ws N) (h N (by omega)),
      ih (fun t ht => h t (by omega))]

lemma loop_writes_keep {β : Type} (π : Wall K → β) (e : Nat → β) (N : Nat)
    (ws : Nat → List (Nat × (Wall K → Wall K)))
    (hok : ∀ t, t < N → ∀ p ∈ ws t, ∀ x, π (p.2 x) = π x ∨ π (p.2 x) = e p.1)
    (w : Nat → Wall K) (j : Nat) (h : π (w j) = e j) :
    π (forLoop N (fun t w => apply_writes (ws t) w) w j) = e j := by
  induction N with
  | zero => exact h
  | succ N ih =>
    rw [forLoop_succ]
    exact apply_writes_keep π e (ws N) (hok N (by omega)) _ j (ih (fun t ht => hok t (by omega)))

lemma loop_writes_set {β : Type} (π : Wall K → β) (e : Nat → β) (N : Nat)
    (ws : Nat → List (Nat × (Wall K → Wall K)))
    (hok : ∀ t, t < N → ∀ p ∈ ws t, ∀ x, π (p.2 x) = π x ∨ π (p.2 x) = e p.1)
    (w : Nat → Wall K) (j : Nat)
    (hset : ∃ t, t < N ∧ ∃ p ∈ ws t, p.1 = j ∧ ∀ x, π (p.2 x) = e j) :
    π (forLoop N (fun t w => apply_writes (ws t) w) w j) = e j := by
  induction N with
  | zero => obtain ⟨t, ht, _⟩ := hset; omega
  | succ N ih =>
    rw [forLoop_succ]
    obtain ⟨t, ht, hp⟩ := hset
    by_cases htN : t = N
    · subst htN
      exact apply_writes_set π e (ws t) (hok t (by omega)) _ j hp
    · exact apply_writes_keep π e (ws N) (hok N (by omega)) _ j
        (ih (fun t ht => hok t (by omega)) ⟨t, by omega, hp⟩)

/-! ### Cells of the mesh -/

/-- The loop "Walls and nodes of the cells" of `create_mesh`, cell by cell. -/
lemma create_mesh_cells_apply (mesh : Mesh K) (t : Nat) :
    create_mesh_cells mesh t
      = if t < mesh.zcells * (mesh.ycells * mesh.xcells) then
          create_mesh_cell mesh (create_mesh_nwalls mesh) (t % mesh.xcells)
            (t / mesh.xcells % mesh.ycells) (t / (mesh.ycells * mesh.xcells))
            (create_mesh_cells_init mesh t)
        else create_mesh_cells_init mesh t := by
  unfold create_mesh_cells
  rw [forLoop_nested3 mesh.zcells mesh.ycells mesh.xcells
    (fun l m n (c : Nat → Cell K) =>
      Function.update c (l + m * mesh.xcells + n * mesh.xcells * mesh.ycells)
      (create_mesh_cell mesh (create_mesh_nwalls mesh) l m n
        (c (l + m * mesh.xcells + n * mesh.xcells * mesh.ycells))))]
  have e : (fun t (c : Nat → Cell K) =>
      Function.update c (t % mesh.xcells + t / mesh.xcells % mesh.ycells * mesh.xcells
          + t / (mesh.ycells * mesh.xcells) * mesh.xcells * mesh.ycells)
        (create_mesh_cell mesh (create_mesh_nwalls mesh) (t % mesh.xcells)
          (t / mesh.xcells % mesh.ycells) (t / (mesh.ycells * mesh.xcells))
          (c (t % mesh.xcells + t / mesh.xcells % mesh.ycells * mesh.xcells
            + t / (mesh.ycells * mesh.xcells) * mesh.xcells * mesh.ycells))))
      = fun t c => Function.update c t
          ((fun t x => create_mesh_cell mesh (create_mesh_nwalls mesh) (t % mesh.xcells)
            (t / mesh.xcells % mesh.ycells) (t / (mesh.ycells * mesh.xcells)) x) t (c t)) := by
    funext t c
    rw [rowmajor_encode]
  rw [e, forLoop_pointwise]

/-- The cell `(l, m, n)` after the loop "Walls and nodes of the cells". -/
lemma create_mesh_cells_at (mesh : Mesh K) (l m n : Nat)
    (hl : l < mesh.xcells) (hm : m < mesh.ycells) (hn : n < mesh.zcells) :
    create_mesh_cells mesh (cell_index mesh.xcells mesh.ycells l m n)
      = create_mesh_cell mesh (create_mesh_nwalls mesh) l m n
          (create_mesh_cells_init mesh (cell_index mesh.xcells mesh.ycells l m n)) := by
  have ht := cell_index_lt mesh.xcells mesh.ycells mesh.zcells l m n hl hm hn
  have ht' : cell_index mesh.xcells mesh.ycells l m n
      < mesh.zcells * (mesh.ycells * mesh.xcells) := by
    have : mesh.zcells * (mesh.ycells * mesh.xcells)
        = mesh.xcells * mesh.ycells * mesh.zcells := by ring
    rw [this]; exact ht
  obtain ⟨d1, d2, d3⟩ := rowmajor_decode mesh.xcells mesh.ycells l m n hl hm
  rw [create_mesh_cells_apply, if_pos ht']
  unfold cell_index
  rw [d1, d2, d3]

/-- The loop that clears `S` and `S_corr` changes no other field. -/
lemma clear_source_fields (nvar : Nat) (x : Cell K) :
    let y := forLoop nvar (fun k (x : Cell K) =>
      { x with S := Function.update x.S k 0, S_corr := Function.update x.S_corr k 0 }) x
    y.w1 = x.w1 ∧ y.w2 = x.w2 ∧ y.w3 = x.w3 ∧ y.w4 = x.w4 ∧ y.w5 = x.w5 ∧ y.w6 = x.w6
      ∧ y.dx = x.dx ∧ y.dy = x.dy ∧ y.dz = x.dz ∧ y.zc = x.zc ∧ y.id = x.id
      ∧ y.U = x.U ∧ y.type = x.type ∧ y.ghost = x.ghost := by
  induction nvar with
  | zero => simp [forLoop]
  | succ k ih =>
    simp only [forLoop_succ]
    exact ih

lemma create_mesh_sources_apply (mesh : Mesh K) (sim : Sim K) (t : Nat) :
    create_mesh_sources mesh sim t
      = if t < mesh.xcells * mesh.ycells * mesh.zcells then
          forLoop sim.nvar (fun k (x : Cell K) =>
            { x with S := Function.update x.S k 0, S_corr := Function.update x.S_corr k 0 })
            (create_mesh_cells mesh t)
        else create_mesh_cells mesh t := by
  unfold create_mesh_sources
  rw [forLoop_pointwise (fun _ (x : Cell K) => forLoop sim.nvar (fun k (x : Cell K) =>
      { x with S := Function.update x.S k 0, S_corr := Function.update x.S_corr k 0 }) x)]

/-- The wall pointers and sizes of the cell `(l, m, n)` after `create_mesh`. -/
lemma create_mesh_cell_fields (mesh : Mesh K) (sim : Sim K) (l m n : Nat)
    (hl : l < mesh.xcells) (hm : m < mesh.ycells) (hn : n < mesh.zcells) :
    let c := (create_mesh mesh sim).cell (cell_index mesh.xcells mesh.ycells l m n)
    let b := wall_base mesh.xcells mesh.ycells l m n
    c.w1 = b ∧ c.w4 = b + 1 ∧ c.w5 = b + 2
    ∧ c.w2 = (if l = mesh.xcells - 1 then b + 4 - 1 else b + 4)
    ∧ c.w3 = (if m = mesh.ycells - 1 then
        (3 * mesh.xcells * mesh.ycells + mesh.xcells + mesh.ycells) * (n + 1) - mesh.xcells + l
        else b + mesh.xcells * 3 + 1)
    ∧ c.w6 = (if n = mesh.zcells - 1 then
        (3 * (mesh.xcells * mesh.ycells * mesh.zcells) + mesh.xcells * mesh.zcells
          + mesh.ycells * mesh.zcells + mesh.xcells * mesh.ycells)
          - mesh.xcells * mesh.ycells + l + m * mesh.xcells
        else b + 2 + (3 * mesh.xcells * mesh.ycells + mesh.xcells + mesh.ycells))
    ∧ c.dx = mesh.dx ∧ c.dy = mesh.dy ∧ c.dz = mesh.dz := by
  intro c b
  have ht := cell_index_lt mesh.xcells mesh.ycells mesh.zcells l m n hl hm hn
  have hc : c = forLoop sim.nvar (fun k (x : Cell K) =>
      { x with S := Function.update x.S k 0, S_corr := Function.update x.S_corr k 0 })
      (create_mesh_cell mesh (create_mesh_nwalls mesh)
        l m n (create_mesh_cells_init mesh (cell_index mesh.xcells mesh.ycells l m n))) := by
    show create_mesh_sources mesh sim _ = _
    rw [create_mesh_sources_apply, if_pos ht, create_mesh_cells_at mesh l m n hl hm hn]
  obtain ⟨f1, f2, f3, f4, f5, f6, f7, f8, f9, _⟩ := clear_source_fields sim.nvar
    (create_mesh_cell mesh (create_mesh_nwalls mesh)
        l m n (create_mesh_cells_init mesh (cell_index mesh.xcells mesh.ycells l m n)))
  rw [hc]
  refine ⟨f1.trans rfl, f4.trans rfl, f5.trans rfl, f2.trans rfl, f3.trans rfl, f6.trans rfl,
    f7.trans rfl, f8.trans rfl, f9.trans rfl⟩

/-! ### Wiring of the walls -/

/-- What the wall identifiers of the cell `(l, m, n)` denote. -/
lemma create_mesh_cell_info (mesh : Mesh K) (l m n : Nat) (c0 : Cell K)
    (hl : l < mesh.xcells) (hm : m < mesh.ycells) (hn : n < mesh.zcells) :
    let c := create_mesh_cell mesh (create_mesh_nwalls mesh) l m n c0
    let t := cell_index mesh.xcells mesh.ycells l m n
    let info := wall_info mesh.xcells mesh.ycells mesh.zcells
    (c.w1_id = c.w1 ∧ c.w2_id = c.w2 ∧ c.w3_id = c.w3 ∧ c.w4_id = c.w4 ∧ c.w5_id = c.w5
      ∧ c.w6_id = c.w6)
    ∧ info c.w1 =
        { axis := 1, R := t,
          L := if m = 0 then t + (mesh.ycells - 1) * mesh.xcells else t - mesh.xcells }
    ∧ info c.w4 =
        { axis := 0, R := t, L := if l = 0 then t + (mesh.xcells - 1) else t - 1 }
    ∧ info c.w5 =
        { axis := 2, R := t,
          L := if n = 0 then t + (mesh.zcells - 1) * mesh.xcells * mesh.ycells
               else t - mesh.xcells * mesh.ycells }
    ∧ info c.w2 =
        { axis := 0, L := t,
          R := if l = mesh.xcells - 1 then t - (mesh.xcells - 1) else t + 1 }
    ∧ info c.w3 =
        { axis := 1, L := t,
          R := if m = mesh.ycells - 1 then t - m * mesh.xcells else t + mesh.xcells }
    ∧ info c.w6 =
        { axis := 2, L := t,
          R := if n = mesh.zcells - 1 then t - (mesh.zcells - 1) * mesh.xcells * mesh.ycells
               else t + mesh.xcells * mesh.ycells } := by
  intro c t info
  exact ⟨⟨rfl, rfl, rfl, rfl, rfl, rfl⟩,
    wall_info_w1 _ _ _ l m n hl hm hn, wall_info_w4 _ _ _ l m n hl hm hn,
    wall_info_w5 _ _ _ l m n hl hm hn, wall_info_w2 _ _ _ l m n hl hm hn,
    wall_info_w3 _ _ _ l m n hl hm hn, wall_info_w6 _ _ _ l m n hl hm hn⟩


/-- Every assignment of the normals loop for the cell `(l, m, n)` stores the
component that the orientation of the wall prescribes. -/
lemma normals_writes_ok (mesh : Mesh K) (l m n : Nat) (c0 : Cell K)
    (hl : l < mesh.xcells) (hm : m < mesh.ycells) (hn : n < mesh.zcells) :
    ∀ p ∈ create_mesh_normals_writes (create_mesh_cell mesh (create_mesh_nwalls mesh) l m n c0),
      ∀ x : Wall K,
        ((p.2 x).nx = x.nx ∨ (p.2 x).nx
            = if (wall_info mesh.xcells mesh.ycells mesh.zcells p.1).axis = 0 then 1 else 0)
        ∧ ((p.2 x).ny = x.ny ∨ (p.2 x).ny
            = if (wall_info mesh.xcells mesh.ycells mesh.zcells p.1).axis = 1 then 1 else 0)
        ∧ ((p.2 x).nz = x.nz ∨ (p.2 x).nz
            = if (wall_info mesh.xcells mesh.ycells mesh.zcells p.1).axis = 2 then 1 else 0) := by
  obtain ⟨⟨e1, e2, e3, e4, e5, e6⟩, i1, i4, i5, i2, i3, i6⟩ :=
    create_mesh_cell_info mesh l m n c0 hl hm hn
  intro p hp x
  simp only [create_mesh_normals_writes, List.mem_cons, List.mem_singleton, List.not_mem_nil,
    or_false] at hp
  rcases hp with h | h | h | h | h | h | h | h | h | h | h | h | h | h | h | h | h | h <;>
    subst h <;>
    simp only [e1, e2, e3, e4, e5, e6, i1, i2, i3, i4, i5, i6] <;>
    simp


lemma mem_ite_nil {α : Type} (c : Prop) [Decidable c] (ws : List α) (p : α) :
    (p ∈ if c then ws else []) ↔ c ∧ p ∈ ws := by
  by_cases h : c
  · simp [h]
  · simp [h]

/-- Every assignment of the neighbour loop for the cell `(l, m, n)` stores the
cell that the numbering prescribes, and none changes a normal. -/
lemma neighbours_writes_ok (mesh : Mesh K) (l m n : Nat)
    (hl : l < mesh.xcells) (hm : m < mesh.ycells) (hn : n < mesh.zcells) :
    ∀ p ∈ create_mesh_neighbours_writes mesh (create_mesh_cells mesh) l m n,
      ∀ x : Wall K,
        ((p.2 x).cellL = x.cellL
          ∨ (p.2 x).cellL = (wall_info mesh.xcells mesh.ycells mesh.zcells p.1).L)
        ∧ ((p.2 x).cellR = x.cellR
          ∨ (p.2 x).cellR = (wall_info mesh.xcells mesh.ycells mesh.zcells p.1).R)
        ∧ (p.2 x).nx = x.nx ∧ (p.2 x).ny = x.ny ∧ (p.2 x).nz = x.nz := by
  obtain ⟨-, i1, i4, i5, i2, i3, i6⟩ := create_mesh_cell_info mesh l m n
    (create_mesh_cells_init mesh (cell_index mesh.xcells mesh.ycells l m n)) hl hm hn
  have hc := create_mesh_cells_at mesh l m n hl hm hn
  rw [← hc] at i1 i2 i3 i4 i5 i6
  unfold cell_index at i1 i2 i3 i4 i5 i6
  intro p hp x
  simp only [create_mesh_neighbours_writes, List.mem_append, mem_ite_nil, List.mem_cons,
    List.mem_singleton, List.not_mem_nil, or_false] at hp
  rcases hp with ((((((h | h | h | h | h | h | h | h | h | h | h | h) | ⟨hc, h | h⟩)
    | ⟨hc, h | h⟩) | ⟨hc, h | h⟩) | ⟨hc, h | h⟩) | ⟨hc, h | h⟩) | ⟨hc, h | h⟩ <;>
    subst h <;>
    simp only [i1, i2, i3, i4, i5, i6] <;>
    simp [hc]


/-- The cell array read by the wall loops, at a flat index. -/
lemma create_mesh_cells_flat (mesh : Mesh K) (t : Nat)
    (ht : t < mesh.zcells * (mesh.ycells * mesh.xcells)) :
    (t % mesh.xcells < mesh.xcells ∧ t / mesh.xcells % mesh.ycells < mesh.ycells
      ∧ t / (mesh.ycells * mesh.xcells) < mesh.zcells)
    ∧ cell_index mesh.xcells mesh.ycells (t % mesh.xcells) (t / mesh.xcells % mesh.ycells)
        (t / (mesh.ycells * mesh.xcells)) = t
    ∧ create_mesh_cells mesh t
      = create_mesh_cell mesh (create_mesh_nwalls mesh) (t % mesh.xcells)
          (t / mesh.xcells % mesh.ycells) (t / (mesh.ycells * mesh.xcells))
          (create_mesh_cells_init mesh t) := by
  refine ⟨rowmajor_bounds _ _ _ t ht, rowmajor_encode _ _ t, ?_⟩
  rw [create_mesh_cells_apply, if_pos ht]

/-- The normals of the six walls of the cell `(l, m, n)` after the normals
loop. -/
lemma create_mesh_normals_at (mesh : Mesh K) (w0 : Nat → Wall K) (l m n : Nat)
    (hl : l < mesh.xcells) (hm : m < mesh.ycells) (hn : n < mesh.zcells) (j : Nat)
    (hj : j = (create_mesh_cells mesh (cell_index mesh.xcells mesh.ycells l m n)).w1
      ∨ j = (create_mesh_cells mesh (cell_index mesh.xcells mesh.ycells l m n)).w2
      ∨ j = (create_mesh_cells mesh (cell_index mesh.xcells mesh.ycells l m n)).w3
      ∨ j = (create_mesh_cells mesh (cell_index mesh.xcells mesh.ycells l m n)).w4
      ∨ j = (create_mesh_cells mesh (cell_index mesh.xcells mesh.ycells l m n)).w5
      ∨ j = (create_mesh_cells mesh (cell_index mesh.xcells mesh.ycells l m n)).w6) :
    (create_mesh_normals mesh w0 j).nx
        = (if (wall_info mesh.xcells mesh.ycells mesh.zcells j).axis = 0 then 1 else 0)
    ∧ (create_mesh_normals mesh w0 j).ny
        = (if (wall_info mesh.xcells mesh.ycells mesh.zcells j).axis = 1 then 1 else 0)
    ∧ (create_mesh_normals mesh w0 j).nz
        = (if (wall_info mesh.xcells mesh.ycells mesh.zcells j).axis = 2 then 1 else 0) := by
  have hN : mesh.xcells * mesh.ycells * mesh.zcells
      = mesh.zcells * (mesh.ycells * mesh.xcells) := by ring
  have hok : ∀ t, t < mesh.xcells * mesh.ycells * mesh.zcells →
      ∀ p ∈ create_mesh_normals_writes (create_mesh_cells mesh t), ∀ x : Wall K,
        ((p.2 x).nx = x.nx ∨ (p.2 x).nx
            = if (wall_info mesh.xcells mesh.ycells mesh.zcells p.1).axis = 0 then 1 else 0)
        ∧ ((p.2 x).ny = x.ny ∨ (p.2 x).ny
            = if (wall_info mesh.xcells mesh.ycells mesh.zcells p.1).axis = 1 then 1 else 0)
        ∧ ((p.2 x).nz = x.nz ∨ (p.2 x).nz
            = if (wall_info mesh.xcells mesh.ycells mesh.zcells p.1).axis = 2 then 1 else 0) := by
    intro t ht
    obtain ⟨⟨b1, b2, b3⟩, -, hc⟩ := create_mesh_cells_flat mesh t (hN ▸ ht)
    rw [hc]
    exact normals_writes_ok mesh _ _ _ _ b1 b2 b3
  have ht := cell_index_lt mesh.xcells mesh.ycells mesh.zcells l m n hl hm hn
  have hc := create_mesh_cells_at mesh l m n hl hm hn
  obtain ⟨⟨e1, e2, e3, e4, e5, e6⟩, i1, i4, i5, i2, i3, i6⟩ := create_mesh_cell_info mesh l m n
    (create_mesh_cells_init mesh (cell_index mesh.xcells mesh.ycells l m n)) hl hm hn
  rw [← hc] at e1 e2 e3 e4 e5 e6 i1 i2 i3 i4 i5 i6
  unfold create_mesh_normals
  refine ⟨?_, ?_, ?_⟩
  · refine loop_writes_set (fun x : Wall K => x.nx)
      (fun j => if (wall_info mesh.xcells mesh.ycells mesh.zcells j).axis = 0 then 1 else 0)
      _ _ (fun t ht p hp x => (hok t ht p hp x).1) w0 j ⟨_, ht, ?_⟩
    rcases hj with h | h | h | h | h | h <;> subst h
    · exact ⟨(_, fun x => { x with nx := 0 }), by simp [create_mesh_normals_writes], e1,
        fun x => by simp [i1]⟩
    · exact ⟨(_, fun x => { x with nx := 1 }), by simp [create_mesh_normals_writes], e2,
        fun x => by simp [i2]⟩
    · exact ⟨(_, fun x => { x with nx := 0 }), by simp [create_mesh_normals_writes], e3,
        fun x => by simp [i3]⟩
    · exact ⟨(_, fun x => { x with nx := 1 }), by simp [create_mesh_normals_writes], e4,
        fun x => by simp [i4]⟩
    · exact ⟨(_, fun x => { x with nx := 0 }), by simp [create_mesh_normals_writes], e5,
        fun x => by simp [i5]⟩
    · exact ⟨(_, fun x => { x with nx := 0 }), by simp [create_mesh_normals_writes], e6,
        fun x => by simp [i6]⟩
  · refine loop_writes_set (fun x : Wall K => x.ny)
      (fun j => if (wall_info mesh.xcells mesh.ycells mesh.zcells j).axis = 1 then 1 else 0)
      _ _ (fun t ht p hp x => (hok t ht p hp x).2.1) w0 j ⟨_, ht, ?_⟩
    rcases hj with h | h | h | h | h | h <;> subst h
    · exact ⟨(_, fun x => { x with ny := 1 }), by simp [create_mesh_normals_writes], e1,
        fun x => by simp [i1]⟩
    · exact ⟨(_, fun x => { x with ny := 0 }), by simp [create_mesh_normals_writes], e2,
        fun x => by simp [i2]⟩
    · exact ⟨(_, fun x => { x with ny := 1 }), by simp [create_mesh_normals_writes], e3,
        fun x => by simp [i3]⟩
    · exact ⟨(_, fun x => { x with ny := 0 }), by simp [create_mesh_normals_writes], e4,
        fun x => by simp [i4]⟩
    · exact ⟨(_, fun x => { x with ny := 0 }), by simp [create_mesh_normals_writes], e5,
        fun x => by simp [i5]⟩
    · exact ⟨(_, fun x => { x with ny := 0 }), by simp [create_mesh_normals_writes], e6,
        fun x => by simp [i6]⟩
  · refine loop_writes_set (fun x : Wall K => x.nz)
      (fun j => if (wall_info mesh.xcells mesh.ycells mesh.zcells j).axis = 2 then 1 else 0)
      _ _ (fun t ht p hp x => (hok t ht p hp x).2.2) w0 j ⟨_, ht, ?_⟩
    rcases hj with h | h | h | h | h | h <;> subst h
    · exact ⟨(_, fun x => { x with nz := 0 }), by simp [create_mesh_normals_writes], e1,
        fun x => by simp [i1]⟩
    · exact ⟨(_, fun x => { x with nz := 0 }), by simp [create_mesh_normals_writes], e2,
        fun x => by simp [i2]⟩
    · exact ⟨(_, fun x => { x with nz := 0 }), by simp [create_mesh_normals_writes], e3,
        fun x => by simp [i3]⟩
    · exact ⟨(_, fun x => { x with nz := 0 }), by simp [create_mesh_normals_writes], e4,
        fun x => by simp [i4]⟩
    · exact ⟨(_, fun x => { x with nz := 1 }), by simp [create_mesh_normals_writes], e5,
        fun x => by simp [i5]⟩
    · exact ⟨(_, fun x => { x with nz := 1 }), by simp [create_mesh_normals_writes], e6,
        fun x => by simp [i6]⟩


/-- The neighbour loop of `create_mesh` as one loop over the cell index. -/
lemma create_mesh_neighbours_flat (mesh : Mesh K) (w0 : Nat → Wall K) :
    create_mesh_neighbours mesh w0
      = forLoop (mesh.zcells * (mesh.ycells * mesh.xcells))
          (fun t w => apply_writes
            ((fun t => create_mesh_neighbours_writes mesh (create_mesh_cells mesh)
              (t % mesh.xcells) (t / mesh.xcells % mesh.ycells)
              (t / (mesh.ycells * mesh.xcells))) t) w) w0 := by
  unfold create_mesh_neighbours
  rw [forLoop_nested3 mesh.zcells mesh.ycells mesh.xcells
    (fun l m n (w : Nat → Wall K) =>
      apply_writes (create_mesh_neighbours_writes mesh (create_mesh_cells mesh) l m n) w)]

/-- The neighbour loop changes no normal. -/
lemma create_mesh_neighbours_normals (mesh : Mesh K) (w0 : Nat → Wall K) (j : Nat) :
    (create_mesh_neighbours mesh w0 j).nx = (w0 j).nx
    ∧ (create_mesh_neighbours mesh w0 j).ny = (w0 j).ny
    ∧ (create_mesh_neighbours mesh w0 j).nz = (w0 j).nz := by
  rw [create_mesh_neighbours_flat]
  have hok := fun t (ht : t < mesh.zcells * (mesh.ycells * mesh.xcells)) =>
    neighbours_writes_ok mesh _ _ _ (rowmajor_bounds _ _ _ t ht).1
      (rowmajor_bounds _ _ _ t ht).2.1 (rowmajor_bounds _ _ _ t ht).2.2
  exact ⟨loop_writes_frame (fun x : Wall K => x.nx) _ _
      (fun t ht p hp x => (hok t ht p hp x).2.2.1) w0 j,
    loop_writes_frame (fun x : Wall K => x.ny) _ _
      (fun t ht p hp x => (hok t ht p hp x).2.2.2.1) w0 j,
    loop_writes_frame (fun x : Wall K => x.nz) _ _
      (fun t ht p hp x => (hok t ht p hp x).2.2.2.2) w0 j⟩

/-- The neighbour cells of the walls of the cell `(l, m, n)` after the
neighbour loop: the cell itself on its side of each wall, and the cell across
the periodic boundary on the other side of a wall that lies on the boundary. -/
lemma create_mesh_neighbours_at (mesh : Mesh K) (w0 : Nat → Wall K) (l m n : Nat)
    (hl : l < mesh.xcells) (hm : m < mesh.ycells) (hn : n < mesh.zcells) :
    let t := cell_index mesh.xcells mesh.ycells l m n
    let c := create_mesh_cells mesh t
    let W := create_mesh_neighbours mesh w0
    ((W c.w1).cellR = t ∧ (W c.w4).cellR = t ∧ (W c.w5).cellR = t
      ∧ (W c.w2).cellL = t ∧ (W c.w3).cellL = t ∧ (W c.w6).cellL = t)
    ∧ (m = 0 → (W c.w1).cellL = t + (mesh.ycells - 1) * mesh.xcells)
    ∧ (m = mesh.ycells - 1 → (W c.w3).cellR = t - m * mesh.xcells)
    ∧ (l = 0 → (W c.w4).cellL = t + (mesh.xcells - 1))
    ∧ (l = mesh.xcells - 1 → (W c.w2).cellR = t - (mesh.xcells - 1))
    ∧ (n = 0 → (W c.w5).cellL = t + (mesh.zcells - 1) * mesh.xcells * mesh.ycells)
    ∧ (n = mesh.zcells - 1 → (W c.w6).cellR = t - (mesh.zcells - 1) * mesh.xcells * mesh.ycells) := by
  intro t c W
  have hok := fun t (ht : t < mesh.zcells * (mesh.ycells * mesh.xcells)) =>
    neighbours_writes_ok mesh _ _ _ (rowmajor_bounds _ _ _ t ht).1
      (rowmajor_bounds _ _ _ t ht).2.1 (rowmajor_bounds _ _ _ t ht).2.2
  have ht : t < mesh.zcells * (mesh.ycells * mesh.xcells) := by
    have h := cell_index_lt mesh.xcells mesh.ycells mesh.zcells l m n hl hm hn
    have hN : mesh.xcells * mesh.ycells * mesh.zcells
        = mesh.zcells * (mesh.ycells * mesh.xcells) := by ring
    rw [← hN]; exact h
  obtain ⟨d1, d2, d3⟩ := rowmajor_decode mesh.xcells mesh.ycells l m n hl hm
  have hws : create_mesh_neighbours_writes mesh (create_mesh_cells mesh)
      (t % mesh.xcells) (t / mesh.xcells % mesh.ycells) (t / (mesh.ycells * mesh.xcells))
      = create_mesh_neighbours_writes mesh (create_mesh_cells mesh) l m n := by
    simp only [t, cell_index, d1, d2, d3]
  obtain ⟨-, i1, i4, i5, i2, i3, i6⟩ := create_mesh_cell_info mesh l m n
    (create_mesh_cells_init mesh (cell_index mesh.xcells mesh.ycells l m n)) hl hm hn
  have hc := create_mesh_cells_at mesh l m n hl hm hn
  rw [← hc] at i1 i2 i3 i4 i5 i6
  have keyL : ∀ (j : Nat) (p : Nat × (Wall K → Wall K)),
      p ∈ create_mesh_neighbours_writes mesh (create_mesh_cells mesh) l m n → p.1 = j →
      (∀ x, (p.2 x).cellL = (wall_info mesh.xcells mesh.ycells mesh.zcells j).L) →
      (W j).cellL = (wall_info mesh.xcells mesh.ycells mesh.zcells j).L := by
    intro j p hp h1 h2
    simp only [W]
    rw [create_mesh_neighbours_flat]
    exact loop_writes_set (fun x : Wall K => x.cellL)
      (fun j => (wall_info mesh.xcells mesh.ycells mesh.zcells j).L) _ _
      (fun t ht p hp x => (hok t ht p hp x).1) w0 j ⟨t, ht, p, hws ▸ hp, h1, h2⟩
  have keyR : ∀ (j : Nat) (p : Nat × (Wall K → Wall K)),
      p ∈ create_mesh_neighbours_writes mesh (create_mesh_cells mesh) l m n → p.1 = j →
      (∀ x, (p.2 x).cellR = (wall_info mesh.xcells mesh.ycells mesh.zcells j).R) →
      (W j).cellR = (wall_info mesh.xcells mesh.ycells mesh.zcells j).R := by
    intro j p hp h1 h2
    simp only [W]
    rw [create_mesh_neighbours_flat]
    exact loop_writes_set (fun x : Wall K => x.cellR)
      (fun j => (wall_info mesh.xcells mesh.ycells mesh.zcells j).R) _ _
      (fun t ht p hp x => (hok t ht p hp x).2.1) w0 j ⟨t, ht, p, hws ▸ hp, h1, h2⟩
  have hk : l + m * mesh.xcells + n * mesh.xcells * mesh.ycells = t := rfl
  refine ⟨⟨?_, ?_, ?_, ?_, ?_, ?_⟩, ?_, ?_, ?_, ?_, ?_, ?_⟩
  · have h := keyR c.w1 (c.w1, fun x => { x with cellR := t })
      (by simp [create_mesh_neighbours_writes, hk, c]) rfl (fun x => by simp [i1, c])
    rw [h]; simp [i1, c]
  · have h := keyR c.w4 (c.w4, fun x => { x with cellR := t })
      (by simp [create_mesh_neighbours_writes, hk, c]) rfl (fun x => by simp [i4, c])
    rw [h]; simp [i4, c]
  · have h := keyR c.w5 (c.w5, fun x => { x with cellR := t })
      (by simp [create_mesh_neighbours_writes, hk, c]) rfl (fun x => by simp [i5, c])
    rw [h]; simp [i5, c]
  · have h := keyL c.w2 (c.w2, fun x => { x with cellL := t })
      (by simp [create_mesh_neighbours_writes, hk, c]) rfl (fun x => by simp [i2, c])
    rw [h]; simp [i2, c]
  · have h := keyL c.w3 (c.w3, fun x => { x with cellL := t })
      (by simp [create_mesh_neighbours_writes, hk, c]) rfl (fun x => by simp [i3, c])
    rw [h]; simp [i3, c]
  · have h := keyL c.w6 (c.w6, fun x => { x with cellL := t })
      (by simp [create_mesh_neighbours_writes, hk, c]) rfl (fun x => by simp [i6, c])
    rw [h]; simp [i6, c]
  · intro h0
    have h := keyL c.w1 (c.w1, fun x => { x with cellL := t + (mesh.ycells - 1) * mesh.xcells })
      (by
        simp only [create_mesh_neighbours_writes, List.mem_append, mem_ite_nil, List.mem_cons,
          List.mem_singleton, List.not_mem_nil, or_false]
        exact Or.inl (Or.inl (Or.inl (Or.inl (Or.inl (Or.inr ⟨h0, Or.inr rfl⟩))))))
      rfl (fun x => by simp only [c, t, i1, if_pos h0])
    rw [h]; simp only [c, t, i1, if_pos h0]
  · intro h0
    have h := keyR c.w3 (c.w3, fun x => { x with cellR := t - m * mesh.xcells })
      (by
        simp only [create_mesh_neighbours_writes, List.mem_append, mem_ite_nil, List.mem_cons,
          List.mem_singleton, List.not_mem_nil, or_false]
        exact Or.inl (Or.inl (Or.inl (Or.inl (Or.inr ⟨h0, Or.inr rfl⟩)))))
      rfl (fun x => by simp only [c, t, i3, if_pos h0])
    rw [h]; simp only [c, t, i3, if_pos h0]
  · intro h0
    have h := keyL c.w4 (c.w4, fun x => { x with cellL := t + (mesh.xcells - 1) })
      (by
        simp only [create_mesh_neighbours_writes, List.mem_append, mem_ite_nil, List.mem_cons,
          List.mem_singleton, List.not_mem_nil, or_false]
        exact Or.inl (Or.inl (Or.inl (Or.inr ⟨h0, Or.inr rfl⟩))))
      rfl (fun x => by simp only [c, t, i4, if_pos h0])
    rw [h]; simp only [c, t, i4, if_pos h0]
  · intro h0
    have h := keyR c.w2 (c.w2, fun x => { x with cellR := t - (mesh.xcells - 1) })
      (by
        simp only [create_mesh_neighbours_writes, List.mem_append, mem_ite_nil, List.mem_cons,
          List.mem_singleton, List.not_mem_nil, or_false]
        exact Or.inl (Or.inl (Or.inr ⟨h0, Or.inr rfl⟩)))
      rfl (fun x => by simp only [c, t, i2, if_pos h0])
    rw [h]; simp only [c, t, i2, if_pos h0]
  · intro h0
    have h := keyL c.w5 (c.w5, fun x => { x with cellL := t + (mesh.zcells - 1) * mesh.xcells * mesh.ycells })
      (by
        simp only [create_mesh_neighbours_writes, List.mem_append, mem_ite_nil, List.mem_cons,
          List.mem_singleton, List.not_mem_nil, or_false]
        exact Or.inl (Or.inr ⟨h0, Or.inr rfl⟩))
      rfl (fun x => by simp only [c, t, i5, if_pos h0])
    rw [h]; simp only [c, t, i5, if_pos h0]
  · intro h0
    have h := keyR c.w6 (c.w6, fun x => { x with cellR := t - (mesh.zcells - 1) * mesh.xcells * mesh.ycells })
      (by
        simp only [create_mesh_neighbours_writes, List.mem_append, mem_ite_nil, List.mem_cons,
          List.mem_singleton, List.not_mem_nil, or_false]
        exact Or.inr ⟨h0, Or.inr rfl⟩)
      rfl (fun x => by simp only [c, t, i6, if_pos h0])
    rw [h]; simp only [c, t, i6, if_pos h0]


/-- The heights loop changes neither the neighbour cells nor the normals. -/
lemma create_mesh_heights_frame (mesh : Mesh K) (sim : Sim K) (w0 : Nat → Wall K) (j : Nat) :
    (create_mesh_heights mesh sim w0 j).cellL = (w0 j).cellL
    ∧ (create_mesh_heights mesh sim w0 j).cellR = (w0 j).cellR
    ∧ (create_mesh_heights mesh sim w0 j).nx = (w0 j).nx
    ∧ (create_mesh_heights mesh sim w0 j).ny = (w0 j).ny
    ∧ (create_mesh_heights mesh sim w0 j).nz = (w0 j).nz := by
  have hok : ∀ t, t < mesh.xcells * mesh.ycells * mesh.zcells →
      ∀ p ∈ create_mesh_heights_writes (create_mesh_sources mesh sim t), ∀ x : Wall K,
        (p.2 x).cellL = x.cellL ∧ (p.2 x).cellR = x.cellR ∧ (p.2 x).nx = x.nx
          ∧ (p.2 x).ny = x.ny ∧ (p.2 x).nz = x.nz := by
    intro t _ p hp x
    simp only [create_mesh_heights_writes, List.mem_cons, List.mem_singleton, List.not_mem_nil,
      or_false] at hp
    rcases hp with h | h | h | h | h | h <;> subst h <;> exact ⟨rfl, rfl, rfl, rfl, rfl⟩
  unfold create_mesh_heights
  exact ⟨loop_writes_frame (fun x : Wall K => x.cellL) _ _
      (fun t ht p hp x => (hok t ht p hp x).1) w0 j,
    loop_writes_frame (fun x : Wall K => x.cellR) _ _
      (fun t ht p hp x => (hok t ht p hp x).2.1) w0 j,
    loop_writes_frame (fun x : Wall K => x.nx) _ _
      (fun t ht p hp x => (hok t ht p hp x).2.2.1) w0 j,
    loop_writes_frame (fun x : Wall K => x.ny) _ _
      (fun t ht p hp x => (hok t ht p hp x).2.2.2.1) w0 j,
    loop_writes_frame (fun x : Wall K => x.nz) _ _
      (fun t ht p hp x => (hok t ht p hp x).2.2.2.2) w0 j⟩

/-- The walls of the cell `(l, m, n)` in the mesh built by `create_mesh`:
normals by orientation, the cell itself on its side of each wall, and on a
wall of the boundary the cell across the periodic boundary on the other
side. -/
lemma create_mesh_wiring (mesh : Mesh K) (sim : Sim K) (l m n : Nat)
    (hl : l < mesh.xcells) (hm : m < mesh.ycells) (hn : n < mesh.zcells) :
    let t := cell_index mesh.xcells mesh.ycells l m n
    let c := (create_mesh mesh sim).cell t
    let W := (create_mesh mesh sim).wall
    (((W c.w4).nx = 1 ∧ (W c.w4).ny = 0 ∧ (W c.w4).nz = 0)
      ∧ ((W c.w2).nx = 1 ∧ (W c.w2).ny = 0 ∧ (W c.w2).nz = 0)
      ∧ ((W c.w1).nx = 0 ∧ (W c.w1).ny = 1 ∧ (W c.w1).nz = 0)
      ∧ ((W c.w3).nx = 0 ∧ (W c.w3).ny = 1 ∧ (W c.w3).nz = 0)
      ∧ ((W c.w5).nx = 0 ∧ (W c.w5).ny = 0 ∧ (W c.w5).nz = 1)
      ∧ ((W c.w6).nx = 0 ∧ (W c.w6).ny = 0 ∧ (W c.w6).nz = 1))
    ∧ ((W c.w1).cellR = t ∧ (W c.w4).cellR = t ∧ (W c.w5).cellR = t
      ∧ (W c.w2).cellL = t ∧ (W c.w3).cellL = t ∧ (W c.w6).cellL = t)
    ∧ (m = 0 → (W c.w1).cellL = t + (mesh.ycells - 1) * mesh.xcells)
    ∧ (m = mesh.ycells - 1 → (W c.w3).cellR = t - m * mesh.xcells)
    ∧ (l = 0 → (W c.w4).cellL = t + (mesh.xcells - 1))
    ∧ (l = mesh.xcells - 1 → (W c.w2).cellR = t - (mesh.xcells - 1))
    ∧ (n = 0 → (W c.w5).cellL = t + (mesh.zcells - 1) * mesh.xcells * mesh.ycells)
    ∧ (n = mesh.zcells - 1 → (W c.w6).cellR = t - (mesh.zcells - 1) * mesh.xcells * mesh.ycells) := by
  intro t c W
  have ht := cell_index_lt mesh.xcells mesh.ycells mesh.zcells l m n hl hm hn
  obtain ⟨f1, f2, f3, f4, f5, f6, -⟩ := clear_source_fields sim.nvar (create_mesh_cells mesh t)
  have hc : c = forLoop sim.nvar (fun k (x : Cell K) =>
      { x with S := Function.update x.S k 0, S_corr := Function.update x.S_corr k 0 })
      (create_mesh_cells mesh t) := by
    show create_mesh_sources mesh sim _ = _
    rw [create_mesh_sources_apply, if_pos ht]
  rw [← hc] at f1 f2 f3 f4 f5 f6
  obtain ⟨-, i1, i4, i5, i2, i3, i6⟩ := create_mesh_cell_info mesh l m n
    (create_mesh_cells_init mesh (cell_index mesh.xcells mesh.ycells l m n)) hl hm hn
  rw [← create_mesh_cells_at mesh l m n hl hm hn] at i1 i2 i3 i4 i5 i6
  have hW : ∀ j, W j = create_mesh_heights mesh sim (create_mesh_neighbours mesh
      (create_mesh_normals mesh
        (forLoop (create_mesh_nwalls mesh) (fun k w => wset w k (fun x => { x with id := k }))
          mesh.wall))) j := fun _ => rfl
  have hnor : ∀ j, j = (create_mesh_cells mesh t).w1 ∨ j = (create_mesh_cells mesh t).w2
      ∨ j = (create_mesh_cells mesh t).w3 ∨ j = (create_mesh_cells mesh t).w4
      ∨ j = (create_mesh_cells mesh t).w5 ∨ j = (create_mesh_cells mesh t).w6 →
      (W j).nx = (if (wall_info mesh.xcells mesh.ycells mesh.zcells j).axis = 0 then 1 else 0)
      ∧ (W j).ny = (if (wall_info mesh.xcells mesh.ycells mesh.zcells j).axis = 1 then 1 else 0)
      ∧ (W j).nz
        = (if (wall_info mesh.xcells mesh.ycells mesh.zcells j).axis = 2 then 1 else 0) := by
    intro j hj
    obtain ⟨-, -, a1, a2, a3⟩ := create_mesh_heights_frame mesh sim (create_mesh_neighbours mesh
      (create_mesh_normals mesh
        (forLoop (create_mesh_nwalls mesh) (fun k w => wset w k (fun x => { x with id := k }))
          mesh.wall))) j
    obtain ⟨b1, b2, b3⟩ := create_mesh_neighbours_normals mesh (create_mesh_normals mesh
        (forLoop (create_mesh_nwalls mesh) (fun k w => wset w k (fun x => { x with id := k }))
          mesh.wall)) j
    rw [hW, a1, a2, a3, b1, b2, b3]
    exact create_mesh_normals_at mesh _ l m n hl hm hn j hj
  obtain ⟨⟨r1, r4, r5, l2, l3, l6⟩, c1, c3, c4, c2, c5, c6⟩ :=
    create_mesh_neighbours_at mesh (create_mesh_normals mesh
        (forLoop (create_mesh_nwalls mesh) (fun k w => wset w k (fun x => { x with id := k }))
          mesh.wall)) l m n hl hm hn
  have hL : ∀ j, (W j).cellL = (create_mesh_neighbours mesh (create_mesh_normals mesh
        (forLoop (create_mesh_nwalls mesh) (fun k w => wset w k (fun x => { x with id := k }))
          mesh.wall)) j).cellL := fun j => by
    rw [hW]; exact (create_mesh_heights_frame mesh sim _ j).1
  have hR : ∀ j, (W j).cellR = (create_mesh_neighbours mesh (create_mesh_normals mesh
        (forLoop (create_mesh_nwalls mesh) (fun k w => wset w k (fun x => { x with id := k }))
          mesh.wall)) j).cellR := fun j => by
    rw [hW]; exact (create_mesh_heights_frame mesh sim _ j).2.1
  rw [f1, f2, f3, f4, f5, f6]
  refine ⟨⟨?_, ?_, ?_, ?_, ?_, ?_⟩, ⟨?_, ?_, ?_, ?_, ?_, ?_⟩, ?_, ?_, ?_, ?_, ?_, ?_⟩
  · have h := hnor _ (Or.inr (Or.inr (Or.inr (Or.inl rfl))))
    rw [i4] at h; simpa using h
  · have h := hnor _ (Or.inr (Or.inl rfl))
    rw [i2] at h; simpa using h
  · have h := hnor _ (Or.inl rfl)
    rw [i1] at h; simpa using h
  · have h := hnor _ (Or.inr (Or.inr (Or.inl rfl)))
    rw [i3] at h; simpa using h
  · have h := hnor _ (Or.inr (Or.inr (Or.inr (Or.inr (Or.inl rfl)))))
    rw [i5] at h; simpa using h
  · have h := hnor _ (Or.inr (Or.inr (Or.inr (Or.inr (Or.inr rfl)))))
    rw [i6] at h; simpa using h
  · rw [hR]; exact r1
  · rw [hR]; exact r4
  · rw [hR]; exact r5
  · rw [hL]; exact l2
  · rw [hL]; exact l3
  · rw [hL]; exact l6
  · intro h0; rw [hL]; exact c1 h0
  · intro h0; rw [hR]; exact c3 h0
  · intro h0; rw [hL]; exact c4 h0
  · intro h0; rw [hR]; exact c2 h0
  · intro h0; rw [hL]; exact c5 h0
  · intro h0; rw [hR]; exact c6 h0

/-! ### Sums over the grid -/

/-- An accumulation loop is a finite sum. -/
lemma forLoop_sum (n : Nat) (P : Nat → Prop) [DecidablePred P] (f : Nat → K) :
    forLoop n (fun i acc => if P i then acc + f i else acc) 0
      = ∑ i in Finset.range n, (if P i then f i else 0) := by
  induction n with
  | zero => simp [forLoop]
  | succ n ih =>
    rw [forLoop_succ, ih, Finset.sum_range_succ]
    by_cases h : P n
    · simp [h]
    · simp [h]

/-- A sum over a row-major index as a double sum. -/
lemma sum_rowmajor2 (B A : Nat) (f : Nat → K) :
    ∑ t in Finset.range (B * A), f t
      = ∑ b in Finset.range B, ∑ a in Finset.range A, f (a + b * A) := by
  induction B with
  | zero => simp
  | succ B ih =>
    rw [Nat.succ_mul, Finset.sum_range_add, ih, Finset.sum_range_succ]
    congr 1
    apply Finset.sum_congr rfl
    intro a _
    rw [Nat.add_comm]

/-- A sum over the cell index as a triple sum over the grid. -/
lemma sum_rowmajor3 (X Y Z : Nat) (f : Nat → K) :
    ∑ t in Finset.range (X * Y * Z), f t
      = ∑ n in Finset.range Z, ∑ m in Finset.range Y, ∑ l in Finset.range X,
          f (cell_index X Y l m n) := by
  have e : X * Y * Z = Z * (Y * X) := by ring
  rw [e, sum_rowmajor2]
  apply Finset.sum_congr rfl
  intro n _
  rw [sum_rowmajor2]
  apply Finset.sum_congr rfl
  intro m _
  apply Finset.sum_congr rfl
  intro l _
  unfold cell_index
  congr 1
  ring

/-- Along a periodic row the outgoing and incoming fluxes cancel. -/
lemma sum_ring (X : Nat) (a b : Nat → K) (hstep : ∀ l, l + 1 < X → a l = b (l + 1))
    (hwrap : 0 < X → a (X - 1) = b 0) :
    ∑ l in Finset.range X, (a l - b l) = 0 := by
  rcases Nat.eq_zero_or_pos X with h | h
  · subst h; simp
  · obtain ⟨X', rfl⟩ : ∃ X', X = X' + 1 := ⟨X - 1, by omega⟩
    rw [Finset.sum_sub_distrib, Finset.sum_range_succ, Finset.sum_range_succ']
    have h1 : ∑ l in Finset.range X', a l = ∑ l in Finset.range X', b (l + 1) :=
      Finset.sum_congr rfl (fun l hl => hstep l (by
        have := Finset.mem_range.1 hl
        omega))
    have h2 := hwrap h
    simp only [Nat.add_sub_cancel] at h2
    rw [h1, h2]; ring


/-- On the mesh built by `create_mesh`, a quantity `F` attached to the walls
that agrees on walls with the same neighbour cells and the same normal has
zero net flux through the cells, direction by direction. -/
lemma periodic_flux_sums (mesh : Mesh K) (sim : Sim K) (F : Nat → K)
    (hpair : ∀ j j', j < (create_mesh mesh sim).nwalls → j' < (create_mesh mesh sim).nwalls →
      ((create_mesh mesh sim).wall j).cellL = ((create_mesh mesh sim).wall j').cellL →
      ((create_mesh mesh sim).wall j).cellR = ((create_mesh mesh sim).wall j').cellR →
      ((create_mesh mesh sim).wall j).nx = ((create_mesh mesh sim).wall j').nx →
      ((create_mesh mesh sim).wall j).ny = ((create_mesh mesh sim).wall j').ny →
      ((create_mesh mesh sim).wall j).nz = ((create_mesh mesh sim).wall j').nz → F j = F j') :
    ∑ i in Finset.range (mesh.xcells * mesh.ycells * mesh.zcells),
        (F ((create_mesh mesh sim).cell i).w2 - F ((create_mesh mesh sim).cell i).w4) = 0
    ∧ ∑ i in Finset.range (mesh.xcells * mesh.ycells * mesh.zcells),
        (F ((create_mesh mesh sim).cell i).w3 - F ((create_mesh mesh sim).cell i).w1) = 0
    ∧ ∑ i in Finset.range (mesh.xcells * mesh.ycells * mesh.zcells),
        (F ((create_mesh mesh sim).cell i).w6 - F ((create_mesh mesh sim).cell i).w5) = 0 := by
  have hNW : (create_mesh mesh sim).nwalls
      = 3 * (mesh.xcells * mesh.ycells * mesh.zcells) + mesh.xcells * mesh.zcells
        + mesh.ycells * mesh.zcells + mesh.xcells * mesh.ycells := rfl
  refine ⟨?_, ?_, ?_⟩
  · rw [sum_rowmajor3]
    apply Finset.sum_eq_zero
    intro n hn
    apply Finset.sum_eq_zero
    intro m hm
    have hn := Finset.mem_range.1 hn
    have hm := Finset.mem_range.1 hm
    apply sum_ring
    · intro l hl
      obtain ⟨-, -, -, f2, -⟩ := create_mesh_cell_fields mesh sim l m n (by omega) hm hn
      obtain ⟨-, f4, -⟩ := create_mesh_cell_fields mesh sim (l + 1) m n hl hm hn
      rw [f2, f4, if_neg (by omega)]
      congr 1
      unfold wall_base; ring
    · intro hX
      have hl1 : mesh.xcells - 1 < mesh.xcells := by omega
      obtain ⟨-, -, -, f2, -⟩ := create_mesh_cell_fields mesh sim (mesh.xcells - 1) m n hl1 hm hn
      obtain ⟨-, f4, -⟩ := create_mesh_cell_fields mesh sim 0 m n hX hm hn
      obtain ⟨-, -, -, b2, -⟩ := wall_ids_lt mesh.xcells mesh.ycells mesh.zcells
        (mesh.xcells - 1) m n hl1 hm hn
      obtain ⟨-, b4, -⟩ := wall_ids_lt mesh.xcells mesh.ycells mesh.zcells 0 m n hX hm hn
      obtain ⟨⟨-, n2, -⟩, ⟨-, -, -, l2, -⟩, -, -, -, c2, -⟩ :=
        create_mesh_wiring mesh sim (mesh.xcells - 1) m n hl1 hm hn
      obtain ⟨⟨n4, -⟩, ⟨-, r4, -⟩, -, -, c4, -⟩ := create_mesh_wiring mesh sim 0 m n hX hm hn
      have c2 := c2 rfl
      have c4 := c4 rfl
      have ht : cell_index mesh.xcells mesh.ycells (mesh.xcells - 1) m n
          = cell_index mesh.xcells mesh.ycells 0 m n + (mesh.xcells - 1) := by
        unfold cell_index; omega
      apply hpair
      · rw [hNW, f2]; exact b2
      · rw [hNW, f4]; exact b4
      · rw [l2, c4, ht]
      · rw [c2, r4, ht]; omega
      · rw [n2.1, n4.1]
      · rw [n2.2.1, n4.2.1]
      · rw [n2.2.2, n4.2.2]
  · rw [sum_rowmajor3]
    apply Finset.sum_eq_zero
    intro n hn
    rw [Finset.sum_comm]
    apply Finset.sum_eq_zero
    intro l hl
    have hn := Finset.mem_range.1 hn
    have hl := Finset.mem_range.1 hl
    apply sum_ring
    · intro m hm
      obtain ⟨-, -, -, -, f3, -⟩ := create_mesh_cell_fields mesh sim l m n hl (by omega) hn
      obtain ⟨f1, -⟩ := create_mesh_cell_fields mesh sim l (m + 1) n hl hm hn
      rw [f3, f1, if_neg (by omega)]
      congr 1
      unfold wall_base; ring
    · intro hY
      have hm1 : mesh.ycells - 1 < mesh.ycells := by omega
      obtain ⟨-, -, -, -, f3, -⟩ := create_mesh_cell_fields mesh sim l (mesh.ycells - 1) n hl hm1 hn
      obtain ⟨f1, -⟩ := create_mesh_cell_fields mesh sim l 0 n hl hY hn
      obtain ⟨-, -, -, -, b3, -⟩ := wall_ids_lt mesh.xcells mesh.ycells mesh.zcells
        l (mesh.ycells - 1) n hl hm1 hn
      obtain ⟨b1, -⟩ := wall_ids_lt mesh.xcells mesh.ycells mesh.zcells l 0 n hl hY hn
      obtain ⟨⟨-, -, -, n3, -⟩, ⟨-, -, -, -, l3, -⟩, -, c3, -⟩ :=
        create_mesh_wiring mesh sim l (mesh.ycells - 1) n hl hm1 hn
      obtain ⟨⟨-, -, n1, -⟩, ⟨r1, -⟩, c1, -⟩ := create_mesh_wiring mesh sim l 0 n hl hY hn
      have c3 := c3 rfl
      have c1 := c1 rfl
      have ht : cell_index mesh.xcells mesh.ycells l (mesh.ycells - 1) n
          = cell_index mesh.xcells mesh.ycells l 0 n + (mesh.ycells - 1) * mesh.xcells := by
        unfold cell_index; omega
      apply hpair
      · rw [hNW, f3]; exact b3
      · rw [hNW, f1]; exact b1
      · rw [l3, c1, ht]
      · rw [c3, r1, ht]; omega
      · rw [n3.1, n1.1]
      · rw [n3.2.1, n1.2.1]
      · rw [n3.2.2, n1.2.2]
  · rw [sum_rowmajor3, Finset.sum_comm]
    apply Finset.sum_eq_zero
    intro m hm
    rw [Finset.sum_comm]
    apply Finset.sum_eq_zero
    intro l hl
    have hm := Finset.mem_range.1 hm
    have hl := Finset.mem_range.1 hl
    apply sum_ring
    · intro n hn
      obtain ⟨-, -, -, -, -, f6, -⟩ := create_mesh_cell_fields mesh sim l m n hl hm (by omega)
      obtain ⟨-, -, f5, -⟩ := create_mesh_cell_fields mesh sim l m (n + 1) hl hm hn
      rw [f6, f5, if_neg (by omega)]
      congr 1
      unfold wall_base; ring
    · intro hZ
      have hn1 : mesh.zcells - 1 < mesh.zcells := by omega
      obtain ⟨-, -, -, -, -, f6, -⟩ :=
        create_mesh_cell_fields mesh sim l m (mesh.zcells - 1) hl hm hn1
      obtain ⟨-, -, f5, -⟩ := create_mesh_cell_fields mesh sim l m 0 hl hm hZ
      obtain ⟨-, -, -, -, -, b6⟩ := wall_ids_lt mesh.xcells mesh.ycells mesh.zcells
        l m (mesh.zcells - 1) hl hm hn1
      obtain ⟨-, -, b5, -⟩ := wall_ids_lt mesh.xcells mesh.ycells mesh.zcells l m 0 hl hm hZ
      obtain ⟨⟨-, -, -, -, -, n6⟩, ⟨-, -, -, -, -, l6⟩, -, -, -, -, -, c6⟩ :=
        create_mesh_wiring mesh sim l m (mesh.zcells - 1) hl hm hn1
      obtain ⟨⟨-, -, -, -, n5, -⟩, ⟨-, -, r5, -⟩, -, -, -, -, c5, -⟩ :=
        create_mesh_wiring mesh sim l m 0 hl hm hZ
      have c6 := c6 rfl
      have c5 := c5 rfl
      have ht : cell_index mesh.xcells mesh.ycells l m (mesh.zcells - 1)
          = cell_index mesh.xcells mesh.ycells l m 0
            + (mesh.zcells - 1) * mesh.xcells * mesh.ycells := by
        unfold cell_index; omega
      apply hpair
      · rw [hNW, f6]; exact b6
      · rw [hNW, f5]; exact b5
      · rw [l6, c5, ht]
      · rw [c6, r5, ht]; omega
      · rw [n6.1, n5.1]
      · rw [n6.2.1, n5.2.1]
      · rw [n6.2.2, n5.2.2]


/-- The cell `i` of the mesh built by `create_mesh`: its wall pointers are
walls of the mesh and its sizes are the spacings of the grid. -/
lemma create_mesh_cell_flat (mesh : Mesh K) (sim : Sim K) (i : Nat)
    (hi : i < mesh.xcells * mesh.ycells * mesh.zcells) :
    (((create_mesh mesh sim).cell i).w1 < (create_mesh mesh sim).nwalls
      ∧ ((create_mesh mesh sim).cell i).w2 < (create_mesh mesh sim).nwalls
      ∧ ((create_mesh mesh sim).cell i).w3 < (create_mesh mesh sim).nwalls
      ∧ ((create_mesh mesh sim).cell i).w4 < (create_mesh mesh sim).nwalls
      ∧ ((create_mesh mesh sim).cell i).w5 < (create_mesh mesh sim).nwalls
      ∧ ((create_mesh mesh sim).cell i).w6 < (create_mesh mesh sim).nwalls)
    ∧ ((create_mesh mesh sim).cell i).dx = mesh.dx
    ∧ ((create_mesh mesh sim).cell i).dy = mesh.dy
    ∧ ((create_mesh mesh sim).cell i).dz = mesh.dz := by
  have hN : mesh.xcells * mesh.ycells * mesh.zcells
      = mesh.zcells * (mesh.ycells * mesh.xcells) := by ring
  obtain ⟨b1, b2, b3⟩ := rowmajor_bounds mesh.xcells mesh.ycells mesh.zcells i (hN ▸ hi)
  have he : cell_index mesh.xcells mesh.ycells (i % mesh.xcells) (i / mesh.xcells % mesh.ycells)
      (i / (mesh.ycells * mesh.xcells)) = i := rowmajor_encode _ _ i
  obtain ⟨f1, f4, f5, f2, f3, f6, fx, fy, fz⟩ := create_mesh_cell_fields mesh sim _ _ _ b1 b2 b3
  obtain ⟨a1, a4, a5, a2, a3, a6⟩ :=
    wall_ids_lt mesh.xcells mesh.ycells mesh.zcells _ _ _ b1 b2 b3
  rw [he] at f1 f2 f3 f4 f5 f6 fx fy fz
  have hNW : (create_mesh mesh sim).nwalls
      = 3 * (mesh.xcells * mesh.ycells * mesh.zcells) + mesh.xcells * mesh.zcells
        + mesh.ycells * mesh.zcells + mesh.xcells * mesh.ycells := rfl
  rw [hNW, f1, f2, f3, f4, f5, f6]
  exact ⟨⟨a1, a2, a3, a4, a5, a6⟩, fx, fy, fz⟩

/-- The mass flux divergences of the cells of a periodic grid add up to
zero. -/
lemma mass_flux_divergence_sum (mesh0 : Mesh K) (sim0 : Sim K) (M : Mesh K)
    (hconn : same_connectivity M (create_mesh mesh0 sim0))
    (hflux : ∀ j, j < M.nwalls → (M.wall j).fL_star 0 = (M.wall j).fR_star 0)
    (hpair : ∀ j j', j < M.nwalls → j' < M.nwalls →
      (M.wall j).cellL = (M.wall j').cellL → (M.wall j).cellR = (M.wall j').cellR →
      (M.wall j).nx = (M.wall j').nx → (M.wall j).ny = (M.wall j').ny →
      (M.wall j).nz = (M.wall j').nz → (M.wall j).fR_star 0 = (M.wall j').fR_star 0) :
    ∑ i in Finset.range M.ncells, flux_divergence M.wall (M.cell i) 0 = 0 := by
  obtain ⟨hnc, hnw, hcell, hwall⟩ := hconn
  have hnc' : M.ncells = mesh0.xcells * mesh0.ycells * mesh0.zcells := hnc
  obtain ⟨sx, sy, sz⟩ := periodic_flux_sums mesh0 sim0 (fun j => (M.wall j).fR_star 0)
    (fun j j' hj hj' h1 h2 h3 h4 h5 => by
      obtain ⟨p1, p2, p3, p4, p5⟩ := hwall j hj
      obtain ⟨q1, q2, q3, q4, q5⟩ := hwall j' hj'
      exact hpair j j' (hnw ▸ hj) (hnw ▸ hj') (by rw [p1, q1, h1]) (by rw [p2, q2, h2])
        (by rw [p3, q3, h3]) (by rw [p4, q4, h4]) (by rw [p5, q5, h5]))
  have hdiv : ∀ i ∈ Finset.range M.ncells, flux_divergence M.wall (M.cell i) 0
      = ((M.wall ((create_mesh mesh0 sim0).cell i).w2).fR_star 0
          - (M.wall ((create_mesh mesh0 sim0).cell i).w4).fR_star 0) / mesh0.dx
        + ((M.wall ((create_mesh mesh0 sim0).cell i).w3).fR_star 0
          - (M.wall ((create_mesh mesh0 sim0).cell i).w1).fR_star 0) / mesh0.dy
        + ((M.wall ((create_mesh mesh0 sim0).cell i).w6).fR_star 0
          - (M.wall ((create_mesh mesh0 sim0).cell i).w5).fR_star 0) / mesh0.dz := by
    intro i hi
    have hi := Finset.mem_range.1 hi
    rw [hnc'] at hi
    obtain ⟨e1, e2, e3, e4, e5, e6, ex, ey, ez⟩ := hcell i hi
    obtain ⟨⟨-, a2, a3, -, -, a6⟩, fx, fy, fz⟩ := create_mesh_cell_flat mesh0 sim0 i hi
    unfold flux_divergence
    rw [e1, e2, e3, e4, e5, e6, ex, ey, ez, fx, fy, fz, hflux _ (hnw ▸ a2), hflux _ (hnw ▸ a3),
      hflux _ (hnw ▸ a6)]
  rw [Finset.sum_congr rfl hdiv, Finset.sum_add_distrib, Finset.sum_add_distrib,
    ← Finset.sum_div, ← Finset.sum_div, ← Finset.sum_div, hnc', sx, sy, sz]
  simp


/-- Total mass after a sub-step whose new densities are the old ones minus
`δ` times the flux divergence. -/
lemma mass_after_update (M M2 : Mesh K) (δ : K)
    (hn : M2.ncells = M.ncells)
    (hd : M2.dx = M.dx ∧ M2.dy = M.dy ∧ M2.dz = M.dz)
    (hcell : ∀ i, i < M.ncells → (M.cell i).type ≠ 0 ∧ (M2.cell i).type ≠ 0
      ∧ (M2.cell i).U 0 = (M.cell i).U 0 - δ * flux_divergence M.wall (M.cell i) 0)
    (hsum : ∑ i in Finset.range M.ncells, flux_divergence M.wall (M.cell i) 0 = 0) :
    (mass_calculation M2).mass = (mass_calculation M).mass := by
  unfold mass_calculation
  simp only
  rw [forLoop_sum M2.ncells (fun i => (M2.cell i).type ≠ 0)
      (fun i => (M2.cell i).U 0 * (M2.dx * M2.dy * M2.dz)),
    forLoop_sum M.ncells (fun i => (M.cell i).type ≠ 0)
      (fun i => (M.cell i).U 0 * (M.dx * M.dy * M.dz)), hn, hd.1, hd.2.1, hd.2.2]
  have e : ∀ i ∈ Finset.range M.ncells,
      (if (M2.cell i).type ≠ 0 then (M2.cell i).U 0 * (M.dx * M.dy * M.dz) else 0)
        = (if (M.cell i).type ≠ 0 then (M.cell i).U 0 * (M.dx * M.dy * M.dz) else 0)
          - δ * (M.dx * M.dy * M.dz) * flux_divergence M.wall (M.cell i) 0 := by
    intro i hi
    obtain ⟨h1, h2, h3⟩ := hcell i (Finset.mem_range.1 hi)
    rw [if_pos h1, if_pos h2, h3]; ring
  rw [Finset.sum_congr rfl e, Finset.sum_sub_distrib, ← Finset.mul_sum, hsum]
  ring

/-- Claim C5.  Mass conservation on a closed periodic grid: let the mesh `M`
have the connectivity that `create_mesh` builds (cells, their six wall
pointers and sizes, the neighbour cells and normals of the walls), with every
cell integrated (no solid and no ghost cell), let the two mass fluxes of
every wall coincide, let walls with the same neighbour cells and the same
normal (the two walls that face each other across a periodic boundary) carry
the same mass flux, and let the mass source `S[0]` vanish.  Then `update_cell`
and `update_cellK1` leave the total mass returned by `mass_calculation`
unchanged. -/
theorem mass_conservation_periodic (mesh0 : Mesh K) (sim0 sim : Sim K) (M : Mesh K)
    (hconn : same_connectivity M (create_mesh mesh0 sim0))
    (hfluid : ∀ i, i < M.ncells → (M.cell i).type ≠ 0 ∧ (M.cell i).ghost ≠ 1)
    (hflux : ∀ j, j < M.nwalls → (M.wall j).fL_star 0 = (M.wall j).fR_star 0)
    (hpair : ∀ j j', j < M.nwalls → j' < M.nwalls →
      (M.wall j).cellL = (M.wall j').cellL → (M.wall j).cellR = (M.wall j').cellR →
      (M.wall j).nx = (M.wall j').nx → (M.wall j).ny = (M.wall j').ny →
      (M.wall j).nz = (M.wall j').nz → (M.wall j).fR_star 0 = (M.wall j').fR_star 0)
    (hS : ∀ i, i < M.ncells → (M.cell i).S 0 = 0) :
    (mass_calculation (update_cell M sim)).mass = (mass_calculation M).mass
    ∧ (mass_calculation (update_cellK1 M sim)).mass = (mass_calculation M).mass := by
  have hsum := mass_flux_divergence_sum mesh0 sim0 M hconn hflux hpair
  constructor
  · apply mass_after_update M (update_cell M sim) (if 0 < sim.nvar then sim.dt else 0) rfl
      ⟨rfl, rfl, rfl⟩ _ hsum
    intro i hi
    have hc := update_cell_cell M sim i
    rw [if_pos hi, if_pos (hfluid i hi)] at hc
    refine ⟨(hfluid i hi).1, ?_, ?_⟩
    · rw [hc]; exact (hfluid i hi).1
    · rw [hc]
      by_cases hv : 0 < sim.nvar
      · simp only [hv, if_true]
      · simp only [hv, if_false, zero_mul, sub_zero]
  · apply mass_after_update M (update_cellK1 M sim) (if 0 < sim.nvar then sim.dt else 0) rfl
      ⟨rfl, rfl, rfl⟩ _ hsum
    intro i hi
    have hc := update_cellK1_cell M sim i
    rw [if_pos hi, if_pos (hfluid i hi)] at hc
    refine ⟨(hfluid i hi).1, ?_, ?_⟩
    · rw [hc]; exact (hfluid i hi).1
    · rw [hc]
      by_cases hv : 0 < sim.nvar
      · simp only [hv, if_true, hS i hi, sub_zero]
      · simp only [hv, if_false, zero_mul, sub_zero]


/-- Instance of `mass_conservation_periodic`: the `2 x 2 x 2` periodic mesh
`periodicFlowMesh` with time step `1/10`. -/
theorem mass_conservation_periodic_witness :
    same_connectivity (periodicFlowMesh : Mesh ℚ) (create_mesh periodicGrid (eulerSim 0 1))
    ∧ (mass_calculation (update_cell (periodicFlowMesh : Mesh ℚ) (eulerSim (1 / 10) 1))).mass
        = (mass_calculation (periodicFlowMesh : Mesh ℚ)).mass
    ∧ (mass_calculation (update_cellK1 (periodicFlowMesh : Mesh ℚ) (eulerSim (1 / 10) 3))).mass
        = (mass_calculation (periodicFlowMesh : Mesh ℚ)).mass :=
  ⟨⟨rfl, rfl, fun _ _ => ⟨rfl, rfl, rfl, rfl, rfl, rfl, rfl, rfl, rfl⟩,
      fun _ _ => ⟨rfl, rfl, rfl, rfl, rfl⟩⟩,
    (mass_conservation_periodic (periodicGrid : Mesh ℚ) (eulerSim 0 1) (eulerSim (1 / 10) 1)
      periodicFlowMesh
      ⟨rfl, rfl, fun _ _ => ⟨rfl, rfl, rfl, rfl, rfl, rfl, rfl, rfl, rfl⟩,
        fun _ _ => ⟨rfl, rfl, rfl, rfl, rfl⟩⟩
      (fun _ _ => ⟨show (1 : Int) ≠ 0 by decide, show (0 : Int) ≠ 1 by decide⟩) (fun _ _ => rfl)
      (fun _ _ _ _ _ _ _ _ _ => rfl) (fun _ _ => rfl)).1,
    (mass_conservation_periodic (periodicGrid : Mesh ℚ) (eulerSim 0 1) (eulerSim (1 / 10) 3)
      periodicFlowMesh
      ⟨rfl, rfl, fun _ _ => ⟨rfl, rfl, rfl, rfl, rfl, rfl, rfl, rfl, rfl⟩,
        fun _ _ => ⟨rfl, rfl, rfl, rfl, rfl⟩⟩
      (fun _ _ => ⟨show (1 : Int) ≠ 0 by decide, show (0 : Int) ≠ 1 by decide⟩) (fun _ _ => rfl)
      (fun _ _ _ _ _ _ _ _ _ => rfl) (fun _ _ => rfl)).2⟩

/-! ## The HLLS solver on a state at rest -/

/-- The intermediate quantities of `compute_euler_HLLS` when both states have
no momentum. -/
lemma HLLS_vars_rest (sqrt : K → K) (mt : Nat) (wall : Wall K)
    (hL : wall.UL 1 = 0 ∧ wall.UL 2 = 0 ∧ wall.UL 3 = 0)
    (hR : wall.UR 1 = 0 ∧ wall.UR 2 = 0 ∧ wall.UR 3 = 0) :
    let r := HLLS_vars sqrt false mt wall
    (r.WL 0 = wall.UL 0 ∧ r.WL 1 = 0 ∧ r.WL 2 = 0 ∧ r.WL 3 = 0 ∧ r.WL 4 = wall.UL 4)
    ∧ (r.WR 0 = wall.UR 0 ∧ r.WR 1 = 0 ∧ r.WR 2 = 0 ∧ r.WR 3 = 0 ∧ r.WR 4 = wall.UR 4)
    ∧ (r.FL 0 = 0 ∧ r.FL 1 = (gamma - 1) * wall.UL 4 ∧ r.FL 2 = 0 ∧ r.FL 3 = 0 ∧ r.FL 4 = 0)
    ∧ (r.FR 0 = 0 ∧ r.FR 1 = (gamma - 1) * wall.UR 4 ∧ r.FR 2 = 0 ∧ r.FR 3 = 0 ∧ r.FR 4 = 0)
    ∧ (r.u_hat = 0 ∧ r.v_hat = 0 ∧ r.w_hat = 0)
    ∧ (r.S1 = -r.c_hat ∧ r.S2 = r.c_hat ∧ r.diffS = 2 * r.c_hat)
    ∧ r.c_hat = sqrt ((gamma - 1) * r.H_hat)
    ∧ r.H_hat = (gamma * wall.UR 4 / wall.UR 0 * sqrt (wall.UR 0)
        + gamma * wall.UL 4 / wall.UL 0 * sqrt (wall.UL 0))
        / (sqrt (wall.UR 0) + sqrt (wall.UL 0)) := by
  obtain ⟨l1, l2, l3⟩ := hL
  obtain ⟨r1, r2, r3⟩ := hR
  intro r
  have eWL1 : r.WL 1 = 0 := by
    show wall.UL 1 * wall.nx + wall.UL 2 * wall.ny + wall.UL 3 * wall.nz = 0
    rw [l1, l2, l3]; ring
  have eWL2 : r.WL 2 = 0 := by
    show -wall.UL 1 * wall.ny + wall.UL 2 * wall.nx + wall.UL 2 * wall.nz = 0
    rw [l1, l2]; ring
  have eWL3 : r.WL 3 = 0 := by
    show wall.UL 3 * wall.nx + wall.UL 3 * wall.ny - wall.UL 1 * wall.nz = 0
    rw [l1, l3]; ring
  have eWR1 : r.WR 1 = 0 := by
    show wall.UR 1 * wall.nx + wall.UR 2 * wall.ny + wall.UR 3 * wall.nz = 0
    rw [r1, r2, r3]; ring
  have eWR2 : r.WR 2 = 0 := by
    show -wall.UR 1 * wall.ny + wall.UR 2 * wall.nx + wall.UR 2 * wall.nz = 0
    rw [r1, r2]; ring
  have eWR3 : r.WR 3 = 0 := by
    show wall.UR 3 * wall.nx + wall.UR 3 * wall.ny - wall.UR 1 * wall.nz = 0
    rw [r1, r3]; ring
  have eWL0 : r.WL 0 = wall.UL 0 := rfl
  have eWR0 : r.WR 0 = wall.UR 0 := rfl
  have eWL4 : r.WL 4 = wall.UL 4 := rfl
  have eWR4 : r.WR 4 = wall.UR 4 := rfl
  have euL : r.uL = 0 := by show r.WL 1 / r.WL 0 = 0; rw [eWL1, zero_div]
  have evL : r.vL = 0 := by show r.WL 2 / r.WL 0 = 0; rw [eWL2, zero_div]
  have ewL : r.wL = 0 := by show r.WL 3 / r.WL 0 = 0; rw [eWL3, zero_div]
  have euR : r.uR = 0 := by show r.WR 1 / r.WR 0 = 0; rw [eWR1, zero_div]
  have evR : r.vR = 0 := by show r.WR 2 / r.WR 0 = 0; rw [eWR2, zero_div]
  have ewR : r.wR = 0 := by show r.WR 3 / r.WR 0 = 0; rw [eWR3, zero_div]
  have epL : r.pL = (gamma - 1) * wall.UL 4 := by
    show (gamma - 1) * (r.WL 4 - 1 / 2 * r.WL 0 * (r.uL * r.uL + r.vL * r.vL + r.wL * r.wL)) = _
    rw [euL, evL, ewL, eWL4]; ring
  have epR : r.pR = (gamma - 1) * wall.UR 4 := by
    show (gamma - 1) * (r.WR 4 - 1 / 2 * r.WR 0 * (r.uR * r.uR + r.vR * r.vR + r.wR * r.wR)) = _
    rw [euR, evR, ewR, eWR4]; ring
  have eu : r.u_hat = 0 := by
    show (r.uR * sqrt (r.WR 0) + r.uL * sqrt (r.WL 0)) / (sqrt (r.WR 0) + sqrt (r.WL 0)) = 0
    rw [euL, euR]; simp
  have ev : r.v_hat = 0 := by
    show (r.vR * sqrt (r.WR 0) + r.vL * sqrt (r.WL 0)) / (sqrt (r.WR 0) + sqrt (r.WL 0)) = 0
    rw [evL, evR]; simp
  have ew : r.w_hat = 0 := by
    show (r.wR * sqrt (r.WR 0) + r.wL * sqrt (r.WL 0)) / (sqrt (r.WR 0) + sqrt (r.WL 0)) = 0
    rw [ewL, ewR]; simp
  have ec : r.c_hat = sqrt ((gamma - 1) * r.H_hat) := by
    show sqrt ((gamma - 1) * (r.H_hat - 1 / 2 * (r.u_hat * r.u_hat + r.v_hat * r.v_hat
      + r.w_hat * r.w_hat))) = _
    rw [eu, ev, ew]; congr 1; ring
  have eH : r.H_hat = (gamma * wall.UR 4 / wall.UR 0 * sqrt (wall.UR 0)
        + gamma * wall.UL 4 / wall.UL 0 * sqrt (wall.UL 0))
        / (sqrt (wall.UR 0) + sqrt (wall.UL 0)) := by
    show ((r.WR 4 + r.pR) / r.WR 0 * sqrt (r.WR 0) + (r.WL 4 + r.pL) / r.WL 0 * sqrt (r.WL 0))
      / (sqrt (r.WR 0) + sqrt (r.WL 0)) = _
    rw [epL, epR, eWL4, eWR4, eWL0, eWR0]
    congr 1
    ring
  have eS1 : r.S1 = -r.c_hat := by
    show r.u_hat - r.c_hat = _
    rw [eu]; ring
  have eS2 : r.S2 = r.c_hat := by
    show r.u_hat + r.c_hat = _
    rw [eu]; ring
  have ed : r.diffS = 2 * r.c_hat := by
    show r.S2 - r.S1 = _
    rw [eS1, eS2]; ring
  refine ⟨⟨eWL0, eWL1, eWL2, eWL3, eWL4⟩, ⟨eWR0, eWR1, eWR2, eWR3, eWR4⟩, ⟨eWL1, ?_, ?_, ?_, ?_⟩,
    ⟨eWR1, ?_, ?_, ?_, ?_⟩, ⟨eu, ev, ew⟩, ⟨eS1, eS2, ed⟩, ec, eH⟩
  · show r.WL 1 * r.uL + r.pL = _
    rw [eWL1, epL]; ring
  · show r.WL 1 * r.vL = 0
    rw [eWL1]; ring
  · show r.WL 1 * r.wL = 0
    rw [eWL1]; ring
  · show r.uL * (r.WL 4 + r.pL) = 0
    rw [euL]; ring
  · show r.WR 1 * r.uR + r.pR = _
    rw [eWR1, epR]; ring
  · show r.WR 1 * r.vR = 0
    rw [eWR1]; ring
  · show r.WR 1 * r.wR = 0
    rw [eWR1]; ring
  · show r.uR * (r.WR 4 + r.pR) = 0
    rw [euR]; ring


/-- The rotated HLLS fluxes of momentum and energy between two states at rest,
when the source integral equals the pressure jump: the normal momentum flux
is the pressure of the own side and the other three vanish.  The square root
enters only through `sqrt x * sqrt x = x` where `sqrt x` is positive. -/
lemma HLLS_rest_star (sqrt : K → K) (hsq : ∀ x, 0 < sqrt x → sqrt x * sqrt x = x)
    (mt : Nat) (wall : Wall K) (r : Riemann K) (hr : r = HLLS_vars sqrt false mt wall)
    (hL : wall.UL 1 = 0 ∧ wall.UL 2 = 0 ∧ wall.UL 3 = 0)
    (hR : wall.UR 1 = 0 ∧ wall.UR 2 = 0 ∧ wall.UR 3 = 0)
    (hS : HLLS_S wall r 1 = (gamma - 1) * wall.UR 4 - (gamma - 1) * wall.UL 4) :
    (HLLS_F_star_L wall r 1 = (gamma - 1) * wall.UL 4
      ∧ HLLS_F_star_L wall r 2 = 0 ∧ HLLS_F_star_L wall r 3 = 0 ∧ HLLS_F_star_L wall r 4 = 0)
    ∧ (HLLS_F_star_R wall r 1 = (gamma - 1) * wall.UR 4
      ∧ HLLS_F_star_R wall r 2 = 0 ∧ HLLS_F_star_R wall r 3 = 0 ∧ HLLS_F_star_R wall r 4 = 0) := by
  obtain ⟨⟨eWL0, eWL1, eWL2, eWL3, eWL4⟩, ⟨eWR0, eWR1, eWR2, eWR3, eWR4⟩,
    ⟨eFL0, eFL1, eFL2, eFL3, eFL4⟩, ⟨eFR0, eFR1, eFR2, eFR3, eFR4⟩, ⟨eu, ev, ew⟩,
    ⟨eS1, eS2, ed⟩, ec, -⟩ := HLLS_vars_rest sqrt mt wall hL hR
  rw [← hr] at eWL0 eWL1 eWL2 eWL3 eWL4 eWR0 eWR1 eWR2 eWR3 eWR4
  rw [← hr] at eFL0 eFL1 eFL2 eFL3 eFL4 eFR0 eFR1 eFR2 eFR3 eFR4
  rw [← hr] at eu ev ew eS1 eS2 ed ec
  clear hr
  obtain ⟨s0, -, s2, s3, s4⟩ := HLLS_S_values wall r
  have s1 := hS
  have s4' : HLLS_S wall r 4 = 0 := by rw [s4, eu, mul_zero]
  have b1 : HLLS_B wall r 1 = 0 := rfl
  have b2 : HLLS_B wall r 2 = 0 := by
    show -((wall.URe 0 - wall.ULe 0) * r.c_hat * r.c_hat / (wall.pRe - wall.pLe + TOL14))
      * r.v_hat / (r.S1 * r.S2) * HLLS_S wall r 1 = 0
    rw [ev]; simp
  have b3 : HLLS_B wall r 3 = 0 := by
    show -((wall.URe 0 - wall.ULe 0) * r.c_hat * r.c_hat / (wall.pRe - wall.pLe + TOL14))
      * r.w_hat / (r.S1 * r.S2) * HLLS_S wall r 1 = 0
    rw [ew]; simp
  by_cases hc : 0 < r.c_hat
  · have c1 : ¬ r.S1 ≥ 0 := by rw [eS1]; intro h; linarith
    have c2 : ¬ r.S2 ≤ 0 := by rw [eS2]; intro h; linarith
    have hc0 : r.c_hat ≠ 0 := ne_of_gt hc
    have hcc : r.c_hat * r.c_hat = (gamma - 1) * r.H_hat := by
      have h := hsq ((gamma - 1) * r.H_hat) (by rw [← ec]; exact hc)
      rw [← ec] at h
      exact h
    have hg : (gamma : K) - 1 ≠ 0 := by unfold gamma; norm_num
    have hH : r.H_hat ≠ 0 := by
      intro h
      rw [h, mul_zero] at hcc
      exact hc0 (mul_self_eq_zero.1 hcc)
    have b4 : HLLS_B wall r 4 = wall.UR 4 - wall.UL 4 := by
      show -(r.H_hat - r.u_hat * r.u_hat
        + 1 / 2 * ((wall.URe 0 - wall.ULe 0) * r.c_hat * r.c_hat
            / (wall.pRe - wall.pLe + TOL14) - 1) * (r.v_hat * r.v_hat + r.w_hat * r.w_hat))
        / (r.S1 * r.S2) * HLLS_S wall r 1 = _
      rw [eu, ev, ew, eS1, eS2, s1]
      have : -r.c_hat * r.c_hat = -((gamma - 1) * r.H_hat) := by rw [← hcc]; ring
      rw [this]
      field_simp
      ring
    have hFL : ∀ m, HLLS_F_star_L wall r m
        = (r.S2 * r.FL m - r.S1 * r.FR m + r.S1 * r.S2 * (r.WR m - r.WL m)
          + r.S1 * (HLLS_S wall r m - r.S2 * HLLS_B wall r m)) / r.diffS := fun m => by
      unfold HLLS_F_star_L; rw [if_neg c1, if_neg c2]
    have hFR : ∀ m, HLLS_F_star_R wall r m
        = (r.S2 * r.FL m - r.S1 * r.FR m + r.S1 * r.S2 * (r.WR m - r.WL m)
          + r.S2 * (HLLS_S wall r m - r.S1 * HLLS_B wall r m)) / r.diffS := fun m => by
      unfold HLLS_F_star_R; rw [if_neg c1, if_neg c2]
    simp only [hFL, hFR, eFL1, eFL2, eFL3, eFL4, eFR1, eFR2, eFR3, eFR4, eWL1, eWL2, eWL3,
      eWL4, eWR1, eWR2, eWR3, eWR4, s1, s2, s3, s4', b1, b2, b3, b4, eS1, eS2, ed]
    refine ⟨⟨?_, ?_, ?_, ?_⟩, ?_, ?_, ?_, ?_⟩ <;> field_simp <;> ring
  · have c1 : r.S1 ≥ 0 := by rw [eS1]; linarith
    have hFL : ∀ m, HLLS_F_star_L wall r m = r.FL m := fun m => by
      unfold HLLS_F_star_L; rw [if_pos c1]
    have hFR : ∀ m, HLLS_F_star_R wall r m = r.FL m + HLLS_S wall r m := fun m => by
      unfold HLLS_F_star_R; rw [if_pos c1]
    rw [hFL, hFL, hFL, hFL, hFR, hFR, hFR, hFR, eFL1, eFL2, eFL3, eFL4, s1, s2, s3, s4']
    refine ⟨⟨rfl, rfl, rfl, rfl⟩, ?_, ?_, ?_, ?_⟩ <;> ring

/-- The rotated HLLS mass flux between two states at rest: zero when the Roe
sound speed is not positive, and otherwise the density jump less the
correction `B[0]`, times `-c_hat/2`, the same for both cells. -/
lemma HLLS_rest_mass (sqrt : K → K) (mt : Nat) (wall : Wall K) (r : Riemann K)
    (hr : r = HLLS_vars sqrt false mt wall)
    (hL : wall.UL 1 = 0 ∧ wall.UL 2 = 0 ∧ wall.UL 3 = 0)
    (hR : wall.UR 1 = 0 ∧ wall.UR 2 = 0 ∧ wall.UR 3 = 0) :
    HLLS_F_star_R wall r 0 = HLLS_F_star_L wall r 0
    ∧ HLLS_F_star_L wall r 0
      = if 0 < r.c_hat then
          -(r.c_hat / 2) * ((wall.UR 0 - wall.UL 0)
            - (wall.URe 0 - wall.ULe 0) * HLLS_S wall r 1 / (wall.pRe - wall.pLe + TOL14))
        else 0 := by
  obtain ⟨⟨eWL0, -⟩, ⟨eWR0, -⟩, ⟨eFL0, -⟩, ⟨eFR0, -⟩, -, ⟨eS1, eS2, ed⟩, -, -⟩ :=
    HLLS_vars_rest sqrt mt wall hL hR
  rw [← hr] at eWL0 eWR0 eFL0 eFR0 eS1 eS2 ed
  clear hr
  have s0 : HLLS_S wall r 0 = 0 := rfl
  have b0 : HLLS_B wall r 0
      = -((wall.URe 0 - wall.ULe 0) * r.c_hat * r.c_hat / (wall.pRe - wall.pLe + TOL14))
        * HLLS_S wall r 1 / (r.S1 * r.S2) := rfl
  by_cases hc : 0 < r.c_hat
  · have c1 : ¬ r.S1 ≥ 0 := by rw [eS1]; intro h; linarith
    have c2 : ¬ r.S2 ≤ 0 := by rw [eS2]; intro h; linarith
    have hc0 : r.c_hat ≠ 0 := ne_of_gt hc
    have hFL : HLLS_F_star_L wall r 0
        = (r.S2 * r.FL 0 - r.S1 * r.FR 0 + r.S1 * r.S2 * (r.WR 0 - r.WL 0)
          + r.S1 * (HLLS_S wall r 0 - r.S2 * HLLS_B wall r 0)) / r.diffS := by
      unfold HLLS_F_star_L; rw [if_neg c1, if_neg c2]
    have hFR : HLLS_F_star_R wall r 0
        = (r.S2 * r.FL 0 - r.S1 * r.FR 0 + r.S1 * r.S2 * (r.WR 0 - r.WL 0)
          + r.S2 * (HLLS_S wall r 0 - r.S1 * HLLS_B wall r 0)) / r.diffS := by
      unfold HLLS_F_star_R; rw [if_neg c1, if_neg c2]
    rw [hFL, hFR, if_pos hc, eFL0, eFR0, eWL0, eWR0, s0, b0, eS1, eS2, ed]
    constructor
    · field_simp
    · by_cases hp : wall.pRe - wall.pLe + TOL14 = 0
      · rw [hp]; simp only [div_zero]; field_simp; ring
      · field_simp
        ring
  · have c1 : r.S1 ≥ 0 := by rw [eS1]; linarith
    have hFL : HLLS_F_star_L wall r 0 = r.FL 0 := by
      unfold HLLS_F_star_L; rw [if_pos c1]
    have hFR : HLLS_F_star_R wall r 0 = r.FL 0 + HLLS_S wall r 0 := by
      unfold HLLS_F_star_R; rw [if_pos c1]
    rw [hFL, hFR, if_neg hc, eFL0, s0, add_zero]
    exact ⟨rfl, rfl⟩


/-- The fluxes that `compute_euler_HLLS` followed by `compute_transport` leave
on a wall between two states at rest whose source integral equals the
pressure jump: the momentum flux is the pressure of the own side along the
normal, the energy flux vanishes, and the two mass fluxes coincide. -/
lemma HLLS_wall_rest (sqrt : K → K) (hsq : ∀ x, 0 < sqrt x → sqrt x * sqrt x = x)
    (mt : Nat) (wall : Wall K) (lambda_max : K)
    (hL : wall.UL 1 = 0 ∧ wall.UL 2 = 0 ∧ wall.UL 3 = 0)
    (hR : wall.UR 1 = 0 ∧ wall.UR 2 = 0 ∧ wall.UR 3 = 0)
    (hS : HLLS_S wall (HLLS_vars sqrt false mt wall) 1
      = (gamma - 1) * wall.UR 4 - (gamma - 1) * wall.UL 4) :
    ((compute_transport false (compute_euler_HLLS sqrt false mt wall lambda_max).1).fL_star 1
        = (gamma - 1) * wall.UL 4 * wall.nx
      ∧ (compute_transport false (compute_euler_HLLS sqrt false mt wall lambda_max).1).fL_star 2
        = (gamma - 1) * wall.UL 4 * wall.ny
      ∧ (compute_transport false (compute_euler_HLLS sqrt false mt wall lambda_max).1).fL_star 3
        = (gamma - 1) * wall.UL 4 * wall.nz
      ∧ (compute_transport false (compute_euler_HLLS sqrt false mt wall lambda_max).1).fL_star 4
        = 0)
    ∧ ((compute_transport false (compute_euler_HLLS sqrt false mt wall lambda_max).1).fR_star 1
        = (gamma - 1) * wall.UR 4 * wall.nx
      ∧ (compute_transport false (compute_euler_HLLS sqrt false mt wall lambda_max).1).fR_star 2
        = (gamma - 1) * wall.UR 4 * wall.ny
      ∧ (compute_transport false (compute_euler_HLLS sqrt false mt wall lambda_max).1).fR_star 3
        = (gamma - 1) * wall.UR 4 * wall.nz
      ∧ (compute_transport false (compute_euler_HLLS sqrt false mt wall lambda_max).1).fR_star 4
        = 0)
    ∧ (compute_transport false (compute_euler_HLLS sqrt false mt wall lambda_max).1).fR_star 0
        = HLLS_F_star_L wall (HLLS_vars sqrt false mt wall) 0
    ∧ (compute_transport false (compute_euler_HLLS sqrt false mt wall lambda_max).1).fL_star 0
        = HLLS_F_star_L wall (HLLS_vars sqrt false mt wall) 0 := by
  obtain ⟨⟨l1, l2, l3, l4⟩, r1, r2, r3, r4⟩ :=
    HLLS_rest_star sqrt hsq mt wall _ rfl hL hR hS
  obtain ⟨m0, -⟩ := HLLS_rest_mass sqrt mt wall _ rfl hL hR
  have hfL : ∀ k, k ≠ 5 →
      (compute_transport false (compute_euler_HLLS sqrt false mt wall lambda_max).1).fL_star k
        = inverse_rotation wall.nx wall.ny wall.nz
            (HLLS_F_star_L wall (HLLS_vars sqrt false mt wall)) wall.fL_star k := by
    intro k hk
    simp only [compute_transport, compute_euler_HLLS, Bool.false_eq_true, if_false]
    rw [Function.update_noteq hk]
  have hfR : ∀ k, k ≠ 5 →
      (compute_transport false (compute_euler_HLLS sqrt false mt wall lambda_max).1).fR_star k
        = inverse_rotation wall.nx wall.ny wall.nz
            (HLLS_F_star_R wall (HLLS_vars sqrt false mt wall)) wall.fR_star k := by
    intro k hk
    simp only [compute_transport, compute_euler_HLLS, Bool.false_eq_true, if_false]
    rw [Function.update_noteq hk]
  refine ⟨⟨?_, ?_, ?_, ?_⟩, ⟨?_, ?_, ?_, ?_⟩, ?_, ?_⟩
  · rw [hfL 1 (by decide), inverse_rotation_1, l1, l2, l3]; ring
  · rw [hfL 2 (by decide), inverse_rotation_2, l1, l2]; ring
  · rw [hfL 3 (by decide), inverse_rotation_3, l1, l3]; ring
  · rw [hfL 4 (by decide), inverse_rotation_4, l4]
  · rw [hfR 1 (by decide), inverse_rotation_1, r1, r2, r3]; ring
  · rw [hfR 2 (by decide), inverse_rotation_2, r1, r2]; ring
  · rw [hfR 3 (by decide), inverse_rotation_3, r1, r3]; ring
  · rw [hfR 4 (by decide), inverse_rotation_4, r4]
  · rw [hfR 0 (by decide), inverse_rotation_0, m0]
  · rw [hfL 0 (by decide), inverse_rotation_0]

/-! ## Reconstruction of constant data -/

/-- Each of the six routines returns `v` on a stencil whose entries are all
`v`, for every reconstruction type. -/
lemma weno_const (typeRec : Nat) (phi : Nat → K) (v : K) :
    ((∀ i, i < 3 → phi i = v) → weno3R typeRec phi = v ∧ weno3L typeRec phi = v)
    ∧ ((∀ i, i < 5 → phi i = v) → weno5R typeRec phi = v ∧ weno5L typeRec phi = v)
    ∧ ((∀ i, i < 7 → phi i = v) → weno7R typeRec phi = v ∧ weno7L typeRec phi = v) := by
  refine ⟨fun h => ⟨?_, ?_⟩, fun h => ⟨?_, ?_⟩, fun h => ⟨?_, ?_⟩⟩
  · unfold weno3R
    simp only [h 0 (by norm_num), h 1 (by norm_num), h 2 (by norm_num)]
    linear_combination v * weno3R_weights_sum typeRec phi
  · unfold weno3L
    simp only [h 0 (by norm_num), h 1 (by norm_num), h 2 (by norm_num)]
    linear_combination v * weno3L_weights_sum typeRec phi
  · unfold weno5R weno5R_weights
    simp only [h 0 (by norm_num), h 1 (by norm_num), h 2 (by norm_num), h 3 (by norm_num),
      h 4 (by norm_num)]
    have hw : (weno5_weights (3 / 10 : K) (3 / 5) (1 / 10) typeRec phi).1
        + (weno5_weights (3 / 10 : K) (3 / 5) (1 / 10) typeRec phi).2.1
        + (weno5_weights (3 / 10 : K) (3 / 5) (1 / 10) typeRec phi).2.2 = 1 :=
      weno5_weights_sum (by norm_num) (by norm_num) (by norm_num) (by norm_num) typeRec phi
    linear_combination v * hw
  · unfold weno5L weno5L_weights
    simp only [h 0 (by norm_num), h 1 (by norm_num), h 2 (by norm_num), h 3 (by norm_num),
      h 4 (by norm_num)]
    have hw : (weno5_weights (1 / 10 : K) (3 / 5) (3 / 10) typeRec phi).1
        + (weno5_weights (1 / 10 : K) (3 / 5) (3 / 10) typeRec phi).2.1
        + (weno5_weights (1 / 10 : K) (3 / 5) (3 / 10) typeRec phi).2.2 = 1 :=
      weno5_weights_sum (by norm_num) (by norm_num) (by norm_num) (by norm_num) typeRec phi
    linear_combination v * hw
  · unfold weno7R weno7R_weights
    simp only [h 0 (by norm_num), h 1 (by norm_num), h 2 (by norm_num), h 3 (by norm_num),
      h 4 (by norm_num), h 5 (by norm_num), h 6 (by norm_num)]
    have hw : (weno7_weights (4 / 35 : K) (18 / 35) (12 / 35) (1 / 35) typeRec phi).1
        + (weno7_weights (4 / 35 : K) (18 / 35) (12 / 35) (1 / 35) typeRec phi).2.1
        + (weno7_weights (4 / 35 : K) (18 / 35) (12 / 35) (1 / 35) typeRec phi).2.2.1
        + (weno7_weights (4 / 35 : K) (18 / 35) (12 / 35) (1 / 35) typeRec phi).2.2.2 = 1 :=
      weno7_weights_sum (by norm_num) (by norm_num) (by norm_num) (by norm_num) (by norm_num)
        typeRec phi
    linear_combination v * hw
  · unfold weno7L weno7L_weights
    simp only [h 0 (by norm_num), h 1 (by norm_num), h 2 (by norm_num), h 3 (by norm_num),
      h 4 (by norm_num), h 5 (by norm_num), h 6 (by norm_num)]
    have hw : (weno7_weights (1 / 35 : K) (12 / 35) (18 / 35) (4 / 35) typeRec phi).1
        + (weno7_weights (1 / 35 : K) (12 / 35) (18 / 35) (4 / 35) typeRec phi).2.1
        + (weno7_weights (1 / 35 : K) (12 / 35) (18 / 35) (4 / 35) typeRec phi).2.2.1
        + (weno7_weights (1 / 35 : K) (12 / 35) (18 / 35) (4 / 35) typeRec phi).2.2.2 = 1 :=
      weno7_weights_sum (by norm_num) (by norm_num) (by norm_num) (by norm_num) (by norm_num)
        typeRec phi
    linear_combination v * hw


/-- A loop that assigns every entry below `n`. -/
lemma forLoop_assign {α : Type} (n : Nat) (v : Nat → α) (old : Nat → α) :
    forLoop n (fun k A => Function.update A k (v k)) old
      = fun k => if k < n then v k else old k :=
  forLoop_pointwise (fun i _ => v i) n old

/-- One reconstruction block, entry by entry. -/
lemma reconstruct_apply (w3 w5 w7 : (Nat → K) → K) (order : Int) (st : Nat → Int)
    (cell : Nat → Cell K) (field : Cell K → Nat → K) (own : Cell K) (nvar : Nat)
    (old : Nat → K) (k : Nat) (hk : k < nvar) :
    reconstruct w3 w5 w7 order st cell field own nvar old k
      = if order = 1 then field own k
        else if order = 3 then w3 (fun i => if i < 3 then field (cell (st i).toNat) k else 0)
        else if order = 5 then w5 (fun i => if i < 5 then field (cell (st i).toNat) k else 0)
        else if order = 7 then w7 (fun i => if i < 7 then field (cell (st i).toNat) k else 0)
        else old k := by
  unfold reconstruct
  split_ifs <;> simp only [forLoop_assign, hk, if_true]

/-- Reconstructions of two fields that agree on every cell agree. -/
lemma reconstruct_congr (w3 w5 w7 : (Nat → K) → K) (order : Int) (st : Nat → Int)
    (cell1 cell2 : Nat → Cell K) (f1 f2 : Cell K → Nat → K) (own1 own2 : Cell K) (nvar : Nat)
    (old1 old2 : Nat → K) (k : Nat) (hk : k < nvar)
    (ho : order = 1 ∨ order = 3 ∨ order = 5 ∨ order = 7)
    (hf : ∀ j, f1 (cell1 j) k = f2 (cell2 j) k) (hown : f1 own1 k = f2 own2 k) :
    reconstruct w3 w5 w7 order st cell1 f1 own1 nvar old1 k
      = reconstruct w3 w5 w7 order st cell2 f2 own2 nvar old2 k := by
  rw [reconstruct_apply _ _ _ _ _ _ _ _ _ _ k hk, reconstruct_apply _ _ _ _ _ _ _ _ _ _ k hk]
  simp only [hf, hown]
  rcases ho with h | h | h | h <;> subst h <;> simp

/-- The reconstruction of data equal to `v` on the stencil is `v`, for the
routines of either side. -/
lemma reconstruct_const (typeRec : Nat) (order : Int) (st : Nat → Int)
    (cell : Nat → Cell K) (field : Cell K → Nat → K) (own : Cell K) (nvar : Nat)
    (old : Nat → K) (k : Nat) (hk : k < nvar) (v : K)
    (ho : order = 1 ∨ order = 3 ∨ order = 5 ∨ order = 7)
    (hst : ∀ p : Nat, (p : Int) < order → field (cell (st p).toNat) k = v)
    (hown : field own k = v) :
    reconstruct (weno3R typeRec) (weno5R typeRec) (weno7R typeRec) order st cell field own nvar
        old k = v
    ∧ reconstruct (weno3L typeRec) (weno5L typeRec) (weno7L typeRec) order st cell field own nvar
        old k = v := by
  rw [reconstruct_apply _ _ _ _ _ _ _ _ _ _ k hk, reconstruct_apply _ _ _ _ _ _ _ _ _ _ k hk]
  rcases ho with h | h | h | h <;> subst h
  · simp [hown]
  · have hphi : ∀ i, i < 3 →
        (fun i => if i < 3 then field (cell (st i).toNat) k else 0) i = v := by
      intro i hi
      simp only [hi, if_true]
      exact hst i (by omega)
    obtain ⟨a, b⟩ := (weno_const typeRec _ v).1 hphi
    simp [a, b]
  · have hphi : ∀ i, i < 5 →
        (fun i => if i < 5 then field (cell (st i).toNat) k else 0) i = v := by
      intro i hi
      simp only [hi, if_true]
      exact hst i (by omega)
    obtain ⟨a, b⟩ := (weno_const typeRec _ v).2.1 hphi
    simp [a, b]
  · have hphi : ∀ i, i < 7 →
        (fun i => if i < 7 then field (cell (st i).toNat) k else 0) i = v := by
      intro i hi
      simp only [hi, if_true]
      exact hst i (by omega)
    obtain ⟨a, b⟩ := (weno_const typeRec _ v).2.2 hphi
    simp [a, b]

/-! ## The flux loop with the HLLS solver -/

/-- With only the HLLS solver compiled in, the body of the wall loop of
`compute_fluxes` on an interior wall: reconstruction, `compute_euler_HLLS`,
`compute_transport`. -/
lemma compute_fluxes_wall_interior (sqrt : K → K) (fl : Flags) (mesh : Mesh K) (sim : Sim K)
    (wall : Wall K) (lam : K)
    (hfl : fl.HLLE = false ∧ fl.HLLC = false ∧ fl.HLLS = true ∧ fl.LINEAR_TRANSPORT = false
      ∧ fl.MULTICOMPONENT = false)
    (hw : wall.wtype = 1) :
    compute_fluxes_wall sqrt fl mesh sim wall lam
      = some (compute_transport false
          (compute_euler_HLLS sqrt false fl.MULTI_TYPE
            (compute_fluxes_reconstruct fl mesh sim wall) 0).1,
          (compute_euler_HLLS sqrt false fl.MULTI_TYPE
            (compute_fluxes_reconstruct fl mesh sim wall) lam).2) := by
  obtain ⟨h1, h2, h3, h4, h5⟩ := hfl
  have hw0 : wall.wtype ≠ 0 := by rw [hw]; decide
  have hw' : (compute_fluxes_reconstruct fl mesh sim wall).wtype = 1 := hw
  unfold compute_fluxes_wall
  simp only [hw0, hw', h1, h2, h3, h4, h5, ne_eq, not_false_eq_true, if_true, if_false,
    Bool.false_eq_true, Option.map_some']
  rfl

/-- The body of the wall loop returns a wall that does not depend on the
running maximum, unless a boundary wall has `boundId` 999. -/
lemma compute_fluxes_wall_some (sqrt : K → K) (fl : Flags) (mesh : Mesh K) (sim : Sim K)
    (wall : Wall K)
    (hfl : fl.HLLE = false ∧ fl.HLLC = false ∧ fl.HLLS = true ∧ fl.LINEAR_TRANSPORT = false
      ∧ fl.MULTICOMPONENT = false)
    (hb : wall.wtype = 3 ∨ wall.wtype = 4 → wall.boundId ≠ 999) :
    ∃ W : Wall K, ∀ lam : K, ∃ lam' : K,
      compute_fluxes_wall sqrt fl mesh sim wall lam = some (W, lam') := by
  by_cases hw0 : wall.wtype = 0
  · exact ⟨wall, fun lam => ⟨lam, by simp [compute_fluxes_wall, hw0]⟩⟩
  by_cases hw1 : wall.wtype = 1
  · exact ⟨_, fun lam => ⟨_, compute_fluxes_wall_interior sqrt fl mesh sim wall lam hfl hw1⟩⟩
  have hr : (compute_fluxes_reconstruct fl mesh sim wall).wtype = wall.wtype := rfl
  have hrb : (compute_fluxes_reconstruct fl mesh sim wall).boundId = wall.boundId := rfl
  by_cases hw3 : wall.wtype = 3
  · have hb' := hb (Or.inl hw3)
    refine ⟨compute_transport fl.LINEAR_TRANSPORT (compute_transmissive_euler fl.MULTICOMPONENT
      fl.MULTI_TYPE (compute_fluxes_reconstruct fl mesh sim wall) wall.boundId), fun lam => ⟨lam, ?_⟩⟩
    unfold compute_fluxes_wall
    simp only [hw0, hr, hrb, hw1, hw3, hb', ne_eq, not_false_eq_true, if_true, if_false,
      Option.map_some']
    simp
  by_cases hw4 : wall.wtype = 4
  · have hb' := hb (Or.inr hw4)
    refine ⟨compute_transport fl.LINEAR_TRANSPORT (compute_solid_euler_hlle sqrt fl.ST
      (compute_fluxes_reconstruct fl mesh sim wall) 0 wall.boundId).1, fun lam =>
        ⟨(compute_solid_euler_hlle sqrt fl.ST
          (compute_fluxes_reconstruct fl mesh sim wall) lam wall.boundId).2, ?_⟩⟩
    unfold compute_fluxes_wall
    simp only [hw0, hr, hrb, hw1, hw3, hw4, hb', ne_eq, not_false_eq_true, if_true, if_false,
      Option.map_some']
    rfl
  · refine ⟨compute_transport fl.LINEAR_TRANSPORT (compute_fluxes_reconstruct fl mesh sim wall),
      fun lam => ⟨lam, ?_⟩⟩
    unfold compute_fluxes_wall
    simp only [hw0, hr, hw1, hw3, hw4, ne_eq, not_false_eq_true, if_true, if_false,
      Option.map_some']

/-- The wall loop of `compute_fluxes` when no wall makes it exit: the mesh it
returns has the cells of the argument and, on every wall, what the loop body
makes of that wall. -/
lemma compute_fluxes_walls (sqrt : K → K) (fl : Flags) (mesh : Mesh K) (sim : Sim K)
    (G : Nat → Wall K)
    (hG : ∀ j, j < mesh.nwalls → ∀ lam : K, ∃ lam' : K,
      compute_fluxes_wall sqrt fl mesh sim (mesh.wall j) lam = some (G j, lam')) :
    ∃ M2 : Mesh K, compute_fluxes sqrt fl mesh sim = some M2
      ∧ M2.cell = mesh.cell ∧ M2.ncells = mesh.ncells ∧ M2.nwalls = mesh.nwalls
      ∧ ∀ j, j < mesh.nwalls → M2.wall j = G j := by
  have key : ∀ n, n ≤ mesh.nwalls → ∃ lam : K,
      forLoop n
        (fun n (st : Option ((Nat → Wall K) × K)) =>
          st.bind (fun s =>
            (compute_fluxes_wall sqrt fl mesh sim (s.1 n) s.2).map
              (fun q => (Function.update s.1 n q.1, q.2))))
        (some (mesh.wall, 0))
      = some (fun j => if j < n then G j else mesh.wall j, lam) := by
    intro n
    induction n with
    | zero => intro _; exact ⟨0, by simp [forLoop]⟩
    | succ n ih =>
      intro hn
      obtain ⟨lam, hl⟩ := ih (by omega)
      obtain ⟨lam', hl'⟩ := hG n (by omega) lam
      refine ⟨lam', ?_⟩
      rw [forLoop_succ, hl]
      simp only [Option.some_bind, lt_self_iff_false, if_false, hl', Option.map_some']
      congr 1
      refine Prod.ext ?_ rfl
      funext j
      by_cases hj : j = n
      · subst hj; simp
      · simp only [Function.update_noteq hj]
        have : j < n + 1 ↔ j < n := by omega
        simp only [this]
  obtain ⟨lam, hl⟩ := key mesh.nwalls le_rfl
  refine ⟨{ mesh with wall := fun j => if j < mesh.nwalls then G j else mesh.wall j,
                      lambda_max := lam }, ?_, rfl, rfl, rfl, ?_⟩
  · unfold compute_fluxes
    simp only [hl, Option.map_some']
  · intro j hj
    simp only [hj, if_true]

/-! ## The equilibrium reconstruction -/

/-- The walls after `equilibrium_reconstruction`. -/
lemma equilibrium_reconstruction_wall_at (fl : Flags) (mesh : Mesh K) (sim : Sim K) (j : Nat) :
    (equilibrium_reconstruction fl mesh sim).wall j
      = if j < mesh.nwalls then equilibrium_reconstruction_wall fl mesh sim (mesh.wall j)
        else mesh.wall j := by
  unfold equilibrium_reconstruction
  simp only
  rw [forLoop_pointwise (fun _ w => equilibrium_reconstruction_wall fl mesh sim w)]

/-- The cells after `equilibrium_reconstruction`: only `S_corr[3]` changes. -/
lemma equilibrium_reconstruction_cell_at (fl : Flags) (mesh : Mesh K) (sim : Sim K) (i : Nat) :
    (equilibrium_reconstruction fl mesh sim).cell i
      = if i < mesh.ncells then
          (if (mesh.cell i).type ≠ 0 then
            { mesh.cell i with
              S_corr := Function.update (mesh.cell i).S_corr 3
                ((((equilibrium_reconstruction fl mesh sim).wall (mesh.cell i).w6).pLe
                  - ((equilibrium_reconstruction fl mesh sim).wall (mesh.cell i).w5).pRe)
                    / (mesh.cell i).dz + g * (mesh.cell i).Ue 0) }
           else mesh.cell i)
        else mesh.cell i := by
  unfold equilibrium_reconstruction
  simp only
  rw [forLoop_pointwise_if (fun c : Cell K => c.type ≠ 0)
    (fun c : Cell K => { c with
      S_corr := Function.update c.S_corr 3
        ((((forLoop mesh.nwalls
            (fun n w => Function.update w n (equilibrium_reconstruction_wall fl mesh sim (w n)))
            mesh.wall) c.w6).pLe
          - ((forLoop mesh.nwalls
            (fun n w => Function.update w n (equilibrium_reconstruction_wall fl mesh sim (w n)))
            mesh.wall) c.w5).pRe) / c.dz + g * c.Ue 0) })]

/-- Fields of a cell that `equilibrium_reconstruction` leaves alone. -/
lemma equilibrium_reconstruction_cell_fields (fl : Flags) (mesh : Mesh K) (sim : Sim K)
    (i : Nat) :
    let c := (equilibrium_reconstruction fl mesh sim).cell i
    c.U = (mesh.cell i).U ∧ c.Ue = (mesh.cell i).Ue ∧ c.S = (mesh.cell i).S
    ∧ c.type = (mesh.cell i).type ∧ c.ghost = (mesh.cell i).ghost
    ∧ (c.w1 = (mesh.cell i).w1 ∧ c.w2 = (mesh.cell i).w2 ∧ c.w3 = (mesh.cell i).w3
      ∧ c.w4 = (mesh.cell i).w4 ∧ c.w5 = (mesh.cell i).w5 ∧ c.w6 = (mesh.cell i).w6)
    ∧ (c.dx = (mesh.cell i).dx ∧ c.dy = (mesh.cell i).dy ∧ c.dz = (mesh.cell i).dz)
    ∧ (c.st_sizeX = (mesh.cell i).st_sizeX ∧ c.st_sizeY = (mesh.cell i).st_sizeY
      ∧ c.st_sizeZ = (mesh.cell i).st_sizeZ)
    ∧ (c.stX = (mesh.cell i).stX ∧ c.stY = (mesh.cell i).stY ∧ c.stZ = (mesh.cell i).stZ) := by
  intro c
  have hc : c = (equilibrium_reconstruction fl mesh sim).cell i := rfl
  rw [equilibrium_reconstruction_cell_at] at hc
  by_cases hi : i < mesh.ncells
  · by_cases ht : (mesh.cell i).type ≠ 0
    · rw [if_pos hi, if_pos ht] at hc
      rw [hc]
      exact ⟨rfl, rfl, rfl, rfl, rfl, ⟨rfl, rfl, rfl, rfl, rfl, rfl⟩, ⟨rfl, rfl, rfl⟩,
        ⟨rfl, rfl, rfl⟩, rfl, rfl, rfl⟩
    · rw [if_pos hi, if_neg ht] at hc
      rw [hc]
      exact ⟨rfl, rfl, rfl, rfl, rfl, ⟨rfl, rfl, rfl, rfl, rfl, rfl⟩, ⟨rfl, rfl, rfl⟩,
        ⟨rfl, rfl, rfl⟩, rfl, rfl, rfl⟩
  · rw [if_neg hi] at hc
    rw [hc]
    exact ⟨rfl, rfl, rfl, rfl, rfl, ⟨rfl, rfl, rfl, rfl, rfl, rfl⟩, ⟨rfl, rfl, rfl⟩,
      ⟨rfl, rfl, rfl⟩, rfl, rfl, rfl⟩

/-- The stencil a wall takes from a cell is the same before and after
`equilibrium_reconstruction`. -/
lemma equilibrium_reconstruction_stencil (fl : Flags) (mesh : Mesh K) (sim : Sim K)
    (w : Wall K) (w' : Wall K) (hx : w'.nx = w.nx) (hz : w'.nz = w.nz) (s : Nat) :
    wall_stencil w' ((equilibrium_reconstruction fl mesh sim).cell s)
      = wall_stencil w (mesh.cell s) := by
  obtain ⟨-, -, -, -, -, -, -, ⟨a1, a2, a3⟩, b1, b2, b3⟩ :=
    equilibrium_reconstruction_cell_fields fl mesh sim s
  unfold wall_stencil
  rw [hx, hz, a1, a2, a3, b1, b2, b3]


/-- The wall loop body of `equilibrium_reconstruction` on a wall that is not
of type 0. -/
lemma equilibrium_reconstruction_wall_fields (fl : Flags) (mesh : Mesh K) (sim : Sim K)
    (wall : Wall K) (hw : wall.wtype ≠ 0) :
    let W := equilibrium_reconstruction_wall fl mesh sim wall
    W.URe = reconstruct (weno3R fl.TYPE_REC) (weno5R fl.TYPE_REC) (weno7R fl.TYPE_REC)
        (wall_stencil wall (mesh.cell wall.cellR)).1 (wall_stencil wall (mesh.cell wall.cellR)).2
        mesh.cell Cell.Ue (mesh.cell wall.cellR) sim.nvar wall.URe
    ∧ W.ULe = reconstruct (weno3L fl.TYPE_REC) (weno5L fl.TYPE_REC) (weno7L fl.TYPE_REC)
        (wall_stencil wall (mesh.cell wall.cellL)).1 (wall_stencil wall (mesh.cell wall.cellL)).2
        mesh.cell Cell.Ue (mesh.cell wall.cellL) sim.nvar wall.ULe
    ∧ W.pLe = pressure_from_energy fl.ST gamma (W.ULe 4) (W.ULe 1 / W.ULe 0)
        (W.ULe 2 / W.ULe 0) (W.ULe 3 / W.ULe 0) (W.ULe 0) wall.z
    ∧ W.pRe = pressure_from_energy fl.ST gamma (W.URe 4) (W.URe 1 / W.URe 0)
        (W.URe 2 / W.URe 0) (W.URe 3 / W.URe 0) (W.URe 0) wall.z
    ∧ (W.cellL = wall.cellL ∧ W.cellR = wall.cellR ∧ W.nx = wall.nx ∧ W.ny = wall.ny
      ∧ W.nz = wall.nz ∧ W.wtype = wall.wtype ∧ W.boundId = wall.boundId) := by
  intro W
  have hW : W = equilibrium_reconstruction_wall fl mesh sim wall := rfl
  unfold equilibrium_reconstruction_wall at hW
  rw [if_pos hw] at hW
  rw [hW]
  exact ⟨rfl, rfl, rfl, rfl, rfl, rfl, rfl, rfl, rfl, rfl, rfl⟩

/-- The states at a wall when `compute_fluxes` follows
`equilibrium_reconstruction` on cells at rest with `U = Ue` (source mode 1):
the reconstructed momenta vanish, the reconstructed state equals the
reconstructed equilibrium state, and the equilibrium pressures are
`(gamma - 1) E` of the reconstructed energies. -/
lemma balanced_wall_states (fl : Flags) (M0 : Mesh K) (sim : Sim K) (j : Nat)
    (hj : j < M0.nwalls) (hw : (M0.wall j).wtype ≠ 0) (hST : fl.ST = 1) (hn : 5 ≤ sim.nvar)
    (hU : ∀ c k, (M0.cell c).U k = (M0.cell c).Ue k)
    (hrest : ∀ c, (M0.cell c).U 1 = 0 ∧ (M0.cell c).U 2 = 0 ∧ (M0.cell c).U 3 = 0)
    (hoR : (wall_stencil (M0.wall j) (M0.cell (M0.wall j).cellR)).1 = 1
      ∨ (wall_stencil (M0.wall j) (M0.cell (M0.wall j).cellR)).1 = 3
      ∨ (wall_stencil (M0.wall j) (M0.cell (M0.wall j).cellR)).1 = 5
      ∨ (wall_stencil (M0.wall j) (M0.cell (M0.wall j).cellR)).1 = 7)
    (hoL : (wall_stencil (M0.wall j) (M0.cell (M0.wall j).cellL)).1 = 1
      ∨ (wall_stencil (M0.wall j) (M0.cell (M0.wall j).cellL)).1 = 3
      ∨ (wall_stencil (M0.wall j) (M0.cell (M0.wall j).cellL)).1 = 5
      ∨ (wall_stencil (M0.wall j) (M0.cell (M0.wall j).cellL)).1 = 7) :
    let M1 := equilibrium_reconstruction fl M0 sim
    let W := compute_fluxes_reconstruct fl M1 sim (M1.wall j)
    (W.UL 1 = 0 ∧ W.UL 2 = 0 ∧ W.UL 3 = 0) ∧ (W.UR 1 = 0 ∧ W.UR 2 = 0 ∧ W.UR 3 = 0)
    ∧ (W.ULe 0 = W.UL 0 ∧ W.URe 0 = W.UR 0)
    ∧ (W.pLe = (gamma - 1) * W.UL 4 ∧ W.pRe = (gamma - 1) * W.UR 4)
    ∧ ((M1.wall j).pLe = W.pLe ∧ (M1.wall j).pRe = W.pRe)
    ∧ (W.nx = (M0.wall j).nx ∧ W.ny = (M0.wall j).ny ∧ W.nz = (M0.wall j).nz)
    ∧ (∀ k, k < sim.nvar → ∀ old,
        W.UL k = reconstruct (weno3L fl.TYPE_REC) (weno5L fl.TYPE_REC) (weno7L fl.TYPE_REC)
          (wall_stencil (M0.wall j) (M0.cell (M0.wall j).cellL)).1
          (wall_stencil (M0.wall j) (M0.cell (M0.wall j).cellL)).2
          M0.cell Cell.U (M0.cell (M0.wall j).cellL) sim.nvar old k)
    ∧ (∀ k, k < sim.nvar → ∀ old,
        W.UR k = reconstruct (weno3R fl.TYPE_REC) (weno5R fl.TYPE_REC) (weno7R fl.TYPE_REC)
          (wall_stencil (M0.wall j) (M0.cell (M0.wall j).cellR)).1
          (wall_stencil (M0.wall j) (M0.cell (M0.wall j).cellR)).2
          M0.cell Cell.U (M0.cell (M0.wall j).cellR) sim.nvar old k) := by
  intro M1 W
  have hM1 : M1.wall j = equilibrium_reconstruction_wall fl M0 sim (M0.wall j) := by
    show (equilibrium_reconstruction fl M0 sim).wall j = _
    rw [equilibrium_reconstruction_wall_at, if_pos hj]
  obtain ⟨eURe, eULe, epLe, epRe, ecL, ecR, enx, eny, enz, ewt, -⟩ :=
    equilibrium_reconstruction_wall_fields fl M0 sim (M0.wall j) hw
  rw [← hM1] at eURe eULe epLe epRe ecL ecR enx eny enz ewt
  have hcell : ∀ c, (M1.cell c).U = (M0.cell c).U :=
    fun c => (equilibrium_reconstruction_cell_fields fl M0 sim c).1
  -- the reconstructed states
  have hUL : ∀ k, k < sim.nvar → ∀ old,
      W.UL k = reconstruct (weno3L fl.TYPE_REC) (weno5L fl.TYPE_REC) (weno7L fl.TYPE_REC)
          (wall_stencil (M0.wall j) (M0.cell (M0.wall j).cellL)).1
          (wall_stencil (M0.wall j) (M0.cell (M0.wall j).cellL)).2
          M0.cell Cell.U (M0.cell (M0.wall j).cellL) sim.nvar old k := by
    intro k hk old
    show reconstruct (weno3L fl.TYPE_REC) (weno5L fl.TYPE_REC) (weno7L fl.TYPE_REC)
        (wall_stencil (M1.wall j) (M1.cell (M1.wall j).cellL)).1
        (wall_stencil (M1.wall j) (M1.cell (M1.wall j).cellL)).2
        M1.cell Cell.U (M1.cell (M1.wall j).cellL) sim.nvar (M1.wall j).UL k = _
    rw [equilibrium_reconstruction_stencil fl M0 sim (M0.wall j) (M1.wall j) enx enz, ecL]
    exact reconstruct_congr _ _ _ _ _ _ _ _ _ _ _ _ _ _ k hk hoL
      (fun c => by rw [hcell c]) (by rw [hcell])
  have hUR : ∀ k, k < sim.nvar → ∀ old,
      W.UR k = reconstruct (weno3R fl.TYPE_REC) (weno5R fl.TYPE_REC) (weno7R fl.TYPE_REC)
          (wall_stencil (M0.wall j) (M0.cell (M0.wall j).cellR)).1
          (wall_stencil (M0.wall j) (M0.cell (M0.wall j).cellR)).2
          M0.cell Cell.U (M0.cell (M0.wall j).cellR) sim.nvar old k := by
    intro k hk old
    show reconstruct (weno3R fl.TYPE_REC) (weno5R fl.TYPE_REC) (weno7R fl.TYPE_REC)
        (wall_stencil (M1.wall j) (M1.cell (M1.wall j).cellR)).1
        (wall_stencil (M1.wall j) (M1.cell (M1.wall j).cellR)).2
        M1.cell Cell.U (M1.cell (M1.wall j).cellR) sim.nvar (M1.wall j).UR k = _
    rw [equilibrium_reconstruction_stencil fl M0 sim (M0.wall j) (M1.wall j) enx enz, ecR]
    exact reconstruct_congr _ _ _ _ _ _ _ _ _ _ _ _ _ _ k hk hoR
      (fun c => by rw [hcell c]) (by rw [hcell])
  -- the equilibrium states are the same reconstructions
  have hULe : ∀ k, k < sim.nvar → W.ULe k = W.UL k := by
    intro k hk
    rw [hUL k hk (M0.wall j).ULe]
    show (M1.wall j).ULe k = _
    rw [eULe]
    exact reconstruct_congr _ _ _ _ _ _ _ _ _ _ _ _ _ _ k hk hoL
      (fun c => (hU c k).symm) (hU _ k).symm
  have hURe : ∀ k, k < sim.nvar → W.URe k = W.UR k := by
    intro k hk
    rw [hUR k hk (M0.wall j).URe]
    show (M1.wall j).URe k = _
    rw [eURe]
    exact reconstruct_congr _ _ _ _ _ _ _ _ _ _ _ _ _ _ k hk hoR
      (fun c => (hU c k).symm) (hU _ k).symm
  -- zero momenta
  have zL : ∀ k, (k = 1 ∨ k = 2 ∨ k = 3) → W.UL k = 0 := by
    intro k hk
    have hk' : k < sim.nvar := by omega
    rw [hUL k hk' (fun _ => 0)]
    refine (reconstruct_const fl.TYPE_REC _ _ _ _ _ _ _ k hk' 0 hoL (fun p _ => ?_) ?_).2
    · rcases hk with h | h | h <;> subst h
      · exact (hrest _).1
      · exact (hrest _).2.1
      · exact (hrest _).2.2
    · rcases hk with h | h | h <;> subst h
      · exact (hrest _).1
      · exact (hrest _).2.1
      · exact (hrest _).2.2
  have zR : ∀ k, (k = 1 ∨ k = 2 ∨ k = 3) → W.UR k = 0 := by
    intro k hk
    have hk' : k < sim.nvar := by omega
    rw [hUR k hk' (fun _ => 0)]
    refine (reconstruct_const fl.TYPE_REC _ _ _ _ _ _ _ k hk' 0 hoR (fun p _ => ?_) ?_).1
    · rcases hk with h | h | h <;> subst h
      · exact (hrest _).1
      · exact (hrest _).2.1
      · exact (hrest _).2.2
    · rcases hk with h | h | h <;> subst h
      · exact (hrest _).1
      · exact (hrest _).2.1
      · exact (hrest _).2.2
  have pL : W.pLe = (gamma - 1) * W.UL 4 := by
    show (M1.wall j).pLe = _
    rw [epLe, ← hULe 4 (by omega)]
    have e1 : (M1.wall j).ULe 1 = 0 := by
      have := hULe 1 (by omega); rw [zL 1 (Or.inl rfl)] at this; exact this
    have e2 : (M1.wall j).ULe 2 = 0 := by
      have := hULe 2 (by omega); rw [zL 2 (Or.inr (Or.inl rfl))] at this; exact this
    have e3 : (M1.wall j).ULe 3 = 0 := by
      have := hULe 3 (by omega); rw [zL 3 (Or.inr (Or.inr rfl))] at this; exact this
    show pressure_from_energy fl.ST gamma ((M1.wall j).ULe 4) _ _ _ _ _ = (gamma - 1) * (M1.wall j).ULe 4
    rw [e1, e2, e3, hST]
    simp [pressure_from_energy]
  have pR : W.pRe = (gamma - 1) * W.UR 4 := by
    show (M1.wall j).pRe = _
    rw [epRe, ← hURe 4 (by omega)]
    have e1 : (M1.wall j).URe 1 = 0 := by
      have := hURe 1 (by omega); rw [zR 1 (Or.inl rfl)] at this; exact this
    have e2 : (M1.wall j).URe 2 = 0 := by
      have := hURe 2 (by omega); rw [zR 2 (Or.inr (Or.inl rfl))] at this; exact this
    have e3 : (M1.wall j).URe 3 = 0 := by
      have := hURe 3 (by omega); rw [zR 3 (Or.inr (Or.inr rfl))] at this; exact this
    show pressure_from_energy fl.ST gamma ((M1.wall j).URe 4) _ _ _ _ _ = (gamma - 1) * (M1.wall j).URe 4
    rw [e1, e2, e3, hST]
    simp [pressure_from_energy]
  exact ⟨⟨zL 1 (Or.inl rfl), zL 2 (Or.inr (Or.inl rfl)), zL 3 (Or.inr (Or.inr rfl))⟩,
    ⟨zR 1 (Or.inl rfl), zR 2 (Or.inr (Or.inl rfl)), zR 3 (Or.inr (Or.inr rfl))⟩,
    ⟨hULe 0 (by omega), hURe 0 (by omega)⟩, ⟨pL, pR⟩, ⟨rfl, rfl⟩, ⟨enx, eny, enz⟩, hUL, hUR⟩

/-! ## The first stage on a mesh in equilibrium -/

/-- The cells after `compute_source` in source mode 1. -/
lemma compute_source_cell_at (mesh : Mesh K) (i : Nat) :
    (compute_source 1 mesh).cell i
      = if i < mesh.ncells then
          (if (mesh.cell i).type ≠ 0 ∧ (mesh.cell i).st_sizeZ > 1 then
            { mesh.cell i with
              S := Function.update
                (Function.update (mesh.cell i).S 3
                  (-g * (mesh.cell i).U 0 + (mesh.cell i).S_corr 3))
                4 (-g * (mesh.cell i).U 3) }
           else mesh.cell i)
        else mesh.cell i := by
  unfold compute_source
  simp only [if_true]
  rw [forLoop_pointwise_if (fun c : Cell K => c.type ≠ 0 ∧ c.st_sizeZ > 1)
    (fun c : Cell K => { c with
      S := Function.update (Function.update c.S 3 (-g * c.U 0 + c.S_corr 3)) 4 (-g * c.U 3) })]

/-- The flux difference across a cell reads only its six walls. -/
lemma flux_divergence_congr (wall wall' : Nat → Wall K) (c : Cell K) (k : Nat)
    (h : ∀ j, (j = c.w1 ∨ j = c.w2 ∨ j = c.w3 ∨ j = c.w4 ∨ j = c.w5 ∨ j = c.w6) →
      wall j = wall' j) :
    flux_divergence wall c k = flux_divergence wall' c k := by
  unfold flux_divergence
  rw [h c.w1 (Or.inl rfl), h c.w2 (Or.inr (Or.inl rfl)), h c.w3 (Or.inr (Or.inr (Or.inl rfl))),
    h c.w4 (Or.inr (Or.inr (Or.inr (Or.inl rfl)))),
    h c.w5 (Or.inr (Or.inr (Or.inr (Or.inr (Or.inl rfl))))),
    h c.w6 (Or.inr (Or.inr (Or.inr (Or.inr (Or.inr rfl)))))]

/-- The first stage with only the HLLS solver compiled in, for an integrated
cell whose six walls are interior walls: it returns a mesh, in which the
state of the cell is the old one less `dt` times the flux difference of the
HLLS fluxes at the reconstructed wall states, less the source. -/
lemma first_stage_cell (sqrt : K → K) (fl : Flags) (M0 : Mesh K) (sim : Sim K) (i : Nat)
    (hfl : fl.ST = 1 ∧ fl.HLLE = false ∧ fl.HLLC = false ∧ fl.HLLS = true
      ∧ fl.LINEAR_TRANSPORT = false ∧ fl.MULTICOMPONENT = false)
    (hb : ∀ j, j < M0.nwalls → (M0.wall j).wtype = 3 ∨ (M0.wall j).wtype = 4 →
      (M0.wall j).boundId ≠ 999)
    (hi : i < M0.ncells) (hint : (M0.cell i).type ≠ 0 ∧ (M0.cell i).ghost ≠ 1)
    (hwalls : ∀ j, (j = (M0.cell i).w1 ∨ j = (M0.cell i).w2 ∨ j = (M0.cell i).w3
        ∨ j = (M0.cell i).w4 ∨ j = (M0.cell i).w5 ∨ j = (M0.cell i).w6) →
      j < M0.nwalls ∧ (M0.wall j).wtype = 1) :
    ∃ M4 : Mesh K, first_stage sqrt fl M0 sim = some M4
      ∧ ∀ k, k < sim.nvar →
        (M4.cell i).U k = (M0.cell i).U k - sim.dt *
          (flux_divergence
            (fun j => compute_transport false (compute_euler_HLLS sqrt false fl.MULTI_TYPE
              (compute_fluxes_reconstruct fl (equilibrium_reconstruction fl M0 sim) sim
                ((equilibrium_reconstruction fl M0 sim).wall j)) 0).1)
            (M0.cell i) k
          - ((compute_source 1 (equilibrium_reconstruction fl M0 sim)).cell i).S k) := by
  obtain ⟨hST, hfl'⟩ := hfl
  have hnw : (equilibrium_reconstruction fl M0 sim).nwalls = M0.nwalls := rfl
  have hnc : (equilibrium_reconstruction fl M0 sim).ncells = M0.ncells := rfl
  -- every wall gives a result
  have hsome : ∀ j, j < (equilibrium_reconstruction fl M0 sim).nwalls →
      ∃ W : Wall K, ∀ lam : K, ∃ lam' : K,
        compute_fluxes_wall sqrt fl (equilibrium_reconstruction fl M0 sim) sim
          ((equilibrium_reconstruction fl M0 sim).wall j) lam = some (W, lam') := by
    intro j hj
    have hj' : j < M0.nwalls := hj
    apply compute_fluxes_wall_some sqrt fl _ sim _ hfl'
    rw [equilibrium_reconstruction_wall_at, if_pos hj']
    by_cases hw : (M0.wall j).wtype = 0
    · have : equilibrium_reconstruction_wall fl M0 sim (M0.wall j) = M0.wall j := by
        unfold equilibrium_reconstruction_wall
        rw [if_neg (by rw [hw]; simp)]
      rw [this]
      exact hb j hj'
    · obtain ⟨-, -, -, -, -, -, -, -, -, ewt, ebd⟩ :=
        equilibrium_reconstruction_wall_fields fl M0 sim (M0.wall j) hw
      rw [ewt, ebd]
      exact hb j hj'
  choose G hG using hsome
  obtain ⟨M2, hM2, hcell, hncells, -, hwall⟩ :=
    compute_fluxes_walls sqrt fl (equilibrium_reconstruction fl M0 sim) sim
      (fun j => if h : j < (equilibrium_reconstruction fl M0 sim).nwalls then G j h
        else (equilibrium_reconstruction fl M0 sim).wall j)
      (fun j hj lam => by
        obtain ⟨lam', hl⟩ := hG j hj lam
        exact ⟨lam', by simp only [dif_pos hj]; exact hl⟩)
  -- the six walls of the cell
  have hsix : ∀ j, (j = (M0.cell i).w1 ∨ j = (M0.cell i).w2 ∨ j = (M0.cell i).w3
        ∨ j = (M0.cell i).w4 ∨ j = (M0.cell i).w5 ∨ j = (M0.cell i).w6) →
      M2.wall j = compute_transport false (compute_euler_HLLS sqrt false fl.MULTI_TYPE
        (compute_fluxes_reconstruct fl (equilibrium_reconstruction fl M0 sim) sim
          ((equilibrium_reconstruction fl M0 sim).wall j)) 0).1 := by
    intro j hj
    obtain ⟨hjn, hjw⟩ := hwalls j hj
    rw [hwall j hjn, dif_pos (by rw [hnw]; exact hjn)]
    obtain ⟨lam', hl⟩ := hG j (by rw [hnw]; exact hjn) 0
    have hw1 : ((equilibrium_reconstruction fl M0 sim).wall j).wtype = 1 := by
      rw [equilibrium_reconstruction_wall_at, if_pos hjn]
      obtain ⟨-, -, -, -, -, -, -, -, -, ewt, -⟩ :=
        equilibrium_reconstruction_wall_fields fl M0 sim (M0.wall j) (by rw [hjw]; decide)
      rw [ewt, hjw]
    rw [compute_fluxes_wall_interior sqrt fl _ sim _ 0 hfl' hw1] at hl
    exact (congrArg Prod.fst (Option.some.inj hl)).symm
  -- the cells
  obtain ⟨eU, -, -, ety, egh, ⟨e1, e2, e3, e4, e5, e6⟩, ⟨ex, ey, ez⟩, -⟩ :=
    equilibrium_reconstruction_cell_fields fl M0 sim i
  have hsrc : (compute_source 1 M2).cell i
      = (compute_source 1 (equilibrium_reconstruction fl M0 sim)).cell i := by
    rw [compute_source_cell_at, compute_source_cell_at, hcell, hncells]
  refine ⟨update_cellK1 (compute_source fl.ST M2) sim, ?_, ?_⟩
  · unfold first_stage
    rw [hM2]
    rfl
  · intro k hk
    rw [hST]
    have h3 := update_cellK1_cell (compute_source 1 M2) sim i
    have hn3 : (compute_source 1 M2).ncells = M0.ncells := by
      show M2.ncells = _
      rw [hncells, hnc]
    rw [hn3, if_pos hi, hsrc] at h3
    -- fields of the cell after `compute_source`
    have hc3 : ∀ c' : Cell K,
        c' = (compute_source 1 (equilibrium_reconstruction fl M0 sim)).cell i →
        c'.U = (M0.cell i).U ∧ c'.type = (M0.cell i).type ∧ c'.ghost = (M0.cell i).ghost
        ∧ c'.w1 = (M0.cell i).w1 ∧ c'.w2 = (M0.cell i).w2 ∧ c'.w3 = (M0.cell i).w3
        ∧ c'.w4 = (M0.cell i).w4 ∧ c'.w5 = (M0.cell i).w5 ∧ c'.w6 = (M0.cell i).w6
        ∧ c'.dx = (M0.cell i).dx ∧ c'.dy = (M0.cell i).dy ∧ c'.dz = (M0.cell i).dz := by
      intro c' hc'
      rw [compute_source_cell_at] at hc'
      rw [hnc, if_pos hi] at hc'
      by_cases hp : ((equilibrium_reconstruction fl M0 sim).cell i).type ≠ 0
          ∧ ((equilibrium_reconstruction fl M0 sim).cell i).st_sizeZ > 1
      · rw [if_pos hp] at hc'
        rw [hc']
        exact ⟨eU, ety, egh, e1, e2, e3, e4, e5, e6, ex, ey, ez⟩
      · rw [if_neg hp] at hc'
        rw [hc']
        exact ⟨eU, ety, egh, e1, e2, e3, e4, e5, e6, ex, ey, ez⟩
    obtain ⟨cU, cty, cgh, c1, c2, c3, c4, c5, c6, cx, cy, cz⟩ := hc3 _ rfl
    rw [if_pos (by rw [cty, cgh]; exact hint)] at h3
    rw [h3]
    simp only [hk, if_true]
    rw [cU]
    congr 3
    have hfd : ∀ (wall : Nat → Wall K) (c c' : Cell K),
        c'.w1 = c.w1 → c'.w2 = c.w2 → c'.w3 = c.w3 → c'.w4 = c.w4 → c'.w5 = c.w5 → c'.w6 = c.w6 →
        c'.dx = c.dx → c'.dy = c.dy → c'.dz = c.dz →
        flux_divergence wall c' k = flux_divergence wall c k := by
      intro wall c c' a1 a2 a3 a4 a5 a6 ax ay az
      unfold flux_divergence
      rw [a1, a2, a3, a4, a5, a6, ax, ay, az]
    rw [hfd _ (M0.cell i) _ c1 c2 c3 c4 c5 c6 cx cy cz]
    exact flux_divergence_congr _ _ _ k hsix

/-- The fluxes the first stage leaves on an interior wall of a mesh at rest in
equilibrium; `hcase` distinguishes a z-wall with positive reconstructed
densities from a lateral wall with equal reconstructed energies. -/
lemma balanced_wall_fluxes (sqrt : K → K) (hsq : ∀ x, 0 < sqrt x → sqrt x * sqrt x = x)
    (fl : Flags) (M0 : Mesh K) (sim : Sim K) (j : Nat)
    (hj : j < M0.nwalls) (hw : (M0.wall j).wtype = 1) (hST : fl.ST = 1) (hn : 5 ≤ sim.nvar)
    (hU : ∀ c k, (M0.cell c).U k = (M0.cell c).Ue k)
    (hrest : ∀ c, (M0.cell c).U 1 = 0 ∧ (M0.cell c).U 2 = 0 ∧ (M0.cell c).U 3 = 0)
    (hoR : (wall_stencil (M0.wall j) (M0.cell (M0.wall j).cellR)).1 = 1
      ∨ (wall_stencil (M0.wall j) (M0.cell (M0.wall j).cellR)).1 = 3
      ∨ (wall_stencil (M0.wall j) (M0.cell (M0.wall j).cellR)).1 = 5
      ∨ (wall_stencil (M0.wall j) (M0.cell (M0.wall j).cellR)).1 = 7)
    (hoL : (wall_stencil (M0.wall j) (M0.cell (M0.wall j).cellL)).1 = 1
      ∨ (wall_stencil (M0.wall j) (M0.cell (M0.wall j).cellL)).1 = 3
      ∨ (wall_stencil (M0.wall j) (M0.cell (M0.wall j).cellL)).1 = 5
      ∨ (wall_stencil (M0.wall j) (M0.cell (M0.wall j).cellL)).1 = 7)
    (W : Wall K)
    (hW : W = compute_fluxes_reconstruct fl (equilibrium_reconstruction fl M0 sim) sim
      ((equilibrium_reconstruction fl M0 sim).wall j))
    (hcase : ((M0.wall j).nz = 1
        ∧ 0 < ((equilibrium_reconstruction fl M0 sim).wall j).ULe 0
        ∧ 0 < ((equilibrium_reconstruction fl M0 sim).wall j).URe 0)
      ∨ ((M0.wall j).nz = 0 ∧ W.UL 4 = W.UR 4)) :
    ((compute_transport false (compute_euler_HLLS sqrt false fl.MULTI_TYPE W 0).1).fL_star 1
        = (gamma - 1) * W.UL 4 * (M0.wall j).nx
      ∧ (compute_transport false (compute_euler_HLLS sqrt false fl.MULTI_TYPE W 0).1).fL_star 2
        = (gamma - 1) * W.UL 4 * (M0.wall j).ny
      ∧ (compute_transport false (compute_euler_HLLS sqrt false fl.MULTI_TYPE W 0).1).fL_star 3
        = (gamma - 1) * W.UL 4 * (M0.wall j).nz
      ∧ (compute_transport false (compute_euler_HLLS sqrt false fl.MULTI_TYPE W 0).1).fL_star 4
        = 0)
    ∧ ((compute_transport false (compute_euler_HLLS sqrt false fl.MULTI_TYPE W 0).1).fR_star 1
        = (gamma - 1) * W.UR 4 * (M0.wall j).nx
      ∧ (compute_transport false (compute_euler_HLLS sqrt false fl.MULTI_TYPE W 0).1).fR_star 2
        = (gamma - 1) * W.UR 4 * (M0.wall j).ny
      ∧ (compute_transport false (compute_euler_HLLS sqrt false fl.MULTI_TYPE W 0).1).fR_star 3
        = (gamma - 1) * W.UR 4 * (M0.wall j).nz
      ∧ (compute_transport false (compute_euler_HLLS sqrt false fl.MULTI_TYPE W 0).1).fR_star 4
        = 0)
    ∧ (compute_transport false (compute_euler_HLLS sqrt false fl.MULTI_TYPE W 0).1).fR_star 0
        = HLLS_F_star_L W (HLLS_vars sqrt false fl.MULTI_TYPE W) 0
    ∧ (compute_transport false (compute_euler_HLLS sqrt false fl.MULTI_TYPE W 0).1).fL_star 0
        = HLLS_F_star_L W (HLLS_vars sqrt false fl.MULTI_TYPE W) 0
    ∧ ((equilibrium_reconstruction fl M0 sim).wall j).pLe = (gamma - 1) * W.UL 4
    ∧ ((equilibrium_reconstruction fl M0 sim).wall j).pRe = (gamma - 1) * W.UR 4 := by
  obtain ⟨zL, zR, ⟨eL0, eR0⟩, ⟨pL, pR⟩, ⟨qL, qR⟩, ⟨enx, eny, enz⟩, -, -⟩ :=
    balanced_wall_states fl M0 sim j hj (by rw [hw]; decide) hST hn hU hrest hoR hoL
  rw [← hW] at zL zR eL0 eR0 pL pR qL qR enx eny enz
  have hS : HLLS_S W (HLLS_vars sqrt false fl.MULTI_TYPE W) 1
      = (gamma - 1) * W.UR 4 - (gamma - 1) * W.UL 4 := by
    obtain ⟨-, s1, -⟩ := HLLS_S_values W (HLLS_vars sqrt false fl.MULTI_TYPE W)
    rw [s1]
    have hWR0 : (HLLS_vars sqrt false fl.MULTI_TYPE W).WR 0 = W.UR 0 := rfl
    have hWL0 : (HLLS_vars sqrt false fl.MULTI_TYPE W).WL 0 = W.UL 0 := rfl
    rcases hcase with ⟨hz, hl, hr⟩ | ⟨hz, he⟩
    · have habs : ABS W.nz > (TOL14 : K) := by
        rw [enz, hz]; simp only [ABS]; norm_num; exact TOL14_lt_one
      have hWL : W.ULe = ((equilibrium_reconstruction fl M0 sim).wall j).ULe := by
        rw [hW]; rfl
      have hWR : W.URe = ((equilibrium_reconstruction fl M0 sim).wall j).URe := by
        rw [hW]; rfl
      have hl' : 0 < W.UL 0 := by rw [← eL0, hWL]; exact hl
      have hr' : 0 < W.UR 0 := by rw [← eR0, hWR]; exact hr
      have hne : W.UR 0 + W.UL 0 ≠ 0 := ne_of_gt (add_pos hr' hl')
      rw [if_pos habs, hWR0, hWL0, eL0, eR0, pL, pR]
      field_simp
    · have habs : ¬ ABS W.nz > (TOL14 : K) := by
        rw [enz, hz]; simp only [ABS]; norm_num; exact TOL14_pos.le
      rw [if_neg habs, he]; ring
  obtain ⟨⟨a1, a2, a3, a4⟩, ⟨b1, b2, b3, b4⟩, m1, m2⟩ :=
    HLLS_wall_rest sqrt hsq fl.MULTI_TYPE W 0 zL zR hS
  rw [enx] at a1 b1
  rw [eny] at a2 b2
  rw [enz] at a3 b3
  exact ⟨⟨a1, a2, a3, a4⟩, ⟨b1, b2, b3, b4⟩, m1, m2, by rw [qL, pL], by rw [qR, pR]⟩


/-- The HLLS mass flux on an interior wall of a mesh at rest in equilibrium:
with the density jump `d` and the pressure jump `q` of the reconstructed
states it is `-(c_hat/2) (d - d q / (q + TOL14))` when the Roe sound speed
`c_hat` is positive, and zero otherwise. -/
lemma balanced_wall_mass (sqrt : K → K) (fl : Flags) (M0 : Mesh K) (sim : Sim K) (j : Nat)
    (hj : j < M0.nwalls) (hw : (M0.wall j).wtype = 1) (hST : fl.ST = 1) (hn : 5 ≤ sim.nvar)
    (hU : ∀ c k, (M0.cell c).U k = (M0.cell c).Ue k)
    (hrest : ∀ c, (M0.cell c).U 1 = 0 ∧ (M0.cell c).U 2 = 0 ∧ (M0.cell c).U 3 = 0)
    (hoR : (wall_stencil (M0.wall j) (M0.cell (M0.wall j).cellR)).1 = 1
      ∨ (wall_stencil (M0.wall j) (M0.cell (M0.wall j).cellR)).1 = 3
      ∨ (wall_stencil (M0.wall j) (M0.cell (M0.wall j).cellR)).1 = 5
      ∨ (wall_stencil (M0.wall j) (M0.cell (M0.wall j).cellR)).1 = 7)
    (hoL : (wall_stencil (M0.wall j) (M0.cell (M0.wall j).cellL)).1 = 1
      ∨ (wall_stencil (M0.wall j) (M0.cell (M0.wall j).cellL)).1 = 3
      ∨ (wall_stencil (M0.wall j) (M0.cell (M0.wall j).cellL)).1 = 5
      ∨ (wall_stencil (M0.wall j) (M0.cell (M0.wall j).cellL)).1 = 7)
    (W : Wall K)
    (hW : W = compute_fluxes_reconstruct fl (equilibrium_reconstruction fl M0 sim) sim
      ((equilibrium_reconstruction fl M0 sim).wall j))
    (r : Riemann K) (hr : r = HLLS_vars sqrt false fl.MULTI_TYPE W) :
    (HLLS_F_star_L W r 0
      = if 0 < r.c_hat then
          -(r.c_hat / 2) * ((W.UR 0 - W.UL 0)
            - (W.UR 0 - W.UL 0) * HLLS_S W r 1
                / ((gamma - 1) * W.UR 4 - (gamma - 1) * W.UL 4 + TOL14))
        else 0)
    ∧ r.c_hat = sqrt ((gamma - 1) * r.H_hat)
    ∧ r.H_hat = (gamma * W.UR 4 / W.UR 0 * sqrt (W.UR 0)
        + gamma * W.UL 4 / W.UL 0 * sqrt (W.UL 0)) / (sqrt (W.UR 0) + sqrt (W.UL 0))
    ∧ ((M0.wall j).nz = 1 → W.UR 0 + W.UL 0 ≠ 0 →
        HLLS_S W r 1 = (gamma - 1) * W.UR 4 - (gamma - 1) * W.UL 4) := by
  obtain ⟨zL, zR, ⟨eL0, eR0⟩, ⟨pL, pR⟩, -, ⟨-, -, enz⟩, -, -⟩ :=
    balanced_wall_states fl M0 sim j hj (by rw [hw]; decide) hST hn hU hrest hoR hoL
  rw [← hW] at zL zR eL0 eR0 pL pR enz
  obtain ⟨-, hm⟩ := HLLS_rest_mass sqrt fl.MULTI_TYPE W r hr zL zR
  obtain ⟨-, -, -, -, -, -, ec, eH⟩ := HLLS_vars_rest sqrt fl.MULTI_TYPE W zL zR
  rw [← hr] at ec eH
  refine ⟨?_, ec, eH, ?_⟩
  · rw [hm, eL0, eR0, pL, pR]
  · intro hz hne
    obtain ⟨-, s1, -⟩ := HLLS_S_values W r
    have hWR0 : r.WR 0 = W.UR 0 := by rw [hr]; rfl
    have hWL0 : r.WL 0 = W.UL 0 := by rw [hr]; rfl
    have habs : ABS W.nz > (TOL14 : K) := by
      rw [enz, hz]; simp only [ABS]; norm_num; exact TOL14_lt_one
    rw [s1, if_pos habs, hWR0, hWL0, eL0, eR0, pL, pR]
    field_simp

/-- The source of an integrated interior cell after `compute_source` in mode
1 on the mesh returned by `equilibrium_reconstruction`. -/
lemma balanced_source (fl : Flags) (M0 : Mesh K) (sim : Sim K) (i : Nat)
    (hi : i < M0.ncells) (ht : (M0.cell i).type ≠ 0) (hz : (M0.cell i).st_sizeZ > 1) :
    let S := ((compute_source 1 (equilibrium_reconstruction fl M0 sim)).cell i).S
    S 0 = (M0.cell i).S 0 ∧ S 1 = (M0.cell i).S 1 ∧ S 2 = (M0.cell i).S 2
    ∧ S 3 = -g * (M0.cell i).U 0
        + ((((equilibrium_reconstruction fl M0 sim).wall (M0.cell i).w6).pLe
          - ((equilibrium_reconstruction fl M0 sim).wall (M0.cell i).w5).pRe) / (M0.cell i).dz
          + g * (M0.cell i).Ue 0)
    ∧ S 4 = -g * (M0.cell i).U 3 := by
  intro S
  have hS : S = ((compute_source 1 (equilibrium_reconstruction fl M0 sim)).cell i).S := rfl
  obtain ⟨eU, -, eS, ety, -, -, -, ⟨-, -, ez⟩, -⟩ :=
    equilibrium_reconstruction_cell_fields fl M0 sim i
  have hnc : (equilibrium_reconstruction fl M0 sim).ncells = M0.ncells := rfl
  rw [compute_source_cell_at, hnc, if_pos hi, if_pos ⟨by rw [ety]; exact ht, by rw [ez]; exact hz⟩]
    at hS
  have hcorr : ((equilibrium_reconstruction fl M0 sim).cell i).S_corr 3
      = (((equilibrium_reconstruction fl M0 sim).wall (M0.cell i).w6).pLe
          - ((equilibrium_reconstruction fl M0 sim).wall (M0.cell i).w5).pRe) / (M0.cell i).dz
          + g * (M0.cell i).Ue 0 := by
    rw [equilibrium_reconstruction_cell_at, if_pos hi, if_pos ht]
    simp
  have hS' : S = Function.update
      (Function.update ((equilibrium_reconstruction fl M0 sim).cell i).S 3
        (-g * ((equilibrium_reconstruction fl M0 sim).cell i).U 0
          + ((equilibrium_reconstruction fl M0 sim).cell i).S_corr 3))
      4 (-g * ((equilibrium_reconstruction fl M0 sim).cell i).U 3) := hS
  rw [hS']
  refine ⟨?_, ?_, ?_, ?_, ?_⟩
  · rw [Function.update_noteq (by decide), Function.update_noteq (by decide), eS]
  · rw [Function.update_noteq (by decide), Function.update_noteq (by decide), eS]
  · rw [Function.update_noteq (by decide), Function.update_noteq (by decide), eS]
  · rw [Function.update_noteq (by decide), Function.update_same, hcorr, eU]
  · rw [Function.update_same, eU]

/-- The first stage on a cell in hydrostatic equilibrium: it returns a mesh, in
which the momentum and the energy of the cell are unchanged and the density
has changed by `dt` times the difference of the HLLS mass fluxes of its walls
(less the mass source). -/
lemma first_stage_balanced (sqrt : K → K) (hsq : ∀ x, 0 < sqrt x → sqrt x * sqrt x = x)
    (fl : Flags) (M0 : Mesh K) (sim : Sim K) (i : Nat) (h : HydrostaticCell fl M0 sim i)
    (m : Nat → K)
    (hm : ∀ j, m j = HLLS_F_star_L
      (compute_fluxes_reconstruct fl (equilibrium_reconstruction fl M0 sim) sim
        ((equilibrium_reconstruction fl M0 sim).wall j))
      (HLLS_vars sqrt false fl.MULTI_TYPE
        (compute_fluxes_reconstruct fl (equilibrium_reconstruction fl M0 sim) sim
          ((equilibrium_reconstruction fl M0 sim).wall j))) 0) :
    ∃ M4 : Mesh K, first_stage sqrt fl M0 sim = some M4
      ∧ ((M4.cell i).U 1 = (M0.cell i).U 1 ∧ (M4.cell i).U 2 = (M0.cell i).U 2
        ∧ (M4.cell i).U 3 = (M0.cell i).U 3 ∧ (M4.cell i).U 4 = (M0.cell i).U 4)
      ∧ (M4.cell i).U 0 = (M0.cell i).U 0 - sim.dt *
          ((m (M0.cell i).w2 - m (M0.cell i).w4) / (M0.cell i).dx
            + (m (M0.cell i).w3 - m (M0.cell i).w1) / (M0.cell i).dy
            + (m (M0.cell i).w6 - m (M0.cell i).w5) / (M0.cell i).dz
            - (M0.cell i).S 0) := by
  obtain ⟨M4, hM4, hUk⟩ := first_stage_cell sqrt fl M0 sim i ⟨h.source_mode, h.solver⟩
    h.bound_ids h.cell_lt h.integrated (fun j hj => ⟨(h.walls j hj).1, (h.walls j hj).2.1⟩)
  obtain ⟨s0, s1, s2, s3, s4⟩ := balanced_source fl M0 sim i h.cell_lt h.integrated.1 h.interior
  -- the reconstructed energies at the lateral walls
  have hlat : ∀ j, (j = (M0.cell i).w1 ∨ j = (M0.cell i).w2 ∨ j = (M0.cell i).w3
        ∨ j = (M0.cell i).w4) →
      (compute_fluxes_reconstruct fl (equilibrium_reconstruction fl M0 sim) sim
        ((equilibrium_reconstruction fl M0 sim).wall j)).UL 4 = (M0.cell i).U 4
      ∧ (compute_fluxes_reconstruct fl (equilibrium_reconstruction fl M0 sim) sim
        ((equilibrium_reconstruction fl M0 sim).wall j)).UR 4 = (M0.cell i).U 4 := by
    intro j hj
    have hj6 : j = (M0.cell i).w1 ∨ j = (M0.cell i).w2 ∨ j = (M0.cell i).w3
        ∨ j = (M0.cell i).w4 ∨ j = (M0.cell i).w5 ∨ j = (M0.cell i).w6 := by
      rcases hj with e | e | e | e
      · exact Or.inl e
      · exact Or.inr (Or.inl e)
      · exact Or.inr (Or.inr (Or.inl e))
      · exact Or.inr (Or.inr (Or.inr (Or.inl e)))
    obtain ⟨hjn, hjw, hoR, hoL⟩ := h.walls j hj6
    obtain ⟨-, -, -, -, -, -, hUL, hUR⟩ :=
      balanced_wall_states fl M0 sim j hjn (by rw [hjw]; decide) h.source_mode h.nvar_ge
        h.equilibrium h.rest hoR hoL
    have hk : 4 < sim.nvar := h.nvar_ge
    obtain ⟨uL, uLs⟩ := h.uniform j hj _ (Or.inl rfl)
    obtain ⟨uR, uRs⟩ := h.uniform j hj _ (Or.inr rfl)
    constructor
    · rw [hUL 4 hk (fun _ => 0)]
      exact (reconstruct_const fl.TYPE_REC _ _ _ _ _ _ _ 4 hk _ hoL uLs uL).2
    · rw [hUR 4 hk (fun _ => 0)]
      exact (reconstruct_const fl.TYPE_REC _ _ _ _ _ _ _ 4 hk _ hoR uRs uR).1
  -- the fluxes on the six walls
  have flat : ∀ j, (j = (M0.cell i).w1 ∨ j = (M0.cell i).w2 ∨ j = (M0.cell i).w3
        ∨ j = (M0.cell i).w4) → _ := fun j hj =>
    balanced_wall_fluxes sqrt hsq fl M0 sim j
      (h.walls j (by
        rcases hj with e | e | e | e
        · exact Or.inl e
        · exact Or.inr (Or.inl e)
        · exact Or.inr (Or.inr (Or.inl e))
        · exact Or.inr (Or.inr (Or.inr (Or.inl e))))).1
      (h.walls j (by
        rcases hj with e | e | e | e
        · exact Or.inl e
        · exact Or.inr (Or.inl e)
        · exact Or.inr (Or.inr (Or.inl e))
        · exact Or.inr (Or.inr (Or.inr (Or.inl e))))).2.1
      h.source_mode h.nvar_ge h.equilibrium h.rest
      (h.walls j (by
        rcases hj with e | e | e | e
        · exact Or.inl e
        · exact Or.inr (Or.inl e)
        · exact Or.inr (Or.inr (Or.inl e))
        · exact Or.inr (Or.inr (Or.inr (Or.inl e))))).2.2.1
      (h.walls j (by
        rcases hj with e | e | e | e
        · exact Or.inl e
        · exact Or.inr (Or.inl e)
        · exact Or.inr (Or.inr (Or.inl e))
        · exact Or.inr (Or.inr (Or.inr (Or.inl e))))).2.2.2
      _ rfl
      (Or.inr ⟨by
        rcases hj with e | e | e | e
        · exact (h.normals_y j (Or.inl e)).2.2
        · exact (h.normals_x j (Or.inl e)).2.2
        · exact (h.normals_y j (Or.inr e)).2.2
        · exact (h.normals_x j (Or.inr e)).2.2,
        by rw [(hlat j hj).1, (hlat j hj).2]⟩)
  have fz : ∀ j, (j = (M0.cell i).w5 ∨ j = (M0.cell i).w6) → _ := fun j hj =>
    balanced_wall_fluxes sqrt hsq fl M0 sim j
      (h.walls j (by
        rcases hj with e | e
        · exact Or.inr (Or.inr (Or.inr (Or.inr (Or.inl e))))
        · exact Or.inr (Or.inr (Or.inr (Or.inr (Or.inr e)))))).1
      (h.walls j (by
        rcases hj with e | e
        · exact Or.inr (Or.inr (Or.inr (Or.inr (Or.inl e))))
        · exact Or.inr (Or.inr (Or.inr (Or.inr (Or.inr e)))))).2.1
      h.source_mode h.nvar_ge h.equilibrium h.rest
      (h.walls j (by
        rcases hj with e | e
        · exact Or.inr (Or.inr (Or.inr (Or.inr (Or.inl e))))
        · exact Or.inr (Or.inr (Or.inr (Or.inr (Or.inr e)))))).2.2.1
      (h.walls j (by
        rcases hj with e | e
        · exact Or.inr (Or.inr (Or.inr (Or.inr (Or.inl e))))
        · exact Or.inr (Or.inr (Or.inr (Or.inr (Or.inr e)))))).2.2.2
      _ rfl
      (Or.inl ⟨(h.normals_z j hj).2.2, h.density_pos j hj⟩)
  obtain ⟨⟨a11, a12, a13, a14⟩, ⟨b11, b12, b13, b14⟩, c11, d11, -, -⟩ := flat _ (Or.inl rfl)
  obtain ⟨⟨a21, a22, a23, a24⟩, ⟨b21, b22, b23, b24⟩, c21, d21, -, -⟩ :=
    flat _ (Or.inr (Or.inl rfl))
  obtain ⟨⟨a31, a32, a33, a34⟩, ⟨b31, b32, b33, b34⟩, c31, d31, -, -⟩ :=
    flat _ (Or.inr (Or.inr (Or.inl rfl)))
  obtain ⟨⟨a41, a42, a43, a44⟩, ⟨b41, b42, b43, b44⟩, c41, d41, -, -⟩ :=
    flat _ (Or.inr (Or.inr (Or.inr rfl)))
  obtain ⟨⟨a51, a52, a53, a54⟩, ⟨b51, b52, b53, b54⟩, c51, d51, -, q5⟩ := fz _ (Or.inl rfl)
  obtain ⟨⟨a61, a62, a63, a64⟩, ⟨b61, b62, b63, b64⟩, c61, d61, q6, -⟩ := fz _ (Or.inr rfl)
  obtain ⟨x1, y1, z1⟩ := h.normals_y _ (Or.inl rfl)
  obtain ⟨x3, y3, z3⟩ := h.normals_y _ (Or.inr rfl)
  obtain ⟨x2, y2, z2⟩ := h.normals_x _ (Or.inl rfl)
  obtain ⟨x4, y4, z4⟩ := h.normals_x _ (Or.inr rfl)
  obtain ⟨x5, y5, z5⟩ := h.normals_z _ (Or.inl rfl)
  obtain ⟨x6, y6, z6⟩ := h.normals_z _ (Or.inr rfl)
  obtain ⟨l1L, l1R⟩ := hlat _ (Or.inl rfl)
  obtain ⟨l2L, l2R⟩ := hlat _ (Or.inr (Or.inl rfl))
  obtain ⟨l3L, l3R⟩ := hlat _ (Or.inr (Or.inr (Or.inl rfl)))
  obtain ⟨l4L, l4R⟩ := hlat _ (Or.inr (Or.inr (Or.inr rfl)))
  have hn := h.nvar_ge
  refine ⟨M4, hM4, ⟨?_, ?_, ?_, ?_⟩, ?_⟩
  · rw [hUk 1 (by omega), s1, h.source_zero.1]
    unfold flux_divergence
    simp only [a21, b41, a31, b11, a61, b51, x1, x2, x3, x4, x5, x6, l2L, l4R]
    ring
  · rw [hUk 2 (by omega), s2, h.source_zero.2]
    unfold flux_divergence
    simp only [a22, b42, a32, b12, a62, b52, y1, y2, y3, y4, y5, y6, l3L, l1R]
    ring
  · rw [hUk 3 (by omega), s3, q6, q5, h.equilibrium i 0]
    unfold flux_divergence
    simp only [a23, b43, a33, b13, a63, b53, z1, z2, z3, z4, z5, z6]
    ring
  · rw [hUk 4 (by omega), s4, (h.rest i).2.2]
    unfold flux_divergence
    simp only [a24, b44, a34, b14, a64, b54]
    ring
  · rw [hUk 0 (by omega), s0]
    unfold flux_divergence
    simp only [d21, c41, d31, c11, d61, c51, hm]

/-! ## A column at rest -/

lemma TOL4_pos : (0 : K) < TOL4 := by unfold TOL4; norm_num
lemma TOL4_lt_one : (TOL4 : K) < 1 := by unfold TOL4; norm_num

/-- The stencils the six walls of the middle cell of `columnMesh` take from
the three cells. -/
lemma column_stencils (n : Nat) :
    (∀ j, (j = 5 ∨ j = 9) →
      wall_stencil (columnWall j : Wall K) (columnCell n : Cell K)
        = ((3 : Int), fun p => if p < 3 then (n : Int) else -1))
    ∧ (∀ j, (j = 6 ∨ j = 8) →
      wall_stencil (columnWall j : Wall K) (columnCell n : Cell K)
        = ((3 : Int), fun p => if p < 3 then (n : Int) else -1))
    ∧ (∀ j, (j = 7 ∨ j = 12) →
      wall_stencil (columnWall j : Wall K) (columnCell n : Cell K)
        = ((if n = 1 then 3 else 1 : Int),
           fun p : Nat => if n = 1 then (if p < 3 then (p : Int) else -1)
             else (if p < 1 then (n : Int) else -1))) := by
  have h0 : (0 : K) < TOL4 := TOL4_pos
  have h1 : ¬ (1 : K) < TOL4 := not_lt.2 TOL4_lt_one.le
  refine ⟨?_, ?_, ?_⟩
  · intro j hj
    rcases hj with e | e <;> subst e <;>
      simp [wall_stencil, columnWall, columnCell, zeroWall, h0, h1]
  · intro j hj
    rcases hj with e | e <;> subst e <;>
      simp [wall_stencil, columnWall, columnCell, zeroWall, h0, h1]
  · intro j hj
    rcases hj with e | e <;> subst e <;>
      simp [wall_stencil, columnWall, columnCell, zeroWall, h0, h1]


/-- The reconstructions at the two z-walls of the middle cell of `columnMesh`
(walls 7 and 12) with the UWC weights, for a field that holds `columnState`. -/
lemma column_reconstruct_z (f : Cell K → Nat → K)
    (hf : ∀ n, f (columnCell n) = columnState n) (k : Nat) (hk : k < 6) (old : Nat → K) :
    reconstruct (weno3L 2) (weno5L 2) (weno7L 2)
        (wall_stencil (columnWall 7 : Wall K) (columnCell 0)).1
        (wall_stencil (columnWall 7 : Wall K) (columnCell 0)).2
        columnCell f (columnCell 0) 6 old k = columnState 0 k
    ∧ reconstruct (weno3R 2) (weno5R 2) (weno7R 2)
        (wall_stencil (columnWall 7 : Wall K) (columnCell 1)).1
        (wall_stencil (columnWall 7 : Wall K) (columnCell 1)).2
        columnCell f (columnCell 1) 6 old k
      = (2 * columnState 0 k + 5 * columnState 1 k - columnState 2 k) / 6
    ∧ reconstruct (weno3L 2) (weno5L 2) (weno7L 2)
        (wall_stencil (columnWall 12 : Wall K) (columnCell 1)).1
        (wall_stencil (columnWall 12 : Wall K) (columnCell 1)).2
        columnCell f (columnCell 1) 6 old k
      = (-columnState 0 k + 5 * columnState 1 k + 2 * columnState 2 k) / 6
    ∧ reconstruct (weno3R 2) (weno5R 2) (weno7R 2)
        (wall_stencil (columnWall 12 : Wall K) (columnCell 2)).1
        (wall_stencil (columnWall 12 : Wall K) (columnCell 2)).2
        columnCell f (columnCell 2) 6 old k = columnState 2 k := by
  obtain ⟨-, -, hz0⟩ := column_stencils (K := K) 0
  obtain ⟨-, -, hz1⟩ := column_stencils (K := K) 1
  obtain ⟨-, -, hz2⟩ := column_stencils (K := K) 2
  refine ⟨?_, ?_, ?_, ?_⟩
  · rw [reconstruct_apply _ _ _ _ _ _ _ _ _ _ k hk, hz0 7 (Or.inl rfl)]
    simp [hf]
  · rw [reconstruct_apply _ _ _ _ _ _ _ _ _ _ k hk, hz1 7 (Or.inl rfl)]
    simp [hf, weno3R, weno3R_weights]
    ring
  · rw [reconstruct_apply _ _ _ _ _ _ _ _ _ _ k hk, hz1 12 (Or.inr rfl)]
    simp [hf, weno3L, weno3L_weights]
    ring
  · rw [reconstruct_apply _ _ _ _ _ _ _ _ _ _ k hk, hz2 12 (Or.inr rfl)]
    simp [hf]


/-- The walls of `columnMesh` after `equilibrium_reconstruction`: the
equilibrium densities reconstructed at the walls 7 and 12. -/
lemma column_equilibrium_densities (sim : Sim K) (hn : sim.nvar = 6) :
    ((equilibrium_reconstruction hllsFlags (columnMesh : Mesh K) sim).wall 7).ULe 0 = 10
    ∧ ((equilibrium_reconstruction hllsFlags (columnMesh : Mesh K) sim).wall 7).URe 0 = 10
    ∧ ((equilibrium_reconstruction hllsFlags (columnMesh : Mesh K) sim).wall 12).ULe 0 = 15 / 2
    ∧ ((equilibrium_reconstruction hllsFlags (columnMesh : Mesh K) sim).wall 12).URe 0 = 5 := by
  have h7 : (7 : Nat) < (columnMesh : Mesh K).nwalls := by show (7 : Nat) < 16; decide
  have h12 : (12 : Nat) < (columnMesh : Mesh K).nwalls := by show (12 : Nat) < 16; decide
  have w7 : ((columnMesh : Mesh K).wall 7).wtype ≠ 0 := by
    simp [columnMesh, columnWall]
  have w12 : ((columnMesh : Mesh K).wall 12).wtype ≠ 0 := by
    simp [columnMesh, columnWall]
  have cL7 : ((columnMesh : Mesh K).wall 7).cellL = 0 := by simp [columnMesh, columnWall]
  have cR7 : ((columnMesh : Mesh K).wall 7).cellR = 1 := by simp [columnMesh, columnWall]
  have cL12 : ((columnMesh : Mesh K).wall 12).cellL = 1 := by simp [columnMesh, columnWall]
  have cR12 : ((columnMesh : Mesh K).wall 12).cellR = 2 := by simp [columnMesh, columnWall]
  obtain ⟨eR7, eL7, -⟩ := equilibrium_reconstruction_wall_fields hllsFlags (columnMesh : Mesh K)
    sim _ w7
  obtain ⟨eR12, eL12, -⟩ := equilibrium_reconstruction_wall_fields hllsFlags
    (columnMesh : Mesh K) sim _ w12
  rw [cL7] at eL7
  rw [cR7] at eR7
  rw [cL12] at eL12
  rw [cR12] at eR12
  rw [hn] at eL7 eR7 eL12 eR12
  rw [equilibrium_reconstruction_wall_at, if_pos h7, equilibrium_reconstruction_wall_at,
    if_pos h12, eL7, eR7, eL12, eR12]
  obtain ⟨a, b, c, d⟩ := column_reconstruct_z (K := K) Cell.Ue (fun _ => rfl) 0 (by decide)
    ((columnMesh : Mesh K).wall 7).ULe
  obtain ⟨-, b', -, -⟩ := column_reconstruct_z (K := K) Cell.Ue (fun _ => rfl) 0 (by decide)
    ((columnMesh : Mesh K).wall 7).URe
  obtain ⟨-, -, c', -⟩ := column_reconstruct_z (K := K) Cell.Ue (fun _ => rfl) 0 (by decide)
    ((columnMesh : Mesh K).wall 12).ULe
  obtain ⟨-, -, -, d'⟩ := column_reconstruct_z (K := K) Cell.Ue (fun _ => rfl) 0 (by decide)
    ((columnMesh : Mesh K).wall 12).URe
  refine ⟨?_, ?_, ?_, ?_⟩
  · exact a.trans (by simp [columnState, state6])
  · exact b'.trans (by simp [columnState, state6]; norm_num)
  · exact c'.trans (by simp [columnState, state6]; norm_num)
  · exact d'.trans (by simp [columnState, state6])

/-- The middle cell of `columnMesh` meets the premises of the well-balanced
statements. -/
lemma column_hydrostatic (dt : K) :
    HydrostaticCell hllsFlags (columnMesh : Mesh K) (eulerSim dt 3) 1 where
  source_mode := rfl
  solver := ⟨rfl, rfl, rfl, rfl, rfl⟩
  nvar_ge := by show 5 ≤ 6; decide
  equilibrium := fun _ _ => rfl
  rest := fun c => by
    show columnState c 1 = 0 ∧ columnState c 2 = 0 ∧ columnState c 3 = 0
    unfold columnState
    split_ifs <;> exact ⟨rfl, rfl, rfl⟩
  bound_ids := fun j hj hw => by
    have hj' : j < 16 := hj
    interval_cases j <;> simp [columnMesh, columnWall] at hw ⊢
  cell_lt := by show 1 < 3; decide
  integrated := ⟨by simp [columnMesh, columnCell], by simp [columnMesh, columnCell, zeroCell]⟩
  interior := by simp [columnMesh, columnCell]
  source_zero := ⟨rfl, rfl⟩
  walls := fun j hj => by
    obtain ⟨hy, hx, hz⟩ := column_stencils (K := K) 1
    obtain ⟨-, -, hz0⟩ := column_stencils (K := K) 0
    obtain ⟨-, -, hz2⟩ := column_stencils (K := K) 2
    have key : ∀ (j s t : Nat), j < 16 → (columnWall j : Wall K).wtype = 1 →
        (columnWall j : Wall K).cellR = s → (columnWall j : Wall K).cellL = t →
        ((wall_stencil (columnWall j : Wall K) (columnCell s)).1 = 1
          ∨ (wall_stencil (columnWall j : Wall K) (columnCell s)).1 = 3
          ∨ (wall_stencil (columnWall j : Wall K) (columnCell s)).1 = 5
          ∨ (wall_stencil (columnWall j : Wall K) (columnCell s)).1 = 7) →
        ((wall_stencil (columnWall j : Wall K) (columnCell t)).1 = 1
          ∨ (wall_stencil (columnWall j : Wall K) (columnCell t)).1 = 3
          ∨ (wall_stencil (columnWall j : Wall K) (columnCell t)).1 = 5
          ∨ (wall_stencil (columnWall j : Wall K) (columnCell t)).1 = 7) →
        j < (columnMesh : Mesh K).nwalls ∧ ((columnMesh : Mesh K).wall j).wtype = 1
        ∧ ((wall_stencil ((columnMesh : Mesh K).wall j)
              ((columnMesh : Mesh K).cell ((columnMesh : Mesh K).wall j).cellR)).1 = 1
          ∨ (wall_stencil ((columnMesh : Mesh K).wall j)
              ((columnMesh : Mesh K).cell ((columnMesh : Mesh K).wall j).cellR)).1 = 3
          ∨ (wall_stencil ((columnMesh : Mesh K).wall j)
              ((columnMesh : Mesh K).cell ((columnMesh : Mesh K).wall j).cellR)).1 = 5
          ∨ (wall_stencil ((columnMesh : Mesh K).wall j)
              ((columnMesh : Mesh K).cell ((columnMesh : Mesh K).wall j).cellR)).1 = 7)
        ∧ ((wall_stencil ((columnMesh : Mesh K).wall j)
              ((columnMesh : Mesh K).cell ((columnMesh : Mesh K).wall j).cellL)).1 = 1
          ∨ (wall_stencil ((columnMesh : Mesh K).wall j)
              ((columnMesh : Mesh K).cell ((columnMesh : Mesh K).wall j).cellL)).1 = 3
          ∨ (wall_stencil ((columnMesh : Mesh K).wall j)
              ((columnMesh : Mesh K).cell ((columnMesh : Mesh K).wall j).cellL)).1 = 5
          ∨ (wall_stencil ((columnMesh : Mesh K).wall j)
              ((columnMesh : Mesh K).cell ((columnMesh : Mesh K).wall j).cellL)).1 = 7) := by
      intro j s t h1 h2 h3 h4 h5 h6
      refine ⟨h1, h2, ?_, ?_⟩
      · have e3 : ((columnMesh : Mesh K).wall j).cellR = s := h3
        rw [e3]; exact h5
      · have e4 : ((columnMesh : Mesh K).wall j).cellL = t := h4
        rw [e4]; exact h6
    have e : j = 5 ∨ j = 8 ∨ j = 9 ∨ j = 6 ∨ j = 7 ∨ j = 12 := by
      simpa [columnMesh, columnCell] using hj
    rcases e with e | e | e | e | e | e <;> subst e
    · exact key 5 1 1 (by decide) (by simp [columnWall]) (by simp [columnWall])
        (by simp [columnWall]) (by rw [hy 5 (Or.inl rfl)]; simp) (by rw [hy 5 (Or.inl rfl)]; simp)
    · exact key 8 1 1 (by decide) (by simp [columnWall]) (by simp [columnWall])
        (by simp [columnWall]) (by rw [hx 8 (Or.inr rfl)]; simp) (by rw [hx 8 (Or.inr rfl)]; simp)
    · exact key 9 1 1 (by decide) (by simp [columnWall]) (by simp [columnWall])
        (by simp [columnWall]) (by rw [hy 9 (Or.inr rfl)]; simp) (by rw [hy 9 (Or.inr rfl)]; simp)
    · exact key 6 1 1 (by decide) (by simp [columnWall]) (by simp [columnWall])
        (by simp [columnWall]) (by rw [hx 6 (Or.inl rfl)]; simp) (by rw [hx 6 (Or.inl rfl)]; simp)
    · exact key 7 1 0 (by decide) (by simp [columnWall]) (by simp [columnWall])
        (by simp [columnWall]) (by rw [hz 7 (Or.inl rfl)]; simp)
        (by rw [hz0 7 (Or.inl rfl)]; simp)
    · exact key 12 2 1 (by decide) (by simp [columnWall]) (by simp [columnWall])
        (by simp [columnWall]) (by rw [hz2 12 (Or.inr rfl)]; simp)
        (by rw [hz 12 (Or.inr rfl)]; simp)
  normals_x := fun j hj => by
    have e : j = 8 ∨ j = 6 := by simpa [columnMesh, columnCell] using hj
    rcases e with e | e <;> subst e <;> simp [columnMesh, columnWall, zeroWall]
  normals_y := fun j hj => by
    have e : j = 5 ∨ j = 9 := by simpa [columnMesh, columnCell] using hj
    rcases e with e | e <;> subst e <;> simp [columnMesh, columnWall, zeroWall]
  normals_z := fun j hj => by
    have e : j = 7 ∨ j = 12 := by simpa [columnMesh, columnCell] using hj
    rcases e with e | e <;> subst e <;> simp [columnMesh, columnWall, zeroWall]
  uniform := fun j hj s hs => by
    obtain ⟨hy, hx, -⟩ := column_stencils (K := K) 1
    have e : j = 5 ∨ j = 8 ∨ j = 9 ∨ j = 6 := by
      simpa [columnMesh, columnCell] using hj
    have hs1 : s = 1 := by
      rcases e with e | e | e | e <;> subst e <;>
        simpa [columnMesh, columnWall] using hs
    subst hs1
    have hst : (wall_stencil ((columnMesh : Mesh K).wall j) ((columnMesh : Mesh K).cell 1))
        = ((3 : Int), fun p => if p < 3 then ((1 : Nat) : Int) else -1) := by
      rcases e with e | e | e | e <;> subst e
      · exact hy 5 (Or.inl rfl)
      · exact hx 8 (Or.inr rfl)
      · exact hy 9 (Or.inr rfl)
      · exact hx 6 (Or.inl rfl)
    refine ⟨rfl, fun p hp => ?_⟩
    rw [hst] at hp ⊢
    have hp3 : p < 3 := by
      have : (p : Int) < 3 := hp
      omega
    simp [hp3]
  density_pos := fun j hj => by
    obtain ⟨a, b, c, d⟩ := column_equilibrium_densities (K := K) (eulerSim dt 3) rfl
    have e : j = 7 ∨ j = 12 := by simpa [columnMesh, columnCell] using hj
    rcases e with e | e <;> subst e
    · rw [a, b]; exact ⟨by norm_num, by norm_num⟩
    · rw [c, d]; exact ⟨by norm_num, by norm_num⟩

/-- The states `compute_fluxes` reconstructs at the six walls of the middle
cell of `columnMesh`: equal densities on both sides of the lateral walls and
of the lower z-wall, and a density and an energy jump at the upper z-wall. -/
lemma column_wall_states (dt : K) :
    (∀ j, (j = 5 ∨ j = 6 ∨ j = 8 ∨ j = 9 ∨ j = 7) →
      (compute_fluxes_reconstruct hllsFlags
        (equilibrium_reconstruction hllsFlags (columnMesh : Mesh K) (eulerSim dt 3))
        (eulerSim dt 3)
        ((equilibrium_reconstruction hllsFlags (columnMesh : Mesh K) (eulerSim dt 3)).wall j)).UR 0
      = (compute_fluxes_reconstruct hllsFlags
        (equilibrium_reconstruction hllsFlags (columnMesh : Mesh K) (eulerSim dt 3))
        (eulerSim dt 3)
        ((equilibrium_reconstruction hllsFlags (columnMesh : Mesh K) (eulerSim dt 3)).wall j)).UL 0)
    ∧ (compute_fluxes_reconstruct hllsFlags
        (equilibrium_reconstruction hllsFlags (columnMesh : Mesh K) (eulerSim dt 3))
        (eulerSim dt 3)
        ((equilibrium_reconstruction hllsFlags (columnMesh : Mesh K) (eulerSim dt 3)).wall 12)).UL 0
      = 15 / 2
    ∧ (compute_fluxes_reconstruct hllsFlags
        (equilibrium_reconstruction hllsFlags (columnMesh : Mesh K) (eulerSim dt 3))
        (eulerSim dt 3)
        ((equilibrium_reconstruction hllsFlags (columnMesh : Mesh K) (eulerSim dt 3)).wall 12)).UR 0
      = 5
    ∧ (compute_fluxes_reconstruct hllsFlags
        (equilibrium_reconstruction hllsFlags (columnMesh : Mesh K) (eulerSim dt 3))
        (eulerSim dt 3)
        ((equilibrium_reconstruction hllsFlags (columnMesh : Mesh K) (eulerSim dt 3)).wall 12)).UL 4
      = 95 / 6
    ∧ (compute_fluxes_reconstruct hllsFlags
        (equilibrium_reconstruction hllsFlags (columnMesh : Mesh K) (eulerSim dt 3))
        (eulerSim dt 3)
        ((equilibrium_reconstruction hllsFlags (columnMesh : Mesh K) (eulerSim dt 3)).wall 12)).UR 4
      = 10 := by
  have h := column_hydrostatic dt
  have hst : ∀ j, (j = 5 ∨ j = 8 ∨ j = 9 ∨ j = 6 ∨ j = 7 ∨ j = 12) → _ := fun j hj =>
    balanced_wall_states hllsFlags (columnMesh : Mesh K) (eulerSim dt 3) j
      (h.walls j (by simpa [columnMesh, columnCell] using hj)).1
      (by rw [(h.walls j (by simpa [columnMesh, columnCell] using hj)).2.1]; decide)
      rfl h.nvar_ge h.equilibrium h.rest
      (h.walls j (by simpa [columnMesh, columnCell] using hj)).2.2.1
      (h.walls j (by simpa [columnMesh, columnCell] using hj)).2.2.2
  obtain ⟨hy, hx, -⟩ := column_stencils (K := K) 1
  have hk0 : 0 < (eulerSim dt 3).nvar := by show 0 < 6; decide
  have hk4 : 4 < (eulerSim dt 3).nvar := by show 4 < 6; decide
  -- lateral walls: both sides are the reconstruction of the state of cell 1
  have hlat : ∀ j, (j = 5 ∨ j = 6 ∨ j = 8 ∨ j = 9) →
      (wall_stencil (columnWall j : Wall K) (columnCell 1))
        = ((3 : Int), fun p => if p < 3 then ((1 : Nat) : Int) else -1)
      ∧ (columnWall j : Wall K).cellL = 1 ∧ (columnWall j : Wall K).cellR = 1 := by
    intro j hj
    rcases hj with e | e | e | e <;> subst e
    · exact ⟨hy 5 (Or.inl rfl), by simp [columnWall], by simp [columnWall]⟩
    · exact ⟨hx 6 (Or.inl rfl), by simp [columnWall], by simp [columnWall]⟩
    · exact ⟨hx 8 (Or.inr rfl), by simp [columnWall], by simp [columnWall]⟩
    · exact ⟨hy 9 (Or.inr rfl), by simp [columnWall], by simp [columnWall]⟩
  refine ⟨?_, ?_, ?_, ?_, ?_⟩
  · intro j hj
    rcases hj with e | e | e | e | e
    · obtain ⟨-, -, -, -, -, -, hUL, hUR⟩ := hst j (by omega)
      obtain ⟨s1, s2, s3⟩ := hlat j (by omega)
      have cL : ((columnMesh : Mesh K).wall j).cellL = 1 := s2
      have cR : ((columnMesh : Mesh K).wall j).cellR = 1 := s3
      have hs : wall_stencil ((columnMesh : Mesh K).wall j) ((columnMesh : Mesh K).cell 1)
          = ((3 : Int), fun p => if p < 3 then ((1 : Nat) : Int) else -1) := s1
      rw [hUL 0 hk0 (fun _ => 0), hUR 0 hk0 (fun _ => 0), cL, cR, hs]
      have hc := reconstruct_const (2 : Nat) (3 : Int)
        (fun p => if p < 3 then ((1 : Nat) : Int) else -1) (columnMesh : Mesh K).cell Cell.U
        ((columnMesh : Mesh K).cell 1) (eulerSim dt 3).nvar (fun _ => 0) 0 hk0
        (((columnMesh : Mesh K).cell 1).U 0) (Or.inr (Or.inl rfl))
        (fun p hp => by
          have hp3 : p < 3 := by
            have : (p : Int) < 3 := hp
            omega
          simp [hp3]) rfl
      exact hc.1.trans hc.2.symm
    · obtain ⟨-, -, -, -, -, -, hUL, hUR⟩ := hst j (by omega)
      obtain ⟨s1, s2, s3⟩ := hlat j (by omega)
      have cL : ((columnMesh : Mesh K).wall j).cellL = 1 := s2
      have cR : ((columnMesh : Mesh K).wall j).cellR = 1 := s3
      have hs : wall_stencil ((columnMesh : Mesh K).wall j) ((columnMesh : Mesh K).cell 1)
          = ((3 : Int), fun p => if p < 3 then ((1 : Nat) : Int) else -1) := s1
      rw [hUL 0 hk0 (fun _ => 0), hUR 0 hk0 (fun _ => 0), cL, cR, hs]
      have hc := reconstruct_const (2 : Nat) (3 : Int)
        (fun p => if p < 3 then ((1 : Nat) : Int) else -1) (columnMesh : Mesh K).cell Cell.U
        ((columnMesh : Mesh K).cell 1) (eulerSim dt 3).nvar (fun _ => 0) 0 hk0
        (((columnMesh : Mesh K).cell 1).U 0) (Or.inr (Or.inl rfl))
        (fun p hp => by
          have hp3 : p < 3 := by
            have : (p : Int) < 3 := hp
            omega
          simp [hp3]) rfl
      exact hc.1.trans hc.2.symm
    · obtain ⟨-, -, -, -, -, -, hUL, hUR⟩ := hst j (by omega)
      obtain ⟨s1, s2, s3⟩ := hlat j (by omega)
      have cL : ((columnMesh : Mesh K).wall j).cellL = 1 := s2
      have cR : ((columnMesh : Mesh K).wall j).cellR = 1 := s3
      have hs : wall_stencil ((columnMesh : Mesh K).wall j) ((columnMesh : Mesh K).cell 1)
          = ((3 : Int), fun p => if p < 3 then ((1 : Nat) : Int) else -1) := s1
      rw [hUL 0 hk0 (fun _ => 0), hUR 0 hk0 (fun _ => 0), cL, cR, hs]
      have hc := reconstruct_const (2 : Nat) (3 : Int)
        (fun p => if p < 3 then ((1 : Nat) : Int) else -1) (columnMesh : Mesh K).cell Cell.U
        ((columnMesh : Mesh K).cell 1) (eulerSim dt 3).nvar (fun _ => 0) 0 hk0
        (((columnMesh : Mesh K).cell 1).U 0) (Or.inr (Or.inl rfl))
        (fun p hp => by
          have hp3 : p < 3 := by
            have : (p : Int) < 3 := hp
            omega
          simp [hp3]) rfl
      exact hc.1.trans hc.2.symm
    · obtain ⟨-, -, -, -, -, -, hUL, hUR⟩ := hst j (by omega)
      obtain ⟨s1, s2, s3⟩ := hlat j (by omega)
      have cL : ((columnMesh : Mesh K).wall j).cellL = 1 := s2
      have cR : ((columnMesh : Mesh K).wall j).cellR = 1 := s3
      have hs : wall_stencil ((columnMesh : Mesh K).wall j) ((columnMesh : Mesh K).cell 1)
          = ((3 : Int), fun p => if p < 3 then ((1 : Nat) : Int) else -1) := s1
      rw [hUL 0 hk0 (fun _ => 0), hUR 0 hk0 (fun _ => 0), cL, cR, hs]
      have hc := reconstruct_const (2 : Nat) (3 : Int)
        (fun p => if p < 3 then ((1 : Nat) : Int) else -1) (columnMesh : Mesh K).cell Cell.U
        ((columnMesh : Mesh K).cell 1) (eulerSim dt 3).nvar (fun _ => 0) 0 hk0
        (((columnMesh : Mesh K).cell 1).U 0) (Or.inr (Or.inl rfl))
        (fun p hp => by
          have hp3 : p < 3 := by
            have : (p : Int) < 3 := hp
            omega
          simp [hp3]) rfl
      exact hc.1.trans hc.2.symm
    · subst e
      obtain ⟨-, -, -, -, -, -, hUL, hUR⟩ := hst 7 (by omega)
      obtain ⟨a, b, -, -⟩ := column_reconstruct_z (K := K) Cell.U (fun _ => rfl) 0 (by decide)
        (fun _ => 0)
      have cL : ((columnMesh : Mesh K).wall 7).cellL = 0 := by simp [columnMesh, columnWall]
      have cR : ((columnMesh : Mesh K).wall 7).cellR = 1 := by simp [columnMesh, columnWall]
      rw [hUL 0 hk0 (fun _ => 0), hUR 0 hk0 (fun _ => 0), cL, cR]
      refine Eq.trans b (Eq.trans ?_ a.symm)
      simp [columnState, state6]
      norm_num
  · obtain ⟨-, -, -, -, -, -, hUL, -⟩ := hst 12 (by omega)
    obtain ⟨-, -, c, -⟩ := column_reconstruct_z (K := K) Cell.U (fun _ => rfl) 0 (by decide)
      (fun _ => 0)
    have cL : ((columnMesh : Mesh K).wall 12).cellL = 1 := by simp [columnMesh, columnWall]
    rw [hUL 0 hk0 (fun _ => 0), cL]
    refine Eq.trans c ?_
    simp [columnState, state6]
    norm_num
  · obtain ⟨-, -, -, -, -, -, -, hUR⟩ := hst 12 (by omega)
    obtain ⟨-, -, -, d⟩ := column_reconstruct_z (K := K) Cell.U (fun _ => rfl) 0 (by decide)
      (fun _ => 0)
    have cR : ((columnMesh : Mesh K).wall 12).cellR = 2 := by simp [columnMesh, columnWall]
    rw [hUR 0 hk0 (fun _ => 0), cR]
    refine Eq.trans d ?_
    simp [columnState, state6]
  · obtain ⟨-, -, -, -, -, -, hUL, -⟩ := hst 12 (by omega)
    obtain ⟨-, -, c, -⟩ := column_reconstruct_z (K := K) Cell.U (fun _ => rfl) 4 (by decide)
      (fun _ => 0)
    have cL : ((columnMesh : Mesh K).wall 12).cellL = 1 := by simp [columnMesh, columnWall]
    rw [hUL 4 hk4 (fun _ => 0), cL]
    refine Eq.trans c ?_
    simp [columnState, state6]
    norm_num
  · obtain ⟨-, -, -, -, -, -, -, hUR⟩ := hst 12 (by omega)
    obtain ⟨-, -, -, d⟩ := column_reconstruct_z (K := K) Cell.U (fun _ => rfl) 4 (by decide)
      (fun _ => 0)
    have cR : ((columnMesh : Mesh K).wall 12).cellR = 2 := by simp [columnMesh, columnWall]
    rw [hUR 4 hk4 (fun _ => 0), cR]
    refine Eq.trans d ?_
    simp [columnState, state6]

/-- The mass fluxes of the HLLS solver at the six walls of the middle cell of
`columnMesh`: zero at the lateral walls and at the lower z-wall, negative at
the upper z-wall, where the density jumps across the wall. -/
lemma column_mass_fluxes (sqrt : K → K) (hpos : ∀ x, 0 < x → 0 < sqrt x) (dt : K) :
    (∀ j, (j = 5 ∨ j = 6 ∨ j = 8 ∨ j = 9 ∨ j = 7) →
      HLLS_F_star_L (compute_fluxes_reconstruct hllsFlags
          (equilibrium_reconstruction hllsFlags (columnMesh : Mesh K) (eulerSim dt 3))
          (eulerSim dt 3)
          ((equilibrium_reconstruction hllsFlags (columnMesh : Mesh K) (eulerSim dt 3)).wall j))
        (HLLS_vars sqrt false hllsFlags.MULTI_TYPE (compute_fluxes_reconstruct hllsFlags
          (equilibrium_reconstruction hllsFlags (columnMesh : Mesh K) (eulerSim dt 3))
          (eulerSim dt 3)
          ((equilibrium_reconstruction hllsFlags (columnMesh : Mesh K) (eulerSim dt 3)).wall j)))
        0 = 0)
    ∧ HLLS_F_star_L (compute_fluxes_reconstruct hllsFlags
          (equilibrium_reconstruction hllsFlags (columnMesh : Mesh K) (eulerSim dt 3))
          (eulerSim dt 3)
          ((equilibrium_reconstruction hllsFlags (columnMesh : Mesh K) (eulerSim dt 3)).wall 12))
        (HLLS_vars sqrt false hllsFlags.MULTI_TYPE (compute_fluxes_reconstruct hllsFlags
          (equilibrium_reconstruction hllsFlags (columnMesh : Mesh K) (eulerSim dt 3))
          (eulerSim dt 3)
          ((equilibrium_reconstruction hllsFlags (columnMesh : Mesh K) (eulerSim dt 3)).wall 12)))
        0 < 0 := by
  have h := column_hydrostatic dt
  obtain ⟨hbal, hL0, hR0, hL4, hR4⟩ := column_wall_states dt
  have hm : ∀ j, (j = 5 ∨ j = 8 ∨ j = 9 ∨ j = 6 ∨ j = 7 ∨ j = 12) → _ := fun j hj =>
    balanced_wall_mass sqrt hllsFlags (columnMesh : Mesh K) (eulerSim dt 3) j
      (h.walls j (by simpa [columnMesh, columnCell] using hj)).1
      (h.walls j (by simpa [columnMesh, columnCell] using hj)).2.1
      rfl h.nvar_ge h.equilibrium h.rest
      (h.walls j (by simpa [columnMesh, columnCell] using hj)).2.2.1
      (h.walls j (by simpa [columnMesh, columnCell] using hj)).2.2.2
      _ rfl _ rfl
  refine ⟨?_, ?_⟩
  · intro j hj
    obtain ⟨e, -, -, -⟩ := hm j (by omega)
    rw [e, hbal j hj]
    split_ifs
    · simp
    · rfl
  · obtain ⟨e, ec, eH, eS⟩ := hm 12 (by omega)
    have hz : ((columnMesh : Mesh K).wall 12).nz = 1 := by simp [columnMesh, columnWall]
    have hS := eS hz (by rw [hL0, hR0]; norm_num)
    rw [hL0, hR0, hL4, hR4] at eH
    have hH : 0 < (HLLS_vars sqrt false hllsFlags.MULTI_TYPE (compute_fluxes_reconstruct hllsFlags
          (equilibrium_reconstruction hllsFlags (columnMesh : Mesh K) (eulerSim dt 3))
          (eulerSim dt 3)
          ((equilibrium_reconstruction hllsFlags (columnMesh : Mesh K)
            (eulerSim dt 3)).wall 12))).H_hat := by
      rw [eH]
      have s5 := hpos (5 : K) (by norm_num)
      have s7 := hpos (15 / 2 : K) (by norm_num)
      have hg : (0 : K) < gamma := gamma_pos
      apply div_pos
      · apply add_pos
        · apply mul_pos _ s5
          apply div_pos (mul_pos hg (by norm_num)) (by norm_num)
        · apply mul_pos _ s7
          apply div_pos (mul_pos hg (by norm_num)) (by norm_num)
      · exact add_pos s5 s7
    have hc : 0 < (HLLS_vars sqrt false hllsFlags.MULTI_TYPE (compute_fluxes_reconstruct hllsFlags
          (equilibrium_reconstruction hllsFlags (columnMesh : Mesh K) (eulerSim dt 3))
          (eulerSim dt 3)
          ((equilibrium_reconstruction hllsFlags (columnMesh : Mesh K)
            (eulerSim dt 3)).wall 12))).c_hat := by
      rw [ec]
      apply hpos
      apply mul_pos _ hH
      unfold gamma; norm_num
    rw [e, if_pos hc, hS, hL0, hR0, hL4, hR4]
    have hT : (0 : K) < TOL14 := TOL14_pos
    have hT1 : (TOL14 : K) < 1 := TOL14_lt_one
    have hq : (gamma - 1) * 10 - (gamma - 1) * (95 / 6) + (TOL14 : K) < 0 := by
      unfold gamma; linarith
    have hq' : (gamma - 1) * 10 - (gamma - 1) * (95 / 6) + (TOL14 : K) ≠ 0 := ne_of_lt hq
    have key : ((5 : K) - 15 / 2) - (5 - 15 / 2) * ((gamma - 1) * 10 - (gamma - 1) * (95 / 6))
        / ((gamma - 1) * 10 - (gamma - 1) * (95 / 6) + TOL14)
        = (-5 / 2) * TOL14 / ((gamma - 1) * 10 - (gamma - 1) * (95 / 6) + TOL14) := by
      rw [eq_div_iff hq', sub_mul, div_mul_cancel₀ _ hq']
      ring
    rw [key]
    apply mul_neg_of_neg_of_pos
    · exact neg_neg_of_pos (div_pos hc (by norm_num))
    · apply div_pos_of_neg_of_neg _ hq
      linarith

/-- The HLLS mass fluxes at the six walls of a cell in hydrostatic
equilibrium, in closed form, with the Roe sound speed and the equilibrium
pressures they are built from. -/
lemma hydrostatic_mass_fluxes (sqrt : K → K) (fl : Flags) (M0 : Mesh K) (sim : Sim K) (i : Nat)
    (h : HydrostaticCell fl M0 sim i) :
    (∀ j, (j = (M0.cell i).w5 ∨ j = (M0.cell i).w6) →
      (first_stage_wall fl M0 sim j).pRe - (first_stage_wall fl M0 sim j).pLe + TOL14 ≠ 0 →
      HLLS_mass_flux sqrt fl M0 sim j
        = (if 0 < (HLLS_vars sqrt false fl.MULTI_TYPE (first_stage_wall fl M0 sim j)).c_hat then
            -((HLLS_vars sqrt false fl.MULTI_TYPE (first_stage_wall fl M0 sim j)).c_hat / 2)
              * ((first_stage_wall fl M0 sim j).UR 0 - (first_stage_wall fl M0 sim j).UL 0)
              * TOL14
              / ((first_stage_wall fl M0 sim j).pRe - (first_stage_wall fl M0 sim j).pLe
                + TOL14)
          else 0))
    ∧ (∀ j, (j = (M0.cell i).w1 ∨ j = (M0.cell i).w2 ∨ j = (M0.cell i).w3
          ∨ j = (M0.cell i).w4) →
      HLLS_mass_flux sqrt fl M0 sim j
        = (if 0 < (HLLS_vars sqrt false fl.MULTI_TYPE (first_stage_wall fl M0 sim j)).c_hat then
            -((HLLS_vars sqrt false fl.MULTI_TYPE (first_stage_wall fl M0 sim j)).c_hat / 2)
              * ((first_stage_wall fl M0 sim j).UR 0 - (first_stage_wall fl M0 sim j).UL 0)
          else 0))
    ∧ (∀ j, (j = (M0.cell i).w1 ∨ j = (M0.cell i).w2 ∨ j = (M0.cell i).w3
          ∨ j = (M0.cell i).w4 ∨ j = (M0.cell i).w5 ∨ j = (M0.cell i).w6) →
      (HLLS_vars sqrt false fl.MULTI_TYPE (first_stage_wall fl M0 sim j)).c_hat
        = sqrt ((gamma - 1)
            * ((gamma * (first_stage_wall fl M0 sim j).UR 4 / (first_stage_wall fl M0 sim j).UR 0
                  * sqrt ((first_stage_wall fl M0 sim j).UR 0)
                + gamma * (first_stage_wall fl M0 sim j).UL 4
                  / (first_stage_wall fl M0 sim j).UL 0
                  * sqrt ((first_stage_wall fl M0 sim j).UL 0))
              / (sqrt ((first_stage_wall fl M0 sim j).UR 0)
                + sqrt ((first_stage_wall fl M0 sim j).UL 0))))
      ∧ (first_stage_wall fl M0 sim j).pRe = (gamma - 1) * (first_stage_wall fl M0 sim j).UR 4
      ∧ (first_stage_wall fl M0 sim j).pLe
        = (gamma - 1) * (first_stage_wall fl M0 sim j).UL 4) := by
  have hm : ∀ j, (j = (M0.cell i).w1 ∨ j = (M0.cell i).w2 ∨ j = (M0.cell i).w3
        ∨ j = (M0.cell i).w4 ∨ j = (M0.cell i).w5 ∨ j = (M0.cell i).w6) → _ := fun j hj =>
    balanced_wall_mass sqrt fl M0 sim j (h.walls j hj).1 (h.walls j hj).2.1 h.source_mode
      h.nvar_ge h.equilibrium h.rest (h.walls j hj).2.2.1 (h.walls j hj).2.2.2
      (first_stage_wall fl M0 sim j) rfl
      (HLLS_vars sqrt false fl.MULTI_TYPE (first_stage_wall fl M0 sim j)) rfl
  have hst : ∀ j, (j = (M0.cell i).w1 ∨ j = (M0.cell i).w2 ∨ j = (M0.cell i).w3
        ∨ j = (M0.cell i).w4 ∨ j = (M0.cell i).w5 ∨ j = (M0.cell i).w6) → _ := fun j hj =>
    balanced_wall_states fl M0 sim j (h.walls j hj).1 (by rw [(h.walls j hj).2.1]; decide)
      h.source_mode h.nvar_ge h.equilibrium h.rest (h.walls j hj).2.2.1 (h.walls j hj).2.2.2
  refine ⟨?_, ?_, ?_⟩
  · intro j hj hden
    have hj6 : j = (M0.cell i).w1 ∨ j = (M0.cell i).w2 ∨ j = (M0.cell i).w3
        ∨ j = (M0.cell i).w4 ∨ j = (M0.cell i).w5 ∨ j = (M0.cell i).w6 := by
      rcases hj with e | e
      · exact Or.inr (Or.inr (Or.inr (Or.inr (Or.inl e))))
      · exact Or.inr (Or.inr (Or.inr (Or.inr (Or.inr e))))
    obtain ⟨e, -, -, eS⟩ := hm j hj6
    obtain ⟨-, -, ⟨eL0, eR0⟩, ⟨pL, pR⟩, -⟩ := hst j hj6
    obtain ⟨hl, hr⟩ := h.density_pos j hj
    have pL' : (first_stage_wall fl M0 sim j).pLe
        = (gamma - 1) * (first_stage_wall fl M0 sim j).UL 4 := pL
    have pR' : (first_stage_wall fl M0 sim j).pRe
        = (gamma - 1) * (first_stage_wall fl M0 sim j).UR 4 := pR
    have hl' : 0 < (first_stage_wall fl M0 sim j).UL 0 := by
      have e1 : (first_stage_wall fl M0 sim j).UL 0 = (first_stage_wall fl M0 sim j).ULe 0 :=
        eL0.symm
      rw [e1]
      exact hl
    have hr' : 0 < (first_stage_wall fl M0 sim j).UR 0 := by
      have e1 : (first_stage_wall fl M0 sim j).UR 0 = (first_stage_wall fl M0 sim j).URe 0 :=
        eR0.symm
      rw [e1]
      exact hr
    have hS := eS (h.normals_z j hj).2.2 (ne_of_gt (add_pos hr' hl'))
    have hflux : HLLS_mass_flux sqrt fl M0 sim j
        = HLLS_F_star_L (first_stage_wall fl M0 sim j)
          (HLLS_vars sqrt false fl.MULTI_TYPE (first_stage_wall fl M0 sim j)) 0 := rfl
    rw [hflux, e, hS, pR', pL']
    rw [pR', pL'] at hden
    split_ifs
    · rw [eq_div_iff hden]
      have hq := div_mul_cancel₀ (((first_stage_wall fl M0 sim j).UR 0
          - (first_stage_wall fl M0 sim j).UL 0)
        * ((gamma - 1) * (first_stage_wall fl M0 sim j).UR 4
          - (gamma - 1) * (first_stage_wall fl M0 sim j).UL 4)) hden
      rw [mul_assoc, sub_mul, hq]
      ring
    · rfl
  · intro j hj
    have hj6 : j = (M0.cell i).w1 ∨ j = (M0.cell i).w2 ∨ j = (M0.cell i).w3
        ∨ j = (M0.cell i).w4 ∨ j = (M0.cell i).w5 ∨ j = (M0.cell i).w6 := by
      rcases hj with e | e | e | e
      · exact Or.inl e
      · exact Or.inr (Or.inl e)
      · exact Or.inr (Or.inr (Or.inl e))
      · exact Or.inr (Or.inr (Or.inr (Or.inl e)))
    obtain ⟨e, -, -, -⟩ := hm j hj6
    obtain ⟨-, -, -, -, -, ⟨-, -, enz⟩, -⟩ := hst j hj6
    have hz : (M0.wall j).nz = 0 := by
      rcases hj with e | e | e | e
      · exact (h.normals_y j (Or.inl e)).2.2
      · exact (h.normals_x j (Or.inl e)).2.2
      · exact (h.normals_y j (Or.inr e)).2.2
      · exact (h.normals_x j (Or.inr e)).2.2
    have hS : HLLS_S (first_stage_wall fl M0 sim j)
        (HLLS_vars sqrt false fl.MULTI_TYPE (first_stage_wall fl M0 sim j)) 1 = 0 := by
      obtain ⟨-, s1, -⟩ := HLLS_S_values (first_stage_wall fl M0 sim j)
        (HLLS_vars sqrt false fl.MULTI_TYPE (first_stage_wall fl M0 sim j))
      have enz' : (first_stage_wall fl M0 sim j).nz = (M0.wall j).nz := enz
      have habs : ¬ ABS (first_stage_wall fl M0 sim j).nz > (TOL14 : K) := by
        rw [enz', hz]; simp only [ABS]; norm_num; exact TOL14_pos.le
      rw [s1, if_neg habs]
    have hflux : HLLS_mass_flux sqrt fl M0 sim j
        = HLLS_F_star_L (first_stage_wall fl M0 sim j)
          (HLLS_vars sqrt false fl.MULTI_TYPE (first_stage_wall fl M0 sim j)) 0 := rfl
    rw [hflux, e, hS, mul_zero, zero_div, sub_zero]
  · intro j hj
    obtain ⟨-, ec, eH, -⟩ := hm j hj
    obtain ⟨-, -, -, ⟨pL, pR⟩, -⟩ := hst j hj
    refine ⟨?_, pR, pL⟩
    rw [ec, eH]

lemma real_sqrt_sq : ∀ x : ℝ, 0 < Real.sqrt x → Real.sqrt x * Real.sqrt x = x := by
  intro x hx
  exact Real.mul_self_sqrt (le_of_lt (Real.sqrt_pos.mp hx))

/-- Claim C6 (amended), in exact real arithmetic (the rounding of the
double-precision code is not modelled): in source mode 1 with the HLLS solver,
for a cell that satisfies `HydrostaticCell` (every cell state equals its
equilibrium state with zero momentum, the cell is integrated and interior, its
six walls are interior walls with axis-aligned normals, the energy is uniform
across its lateral walls, the equilibrium densities at its z-walls are
positive), one first-stage sub-step (`equilibrium_reconstruction`,
`compute_fluxes` with `compute_euler_HLLS`, `compute_source`, `update_cellK1`)
returns a mesh in which the three momentum components and the energy of the
cell are unchanged, and the density has changed by `dt` times the divergence
of the HLLS mass fluxes at its six walls.  Those mass fluxes are, with `c_hat`
the Roe sound speed of the wall and `UL`, `UR`, `pLe`, `pRe` the states and
equilibrium pressures the solver reads there: at a z-wall with
`pRe - pLe + TOL14` not zero, `-(c_hat/2) * (UR[0] - UL[0]) * TOL14 /
(pRe - pLe + TOL14)`; at a lateral wall, `-(c_hat/2) * (UR[0] - UL[0])`; and 0
where `c_hat` is not positive. -/
theorem hydrostatic_momentum_energy_preserved (fl : Flags) (M0 : Mesh ℝ) (sim : Sim ℝ) (i : Nat)
    (h : HydrostaticCell fl M0 sim i) :
    (∃ M4 : Mesh ℝ, first_stage Real.sqrt fl M0 sim = some M4
      ∧ ((M4.cell i).U 1 = (M0.cell i).U 1 ∧ (M4.cell i).U 2 = (M0.cell i).U 2
        ∧ (M4.cell i).U 3 = (M0.cell i).U 3 ∧ (M4.cell i).U 4 = (M0.cell i).U 4)
      ∧ (M4.cell i).U 0 = (M0.cell i).U 0 - sim.dt *
          ((HLLS_mass_flux Real.sqrt fl M0 sim (M0.cell i).w2
              - HLLS_mass_flux Real.sqrt fl M0 sim (M0.cell i).w4) / (M0.cell i).dx
            + (HLLS_mass_flux Real.sqrt fl M0 sim (M0.cell i).w3
              - HLLS_mass_flux Real.sqrt fl M0 sim (M0.cell i).w1) / (M0.cell i).dy
            + (HLLS_mass_flux Real.sqrt fl M0 sim (M0.cell i).w6
              - HLLS_mass_flux Real.sqrt fl M0 sim (M0.cell i).w5) / (M0.cell i).dz
            - (M0.cell i).S 0))
    ∧ (∀ j, (j = (M0.cell i).w5 ∨ j = (M0.cell i).w6) →
      (first_stage_wall fl M0 sim j).pRe - (first_stage_wall fl M0 sim j).pLe + TOL14 ≠ 0 →
      HLLS_mass_flux Real.sqrt fl M0 sim j
        = (if 0 < (HLLS_vars Real.sqrt false fl.MULTI_TYPE
              (first_stage_wall fl M0 sim j)).c_hat then
            -((HLLS_vars Real.sqrt false fl.MULTI_TYPE (first_stage_wall fl M0 sim j)).c_hat / 2)
              * ((first_stage_wall fl M0 sim j).UR 0 - (first_stage_wall fl M0 sim j).UL 0)
              * TOL14
              / ((first_stage_wall fl M0 sim j).pRe - (first_stage_wall fl M0 sim j).pLe
                + TOL14)
          else 0))
    ∧ (∀ j, (j = (M0.cell i).w1 ∨ j = (M0.cell i).w2 ∨ j = (M0.cell i).w3
          ∨ j = (M0.cell i).w4) →
      HLLS_mass_flux Real.sqrt fl M0 sim j
        = (if 0 < (HLLS_vars Real.sqrt false fl.MULTI_TYPE
              (first_stage_wall fl M0 sim j)).c_hat then
            -((HLLS_vars Real.sqrt false fl.MULTI_TYPE (first_stage_wall fl M0 sim j)).c_hat / 2)
              * ((first_stage_wall fl M0 sim j).UR 0 - (first_stage_wall fl M0 sim j).UL 0)
          else 0))
    ∧ (∀ j, (j = (M0.cell i).w1 ∨ j = (M0.cell i).w2 ∨ j = (M0.cell i).w3
          ∨ j = (M0.cell i).w4 ∨ j = (M0.cell i).w5 ∨ j = (M0.cell i).w6) →
      (HLLS_vars Real.sqrt false fl.MULTI_TYPE (first_stage_wall fl M0 sim j)).c_hat
        = Real.sqrt ((gamma - 1)
            * ((gamma * (first_stage_wall fl M0 sim j).UR 4 / (first_stage_wall fl M0 sim j).UR 0
                  * Real.sqrt ((first_stage_wall fl M0 sim j).UR 0)
                + gamma * (first_stage_wall fl M0 sim j).UL 4
                  / (first_stage_wall fl M0 sim j).UL 0
                  * Real.sqrt ((first_stage_wall fl M0 sim j).UL 0))
              / (Real.sqrt ((first_stage_wall fl M0 sim j).UR 0)
                + Real.sqrt ((first_stage_wall fl M0 sim j).UL 0))))
      ∧ (first_stage_wall fl M0 sim j).pRe = (gamma - 1) * (first_stage_wall fl M0 sim j).UR 4
      ∧ (first_stage_wall fl M0 sim j).pLe
        = (gamma - 1) * (first_stage_wall fl M0 sim j).UL 4) :=
  ⟨first_stage_balanced Real.sqrt real_sqrt_sq fl M0 sim i h
      (HLLS_mass_flux Real.sqrt fl M0 sim) (fun _ => rfl),
    hydrostatic_mass_fluxes Real.sqrt fl M0 sim i h⟩

/-- The middle cell of `columnMesh` satisfies the premises of
`hydrostatic_momentum_energy_preserved` with `dt = 1`, and the first stage
leaves its momentum and its energy as they were. -/
theorem hydrostatic_momentum_energy_preserved_witness :
    HydrostaticCell hllsFlags (columnMesh : Mesh ℝ) (eulerSim 1 3) 1
    ∧ ∃ M4 : Mesh ℝ, first_stage Real.sqrt hllsFlags (columnMesh : Mesh ℝ) (eulerSim 1 3)
        = some M4
      ∧ ((M4.cell 1).U 1 = ((columnMesh : Mesh ℝ).cell 1).U 1
        ∧ (M4.cell 1).U 2 = ((columnMesh : Mesh ℝ).cell 1).U 2
        ∧ (M4.cell 1).U 3 = ((columnMesh : Mesh ℝ).cell 1).U 3
        ∧ (M4.cell 1).U 4 = ((columnMesh : Mesh ℝ).cell 1).U 4) :=
  ⟨column_hydrostatic _,
    (hydrostatic_momentum_energy_preserved hllsFlags columnMesh (eulerSim 1 3) 1
      (column_hydrostatic _)).1.imp (fun _ hM => ⟨hM.1, hM.2.1⟩)⟩

/-- Claim C6 as stated fails on `columnMesh` with `dt = 1`: every cell state
equals its equilibrium state with zero momentum, the middle cell is integrated
and interior, and the first-stage sub-step with the HLLS solver in source mode
1 returns a mesh in which the density of the middle cell has grown. The mass
flux at its upper z-wall is `-(c_hat/2) * (rhoR - rhoL) * TOL14 / (pRe - pLe + TOL14)`
with `rhoL = 15/2`, `rhoR = 5` and `pRe - pLe = -7/3`, a negative number which
the guard `TOL14` in `psi` keeps away from zero. -/
theorem hydrostatic_density_changes :
    HydrostaticCell hllsFlags (columnMesh : Mesh ℝ) (eulerSim 1 3) 1
    ∧ ∃ M4 : Mesh ℝ, first_stage Real.sqrt hllsFlags (columnMesh : Mesh ℝ) (eulerSim 1 3)
        = some M4
      ∧ ((columnMesh : Mesh ℝ).cell 1).U 0 < (M4.cell 1).U 0 := by
  refine ⟨column_hydrostatic _, ?_⟩
  obtain ⟨M4, hM, -, h0⟩ := first_stage_balanced Real.sqrt real_sqrt_sq hllsFlags
    (columnMesh : Mesh ℝ) (eulerSim 1 3) 1 (column_hydrostatic _)
    (HLLS_mass_flux Real.sqrt hllsFlags (columnMesh : Mesh ℝ) (eulerSim 1 3))
    (fun _ => rfl)
  refine ⟨M4, hM, ?_⟩
  obtain ⟨hz, hneg⟩ := column_mass_fluxes Real.sqrt (fun x hx => Real.sqrt_pos.mpr hx)
    (1 : ℝ)
  have e2 : ((columnMesh : Mesh ℝ).cell 1).w2 = 8 := rfl
  have e4 : ((columnMesh : Mesh ℝ).cell 1).w4 = 6 := rfl
  have e3 : ((columnMesh : Mesh ℝ).cell 1).w3 = 9 := rfl
  have e1 : ((columnMesh : Mesh ℝ).cell 1).w1 = 5 := rfl
  have e6 : ((columnMesh : Mesh ℝ).cell 1).w6 = 12 := by simp [columnMesh, columnCell]
  have e5 : ((columnMesh : Mesh ℝ).cell 1).w5 = 7 := rfl
  have ex : ((columnMesh : Mesh ℝ).cell 1).dx = 1 := rfl
  have ey : ((columnMesh : Mesh ℝ).cell 1).dy = 1 := rfl
  have ez : ((columnMesh : Mesh ℝ).cell 1).dz = 1 := rfl
  have eS : ((columnMesh : Mesh ℝ).cell 1).S 0 = 0 := rfl
  have edt : (eulerSim (1 : ℝ) 3).dt = 1 := rfl
  have m8 : HLLS_mass_flux Real.sqrt hllsFlags (columnMesh : Mesh ℝ) (eulerSim 1 3) 8 = 0 :=
    hz 8 (by omega)
  have m6 : HLLS_mass_flux Real.sqrt hllsFlags (columnMesh : Mesh ℝ) (eulerSim 1 3) 6 = 0 :=
    hz 6 (by omega)
  have m9 : HLLS_mass_flux Real.sqrt hllsFlags (columnMesh : Mesh ℝ) (eulerSim 1 3) 9 = 0 :=
    hz 9 (by omega)
  have m5 : HLLS_mass_flux Real.sqrt hllsFlags (columnMesh : Mesh ℝ) (eulerSim 1 3) 5 = 0 :=
    hz 5 (by omega)
  have m7 : HLLS_mass_flux Real.sqrt hllsFlags (columnMesh : Mesh ℝ) (eulerSim 1 3) 7 = 0 :=
    hz 7 (by omega)
  have m12 : HLLS_mass_flux Real.sqrt hllsFlags (columnMesh : Mesh ℝ) (eulerSim 1 3) 12
      < 0 := hneg
  rw [h0, e2, e4, e3, e1, e6, e5, ex, ey, ez, eS, edt, m8, m6, m9, m5, m7]
  linarith

/-! ## Frame of the integrator, time step, boundary fluxes -/

/-- Claim C11: each of `update_cell`, `update_cellK1`, `update_cellK2` and
`update_cellK3` returns every cell with `type = 0` (solid) or `ghost = 1` as it
was, changes no field of any cell other than `U` and `U_aux`, and changes no
field of the mesh other than the cell array. -/
theorem update_cell_frame (mesh : Mesh K) (sim : Sim K) (i : Nat) (M : Mesh K) :
    M = update_cell mesh sim ∨ M = update_cellK1 mesh sim ∨ M = update_cellK2 mesh sim
        ∨ M = update_cellK3 mesh sim →
      (((mesh.cell i).type = 0 ∨ (mesh.cell i).ghost = 1) → M.cell i = mesh.cell i)
      ∧ { M.cell i with U := (mesh.cell i).U, U_aux := (mesh.cell i).U_aux } = mesh.cell i
      ∧ { M with cell := mesh.cell } = mesh := by
  intro h
  have hskip : ((mesh.cell i).type = 0 ∨ (mesh.cell i).ghost = 1) →
      ¬ ((mesh.cell i).type ≠ 0 ∧ (mesh.cell i).ghost ≠ 1) := by
    rintro (h0 | h1) ⟨a, b⟩
    · exact a h0
    · exact b h1
  rcases h with h | h | h | h <;> subst h
  · refine ⟨fun hs => ?_, ?_, rfl⟩
    · rw [update_cell_cell, if_neg (hskip hs)]; simp
    · rw [update_cell_cell]; split_ifs <;> rfl
  · refine ⟨fun hs => ?_, ?_, rfl⟩
    · rw [update_cellK1_cell, if_neg (hskip hs)]; simp
    · rw [update_cellK1_cell]; split_ifs <;> rfl
  · refine ⟨fun hs => ?_, ?_, rfl⟩
    · rw [update_cellK2_cell, if_neg (hskip hs)]; simp
    · rw [update_cellK2_cell]; split_ifs <;> rfl
  · refine ⟨fun hs => ?_, ?_, rfl⟩
    · rw [update_cellK3_cell, if_neg (hskip hs)]; simp
    · rw [update_cellK3_cell]; split_ifs <;> rfl

/-- Instance of `update_cell_frame`: `update_cellK1` on `ghostMesh`, cell 0. -/
theorem update_cell_frame_witness :
    ((((ghostMesh : Mesh ℚ).cell 0).type = 0 ∨ ((ghostMesh : Mesh ℚ).cell 0).ghost = 1) →
        (update_cellK1 (ghostMesh : Mesh ℚ) (eulerSim 1 3)).cell 0 = (ghostMesh : Mesh ℚ).cell 0)
      ∧ { (update_cellK1 (ghostMesh : Mesh ℚ) (eulerSim 1 3)).cell 0 with
          U := ((ghostMesh : Mesh ℚ).cell 0).U, U_aux := ((ghostMesh : Mesh ℚ).cell 0).U_aux }
        = (ghostMesh : Mesh ℚ).cell 0
      ∧ { update_cellK1 (ghostMesh : Mesh ℚ) (eulerSim 1 3) with cell := (ghostMesh : Mesh ℚ).cell }
        = (ghostMesh : Mesh ℚ) :=
  update_cell_frame ghostMesh (eulerSim 1 3) 0 _ (Or.inr (Or.inl rfl))

/-- Claim C12: `update_dt` returns, whenever the quotient
`CFL*min(dx,dy,dz)/lambda_max` is a number or `+inf` (`lambda_max` is not
zero, or the numerator is positive), the simulation parameters with
`dt = CFL*min(dx,dy,dz)/lambda_max`, except when `t` plus that value exceeds
`tf` (as `+inf` does), in which case `dt = tf - t + TOL14`; it changes nothing
else; after the call `t + dt <= tf + TOL14`; and after a clipped step the new
time `t + dt` is not below `tf`, so that the condition `t < tf` of the time
loop is false. -/
theorem update_dt_clipped (mesh : Mesh K) (sim : Sim K)
    (h : mesh.lambda_max ≠ 0 ∨ 0 < sim.CFL * min (min mesh.dx mesh.dy) mesh.dz) :
    ∃ s : Sim K, update_dt mesh sim = some s
      ∧ s.dt
        = (if mesh.lambda_max = 0
              ∨ sim.t + sim.CFL * min (min mesh.dx mesh.dy) mesh.dz / mesh.lambda_max > sim.tf
            then sim.tf - sim.t + TOL14
            else sim.CFL * min (min mesh.dx mesh.dy) mesh.dz / mesh.lambda_max)
      ∧ { s with dt := sim.dt } = sim
      ∧ sim.t + s.dt ≤ sim.tf + TOL14
      ∧ ((mesh.lambda_max = 0
            ∨ sim.t + sim.CFL * min (min mesh.dx mesh.dy) mesh.dz / mesh.lambda_max > sim.tf) →
          ¬ (sim.t + s.dt < sim.tf)) := by
  have hmin : ∀ x y : K, MIN x y = min x y := by
    intro x y
    unfold MIN
    by_cases h : x < y
    · rw [if_pos h, min_eq_left (le_of_lt h)]
    · rw [if_neg h, min_eq_right (not_lt.mp h)]
  have hT : (0 : K) < TOL14 := TOL14_pos
  have e : update_dt mesh sim
      = if mesh.lambda_max = 0 then
          (if sim.CFL * min (min mesh.dx mesh.dy) mesh.dz > 0
            then some { sim with dt := sim.tf - sim.t + TOL14 } else none)
        else
          (if sim.CFL * min (min mesh.dx mesh.dy) mesh.dz / mesh.lambda_max + sim.t > sim.tf
            then some { sim with dt := sim.tf - sim.t + TOL14 }
            else some { sim with
              dt := sim.CFL * min (min mesh.dx mesh.dy) mesh.dz / mesh.lambda_max }) := by
    unfold update_dt
    simp only [hmin]
  have hclip : sim.t + (sim.tf - sim.t + TOL14) ≤ sim.tf + TOL14
      ∧ ¬ (sim.t + (sim.tf - sim.t + TOL14) < sim.tf) :=
    ⟨by linarith, fun hlt => by linarith⟩
  by_cases h0 : mesh.lambda_max = 0
  · have hnum : sim.CFL * min (min mesh.dx mesh.dy) mesh.dz > 0 := by
      rcases h with h | h
      · exact absurd h0 h
      · exact h
    refine ⟨{ sim with dt := sim.tf - sim.t + TOL14 }, ?_, ?_, rfl, hclip.1, fun _ => hclip.2⟩
    · rw [e, if_pos h0, if_pos hnum]
    · rw [if_pos (Or.inl h0)]
  · by_cases hc : sim.CFL * min (min mesh.dx mesh.dy) mesh.dz / mesh.lambda_max + sim.t > sim.tf
    · have hc' : sim.t + sim.CFL * min (min mesh.dx mesh.dy) mesh.dz / mesh.lambda_max
          > sim.tf := by
        rw [add_comm]; exact hc
      refine ⟨{ sim with dt := sim.tf - sim.t + TOL14 }, ?_, ?_, rfl, hclip.1,
        fun _ => hclip.2⟩
      · rw [e, if_neg h0, if_pos hc]
      · rw [if_pos (Or.inr hc')]
    · have hc' : ¬ (sim.t + sim.CFL * min (min mesh.dx mesh.dy) mesh.dz / mesh.lambda_max
          > sim.tf) := by
        rw [add_comm]; exact hc
      have hor : ¬ (mesh.lambda_max = 0
          ∨ sim.t + sim.CFL * min (min mesh.dx mesh.dy) mesh.dz / mesh.lambda_max > sim.tf) :=
        fun ho => ho.elim h0 hc'
      refine ⟨{ sim with
        dt := sim.CFL * min (min mesh.dx mesh.dy) mesh.dz / mesh.lambda_max }, ?_, ?_, rfl, ?_,
        fun ho => absurd ho hor⟩
      · rw [e, if_neg h0, if_neg hc]
      · rw [if_neg hor]
      · show sim.t + sim.CFL * min (min mesh.dx mesh.dy) mesh.dz / mesh.lambda_max
          ≤ sim.tf + TOL14
        have := not_lt.mp hc'
        linarith

/-- Instance of `update_dt_clipped`: no wave speed recorded (`lambda_max = 0`),
`CFL = 1/2`, unit cells, `t = 1/4`, `tf = 1`; the step is clipped to
`3/4 + TOL14`. -/
theorem update_dt_clipped_witness :
    ((stillMesh : Mesh ℚ).lambda_max = 0
      ∧ 0 < (quarterSim : Sim ℚ).CFL
          * min (min (stillMesh : Mesh ℚ).dx (stillMesh : Mesh ℚ).dy) (stillMesh : Mesh ℚ).dz)
    ∧ ∃ s : Sim ℚ, update_dt (stillMesh : Mesh ℚ) quarterSim = some s
      ∧ s.dt = 3 / 4 + TOL14 := by
  have hnum : 0 < (quarterSim : Sim ℚ).CFL
      * min (min (stillMesh : Mesh ℚ).dx (stillMesh : Mesh ℚ).dy) (stillMesh : Mesh ℚ).dz := by
    show (0 : ℚ) < 1 / 2 * min (min 1 1) 1
    norm_num
  obtain ⟨s, hs, hdt, -⟩ := update_dt_clipped (stillMesh : Mesh ℚ) quarterSim (Or.inr hnum)
  refine ⟨⟨rfl, hnum⟩, s, hs, ?_⟩
  rw [hdt, if_pos (Or.inl (show (stillMesh : Mesh ℚ).lambda_max = 0 from rfl))]
  show (1 : ℚ) - 1 / 4 + TOL14 = 3 / 4 + TOL14
  norm_num

/-- The flux `compute_transmissive_euler` writes, for a single gamma and an
axis-unit normal: in components 0..4 both wall fluxes are the physical Euler
flux of the inner state (`UR` for faces 1, 4, 5, `UL` otherwise) with the
pressure `(gamma-1)*(E - rho*|v|^2/2)`, whatever the source mode. -/
lemma transmissive_flux (mt : Nat) (wall : Wall K) (wp : Int)
    (hn : (wall.nx = 1 ∧ wall.ny = 0 ∧ wall.nz = 0) ∨ (wall.nx = 0 ∧ wall.ny = 1 ∧ wall.nz = 0)
      ∨ (wall.nx = 0 ∧ wall.ny = 0 ∧ wall.nz = 1))
    (hrho : (if wp = 1 ∨ wp = 4 ∨ wp = 5 then wall.UR else wall.UL) 0 ≠ 0)
    (m : Nat) (hm : m < 5) :
    (compute_transmissive_euler false mt wall wp).fR_star m
        = euler_flux wall.nx wall.ny wall.nz
            (if wp = 1 ∨ wp = 4 ∨ wp = 5 then wall.UR else wall.UL) m
    ∧ (compute_transmissive_euler false mt wall wp).fL_star m
        = euler_flux wall.nx wall.ny wall.nz
            (if wp = 1 ∨ wp = 4 ∨ wp = 5 then wall.UR else wall.UL) m := by
  have key : ∀ U : Nat → K, U 0 ≠ 0 →
      inverse_rotation wall.nx wall.ny wall.nz
        (rotated_flux (rotation wall.nx wall.ny wall.nz U)
          ((gamma - 1) * (rotation wall.nx wall.ny wall.nz U 4
            - 1 / 2 * rotation wall.nx wall.ny wall.nz U 0
            * (rotation wall.nx wall.ny wall.nz U 1 / rotation wall.nx wall.ny wall.nz U 0
                * (rotation wall.nx wall.ny wall.nz U 1 / rotation wall.nx wall.ny wall.nz U 0)
              + rotation wall.nx wall.ny wall.nz U 2 / rotation wall.nx wall.ny wall.nz U 0
                * (rotation wall.nx wall.ny wall.nz U 2 / rotation wall.nx wall.ny wall.nz U 0)
              + rotation wall.nx wall.ny wall.nz U 3 / rotation wall.nx wall.ny wall.nz U 0
                * (rotation wall.nx wall.ny wall.nz U 3
                  / rotation wall.nx wall.ny wall.nz U 0))))) wall.fR_star m
        = euler_flux wall.nx wall.ny wall.nz U m :=
    fun U hU => inverse_rotation_rotated_flux _ _ _ U _ hU hn m hm
  have hfR : (compute_transmissive_euler false mt wall wp).fR_star m
      = euler_flux wall.nx wall.ny wall.nz
          (if wp = 1 ∨ wp = 4 ∨ wp = 5 then wall.UR else wall.UL) m := by
    by_cases hw : wp = 1 ∨ wp = 4 ∨ wp = 5
    · rw [if_pos hw] at hrho ⊢
      rw [← key wall.UR hrho]
      unfold compute_transmissive_euler
      simp only [Bool.false_eq_true, if_false, if_pos hw]
      congr 1
    · rw [if_neg hw] at hrho ⊢
      rw [← key wall.UL hrho]
      unfold compute_transmissive_euler
      simp only [Bool.false_eq_true, if_false, if_neg hw]
      congr 1
  refine ⟨hfR, ?_⟩
  have : (compute_transmissive_euler false mt wall wp).fL_star m
      = (compute_transmissive_euler false mt wall wp).fR_star m := by
    simp only [compute_transmissive_euler, hm, if_true]
  rw [this, hfR]

/-- Claim C19, evaluated in source mode 3 on `gravityWall` (face 2, inner
state `UL` at rest with density 1 at height 1, `E = 123/10`):
`compute_transmissive_euler` writes the normal momentum flux `123/25`, the
pressure `(gamma-1)*E` without the `rho*g*z` term, on both sides, whereas the
physical flux with the pressure that `pressure_from_energy` returns in mode 3
is 1; the other components (all 0) agree. -/
theorem transmissive_flux_mode3_example :
    (compute_transmissive_euler false 2 (gravityWall : Wall ℚ) 2).fR_star 1 = 123 / 25
    ∧ (compute_transmissive_euler false 2 (gravityWall : Wall ℚ) 2).fL_star 1 = 123 / 25
    ∧ pressure_from_energy 3 gamma ((gravityWall : Wall ℚ).UL 4)
        ((gravityWall : Wall ℚ).UL 1 / (gravityWall : Wall ℚ).UL 0)
        ((gravityWall : Wall ℚ).UL 2 / (gravityWall : Wall ℚ).UL 0)
        ((gravityWall : Wall ℚ).UL 3 / (gravityWall : Wall ℚ).UL 0)
        ((gravityWall : Wall ℚ).UL 0) (gravityWall : Wall ℚ).z = 1
    ∧ euler_flux_with (gravityWall : Wall ℚ).nx (gravityWall : Wall ℚ).ny (gravityWall : Wall ℚ).nz
        (gravityWall : Wall ℚ).UL
        (pressure_from_energy 3 gamma ((gravityWall : Wall ℚ).UL 4)
          ((gravityWall : Wall ℚ).UL 1 / (gravityWall : Wall ℚ).UL 0)
          ((gravityWall : Wall ℚ).UL 2 / (gravityWall : Wall ℚ).UL 0)
          ((gravityWall : Wall ℚ).UL 3 / (gravityWall : Wall ℚ).UL 0)
          ((gravityWall : Wall ℚ).UL 0) (gravityWall : Wall ℚ).z) 1 = 1
    ∧ ∀ m, m < 5 → m ≠ 1 →
        (compute_transmissive_euler false 2 (gravityWall : Wall ℚ) 2).fR_star m
          = euler_flux_with (gravityWall : Wall ℚ).nx (gravityWall : Wall ℚ).ny
              (gravityWall : Wall ℚ).nz (gravityWall : Wall ℚ).UL
              (pressure_from_energy 3 gamma ((gravityWall : Wall ℚ).UL 4)
                ((gravityWall : Wall ℚ).UL 1 / (gravityWall : Wall ℚ).UL 0)
                ((gravityWall : Wall ℚ).UL 2 / (gravityWall : Wall ℚ).UL 0)
                ((gravityWall : Wall ℚ).UL 3 / (gravityWall : Wall ℚ).UL 0)
                ((gravityWall : Wall ℚ).UL 0) (gravityWall : Wall ℚ).z) m := by
  have hp : pressure_from_energy 3 gamma ((gravityWall : Wall ℚ).UL 4)
        ((gravityWall : Wall ℚ).UL 1 / (gravityWall : Wall ℚ).UL 0)
        ((gravityWall : Wall ℚ).UL 2 / (gravityWall : Wall ℚ).UL 0)
        ((gravityWall : Wall ℚ).UL 3 / (gravityWall : Wall ℚ).UL 0)
        ((gravityWall : Wall ℚ).UL 0) (gravityWall : Wall ℚ).z = 1 := by
    simp only [pressure_from_energy, gravityWall, zeroWall, state6, gamma, g]
    norm_num
  refine ⟨?_, ?_, hp, ?_, ?_⟩
  · simp only [compute_transmissive_euler, gravityWall, zeroWall, state6, gamma, rotation,
      inverse_rotation]
    norm_num
  · simp only [compute_transmissive_euler, gravityWall, zeroWall, state6, gamma, rotation,
      inverse_rotation]
    norm_num
  · rw [hp]
    simp only [euler_flux_with, gravityWall, zeroWall, state6]
    norm_num
  · intro m hm hm1
    rw [hp]
    interval_cases m
    · simp only [compute_transmissive_euler, euler_flux_with, gravityWall, zeroWall, state6, gamma,
        rotation, inverse_rotation]
      norm_num
    · exact absurd rfl hm1
    · simp only [compute_transmissive_euler, euler_flux_with, gravityWall, zeroWall, state6, gamma,
        rotation, inverse_rotation]
      norm_num
    · simp only [compute_transmissive_euler, euler_flux_with, gravityWall, zeroWall, state6, gamma,
        rotation, inverse_rotation]
      norm_num
    · simp only [compute_transmissive_euler, euler_flux_with, gravityWall, zeroWall, state6, gamma,
        rotation, inverse_rotation]
      norm_num

/-- Outside source mode 3 the flux of `compute_transmissive_euler` is the
physical Euler flux of the inner state with the pressure that
`pressure_from_energy` returns at the wall (single gamma, axis-unit normal). -/
theorem transmissive_flux_without_gravity (ST mt : Nat) (wall : Wall K) (wp : Int)
    (hST : ST ≠ 3)
    (hn : (wall.nx = 1 ∧ wall.ny = 0 ∧ wall.nz = 0) ∨ (wall.nx = 0 ∧ wall.ny = 1 ∧ wall.nz = 0)
      ∨ (wall.nx = 0 ∧ wall.ny = 0 ∧ wall.nz = 1))
    (U : Nat → K) (hU : U = if wp = 1 ∨ wp = 4 ∨ wp = 5 then wall.UR else wall.UL)
    (hrho : U 0 ≠ 0) (m : Nat) (hm : m < 5) :
    (compute_transmissive_euler false mt wall wp).fR_star m
        = euler_flux_with wall.nx wall.ny wall.nz U
            (pressure_from_energy ST gamma (U 4) (U 1 / U 0) (U 2 / U 0) (U 3 / U 0) (U 0) wall.z) m
    ∧ (compute_transmissive_euler false mt wall wp).fL_star m
        = euler_flux_with wall.nx wall.ny wall.nz U
            (pressure_from_energy ST gamma (U 4) (U 1 / U 0) (U 2 / U 0) (U 3 / U 0) (U 0) wall.z)
            m := by
  have h := transmissive_flux mt wall wp hn (by rw [← hU]; exact hrho) m hm
  rw [← hU] at h
  have e : euler_flux_with wall.nx wall.ny wall.nz U
      (pressure_from_energy ST gamma (U 4) (U 1 / U 0) (U 2 / U 0) (U 3 / U 0) (U 0) wall.z)
      = euler_flux wall.nx wall.ny wall.nz U := by
    unfold pressure_from_energy
    rw [if_neg hST]
    rfl
  rw [e]
  exact h

/-- Claim C20 (amended): `compute_transport` takes the scalar flux from the
right state when the mass flux `fR*[0]` is below `TOL14` and from the left
state otherwise, copies it to `fL*[5]`, and leaves component 0 of both fluxes
as it was; components 1..4 are left as they were when `LINEAR_TRANSPORT` is
off and are set to 0 when it is on. -/
theorem transport_upwind (LINEAR_TRANSPORT : Bool) (wall : Wall K) :
    (compute_transport LINEAR_TRANSPORT wall).fR_star 5
        = (if wall.fR_star 0 < TOL14 then wall.fR_star 0 * wall.UR 5 / wall.UR 0
           else wall.fL_star 0 * wall.UL 5 / wall.UL 0)
    ∧ (compute_transport LINEAR_TRANSPORT wall).fL_star 5
        = (compute_transport LINEAR_TRANSPORT wall).fR_star 5
    ∧ (compute_transport LINEAR_TRANSPORT wall).fR_star 0 = wall.fR_star 0
    ∧ (compute_transport LINEAR_TRANSPORT wall).fL_star 0 = wall.fL_star 0
    ∧ (∀ k, 1 ≤ k ∧ k < 5 →
        (compute_transport LINEAR_TRANSPORT wall).fR_star k
            = (if LINEAR_TRANSPORT = true then 0 else wall.fR_star k)
        ∧ (compute_transport LINEAR_TRANSPORT wall).fL_star k
            = (if LINEAR_TRANSPORT = true then 0 else wall.fL_star k)) := by
  cases LINEAR_TRANSPORT
  · refine ⟨?_, ?_, ?_, ?_, ?_⟩
    · simp [compute_transport]
    · simp [compute_transport]
    · simp [compute_transport]
    · simp [compute_transport]
    · rintro k ⟨h1, h5⟩
      have hk : k ≠ 5 := by omega
      simp [compute_transport, Function.update_noteq hk]
  · refine ⟨?_, ?_, ?_, ?_, ?_⟩
    · simp [compute_transport]
    · simp [compute_transport]
    · simp [compute_transport]
    · simp [compute_transport]
    · rintro k ⟨h1, h5⟩
      have hk : k = 1 ∨ k = 2 ∨ k = 3 ∨ k = 4 := by omega
      simp [compute_transport, hk]

/-- Claim C20 as stated fails on `slowWall`: its mass flux `fR*[0] = TOL14/2`
is not negative, yet `compute_transport` (with `LINEAR_TRANSPORT` off) takes
the scalar flux from the right state, `TOL14/2`, and not `fL*[0]*UL[5]/UL[0]`,
which is `TOL14`. -/
theorem transport_upwind_threshold :
    0 ≤ (slowWall : Wall ℚ).fR_star 0
    ∧ (compute_transport false (slowWall : Wall ℚ)).fR_star 5
        ≠ (slowWall : Wall ℚ).fL_star 0 * (slowWall : Wall ℚ).UL 5 / (slowWall : Wall ℚ).UL 0 := by
  refine ⟨?_, ?_⟩
  · simp only [slowWall, state6, TOL14]
    norm_num
  · simp only [compute_transport, slowWall, zeroWall, state6, TOL14]
    norm_num

lemma rotation_mirror_state (nx ny nz : K) (U : Nat → K)
    (hn : (nx = 1 ∧ ny = 0 ∧ nz = 0) ∨ (nx = 0 ∧ ny = 1 ∧ nz = 0) ∨ (nx = 0 ∧ ny = 0 ∧ nz = 1)) :
    rotation nx ny nz (mirror_state nx ny nz U) 0 = rotation nx ny nz U 0
    ∧ rotation nx ny nz (mirror_state nx ny nz U) 1 = -rotation nx ny nz U 1
    ∧ rotation nx ny nz (mirror_state nx ny nz U) 2 = rotation nx ny nz U 2
    ∧ rotation nx ny nz (mirror_state nx ny nz U) 3 = rotation nx ny nz U 3
    ∧ rotation nx ny nz (mirror_state nx ny nz U) 4 = rotation nx ny nz U 4 := by
  rcases hn with ⟨h1, h2, h3⟩ | ⟨h1, h2, h3⟩ | ⟨h1, h2, h3⟩ <;> subst h1 h2 h3 <;>
    refine ⟨?_, ?_, ?_, ?_, ?_⟩ <;> simp only [rotation, mirror_state] <;> ring

lemma HLLE_vars_core (sqrt : K → K) (ST mt : Nat) (wall : Wall K) :
    HLLE_vars sqrt ST false mt wall
      = HLLE_core sqrt ST (rotation wall.nx wall.ny wall.nz wall.UL)
          (rotation wall.nx wall.ny wall.nz wall.UR) wall.pLe wall.pRe wall.z := rfl

lemma solid_vars_core (sqrt : K → K) (ST : Nat) (wall : Wall K) (wp : Int) :
    solid_vars sqrt ST wall wp
      = HLLE_core sqrt ST
          (fun m => if wp = 1 ∨ wp = 4 ∨ wp = 5 then
              (if m < 5 then mirror (rotation wall.nx wall.ny wall.nz wall.UR) m
               else rotation wall.nx wall.ny wall.nz wall.UL m)
            else rotation wall.nx wall.ny wall.nz wall.UL m)
          (fun m => if wp = 1 ∨ wp = 4 ∨ wp = 5 then rotation wall.nx wall.ny wall.nz wall.UR m
            else (if m < 5 then mirror (rotation wall.nx wall.ny wall.nz wall.UL) m
              else rotation wall.nx wall.ny wall.nz wall.UR m))
          (if wp = 1 ∨ wp = 4 ∨ wp = 5 then wall.pRe else wall.pLe)
          (if wp = 1 ∨ wp = 4 ∨ wp = 5 then wall.pRe else wall.pLe) wall.z := rfl

/-- The solver variables depend on the rotated states through their
components 0..4 only. -/
lemma HLLE_core_congr (sqrt : K → K) (ST : Nat) (WL WR WL' WR' : Nat → K) (pLe pRe z : K)
    (hL : ∀ m, m < 5 → WL m = WL' m) (hR : ∀ m, m < 5 → WR m = WR' m) :
    (HLLE_core sqrt ST WL WR pLe pRe z).S1 = (HLLE_core sqrt ST WL' WR' pLe pRe z).S1
    ∧ (HLLE_core sqrt ST WL WR pLe pRe z).S2 = (HLLE_core sqrt ST WL' WR' pLe pRe z).S2
    ∧ (HLLE_core sqrt ST WL WR pLe pRe z).diffS = (HLLE_core sqrt ST WL' WR' pLe pRe z).diffS
    ∧ (HLLE_core sqrt ST WL WR pLe pRe z).maxS = (HLLE_core sqrt ST WL' WR' pLe pRe z).maxS
    ∧ (HLLE_core sqrt ST WL WR pLe pRe z).FL = (HLLE_core sqrt ST WL' WR' pLe pRe z).FL
    ∧ (HLLE_core sqrt ST WL WR pLe pRe z).FR = (HLLE_core sqrt ST WL' WR' pLe pRe z).FR := by
  have tL : (fun m => if m < 5 then WL m else 0) = (fun m => if m < 5 then WL' m else 0) := by
    funext m
    by_cases h : m < 5
    · simp only [if_pos h, hL m h]
    · simp only [if_neg h]
  have tR : (fun m => if m < 5 then WR m else 0) = (fun m => if m < 5 then WR' m else 0) := by
    funext m
    by_cases h : m < 5
    · simp only [if_pos h, hR m h]
    · simp only [if_neg h]
  have key : ∀ A B : Nat → K,
      (HLLE_core sqrt ST A B pLe pRe z).S1
          = (HLLE_core sqrt ST (fun m => if m < 5 then A m else 0)
              (fun m => if m < 5 then B m else 0) pLe pRe z).S1
      ∧ (HLLE_core sqrt ST A B pLe pRe z).S2
          = (HLLE_core sqrt ST (fun m => if m < 5 then A m else 0)
              (fun m => if m < 5 then B m else 0) pLe pRe z).S2
      ∧ (HLLE_core sqrt ST A B pLe pRe z).diffS
          = (HLLE_core sqrt ST (fun m => if m < 5 then A m else 0)
              (fun m => if m < 5 then B m else 0) pLe pRe z).diffS
      ∧ (HLLE_core sqrt ST A B pLe pRe z).maxS
          = (HLLE_core sqrt ST (fun m => if m < 5 then A m else 0)
              (fun m => if m < 5 then B m else 0) pLe pRe z).maxS
      ∧ (HLLE_core sqrt ST A B pLe pRe z).FL
          = (HLLE_core sqrt ST (fun m => if m < 5 then A m else 0)
              (fun m => if m < 5 then B m else 0) pLe pRe z).FL
      ∧ (HLLE_core sqrt ST A B pLe pRe z).FR
          = (HLLE_core sqrt ST (fun m => if m < 5 then A m else 0)
              (fun m => if m < 5 then B m else 0) pLe pRe z).FR :=
    fun A B => ⟨rfl, rfl, rfl, rfl, rfl, rfl⟩
  obtain ⟨a1, a2, a3, a4, a5, a6⟩ := key WL WR
  obtain ⟨b1, b2, b3, b4, b5, b6⟩ := key WL' WR'
  rw [a1, a2, a3, a4, a5, a6, b1, b2, b3, b4, b5, b6, tL, tR]
  exact ⟨rfl, rfl, rfl, rfl, rfl, rfl⟩

lemma inverse_rotation_congr (nx ny nz : K) (F F' old : Nat → K)
    (h : ∀ m, m < 5 → F m = F' m) :
    inverse_rotation nx ny nz F old = inverse_rotation nx ny nz F' old := by
  funext m
  rcases m with _ | _ | _ | _ | _ | m
  · simp only [inverse_rotation, h 0 (by norm_num)]
  · simp only [inverse_rotation, h 1 (by norm_num), h 2 (by norm_num), h 3 (by norm_num)]
  · simp only [inverse_rotation, h 1 (by norm_num), h 2 (by norm_num)]
  · simp only [inverse_rotation, h 1 (by norm_num), h 3 (by norm_num)]
  · simp only [inverse_rotation, h 4 (by norm_num)]
  · rfl

lemma HLLE_F_star_congr (r r' : Riemann K) (a b a' b' : Nat → K) (m : Nat)
    (h1 : r.S1 = r'.S1) (h2 : r.S2 = r'.S2) (hd : r.diffS = r'.diffS) (hL : r.FL = r'.FL)
    (hR : r.FR = r'.FR) (hab : a m - b m = a' m - b' m) :
    HLLE_F_star r a b m = HLLE_F_star r' a' b' m := by
  unfold HLLE_F_star
  rw [h1, h2, hd, hL, hR, hab]

/-- Claim C18: for a wall with an axis-unit normal and boundary id `wp`,
`compute_solid_euler_hlle` writes the same two fluxes and returns the same
wave-speed bound as `compute_euler_HLLE` (single gamma) applied to
`mirrored_wall wall wp`, the wall whose outer state is the inner state (`UR`
for `wp` in 1, 4, 5, `UL` otherwise) with its wall-normal momentum negated and
whose outer equilibrium state and pressure are those of the inner side; this
holds in every source mode and for every inner state. -/
theorem solid_wall_mirrored_HLLE (sqrt : K → K) (ST MULTI_TYPE : Nat) (wall : Wall K)
    (lambda_max : K) (wp : Int)
    (hn : (wall.nx = 1 ∧ wall.ny = 0 ∧ wall.nz = 0) ∨ (wall.nx = 0 ∧ wall.ny = 1 ∧ wall.nz = 0)
      ∨ (wall.nx = 0 ∧ wall.ny = 0 ∧ wall.nz = 1)) :
    (compute_solid_euler_hlle sqrt ST wall lambda_max wp).1.fR_star
        = (compute_euler_HLLE sqrt ST false MULTI_TYPE (mirrored_wall wall wp) lambda_max).1.fR_star
    ∧ (compute_solid_euler_hlle sqrt ST wall lambda_max wp).1.fL_star
        = (compute_euler_HLLE sqrt ST false MULTI_TYPE (mirrored_wall wall wp) lambda_max).1.fL_star
    ∧ (compute_solid_euler_hlle sqrt ST wall lambda_max wp).2
        = (compute_euler_HLLE sqrt ST false MULTI_TYPE (mirrored_wall wall wp) lambda_max).2
    ∧ (mirrored_wall wall wp).UL
        = (if wp = 1 ∨ wp = 4 ∨ wp = 5 then mirror_state wall.nx wall.ny wall.nz wall.UR
           else wall.UL)
    ∧ (mirrored_wall wall wp).UR
        = (if wp = 1 ∨ wp = 4 ∨ wp = 5 then wall.UR
           else mirror_state wall.nx wall.ny wall.nz wall.UL) := by
  have hfin : ∀ M : Wall K, M.nx = wall.nx → M.ny = wall.ny → M.nz = wall.nz →
      M.fR_star = wall.fR_star → M.fL_star = wall.fL_star →
      (solid_vars sqrt ST wall wp).S1 = (HLLE_vars sqrt ST false MULTI_TYPE M).S1 →
      (solid_vars sqrt ST wall wp).S2 = (HLLE_vars sqrt ST false MULTI_TYPE M).S2 →
      (solid_vars sqrt ST wall wp).diffS = (HLLE_vars sqrt ST false MULTI_TYPE M).diffS →
      (solid_vars sqrt ST wall wp).maxS = (HLLE_vars sqrt ST false MULTI_TYPE M).maxS →
      (solid_vars sqrt ST wall wp).FL = (HLLE_vars sqrt ST false MULTI_TYPE M).FL →
      (solid_vars sqrt ST wall wp).FR = (HLLE_vars sqrt ST false MULTI_TYPE M).FR →
      (∀ m, m < 5 →
        (solid_Wprime ST wall wp (solid_vars sqrt ST wall wp)).1 m
          - (solid_Wprime ST wall wp (solid_vars sqrt ST wall wp)).2 m
        = Wprime ST (HLLE_vars sqrt ST false MULTI_TYPE M).WR
            (rotation M.nx M.ny M.nz M.URe) m
          - Wprime ST (HLLE_vars sqrt ST false MULTI_TYPE M).WL
            (rotation M.nx M.ny M.nz M.ULe) m) →
      (compute_solid_euler_hlle sqrt ST wall lambda_max wp).1.fR_star
          = (compute_euler_HLLE sqrt ST false MULTI_TYPE M lambda_max).1.fR_star
      ∧ (compute_solid_euler_hlle sqrt ST wall lambda_max wp).1.fL_star
          = (compute_euler_HLLE sqrt ST false MULTI_TYPE M lambda_max).1.fL_star
      ∧ (compute_solid_euler_hlle sqrt ST wall lambda_max wp).2
          = (compute_euler_HLLE sqrt ST false MULTI_TYPE M lambda_max).2 := by
    intro M ex ey ez efR efL h1 h2 hd hmx hFL hFR hab
    have hR : (compute_solid_euler_hlle sqrt ST wall lambda_max wp).1.fR_star
          = (compute_euler_HLLE sqrt ST false MULTI_TYPE M lambda_max).1.fR_star := by
      show inverse_rotation wall.nx wall.ny wall.nz _ wall.fR_star
        = inverse_rotation M.nx M.ny M.nz _ M.fR_star
      rw [ex, ey, ez, efR]
      apply inverse_rotation_congr
      intro m hm
      have hab' := hab m hm
      rw [ex, ey, ez] at hab'
      exact HLLE_F_star_congr _ _ _ _ _ _ m h1 h2 hd hFL hFR hab'
    refine ⟨hR, ?_, ?_⟩
    · show (fun m => if m < 5 then
          (compute_solid_euler_hlle sqrt ST wall lambda_max wp).1.fR_star m else wall.fL_star m)
        = fun m => if m < 5 then
          (compute_euler_HLLE sqrt ST false MULTI_TYPE M lambda_max).1.fR_star m else M.fL_star m
      rw [hR, efL]
    · show MAX lambda_max (solid_vars sqrt ST wall wp).maxS
        = MAX lambda_max (HLLE_vars sqrt ST false MULTI_TYPE M).maxS
      rw [hmx]
  by_cases hw : wp = 1 ∨ wp = 4 ∨ wp = 5
  · obtain ⟨m0, m1, m2, m3, m4⟩ := rotation_mirror_state wall.nx wall.ny wall.nz wall.UR hn
    have hmw : mirrored_wall wall wp = { wall with
        UL := mirror_state wall.nx wall.ny wall.nz wall.UR, ULe := wall.URe, pLe := wall.pRe } := by
      unfold mirrored_wall; rw [if_pos hw]
    have hWL : ∀ m, m < 5 →
        (if wp = 1 ∨ wp = 4 ∨ wp = 5 then
          (if m < 5 then mirror (rotation wall.nx wall.ny wall.nz wall.UR) m
            else rotation wall.nx wall.ny wall.nz wall.UL m)
          else rotation wall.nx wall.ny wall.nz wall.UL m)
        = rotation wall.nx wall.ny wall.nz (mirror_state wall.nx wall.ny wall.nz wall.UR) m := by
      intro m hm
      rw [if_pos hw, if_pos hm]
      interval_cases m
      · rw [m0]; rfl
      · rw [m1]; rfl
      · rw [m2]; rfl
      · rw [m3]; rfl
      · rw [m4]; rfl
    have hWR : ∀ m, m < 5 →
        (if wp = 1 ∨ wp = 4 ∨ wp = 5 then rotation wall.nx wall.ny wall.nz wall.UR m
          else (if m < 5 then mirror (rotation wall.nx wall.ny wall.nz wall.UL) m
            else rotation wall.nx wall.ny wall.nz wall.UR m))
        = rotation wall.nx wall.ny wall.nz wall.UR m := by
      intro m _
      rw [if_pos hw]
    have hcore := HLLE_core_congr sqrt ST _ _ _ _
      (if wp = 1 ∨ wp = 4 ∨ wp = 5 then wall.pRe else wall.pLe)
      (if wp = 1 ∨ wp = 4 ∨ wp = 5 then wall.pRe else wall.pLe) wall.z hWL hWR
    rw [← solid_vars_core] at hcore
    simp only [if_pos hw] at hcore
    have hH : HLLE_vars sqrt ST false MULTI_TYPE (mirrored_wall wall wp)
        = HLLE_core sqrt ST
            (rotation wall.nx wall.ny wall.nz (mirror_state wall.nx wall.ny wall.nz wall.UR))
            (rotation wall.nx wall.ny wall.nz wall.UR) wall.pRe wall.pRe wall.z := by
      rw [hmw]; rfl
    rw [← hH] at hcore
    obtain ⟨c1, c2, c3, c4, c5, c6⟩ := hcore
    have hab : ∀ m, m < 5 →
        (solid_Wprime ST wall wp (solid_vars sqrt ST wall wp)).1 m
          - (solid_Wprime ST wall wp (solid_vars sqrt ST wall wp)).2 m
        = Wprime ST (HLLE_vars sqrt ST false MULTI_TYPE (mirrored_wall wall wp)).WR
            (rotation (mirrored_wall wall wp).nx (mirrored_wall wall wp).ny
              (mirrored_wall wall wp).nz (mirrored_wall wall wp).URe) m
          - Wprime ST (HLLE_vars sqrt ST false MULTI_TYPE (mirrored_wall wall wp)).WL
            (rotation (mirrored_wall wall wp).nx (mirrored_wall wall wp).ny
              (mirrored_wall wall wp).nz (mirrored_wall wall wp).ULe) m := by
      intro m hm
      have sR : (solid_vars sqrt ST wall wp).WR m = rotation wall.nx wall.ny wall.nz wall.UR m := by
        rw [solid_vars_core]; exact hWR m hm
      have sL : (solid_vars sqrt ST wall wp).WL m
          = rotation wall.nx wall.ny wall.nz (mirror_state wall.nx wall.ny wall.nz wall.UR) m := by
        rw [solid_vars_core]; exact hWL m hm
      have eR : (HLLE_vars sqrt ST false MULTI_TYPE (mirrored_wall wall wp)).WR m
          = rotation wall.nx wall.ny wall.nz wall.UR m := by rw [hH]; rfl
      have eL : (HLLE_vars sqrt ST false MULTI_TYPE (mirrored_wall wall wp)).WL m
          = rotation wall.nx wall.ny wall.nz (mirror_state wall.nx wall.ny wall.nz wall.UR) m := by
        rw [hH]; rfl
      have eRe : rotation (mirrored_wall wall wp).nx (mirrored_wall wall wp).ny
          (mirrored_wall wall wp).nz (mirrored_wall wall wp).URe
          = rotation wall.nx wall.ny wall.nz wall.URe := by rw [hmw]
      have eLe : rotation (mirrored_wall wall wp).nx (mirrored_wall wall wp).ny
          (mirrored_wall wall wp).nz (mirrored_wall wall wp).ULe
          = rotation wall.nx wall.ny wall.nz wall.URe := by rw [hmw]
      rw [eRe, eLe]
      unfold solid_Wprime Wprime
      by_cases hST : ST = 2 ∨ ST = 3
      · simp only [if_pos hST, if_pos hw, eR, eL, sR, sL]
        interval_cases m
        · simp [m0]
        · simp
        · simp [m2]
        · simp [m3]
        · simp [m4]
      · simp only [if_neg hST, eR, eL, sR, sL]
    obtain ⟨r1, r2, r3⟩ := hfin (mirrored_wall wall wp) (by rw [hmw]) (by rw [hmw]) (by rw [hmw])
      (by rw [hmw]) (by rw [hmw]) c1 c2 c3 c4 c5 c6 hab
    refine ⟨r1, r2, r3, ?_, ?_⟩
    · rw [if_pos hw, hmw]
    · rw [if_pos hw, hmw]
  · obtain ⟨m0, m1, m2, m3, m4⟩ := rotation_mirror_state wall.nx wall.ny wall.nz wall.UL hn
    have hmw : mirrored_wall wall wp = { wall with
        UR := mirror_state wall.nx wall.ny wall.nz wall.UL, URe := wall.ULe, pRe := wall.pLe } := by
      unfold mirrored_wall; rw [if_neg hw]
    have hWR : ∀ m, m < 5 →
        (if wp = 1 ∨ wp = 4 ∨ wp = 5 then rotation wall.nx wall.ny wall.nz wall.UR m
          else (if m < 5 then mirror (rotation wall.nx wall.ny wall.nz wall.UL) m
            else rotation wall.nx wall.ny wall.nz wall.UR m))
        = rotation wall.nx wall.ny wall.nz (mirror_state wall.nx wall.ny wall.nz wall.UL) m := by
      intro m hm
      rw [if_neg hw, if_pos hm]
      interval_cases m
      · rw [m0]; rfl
      · rw [m1]; rfl
      · rw [m2]; rfl
      · rw [m3]; rfl
      · rw [m4]; rfl
    have hWL : ∀ m, m < 5 →
        (if wp = 1 ∨ wp = 4 ∨ wp = 5 then
          (if m < 5 then mirror (rotation wall.nx wall.ny wall.nz wall.UR) m
            else rotation wall.nx wall.ny wall.nz wall.UL m)
          else rotation wall.nx wall.ny wall.nz wall.UL m)
        = rotation wall.nx wall.ny wall.nz wall.UL m := by
      intro m _
      rw [if_neg hw]
    have hcore := HLLE_core_congr sqrt ST _ _ _ _
      (if wp = 1 ∨ wp = 4 ∨ wp = 5 then wall.pRe else wall.pLe)
      (if wp = 1 ∨ wp = 4 ∨ wp = 5 then wall.pRe else wall.pLe) wall.z hWL hWR
    rw [← solid_vars_core] at hcore
    simp only [if_neg hw] at hcore
    have hH : HLLE_vars sqrt ST false MULTI_TYPE (mirrored_wall wall wp)
        = HLLE_core sqrt ST (rotation wall.nx wall.ny wall.nz wall.UL)
            (rotation wall.nx wall.ny wall.nz (mirror_state wall.nx wall.ny wall.nz wall.UL))
            wall.pLe wall.pLe wall.z := by
      rw [hmw]; rfl
    rw [← hH] at hcore
    obtain ⟨c1, c2, c3, c4, c5, c6⟩ := hcore
    have hab : ∀ m, m < 5 →
        (solid_Wprime ST wall wp (solid_vars sqrt ST wall wp)).1 m
          - (solid_Wprime ST wall wp (solid_vars sqrt ST wall wp)).2 m
        = Wprime ST (HLLE_vars sqrt ST false MULTI_TYPE (mirrored_wall wall wp)).WR
            (rotation (mirrored_wall wall wp).nx (mirrored_wall wall wp).ny
              (mirrored_wall wall wp).nz (mirrored_wall wall wp).URe) m
          - Wprime ST (HLLE_vars sqrt ST false MULTI_TYPE (mirrored_wall wall wp)).WL
            (rotation (mirrored_wall wall wp).nx (mirrored_wall wall wp).ny
              (mirrored_wall wall wp).nz (mirrored_wall wall wp).ULe) m := by
      intro m hm
      have sR : (solid_vars sqrt ST wall wp).WR m
          = rotation wall.nx wall.ny wall.nz (mirror_state wall.nx wall.ny wall.nz wall.UL) m := by
        rw [solid_vars_core]; exact hWR m hm
      have sL : (solid_vars sqrt ST wall wp).WL m = rotation wall.nx wall.ny wall.nz wall.UL m := by
        rw [solid_vars_core]; exact hWL m hm
      have eR : (HLLE_vars sqrt ST false MULTI_TYPE (mirrored_wall wall wp)).WR m
          = rotation wall.nx wall.ny wall.nz (mirror_state wall.nx wall.ny wall.nz wall.UL) m := by
        rw [hH]; rfl
      have eL : (HLLE_vars sqrt ST false MULTI_TYPE (mirrored_wall wall wp)).WL m
          = rotation wall.nx wall.ny wall.nz wall.UL m := by rw [hH]; rfl
      have eRe : rotation (mirrored_wall wall wp).nx (mirrored_wall wall wp).ny
          (mirrored_wall wall wp).nz (mirrored_wall wall wp).URe
          = rotation wall.nx wall.ny wall.nz wall.ULe := by rw [hmw]
      have eLe : rotation (mirrored_wall wall wp).nx (mirrored_wall wall wp).ny
          (mirrored_wall wall wp).nz (mirrored_wall wall wp).ULe
          = rotation wall.nx wall.ny wall.nz wall.ULe := by rw [hmw]
      rw [eRe, eLe]
      unfold solid_Wprime Wprime
      by_cases hST : ST = 2 ∨ ST = 3
      · simp only [if_pos hST, if_neg hw, eR, eL, sR, sL]
        interval_cases m
        · simp [m0]
        · simp
        · simp [m2]
        · simp [m3]
        · simp [m4]
      · simp only [if_neg hST, eR, eL, sR, sL]
    obtain ⟨r1, r2, r3⟩ := hfin (mirrored_wall wall wp) (by rw [hmw]) (by rw [hmw]) (by rw [hmw])
      (by rw [hmw]) (by rw [hmw]) c1 c2 c3 c4 c5 c6 hab
    refine ⟨r1, r2, r3, ?_, ?_⟩
    · rw [if_neg hw, hmw]
    · rw [if_neg hw, hmw]

/-- Instance of `solid_wall_mirrored_HLLE`: the x-wall `restWall` as a solid
wall of face 4 (inner state `UR`), source off. -/
theorem solid_wall_mirrored_HLLE_witness :
    ((restWall : Wall ℝ).nx = 1 ∧ (restWall : Wall ℝ).ny = 0 ∧ (restWall : Wall ℝ).nz = 0)
    ∧ (compute_solid_euler_hlle Real.sqrt 0 (restWall : Wall ℝ) 0 4).1.fR_star
        = (compute_euler_HLLE Real.sqrt 0 false 0 (mirrored_wall (restWall : Wall ℝ) 4) 0).1.fR_star
    ∧ (compute_solid_euler_hlle Real.sqrt 0 (restWall : Wall ℝ) 0 4).1.fL_star
        = (compute_euler_HLLE Real.sqrt 0 false 0 (mirrored_wall (restWall : Wall ℝ) 4) 0).1.fL_star
    ∧ (compute_solid_euler_hlle Real.sqrt 0 (restWall : Wall ℝ) 0 4).2
        = (compute_euler_HLLE Real.sqrt 0 false 0 (mirrored_wall (restWall : Wall ℝ) 4) 0).2 :=
  ⟨⟨rfl, rfl, rfl⟩,
    (solid_wall_mirrored_HLLE Real.sqrt 0 0 (restWall : Wall ℝ) 0 4
      (Or.inl ⟨rfl, rfl, rfl⟩)).1,
    (solid_wall_mirrored_HLLE Real.sqrt 0 0 (restWall : Wall ℝ) 0 4
      (Or.inl ⟨rfl, rfl, rfl⟩)).2.1,
    (solid_wall_mirrored_HLLE Real.sqrt 0 0 (restWall : Wall ℝ) 0 4
      (Or.inl ⟨rfl, rfl, rfl⟩)).2.2.1⟩

/-! ## Stencils -/

/-- A loop nest over the cells `(l, m, n)` that rewrites the cell
`l + m*X + n*X*Y` from its old value is a pointwise map of the cell array. -/
lemma forLoop_cells3 {α : Type} (X Y Z : Nat) (f : Nat → Nat → Nat → α → α) (c0 : Nat → α) :
    forLoop Z (fun n c =>
      forLoop Y (fun m c =>
        forLoop X (fun l c =>
          Function.update c (l + m * X + n * X * Y) (f l m n (c (l + m * X + n * X * Y))))
          c) c) c0
      = fun t => if t < Z * (Y * X) then f (t % X) (t / X % Y) (t / (Y * X)) (c0 t) else c0 t := by
  rw [forLoop_nested3 Z Y X
    (fun l m n (c : Nat → α) =>
      Function.update c (l + m * X + n * X * Y) (f l m n (c (l + m * X + n * X * Y))))]
  have e : (fun t (c : Nat → α) =>
      Function.update c (t % X + t / X % Y * X + t / (Y * X) * X * Y)
        (f (t % X) (t / X % Y) (t / (Y * X)) (c (t % X + t / X % Y * X + t / (Y * X) * X * Y))))
      = fun t c => Function.update c t
          ((fun t x => f (t % X) (t / X % Y) (t / (Y * X)) x) t (c t)) := by
    funext t c
    rw [rowmajor_encode]
  rw [e, forLoop_pointwise]

/-- The initialisation loop of the stencil arrays: entries 0..8 become -1. -/
lemma stencil_init (c : Cell K) :
    forLoop 9 (fun p (c : Cell K) =>
        { c with stX := Function.update c.stX p (-1), stY := Function.update c.stY p (-1),
                 stZ := Function.update c.stZ p (-1) }) c
      = { c with stX := fun p => if p < 9 then -1 else c.stX p,
                 stY := fun p => if p < 9 then -1 else c.stY p,
                 stZ := fun p => if p < 9 then -1 else c.stZ p } := by
  have h : ∀ n, forLoop n (fun p (c : Cell K) =>
        { c with stX := Function.update c.stX p (-1), stY := Function.update c.stY p (-1),
                 stZ := Function.update c.stZ p (-1) }) c
      = { c with stX := fun p => if p < n then -1 else c.stX p,
                 stY := fun p => if p < n then -1 else c.stY p,
                 stZ := fun p => if p < n then -1 else c.stZ p } := by
    intro n
    induction n with
    | zero => simp [forLoop]
    | succ n ih =>
      rw [forLoop_succ, ih]
      have e : ∀ g : Nat → Int, Function.update (fun p => if p < n then -1 else g p) n (-1)
          = fun p => if p < n + 1 then -1 else g p := by
        intro g
        funext p
        by_cases hp : p = n
        · subst hp; simp
        · rw [Function.update_noteq hp]
          have : p < n + 1 ↔ p < n := by omega
          simp only [this]
      simp only [e]
  exact h 9

/-- The cell `(l, m, n)` after `update_stencils` on a mesh of `X*Y*Z` cells. -/
lemma update_stencils_cell (mesh : Mesh K) (sim : Sim K) (l m n : Nat)
    (hl : l < mesh.xcells) (hm : m < mesh.ycells) (hn : n < mesh.zcells)
    (hN : mesh.ncells = mesh.xcells * mesh.ycells * mesh.zcells) :
    (update_stencils mesh sim).cell (cell_index mesh.xcells mesh.ycells l m n)
      = update_stencils_entries mesh l m n
          (forLoop 9 (fun p (c : Cell K) =>
            { c with stX := Function.update c.stX p (-1), stY := Function.update c.stY p (-1),
                     stZ := Function.update c.stZ p (-1) })
            (update_stencils_sizes mesh (Int.tdiv (sim.order - 1) 2) l m n
              { mesh.cell (cell_index mesh.xcells mesh.ycells l m n) with
                st_sizeX := sim.order, st_sizeY := sim.order, st_sizeZ := sim.order })) := by
  have ht := cell_index_lt mesh.xcells mesh.ycells mesh.zcells l m n hl hm hn
  have ht' : cell_index mesh.xcells mesh.ycells l m n
      < mesh.zcells * (mesh.ycells * mesh.xcells) := by
    have : mesh.zcells * (mesh.ycells * mesh.xcells)
        = mesh.xcells * mesh.ycells * mesh.zcells := by ring
    rw [this]; exact ht
  have htn : cell_index mesh.xcells mesh.ycells l m n < mesh.ncells := by rw [hN]; exact ht
  obtain ⟨d1, d2, d3⟩ := rowmajor_decode mesh.xcells mesh.ycells l m n hl hm
  have d1' : cell_index mesh.xcells mesh.ycells l m n % mesh.xcells = l := d1
  have d2' : cell_index mesh.xcells mesh.ycells l m n / mesh.xcells % mesh.ycells = m := d2
  have d3' : cell_index mesh.xcells mesh.ycells l m n / (mesh.ycells * mesh.xcells) = n := d3
  unfold update_stencils
  simp only
  rw [forLoop_cells3, forLoop_cells3]
  simp only [forLoop_pointwise (fun _ (c : Cell K) => forLoop 9 (fun p (c : Cell K) =>
        { c with stX := Function.update c.stX p (-1), stY := Function.update c.stY p (-1),
                 stZ := Function.update c.stZ p (-1) }) c),
    forLoop_pointwise (fun _ (c : Cell K) =>
      { c with st_sizeX := sim.order, st_sizeY := sim.order, st_sizeZ := sim.order }),
    if_pos ht', if_pos htn, d1', d2', d3']

lemma update_stencils_sizeX_fields (mesh : Mesh K) (semiSt : Int) (l : Nat) (c : Cell K) :
    (update_stencils_sizeX mesh semiSt l c).st_sizeX
        = (if mesh.periodicX = 0 then
            MIN_int (if (l : Int) < semiSt then MIN_int c.st_sizeX (2 * (l : Int) + 1)
              else if (mesh.xcells : Int) - ((l : Int) + 1) < semiSt then
                MIN_int c.st_sizeX (2 * ((mesh.xcells : Int) - ((l : Int) + 1)) + 1)
              else c.st_sizeX) (2 * c.distsolx - 1)
          else c.st_sizeX)
    ∧ (update_stencils_sizeX mesh semiSt l c).st_sizeY = c.st_sizeY
    ∧ (update_stencils_sizeX mesh semiSt l c).st_sizeZ = c.st_sizeZ
    ∧ (update_stencils_sizeX mesh semiSt l c).distsolx = c.distsolx
    ∧ (update_stencils_sizeX mesh semiSt l c).distsoly = c.distsoly
    ∧ (update_stencils_sizeX mesh semiSt l c).distsolz = c.distsolz
    ∧ (update_stencils_sizeX mesh semiSt l c).stX = c.stX
    ∧ (update_stencils_sizeX mesh semiSt l c).stY = c.stY
    ∧ (update_stencils_sizeX mesh semiSt l c).stZ = c.stZ := by
  unfold update_stencils_sizeX
  by_cases hp : mesh.periodicX = 0
  · by_cases h1 : (l : Int) < semiSt
    · simp only [if_pos hp, if_pos h1]
      refine ⟨?_, ?_, ?_, ?_, ?_, ?_, ?_, ?_, ?_⟩ <;> first | rfl | trivial
    · by_cases h2 : (mesh.xcells : Int) - ((l : Int) + 1) < semiSt
      · simp only [if_pos hp, if_neg h1, if_pos h2]
        refine ⟨?_, ?_, ?_, ?_, ?_, ?_, ?_, ?_, ?_⟩ <;> first | rfl | trivial
      · simp only [if_pos hp, if_neg h1, if_neg h2]
        refine ⟨?_, ?_, ?_, ?_, ?_, ?_, ?_, ?_, ?_⟩ <;> first | rfl | trivial
  · simp only [if_neg hp]
    refine ⟨?_, ?_, ?_, ?_, ?_, ?_, ?_, ?_, ?_⟩ <;> first | rfl | trivial

lemma update_stencils_sizeY_fields (mesh : Mesh K) (semiSt : Int) (m : Nat) (c : Cell K) :
    (update_stencils_sizeY mesh semiSt m c).st_sizeY
        = (if mesh.periodicY = 0 then
            MIN_int (if (m : Int) < semiSt then MIN_int c.st_sizeY (2 * (m : Int) + 1)
              else if (mesh.ycells : Int) - ((m : Int) + 1) < semiSt then
                MIN_int c.st_sizeY (2 * ((mesh.ycells : Int) - ((m : Int) + 1)) + 1)
              else c.st_sizeY) (2 * c.distsoly - 1)
          else c.st_sizeY)
    ∧ (update_stencils_sizeY mesh semiSt m c).st_sizeX = c.st_sizeX
    ∧ (update_stencils_sizeY mesh semiSt m c).st_sizeZ = c.st_sizeZ
    ∧ (update_stencils_sizeY mesh semiSt m c).distsolx = c.distsolx
    ∧ (update_stencils_sizeY mesh semiSt m c).distsoly = c.distsoly
    ∧ (update_stencils_sizeY mesh semiSt m c).distsolz = c.distsolz
    ∧ (update_stencils_sizeY mesh semiSt m c).stX = c.stX
    ∧ (update_stencils_sizeY mesh semiSt m c).stY = c.stY
    ∧ (update_stencils_sizeY mesh semiSt m c).stZ = c.stZ := by
  unfold update_stencils_sizeY
  by_cases hp : mesh.periodicY = 0
  · by_cases h1 : (m : Int) < semiSt
    · simp only [if_pos hp, if_pos h1]
      refine ⟨?_, ?_, ?_, ?_, ?_, ?_, ?_, ?_, ?_⟩ <;> first | rfl | trivial
    · by_cases h2 : (mesh.ycells : Int) - ((m : Int) + 1) < semiSt
      · simp only [if_pos hp, if_neg h1, if_pos h2]
        refine ⟨?_, ?_, ?_, ?_, ?_, ?_, ?_, ?_, ?_⟩ <;> first | rfl | trivial
      · simp only [if_pos hp, if_neg h1, if_neg h2]
        refine ⟨?_, ?_, ?_, ?_, ?_, ?_, ?_, ?_, ?_⟩ <;> first | rfl | trivial
  · simp only [if_neg hp]
    refine ⟨?_, ?_, ?_, ?_, ?_, ?_, ?_, ?_, ?_⟩ <;> first | rfl | trivial

lemma update_stencils_sizeZ_fields (mesh : Mesh K) (semiSt : Int) (n : Nat) (c : Cell K) :
    (update_stencils_sizeZ mesh semiSt n c).st_sizeZ
        = (if mesh.periodicZ = 0 then
            MIN_int (if (n : Int) < semiSt then MIN_int c.st_sizeZ (2 * (n : Int) + 1)
              else if (mesh.zcells : Int) - ((n : Int) + 1) < semiSt then
                MIN_int c.st_sizeZ (2 * ((mesh.zcells : Int) - ((n : Int) + 1)) + 1)
              else c.st_sizeZ) (2 * c.distsolz - 1)
          else c.st_sizeZ)
    ∧ (update_stencils_sizeZ mesh semiSt n c).st_sizeX = c.st_sizeX
    ∧ (update_stencils_sizeZ mesh semiSt n c).st_sizeY = c.st_sizeY
    ∧ (update_stencils_sizeZ mesh semiSt n c).distsolx = c.distsolx
    ∧ (update_stencils_sizeZ mesh semiSt n c).distsoly = c.distsoly
    ∧ (update_stencils_sizeZ mesh semiSt n c).distsolz = c.distsolz
    ∧ (update_stencils_sizeZ mesh semiSt n c).stX = c.stX
    ∧ (update_stencils_sizeZ mesh semiSt n c).stY = c.stY
    ∧ (update_stencils_sizeZ mesh semiSt n c).stZ = c.stZ := by
  unfold update_stencils_sizeZ
  by_cases hp : mesh.periodicZ = 0
  · by_cases h1 : (n : Int) < semiSt
    · simp only [if_pos hp, if_pos h1]
      refine ⟨?_, ?_, ?_, ?_, ?_, ?_, ?_, ?_, ?_⟩ <;> first | rfl | trivial
    · by_cases h2 : (mesh.zcells : Int) - ((n : Int) + 1) < semiSt
      · simp only [if_pos hp, if_neg h1, if_pos h2]
        refine ⟨?_, ?_, ?_, ?_, ?_, ?_, ?_, ?_, ?_⟩ <;> first | rfl | trivial
      · simp only [if_pos hp, if_neg h1, if_neg h2]
        refine ⟨?_, ?_, ?_, ?_, ?_, ?_, ?_, ?_, ?_⟩ <;> first | rfl | trivial
  · simp only [if_neg hp]
    refine ⟨?_, ?_, ?_, ?_, ?_, ?_, ?_, ?_, ?_⟩ <;> first | rfl | trivial

/-- The stencil sizes of a cell after the loop nest "special cases at boundary
cells", and the fields the loop nest leaves as they were. -/
lemma update_stencils_sizes_fields (mesh : Mesh K) (semiSt : Int) (l m n : Nat) (c : Cell K) :
    (update_stencils_sizes mesh semiSt l m n c).st_sizeX
        = (if mesh.periodicX = 0 then
            MIN_int (if (l : Int) < semiSt then MIN_int c.st_sizeX (2 * (l : Int) + 1)
              else if (mesh.xcells : Int) - ((l : Int) + 1) < semiSt then
                MIN_int c.st_sizeX (2 * ((mesh.xcells : Int) - ((l : Int) + 1)) + 1)
              else c.st_sizeX) (2 * c.distsolx - 1)
          else c.st_sizeX)
    ∧ (update_stencils_sizes mesh semiSt l m n c).st_sizeY
        = (if mesh.periodicY = 0 then
            MIN_int (if (m : Int) < semiSt then MIN_int c.st_sizeY (2 * (m : Int) + 1)
              else if (mesh.ycells : Int) - ((m : Int) + 1) < semiSt then
                MIN_int c.st_sizeY (2 * ((mesh.ycells : Int) - ((m : Int) + 1)) + 1)
              else c.st_sizeY) (2 * c.distsoly - 1)
          else c.st_sizeY)
    ∧ (update_stencils_sizes mesh semiSt l m n c).st_sizeZ
        = (if mesh.periodicZ = 0 then
            MIN_int (if (n : Int) < semiSt then MIN_int c.st_sizeZ (2 * (n : Int) + 1)
              else if (mesh.zcells : Int) - ((n : Int) + 1) < semiSt then
                MIN_int c.st_sizeZ (2 * ((mesh.zcells : Int) - ((n : Int) + 1)) + 1)
              else c.st_sizeZ) (2 * c.distsolz - 1)
          else c.st_sizeZ)
    ∧ (update_stencils_sizes mesh semiSt l m n c).distsolx = c.distsolx
    ∧ (update_stencils_sizes mesh semiSt l m n c).distsoly = c.distsoly
    ∧ (update_stencils_sizes mesh semiSt l m n c).distsolz = c.distsolz
    ∧ (update_stencils_sizes mesh semiSt l m n c).stX = c.stX
    ∧ (update_stencils_sizes mesh semiSt l m n c).stY = c.stY
    ∧ (update_stencils_sizes mesh semiSt l m n c).stZ = c.stZ := by
  obtain ⟨x1, x2, x3, x4, x5, x6, x7, x8, x9⟩ := update_stencils_sizeX_fields mesh semiSt l c
  obtain ⟨y1, y2, y3, y4, y5, y6, y7, y8, y9⟩ := update_stencils_sizeY_fields mesh semiSt m
    (update_stencils_sizeX mesh semiSt l c)
  obtain ⟨z1, z2, z3, z4, z5, z6, z7, z8, z9⟩ := update_stencils_sizeZ_fields mesh semiSt n
    (update_stencils_sizeY mesh semiSt m (update_stencils_sizeX mesh semiSt l c))
  unfold update_stencils_sizes
  refine ⟨?_, ?_, ?_, ?_, ?_, ?_, ?_, ?_, ?_⟩
  · rw [z2, y2, x1]
  · rw [z3, y1, x2, x5]
  · rw [z1, y3, x3, y6, x6]
  · rw [z4, y4, x4]
  · rw [z5, y5, x5]
  · rw [z6, y6, x6]
  · rw [z7, y7, x7]
  · rw [z8, y8, x8]
  · rw [z9, y9, x9]

/-- The stencil sizes and recorded distances of the cell `(l, m, n)` after
`update_stencils`. -/
lemma update_stencils_size_at (mesh : Mesh K) (sim : Sim K) (l m n : Nat)
    (hl : l < mesh.xcells) (hm : m < mesh.ycells) (hn : n < mesh.zcells)
    (hN : mesh.ncells = mesh.xcells * mesh.ycells * mesh.zcells) :
    ((update_stencils mesh sim).cell (cell_index mesh.xcells mesh.ycells l m n)).st_sizeX
        = (if mesh.periodicX = 0 then
            MIN_int (if (l : Int) < Int.tdiv (sim.order - 1) 2 then
                MIN_int sim.order (2 * (l : Int) + 1)
              else if (mesh.xcells : Int) - ((l : Int) + 1) < Int.tdiv (sim.order - 1) 2 then
                MIN_int sim.order (2 * ((mesh.xcells : Int) - ((l : Int) + 1)) + 1)
              else sim.order)
              (2 * (mesh.cell (cell_index mesh.xcells mesh.ycells l m n)).distsolx - 1)
          else sim.order)
    ∧ ((update_stencils mesh sim).cell (cell_index mesh.xcells mesh.ycells l m n)).st_sizeY
        = (if mesh.periodicY = 0 then
            MIN_int (if (m : Int) < Int.tdiv (sim.order - 1) 2 then
                MIN_int sim.order (2 * (m : Int) + 1)
              else if (mesh.ycells : Int) - ((m : Int) + 1) < Int.tdiv (sim.order - 1) 2 then
                MIN_int sim.order (2 * ((mesh.ycells : Int) - ((m : Int) + 1)) + 1)
              else sim.order)
              (2 * (mesh.cell (cell_index mesh.xcells mesh.ycells l m n)).distsoly - 1)
          else sim.order)
    ∧ ((update_stencils mesh sim).cell (cell_index mesh.xcells mesh.ycells l m n)).st_sizeZ
        = (if mesh.periodicZ = 0 then
            MIN_int (if (n : Int) < Int.tdiv (sim.order - 1) 2 then
                MIN_int sim.order (2 * (n : Int) + 1)
              else if (mesh.zcells : Int) - ((n : Int) + 1) < Int.tdiv (sim.order - 1) 2 then
                MIN_int sim.order (2 * ((mesh.zcells : Int) - ((n : Int) + 1)) + 1)
              else sim.order)
              (2 * (mesh.cell (cell_index mesh.xcells mesh.ycells l m n)).distsolz - 1)
          else sim.order)
    ∧ ((update_stencils mesh sim).cell (cell_index mesh.xcells mesh.ycells l m n)).distsolx
        = (mesh.cell (cell_index mesh.xcells mesh.ycells l m n)).distsolx
    ∧ ((update_stencils mesh sim).cell (cell_index mesh.xcells mesh.ycells l m n)).distsoly
        = (mesh.cell (cell_index mesh.xcells mesh.ycells l m n)).distsoly
    ∧ ((update_stencils mesh sim).cell (cell_index mesh.xcells mesh.ycells l m n)).distsolz
        = (mesh.cell (cell_index mesh.xcells mesh.ycells l m n)).distsolz := by
  rw [update_stencils_cell mesh sim l m n hl hm hn hN, stencil_init]
  obtain ⟨a1, a2, a3, a4, a5, a6, -⟩ := update_stencils_sizes_fields mesh
    (Int.tdiv (sim.order - 1) 2) l m n
    { mesh.cell (cell_index mesh.xcells mesh.ycells l m n) with
      st_sizeX := sim.order, st_sizeY := sim.order, st_sizeZ := sim.order }
  exact ⟨a1, a2, a3, a4, a5, a6⟩

/-- The size the non-periodic branch of `update_stencils` computes on one
axis: odd, between 1 and `order`, at most `2*d_solid - 1`, and at most
`2*d + 1` for both boundary distances `d` when the axis has one cell or at
least `order - 2` cells. -/
lemma axis_size_props (order : Int) (cells c : Nat) (d : Int)
    (ho : order = 1 ∨ order = 3 ∨ order = 5 ∨ order = 7) (hc : c < cells) (hd : 1 ≤ d) :
    (MIN_int (if (c : Int) < Int.tdiv (order - 1) 2 then MIN_int order (2 * (c : Int) + 1)
        else if (cells : Int) - ((c : Int) + 1) < Int.tdiv (order - 1) 2 then
          MIN_int order (2 * ((cells : Int) - ((c : Int) + 1)) + 1)
        else order) (2 * d - 1) = 1
      ∨ MIN_int (if (c : Int) < Int.tdiv (order - 1) 2 then MIN_int order (2 * (c : Int) + 1)
        else if (cells : Int) - ((c : Int) + 1) < Int.tdiv (order - 1) 2 then
          MIN_int order (2 * ((cells : Int) - ((c : Int) + 1)) + 1)
        else order) (2 * d - 1) = 3
      ∨ MIN_int (if (c : Int) < Int.tdiv (order - 1) 2 then MIN_int order (2 * (c : Int) + 1)
        else if (cells : Int) - ((c : Int) + 1) < Int.tdiv (order - 1) 2 then
          MIN_int order (2 * ((cells : Int) - ((c : Int) + 1)) + 1)
        else order) (2 * d - 1) = 5
      ∨ MIN_int (if (c : Int) < Int.tdiv (order - 1) 2 then MIN_int order (2 * (c : Int) + 1)
        else if (cells : Int) - ((c : Int) + 1) < Int.tdiv (order - 1) 2 then
          MIN_int order (2 * ((cells : Int) - ((c : Int) + 1)) + 1)
        else order) (2 * d - 1) = 7)
    ∧ MIN_int (if (c : Int) < Int.tdiv (order - 1) 2 then MIN_int order (2 * (c : Int) + 1)
        else if (cells : Int) - ((c : Int) + 1) < Int.tdiv (order - 1) 2 then
          MIN_int order (2 * ((cells : Int) - ((c : Int) + 1)) + 1)
        else order) (2 * d - 1) ≤ order
    ∧ MIN_int (if (c : Int) < Int.tdiv (order - 1) 2 then MIN_int order (2 * (c : Int) + 1)
        else if (cells : Int) - ((c : Int) + 1) < Int.tdiv (order - 1) 2 then
          MIN_int order (2 * ((cells : Int) - ((c : Int) + 1)) + 1)
        else order) (2 * d - 1) ≤ 2 * d - 1
    ∧ ((cells = 1 ∨ order - 2 ≤ (cells : Int)) →
        MIN_int (if (c : Int) < Int.tdiv (order - 1) 2 then MIN_int order (2 * (c : Int) + 1)
          else if (cells : Int) - ((c : Int) + 1) < Int.tdiv (order - 1) 2 then
            MIN_int order (2 * ((cells : Int) - ((c : Int) + 1)) + 1)
          else order) (2 * d - 1) ≤ 2 * (c : Int) + 1
        ∧ MIN_int (if (c : Int) < Int.tdiv (order - 1) 2 then MIN_int order (2 * (c : Int) + 1)
          else if (cells : Int) - ((c : Int) + 1) < Int.tdiv (order - 1) 2 then
            MIN_int order (2 * ((cells : Int) - ((c : Int) + 1)) + 1)
          else order) (2 * d - 1) ≤ 2 * ((cells : Int) - 1 - (c : Int)) + 1) := by
  have hc' : (c : Int) < (cells : Int) := by exact_mod_cast hc
  have hc0 : (0 : Int) ≤ (c : Int) := Int.natCast_nonneg c
  have h1 : (cells = 1) → (cells : Int) = 1 := fun h => by rw [h]; rfl
  rcases ho with h | h | h | h <;> subst h
  · have e : Int.tdiv ((1 : Int) - 1) 2 = 0 := by decide
    rw [e]
    unfold MIN_int
    refine ⟨?_, ?_, ?_, ?_⟩
    · split_ifs <;> omega
    · split_ifs <;> omega
    · split_ifs <;> omega
    · intro hx
      refine ⟨?_, ?_⟩ <;> split_ifs <;> omega
  · have e : Int.tdiv ((3 : Int) - 1) 2 = 1 := by decide
    rw [e]
    unfold MIN_int
    refine ⟨?_, ?_, ?_, ?_⟩
    · split_ifs <;> omega
    · split_ifs <;> omega
    · split_ifs <;> omega
    · intro hx
      refine ⟨?_, ?_⟩ <;> split_ifs <;> omega
  · have e : Int.tdiv ((5 : Int) - 1) 2 = 2 := by decide
    rw [e]
    unfold MIN_int
    refine ⟨?_, ?_, ?_, ?_⟩
    · split_ifs <;> omega
    · split_ifs <;> omega
    · split_ifs <;> omega
    · intro hx
      have hx' : (cells : Int) = 1 ∨ (5 : Int) - 2 ≤ (cells : Int) := hx.imp h1 id
      refine ⟨?_, ?_⟩ <;> split_ifs <;> omega
  · have e : Int.tdiv ((7 : Int) - 1) 2 = 3 := by decide
    rw [e]
    unfold MIN_int
    refine ⟨?_, ?_, ?_, ?_⟩
    · split_ifs <;> omega
    · split_ifs <;> omega
    · split_ifs <;> omega
    · intro hx
      have hx' : (cells : Int) = 1 ∨ (7 : Int) - 2 ≤ (cells : Int) := hx.imp h1 id
      refine ⟨?_, ?_⟩ <;> split_ifs <;> omega

lemma stencil_size_ok_of (order periodic : Int) (cells c : Nat) (d : Int)
    (ho : order = 1 ∨ order = 3 ∨ order = 5 ∨ order = 7) (hc : c < cells) (hd : 1 ≤ d) :
    stencil_size_ok order periodic cells c d
      (if periodic = 0 then
        MIN_int (if (c : Int) < Int.tdiv (order - 1) 2 then MIN_int order (2 * (c : Int) + 1)
          else if (cells : Int) - ((c : Int) + 1) < Int.tdiv (order - 1) 2 then
            MIN_int order (2 * ((cells : Int) - ((c : Int) + 1)) + 1)
          else order) (2 * d - 1)
       else order) := by
  by_cases hp : periodic = 0
  · rw [if_pos hp]
    obtain ⟨a, b, c1, c2⟩ := axis_size_props order cells c d ho hc hd
    exact ⟨a, b, fun _ => ⟨c1, c2⟩, fun h => absurd hp h⟩
  · rw [if_neg hp]
    exact ⟨ho, le_refl _, fun h => absurd h hp, fun _ => rfl⟩

/-- Claim C13 (amended): after `update_stencils` with requested order 1, 3, 5
or 7 on a mesh of `xcells*ycells*zcells` cells, for every cell `(l, m, n)`
whose recorded distances to the nearest solid cell are at least 1 and every
axis, the stencil size `s` is 1, 3, 5 or 7 and `s <= order`; on a non-periodic
axis `s <= 2*d_solid - 1` and, when the axis has one cell or at least
`order - 2` cells, `s <= 2*d + 1` with `d` the number of cells between the
cell and either boundary of the axis; on a periodic axis `s = order`.  The
recorded distances are left as they were. -/
theorem stencil_size_invariant (mesh : Mesh K) (sim : Sim K) (l m n : Nat)
    (hl : l < mesh.xcells) (hm : m < mesh.ycells) (hn : n < mesh.zcells)
    (hN : mesh.ncells = mesh.xcells * mesh.ycells * mesh.zcells)
    (ho : sim.order = 1 ∨ sim.order = 3 ∨ sim.order = 5 ∨ sim.order = 7)
    (hd : 1 ≤ (mesh.cell (cell_index mesh.xcells mesh.ycells l m n)).distsolx
      ∧ 1 ≤ (mesh.cell (cell_index mesh.xcells mesh.ycells l m n)).distsoly
      ∧ 1 ≤ (mesh.cell (cell_index mesh.xcells mesh.ycells l m n)).distsolz) :
    stencil_size_ok sim.order mesh.periodicX mesh.xcells l
        ((update_stencils mesh sim).cell (cell_index mesh.xcells mesh.ycells l m n)).distsolx
        ((update_stencils mesh sim).cell (cell_index mesh.xcells mesh.ycells l m n)).st_sizeX
    ∧ stencil_size_ok sim.order mesh.periodicY mesh.ycells m
        ((update_stencils mesh sim).cell (cell_index mesh.xcells mesh.ycells l m n)).distsoly
        ((update_stencils mesh sim).cell (cell_index mesh.xcells mesh.ycells l m n)).st_sizeY
    ∧ stencil_size_ok sim.order mesh.periodicZ mesh.zcells n
        ((update_stencils mesh sim).cell (cell_index mesh.xcells mesh.ycells l m n)).distsolz
        ((update_stencils mesh sim).cell (cell_index mesh.xcells mesh.ycells l m n)).st_sizeZ
    ∧ ((update_stencils mesh sim).cell (cell_index mesh.xcells mesh.ycells l m n)).distsolx
        = (mesh.cell (cell_index mesh.xcells mesh.ycells l m n)).distsolx
    ∧ ((update_stencils mesh sim).cell (cell_index mesh.xcells mesh.ycells l m n)).distsoly
        = (mesh.cell (cell_index mesh.xcells mesh.ycells l m n)).distsoly
    ∧ ((update_stencils mesh sim).cell (cell_index mesh.xcells mesh.ycells l m n)).distsolz
        = (mesh.cell (cell_index mesh.xcells mesh.ycells l m n)).distsolz := by
  obtain ⟨sx, sy, sz, dx, dy, dz⟩ := update_stencils_size_at mesh sim l m n hl hm hn hN
  rw [sx, sy, sz, dx, dy, dz]
  exact ⟨stencil_size_ok_of _ _ _ _ _ ho hl hd.1, stencil_size_ok_of _ _ _ _ _ ho hm hd.2.1,
    stencil_size_ok_of _ _ _ _ _ ho hn hd.2.2, rfl, rfl, rfl⟩

/-- Instance of `stencil_size_invariant`: the cell `(0, 0, 0)` of
`solidRowMesh` at order 3. -/
theorem stencil_size_invariant_witness :
    stencil_size_ok (3 : Int) (solidRowMesh : Mesh ℚ).periodicX 3 0
        ((update_stencils (solidRowMesh : Mesh ℚ) (eulerSim 0 3)).cell
          (cell_index 3 1 0 0 0)).distsolx
        ((update_stencils (solidRowMesh : Mesh ℚ) (eulerSim 0 3)).cell
          (cell_index 3 1 0 0 0)).st_sizeX
    ∧ stencil_size_ok (3 : Int) (solidRowMesh : Mesh ℚ).periodicY 1 0
        ((update_stencils (solidRowMesh : Mesh ℚ) (eulerSim 0 3)).cell
          (cell_index 3 1 0 0 0)).distsoly
        ((update_stencils (solidRowMesh : Mesh ℚ) (eulerSim 0 3)).cell
          (cell_index 3 1 0 0 0)).st_sizeY
    ∧ stencil_size_ok (3 : Int) (solidRowMesh : Mesh ℚ).periodicZ 1 0
        ((update_stencils (solidRowMesh : Mesh ℚ) (eulerSim 0 3)).cell
          (cell_index 3 1 0 0 0)).distsolz
        ((update_stencils (solidRowMesh : Mesh ℚ) (eulerSim 0 3)).cell
          (cell_index 3 1 0 0 0)).st_sizeZ
    ∧ ((update_stencils (solidRowMesh : Mesh ℚ) (eulerSim 0 3)).cell
          (cell_index 3 1 0 0 0)).distsolx
        = ((solidRowMesh : Mesh ℚ).cell (cell_index 3 1 0 0 0)).distsolx
    ∧ ((update_stencils (solidRowMesh : Mesh ℚ) (eulerSim 0 3)).cell
          (cell_index 3 1 0 0 0)).distsoly
        = ((solidRowMesh : Mesh ℚ).cell (cell_index 3 1 0 0 0)).distsoly
    ∧ ((update_stencils (solidRowMesh : Mesh ℚ) (eulerSim 0 3)).cell
          (cell_index 3 1 0 0 0)).distsolz
        = ((solidRowMesh : Mesh ℚ).cell (cell_index 3 1 0 0 0)).distsolz :=
  stencil_size_invariant (solidRowMesh : Mesh ℚ) (eulerSim 0 3) 0 0 0
    (show (0 : Nat) < 3 by decide) (show (0 : Nat) < 1 by decide) (show (0 : Nat) < 1 by decide)
    rfl (Or.inr (Or.inl rfl))
    ⟨show (1 : Int) ≤ 1 by decide, show (1 : Int) ≤ 9999999 by decide,
      show (1 : Int) ≤ 9999999 by decide⟩

/-- Claim C13 as stated fails on `solidRowMesh` at order 3: the x axis is
periodic, the cell `(0, 0, 0)` records the distance 1 to the solid cell next
to it, and `update_stencils` leaves its x-stencil of size 3, above
`2*d_solid - 1 = 1`. -/
theorem stencil_size_periodic_solid :
    ((update_stencils (solidRowMesh : Mesh ℚ) (eulerSim 0 3)).cell (cell_index 3 1 0 0 0)).distsolx
        = 1
    ∧ ((update_stencils (solidRowMesh : Mesh ℚ) (eulerSim 0 3)).cell
          (cell_index 3 1 0 0 0)).st_sizeX = 3
    ∧ ¬ (((update_stencils (solidRowMesh : Mesh ℚ) (eulerSim 0 3)).cell
          (cell_index 3 1 0 0 0)).st_sizeX
        ≤ 2 * ((update_stencils (solidRowMesh : Mesh ℚ) (eulerSim 0 3)).cell
          (cell_index 3 1 0 0 0)).distsolx - 1) := by
  obtain ⟨sx, -, -, dx, -, -⟩ := update_stencils_size_at (solidRowMesh : Mesh ℚ) (eulerSim 0 3)
    0 0 0 (show (0 : Nat) < 3 by decide) (show (0 : Nat) < 1 by decide)
    (show (0 : Nat) < 1 by decide) rfl
  have hp : (solidRowMesh : Mesh ℚ).periodicX ≠ 0 := by
    show (1 : Int) ≠ 0
    decide
  rw [if_neg hp] at sx
  have e1 : ((update_stencils (solidRowMesh : Mesh ℚ) (eulerSim 0 3)).cell
      (cell_index 3 1 0 0 0)).st_sizeX = 3 := sx
  have e2 : ((update_stencils (solidRowMesh : Mesh ℚ) (eulerSim 0 3)).cell
      (cell_index 3 1 0 0 0)).distsolx = 1 := dx
  rw [e1, e2]
  exact ⟨rfl, rfl, by decide⟩

/-- The stencil arrays `update_stencils_entries` writes, and the sizes it
leaves as they were. -/
lemma update_stencils_entries_fields (mesh : Mesh K) (l m n : Nat) (c : Cell K) :
    (update_stencils_entries mesh l m n c).stX
        = (fun p => if p < c.st_sizeX.toNat then
            stencil_coord mesh.periodicX mesh.xcells l c.st_sizeX p
              + (mesh.xcells : Int) * (m : Int)
              + (mesh.xcells : Int) * (mesh.ycells : Int) * (n : Int)
          else c.stX p)
    ∧ (update_stencils_entries mesh l m n c).stY
        = (fun p => if p < c.st_sizeY.toNat then
            (mesh.xcells : Int) * stencil_coord mesh.periodicY mesh.ycells m c.st_sizeY p
              + (l : Int) + (mesh.xcells : Int) * (mesh.ycells : Int) * (n : Int)
          else c.stY p)
    ∧ (update_stencils_entries mesh l m n c).stZ
        = (fun p => if p < c.st_sizeZ.toNat then
            (mesh.ycells : Int) * (mesh.xcells : Int)
              * stencil_coord mesh.periodicZ mesh.zcells n c.st_sizeZ p
              + ((l : Int) + (m : Int) * (mesh.xcells : Int))
          else c.stZ p)
    ∧ (update_stencils_entries mesh l m n c).st_sizeX = c.st_sizeX
    ∧ (update_stencils_entries mesh l m n c).st_sizeY = c.st_sizeY
    ∧ (update_stencils_entries mesh l m n c).st_sizeZ = c.st_sizeZ := by
  unfold update_stencils_entries
  simp only [forLoop_assign]
  refine ⟨?_, ?_, ?_, ?_, ?_, ?_⟩ <;> first | rfl | trivial

/-- The stencil arrays of the cell `(l, m, n)` after `update_stencils`, in
terms of its stencil sizes. -/
lemma update_stencils_entries_at (mesh : Mesh K) (sim : Sim K) (l m n : Nat)
    (hl : l < mesh.xcells) (hm : m < mesh.ycells) (hn : n < mesh.zcells)
    (hN : mesh.ncells = mesh.xcells * mesh.ycells * mesh.zcells) (p : Nat) :
    ((update_stencils mesh sim).cell (cell_index mesh.xcells mesh.ycells l m n)).stX p
        = (if p < ((update_stencils mesh sim).cell
              (cell_index mesh.xcells mesh.ycells l m n)).st_sizeX.toNat then
            stencil_coord mesh.periodicX mesh.xcells l
                ((update_stencils mesh sim).cell
                  (cell_index mesh.xcells mesh.ycells l m n)).st_sizeX p
              + (mesh.xcells : Int) * (m : Int)
              + (mesh.xcells : Int) * (mesh.ycells : Int) * (n : Int)
          else if p < 9 then -1
          else (mesh.cell (cell_index mesh.xcells mesh.ycells l m n)).stX p)
    ∧ ((update_stencils mesh sim).cell (cell_index mesh.xcells mesh.ycells l m n)).stY p
        = (if p < ((update_stencils mesh sim).cell
              (cell_index mesh.xcells mesh.ycells l m n)).st_sizeY.toNat then
            (mesh.xcells : Int) * stencil_coord mesh.periodicY mesh.ycells m
                ((update_stencils mesh sim).cell
                  (cell_index mesh.xcells mesh.ycells l m n)).st_sizeY p
              + (l : Int) + (mesh.xcells : Int) * (mesh.ycells : Int) * (n : Int)
          else if p < 9 then -1
          else (mesh.cell (cell_index mesh.xcells mesh.ycells l m n)).stY p)
    ∧ ((update_stencils mesh sim).cell (cell_index mesh.xcells mesh.ycells l m n)).stZ p
        = (if p < ((update_stencils mesh sim).cell
              (cell_index mesh.xcells mesh.ycells l m n)).st_sizeZ.toNat then
            (mesh.ycells : Int) * (mesh.xcells : Int)
              * stencil_coord mesh.periodicZ mesh.zcells n
                ((update_stencils mesh sim).cell
                  (cell_index mesh.xcells mesh.ycells l m n)).st_sizeZ p
              + ((l : Int) + (m : Int) * (mesh.xcells : Int))
          else if p < 9 then -1
          else (mesh.cell (cell_index mesh.xcells mesh.ycells l m n)).stZ p) := by
  rw [update_stencils_cell mesh sim l m n hl hm hn hN, stencil_init]
  obtain ⟨e1, e2, e3, e4, e5, e6⟩ := update_stencils_entries_fields mesh l m n
    { update_stencils_sizes mesh (Int.tdiv (sim.order - 1) 2) l m n
        { mesh.cell (cell_index mesh.xcells mesh.ycells l m n) with
          st_sizeX := sim.order, st_sizeY := sim.order, st_sizeZ := sim.order } with
      stX := fun p => if p < 9 then -1 else
        (update_stencils_sizes mesh (Int.tdiv (sim.order - 1) 2) l m n
          { mesh.cell (cell_index mesh.xcells mesh.ycells l m n) with
            st_sizeX := sim.order, st_sizeY := sim.order, st_sizeZ := sim.order }).stX p,
      stY := fun p => if p < 9 then -1 else
        (update_stencils_sizes mesh (Int.tdiv (sim.order - 1) 2) l m n
          { mesh.cell (cell_index mesh.xcells mesh.ycells l m n) with
            st_sizeX := sim.order, st_sizeY := sim.order, st_sizeZ := sim.order }).stY p,
      stZ := fun p => if p < 9 then -1 else
        (update_stencils_sizes mesh (Int.tdiv (sim.order - 1) 2) l m n
          { mesh.cell (cell_index mesh.xcells mesh.ycells l m n) with
            st_sizeX := sim.order, st_sizeY := sim.order, st_sizeZ := sim.order }).stZ p }
  obtain ⟨-, -, -, -, -, -, f7, f8, f9⟩ := update_stencils_sizes_fields mesh
    (Int.tdiv (sim.order - 1) 2) l m n
    { mesh.cell (cell_index mesh.xcells mesh.ycells l m n) with
      st_sizeX := sim.order, st_sizeY := sim.order, st_sizeZ := sim.order }
  rw [e1, e2, e3, e4, e5, e6]
  simp only [f7, f8, f9]
  refine ⟨?_, ?_, ?_⟩ <;> first | rfl | trivial

/-- Claim C14, evaluated on `shortRowMesh` (two cells along a non-periodic x
axis) at order 5: the cell `(1, 0, 0)`, whose distance to the upper x boundary
is 0, gets the x-stencil size 3 (the clamp for the lower boundary, `2*l+1`,
is the only one applied), and entry 2 of its x-stencil is 2, which is the
number of cells of the mesh and not the index of a cell. -/
theorem stencil_entry_outside_example :
    ((update_stencils (shortRowMesh : Mesh ℚ) (eulerSim 0 5)).cell (cell_index 2 1 1 0 0)).st_sizeX
        = 3
    ∧ ((update_stencils (shortRowMesh : Mesh ℚ) (eulerSim 0 5)).cell (cell_index 2 1 1 0 0)).stX 2
        = 2
    ∧ (update_stencils (shortRowMesh : Mesh ℚ) (eulerSim 0 5)).ncells = 2
    ∧ (shortRowMesh : Mesh ℚ).periodicX = 0 := by
  obtain ⟨sx, -⟩ := update_stencils_size_at (shortRowMesh : Mesh ℚ) (eulerSim 0 5)
    1 0 0 (show (1 : Nat) < 2 by decide) (show (0 : Nat) < 1 by decide)
    (show (0 : Nat) < 1 by decide) rfl
  obtain ⟨ex, -⟩ := update_stencils_entries_at (shortRowMesh : Mesh ℚ) (eulerSim 0 5)
    1 0 0 (show (1 : Nat) < 2 by decide) (show (0 : Nat) < 1 by decide)
    (show (0 : Nat) < 1 by decide) rfl 2
  have hp : (shortRowMesh : Mesh ℚ).periodicX = 0 := rfl
  have hs : ((update_stencils (shortRowMesh : Mesh ℚ) (eulerSim 0 5)).cell
      (cell_index 2 1 1 0 0)).st_sizeX = 3 := by
    refine sx.trans ?_
    rw [if_pos hp]
    decide
  refine ⟨hs, ?_, rfl, hp⟩
  have hs' : ((update_stencils (shortRowMesh : Mesh ℚ) (eulerSim 0 5)).cell
      (cell_index (shortRowMesh : Mesh ℚ).xcells (shortRowMesh : Mesh ℚ).ycells 1 0 0)).st_sizeX
      = 3 := hs
  refine ex.trans ?_
  rw [hs']
  decide

lemma emod_of_shift (e r X : Int) (h0 : 0 ≤ r) (h1 : r < X)
    (h : r = e ∨ r = e + X ∨ r = e - X) : r = e % X := by
  have hr : r % X = r := Int.emod_eq_of_lt h0 h1
  rcases h with h | h | h
  · rw [← h, hr]
  · have : e % X = r % X := by rw [h, Int.add_emod_self]
    rw [this, hr]
  · have : e % X = r % X := by
      rw [h]
      have := Int.add_mul_emod_self (a := e) (b := -1) (c := X)
      rw [show e - X = e + -1 * X by ring, this]
    rw [this, hr]

/-- The coordinate `stencil_coord` computes lies on the axis when the stencil
size is within the bounds that the size rule guarantees. -/
lemma stencil_coord_ok (periodic : Int) (cells c : Nat) (s : Int) (p : Nat)
    (hs : s = 1 ∨ s = 3 ∨ s = 5 ∨ s = 7) (hc : c < cells)
    (hnp : periodic = 0 → s ≤ 2 * (c : Int) + 1 ∧ s ≤ 2 * ((cells : Int) - 1 - (c : Int)) + 1)
    (hper : periodic ≠ 0 → (s - 1) / 2 ≤ (cells : Int))
    (hp : (p : Int) < s) :
    0 ≤ stencil_coord periodic cells c s p
    ∧ stencil_coord periodic cells c s p < (cells : Int)
    ∧ (periodic = 0 → stencil_coord periodic cells c s p = (c : Int) - (s - 1) / 2 + (p : Int))
    ∧ (periodic ≠ 0 → stencil_coord periodic cells c s p
        = ((c : Int) - (s - 1) / 2 + (p : Int)) % (cells : Int)) := by
  have hc' : (c : Int) < (cells : Int) := by exact_mod_cast hc
  have hc0 : (0 : Int) ≤ (c : Int) := Int.natCast_nonneg c
  have hp0 : (0 : Int) ≤ (p : Int) := Int.natCast_nonneg p
  have key : ∀ h : Int, Int.tdiv (s - 1) 2 = h → (s - 1) / 2 = h → s = 2 * h + 1 →
      0 ≤ stencil_coord periodic cells c s p
      ∧ stencil_coord periodic cells c s p < (cells : Int)
      ∧ (periodic = 0 → stencil_coord periodic cells c s p = (c : Int) - (s - 1) / 2 + (p : Int))
      ∧ (periodic ≠ 0 → stencil_coord periodic cells c s p
          = ((c : Int) - (s - 1) / 2 + (p : Int)) % (cells : Int)) := by
    intro h e1 e2 e3
    unfold stencil_coord
    simp only [e1, e2, mul_one, mul_neg]
    by_cases hper0 : periodic = 0
    · obtain ⟨b1, b2⟩ := hnp hper0
      simp only [if_pos hper0]
      refine ⟨by omega, by omega, fun _ => trivial, fun hne => absurd hper0 hne⟩
    · have hq := hper hper0
      rw [e2] at hq
      simp only [if_neg hper0]
      have hval : 0 ≤ (if (if (c : Int) - h + (p : Int) < 0 then (c : Int) - h + (p : Int)
              + (cells : Int) else (c : Int) - h + (p : Int)) > (cells : Int) - 1 then
            (if (c : Int) - h + (p : Int) < 0 then (c : Int) - h + (p : Int) + (cells : Int)
              else (c : Int) - h + (p : Int)) + -(cells : Int)
          else (if (c : Int) - h + (p : Int) < 0 then (c : Int) - h + (p : Int) + (cells : Int)
              else (c : Int) - h + (p : Int)))
          ∧ (if (if (c : Int) - h + (p : Int) < 0 then (c : Int) - h + (p : Int)
              + (cells : Int) else (c : Int) - h + (p : Int)) > (cells : Int) - 1 then
            (if (c : Int) - h + (p : Int) < 0 then (c : Int) - h + (p : Int) + (cells : Int)
              else (c : Int) - h + (p : Int)) + -(cells : Int)
          else (if (c : Int) - h + (p : Int) < 0 then (c : Int) - h + (p : Int) + (cells : Int)
              else (c : Int) - h + (p : Int))) < (cells : Int)
          ∧ ((if (if (c : Int) - h + (p : Int) < 0 then (c : Int) - h + (p : Int)
              + (cells : Int) else (c : Int) - h + (p : Int)) > (cells : Int) - 1 then
            (if (c : Int) - h + (p : Int) < 0 then (c : Int) - h + (p : Int) + (cells : Int)
              else (c : Int) - h + (p : Int)) + -(cells : Int)
          else (if (c : Int) - h + (p : Int) < 0 then (c : Int) - h + (p : Int) + (cells : Int)
              else (c : Int) - h + (p : Int))) = (c : Int) - h + (p : Int)
            ∨ (if (if (c : Int) - h + (p : Int) < 0 then (c : Int) - h + (p : Int)
              + (cells : Int) else (c : Int) - h + (p : Int)) > (cells : Int) - 1 then
            (if (c : Int) - h + (p : Int) < 0 then (c : Int) - h + (p : Int) + (cells : Int)
              else (c : Int) - h + (p : Int)) + -(cells : Int)
          else (if (c : Int) - h + (p : Int) < 0 then (c : Int) - h + (p : Int) + (cells : Int)
              else (c : Int) - h + (p : Int))) = (c : Int) - h + (p : Int) + (cells : Int)
            ∨ (if (if (c : Int) - h + (p : Int) < 0 then (c : Int) - h + (p : Int)
              + (cells : Int) else (c : Int) - h + (p : Int)) > (cells : Int) - 1 then
            (if (c : Int) - h + (p : Int) < 0 then (c : Int) - h + (p : Int) + (cells : Int)
              else (c : Int) - h + (p : Int)) + -(cells : Int)
          else (if (c : Int) - h + (p : Int) < 0 then (c : Int) - h + (p : Int) + (cells : Int)
              else (c : Int) - h + (p : Int))) = (c : Int) - h + (p : Int) - (cells : Int)) := by
        split_ifs <;> omega
      obtain ⟨v0, v1, v2⟩ := hval
      exact ⟨v0, v1, fun h0 => absurd h0 hper0, fun _ => emod_of_shift _ _ _ v0 v1 v2⟩
  rcases hs with h | h | h | h <;> subst h
  · exact key 0 (by decide) (by decide) (by decide)
  · exact key 1 (by decide) (by decide) (by decide)
  · exact key 2 (by decide) (by decide) (by decide)
  · exact key 3 (by decide) (by decide) (by decide)

/-- The middle entry of a stencil is the coordinate of the cell. -/
lemma stencil_coord_middle (periodic : Int) (cells c : Nat) (s : Int)
    (hs : s = 1 ∨ s = 3 ∨ s = 5 ∨ s = 7) (hc : c < cells) :
    stencil_coord periodic cells c s ((s - 1) / 2).toNat = (c : Int)
    ∧ (((s - 1) / 2).toNat : Int) < s := by
  have hc' : (c : Int) < (cells : Int) := by exact_mod_cast hc
  have hc0 : (0 : Int) ≤ (c : Int) := Int.natCast_nonneg c
  have key : ∀ h : Nat, Int.tdiv (s - 1) 2 = (h : Int) → ((s - 1) / 2).toNat = h →
      s = 2 * (h : Int) + 1 →
      stencil_coord periodic cells c s ((s - 1) / 2).toNat = (c : Int)
      ∧ (((s - 1) / 2).toNat : Int) < s := by
    intro h e1 e2 e3
    rw [e2]
    unfold stencil_coord
    simp only [e1, mul_one, mul_neg]
    refine ⟨?_, by omega⟩
    split_ifs <;> omega
  rcases hs with h | h | h | h <;> subst h
  · exact key 0 (by decide) (by decide) (by decide)
  · exact key 1 (by decide) (by decide) (by decide)
  · exact key 2 (by decide) (by decide) (by decide)
  · exact key 3 (by decide) (by decide) (by decide)

lemma stencil_entries_ok_of (periodic : Int) (cells c : Nat) (s : Int) (st : Nat → Int)
    (index : Nat → Nat) (enc : Int → Int) (henc : ∀ q : Nat, enc (q : Int) = (index q : Int))
    (hs : s = 1 ∨ s = 3 ∨ s = 5 ∨ s = 7) (hc : c < cells)
    (hnp : periodic = 0 → s ≤ 2 * (c : Int) + 1 ∧ s ≤ 2 * ((cells : Int) - 1 - (c : Int)) + 1)
    (hper : periodic ≠ 0 → (s - 1) / 2 ≤ (cells : Int))
    (hst : ∀ p : Nat, p < s.toNat → st p = enc (stencil_coord periodic cells c s p)) :
    stencil_entries_ok periodic cells c s st index := by
  have hlt : ∀ p : Nat, (p : Int) < s → p < s.toNat := by
    intro p hp
    omega
  refine ⟨?_, ?_⟩
  · intro p hp
    obtain ⟨a0, a1, a2, a3⟩ := stencil_coord_ok periodic cells c s p hs hc hnp hper hp
    have hq : ((stencil_coord periodic cells c s p).toNat : Int)
        = stencil_coord periodic cells c s p := Int.toNat_of_nonneg a0
    refine ⟨(stencil_coord periodic cells c s p).toNat, by omega, ?_, ?_, ?_⟩
    · rw [hst p (hlt p hp), ← henc, hq]
    · intro h0
      rw [hq]; exact a2 h0
    · intro h0
      rw [hq]; exact a3 h0
  · obtain ⟨b1, b2⟩ := stencil_coord_middle periodic cells c s hs hc
    rw [hst _ (hlt _ b2), b1, henc]

/-- The stencil entries after `update_stencils` when the grid is large enough
for the size rule: for the requested order 1, 3, 5 or 7, a mesh of
`xcells*ycells*zcells` cells, a cell `(l, m, n)` with recorded solid distances
at least 1, non-periodic axes of one cell or at least `order - 2` cells and
periodic axes of at least `(order-1)/2` cells, every entry `p < s` of each of
the three stencils is the index of the cell of the strip with coordinate
`c - (s-1)/2 + p` (modulo the axis length on a periodic axis), and the middle
entry is the cell itself. -/
theorem stencil_entries_valid (mesh : Mesh K) (sim : Sim K) (l m n : Nat)
    (hl : l < mesh.xcells) (hm : m < mesh.ycells) (hn : n < mesh.zcells)
    (hN : mesh.ncells = mesh.xcells * mesh.ycells * mesh.zcells)
    (ho : sim.order = 1 ∨ sim.order = 3 ∨ sim.order = 5 ∨ sim.order = 7)
    (hd : 1 ≤ (mesh.cell (cell_index mesh.xcells mesh.ycells l m n)).distsolx
      ∧ 1 ≤ (mesh.cell (cell_index mesh.xcells mesh.ycells l m n)).distsoly
      ∧ 1 ≤ (mesh.cell (cell_index mesh.xcells mesh.ycells l m n)).distsolz)
    (hx : if mesh.periodicX = 0 then mesh.xcells = 1 ∨ sim.order - 2 ≤ (mesh.xcells : Int)
      else (sim.order - 1) / 2 ≤ (mesh.xcells : Int))
    (hy : if mesh.periodicY = 0 then mesh.ycells = 1 ∨ sim.order - 2 ≤ (mesh.ycells : Int)
      else (sim.order - 1) / 2 ≤ (mesh.ycells : Int))
    (hz : if mesh.periodicZ = 0 then mesh.zcells = 1 ∨ sim.order - 2 ≤ (mesh.zcells : Int)
      else (sim.order - 1) / 2 ≤ (mesh.zcells : Int)) :
    stencil_entries_ok mesh.periodicX mesh.xcells l
        ((update_stencils mesh sim).cell (cell_index mesh.xcells mesh.ycells l m n)).st_sizeX
        ((update_stencils mesh sim).cell (cell_index mesh.xcells mesh.ycells l m n)).stX
        (fun q => cell_index mesh.xcells mesh.ycells q m n)
    ∧ stencil_entries_ok mesh.periodicY mesh.ycells m
        ((update_stencils mesh sim).cell (cell_index mesh.xcells mesh.ycells l m n)).st_sizeY
        ((update_stencils mesh sim).cell (cell_index mesh.xcells mesh.ycells l m n)).stY
        (fun q => cell_index mesh.xcells mesh.ycells l q n)
    ∧ stencil_entries_ok mesh.periodicZ mesh.zcells n
        ((update_stencils mesh sim).cell (cell_index mesh.xcells mesh.ycells l m n)).st_sizeZ
        ((update_stencils mesh sim).cell (cell_index mesh.xcells mesh.ycells l m n)).stZ
        (fun q => cell_index mesh.xcells mesh.ycells l m q) := by
  obtain ⟨sx, sy, sz, -, -, -⟩ := update_stencils_size_at mesh sim l m n hl hm hn hN
  have okx := stencil_size_ok_of sim.order mesh.periodicX mesh.xcells l _ ho hl hd.1
  have oky := stencil_size_ok_of sim.order mesh.periodicY mesh.ycells m _ ho hm hd.2.1
  have okz := stencil_size_ok_of sim.order mesh.periodicZ mesh.zcells n _ ho hn hd.2.2
  rw [← sx] at okx
  rw [← sy] at oky
  rw [← sz] at okz
  have hent := fun p => update_stencils_entries_at mesh sim l m n hl hm hn hN p
  refine ⟨?_, ?_, ?_⟩
  · apply stencil_entries_ok_of _ _ _ _ _ _
      (fun e => e + (mesh.xcells : Int) * (m : Int)
        + (mesh.xcells : Int) * (mesh.ycells : Int) * (n : Int))
    · intro q
      unfold cell_index
      push_cast
      ring
    · exact okx.1
    · exact hl
    · intro h0
      rw [if_pos h0] at hx
      exact (okx.2.2.1 h0).2 hx
    · intro h0
      rw [if_neg h0] at hx
      rw [okx.2.2.2 h0]
      exact hx
    · intro p hp
      rw [(hent p).1, if_pos hp]
  · apply stencil_entries_ok_of _ _ _ _ _ _
      (fun e => (mesh.xcells : Int) * e + (l : Int)
        + (mesh.xcells : Int) * (mesh.ycells : Int) * (n : Int))
    · intro q
      unfold cell_index
      push_cast
      ring
    · exact oky.1
    · exact hm
    · intro h0
      rw [if_pos h0] at hy
      exact (oky.2.2.1 h0).2 hy
    · intro h0
      rw [if_neg h0] at hy
      rw [oky.2.2.2 h0]
      exact hy
    · intro p hp
      rw [(hent p).2.1, if_pos hp]
  · apply stencil_entries_ok_of _ _ _ _ _ _
      (fun e => (mesh.ycells : Int) * (mesh.xcells : Int) * e
        + ((l : Int) + (m : Int) * (mesh.xcells : Int)))
    · intro q
      unfold cell_index
      push_cast
      ring
    · exact okz.1
    · exact hn
    · intro h0
      rw [if_pos h0] at hz
      exact (okz.2.2.1 h0).2 hz
    · intro h0
      rw [if_neg h0] at hz
      rw [okz.2.2.2 h0]
      exact hz
    · intro p hp
      rw [(hent p).2.2, if_pos hp]

/-! ## Wiring and numbering of the walls -/

lemma prev_coord (X l : Nat) (hl : l < X) :
    (l + X - 1) % X = if l = 0 then X - 1 else l - 1 := by
  by_cases h : l = 0
  · subst h
    rw [if_pos rfl, Nat.zero_add, Nat.mod_eq_of_lt (by omega)]
  · rw [if_neg h]
    have e : l + X - 1 = (l - 1) + X := by omega
    rw [e, Nat.add_mod_right, Nat.mod_eq_of_lt (by omega)]

lemma next_coord (X l : Nat) (hl : l < X) :
    (l + 1) % X = if l = X - 1 then 0 else l + 1 := by
  by_cases h : l = X - 1
  · rw [if_pos h]
    have e : l + 1 = X := by omega
    rw [e, Nat.mod_self]
  · rw [if_neg h, Nat.mod_eq_of_lt (by omega)]

/-- Faces shared by adjacent cells carry one wall identifier: the `+x` wall of
a cell is the `-x` wall of the next cell in x, and likewise in y and z. -/
lemma create_mesh_shared_walls (mesh : Mesh K) (sim : Sim K) (l m n : Nat)
    (hl : l < mesh.xcells) (hm : m < mesh.ycells) (hn : n < mesh.zcells) :
    (l + 1 < mesh.xcells →
      ((create_mesh mesh sim).cell (cell_index mesh.xcells mesh.ycells (l + 1) m n)).w4
        = ((create_mesh mesh sim).cell (cell_index mesh.xcells mesh.ycells l m n)).w2)
    ∧ (m + 1 < mesh.ycells →
      ((create_mesh mesh sim).cell (cell_index mesh.xcells mesh.ycells l (m + 1) n)).w1
        = ((create_mesh mesh sim).cell (cell_index mesh.xcells mesh.ycells l m n)).w3)
    ∧ (n + 1 < mesh.zcells →
      ((create_mesh mesh sim).cell (cell_index mesh.xcells mesh.ycells l m (n + 1))).w5
        = ((create_mesh mesh sim).cell (cell_index mesh.xcells mesh.ycells l m n)).w6) := by
  obtain ⟨-, -, -, f2, f3, f6, -⟩ := create_mesh_cell_fields mesh sim l m n hl hm hn
  refine ⟨fun h => ?_, fun h => ?_, fun h => ?_⟩
  · obtain ⟨-, g4, -⟩ := create_mesh_cell_fields mesh sim (l + 1) m n h hm hn
    rw [g4, f2, if_neg (by omega)]
    unfold wall_base
    ring
  · obtain ⟨g1, -⟩ := create_mesh_cell_fields mesh sim l (m + 1) n hl h hn
    rw [g1, f3, if_neg (by omega)]
    unfold wall_base
    ring
  · obtain ⟨-, -, g5, -⟩ := create_mesh_cell_fields mesh sim l m (n + 1) hl hm h
    rw [g5, f6, if_neg (by omega)]
    unfold wall_base
    ring

/-- Claim C15: in the mesh built by `create_mesh`, for every cell `(l, m, n)`
of a grid of `xcells*ycells*zcells` cells, with `t` its index: its wall `w4`
has `cellR = t` and `cellL` the cell `((l-1) mod xcells, m, n)`; its wall `w2`
has `cellL = t` and `cellR` the cell `((l+1) mod xcells, m, n)`; likewise `w1`
and `w3` with `m` along y and `w5` and `w6` with `n` along z; and the `+x`,
`+y`, `+z` wall of a cell is the `-x`, `-y`, `-z` wall of the next cell on the
axis when there is one. -/
theorem neighbour_wiring (mesh : Mesh K) (sim : Sim K) (l m n : Nat)
    (hl : l < mesh.xcells) (hm : m < mesh.ycells) (hn : n < mesh.zcells) :
    (((create_mesh mesh sim).wall
          ((create_mesh mesh sim).cell (cell_index mesh.xcells mesh.ycells l m n)).w4).cellR
        = cell_index mesh.xcells mesh.ycells l m n
      ∧ ((create_mesh mesh sim).wall
          ((create_mesh mesh sim).cell (cell_index mesh.xcells mesh.ycells l m n)).w4).cellL
        = cell_index mesh.xcells mesh.ycells ((l + mesh.xcells - 1) % mesh.xcells) m n
      ∧ ((create_mesh mesh sim).wall
          ((create_mesh mesh sim).cell (cell_index mesh.xcells mesh.ycells l m n)).w2).cellL
        = cell_index mesh.xcells mesh.ycells l m n
      ∧ ((create_mesh mesh sim).wall
          ((create_mesh mesh sim).cell (cell_index mesh.xcells mesh.ycells l m n)).w2).cellR
        = cell_index mesh.xcells mesh.ycells ((l + 1) % mesh.xcells) m n)
    ∧ (((create_mesh mesh sim).wall
          ((create_mesh mesh sim).cell (cell_index mesh.xcells mesh.ycells l m n)).w1).cellR
        = cell_index mesh.xcells mesh.ycells l m n
      ∧ ((create_mesh mesh sim).wall
          ((create_mesh mesh sim).cell (cell_index mesh.xcells mesh.ycells l m n)).w1).cellL
        = cell_index mesh.xcells mesh.ycells l ((m + mesh.ycells - 1) % mesh.ycells) n
      ∧ ((create_mesh mesh sim).wall
          ((create_mesh mesh sim).cell (cell_index mesh.xcells mesh.ycells l m n)).w3).cellL
        = cell_index mesh.xcells mesh.ycells l m n
      ∧ ((create_mesh mesh sim).wall
          ((create_mesh mesh sim).cell (cell_index mesh.xcells mesh.ycells l m n)).w3).cellR
        = cell_index mesh.xcells mesh.ycells l ((m + 1) % mesh.ycells) n)
    ∧ (((create_mesh mesh sim).wall
          ((create_mesh mesh sim).cell (cell_index mesh.xcells mesh.ycells l m n)).w5).cellR
        = cell_index mesh.xcells mesh.ycells l m n
      ∧ ((create_mesh mesh sim).wall
          ((create_mesh mesh sim).cell (cell_index mesh.xcells mesh.ycells l m n)).w5).cellL
        = cell_index mesh.xcells mesh.ycells l m ((n + mesh.zcells - 1) % mesh.zcells)
      ∧ ((create_mesh mesh sim).wall
          ((create_mesh mesh sim).cell (cell_index mesh.xcells mesh.ycells l m n)).w6).cellL
        = cell_index mesh.xcells mesh.ycells l m n
      ∧ ((create_mesh mesh sim).wall
          ((create_mesh mesh sim).cell (cell_index mesh.xcells mesh.ycells l m n)).w6).cellR
        = cell_index mesh.xcells mesh.ycells l m ((n + 1) % mesh.zcells))
    ∧ ((l + 1 < mesh.xcells →
        ((create_mesh mesh sim).cell (cell_index mesh.xcells mesh.ycells (l + 1) m n)).w4
          = ((create_mesh mesh sim).cell (cell_index mesh.xcells mesh.ycells l m n)).w2)
      ∧ (m + 1 < mesh.ycells →
        ((create_mesh mesh sim).cell (cell_index mesh.xcells mesh.ycells l (m + 1) n)).w1
          = ((create_mesh mesh sim).cell (cell_index mesh.xcells mesh.ycells l m n)).w3)
      ∧ (n + 1 < mesh.zcells →
        ((create_mesh mesh sim).cell (cell_index mesh.xcells mesh.ycells l m (n + 1))).w5
          = ((create_mesh mesh sim).cell (cell_index mesh.xcells mesh.ycells l m n)).w6)) := by
  obtain ⟨-, ⟨r1, r4, r5, l2, l3, l6⟩, b1, b3, b4, b2, b5, b6⟩ :=
    create_mesh_wiring mesh sim l m n hl hm hn
  have sh := create_mesh_shared_walls mesh sim l m n hl hm hn
  refine ⟨⟨r4, ?_, l2, ?_⟩, ⟨r1, ?_, l3, ?_⟩, ⟨r5, ?_, l6, ?_⟩, sh⟩
  · rw [prev_coord _ _ hl]
    by_cases h : l = 0
    · rw [if_pos h, b4 h]
      subst h
      unfold cell_index
      omega
    · rw [if_neg h]
      have hl' : l - 1 < mesh.xcells := by omega
      obtain ⟨s1, -, -⟩ := create_mesh_shared_walls mesh sim (l - 1) m n hl' hm hn
      have e : l - 1 + 1 = l := by omega
      rw [e] at s1
      obtain ⟨-, ⟨-, -, -, q2, -, -⟩, -⟩ := create_mesh_wiring mesh sim (l - 1) m n hl' hm hn
      rw [s1 hl]
      exact q2
  · rw [next_coord _ _ hl]
    by_cases h : l = mesh.xcells - 1
    · rw [if_pos h, b2 h]
      unfold cell_index
      omega
    · rw [if_neg h]
      have hl' : l + 1 < mesh.xcells := by omega
      obtain ⟨-, ⟨-, q4, -, -, -, -⟩, -⟩ := create_mesh_wiring mesh sim (l + 1) m n hl' hm hn
      rw [← sh.1 hl']
      exact q4
  · rw [prev_coord _ _ hm]
    by_cases h : m = 0
    · rw [if_pos h, b1 h]
      subst h
      unfold cell_index
      simp
      ring
    · rw [if_neg h]
      have hm' : m - 1 < mesh.ycells := by omega
      obtain ⟨-, s1, -⟩ := create_mesh_shared_walls mesh sim l (m - 1) n hl hm' hn
      have e : m - 1 + 1 = m := by omega
      rw [e] at s1
      obtain ⟨-, ⟨-, -, -, -, q3, -⟩, -⟩ := create_mesh_wiring mesh sim l (m - 1) n hl hm' hn
      rw [s1 hm]
      exact q3
  · rw [next_coord _ _ hm]
    by_cases h : m = mesh.ycells - 1
    · rw [if_pos h, b3 h]
      unfold cell_index
      have : l + m * mesh.xcells + n * mesh.xcells * mesh.ycells - m * mesh.xcells
          = l + n * mesh.xcells * mesh.ycells := by omega
      rw [this]
      ring
    · rw [if_neg h]
      have hm' : m + 1 < mesh.ycells := by omega
      obtain ⟨-, ⟨q1, -, -, -, -, -⟩, -⟩ := create_mesh_wiring mesh sim l (m + 1) n hl hm' hn
      rw [← sh.2.1 hm']
      exact q1
  · rw [prev_coord _ _ hn]
    by_cases h : n = 0
    · rw [if_pos h, b5 h]
      subst h
      unfold cell_index
      simp
    · rw [if_neg h]
      have hn' : n - 1 < mesh.zcells := by omega
      obtain ⟨-, -, s1⟩ := create_mesh_shared_walls mesh sim l m (n - 1) hl hm hn'
      have e : n - 1 + 1 = n := by omega
      rw [e] at s1
      obtain ⟨-, ⟨-, -, -, -, -, q6⟩, -⟩ := create_mesh_wiring mesh sim l m (n - 1) hl hm hn'
      rw [s1 hn]
      exact q6
  · rw [next_coord _ _ hn]
    by_cases h : n = mesh.zcells - 1
    · rw [if_pos h, b6 h]
      unfold cell_index
      have e : n = mesh.zcells - 1 := h
      have : l + m * mesh.xcells + n * mesh.xcells * mesh.ycells
          - (mesh.zcells - 1) * mesh.xcells * mesh.ycells = l + m * mesh.xcells := by
        rw [← e]; omega
      rw [this]
      ring
    · rw [if_neg h]
      have hn' : n + 1 < mesh.zcells := by omega
      obtain ⟨-, ⟨-, -, q5, -, -, -⟩, -⟩ := create_mesh_wiring mesh sim l m (n + 1) hl hm hn'
      rw [← sh.2.2 hn']
      exact q5

lemma div_decomp (j L : Nat) (hL : 0 < L) : ∃ n r, r < L ∧ j = n * L + r :=
  ⟨j / L, j % L, Nat.mod_lt _ hL, (Nat.div_add_mod' j L).symm⟩

lemma lt_of_mul_add_lt (n r Z L : Nat) (h : n * L + r < Z * L) : n < Z := by
  by_contra hc
  have h1 : Z * L ≤ n * L := Nat.mul_le_mul_right L (not_lt.mp hc)
  omega

/-- Every wall identifier below `nwalls` is the identifier of a face of some
cell: one of the three walls numbered with the cell, the closing `+x` wall of
its row, the closing `+y` wall of its layer, or the closing `+z` wall of the
grid. -/
lemma wall_id_cover (X Y Z j : Nat) (hX : 0 < X) (hY : 0 < Y) (hZ : 0 < Z)
    (hj : j < 3 * (X * Y * Z) + X * Z + Y * Z + X * Y) :
    ∃ l m n, l < X ∧ m < Y ∧ n < Z
      ∧ (j = wall_base X Y l m n ∨ j = wall_base X Y l m n + 1 ∨ j = wall_base X Y l m n + 2
        ∨ (l = X - 1 ∧ j = wall_base X Y l m n + 4 - 1)
        ∨ (m = Y - 1 ∧ j = (3 * X * Y + X + Y) * (n + 1) - X + l)
        ∨ (n = Z - 1 ∧ j = 3 * (X * Y * Z) + X * Z + Y * Z + X * Y - X * Y + l + m * X)) := by
  have hL : 0 < 3 * X * Y + X + Y := by omega
  have hN : 3 * (X * Y * Z) + X * Z + Y * Z + X * Y = Z * (3 * X * Y + X + Y) + X * Y := by ring
  by_cases h1 : j < Z * (3 * X * Y + X + Y)
  · obtain ⟨n, r, hr, e⟩ := div_decomp j (3 * X * Y + X + Y) hL
    have hn : n < Z := lt_of_mul_add_lt n r Z _ (e ▸ h1)
    have hLR : 3 * X * Y + X + Y = Y * (3 * X + 1) + X := by ring
    by_cases h2 : r < Y * (3 * X + 1)
    · obtain ⟨m, q, hq, e2⟩ := div_decomp r (3 * X + 1) (by omega)
      have hm : m < Y := lt_of_mul_add_lt m q Y _ (e2 ▸ h2)
      have emR : m * (3 * X + 1) = 3 * (m * X) + m := by ring
      by_cases h3 : q < 3 * X
      · refine ⟨q / 3, m, n, by omega, hm, hn, ?_⟩
        have hq3 := Nat.div_add_mod q 3
        have hs : q % 3 < 3 := Nat.mod_lt _ (by omega)
        have hb : wall_base X Y (q / 3) m n
            = 3 * (q / 3) + 3 * (m * X) + m + n * (3 * X * Y + X + Y) := by
          unfold wall_base; ring
        rw [hb]
        rcases (show q % 3 = 0 ∨ q % 3 = 1 ∨ q % 3 = 2 by omega) with h | h | h
        · left; omega
        · right; left; omega
        · right; right; left; omega
      · refine ⟨X - 1, m, n, by omega, hm, hn, ?_⟩
        right; right; right; left
        refine ⟨rfl, ?_⟩
        have hb : wall_base X Y (X - 1) m n
            = 3 * (X - 1) + 3 * (m * X) + m + n * (3 * X * Y + X + Y) := by
          unfold wall_base; ring
        rw [hb]
        omega
    · refine ⟨r - Y * (3 * X + 1), Y - 1, n, by omega, by omega, hn, ?_⟩
      right; right; right; right; left
      refine ⟨rfl, ?_⟩
      have e3 : (3 * X * Y + X + Y) * (n + 1)
          = n * (3 * X * Y + X + Y) + (Y * (3 * X + 1) + X) := by ring
      rw [e3]
      omega
  · have hu : j - Z * (3 * X * Y + X + Y) < X * Y := by omega
    obtain ⟨m, l, hl, e⟩ := div_decomp (j - Z * (3 * X * Y + X + Y)) X hX
    have hm : m < Y := by
      apply lt_of_mul_add_lt m l Y X
      rw [← e, Nat.mul_comm Y X]
      exact hu
    refine ⟨l, m, Z - 1, hl, hm, by omega, ?_⟩
    right; right; right; right; right
    refine ⟨rfl, ?_⟩
    rw [hN]
    omega

/-- The normals of the six walls of the cell with index `i` in the mesh built
by `create_mesh`. -/
lemma create_mesh_normals_flat (mesh : Mesh K) (sim : Sim K) (i : Nat)
    (hi : i < mesh.xcells * mesh.ycells * mesh.zcells) :
    (((create_mesh mesh sim).wall ((create_mesh mesh sim).cell i).w4).nx = 1
      ∧ ((create_mesh mesh sim).wall ((create_mesh mesh sim).cell i).w4).ny = 0
      ∧ ((create_mesh mesh sim).wall ((create_mesh mesh sim).cell i).w4).nz = 0)
    ∧ (((create_mesh mesh sim).wall ((create_mesh mesh sim).cell i).w2).nx = 1
      ∧ ((create_mesh mesh sim).wall ((create_mesh mesh sim).cell i).w2).ny = 0
      ∧ ((create_mesh mesh sim).wall ((create_mesh mesh sim).cell i).w2).nz = 0)
    ∧ (((create_mesh mesh sim).wall ((create_mesh mesh sim).cell i).w1).nx = 0
      ∧ ((create_mesh mesh sim).wall ((create_mesh mesh sim).cell i).w1).ny = 1
      ∧ ((create_mesh mesh sim).wall ((create_mesh mesh sim).cell i).w1).nz = 0)
    ∧ (((create_mesh mesh sim).wall ((create_mesh mesh sim).cell i).w3).nx = 0
      ∧ ((create_mesh mesh sim).wall ((create_mesh mesh sim).cell i).w3).ny = 1
      ∧ ((create_mesh mesh sim).wall ((create_mesh mesh sim).cell i).w3).nz = 0)
    ∧ (((create_mesh mesh sim).wall ((create_mesh mesh sim).cell i).w5).nx = 0
      ∧ ((create_mesh mesh sim).wall ((create_mesh mesh sim).cell i).w5).ny = 0
      ∧ ((create_mesh mesh sim).wall ((create_mesh mesh sim).cell i).w5).nz = 1)
    ∧ (((create_mesh mesh sim).wall ((create_mesh mesh sim).cell i).w6).nx = 0
      ∧ ((create_mesh mesh sim).wall ((create_mesh mesh sim).cell i).w6).ny = 0
      ∧ ((create_mesh mesh sim).wall ((create_mesh mesh sim).cell i).w6).nz = 1) := by
  have hN : mesh.xcells * mesh.ycells * mesh.zcells
      = mesh.zcells * (mesh.ycells * mesh.xcells) := by ring
  obtain ⟨b1, b2, b3⟩ := rowmajor_bounds mesh.xcells mesh.ycells mesh.zcells i (hN ▸ hi)
  have he : cell_index mesh.xcells mesh.ycells (i % mesh.xcells) (i / mesh.xcells % mesh.ycells)
      (i / (mesh.ycells * mesh.xcells)) = i := rowmajor_encode _ _ i
  obtain ⟨hnor, -⟩ := create_mesh_wiring mesh sim _ _ _ b1 b2 b3
  rw [he] at hnor
  exact hnor

/-- Claim C16: in the mesh built by `create_mesh` on a grid with at least one
cell along each axis, `ncells = xcells*ycells*zcells` and
`nwalls = 3*ncells + xcells*zcells + ycells*zcells + xcells*ycells`; the six
wall identifiers of every cell lie below `nwalls`; every identifier below
`nwalls` is a face of some cell; the walls `w2`, `w4` of every cell have the
normal `(1,0,0)`, its walls `w1`, `w3` the normal `(0,1,0)` and its walls
`w5`, `w6` the normal `(0,0,1)`; and no identifier is a face of two different
orientations. -/
theorem wall_numbering (mesh : Mesh K) (sim : Sim K)
    (hX : 0 < mesh.xcells) (hY : 0 < mesh.ycells) (hZ : 0 < mesh.zcells) :
    (create_mesh mesh sim).ncells = mesh.xcells * mesh.ycells * mesh.zcells
    ∧ (create_mesh mesh sim).nwalls
        = 3 * (create_mesh mesh sim).ncells + mesh.xcells * mesh.zcells
          + mesh.ycells * mesh.zcells + mesh.xcells * mesh.ycells
    ∧ (∀ i, i < (create_mesh mesh sim).ncells →
        ((create_mesh mesh sim).cell i).w1 < (create_mesh mesh sim).nwalls
        ∧ ((create_mesh mesh sim).cell i).w2 < (create_mesh mesh sim).nwalls
        ∧ ((create_mesh mesh sim).cell i).w3 < (create_mesh mesh sim).nwalls
        ∧ ((create_mesh mesh sim).cell i).w4 < (create_mesh mesh sim).nwalls
        ∧ ((create_mesh mesh sim).cell i).w5 < (create_mesh mesh sim).nwalls
        ∧ ((create_mesh mesh sim).cell i).w6 < (create_mesh mesh sim).nwalls)
    ∧ (∀ j, j < (create_mesh mesh sim).nwalls →
        ∃ i, i < (create_mesh mesh sim).ncells
          ∧ (j = ((create_mesh mesh sim).cell i).w1 ∨ j = ((create_mesh mesh sim).cell i).w2
            ∨ j = ((create_mesh mesh sim).cell i).w3 ∨ j = ((create_mesh mesh sim).cell i).w4
            ∨ j = ((create_mesh mesh sim).cell i).w5 ∨ j = ((create_mesh mesh sim).cell i).w6))
    ∧ (∀ i j, i < (create_mesh mesh sim).ncells →
        ((j = ((create_mesh mesh sim).cell i).w2 ∨ j = ((create_mesh mesh sim).cell i).w4) →
          ((create_mesh mesh sim).wall j).nx = 1 ∧ ((create_mesh mesh sim).wall j).ny = 0
          ∧ ((create_mesh mesh sim).wall j).nz = 0)
        ∧ ((j = ((create_mesh mesh sim).cell i).w1 ∨ j = ((create_mesh mesh sim).cell i).w3) →
          ((create_mesh mesh sim).wall j).nx = 0 ∧ ((create_mesh mesh sim).wall j).ny = 1
          ∧ ((create_mesh mesh sim).wall j).nz = 0)
        ∧ ((j = ((create_mesh mesh sim).cell i).w5 ∨ j = ((create_mesh mesh sim).cell i).w6) →
          ((create_mesh mesh sim).wall j).nx = 0 ∧ ((create_mesh mesh sim).wall j).ny = 0
          ∧ ((create_mesh mesh sim).wall j).nz = 1))
    ∧ (∀ i k j, i < (create_mesh mesh sim).ncells → k < (create_mesh mesh sim).ncells →
        ¬ ((j = ((create_mesh mesh sim).cell i).w2 ∨ j = ((create_mesh mesh sim).cell i).w4)
            ∧ (j = ((create_mesh mesh sim).cell k).w1 ∨ j = ((create_mesh mesh sim).cell k).w3))
        ∧ ¬ ((j = ((create_mesh mesh sim).cell i).w2 ∨ j = ((create_mesh mesh sim).cell i).w4)
            ∧ (j = ((create_mesh mesh sim).cell k).w5 ∨ j = ((create_mesh mesh sim).cell k).w6))
        ∧ ¬ ((j = ((create_mesh mesh sim).cell i).w1 ∨ j = ((create_mesh mesh sim).cell i).w3)
            ∧ (j = ((create_mesh mesh sim).cell k).w5
              ∨ j = ((create_mesh mesh sim).cell k).w6))) := by
  have hnc : (create_mesh mesh sim).ncells = mesh.xcells * mesh.ycells * mesh.zcells := rfl
  have hnw : (create_mesh mesh sim).nwalls
      = 3 * (mesh.xcells * mesh.ycells * mesh.zcells) + mesh.xcells * mesh.zcells
        + mesh.ycells * mesh.zcells + mesh.xcells * mesh.ycells := rfl
  have hnor : ∀ i j, i < (create_mesh mesh sim).ncells →
        ((j = ((create_mesh mesh sim).cell i).w2 ∨ j = ((create_mesh mesh sim).cell i).w4) →
          ((create_mesh mesh sim).wall j).nx = 1 ∧ ((create_mesh mesh sim).wall j).ny = 0
          ∧ ((create_mesh mesh sim).wall j).nz = 0)
        ∧ ((j = ((create_mesh mesh sim).cell i).w1 ∨ j = ((create_mesh mesh sim).cell i).w3) →
          ((create_mesh mesh sim).wall j).nx = 0 ∧ ((create_mesh mesh sim).wall j).ny = 1
          ∧ ((create_mesh mesh sim).wall j).nz = 0)
        ∧ ((j = ((create_mesh mesh sim).cell i).w5 ∨ j = ((create_mesh mesh sim).cell i).w6) →
          ((create_mesh mesh sim).wall j).nx = 0 ∧ ((create_mesh mesh sim).wall j).ny = 0
          ∧ ((create_mesh mesh sim).wall j).nz = 1) := by
    intro i j hi
    obtain ⟨n4, n2, n1, n3, n5, n6⟩ := create_mesh_normals_flat mesh sim i (hnc ▸ hi)
    refine ⟨?_, ?_, ?_⟩
    · rintro (h | h) <;> subst h
      · exact n2
      · exact n4
    · rintro (h | h) <;> subst h
      · exact n1
      · exact n3
    · rintro (h | h) <;> subst h
      · exact n5
      · exact n6
  refine ⟨hnc, by rw [hnw, hnc], ?_, ?_, hnor, ?_⟩
  · intro i hi
    exact (create_mesh_cell_flat mesh sim i (hnc ▸ hi)).1
  · intro j hj
    obtain ⟨l, m, n, hl, hm, hn, hcase⟩ :=
      wall_id_cover mesh.xcells mesh.ycells mesh.zcells j hX hY hZ (hnw ▸ hj)
    obtain ⟨f1, f4, f5, f2, f3, f6, -⟩ := create_mesh_cell_fields mesh sim l m n hl hm hn
    refine ⟨cell_index mesh.xcells mesh.ycells l m n, ?_, ?_⟩
    · rw [hnc]; exact cell_index_lt _ _ _ l m n hl hm hn
    · rcases hcase with h | h | h | ⟨hl1, h⟩ | ⟨hm1, h⟩ | ⟨hn1, h⟩
      · left; rw [f1]; exact h
      · right; right; right; left; rw [f4]; exact h
      · right; right; right; right; left; rw [f5]; exact h
      · right; left; rw [f2, if_pos hl1]; exact h
      · right; right; left; rw [f3, if_pos hm1]; exact h
      · right; right; right; right; right; rw [f6, if_pos hn1]; exact h
  · intro i k j hi hk
    obtain ⟨ax, ay, az⟩ := hnor i j hi
    obtain ⟨bx, b_y, bz⟩ := hnor k j hk
    refine ⟨?_, ?_, ?_⟩
    · rintro ⟨h1, h2⟩
      have e1 := (ax h1).1
      have e2 := (b_y h2).1
      rw [e1] at e2
      exact one_ne_zero e2
    · rintro ⟨h1, h2⟩
      have e1 := (ax h1).1
      have e2 := (bz h2).1
      rw [e1] at e2
      exact one_ne_zero e2
    · rintro ⟨h1, h2⟩
      have e1 := (ay h1).2.1
      have e2 := (bz h2).2.1
      rw [e1] at e2
      exact one_ne_zero e2

/-- Instance of `neighbour_wiring`: the cell `(0, 0, 0)` of `periodicGrid`,
x axis. -/
theorem neighbour_wiring_witness :
    ((create_mesh (periodicGrid : Mesh ℚ) (eulerSim 0 1)).wall
          ((create_mesh (periodicGrid : Mesh ℚ) (eulerSim 0 1)).cell
            (cell_index (periodicGrid : Mesh ℚ).xcells (periodicGrid : Mesh ℚ).ycells 0 0 0)).w4).cellR
        = cell_index (periodicGrid : Mesh ℚ).xcells (periodicGrid : Mesh ℚ).ycells 0 0 0
    ∧ ((create_mesh (periodicGrid : Mesh ℚ) (eulerSim 0 1)).wall
          ((create_mesh (periodicGrid : Mesh ℚ) (eulerSim 0 1)).cell
            (cell_index (periodicGrid : Mesh ℚ).xcells (periodicGrid : Mesh ℚ).ycells 0 0 0)).w4).cellL
        = cell_index (periodicGrid : Mesh ℚ).xcells (periodicGrid : Mesh ℚ).ycells
            ((0 + (periodicGrid : Mesh ℚ).xcells - 1) % (periodicGrid : Mesh ℚ).xcells) 0 0
    ∧ ((create_mesh (periodicGrid : Mesh ℚ) (eulerSim 0 1)).wall
          ((create_mesh (periodicGrid : Mesh ℚ) (eulerSim 0 1)).cell
            (cell_index (periodicGrid : Mesh ℚ).xcells (periodicGrid : Mesh ℚ).ycells 0 0 0)).w2).cellL
        = cell_index (periodicGrid : Mesh ℚ).xcells (periodicGrid : Mesh ℚ).ycells 0 0 0
    ∧ ((create_mesh (periodicGrid : Mesh ℚ) (eulerSim 0 1)).wall
          ((create_mesh (periodicGrid : Mesh ℚ) (eulerSim 0 1)).cell
            (cell_index (periodicGrid : Mesh ℚ).xcells (periodicGrid : Mesh ℚ).ycells 0 0 0)).w2).cellR
        = cell_index (periodicGrid : Mesh ℚ).xcells (periodicGrid : Mesh ℚ).ycells
            ((0 + 1) % (periodicGrid : Mesh ℚ).xcells) 0 0 :=
  (neighbour_wiring (periodicGrid : Mesh ℚ) (eulerSim 0 1) 0 0 0
    (show (0 : Nat) < 2 by decide) (show (0 : Nat) < 2 by decide)
    (show (0 : Nat) < 2 by decide)).1

/-- Instance of `wall_numbering`: `periodicGrid` has 8 cells and 36 walls. -/
theorem wall_numbering_witness :
    (create_mesh (periodicGrid : Mesh ℚ) (eulerSim 0 1)).ncells
        = (periodicGrid : Mesh ℚ).xcells * (periodicGrid : Mesh ℚ).ycells
          * (periodicGrid : Mesh ℚ).zcells
    ∧ (create_mesh (periodicGrid : Mesh ℚ) (eulerSim 0 1)).nwalls
        = 3 * (create_mesh (periodicGrid : Mesh ℚ) (eulerSim 0 1)).ncells
          + (periodicGrid : Mesh ℚ).xcells * (periodicGrid : Mesh ℚ).zcells
          + (periodicGrid : Mesh ℚ).ycells * (periodicGrid : Mesh ℚ).zcells
          + (periodicGrid : Mesh ℚ).xcells * (periodicGrid : Mesh ℚ).ycells
    ∧ ∀ j, j < (create_mesh (periodicGrid : Mesh ℚ) (eulerSim 0 1)).nwalls →
        ∃ i, i < (create_mesh (periodicGrid : Mesh ℚ) (eulerSim 0 1)).ncells
          ∧ (j = ((create_mesh (periodicGrid : Mesh ℚ) (eulerSim 0 1)).cell i).w1
            ∨ j = ((create_mesh (periodicGrid : Mesh ℚ) (eulerSim 0 1)).cell i).w2
            ∨ j = ((create_mesh (periodicGrid : Mesh ℚ) (eulerSim 0 1)).cell i).w3
            ∨ j = ((create_mesh (periodicGrid : Mesh ℚ) (eulerSim 0 1)).cell i).w4
            ∨ j = ((create_mesh (periodicGrid : Mesh ℚ) (eulerSim 0 1)).cell i).w5
            ∨ j = ((create_mesh (periodicGrid : Mesh ℚ) (eulerSim 0 1)).cell i).w6) :=
  ⟨(wall_numbering (periodicGrid : Mesh ℚ) (eulerSim 0 1) (show (0 : Nat) < 2 by decide)
      (show (0 : Nat) < 2 by decide) (show (0 : Nat) < 2 by decide)).1,
    (wall_numbering (periodicGrid : Mesh ℚ) (eulerSim 0 1) (show (0 : Nat) < 2 by decide)
      (show (0 : Nat) < 2 by decide) (show (0 : Nat) < 2 by decide)).2.1,
    (wall_numbering (periodicGrid : Mesh ℚ) (eulerSim 0 1) (show (0 : Nat) < 2 by decide)
      (show (0 : Nat) < 2 by decide) (show (0 : Nat) < 2 by decide)).2.2.2.1⟩

/-! ## Set-up of the periodic boundaries -/

/-- The boundary codes `print_info` returns when no check fails. -/
lemma print_info_some (fl : Flags) (mesh : Mesh K) (sim : Sim K)
    (hs : ¬ (fl.ST ≠ 1 ∧ fl.HLLS = true))
    (hc : ¬ ((if fl.HLLE then 1 else 0) + (if fl.HLLS then 1 else 0) + 0
      + (if fl.HLLC then 1 else 0) > 1))
    (hx : mesh.bc 1 = 1 ↔ mesh.bc 3 = 1) (hy : mesh.bc 0 = 1 ↔ mesh.bc 2 = 1)
    (hz : mesh.bc 4 = 1 ↔ mesh.bc 5 = 1) :
    ∃ M : Mesh K, print_info fl mesh sim = some M ∧ { M with bc := mesh.bc } = mesh
      ∧ (M.bc 1 = if mesh.bc 1 = 1 ∧ (mesh.xcells : Int) ≤ Int.tdiv (sim.order - 1) 2 then 3
          else mesh.bc 1)
      ∧ (M.bc 3 = if mesh.bc 1 = 1 ∧ (mesh.xcells : Int) ≤ Int.tdiv (sim.order - 1) 2 then 3
          else mesh.bc 3)
      ∧ (M.bc 0 = if mesh.bc 0 = 1 ∧ (mesh.ycells : Int) ≤ Int.tdiv (sim.order - 1) 2 then 3
          else mesh.bc 0)
      ∧ (M.bc 2 = if mesh.bc 0 = 1 ∧ (mesh.ycells : Int) ≤ Int.tdiv (sim.order - 1) 2 then 3
          else mesh.bc 2)
      ∧ (M.bc 4 = if mesh.bc 4 = 1 ∧ (mesh.zcells : Int) ≤ Int.tdiv (sim.order - 1) 2 then 3
          else mesh.bc 4)
      ∧ (M.bc 5 = if mesh.bc 4 = 1 ∧ (mesh.zcells : Int) ≤ Int.tdiv (sim.order - 1) 2 then 3
          else mesh.bc 5) := by
  have cx : ¬ ((mesh.bc 1 = 1 ∧ mesh.bc 3 ≠ 1) ∨ (mesh.bc 1 ≠ 1 ∧ mesh.bc 3 = 1)) := by
    rintro (⟨a, b⟩ | ⟨a, b⟩)
    · exact b (hx.mp a)
    · exact a (hx.mpr b)
  have cy : ¬ ((mesh.bc 0 = 1 ∧ mesh.bc 2 ≠ 1) ∨ (mesh.bc 0 ≠ 1 ∧ mesh.bc 2 = 1)) := by
    rintro (⟨a, b⟩ | ⟨a, b⟩)
    · exact b (hy.mp a)
    · exact a (hy.mpr b)
  have cz : ¬ ((mesh.bc 4 = 1 ∧ mesh.bc 5 ≠ 1) ∨ (mesh.bc 4 ≠ 1 ∧ mesh.bc 5 = 1)) := by
    rintro (⟨a, b⟩ | ⟨a, b⟩)
    · exact b (hz.mp a)
    · exact a (hz.mpr b)
  unfold print_info
  rw [if_neg hs, if_neg hc, if_neg cx, if_neg cy, if_neg cz]
  refine ⟨_, rfl, rfl, ?_⟩
  by_cases px : mesh.bc 1 = 1 ∧ (mesh.xcells : Int) ≤ Int.tdiv (sim.order - 1) 2 <;>
  by_cases py : mesh.bc 0 = 1 ∧ (mesh.ycells : Int) ≤ Int.tdiv (sim.order - 1) 2 <;>
  by_cases pz : mesh.bc 4 = 1 ∧ (mesh.zcells : Int) ≤ Int.tdiv (sim.order - 1) 2 <;>
  simp [px, py, pz, Function.update]

/-- Claim C17: when the solver flags are consistent and on each axis either
both or none of the two boundary codes are periodic, `print_info` does not
exit and changes only the boundary codes; on an axis requested periodic whose
number of cells is at most `(order-1)/2` both codes become 3 (transmissive)
and `create_mesh` then sets the periodicity flag of the axis to 0; on an axis
requested periodic with more cells both codes stay 1 and `create_mesh` sets
the flag to 1. -/
theorem periodic_downgrade (fl : Flags) (mesh : Mesh K) (sim : Sim K)
    (hs : ¬ (fl.ST ≠ 1 ∧ fl.HLLS = true))
    (hc : ¬ ((if fl.HLLE then 1 else 0) + (if fl.HLLS then 1 else 0) + 0
      + (if fl.HLLC then 1 else 0) > 1))
    (hx : mesh.bc 1 = 1 ↔ mesh.bc 3 = 1) (hy : mesh.bc 0 = 1 ↔ mesh.bc 2 = 1)
    (hz : mesh.bc 4 = 1 ↔ mesh.bc 5 = 1) :
    ∃ M : Mesh K, print_info fl mesh sim = some M ∧ { M with bc := mesh.bc } = mesh
      ∧ (mesh.bc 1 = 1 ∧ mesh.bc 3 = 1 →
          ((mesh.xcells : Int) ≤ Int.tdiv (sim.order - 1) 2 →
            M.bc 1 = 3 ∧ M.bc 3 = 3 ∧ (create_mesh M sim).periodicX = 0)
          ∧ (Int.tdiv (sim.order - 1) 2 < (mesh.xcells : Int) →
            M.bc 1 = 1 ∧ M.bc 3 = 1 ∧ (create_mesh M sim).periodicX = 1))
      ∧ (mesh.bc 0 = 1 ∧ mesh.bc 2 = 1 →
          ((mesh.ycells : Int) ≤ Int.tdiv (sim.order - 1) 2 →
            M.bc 0 = 3 ∧ M.bc 2 = 3 ∧ (create_mesh M sim).periodicY = 0)
          ∧ (Int.tdiv (sim.order - 1) 2 < (mesh.ycells : Int) →
            M.bc 0 = 1 ∧ M.bc 2 = 1 ∧ (create_mesh M sim).periodicY = 1))
      ∧ (mesh.bc 4 = 1 ∧ mesh.bc 5 = 1 →
          ((mesh.zcells : Int) ≤ Int.tdiv (sim.order - 1) 2 →
            M.bc 4 = 3 ∧ M.bc 5 = 3 ∧ (create_mesh M sim).periodicZ = 0)
          ∧ (Int.tdiv (sim.order - 1) 2 < (mesh.zcells : Int) →
            M.bc 4 = 1 ∧ M.bc 5 = 1 ∧ (create_mesh M sim).periodicZ = 1)) := by
  obtain ⟨M, hM, hframe, b1, b3, b0, b2, b4, b5⟩ := print_info_some fl mesh sim hs hc hx hy hz
  have pX : (create_mesh M sim).periodicX = if M.bc 1 = 1 ∧ M.bc 3 = 1 then 1 else 0 := rfl
  have pY : (create_mesh M sim).periodicY = if M.bc 0 = 1 ∧ M.bc 2 = 1 then 1 else 0 := rfl
  have pZ : (create_mesh M sim).periodicZ = if M.bc 4 = 1 ∧ M.bc 5 = 1 then 1 else 0 := rfl
  refine ⟨M, hM, hframe, ?_, ?_, ?_⟩
  · rintro ⟨a, b⟩
    refine ⟨fun h => ?_, fun h => ?_⟩
    · rw [if_pos ⟨a, h⟩] at b1 b3
      rw [pX, b1, b3]
      exact ⟨rfl, rfl, by decide⟩
    · rw [if_neg (fun hh => absurd hh.2 (not_le.mpr h))] at b1 b3
      rw [pX, b1, b3, a, b]
      exact ⟨rfl, rfl, by decide⟩
  · rintro ⟨a, b⟩
    refine ⟨fun h => ?_, fun h => ?_⟩
    · rw [if_pos ⟨a, h⟩] at b0 b2
      rw [pY, b0, b2]
      exact ⟨rfl, rfl, by decide⟩
    · rw [if_neg (fun hh => absurd hh.2 (not_le.mpr h))] at b0 b2
      rw [pY, b0, b2, a, b]
      exact ⟨rfl, rfl, by decide⟩
  · rintro ⟨a, b⟩
    refine ⟨fun h => ?_, fun h => ?_⟩
    · rw [if_pos ⟨a, h⟩] at b4 b5
      rw [pZ, b4, b5]
      exact ⟨rfl, rfl, by decide⟩
    · rw [if_neg (fun hh => absurd hh.2 (not_le.mpr h))] at b4 b5
      rw [pZ, b4, b5, a, b]
      exact ⟨rfl, rfl, by decide⟩

/-- Instance of `periodic_downgrade`: `periodicGrid` (two cells along each
axis, all faces periodic) at order 5 under the flags `hllsFlags`. -/
theorem periodic_downgrade_witness :
    ∃ M : Mesh ℚ, print_info hllsFlags (periodicGrid : Mesh ℚ) (eulerSim 0 5) = some M
      ∧ ((periodicGrid : Mesh ℚ).bc 1 = 1 ∧ (periodicGrid : Mesh ℚ).bc 3 = 1 →
          (((periodicGrid : Mesh ℚ).xcells : Int) ≤ Int.tdiv ((eulerSim (0 : ℚ) 5).order - 1) 2 →
            M.bc 1 = 3 ∧ M.bc 3 = 3 ∧ (create_mesh M (eulerSim 0 5)).periodicX = 0)
          ∧ (Int.tdiv ((eulerSim (0 : ℚ) 5).order - 1) 2 < ((periodicGrid : Mesh ℚ).xcells : Int) →
            M.bc 1 = 1 ∧ M.bc 3 = 1 ∧ (create_mesh M (eulerSim 0 5)).periodicX = 1)) :=
  (periodic_downgrade hllsFlags (periodicGrid : Mesh ℚ) (eulerSim 0 5)
    (by decide) (by decide) ⟨fun _ => rfl, fun _ => rfl⟩ ⟨fun _ => rfl, fun _ => rfl⟩
    ⟨fun _ => rfl, fun _ => rfl⟩).imp (fun _ h => ⟨h.1, h.2.2.1⟩)

/-! ## Source term, pressure and energy, rotation -/

/-- The cells after `compute_source` in each source mode. -/
lemma compute_source_cell (ST : Nat) (mesh : Mesh K) (i : Nat) :
    (compute_source ST mesh).cell i
      = if i < mesh.ncells then
          (if ST = 1 then
            (if (mesh.cell i).type ≠ 0 ∧ (mesh.cell i).st_sizeZ > 1 then
              { mesh.cell i with
                S := Function.update
                  (Function.update (mesh.cell i).S 3
                    (-g * (mesh.cell i).U 0 + (mesh.cell i).S_corr 3))
                  4 (-g * (mesh.cell i).U 3) }
             else mesh.cell i)
           else if ST = 2 then
            (if (mesh.cell i).type ≠ 0 then
              { mesh.cell i with
                S := Function.update
                  (Function.update (mesh.cell i).S 3
                    (-g * ((mesh.cell i).U 0 - (mesh.cell i).Ue 0)))
                  4 (-g * (mesh.cell i).U 3) }
             else mesh.cell i)
           else
            (if (mesh.cell i).type ≠ 0 then
              { mesh.cell i with
                S := Function.update
                  (Function.update (mesh.cell i).S 3
                    (-g * ((mesh.cell i).U 0 - (mesh.cell i).Ue 0)))
                  4 0 }
             else mesh.cell i))
        else mesh.cell i := by
  unfold compute_source
  by_cases h1 : ST = 1
  · simp only [if_pos h1]
    rw [forLoop_pointwise_if (fun c : Cell K => c.type ≠ 0 ∧ c.st_sizeZ > 1)
      (fun c : Cell K => { c with
        S := Function.update (Function.update c.S 3 (-g * c.U 0 + c.S_corr 3)) 4 (-g * c.U 3) })]
  · by_cases h2 : ST = 2
    · simp only [if_neg h1, if_pos h2]
      rw [forLoop_pointwise_if (fun c : Cell K => c.type ≠ 0)
        (fun c : Cell K => { c with
          S := Function.update (Function.update c.S 3 (-g * (c.U 0 - c.Ue 0))) 4 (-g * c.U 3) })]
    · simp only [if_neg h1, if_neg h2]
      rw [forLoop_pointwise_if (fun c : Cell K => c.type ≠ 0)
        (fun c : Cell K => { c with
          S := Function.update (Function.update c.S 3 (-g * (c.U 0 - c.Ue 0))) 4 0 })]

/-- Claim C21 (amended): after `compute_source`, for every cell `i < ncells`
with `type ≠ 0`: in mode 1, if `st_sizeZ > 1` then `S[3] = -g*U[0] + S_corr[3]`
and `S[4] = -g*U[3]`, and otherwise `S` is left as it was; in mode 2
`S[3] = -g*(U[0] - Ue[0])` and `S[4] = -g*U[3]`; in mode 3
`S[3] = -g*(U[0] - Ue[0])` and `S[4] = 0`; with `g = 98/10`; in every mode
the other components of `S` are left as they were, so that each of them is 0
when it was 0 before the call (as `create_mesh` sets it). -/
theorem source_term_per_mode (ST : Nat) (mesh : Mesh K) (i : Nat)
    (hi : i < mesh.ncells) (ht : (mesh.cell i).type ≠ 0) :
    (ST = 1 →
      ((mesh.cell i).st_sizeZ > 1 →
        ((compute_source ST mesh).cell i).S 3
            = -(98 / 10) * (mesh.cell i).U 0 + (mesh.cell i).S_corr 3
        ∧ ((compute_source ST mesh).cell i).S 4 = -(98 / 10) * (mesh.cell i).U 3)
      ∧ (¬ (mesh.cell i).st_sizeZ > 1 →
        ((compute_source ST mesh).cell i).S = (mesh.cell i).S))
    ∧ (ST = 2 →
      ((compute_source ST mesh).cell i).S 3
          = -(98 / 10) * ((mesh.cell i).U 0 - (mesh.cell i).Ue 0)
      ∧ ((compute_source ST mesh).cell i).S 4 = -(98 / 10) * (mesh.cell i).U 3)
    ∧ (ST = 3 →
      ((compute_source ST mesh).cell i).S 3
          = -(98 / 10) * ((mesh.cell i).U 0 - (mesh.cell i).Ue 0)
      ∧ ((compute_source ST mesh).cell i).S 4 = 0)
    ∧ (∀ k, k ≠ 3 → k ≠ 4 → ((compute_source ST mesh).cell i).S k = (mesh.cell i).S k)
    ∧ (∀ k, k ≠ 3 → k ≠ 4 → (mesh.cell i).S k = 0 →
        ((compute_source ST mesh).cell i).S k = 0) := by
  have hg : (g : K) = 98 / 10 := rfl
  rw [compute_source_cell, if_pos hi]
  refine ⟨?_, ?_, ?_, ?_, ?_⟩
  · intro h1
    rw [if_pos h1]
    refine ⟨fun hz => ?_, fun hz => ?_⟩
    · rw [if_pos ⟨ht, hz⟩]
      simp [hg]
    · rw [if_neg (fun h => hz h.2)]
  · intro h2
    rw [if_neg (by omega), if_pos h2, if_pos ht]
    simp [hg]
  · intro h3
    rw [if_neg (by omega), if_neg (by omega), if_pos ht]
    simp [hg]
  · intro k k3 k4
    split_ifs <;> simp [Function.update_noteq k3, Function.update_noteq k4]
  · intro k k3 k4 h0
    split_ifs <;> simp [Function.update_noteq k3, Function.update_noteq k4, h0]

/-- Instance of `source_term_per_mode`: mode 3 on `oneCellMesh`. -/
theorem source_term_per_mode_witness :
    ((oneCellMesh : Mesh ℚ).cell 0).type ≠ 0
    ∧ ((compute_source 3 (oneCellMesh : Mesh ℚ)).cell 0).S 3
        = -(98 / 10) * (((oneCellMesh : Mesh ℚ).cell 0).U 0 - ((oneCellMesh : Mesh ℚ).cell 0).Ue 0)
    ∧ ((compute_source 3 (oneCellMesh : Mesh ℚ)).cell 0).S 4 = 0 :=
  ⟨show (1 : Int) ≠ 0 by decide,
    (source_term_per_mode 3 (oneCellMesh : Mesh ℚ) 0 (show (0 : Nat) < 1 by decide)
      (show (1 : Int) ≠ 0 by decide)).2.2.1 rfl⟩

/-- Claim C21 as stated fails on `oneCellMesh` in mode 1: its cell is not
solid, but its z-stencil has size 0, not above 1, so `compute_source` leaves
`S[3] = 0`, whereas `-g*U[0] + S_corr[3] = -98/10`. -/
theorem source_mode1_boundary_cell :
    ((oneCellMesh : Mesh ℚ).cell 0).type ≠ 0
    ∧ ((compute_source 1 (oneCellMesh : Mesh ℚ)).cell 0).S 3 = 0
    ∧ -(98 / 10) * ((oneCellMesh : Mesh ℚ).cell 0).U 0 + ((oneCellMesh : Mesh ℚ).cell 0).S_corr 3
        = -(98 / 10)
    ∧ ((compute_source 1 (oneCellMesh : Mesh ℚ)).cell 0).S 3
        ≠ -(98 / 10) * ((oneCellMesh : Mesh ℚ).cell 0).U 0
          + ((oneCellMesh : Mesh ℚ).cell 0).S_corr 3 := by
  have e : ((compute_source 1 (oneCellMesh : Mesh ℚ)).cell 0).S 3 = 0 := by
    rw [compute_source_cell, if_pos (show (0 : Nat) < (oneCellMesh : Mesh ℚ).ncells by decide),
      if_pos rfl, if_neg]
    · rfl
    · rintro ⟨-, h⟩
      exact absurd h (by decide)
  have e2 : -(98 / 10) * ((oneCellMesh : Mesh ℚ).cell 0).U 0
      + ((oneCellMesh : Mesh ℚ).cell 0).S_corr 3 = -(98 / 10) := by
    simp [oneCellMesh, oneCell, zeroCell, restState, state6]
  refine ⟨show (1 : Int) ≠ 0 by decide, e, e2, ?_⟩
  rw [e, e2]
  norm_num

/-- Claim C22: for every `gamma ≠ 1` and all `p, u, v, w, rho, z`,
`pressure_from_energy` applied to `energy_from_pressure` returns `p` in every
source mode; `pressure_from_energy` returns
`(gamma-1)*(E - 1/2*rho*(u^2+v^2+w^2) - rho*g*z)` in mode 3 and
`(gamma-1)*(E - 1/2*rho*(u^2+v^2+w^2))` in every other mode, with `g = 98/10`. -/
theorem pressure_energy_round_trip (ST : Nat) (gm p u v w rho z : K) (hgm : gm ≠ 1) :
    pressure_from_energy ST gm (energy_from_pressure ST gm p u v w rho z) u v w rho z = p
    ∧ (∀ E : K, pressure_from_energy 3 gm E u v w rho z
        = (gm - 1) * (E - 1 / 2 * rho * (u ^ 2 + v ^ 2 + w ^ 2) - rho * (98 / 10) * z))
    ∧ (∀ E : K, ST ≠ 3 → pressure_from_energy ST gm E u v w rho z
        = (gm - 1) * (E - 1 / 2 * rho * (u ^ 2 + v ^ 2 + w ^ 2))) := by
  have h : gm - 1 ≠ 0 := sub_ne_zero.mpr hgm
  have hg : (g : K) = 98 / 10 := rfl
  refine ⟨?_, ?_, ?_⟩
  · unfold pressure_from_energy energy_from_pressure
    by_cases h3 : ST = 3
    · rw [if_pos h3, if_pos h3]
      field_simp
      ring
    · rw [if_neg h3, if_neg h3]
      field_simp
      ring
  · intro E
    unfold pressure_from_energy
    rw [if_pos rfl, hg]
    ring
  · intro E h3
    unfold pressure_from_energy
    rw [if_neg h3]
    ring

/-- Instance of `pressure_energy_round_trip`: mode 3, `gamma = 7/5`. -/
theorem pressure_energy_round_trip_witness :
    (7 / 5 : ℚ) ≠ 1
    ∧ pressure_from_energy 3 (7 / 5 : ℚ) (energy_from_pressure 3 (7 / 5) 1 2 3 4 5 6) 2 3 4 5 6 = 1 :=
  ⟨by norm_num, (pressure_energy_round_trip 3 (7 / 5 : ℚ) 1 2 3 4 5 6 (by norm_num)).1⟩

/-- Claim C29: for each of the three axis-unit normals the rotation of the
Riemann solvers maps the momentum triple `(m1, m2, m3)` to a signed
permutation whose first entry is the wall-normal component (`(m1, m2, m3)` for
`(1,0,0)`, `(m2, -m1, m3)` for `(0,1,0)`, `(m3, m2, -m1)` for `(0,0,1)`) and
copies components 0 and 4; the inverse rotation applied to the rotated array
returns the array, in components 0..4. -/
theorem rotation_round_trip (nx ny nz : K) (U old : Nat → K)
    (hn : (nx = 1 ∧ ny = 0 ∧ nz = 0) ∨ (nx = 0 ∧ ny = 1 ∧ nz = 0) ∨ (nx = 0 ∧ ny = 0 ∧ nz = 1)) :
    (∀ m, m < 5 → inverse_rotation nx ny nz (rotation nx ny nz U) old m = U m)
    ∧ rotation nx ny nz U 1 = U 1 * nx + U 2 * ny + U 3 * nz
    ∧ rotation nx ny nz U 0 = U 0 ∧ rotation nx ny nz U 4 = U 4
    ∧ ((nx = 1 ∧ ny = 0 ∧ nz = 0) →
        rotation nx ny nz U 1 = U 1 ∧ rotation nx ny nz U 2 = U 2 ∧ rotation nx ny nz U 3 = U 3)
    ∧ ((nx = 0 ∧ ny = 1 ∧ nz = 0) →
        rotation nx ny nz U 1 = U 2 ∧ rotation nx ny nz U 2 = -U 1 ∧ rotation nx ny nz U 3 = U 3)
    ∧ ((nx = 0 ∧ ny = 0 ∧ nz = 1) →
        rotation nx ny nz U 1 = U 3 ∧ rotation nx ny nz U 2 = U 2
        ∧ rotation nx ny nz U 3 = -U 1) := by
  refine ⟨?_, rfl, rfl, rfl, ?_, ?_, ?_⟩
  · intro m hm
    rcases hn with ⟨h1, h2, h3⟩ | ⟨h1, h2, h3⟩ | ⟨h1, h2, h3⟩ <;> subst h1 h2 h3 <;>
      interval_cases m <;> simp [inverse_rotation, rotation]
  · rintro ⟨h1, h2, h3⟩
    subst h1 h2 h3
    simp [rotation]
  · rintro ⟨h1, h2, h3⟩
    subst h1 h2 h3
    simp [rotation]
  · rintro ⟨h1, h2, h3⟩
    subst h1 h2 h3
    simp [rotation]

/-- Instance of `rotation_round_trip`: the normal `(0, 1, 0)` and the array
`(1, 2, 3, 4, 5, 6)`. -/
theorem rotation_round_trip_witness :
    ((0 : ℚ) = 0 ∧ (1 : ℚ) = 1 ∧ (0 : ℚ) = 0)
    ∧ (∀ m, m < 5 →
        inverse_rotation (0 : ℚ) 1 0 (rotation 0 1 0 (state6 1 2 3 4 5 6)) (fun _ => 0) m
          = state6 1 2 3 4 5 6 m) :=
  ⟨⟨rfl, rfl, rfl⟩,
    (rotation_round_trip (0 : ℚ) 1 0 (state6 1 2 3 4 5 6) (fun _ => 0)
      (Or.inr (Or.inl ⟨rfl, rfl, rfl⟩))).1⟩

/-! ## Wall types, inactive walls, density check -/

/-- The walls after `update_wall_type` with at least one solid. -/
lemma update_wall_type_wall (mesh : Mesh K) (solids : Solids K) (hs : ¬ solids.nsolid < 1)
    (j : Nat) :
    (update_wall_type mesh solids).wall j
      = if j < mesh.nwalls then
          (if ((mesh.cell (mesh.wall j).cellL).ghost > 0 ∧ (mesh.cell (mesh.wall j).cellR).ghost > 0)
              ∨ ((mesh.cell (mesh.wall j).cellR).type = 0 ∧ (mesh.cell (mesh.wall j).cellL).ghost > 0)
              ∨ ((mesh.cell (mesh.wall j).cellL).type = 0 ∧ (mesh.cell (mesh.wall j).cellR).ghost > 0)
              ∨ ((mesh.cell (mesh.wall j).cellL).type = 0 ∧ (mesh.cell (mesh.wall j).cellR).type = 0)
            then { (mesh.wall j) with wtype := 0 } else mesh.wall j)
        else mesh.wall j := by
  unfold update_wall_type
  rw [if_neg hs]
  simp only
  have e : (fun (n : Nat) (wall : Nat → Wall K) =>
          if (mesh.cell (wall n).cellL).ghost > 0 ∧ (mesh.cell (wall n).cellR).ghost > 0 then
            Function.update wall n { (wall n) with wtype := 0 }
          else if (mesh.cell (wall n).cellR).type = 0 ∧ (mesh.cell (wall n).cellL).ghost > 0 then
            Function.update wall n { (wall n) with wtype := 0 }
          else if (mesh.cell (wall n).cellL).type = 0 ∧ (mesh.cell (wall n).cellR).ghost > 0 then
            Function.update wall n { (wall n) with wtype := 0 }
          else if (mesh.cell (wall n).cellL).type = 0 ∧ (mesh.cell (wall n).cellR).type = 0 then
            Function.update wall n { (wall n) with wtype := 0 }
          else wall)
      = fun (n : Nat) (wall : Nat → Wall K) =>
          if (fun w : Wall K =>
              ((mesh.cell w.cellL).ghost > 0 ∧ (mesh.cell w.cellR).ghost > 0)
              ∨ ((mesh.cell w.cellR).type = 0 ∧ (mesh.cell w.cellL).ghost > 0)
              ∨ ((mesh.cell w.cellL).type = 0 ∧ (mesh.cell w.cellR).ghost > 0)
              ∨ ((mesh.cell w.cellL).type = 0 ∧ (mesh.cell w.cellR).type = 0)) (wall n)
          then Function.update wall n ((fun w : Wall K => { w with wtype := 0 }) (wall n))
          else wall := by
    funext n wall
    simp only
    split_ifs <;> first | rfl | tauto
  rw [e, forLoop_pointwise_if (fun w : Wall K =>
      ((mesh.cell w.cellL).ghost > 0 ∧ (mesh.cell w.cellR).ghost > 0)
      ∨ ((mesh.cell w.cellR).type = 0 ∧ (mesh.cell w.cellL).ghost > 0)
      ∨ ((mesh.cell w.cellL).type = 0 ∧ (mesh.cell w.cellR).ghost > 0)
      ∨ ((mesh.cell w.cellL).type = 0 ∧ (mesh.cell w.cellR).type = 0))
    (fun w : Wall K => { w with wtype := 0 })]

/-- Claim C26: after `update_wall_type`, the last step of the set-up with
solids, run with at least one solid on any mesh (in particular the one left by
`assign_cell_type`, `assign_wall_type` and `assign_image_cells`), every wall
whose left and right cells are both Solid (`type = 0`) has `wtype = 0`;
equivalently every wall with `wtype ≠ 0` has a neighbour that is not Solid. -/
theorem solid_walls_inactive (mesh : Mesh K) (solids : Solids K) (hs : 1 ≤ solids.nsolid)
    (j : Nat) (hj : j < (update_wall_type mesh solids).nwalls) :
    (((update_wall_type mesh solids).cell ((update_wall_type mesh solids).wall j).cellL).type = 0
      ∧ ((update_wall_type mesh solids).cell ((update_wall_type mesh solids).wall j).cellR).type = 0
      → ((update_wall_type mesh solids).wall j).wtype = 0)
    ∧ (((update_wall_type mesh solids).wall j).wtype ≠ 0 →
        ((update_wall_type mesh solids).cell ((update_wall_type mesh solids).wall j).cellL).type ≠ 0
        ∨ ((update_wall_type mesh solids).cell ((update_wall_type mesh solids).wall j).cellR).type
            ≠ 0) := by
  have hs' : ¬ solids.nsolid < 1 := by omega
  have hc : (update_wall_type mesh solids).cell = mesh.cell := by
    unfold update_wall_type
    rw [if_neg hs']
  have hn : (update_wall_type mesh solids).nwalls = mesh.nwalls := by
    unfold update_wall_type
    rw [if_neg hs']
  rw [hn] at hj
  have key : ((update_wall_type mesh solids).cell ((update_wall_type mesh solids).wall j).cellL).type = 0
      ∧ ((update_wall_type mesh solids).cell ((update_wall_type mesh solids).wall j).cellR).type = 0
      → ((update_wall_type mesh solids).wall j).wtype = 0 := by
    rw [hc, update_wall_type_wall mesh solids hs' j, if_pos hj]
    split_ifs with h
    · intro _
      rfl
    · intro h2
      exact absurd (Or.inr (Or.inr (Or.inr h2))) h
  refine ⟨key, fun h => ?_⟩
  by_contra hc2
  push_neg at hc2
  exact h (key hc2)

/-- Instance of `solid_walls_inactive`: the wall between the two solid cells
of `solidPairMesh` becomes inactive. -/
theorem solid_walls_inactive_witness :
    1 ≤ (oneSolid : Solids ℚ).nsolid
    ∧ 0 < (update_wall_type (solidPairMesh : Mesh ℚ) oneSolid).nwalls
    ∧ ((update_wall_type (solidPairMesh : Mesh ℚ) oneSolid).wall 0).wtype = 0 :=
  ⟨by decide, by decide,
    (solid_walls_inactive (solidPairMesh : Mesh ℚ) oneSolid (by decide) 0 (by decide)).1
      ⟨rfl, rfl⟩⟩

/-- The wall loop of `compute_fluxes` returns the inactive walls as they
were. -/
lemma compute_fluxes_loop_inactive (sqrt : K → K) (fl : Flags) (mesh : Mesh K) (sim : Sim K)
    (n : Nat) (r : (Nat → Wall K) × K)
    (h : forLoop n
        (fun n (st : Option ((Nat → Wall K) × K)) =>
          st.bind (fun s =>
            (compute_fluxes_wall sqrt fl mesh sim (s.1 n) s.2).map
              (fun q => (Function.update s.1 n q.1, q.2))))
        (some (mesh.wall, 0)) = some r)
    (j : Nat) (hj : (mesh.wall j).wtype = 0) : r.1 j = mesh.wall j := by
  induction n generalizing r with
  | zero =>
    simp only [forLoop, Option.some.injEq] at h
    rw [← h]
  | succ n ih =>
    rw [forLoop_succ] at h
    cases hs : forLoop n
        (fun n (st : Option ((Nat → Wall K) × K)) =>
          st.bind (fun s =>
            (compute_fluxes_wall sqrt fl mesh sim (s.1 n) s.2).map
              (fun q => (Function.update s.1 n q.1, q.2))))
        (some (mesh.wall, 0)) with
    | none =>
      rw [hs] at h
      simp at h
    | some s =>
      rw [hs] at h
      simp only [Option.some_bind] at h
      cases hq : compute_fluxes_wall sqrt fl mesh sim (s.1 n) s.2 with
      | none =>
        rw [hq] at h
        simp at h
      | some q =>
        rw [hq] at h
        simp only [Option.map_some', Option.some.injEq] at h
        rw [← h]
        by_cases hjn : j = n
        · subst hjn
          simp only [Function.update_same]
          have e := ih s hs
          rw [e] at hq
          unfold compute_fluxes_wall at hq
          rw [if_neg (by rw [hj]; simp)] at hq
          simp only [Option.some.injEq] at hq
          rw [← hq]
        · simp only [Function.update_noteq hjn]
          exact ih s hs

/-- Claim C27 (amended): when `compute_fluxes` returns, every wall with
`wtype = 0` (Inactive) is as it was before the call; in particular its
`fL_star` and `fR_star` hold what they held before the call (`compute_fluxes`
skips the wall), so they are 0 exactly when they were 0 before. -/
theorem inactive_walls_untouched (sqrt : K → K) (fl : Flags) (mesh M2 : Mesh K) (sim : Sim K)
    (h : compute_fluxes sqrt fl mesh sim = some M2)
    (j : Nat) (hj : (mesh.wall j).wtype = 0) :
    (M2.wall j).wtype = 0
    ∧ (M2.wall j).fL_star = (mesh.wall j).fL_star
    ∧ (M2.wall j).fR_star = (mesh.wall j).fR_star := by
  unfold compute_fluxes at h
  simp only at h
  cases hs : forLoop mesh.nwalls
        (fun n (st : Option ((Nat → Wall K) × K)) =>
          st.bind (fun s =>
            (compute_fluxes_wall sqrt fl mesh sim (s.1 n) s.2).map
              (fun q => (Function.update s.1 n q.1, q.2))))
        (some (mesh.wall, 0)) with
  | none =>
    rw [hs] at h
    simp at h
  | some s =>
    rw [hs] at h
    simp only [Option.map_some', Option.some.injEq] at h
    have e := compute_fluxes_loop_inactive sqrt fl mesh sim mesh.nwalls s hs j hj
    rw [← h]
    simp only [e, hj, and_self]

/-- The flux loop on `inactiveWallMesh` returns, with the wall as it was. -/
lemma compute_fluxes_inactiveWallMesh :
    compute_fluxes (fun x : ℚ => x) buildFlags inactiveWallMesh (eulerSim 1 1)
      = some { (inactiveWallMesh : Mesh ℚ) with
          wall := Function.update (inactiveWallMesh : Mesh ℚ).wall 0
            ((inactiveWallMesh : Mesh ℚ).wall 0),
          lambda_max := 0 } := by
  have e : (inactiveWallMesh : Mesh ℚ).nwalls = 1 := rfl
  unfold compute_fluxes
  simp only [e, forLoop, Option.some_bind]
  unfold compute_fluxes_wall
  rw [if_neg (by simp [inactiveWallMesh, zeroMesh, zeroWall])]
  rfl

/-- Instance of `inactive_walls_untouched`: the inactive wall of
`inactiveWallMesh` keeps its fluxes. -/
theorem inactive_walls_untouched_witness :
    compute_fluxes (fun x : ℚ => x) buildFlags inactiveWallMesh (eulerSim 1 1)
      = some { (inactiveWallMesh : Mesh ℚ) with
          wall := Function.update (inactiveWallMesh : Mesh ℚ).wall 0
            ((inactiveWallMesh : Mesh ℚ).wall 0),
          lambda_max := 0 }
    ∧ ((inactiveWallMesh : Mesh ℚ).wall 0).wtype = 0
    ∧ (Function.update (inactiveWallMesh : Mesh ℚ).wall 0
        ((inactiveWallMesh : Mesh ℚ).wall 0) 0).fL_star = ((inactiveWallMesh : Mesh ℚ).wall 0).fL_star :=
  ⟨compute_fluxes_inactiveWallMesh, rfl,
    (inactive_walls_untouched (fun x : ℚ => x) buildFlags inactiveWallMesh _ (eulerSim 1 1)
      compute_fluxes_inactiveWallMesh 0 rfl).2.1⟩

/-- Claim C27 as stated fails on `inactiveWallMesh`: `compute_fluxes` returns,
and the inactive wall 0 still holds `fL_star[0] = fR_star[0] = 1`, not 0. -/
theorem inactive_wall_keeps_flux :
    ∃ M2 : Mesh ℚ,
      compute_fluxes (fun x : ℚ => x) buildFlags inactiveWallMesh (eulerSim 1 1) = some M2
      ∧ (M2.wall 0).wtype = 0
      ∧ (M2.wall 0).fL_star 0 = 1 ∧ (M2.wall 0).fR_star 0 = 1
      ∧ (M2.wall 0).fL_star 0 ≠ 0 :=
  ⟨_, compute_fluxes_inactiveWallMesh, rfl, rfl, rfl, by
    show (1 : ℚ) ≠ 0
    norm_num⟩

/-- The loop of `update_cell` with the printed indices carried along. -/
lemma forLoop_printed {α : Type} (P : α → Prop) [DecidablePred P] (gfun : α → α)
    (Q : α → Prop) [DecidablePred Q] (n : Nat) (c0 : Nat → α) :
    forLoop n
      (fun i (s : (Nat → α) × List Nat) =>
        if P (s.1 i) then
          (Function.update s.1 i (gfun (s.1 i)), if Q (gfun (s.1 i)) then s.2 ++ [i] else s.2)
        else s)
      (c0, [])
    = (fun i => if i < n then (if P (c0 i) then gfun (c0 i) else c0 i) else c0 i,
       (List.range n).filter (fun i => decide (P (c0 i) ∧ Q (gfun (c0 i))))) := by
  induction n with
  | zero => simp [forLoop]
  | succ n ih =>
    rw [forLoop_succ, ih]
    simp only [lt_self_iff_false, if_false, List.range_succ, List.filter_append]
    by_cases hp : P (c0 n)
    · rw [if_pos hp]
      refine Prod.ext ?_ ?_
      · funext i
        by_cases hi : i = n
        · subst hi; simp [hp]
        · simp only [Function.update_noteq hi]
          have : i < n + 1 ↔ i < n := by omega
          simp only [this]
      · by_cases hq : Q (gfun (c0 n))
        · simp [hp, hq]
        · simp [hp, hq]
    · rw [if_neg hp]
      refine Prod.ext ?_ ?_
      · funext i
        by_cases hi : i = n
        · subst hi; simp [hp]
        · have : i < n + 1 ↔ i < n := by omega
          simp only [this]
      · simp [hp]

/-- Claim C28 (amended): `update_cell` (order 1) returns normally with the
updated state, and the cells it reports (by printing their index) are exactly
the updated cells (`i < ncells`, `type ≠ 0`, `ghost ≠ 1`) whose new density
is below `1e-14`. -/
theorem update_cell_reports_density (mesh : Mesh K) (sim : Sim K) (i : Nat) :
    i ∈ update_cell_printed mesh sim
      ↔ i < mesh.ncells ∧ ((mesh.cell i).type ≠ 0 ∧ (mesh.cell i).ghost ≠ 1)
        ∧ ((update_cell mesh sim).cell i).U 0 < 1 / 10 ^ 14 := by
  have hT : (TOL14 : K) = 1 / 10 ^ 14 := rfl
  unfold update_cell_printed
  have e := forLoop_printed (fun c : Cell K => c.type ≠ 0 ∧ c.ghost ≠ 1)
    (fun c : Cell K => { c with U := (forLoop sim.nvar
      (fun k U => Function.update U k (U k - sim.dt * flux_divergence mesh.wall c k)) c.U) })
    (fun c : Cell K => c.U 0 < TOL14) mesh.ncells mesh.cell
  simp only at e
  simp only
  rw [e]
  simp only [List.mem_filter, List.mem_range, decide_eq_true_eq]
  unfold update_cell
  simp only
  rw [forLoop_pointwise_if (fun c : Cell K => c.type ≠ 0 ∧ c.ghost ≠ 1)
    (fun c => { c with U := (forLoop sim.nvar
      (fun k U => Function.update U k (U k - sim.dt * flux_divergence mesh.wall c k)) c.U) })]
  constructor
  · rintro ⟨h1, h2, h3⟩
    refine ⟨h1, h2, ?_⟩
    simp only [if_pos h1, if_pos h2]
    rw [← hT]
    exact h3
  · rintro ⟨h1, h2, h3⟩
    refine ⟨h1, h2, ?_⟩
    simp only [if_pos h1, if_pos h2] at h3
    rw [← hT] at h3
    exact h3

/-- Claim C28 as stated fails on `drainMesh` with `dt = 1`: `update_cell` and
`update_cellK1` both return a mesh whose cell 0 has density `-2`; the first
reports (prints) cell 0 and goes on, the second has no check. -/
theorem negative_density_returned :
    ((update_cell (drainMesh : Mesh ℚ) (eulerSim 1 1)).cell 0).U 0 = -2
    ∧ ((update_cellK1 (drainMesh : Mesh ℚ) (eulerSim 1 3)).cell 0).U 0 = -2 := by
  have h0 : (0 : Nat) < (drainMesh : Mesh ℚ).ncells := by decide
  have ht : ((drainMesh : Mesh ℚ).cell 0).type ≠ 0 ∧ ((drainMesh : Mesh ℚ).cell 0).ghost ≠ 1 := by
    constructor <;> decide
  constructor
  · rw [update_cell_cell, if_pos h0, if_pos ht]
    simp [drainMesh, oneCellMesh, oneCell, zeroCell, zeroMesh, zeroWall, restState, state6,
      eulerSim, flux_divergence]
    norm_num
  · rw [update_cellK1_cell, if_pos h0, if_pos ht]
    simp [drainMesh, oneCellMesh, oneCell, zeroCell, zeroMesh, zeroWall, restState, state6,
      eulerSim, flux_divergence]
    norm_num

/-! ## Mirror symmetry of the HLLE flux -/

section core
variable (sqrt : K → K) (WL WR : Nat → K) (pLe pRe z : K)

lemma HLLE_core_uL : (HLLE_core sqrt 0 WL WR pLe pRe z).uL = WL 1 / WL 0 := rfl
lemma HLLE_core_uR : (HLLE_core sqrt 0 WL WR pLe pRe z).uR = WR 1 / WR 0 := rfl
lemma HLLE_core_vL : (HLLE_core sqrt 0 WL WR pLe pRe z).vL = WL 2 / WL 0 := rfl
lemma HLLE_core_vR : (HLLE_core sqrt 0 WL WR pLe pRe z).vR = WR 2 / WR 0 := rfl
lemma HLLE_core_wL : (HLLE_core sqrt 0 WL WR pLe pRe z).wL = WL 3 / WL 0 := rfl
lemma HLLE_core_wR : (HLLE_core sqrt 0 WL WR pLe pRe z).wR = WR 3 / WR 0 := rfl
lemma HLLE_core_pL : (HLLE_core sqrt 0 WL WR pLe pRe z).pL
    = pressure_from_energy 0 gamma (WL 4) (WL 1 / WL 0) (WL 2 / WL 0) (WL 3 / WL 0) (WL 0) z := rfl
lemma HLLE_core_pR : (HLLE_core sqrt 0 WL WR pLe pRe z).pR
    = pressure_from_energy 0 gamma (WR 4) (WR 1 / WR 0) (WR 2 / WR 0) (WR 3 / WR 0) (WR 0) z := rfl
lemma HLLE_core_HL : (HLLE_core sqrt 0 WL WR pLe pRe z).HL
    = (WL 4 + (HLLE_core sqrt 0 WL WR pLe pRe z).pL) / WL 0 := rfl
lemma HLLE_core_HR : (HLLE_core sqrt 0 WL WR pLe pRe z).HR
    = (WR 4 + (HLLE_core sqrt 0 WL WR pLe pRe z).pR) / WR 0 := rfl
lemma HLLE_core_cL : (HLLE_core sqrt 0 WL WR pLe pRe z).cL
    = sqrt (gamma * (HLLE_core sqrt 0 WL WR pLe pRe z).pL / WL 0) := rfl
lemma HLLE_core_cR : (HLLE_core sqrt 0 WL WR pLe pRe z).cR
    = sqrt (gamma * (HLLE_core sqrt 0 WL WR pLe pRe z).pR / WR 0) := rfl
lemma HLLE_core_u_hat : (HLLE_core sqrt 0 WL WR pLe pRe z).u_hat
    = ((HLLE_core sqrt 0 WL WR pLe pRe z).uR * sqrt (WR 0)
        + (HLLE_core sqrt 0 WL WR pLe pRe z).uL * sqrt (WL 0)) / (sqrt (WR 0) + sqrt (WL 0)) := rfl
lemma HLLE_core_v_hat : (HLLE_core sqrt 0 WL WR pLe pRe z).v_hat
    = ((HLLE_core sqrt 0 WL WR pLe pRe z).vR * sqrt (WR 0)
        + (HLLE_core sqrt 0 WL WR pLe pRe z).vL * sqrt (WL 0)) / (sqrt (WR 0) + sqrt (WL 0)) := rfl
lemma HLLE_core_w_hat : (HLLE_core sqrt 0 WL WR pLe pRe z).w_hat
    = ((HLLE_core sqrt 0 WL WR pLe pRe z).wR * sqrt (WR 0)
        + (HLLE_core sqrt 0 WL WR pLe pRe z).wL * sqrt (WL 0)) / (sqrt (WR 0) + sqrt (WL 0)) := rfl
lemma HLLE_core_H_hat : (HLLE_core sqrt 0 WL WR pLe pRe z).H_hat
    = ((HLLE_core sqrt 0 WL WR pLe pRe z).HR * sqrt (WR 0)
        + (HLLE_core sqrt 0 WL WR pLe pRe z).HL * sqrt (WL 0)) / (sqrt (WR 0) + sqrt (WL 0)) := rfl
lemma HLLE_core_c_hat : (HLLE_core sqrt 0 WL WR pLe pRe z).c_hat
    = sqrt ((gamma - 1) * ((HLLE_core sqrt 0 WL WR pLe pRe z).H_hat
        - 1 / 2 * ((HLLE_core sqrt 0 WL WR pLe pRe z).u_hat * (HLLE_core sqrt 0 WL WR pLe pRe z).u_hat
          + (HLLE_core sqrt 0 WL WR pLe pRe z).v_hat * (HLLE_core sqrt 0 WL WR pLe pRe z).v_hat
          + (HLLE_core sqrt 0 WL WR pLe pRe z).w_hat * (HLLE_core sqrt 0 WL WR pLe pRe z).w_hat))) :=
  rfl
lemma HLLE_core_S1 : (HLLE_core sqrt 0 WL WR pLe pRe z).S1
    = MIN ((HLLE_core sqrt 0 WL WR pLe pRe z).uL - (HLLE_core sqrt 0 WL WR pLe pRe z).cL)
        ((HLLE_core sqrt 0 WL WR pLe pRe z).u_hat - (HLLE_core sqrt 0 WL WR pLe pRe z).c_hat) := rfl
lemma HLLE_core_S2 : (HLLE_core sqrt 0 WL WR pLe pRe z).S2
    = MAX ((HLLE_core sqrt 0 WL WR pLe pRe z).uR + (HLLE_core sqrt 0 WL WR pLe pRe z).cR)
        ((HLLE_core sqrt 0 WL WR pLe pRe z).u_hat + (HLLE_core sqrt 0 WL WR pLe pRe z).c_hat) := rfl
lemma HLLE_core_maxS : (HLLE_core sqrt 0 WL WR pLe pRe z).maxS
    = MAX (ABS (HLLE_core sqrt 0 WL WR pLe pRe z).S1) (ABS (HLLE_core sqrt 0 WL WR pLe pRe z).S2) :=
  rfl
lemma HLLE_core_diffS : (HLLE_core sqrt 0 WL WR pLe pRe z).diffS
    = (HLLE_core sqrt 0 WL WR pLe pRe z).S2 - (HLLE_core sqrt 0 WL WR pLe pRe z).S1 := rfl
lemma HLLE_core_FL :
    (HLLE_core sqrt 0 WL WR pLe pRe z).FL 0 = WL 1
    ∧ (HLLE_core sqrt 0 WL WR pLe pRe z).FL 1
        = WL 1 * (HLLE_core sqrt 0 WL WR pLe pRe z).uL + (HLLE_core sqrt 0 WL WR pLe pRe z).pL
    ∧ (HLLE_core sqrt 0 WL WR pLe pRe z).FL 2 = WL 1 * (HLLE_core sqrt 0 WL WR pLe pRe z).vL
    ∧ (HLLE_core sqrt 0 WL WR pLe pRe z).FL 3 = WL 1 * (HLLE_core sqrt 0 WL WR pLe pRe z).wL
    ∧ (HLLE_core sqrt 0 WL WR pLe pRe z).FL 4
        = (HLLE_core sqrt 0 WL WR pLe pRe z).uL
          * (WL 4 + (HLLE_core sqrt 0 WL WR pLe pRe z).pL) :=
  ⟨rfl, rfl, rfl, rfl, rfl⟩
lemma HLLE_core_FR :
    (HLLE_core sqrt 0 WL WR pLe pRe z).FR 0 = WR 1
    ∧ (HLLE_core sqrt 0 WL WR pLe pRe z).FR 1
        = WR 1 * (HLLE_core sqrt 0 WL WR pLe pRe z).uR + (HLLE_core sqrt 0 WL WR pLe pRe z).pR
    ∧ (HLLE_core sqrt 0 WL WR pLe pRe z).FR 2 = WR 1 * (HLLE_core sqrt 0 WL WR pLe pRe z).vR
    ∧ (HLLE_core sqrt 0 WL WR pLe pRe z).FR 3 = WR 1 * (HLLE_core sqrt 0 WL WR pLe pRe z).wR
    ∧ (HLLE_core sqrt 0 WL WR pLe pRe z).FR 4
        = (HLLE_core sqrt 0 WL WR pLe pRe z).uR
          * (WR 4 + (HLLE_core sqrt 0 WL WR pLe pRe z).pR) :=
  ⟨rfl, rfl, rfl, rfl, rfl⟩
end core

lemma MIN_neg (a b : K) : MIN (-a) (-b) = -MAX a b := by
  unfold MIN MAX
  by_cases h : a > b
  · rw [if_pos h, if_pos (neg_lt_neg h)]
  · rw [if_neg h, if_neg (fun h2 => h (neg_lt_neg_iff.mp h2))]

lemma MAX_neg (a b : K) : MAX (-a) (-b) = -MIN a b := by
  unfold MIN MAX
  by_cases h : a < b
  · rw [if_pos h, if_pos (neg_lt_neg h)]
  · rw [if_neg h, if_neg (fun h2 => h (neg_lt_neg_iff.mp h2))]

lemma ABS_neg (x : K) : ABS (-x) = ABS x := by
  unfold ABS
  rcases lt_trichotomy x 0 with h | h | h
  · rw [if_pos h, if_neg (by linarith)]
  · subst h; simp
  · rw [if_pos (by linarith), if_neg (by linarith), neg_neg]

lemma MAX_comm (a b : K) : MAX a b = MAX b a := by
  unfold MAX
  rcases lt_trichotomy a b with h | h | h
  · rw [if_neg (by linarith), if_pos h]
  · subst h; rfl
  · rw [if_pos h, if_neg (by linarith)]

lemma MIN_le_right (a b : K) : MIN a b ≤ b := by
  unfold MIN
  split_ifs with h
  · exact h.le
  · exact le_refl b

lemma le_MAX_right (a b : K) : b ≤ MAX a b := by
  unfold MAX
  split_ifs with h
  · exact h.le
  · exact le_refl b

/-- The Roe-averaged enthalpy exceeds the kinetic energy of the Roe-averaged
velocity when each side's enthalpy exceeds its own kinetic energy. -/
lemma roe_enthalpy_pos (rL rR uL uR vL vR wL wR HL HR : K) (hrL : 0 < rL) (hrR : 0 < rR)
    (hL : 0 < HL - 1 / 2 * (uL * uL + vL * vL + wL * wL))
    (hR : 0 < HR - 1 / 2 * (uR * uR + vR * vR + wR * wR)) :
    0 < (HR * rR + HL * rL) / (rR + rL)
      - 1 / 2 * ((uR * rR + uL * rL) / (rR + rL) * ((uR * rR + uL * rL) / (rR + rL))
        + (vR * rR + vL * rL) / (rR + rL) * ((vR * rR + vL * rL) / (rR + rL))
        + (wR * rR + wL * rL) / (rR + rL) * ((wR * rR + wL * rL) / (rR + rL))) := by
  have hs : 0 < rR + rL := by positivity
  have e : (HR * rR + HL * rL) / (rR + rL)
      - 1 / 2 * ((uR * rR + uL * rL) / (rR + rL) * ((uR * rR + uL * rL) / (rR + rL))
        + (vR * rR + vL * rL) / (rR + rL) * ((vR * rR + vL * rL) / (rR + rL))
        + (wR * rR + wL * rL) / (rR + rL) * ((wR * rR + wL * rL) / (rR + rL)))
      = (((HR - 1 / 2 * (uR * uR + vR * vR + wR * wR)) * rR
            + (HL - 1 / 2 * (uL * uL + vL * vL + wL * wL)) * rL) * (rR + rL)
          + 1 / 2 * (rR * rL) * ((uR - uL) ^ 2 + (vR - vL) ^ 2 + (wR - wL) ^ 2))
        / ((rR + rL) * (rR + rL)) := by
    field_simp
    ring
  rw [e]
  apply div_pos _ (mul_pos hs hs)
  have h1 : 0 < (HR - 1 / 2 * (uR * uR + vR * vR + wR * wR)) * rR := mul_pos hR hrR
  have h2 : 0 < (HL - 1 / 2 * (uL * uL + vL * vL + wL * wL)) * rL := mul_pos hL hrL
  have h3 : 0 ≤ 1 / 2 * (rR * rL) * ((uR - uL) ^ 2 + (vR - vL) ^ 2 + (wR - wL) ^ 2) := by
    positivity
  have h4 : 0 < ((HR - 1 / 2 * (uR * uR + vR * vR + wR * wR)) * rR
      + (HL - 1 / 2 * (uL * uL + vL * vL + wL * wL)) * rL) * (rR + rL) :=
    mul_pos (add_pos h1 h2) hs
  linarith

/-- The enthalpy of a state with positive density and pressure exceeds its
kinetic energy (source off). -/
lemma enthalpy_pos (W : Nat → K) (z : K) (hrho : 0 < W 0)
    (hp : 0 < pressure_from_energy 0 gamma (W 4) (W 1 / W 0) (W 2 / W 0) (W 3 / W 0) (W 0) z) :
    0 < (W 4 + pressure_from_energy 0 gamma (W 4) (W 1 / W 0) (W 2 / W 0) (W 3 / W 0) (W 0) z)
          / W 0
        - 1 / 2 * (W 1 / W 0 * (W 1 / W 0) + W 2 / W 0 * (W 2 / W 0) + W 3 / W 0 * (W 3 / W 0)) := by
  have e : (W 4 + pressure_from_energy 0 gamma (W 4) (W 1 / W 0) (W 2 / W 0) (W 3 / W 0) (W 0) z)
          / W 0
        - 1 / 2 * (W 1 / W 0 * (W 1 / W 0) + W 2 / W 0 * (W 2 / W 0) + W 3 / W 0 * (W 3 / W 0))
      = 7 / 2 * pressure_from_energy 0 gamma (W 4) (W 1 / W 0) (W 2 / W 0) (W 3 / W 0) (W 0) z
          / W 0 := by
    have h0 : W 0 ≠ 0 := hrho.ne'
    simp only [pressure_from_energy, gamma, if_neg (show ¬ (0 : Nat) = 3 by decide)]
    field_simp
    ring
  rw [e]
  positivity

/-- The wave speeds of the HLLE solver are ordered strictly, for states with
positive density and pressure (source off). -/
lemma HLLE_core_speeds (sqrt : K → K) (hsq : ∀ x, 0 < x → 0 < sqrt x) (WL WR : Nat → K)
    (pLe pRe z : K) (hL : 0 < WL 0) (hR : 0 < WR 0)
    (hpL : 0 < pressure_from_energy 0 gamma (WL 4) (WL 1 / WL 0) (WL 2 / WL 0) (WL 3 / WL 0)
      (WL 0) z)
    (hpR : 0 < pressure_from_energy 0 gamma (WR 4) (WR 1 / WR 0) (WR 2 / WR 0) (WR 3 / WR 0)
      (WR 0) z) :
    (HLLE_core sqrt 0 WL WR pLe pRe z).S1 < (HLLE_core sqrt 0 WL WR pLe pRe z).S2 := by
  have hc : 0 < (HLLE_core sqrt 0 WL WR pLe pRe z).c_hat := by
    rw [HLLE_core_c_hat]
    apply hsq
    apply mul_pos (by unfold gamma; norm_num)
    rw [HLLE_core_H_hat, HLLE_core_u_hat, HLLE_core_v_hat, HLLE_core_w_hat]
    apply roe_enthalpy_pos _ _ _ _ _ _ _ _ _ _ (hsq _ hL) (hsq _ hR)
    · rw [HLLE_core_HL, HLLE_core_pL, HLLE_core_uL, HLLE_core_vL, HLLE_core_wL]
      exact enthalpy_pos WL z hL hpL
    · rw [HLLE_core_HR, HLLE_core_pR, HLLE_core_uR, HLLE_core_vR, HLLE_core_wR]
      exact enthalpy_pos WR z hR hpR
  have h1 := MIN_le_right ((HLLE_core sqrt 0 WL WR pLe pRe z).uL - (HLLE_core sqrt 0 WL WR pLe pRe z).cL)
    ((HLLE_core sqrt 0 WL WR pLe pRe z).u_hat - (HLLE_core sqrt 0 WL WR pLe pRe z).c_hat)
  have h2 := le_MAX_right ((HLLE_core sqrt 0 WL WR pLe pRe z).uR + (HLLE_core sqrt 0 WL WR pLe pRe z).cR)
    ((HLLE_core sqrt 0 WL WR pLe pRe z).u_hat + (HLLE_core sqrt 0 WL WR pLe pRe z).c_hat)
  rw [HLLE_core_S1, HLLE_core_S2]
  linarith

/-- The solver variables of the flipped problem: the states exchanged with
their normal momentum negated (source off). -/
lemma HLLE_core_flip (sqrt : K → K) (A B A' B' : Nat → K) (pLe pRe pLe' pRe' z : K)
    (hA : A' 0 = B 0 ∧ A' 1 = -B 1 ∧ A' 2 = B 2 ∧ A' 3 = B 3 ∧ A' 4 = B 4)
    (hB : B' 0 = A 0 ∧ B' 1 = -A 1 ∧ B' 2 = A 2 ∧ B' 3 = A 3 ∧ B' 4 = A 4) :
    (HLLE_core sqrt 0 A' B' pLe' pRe' z).S1 = -(HLLE_core sqrt 0 A B pLe pRe z).S2
    ∧ (HLLE_core sqrt 0 A' B' pLe' pRe' z).S2 = -(HLLE_core sqrt 0 A B pLe pRe z).S1
    ∧ (HLLE_core sqrt 0 A' B' pLe' pRe' z).diffS = (HLLE_core sqrt 0 A B pLe pRe z).diffS
    ∧ (HLLE_core sqrt 0 A' B' pLe' pRe' z).maxS = (HLLE_core sqrt 0 A B pLe pRe z).maxS
    ∧ (∀ m, m < 5 → (HLLE_core sqrt 0 A' B' pLe' pRe' z).FL m
        = (if m = 1 then 1 else -1) * (HLLE_core sqrt 0 A B pLe pRe z).FR m)
    ∧ (∀ m, m < 5 → (HLLE_core sqrt 0 A' B' pLe' pRe' z).FR m
        = (if m = 1 then 1 else -1) * (HLLE_core sqrt 0 A B pLe pRe z).FL m) := by
  obtain ⟨a0, a1, a2, a3, a4⟩ := hA
  obtain ⟨b0, b1, b2, b3, b4⟩ := hB
  have uL : (HLLE_core sqrt 0 A' B' pLe' pRe' z).uL = -(HLLE_core sqrt 0 A B pLe pRe z).uR := by
    rw [HLLE_core_uL, HLLE_core_uR, a0, a1, neg_div]
  have uR : (HLLE_core sqrt 0 A' B' pLe' pRe' z).uR = -(HLLE_core sqrt 0 A B pLe pRe z).uL := by
    rw [HLLE_core_uL, HLLE_core_uR, b0, b1, neg_div]
  have vL : (HLLE_core sqrt 0 A' B' pLe' pRe' z).vL = (HLLE_core sqrt 0 A B pLe pRe z).vR := by
    rw [HLLE_core_vL, HLLE_core_vR, a0, a2]
  have vR : (HLLE_core sqrt 0 A' B' pLe' pRe' z).vR = (HLLE_core sqrt 0 A B pLe pRe z).vL := by
    rw [HLLE_core_vL, HLLE_core_vR, b0, b2]
  have wL : (HLLE_core sqrt 0 A' B' pLe' pRe' z).wL = (HLLE_core sqrt 0 A B pLe pRe z).wR := by
    rw [HLLE_core_wL, HLLE_core_wR, a0, a3]
  have wR : (HLLE_core sqrt 0 A' B' pLe' pRe' z).wR = (HLLE_core sqrt 0 A B pLe pRe z).wL := by
    rw [HLLE_core_wL, HLLE_core_wR, b0, b3]
  have pL : (HLLE_core sqrt 0 A' B' pLe' pRe' z).pL = (HLLE_core sqrt 0 A B pLe pRe z).pR := by
    rw [HLLE_core_pL, HLLE_core_pR, a0, a1, a2, a3, a4]
    simp only [pressure_from_energy, neg_div, neg_mul_neg]
  have pR : (HLLE_core sqrt 0 A' B' pLe' pRe' z).pR = (HLLE_core sqrt 0 A B pLe pRe z).pL := by
    rw [HLLE_core_pL, HLLE_core_pR, b0, b1, b2, b3, b4]
    simp only [pressure_from_energy, neg_div, neg_mul_neg]
  have HL : (HLLE_core sqrt 0 A' B' pLe' pRe' z).HL = (HLLE_core sqrt 0 A B pLe pRe z).HR := by
    rw [HLLE_core_HL, HLLE_core_HR, pL, a0, a4]
  have HR : (HLLE_core sqrt 0 A' B' pLe' pRe' z).HR = (HLLE_core sqrt 0 A B pLe pRe z).HL := by
    rw [HLLE_core_HL, HLLE_core_HR, pR, b0, b4]
  have cL : (HLLE_core sqrt 0 A' B' pLe' pRe' z).cL = (HLLE_core sqrt 0 A B pLe pRe z).cR := by
    rw [HLLE_core_cL, HLLE_core_cR, pL, a0]
  have cR : (HLLE_core sqrt 0 A' B' pLe' pRe' z).cR = (HLLE_core sqrt 0 A B pLe pRe z).cL := by
    rw [HLLE_core_cL, HLLE_core_cR, pR, b0]
  have uh : (HLLE_core sqrt 0 A' B' pLe' pRe' z).u_hat = -(HLLE_core sqrt 0 A B pLe pRe z).u_hat := by
    rw [HLLE_core_u_hat, HLLE_core_u_hat, uL, uR, a0, b0, ← neg_div, add_comm (sqrt (A 0))]
    congr 1
    ring
  have vh : (HLLE_core sqrt 0 A' B' pLe' pRe' z).v_hat = (HLLE_core sqrt 0 A B pLe pRe z).v_hat := by
    rw [HLLE_core_v_hat, HLLE_core_v_hat, vL, vR, a0, b0, add_comm (sqrt (A 0))]
    congr 1
    ring
  have wh : (HLLE_core sqrt 0 A' B' pLe' pRe' z).w_hat = (HLLE_core sqrt 0 A B pLe pRe z).w_hat := by
    rw [HLLE_core_w_hat, HLLE_core_w_hat, wL, wR, a0, b0, add_comm (sqrt (A 0))]
    congr 1
    ring
  have Hh : (HLLE_core sqrt 0 A' B' pLe' pRe' z).H_hat = (HLLE_core sqrt 0 A B pLe pRe z).H_hat := by
    rw [HLLE_core_H_hat, HLLE_core_H_hat, HL, HR, a0, b0, add_comm (sqrt (A 0))]
    congr 1
    ring
  have ch : (HLLE_core sqrt 0 A' B' pLe' pRe' z).c_hat = (HLLE_core sqrt 0 A B pLe pRe z).c_hat := by
    rw [HLLE_core_c_hat, HLLE_core_c_hat, uh, vh, wh, Hh, neg_mul_neg]
  have s1 : (HLLE_core sqrt 0 A' B' pLe' pRe' z).S1 = -(HLLE_core sqrt 0 A B pLe pRe z).S2 := by
    rw [HLLE_core_S1, HLLE_core_S2, uL, cL, uh, ch, ← MIN_neg]
    congr 1 <;> ring
  have s2 : (HLLE_core sqrt 0 A' B' pLe' pRe' z).S2 = -(HLLE_core sqrt 0 A B pLe pRe z).S1 := by
    rw [HLLE_core_S1, HLLE_core_S2, uR, cR, uh, ch, ← MAX_neg]
    congr 1 <;> ring
  refine ⟨s1, s2, ?_, ?_, ?_, ?_⟩
  · rw [HLLE_core_diffS, HLLE_core_diffS, s1, s2]
    ring
  · rw [HLLE_core_maxS, HLLE_core_maxS, s1, s2, ABS_neg, ABS_neg, MAX_comm]
  · obtain ⟨f0, f1, f2, f3, f4⟩ := HLLE_core_FL sqrt A' B' pLe' pRe' z
    obtain ⟨g0, g1, g2, g3, g4⟩ := HLLE_core_FR sqrt A B pLe pRe z
    intro m hm
    interval_cases m
    · rw [f0, g0, a1]; simp
    · rw [f1, g1, a1, uL, pL]; simp
    · rw [f2, g2, a1, vL]; simp
    · rw [f3, g3, a1, wL]; simp
    · rw [f4, g4, a4, uL, pL]; simp
  · obtain ⟨f0, f1, f2, f3, f4⟩ := HLLE_core_FR sqrt A' B' pLe' pRe' z
    obtain ⟨g0, g1, g2, g3, g4⟩ := HLLE_core_FL sqrt A B pLe pRe z
    intro m hm
    interval_cases m
    · rw [f0, g0, b1]; simp
    · rw [f1, g1, b1, uR, pR]; simp
    · rw [f2, g2, b1, vR]; simp
    · rw [f3, g3, b1, wR]; simp
    · rw [f4, g4, b4, uR, pR]; simp

/-- The HLLE flux of the flipped problem, in the rotated frame. -/
lemma HLLE_F_star_flip (r r' : Riemann K) (a b a' b' : Nat → K) (σ : K) (m : Nat)
    (h1 : r'.S1 = -r.S2) (h2 : r'.S2 = -r.S1) (hd : r'.diffS = r.diffS) (hlt : r.S1 < r.S2)
    (hL : r'.FL m = σ * r.FR m) (hR : r'.FR m = σ * r.FL m)
    (hab : a' m - b' m = σ * (a m - b m)) :
    HLLE_F_star r' a' b' m = σ * HLLE_F_star r a b m := by
  unfold HLLE_F_star
  rw [h1, h2, hd, hL, hR, hab]
  by_cases c1 : r.S1 ≥ 0
  · have c2 : ¬ (-r.S2 ≥ 0) := by
      intro h
      have : r.S2 ≤ 0 := by linarith
      linarith
    rw [if_pos c1, if_neg c2, if_pos (by linarith)]
  · rw [if_neg c1]
    by_cases c3 : r.S2 ≤ 0
    · rw [if_pos c3, if_pos (by linarith)]
    · rw [if_neg c3, if_neg (by intro h; apply c3; linarith),
        if_neg (by intro h; apply c1; linarith)]
      rw [← mul_div_assoc]
      congr 1
      ring

lemma Wprime_zero (W We : Nat → K) (m : Nat) : Wprime 0 W We m = W m := by
  simp [Wprime]

lemma compute_euler_HLLE_fR (sqrt : K → K) (mt : Nat) (wall : Wall K) (lam : K) :
    (compute_euler_HLLE sqrt 0 false mt wall lam).1.fR_star
      = inverse_rotation wall.nx wall.ny wall.nz
          (HLLE_F_star (HLLE_vars sqrt 0 false mt wall)
            (Wprime 0 (rotation wall.nx wall.ny wall.nz wall.UR)
              (rotation wall.nx wall.ny wall.nz wall.URe))
            (Wprime 0 (rotation wall.nx wall.ny wall.nz wall.UL)
              (rotation wall.nx wall.ny wall.nz wall.ULe)))
          wall.fR_star := rfl

lemma compute_euler_HLLE_fL (sqrt : K → K) (ST mt : Nat) (wall : Wall K) (lam : K) (m : Nat)
    (hm : m < 5) :
    (compute_euler_HLLE sqrt ST false mt wall lam).1.fL_star m
      = (compute_euler_HLLE sqrt ST false mt wall lam).1.fR_star m := by
  show (if m < 5 then _ else _) = _
  rw [if_pos hm]
  rfl

lemma compute_euler_HLLE_lambda (sqrt : K → K) (ST mt : Nat) (wall : Wall K) (lam : K) :
    (compute_euler_HLLE sqrt ST false mt wall lam).2
      = MAX lam (HLLE_vars sqrt ST false mt wall).maxS := rfl

lemma inverse_rotation_x (F old : Nat → K) (m : Nat) (hm : m < 5) :
    inverse_rotation 1 0 0 F old m = F m := by
  interval_cases m <;> simp [inverse_rotation]

/-- The fluxes of the flipped problem at an x-wall, for any square root that
is positive on positive numbers. -/
lemma HLLE_flip_generic (sqrt : K → K) (hsq : ∀ x, 0 < x → 0 < sqrt x) (mt : Nat)
    (wall : Wall K) (lam : K)
    (hn : wall.nx = 1 ∧ wall.ny = 0 ∧ wall.nz = 0)
    (hL : 0 < wall.UL 0) (hR : 0 < wall.UR 0)
    (hpL : 0 < pressure_from_energy 0 gamma (wall.UL 4) (wall.UL 1 / wall.UL 0)
      (wall.UL 2 / wall.UL 0) (wall.UL 3 / wall.UL 0) (wall.UL 0) wall.z)
    (hpR : 0 < pressure_from_energy 0 gamma (wall.UR 4) (wall.UR 1 / wall.UR 0)
      (wall.UR 2 / wall.UR 0) (wall.UR 3 / wall.UR 0) (wall.UR 0) wall.z) :
    (∀ m, m < 5 →
      (compute_euler_HLLE sqrt 0 false mt (flipped_wall wall) lam).1.fR_star m
        = (if m = 1 then 1 else -1) * (compute_euler_HLLE sqrt 0 false mt wall lam).1.fR_star m)
    ∧ (compute_euler_HLLE sqrt 0 false mt (flipped_wall wall) lam).2
        = (compute_euler_HLLE sqrt 0 false mt wall lam).2 := by
  obtain ⟨hx, hy, hz⟩ := hn
  have fx : (flipped_wall wall).nx = 1 := hx
  have fy : (flipped_wall wall).ny = 0 := hy
  have fz : (flipped_wall wall).nz = 0 := hz
  have fUL : (flipped_wall wall).UL = mirror_state 1 0 0 wall.UR := by
    show mirror_state wall.nx wall.ny wall.nz wall.UR = _
    rw [hx, hy, hz]
  have fUR : (flipped_wall wall).UR = mirror_state 1 0 0 wall.UL := by
    show mirror_state wall.nx wall.ny wall.nz wall.UL = _
    rw [hx, hy, hz]
  have ffR : (flipped_wall wall).fR_star = wall.fR_star := rfl
  have fzz : (flipped_wall wall).z = wall.z := rfl
  have rot : ∀ U : Nat → K, rotation (1 : K) 0 0 U 0 = U 0 ∧ rotation (1 : K) 0 0 U 1 = U 1
      ∧ rotation (1 : K) 0 0 U 2 = U 2 ∧ rotation (1 : K) 0 0 U 3 = U 3
      ∧ rotation (1 : K) 0 0 U 4 = U 4 := by
    intro U
    refine ⟨?_, ?_, ?_, ?_, ?_⟩ <;> simp [rotation]
  have hA : ∀ U : Nat → K, rotation (1 : K) 0 0 (mirror_state 1 0 0 U) 0 = rotation (1 : K) 0 0 U 0
      ∧ rotation (1 : K) 0 0 (mirror_state 1 0 0 U) 1 = -rotation (1 : K) 0 0 U 1
      ∧ rotation (1 : K) 0 0 (mirror_state 1 0 0 U) 2 = rotation (1 : K) 0 0 U 2
      ∧ rotation (1 : K) 0 0 (mirror_state 1 0 0 U) 3 = rotation (1 : K) 0 0 U 3
      ∧ rotation (1 : K) 0 0 (mirror_state 1 0 0 U) 4 = rotation (1 : K) 0 0 U 4 :=
    fun U => rotation_mirror_state 1 0 0 U (Or.inl ⟨rfl, rfl, rfl⟩)
  obtain ⟨l0, l1, l2, l3, l4⟩ := rot wall.UL
  obtain ⟨r0, r1, r2, r3, r4⟩ := rot wall.UR
  have core := HLLE_core_flip sqrt (rotation 1 0 0 wall.UL) (rotation 1 0 0 wall.UR)
    (rotation 1 0 0 (mirror_state 1 0 0 wall.UR)) (rotation 1 0 0 (mirror_state 1 0 0 wall.UL))
    wall.pLe wall.pRe wall.pLe wall.pRe wall.z (hA wall.UR) (hA wall.UL)
  have lt := HLLE_core_speeds sqrt hsq (rotation 1 0 0 wall.UL) (rotation 1 0 0 wall.UR)
    wall.pLe wall.pRe wall.z (by rw [l0]; exact hL) (by rw [r0]; exact hR)
    (by rw [l0, l1, l2, l3, l4]; exact hpL) (by rw [r0, r1, r2, r3, r4]; exact hpR)
  have v1 : HLLE_vars sqrt 0 false mt wall
      = HLLE_core sqrt 0 (rotation 1 0 0 wall.UL) (rotation 1 0 0 wall.UR)
          wall.pLe wall.pRe wall.z := by
    rw [HLLE_vars_core, hx, hy, hz]
  have v2 : HLLE_vars sqrt 0 false mt (flipped_wall wall)
      = HLLE_core sqrt 0 (rotation 1 0 0 (mirror_state 1 0 0 wall.UR))
          (rotation 1 0 0 (mirror_state 1 0 0 wall.UL)) wall.pLe wall.pRe wall.z := by
    rw [HLLE_vars_core, fx, fy, fz, fUL, fUR]
    rfl
  obtain ⟨c1, c2, c3, c4, c5, c6⟩ := core
  constructor
  · intro m hm
    rw [compute_euler_HLLE_fR, compute_euler_HLLE_fR, fx, fy, fz, hx, hy, hz, ffR,
      inverse_rotation_x _ _ m hm, inverse_rotation_x _ _ m hm, v1, v2, fUL, fUR]
    apply HLLE_F_star_flip _ _ _ _ _ _ _ m c1 c2 c3 lt (c5 m hm) (c6 m hm)
    rw [Wprime_zero, Wprime_zero, Wprime_zero, Wprime_zero]
    obtain ⟨p0, p1, p2, p3, p4⟩ := hA wall.UL
    obtain ⟨q0, q1, q2, q3, q4⟩ := hA wall.UR
    interval_cases m
    · rw [p0, q0]; simp
    · rw [p1, q1]; simp; ring
    · rw [p2, q2]; simp
    · rw [p3, q3]; simp
    · rw [p4, q4]; simp
  · rw [compute_euler_HLLE_lambda, compute_euler_HLLE_lambda, v1, v2, c4]

/-- Claim C30: with the source off (`ST = 0`, single gamma), for every x-wall
and every pair of states `UL`, `UR` with positive density and pressure, the
HLLE fluxes of the flipped problem `(M*UR, M*UL)`, where `M` negates the
x-momentum, are `-M` times those of `(UL, UR)`: the mass, tangential-momentum
and energy fluxes (components 0, 2, 3, 4) change sign and the normal-momentum
flux (component 1) is unchanged, for `fR_star` and `fL_star` alike, and the
wave-speed bound returned is the same. -/
theorem HLLE_mirror_symmetry (MULTI_TYPE : Nat) (wall : Wall ℝ) (lambda_max : ℝ)
    (hn : wall.nx = 1 ∧ wall.ny = 0 ∧ wall.nz = 0)
    (hL : 0 < wall.UL 0) (hR : 0 < wall.UR 0)
    (hpL : 0 < pressure_from_energy 0 gamma (wall.UL 4) (wall.UL 1 / wall.UL 0)
      (wall.UL 2 / wall.UL 0) (wall.UL 3 / wall.UL 0) (wall.UL 0) wall.z)
    (hpR : 0 < pressure_from_energy 0 gamma (wall.UR 4) (wall.UR 1 / wall.UR 0)
      (wall.UR 2 / wall.UR 0) (wall.UR 3 / wall.UR 0) (wall.UR 0) wall.z) :
    (flipped_wall wall).UL = Function.update wall.UR 1 (-wall.UR 1)
    ∧ (flipped_wall wall).UR = Function.update wall.UL 1 (-wall.UL 1)
    ∧ (∀ m, m < 5 →
      (compute_euler_HLLE Real.sqrt 0 false MULTI_TYPE (flipped_wall wall) lambda_max).1.fR_star m
        = (if m = 1 then 1 else -1)
          * (compute_euler_HLLE Real.sqrt 0 false MULTI_TYPE wall lambda_max).1.fR_star m)
    ∧ (∀ m, m < 5 →
      (compute_euler_HLLE Real.sqrt 0 false MULTI_TYPE (flipped_wall wall) lambda_max).1.fL_star m
        = (if m = 1 then 1 else -1)
          * (compute_euler_HLLE Real.sqrt 0 false MULTI_TYPE wall lambda_max).1.fL_star m)
    ∧ (compute_euler_HLLE Real.sqrt 0 false MULTI_TYPE (flipped_wall wall) lambda_max).2
        = (compute_euler_HLLE Real.sqrt 0 false MULTI_TYPE wall lambda_max).2 := by
  have h := HLLE_flip_generic Real.sqrt (fun x hx => Real.sqrt_pos.mpr hx) MULTI_TYPE wall
    lambda_max hn hL hR hpL hpR
  obtain ⟨hx, hy, hz⟩ := hn
  have hm : ∀ U : Nat → ℝ, mirror_state wall.nx wall.ny wall.nz U = Function.update U 1 (-U 1) := by
    intro U
    rw [hx, hy, hz]
    funext m
    rcases m with _ | _ | _ | _ | m
    · simp [mirror_state]
    · simp [mirror_state]; ring
    · simp [mirror_state]
    · simp [mirror_state]
    · simp [mirror_state]
  refine ⟨hm wall.UR, hm wall.UL, h.1, ?_, h.2⟩
  intro m hm5
  rw [compute_euler_HLLE_fL _ _ _ _ _ m hm5, compute_euler_HLLE_fL _ _ _ _ _ m hm5]
  exact h.1 m hm5

/-- Instance of `HLLE_mirror_symmetry`: the wall `shearWall`. -/
theorem HLLE_mirror_symmetry_witness :
    ((shearWall : Wall ℝ).nx = 1 ∧ (shearWall : Wall ℝ).ny = 0 ∧ (shearWall : Wall ℝ).nz = 0)
    ∧ 0 < (shearWall : Wall ℝ).UL 0 ∧ 0 < (shearWall : Wall ℝ).UR 0
    ∧ (compute_euler_HLLE Real.sqrt 0 false 2 (flipped_wall (shearWall : Wall ℝ)) 0).1.fR_star 0
        = -(compute_euler_HLLE Real.sqrt 0 false 2 (shearWall : Wall ℝ) 0).1.fR_star 0
    ∧ (compute_euler_HLLE Real.sqrt 0 false 2 (flipped_wall (shearWall : Wall ℝ)) 0).2
        = (compute_euler_HLLE Real.sqrt 0 false 2 (shearWall : Wall ℝ) 0).2 := by
  have hn : (shearWall : Wall ℝ).nx = 1 ∧ (shearWall : Wall ℝ).ny = 0
      ∧ (shearWall : Wall ℝ).nz = 0 := ⟨rfl, rfl, rfl⟩
  have hL : 0 < (shearWall : Wall ℝ).UL 0 := by
    show (0 : ℝ) < 1
    norm_num
  have hR : 0 < (shearWall : Wall ℝ).UR 0 := by
    show (0 : ℝ) < 2
    norm_num
  have h := HLLE_mirror_symmetry 2 (shearWall : Wall ℝ) 0 hn hL hR
    (by simp [pressure_from_energy, shearWall, zeroWall, state6, gamma]; norm_num)
    (by simp [pressure_from_energy, shearWall, zeroWall, state6, gamma]; norm_num)
  refine ⟨hn, hL, hR, ?_, h.2.2.2.2⟩
  have h0 := h.2.2.1 0 (by norm_num)
  rw [h0]
  simp

/-! ## Image points -/

/-- Claim C23: when the ghost-identification pass of `assign_cell_type` tags a
cell with centre `x = (xc, yc, zc)` as ghost for a triangle with unit normal
`n` (stored norm `absnr = 1`) and signed plane distance `d = (x - p1).n` with
`d ≤ -1e-14`, the recorded image point is `x_im = x + 2*|d|*n`; the midpoint of
`x` and `x_im` lies on the plane of the triangle and `(x_im - p1).n = |d|`. -/
theorem image_point_mirror (dp : K) (l m : Int) (tri : Triangle K) (c : Cell K) (d : K)
    (habs : tri.absnr = 1)
    (hunit : tri.nr 0 * tri.nr 0 + tri.nr 1 * tri.nr 1 + tri.nr 2 * tri.nr 2 = 1)
    (hd : d = (c.xc - tri.p1 0) * tri.nr 0 + (c.yc - tri.p1 1) * tri.nr 1
      + (c.zc - tri.p1 2) * tri.nr 2)
    (hneg : d ≤ -(1 / 10 ^ 14))
    (hout : c.out < 1) (hdp : |d| < dp)
    (hin : point_in_triangle tri (fun q =>
      match q with
      | 0 => c.xc - d * tri.nr 0
      | 1 => c.yc - d * tri.nr 1
      | _ => c.zc - d * tri.nr 2))
    (hclose : |d| < c.distabs) :
    (assign_cell_type_ghost_visit dp l m tri c).ghost = 1
    ∧ (assign_cell_type_ghost_visit dp l m tri c).tri = tri
    ∧ (assign_cell_type_ghost_visit dp l m tri c).xim = c.xc + 2 * |d| * tri.nr 0
    ∧ (assign_cell_type_ghost_visit dp l m tri c).yim = c.yc + 2 * |d| * tri.nr 1
    ∧ (assign_cell_type_ghost_visit dp l m tri c).zim = c.zc + 2 * |d| * tri.nr 2
    ∧ ((c.xc + (assign_cell_type_ghost_visit dp l m tri c).xim) / 2 - tri.p1 0) * tri.nr 0
        + ((c.yc + (assign_cell_type_ghost_visit dp l m tri c).yim) / 2 - tri.p1 1) * tri.nr 1
        + ((c.zc + (assign_cell_type_ghost_visit dp l m tri c).zim) / 2 - tri.p1 2) * tri.nr 2 = 0
    ∧ ((assign_cell_type_ghost_visit dp l m tri c).xim - tri.p1 0) * tri.nr 0
        + ((assign_cell_type_ghost_visit dp l m tri c).yim - tri.p1 1) * tri.nr 1
        + ((assign_cell_type_ghost_visit dp l m tri c).zim - tri.p1 2) * tri.nr 2 = |d| := by
  have hT : (TOL14 : K) = 1 / 10 ^ 14 := rfl
  have hTpos : (0 : K) < 1 / 10 ^ 14 := by positivity
  have hd0 : d < 0 := by linarith
  have habsd : |d| = -d := abs_of_neg hd0
  have hproj : ¬ ((c.xc - tri.p1 0) * tri.nr 0 + (c.yc - tri.p1 1) * tri.nr 1
      + (c.zc - tri.p1 2) * tri.nr 2 > 0) := by
    rw [← hd]
    exact not_lt.mpr hd0.le
  have hle : (c.xc - tri.p1 0) * tri.nr 0 + (c.yc - tri.p1 1) * tri.nr 1
      + (c.zc - tri.p1 2) * tri.nr 2 ≤ 0 := by
    rw [← hd]
    exact hd0.le
  have hnT : ¬ |d| < TOL14 := by
    rw [hT, habsd]
    intro h
    linarith
  have e : assign_cell_type_ghost_visit dp l m tri c
      = { c with
          ghost := 1, solid_id := l, triangle_id := m, tri := tri, distabs := |d|,
          xim := (c.xc - d * tri.nr 0) - d * tri.nr 0,
          yim := (c.yc - d * tri.nr 1) - d * tri.nr 1,
          zim := (c.zc - d * tri.nr 2) - d * tri.nr 2 } := by
    unfold assign_cell_type_ghost_visit
    simp only [habs, div_one, ← hd]
    have hc1 : (if d > 0 ∧ c.ghost > 0 ∧ |d| < c.distabs then { c with ghost := 0 } else c) = c :=
      if_neg (fun h => absurd h.1 (not_lt.mpr hd0.le))
    rw [hc1, if_pos (show d ≤ 0 ∧ c.out < 1 from ⟨hd0.le, hout⟩), if_pos hdp, if_pos hin,
      if_pos hclose]
    simp only [if_neg hnT]
  rw [e]
  simp only
  rw [habsd]
  refine ⟨trivial, trivial, by ring, by ring, by ring, ?_, ?_⟩
  · have : ((c.xc + (c.xc - d * tri.nr 0 - d * tri.nr 0)) / 2 - tri.p1 0) * tri.nr 0
        + ((c.yc + (c.yc - d * tri.nr 1 - d * tri.nr 1)) / 2 - tri.p1 1) * tri.nr 1
        + ((c.zc + (c.zc - d * tri.nr 2 - d * tri.nr 2)) / 2 - tri.p1 2) * tri.nr 2
        = ((c.xc - tri.p1 0) * tri.nr 0 + (c.yc - tri.p1 1) * tri.nr 1
            + (c.zc - tri.p1 2) * tri.nr 2)
          - d * (tri.nr 0 * tri.nr 0 + tri.nr 1 * tri.nr 1 + tri.nr 2 * tri.nr 2) := by ring
    rw [this, hunit, ← hd]
    ring
  · have : (c.xc - d * tri.nr 0 - d * tri.nr 0 - tri.p1 0) * tri.nr 0
        + (c.yc - d * tri.nr 1 - d * tri.nr 1 - tri.p1 1) * tri.nr 1
        + (c.zc - d * tri.nr 2 - d * tri.nr 2 - tri.p1 2) * tri.nr 2
        = ((c.xc - tri.p1 0) * tri.nr 0 + (c.yc - tri.p1 1) * tri.nr 1
            + (c.zc - tri.p1 2) * tri.nr 2)
          - 2 * d * (tri.nr 0 * tri.nr 0 + tri.nr 1 * tri.nr 1 + tri.nr 2 * tri.nr 2) := by ring
    rw [this, hunit, ← hd]
    ring

/-- Instance of `image_point_mirror`: the cell `belowCell`, at distance `1/2`
below `flatTriangle`, gets the image point `(1, 1, 1/2)`. -/
theorem image_point_mirror_witness :
    (flatTriangle : Triangle ℚ).absnr = 1
    ∧ (-1 / 2 : ℚ) ≤ -(1 / 10 ^ 14)
    ∧ (assign_cell_type_ghost_visit 2 0 0 (flatTriangle : Triangle ℚ) belowCell).ghost = 1
    ∧ (assign_cell_type_ghost_visit 2 0 0 (flatTriangle : Triangle ℚ) belowCell).zim
        = (belowCell : Cell ℚ).zc + 2 * |(-1 / 2 : ℚ)| * (flatTriangle : Triangle ℚ).nr 2 := by
  have hneg : (-1 / 2 : ℚ) ≤ -(1 / 10 ^ 14) := by norm_num
  have h := image_point_mirror (2 : ℚ) 0 0 flatTriangle belowCell (-1 / 2) rfl
    (by simp [flatTriangle]) (by simp [flatTriangle, belowCell, zeroCell, zeroTriangle]) hneg
    (by decide)
    (by rw [abs_of_neg (by norm_num)]; norm_num)
    (by
      simp only [point_in_triangle, vector_product, dot_product, flatTriangle, belowCell,
        zeroCell, zeroTriangle]
      norm_num)
    (by
      rw [abs_of_neg (by norm_num)]
      show (-(-1 / 2) : ℚ) < 100
      norm_num)
  exact ⟨rfl, hneg, h.1, h.2.2.2.2.1⟩

/-! ## Solid marking -/

lemma forLoop_invariant {σ : Type} (P : σ → Prop) (n : Nat) (body : Nat → σ → σ) (s : σ)
    (h0 : P s) (hstep : ∀ i s, P s → P (body i s)) : P (forLoop n body s) := by
  induction n with
  | zero => exact h0
  | succ n ih => exact hstep n _ ih

lemma forLoop_reach {σ : Type} (P Q : σ → Prop) (n : Nat) (body : Nat → σ → σ) (s : σ)
    (i0 : Nat) (hi : i0 < n) (h0 : P s) (hP : ∀ i s, P s → P (body i s))
    (hQ : ∀ i s, Q s → Q (body i s)) (hit : ∀ s, P s → Q (body i0 s)) :
    Q (forLoop n body s) := by
  induction n with
  | zero => omega
  | succ n ih =>
    rw [forLoop_succ]
    by_cases h : i0 = n
    · subst h
      exact hit _ (forLoop_invariant P _ body s h0 hP)
    · exact hQ n _ (ih (by omega))

lemma forRange_invariant {σ : Type} (P : σ → Prop) (lo hi : Int) (body : Int → σ → σ) (s : σ)
    (h0 : P s) (hstep : ∀ i s, P s → P (body i s)) : P (forRange lo hi body s) :=
  forLoop_invariant P _ _ s h0 (fun _ s hs => hstep _ s hs)

lemma forRange_reach {σ : Type} (P Q : σ → Prop) (lo hi : Int) (body : Int → σ → σ) (s : σ)
    (i0 : Int) (hlo : lo ≤ i0) (hhi : i0 ≤ hi) (h0 : P s) (hP : ∀ i s, P s → P (body i s))
    (hQ : ∀ i s, Q s → Q (body i s)) (hit : ∀ s, P s → Q (body i0 s)) :
    Q (forRange lo hi body s) := by
  unfold forRange
  apply forLoop_reach P Q _ _ s (i0 - lo).toNat (by omega) h0 (fun t s hs => hP _ s hs)
    (fun t s hs => hQ _ s hs)
  intro s hs
  have e : lo + ((i0 - lo).toNat : Int) = i0 := by omega
  simp only [e]
  exact hit s hs

lemma solid_ray_search_congr (cells : Nat) (c : Int) (na : Int → Int) (a b : Nat → Cell K)
    (h : same_but_type a b) : solid_ray_search cells c na a = solid_ray_search cells c na b := by
  unfold solid_ray_search
  apply forLoop_congr
  intro i _ s
  rw [(h _).1]

lemma solid_ray_congr (cells : Nat) (c : Int) (na : Int → Int) (coord : Cell K → K) (comp : Nat)
    (a b : Nat → Cell K) (n : Nat) (h : same_but_type a b)
    (hc : ∀ j, coord (a j) = coord (b j)) :
    solid_ray cells c na coord comp a n = solid_ray cells c na coord comp b n := by
  unfold solid_ray
  rw [solid_ray_search_congr cells c na a b h]
  simp only [hc, (h _).2.2.2.2]

lemma solid_visit_cases (mesh : Mesh K) (i j k : Int) (c : Nat → Cell K) :
    assign_cell_type_solid_visit mesh i j k c = c
    ∨ assign_cell_type_solid_visit mesh i j k c
        = Function.update c
            ((mesh.xcells : Int) * j + i + k * (mesh.xcells : Int) * (mesh.ycells : Int)).toNat
            { (c ((mesh.xcells : Int) * j + i
                + k * (mesh.xcells : Int) * (mesh.ycells : Int)).toNat) with type := 0 } := by
  unfold assign_cell_type_solid_visit
  simp only
  split_ifs <;> first | exact Or.inl rfl | exact Or.inr rfl

lemma solid_visit_same (mesh : Mesh K) (i j k : Int) (a c : Nat → Cell K)
    (h : same_but_type a c) : same_but_type a (assign_cell_type_solid_visit mesh i j k c) := by
  rcases solid_visit_cases mesh i j k c with e | e
  · rw [e]
    exact h
  · rw [e]
    intro t
    by_cases ht : t = ((mesh.xcells : Int) * j + i
        + k * (mesh.xcells : Int) * (mesh.ycells : Int)).toNat
    · subst ht
      simp only [Function.update_same]
      exact h _
    · simp only [Function.update_noteq ht]
      exact h t

lemma solid_visit_keeps (mesh : Mesh K) (i j k : Int) (c : Nat → Cell K) (n : Nat)
    (h : (c n).type = 0) : (assign_cell_type_solid_visit mesh i j k c n).type = 0 := by
  rcases solid_visit_cases mesh i j k c with e | e
  · rw [e]
    exact h
  · rw [e]
    by_cases ht : n = ((mesh.xcells : Int) * j + i
        + k * (mesh.xcells : Int) * (mesh.ycells : Int)).toNat
    · subst ht
      simp only [Function.update_same]
    · simp only [Function.update_noteq ht]
      exact h

lemma solid_visit_hit (mesh : Mesh K) (i j k : Int) (a c : Nat → Cell K) (n : Nat)
    (hn : n = ((mesh.xcells : Int) * j + i
      + k * (mesh.xcells : Int) * (mesh.ycells : Int)).toNat)
    (h : same_but_type a c) (hg : (a n).ghost ≠ 1)
    (hx : solid_ray_x mesh i j k a n = 1) (hy : solid_ray_y mesh i j k a n = 1) :
    (assign_cell_type_solid_visit mesh i j k c n).type = 0 := by
  by_cases h0 : (c n).type = 0
  · exact solid_visit_keeps mesh i j k c n h0
  · have hx' : solid_ray_x mesh i j k c n = 1 := by
      rw [← hx]
      exact (solid_ray_congr _ _ _ _ _ a c n h (fun t => (h t).2.1)).symm
    have hy' : solid_ray_y mesh i j k c n = 1 := by
      rw [← hy]
      exact (solid_ray_congr _ _ _ _ _ a c n h (fun t => (h t).2.2.1)).symm
    have hg' : (c n).ghost ≠ 1 := by
      rw [← (h n).1]
      exact hg
    unfold assign_cell_type_solid_visit
    simp only [← hn]
    rw [if_pos hg', if_pos h0, if_pos ⟨hx', hy'⟩]
    simp only [Function.update_same]

/-- The pass tags a cell that is visited, is not a ghost cell, and has both
the flags `solx` and `soly` set on the cells as they are before the pass. -/
lemma solid_marking_of_rays (mesh : Mesh K) (solids : Solids K) (cell : Nat → Cell K)
    (l : Nat) (i j k : Int) (n : Nat)
    (hl : (l : Int) < solids.nsolid)
    (hi : (solids.stl l).imin 0 ≤ i ∧ i ≤ (solids.stl l).imax 0)
    (hj : (solids.stl l).imin 1 ≤ j ∧ j ≤ (solids.stl l).imax 1)
    (hk : (solids.stl l).imin 2 ≤ k ∧ k ≤ (solids.stl l).imax 2)
    (hn : n = ((mesh.xcells : Int) * j + i
      + k * (mesh.xcells : Int) * (mesh.ycells : Int)).toNat)
    (hg : (cell n).ghost ≠ 1)
    (hx : solid_ray_x mesh i j k cell n = 1) (hy : solid_ray_y mesh i j k cell n = 1) :
    (assign_cell_type_solids mesh solids cell n).type = 0 := by
  unfold assign_cell_type_solids
  have hP0 : same_but_type cell cell := fun t => ⟨rfl, rfl, rfl, rfl, rfl⟩
  have pK : ∀ (l : Nat) (i j : Int) (c : Nat → Cell K), same_but_type cell c →
      same_but_type cell (forRange ((solids.stl l).imin 2) ((solids.stl l).imax 2)
        (fun k cell => assign_cell_type_solid_visit mesh i j k cell) c) := fun l i j c hc =>
    forRange_invariant (same_but_type cell) _ _ _ c hc
      (fun k s hs => solid_visit_same mesh i j k cell s hs)
  have qK : ∀ (l : Nat) (i j : Int) (c : Nat → Cell K), (c n).type = 0 →
      ((forRange ((solids.stl l).imin 2) ((solids.stl l).imax 2)
        (fun k cell => assign_cell_type_solid_visit mesh i j k cell) c) n).type = 0 :=
    fun l i j c hc =>
    forRange_invariant (fun s : Nat → Cell K => (s n).type = 0) _ _ _ c hc
      (fun k s hs => solid_visit_keeps mesh i j k s n hs)
  have pJ : ∀ (l : Nat) (i : Int) (c : Nat → Cell K), same_but_type cell c →
      same_but_type cell (forRange ((solids.stl l).imin 1) ((solids.stl l).imax 1)
        (fun j cell => forRange ((solids.stl l).imin 2) ((solids.stl l).imax 2)
          (fun k cell => assign_cell_type_solid_visit mesh i j k cell) cell) c) := fun l i c hc =>
    forRange_invariant (same_but_type cell) _ _ _ c hc (fun j s hs => pK l i j s hs)
  have qJ : ∀ (l : Nat) (i : Int) (c : Nat → Cell K), (c n).type = 0 →
      ((forRange ((solids.stl l).imin 1) ((solids.stl l).imax 1)
        (fun j cell => forRange ((solids.stl l).imin 2) ((solids.stl l).imax 2)
          (fun k cell => assign_cell_type_solid_visit mesh i j k cell) cell) c) n).type = 0 :=
    fun l i c hc =>
    forRange_invariant (fun s : Nat → Cell K => (s n).type = 0) _ _ _ c hc
      (fun j s hs => qK l i j s hs)
  have pI : ∀ (l : Nat) (c : Nat → Cell K), same_but_type cell c →
      same_but_type cell (forRange ((solids.stl l).imin 0) ((solids.stl l).imax 0)
        (fun i cell => forRange ((solids.stl l).imin 1) ((solids.stl l).imax 1)
          (fun j cell => forRange ((solids.stl l).imin 2) ((solids.stl l).imax 2)
            (fun k cell => assign_cell_type_solid_visit mesh i j k cell) cell) cell) c) :=
    fun l c hc =>
    forRange_invariant (same_but_type cell) _ _ _ c hc (fun i s hs => pJ l i s hs)
  have qI : ∀ (l : Nat) (c : Nat → Cell K), (c n).type = 0 →
      ((forRange ((solids.stl l).imin 0) ((solids.stl l).imax 0)
        (fun i cell => forRange ((solids.stl l).imin 1) ((solids.stl l).imax 1)
          (fun j cell => forRange ((solids.stl l).imin 2) ((solids.stl l).imax 2)
            (fun k cell => assign_cell_type_solid_visit mesh i j k cell) cell) cell) c) n).type
        = 0 := fun l c hc =>
    forRange_invariant (fun s : Nat → Cell K => (s n).type = 0) _ _ _ c hc
      (fun i s hs => qJ l i s hs)
  apply forLoop_reach (same_but_type cell) (fun s : Nat → Cell K => (s n).type = 0) _ _ cell l
    (by omega) hP0 (fun l s hs => pI l s hs) (fun l s hs => qI l s hs)
  intro s hs
  apply forRange_reach (same_but_type cell) (fun s : Nat → Cell K => (s n).type = 0) _ _ _ s i
    hi.1 hi.2 hs (fun i s hs => pJ l i s hs) (fun i s hs => qJ l i s hs)
  intro s hs
  apply forRange_reach (same_but_type cell) (fun s : Nat → Cell K => (s n).type = 0) _ _ _ s j
    hj.1 hj.2 hs (fun j s hs => pK l i j s hs) (fun j s hs => qK l i j s hs)
  intro s hs
  apply forRange_reach (same_but_type cell) (fun s : Nat → Cell K => (s n).type = 0) _ _ _ s k
    hk.1 hk.2 hs (fun k s hs => solid_visit_same mesh i j k cell s hs)
    (fun k s hs => solid_visit_keeps mesh i j k s n hs)
  intro s hs
  exact solid_visit_hit mesh i j k cell s n hn hs hg hx hy

/-- The state of the ray search after `t` cells of the line. -/
lemma solid_ray_search_inv (cells : Nat) (c : Int) (na : Int → Int) (cell : Nat → Cell K)
    (hc0 : 0 ≤ c) (hc1 : c < cells) (t : Nat) (ht : t ≤ cells) :
    (∀ i1 : Nat, i1 < t → (cell (na (i1 : Int)).toNat).ghost = 1 →
        (forLoop t
          (fun i1 (s : Int × Int × Int) =>
            if (cell (na (i1 : Int)).toNat).ghost = 1 then
              if |(i1 : Int) - c| ≤ s.1 then (|(i1 : Int) - c|, na (i1 : Int), s.2.2 + 1)
              else (s.1, s.2.1, s.2.2 + 1)
            else s)
          ((cells : Int), -1, 0)).1 ≤ |(i1 : Int) - c|)
    ∧ (((forLoop t
          (fun i1 (s : Int × Int × Int) =>
            if (cell (na (i1 : Int)).toNat).ghost = 1 then
              if |(i1 : Int) - c| ≤ s.1 then (|(i1 : Int) - c|, na (i1 : Int), s.2.2 + 1)
              else (s.1, s.2.1, s.2.2 + 1)
            else s)
          ((cells : Int), -1, 0)).1 = cells
        ∧ ∀ i1 : Nat, i1 < t → ¬ (cell (na (i1 : Int)).toNat).ghost = 1)
      ∨ ∃ a : Nat, a < t ∧ (cell (na (a : Int)).toNat).ghost = 1
          ∧ (forLoop t
              (fun i1 (s : Int × Int × Int) =>
                if (cell (na (i1 : Int)).toNat).ghost = 1 then
                  if |(i1 : Int) - c| ≤ s.1 then (|(i1 : Int) - c|, na (i1 : Int), s.2.2 + 1)
                  else (s.1, s.2.1, s.2.2 + 1)
                else s)
              ((cells : Int), -1, 0)).2.1 = na (a : Int)
          ∧ (forLoop t
              (fun i1 (s : Int × Int × Int) =>
                if (cell (na (i1 : Int)).toNat).ghost = 1 then
                  if |(i1 : Int) - c| ≤ s.1 then (|(i1 : Int) - c|, na (i1 : Int), s.2.2 + 1)
                  else (s.1, s.2.1, s.2.2 + 1)
                else s)
              ((cells : Int), -1, 0)).1 = |(a : Int) - c|
          ∧ ∀ i1 : Nat, i1 < t → (cell (na (i1 : Int)).toNat).ghost = 1 →
              |(i1 : Int) - c| = |(a : Int) - c| → i1 ≤ a)
    ∧ (forLoop t
          (fun i1 (s : Int × Int × Int) =>
            if (cell (na (i1 : Int)).toNat).ghost = 1 then
              if |(i1 : Int) - c| ≤ s.1 then (|(i1 : Int) - c|, na (i1 : Int), s.2.2 + 1)
              else (s.1, s.2.1, s.2.2 + 1)
            else s)
          ((cells : Int), -1, 0)).2.2
        = (((Finset.range t).filter
            (fun i1 : Nat => (cell (na (i1 : Int)).toNat).ghost = 1)).card : Int) := by
  induction t with
  | zero =>
    refine ⟨fun i1 h => absurd h (Nat.not_lt_zero _), Or.inl ⟨rfl, fun i1 h => absurd h (Nat.not_lt_zero _)⟩, ?_⟩
    simp [forLoop]
  | succ t ih =>
    obtain ⟨hA, hB, hC⟩ := ih (by omega)
    rw [forLoop_succ]
    generalize forLoop t
          (fun i1 (s : Int × Int × Int) =>
            if (cell (na (i1 : Int)).toNat).ghost = 1 then
              if |(i1 : Int) - c| ≤ s.1 then (|(i1 : Int) - c|, na (i1 : Int), s.2.2 + 1)
              else (s.1, s.2.1, s.2.2 + 1)
            else s)
          ((cells : Int), -1, 0) = s at hA hB hC ⊢
    have hbound : |(t : Int) - c| ≤ (cells : Int) := by
      rw [abs_le]
      constructor <;> omega
    by_cases hg : (cell (na (t : Int)).toNat).ghost = 1
    · have hcard : (((Finset.range (t + 1)).filter
          (fun i1 : Nat => (cell (na (i1 : Int)).toNat).ghost = 1)).card : Int)
          = s.2.2 + 1 := by
        rw [Finset.range_succ, Finset.filter_insert, if_pos hg,
          Finset.card_insert_of_not_mem (by simp), hC]
        push_cast
        rfl
      by_cases hle : |(t : Int) - c| ≤ s.1
      · simp only [if_pos hg, if_pos hle]
        refine ⟨?_, Or.inr ⟨t, by omega, hg, rfl, rfl, ?_⟩, hcard.symm⟩
        · intro i1 hi1 hgi
          by_cases e : i1 = t
          · subst e
            exact le_refl _
          · exact le_trans hle (hA i1 (by omega) hgi)
        · intro i1 hi1 _ _
          omega
      · simp only [if_pos hg, if_neg hle]
        refine ⟨?_, ?_, hcard.symm⟩
        · intro i1 hi1 hgi
          by_cases e : i1 = t
          · subst e
            exact (not_le.mp hle).le
          · exact hA i1 (by omega) hgi
        · rcases hB with ⟨h1, _⟩ | ⟨a, ha, hga, hq, hd, htie⟩
          · exact absurd (h1 ▸ hbound) hle
          · refine Or.inr ⟨a, by omega, hga, hq, hd, ?_⟩
            intro i1 hi1 hgi heq
            by_cases e : i1 = t
            · subst e
              rw [heq, ← hd] at hle
              exact absurd (le_refl _) hle
            · exact htie i1 (by omega) hgi heq
    · have hcard : (((Finset.range (t + 1)).filter
          (fun i1 : Nat => (cell (na (i1 : Int)).toNat).ghost = 1)).card : Int) = s.2.2 := by
        rw [Finset.range_succ, Finset.filter_insert, if_neg hg, hC]
      simp only [if_neg hg]
      refine ⟨?_, ?_, hcard.symm⟩
      · intro i1 hi1 hgi
        by_cases e : i1 = t
        · subst e
          exact absurd hgi hg
        · exact hA i1 (by omega) hgi
      · rcases hB with ⟨h1, h2⟩ | ⟨a, ha, hga, hq, hd, htie⟩
        · refine Or.inl ⟨h1, ?_⟩
          intro i1 hi1
          by_cases e : i1 = t
          · subst e
            exact hg
          · exact h2 i1 (by omega)
        · refine Or.inr ⟨a, by omega, hga, hq, hd, ?_⟩
          intro i1 hi1 hgi heq
          by_cases e : i1 = t
          · subst e
            exact absurd hgi hg
          · exact htie i1 (by omega) hgi heq

/-- A ray that sees a ghost cell in the sense of `ray_sees` sets its flag. -/
lemma solid_ray_of_sees (cells : Nat) (c : Int) (na : Int → Int) (coord : Cell K → K)
    (comp : Nat) (cell : Nat → Cell K) (n : Nat) (hc0 : 0 ≤ c) (hc1 : c < cells)
    (hna : ∀ i1 : Nat, i1 < cells → 0 ≤ na (i1 : Int))
    (h : ray_sees cells c na coord comp cell n) :
    solid_ray cells c na coord comp cell n = 1 := by
  obtain ⟨a, b, ha, hb, hab, hga, hgb, hnear, hpos⟩ := h
  obtain ⟨hA, hB, hC⟩ := solid_ray_search_inv cells c na cell hc0 hc1 cells (le_refl _)
  have hs : solid_ray_search cells c na cell = forLoop cells
          (fun i1 (s : Int × Int × Int) =>
            if (cell (na (i1 : Int)).toNat).ghost = 1 then
              if |(i1 : Int) - c| ≤ s.1 then (|(i1 : Int) - c|, na (i1 : Int), s.2.2 + 1)
              else (s.1, s.2.1, s.2.2 + 1)
            else s)
          ((cells : Int), -1, 0) := rfl
  rw [← hs] at hA hB hC
  have hq : (solid_ray_search cells c na cell).2.1 = na (a : Int) := by
    rcases hB with ⟨_, h2⟩ | ⟨a', ha', hga', hq', hd', htie'⟩
    · exact absurd hga (h2 a ha)
    · have h1 := hA a ha hga
      rw [hd'] at h1
      rcases hnear a' ha' hga' with h3 | ⟨h3, h4⟩
      · omega
      · have h5 := htie' a ha hga h3
        have : a' = a := by omega
        rw [hq', this]
  have hct : (solid_ray_search cells c na cell).2.2 > 1 := by
    rw [hC]
    have : 1 < ((Finset.range cells).filter
        (fun i1 : Nat => (cell (na (i1 : Int)).toNat).ghost = 1)).card := by
      rw [Finset.one_lt_card]
      exact ⟨a, by simp [ha, hga], b, by simp [hb, hgb], hab⟩
    omega
  unfold solid_ray
  simp only [hq]
  rw [if_pos ⟨by have := hna a ha; omega, hct⟩, if_pos hpos]

/-- Claim C25 (amended): in the solid-marking pass of `assign_cell_type`, a
cell `(i, j, k)` of the mesh inside the bounding box of a solid that is not a
ghost cell is tagged Solid (`type = 0`) whenever both its x ray and its y ray
succeed (`ray_sees`): the line through the cell along the axis holds at least
two ghost cells, and the nearest of them, `q` (the later one of two equally
near), has `(x_q - x_cell)*n > 0` along that axis for the normal `n` of its
triangle.  The z ray is not consulted. -/
theorem solid_marking_x_and_y (mesh : Mesh K) (solids : Solids K) (cell : Nat → Cell K)
    (l : Nat) (i j k : Int) (n : Nat)
    (hl : (l : Int) < solids.nsolid)
    (hi : (solids.stl l).imin 0 ≤ i ∧ i ≤ (solids.stl l).imax 0)
    (hj : (solids.stl l).imin 1 ≤ j ∧ j ≤ (solids.stl l).imax 1)
    (hk : (solids.stl l).imin 2 ≤ k ∧ k ≤ (solids.stl l).imax 2)
    (hin : 0 ≤ i ∧ i < mesh.xcells ∧ 0 ≤ j ∧ j < mesh.ycells ∧ 0 ≤ k)
    (hn : n = ((mesh.xcells : Int) * j + i
      + k * (mesh.xcells : Int) * (mesh.ycells : Int)).toNat)
    (hg : (cell n).ghost ≠ 1)
    (hx : ray_sees mesh.xcells i
      (fun i1 => (mesh.xcells : Int) * j + i1 + k * (mesh.xcells : Int) * (mesh.ycells : Int))
      (fun c => c.xc) 0 cell n)
    (hy : ray_sees mesh.ycells j
      (fun i2 => (mesh.xcells : Int) * i2 + i + k * (mesh.xcells : Int) * (mesh.ycells : Int))
      (fun c => c.yc) 1 cell n) :
    (assign_cell_type_solids mesh solids cell n).type = 0 := by
  obtain ⟨i0, i1, j0, j1, k0⟩ := hin
  have hX : (0 : Int) ≤ mesh.xcells := Int.natCast_nonneg _
  have hY : (0 : Int) ≤ mesh.ycells := Int.natCast_nonneg _
  have hkXY : 0 ≤ k * (mesh.xcells : Int) * (mesh.ycells : Int) :=
    mul_nonneg (mul_nonneg k0 hX) hY
  apply solid_marking_of_rays mesh solids cell l i j k n hl hi hj hk hn hg
  · apply solid_ray_of_sees _ _ _ _ _ _ _ i0 i1 _ hx
    intro t _
    have h1 : 0 ≤ (mesh.xcells : Int) * j := mul_nonneg hX j0
    have h2 : (0 : Int) ≤ (t : Int) := Int.natCast_nonneg _
    show 0 ≤ (mesh.xcells : Int) * j + (t : Int) + k * (mesh.xcells : Int) * (mesh.ycells : Int)
    linarith
  · apply solid_ray_of_sees _ _ _ _ _ _ _ j0 j1 _ hy
    intro t _
    have h2 : (0 : Int) ≤ (t : Int) := Int.natCast_nonneg _
    have h1 : 0 ≤ (mesh.xcells : Int) * (t : Int) := mul_nonneg hX h2
    show 0 ≤ (mesh.xcells : Int) * (t : Int) + i + k * (mesh.xcells : Int) * (mesh.ycells : Int)
    linarith

/-- Instance of `solid_marking_x_and_y`: the centre cell of `rayMeshXY`. -/
theorem solid_marking_x_and_y_witness :
    ((0 : Nat) : Int) < (centreSolidXY : Solids ℚ).nsolid
    ∧ ((rayMeshXY : Mesh ℚ).cell 4).ghost ≠ 1
    ∧ (assign_cell_type_solids (rayMeshXY : Mesh ℚ) centreSolidXY rayMeshXY.cell 4).type = 0 := by
  refine ⟨by decide, by decide, ?_⟩
  apply solid_marking_x_and_y (rayMeshXY : Mesh ℚ) centreSolidXY rayMeshXY.cell 0 1 1 0 4
    (by decide) (by decide) (by decide) (by decide) (by decide) (by decide) (by decide)
  · refine ⟨2, 0, by decide, by decide, by decide, by decide, by decide, ?_, ?_⟩
    · intro t ht hgt
      have e : (rayMeshXY : Mesh ℚ).xcells = 3 := rfl
      rw [e] at ht
      interval_cases t
      · simp
      · exact absurd hgt (by decide)
      · simp
    · show ((((5 % 3 : Nat) : ℚ) + 1 / 2) - (((4 % 3 : Nat) : ℚ) + 1 / 2)) * 1 > 0
      norm_num
  · refine ⟨2, 0, by decide, by decide, by decide, by decide, by decide, ?_, ?_⟩
    · intro t ht hgt
      have e : (rayMeshXY : Mesh ℚ).ycells = 3 := rfl
      rw [e] at ht
      interval_cases t
      · simp
      · exact absurd hgt (by decide)
      · simp
    · show ((((7 / 3 : Nat) : ℚ) + 1 / 2) - (((4 / 3 : Nat) : ℚ) + 1 / 2)) * 1 > 0
      norm_num

/-- Claim C25 as stated fails for the pair of axes x and z: the centre cell 4
of `rayMeshXZ`, the cell `(1, 0, 1)` in the bounding box of the solid, is not a
ghost cell, its x ray and its z ray both succeed (the ghost cells 5 and 7, with
`(x_q - x_cell)*n = 1 > 0`), its y ray does not, and the pass leaves it
`type = 1`, not Solid. -/
theorem solid_marking_x_and_z_fails :
    ((0 : Nat) : Int) < (centreSolidXZ : Solids ℚ).nsolid
    ∧ ((rayMeshXZ : Mesh ℚ).cell 4).ghost ≠ 1
    ∧ ray_sees (rayMeshXZ : Mesh ℚ).xcells 1
        (fun i1 => ((rayMeshXZ : Mesh ℚ).xcells : Int) * 0 + i1
          + 1 * ((rayMeshXZ : Mesh ℚ).xcells : Int) * ((rayMeshXZ : Mesh ℚ).ycells : Int))
        (fun c => c.xc) 0 (rayMeshXZ : Mesh ℚ).cell 4
    ∧ ray_sees (rayMeshXZ : Mesh ℚ).zcells 1
        (fun i3 => ((rayMeshXZ : Mesh ℚ).xcells : Int) * 0 + 1
          + i3 * ((rayMeshXZ : Mesh ℚ).xcells : Int) * ((rayMeshXZ : Mesh ℚ).ycells : Int))
        (fun c => c.zc) 2 (rayMeshXZ : Mesh ℚ).cell 4
    ∧ (assign_cell_type_solids (rayMeshXZ : Mesh ℚ) centreSolidXZ rayMeshXZ.cell 4).type = 1
    ∧ (assign_cell_type_solids (rayMeshXZ : Mesh ℚ) centreSolidXZ rayMeshXZ.cell 4).type ≠ 0 := by
  have hy : solid_ray_y (rayMeshXZ : Mesh ℚ) 1 0 1 rayMeshXZ.cell 4 = 0 := by
    decide
  have hv : assign_cell_type_solid_visit (rayMeshXZ : Mesh ℚ) 1 0 1 rayMeshXZ.cell
      = rayMeshXZ.cell := by
    unfold assign_cell_type_solid_visit
    have e : (((rayMeshXZ : Mesh ℚ).xcells : Int) * 0 + 1
        + 1 * ((rayMeshXZ : Mesh ℚ).xcells : Int) * ((rayMeshXZ : Mesh ℚ).ycells : Int)).toNat = 4 := by
      decide
    simp only [e, hy]
    rw [if_pos (by decide), if_neg]
    rintro ⟨-, h⟩
    revert h
    simp
  have hp : assign_cell_type_solids (rayMeshXZ : Mesh ℚ) centreSolidXZ rayMeshXZ.cell
      = rayMeshXZ.cell := by
    unfold assign_cell_type_solids
    have e1 : (centreSolidXZ : Solids ℚ).nsolid.toNat = 1 := rfl
    rw [e1]
    simp only [forLoop, forRange]
    exact hv
  refine ⟨by decide, by decide, ?_, ?_, ?_, ?_⟩
  · refine ⟨2, 0, by decide, by decide, by decide, by decide, by decide, ?_, ?_⟩
    · intro t ht hgt
      have e : (rayMeshXZ : Mesh ℚ).xcells = 3 := rfl
      rw [e] at ht
      interval_cases t
      · simp
      · exact absurd hgt (by decide)
      · simp
    · show ((((5 % 3 : Nat) : ℚ) + 1 / 2) - (((4 % 3 : Nat) : ℚ) + 1 / 2)) * 1 > 0
      norm_num
  · refine ⟨2, 0, by decide, by decide, by decide, by decide, by decide, ?_, ?_⟩
    · intro t ht hgt
      have e : (rayMeshXZ : Mesh ℚ).zcells = 3 := rfl
      rw [e] at ht
      interval_cases t
      · simp
      · exact absurd hgt (by decide)
      · simp
    · show ((((7 / 3 : Nat) : ℚ) + 1 / 2) - (((4 / 3 : Nat) : ℚ) + 1 / 2)) * 1 > 0
      norm_num
  · rw [hp]
    rfl
  · rw [hp]
    decide

/-! ## Image cells -/

section image
variable [FloorRing K]

lemma double_to_int_nonneg (x : K) (h : 0 ≤ x) : double_to_int x = ⌊x⌋ := by
  unfold double_to_int
  rw [if_neg (not_lt.mpr h)]

lemma MAX_zero_nonneg (x : K) : 0 ≤ MAX x 0 := by
  unfold MAX
  split_ifs with h
  · exact h.le
  · exact le_refl _

/-- The first index of a pair of neighbours, and the second, lie on the
axis. -/
lemma image_axis_bounds (xim dx L : K) (cells : Nat) (hdx : 0 < dx) (hL : L = cells * dx)
    (h0 : 0 < xim) (h1 : xim < L) :
    0 ≤ double_to_int (MAX ((xim - dx / 2) / dx) 0)
    ∧ double_to_int (MAX ((xim - dx / 2) / dx) 0) < cells
    ∧ 0 ≤ MIN_int (double_to_int (MAX ((xim - dx / 2) / dx) 0) + 1) ((cells : Int) - 1)
    ∧ MIN_int (double_to_int (MAX ((xim - dx / 2) / dx) 0) + 1) ((cells : Int) - 1) < cells := by
  have hc : (0 : K) < cells := by
    rw [hL] at h1
    by_contra hn
    have : (cells : K) * dx ≤ 0 := mul_nonpos_of_nonpos_of_nonneg (not_lt.mp hn) hdx.le
    linarith
  have hc' : 0 < cells := by exact_mod_cast hc
  have hv : (xim - dx / 2) / dx < cells := by
    rw [div_lt_iff₀ hdx]
    rw [hL] at h1
    linarith
  have hm : MAX ((xim - dx / 2) / dx) 0 < cells := by
    unfold MAX
    split_ifs
    · exact hv
    · exact hc
  have hnn := MAX_zero_nonneg ((xim - dx / 2) / dx)
  rw [double_to_int_nonneg _ hnn]
  have f0 : 0 ≤ ⌊MAX ((xim - dx / 2) / dx) 0⌋ := Int.floor_nonneg.mpr hnn
  have f1 : ⌊MAX ((xim - dx / 2) / dx) 0⌋ < (cells : Int) := by
    rw [Int.floor_lt]
    exact_mod_cast hm
  refine ⟨f0, f1, ?_, ?_⟩
  · unfold MIN_int
    split_ifs <;> omega
  · unfold MIN_int
    split_ifs <;> omega

lemma index_lt (X Y Z : Nat) (i j k : Int) (hi : 0 ≤ i ∧ i < X) (hj : 0 ≤ j ∧ j < Y)
    (hk : 0 ≤ k ∧ k < Z) : (i + j * X + k * X * Y).toNat < X * Y * Z := by
  obtain ⟨i', rfl⟩ := Int.eq_ofNat_of_zero_le hi.1
  obtain ⟨j', rfl⟩ := Int.eq_ofNat_of_zero_le hj.1
  obtain ⟨k', rfl⟩ := Int.eq_ofNat_of_zero_le hk.1
  have hi' : i' < X := by exact_mod_cast hi.2
  have hj' : j' < Y := by exact_mod_cast hj.2
  have hk' : k' < Z := by exact_mod_cast hk.2
  have e : ((i' : Int) + (j' : Int) * X + (k' : Int) * X * Y).toNat = i' + j' * X + k' * X * Y := by
    have : ((i' : Int) + (j' : Int) * X + (k' : Int) * X * Y)
        = ((i' + j' * X + k' * X * Y : Nat) : Int) := by push_cast; ring
    rw [this, Int.toNat_natCast]
  rw [e]
  have h1 : i' + j' * X < X * Y := by
    calc i' + j' * X < X + j' * X := by omega
      _ = (j' + 1) * X := by ring
      _ ≤ Y * X := Nat.mul_le_mul_right X hj'
      _ = X * Y := Nat.mul_comm _ _
  calc i' + j' * X + k' * X * Y < X * Y + k' * X * Y := by omega
    _ = (k' + 1) * (X * Y) := by ring
    _ ≤ Z * (X * Y) := Nat.mul_le_mul_right (X * Y) hk'
    _ = X * Y * Z := Nat.mul_comm _ _

/-- The eight neighbours of an image point inside the domain are cells of the
mesh. -/
lemma image_neighbours_lt (mesh : Mesh K) (c : Cell K)
    (hd : 0 < mesh.dx ∧ 0 < mesh.dy ∧ 0 < mesh.dz)
    (hL : mesh.Lx = mesh.xcells * mesh.dx ∧ mesh.Ly = mesh.ycells * mesh.dy
      ∧ mesh.Lz = mesh.zcells * mesh.dz)
    (hin : c.xim > 0 ∧ c.xim < mesh.Lx ∧ c.yim > 0 ∧ c.yim < mesh.Ly
      ∧ c.zim > 0 ∧ c.zim < mesh.Lz)
    (q : Nat) (hq : q < 8) :
    image_neighbours mesh c q < mesh.xcells * mesh.ycells * mesh.zcells := by
  obtain ⟨x0, x1, y0, y1, z0, z1⟩ := hin
  obtain ⟨a0, a1, a2, a3⟩ := image_axis_bounds c.xim mesh.dx mesh.Lx mesh.xcells hd.1 hL.1 x0 x1
  obtain ⟨b0, b1, b2, b3⟩ := image_axis_bounds c.yim mesh.dy mesh.Ly mesh.ycells hd.2.1 hL.2.1 y0 y1
  obtain ⟨c0, c1, c2, c3⟩ := image_axis_bounds c.zim mesh.dz mesh.Lz mesh.zcells hd.2.2 hL.2.2 z0 z1
  unfold image_neighbours
  interval_cases q
  · exact index_lt _ _ _ _ _ _ ⟨a0, a1⟩ ⟨b0, b1⟩ ⟨c0, c1⟩
  · exact index_lt _ _ _ _ _ _ ⟨a2, a3⟩ ⟨b0, b1⟩ ⟨c0, c1⟩
  · exact index_lt _ _ _ _ _ _ ⟨a2, a3⟩ ⟨b2, b3⟩ ⟨c0, c1⟩
  · exact index_lt _ _ _ _ _ _ ⟨a0, a1⟩ ⟨b2, b3⟩ ⟨c0, c1⟩
  · exact index_lt _ _ _ _ _ _ ⟨a0, a1⟩ ⟨b0, b1⟩ ⟨c2, c3⟩
  · exact index_lt _ _ _ _ _ _ ⟨a2, a3⟩ ⟨b0, b1⟩ ⟨c2, c3⟩
  · exact index_lt _ _ _ _ _ _ ⟨a2, a3⟩ ⟨b2, b3⟩ ⟨c2, c3⟩
  · exact index_lt _ _ _ _ _ _ ⟨a0, a1⟩ ⟨b2, b3⟩ ⟨c2, c3⟩

lemma image_weight_nonneg (sqrt : K → K) (c nb : Cell K) : 0 ≤ image_weight sqrt c nb := by
  unfold image_weight
  simp only
  split_ifs
  · have : 0 < image_distance sqrt c nb * image_distance sqrt c nb + TOL14 :=
      add_pos_of_nonneg_of_pos (mul_self_nonneg _) TOL14_pos
    positivity
  · exact le_refl _

lemma forLoop_untouched {α : Type} (body : Nat → (Nat → α) → (Nat → α))
    (hb : ∀ j c i, i ≠ j → body j c i = c i) (c0 : Nat → α) (n i : Nat) (h : n ≤ i) :
    forLoop n body c0 i = c0 i := by
  induction n with
  | zero => rfl
  | succ n ih =>
    rw [forLoop_succ, hb n _ i (by omega)]
    exact ih (by omega)

lemma forLoop_stable {α : Type} (body : Nat → (Nat → α) → (Nat → α))
    (hb : ∀ j c i, i ≠ j → body j c i = c i) (c0 : Nat → α) (n m i : Nat) (h : i < n)
    (hm : n ≤ m) : forLoop m body c0 i = forLoop n body c0 i := by
  induction m with
  | zero => omega
  | succ m ih =>
    by_cases e : n = m + 1
    · subst e; rfl
    · rw [forLoop_succ, hb m _ i (by omega)]
      exact ih (by omega)

lemma image_weight_congr (sqrt : K → K) (c c' nb nb' : Cell K)
    (hc : c.xim = c'.xim ∧ c.yim = c'.yim ∧ c.zim = c'.zim)
    (hnb : nb.xc = nb'.xc ∧ nb.yc = nb'.yc ∧ nb.zc = nb'.zc ∧ nb.ghost = nb'.ghost) :
    image_weight sqrt c nb = image_weight sqrt c' nb' := by
  unfold image_weight image_distance
  rw [hc.1, hc.2.1, hc.2.2, hnb.1, hnb.2.1, hnb.2.2.1, hnb.2.2.2]

lemma image_step_other (sqrt : K → K) (mesh : Mesh K) (n : Nat) (c : Nat → Cell K) (i : Nat)
    (h : i ≠ n) : image_step sqrt mesh n c i = c i := by
  unfold image_step
  simp only
  split_ifs <;> simp only [Function.update_noteq h, Function.update_idem]

lemma image_step_not_ghost (sqrt : K → K) (mesh : Mesh K) (n : Nat) (c : Nat → Cell K)
    (h : (c n).ghost ≠ 1) : image_step sqrt mesh n c = c := by
  unfold image_step
  rw [if_neg h]

lemma image_step_outside (sqrt : K → K) (mesh : Mesh K) (n : Nat) (c : Nat → Cell K)
    (h : (c n).ghost = 1)
    (ho : ¬ ((c n).xim > 0 ∧ (c n).xim < mesh.Lx ∧ (c n).yim > 0 ∧ (c n).yim < mesh.Ly
        ∧ (c n).zim > 0 ∧ (c n).zim < mesh.Lz)) :
    image_step sqrt mesh n c n = { (c n) with type := 0, ghost := 0 } := by
  unfold image_step
  rw [if_pos h, if_neg ho, Function.update_same]

/-- The weights the step computes are those of the cells it is given. -/
lemma image_weights_written (sqrt : K → K) (n : Nat) (c : Nat → Cell K) (N : Nat → Nat)
    (j : Nat) :
    image_weight sqrt { (c n) with ni := N } (Function.update c n { (c n) with ni := N } j)
      = image_weight sqrt (c n) (c j) := by
  apply image_weight_congr
  · exact ⟨rfl, rfl, rfl⟩
  · by_cases e : j = n
    · rw [e, Function.update_same]
      exact ⟨rfl, rfl, rfl, rfl⟩
    · rw [Function.update_noteq e]
      exact ⟨rfl, rfl, rfl, rfl⟩

lemma image_step_sum (sqrt : K → K) (mesh : Mesh K) (n : Nat) (c : Nat → Cell K) :
    forLoop 8 (fun q sum => sum + image_weight sqrt
        (Function.update c n { (c n) with ni := image_neighbours mesh (c n) } n)
        (Function.update c n { (c n) with ni := image_neighbours mesh (c n) }
          ((Function.update c n { (c n) with ni := image_neighbours mesh (c n) } n).ni q))) 0
      = weight_sum sqrt (c n) c (image_neighbours mesh (c n)) := by
  rw [forLoop_sum_range]
  unfold weight_sum
  apply Finset.sum_congr rfl
  intro q _
  simp only [Function.update_same, image_weights_written]

lemma image_step_isolated (sqrt : K → K) (mesh : Mesh K) (n : Nat) (c : Nat → Cell K)
    (h : (c n).ghost = 1)
    (hi : (c n).xim > 0 ∧ (c n).xim < mesh.Lx ∧ (c n).yim > 0 ∧ (c n).yim < mesh.Ly
        ∧ (c n).zim > 0 ∧ (c n).zim < mesh.Lz)
    (hsum : weight_sum sqrt (c n) c (image_neighbours mesh (c n)) < TOL14) :
    image_step sqrt mesh n c n
      = { (c n) with ni := image_neighbours mesh (c n), type := 0, ghost := 0 } := by
  unfold image_step
  rw [if_pos h, if_pos hi]
  simp only
  rw [image_step_sum, if_pos hsum]
  simp only [Function.update_same]

lemma image_step_weighted (sqrt : K → K) (mesh : Mesh K) (n : Nat) (c : Nat → Cell K)
    (h : (c n).ghost = 1)
    (hi : (c n).xim > 0 ∧ (c n).xim < mesh.Lx ∧ (c n).yim > 0 ∧ (c n).yim < mesh.Ly
        ∧ (c n).zim > 0 ∧ (c n).zim < mesh.Lz)
    (hsum : ¬ weight_sum sqrt (c n) c (image_neighbours mesh (c n)) < TOL14) :
    image_step sqrt mesh n c n
      = { (c n) with
          ni := image_neighbours mesh (c n),
          li := fun q => if q < 8 then
              image_weight sqrt (c n) (c (image_neighbours mesh (c n) q))
                / weight_sum sqrt (c n) c (image_neighbours mesh (c n))
            else (c n).li q } := by
  unfold image_step
  rw [if_pos h, if_pos hi]
  simp only
  rw [image_step_sum, if_neg hsum]
  simp only [Function.update_same, image_weights_written]

/-- The step leaves the centres and image points as they are, and makes no
cell a ghost cell. -/
lemma image_step_fields (sqrt : K → K) (mesh : Mesh K) (n : Nat) (c : Nat → Cell K) (i : Nat) :
    (image_step sqrt mesh n c i).xc = (c i).xc ∧ (image_step sqrt mesh n c i).yc = (c i).yc
    ∧ (image_step sqrt mesh n c i).zc = (c i).zc ∧ (image_step sqrt mesh n c i).xim = (c i).xim
    ∧ (image_step sqrt mesh n c i).yim = (c i).yim ∧ (image_step sqrt mesh n c i).zim = (c i).zim
    ∧ ((image_step sqrt mesh n c i).ghost = 1 → (c i).ghost = 1) := by
  by_cases hi : i = n
  · subst hi
    by_cases hg : (c i).ghost = 1
    · by_cases hin : (c i).xim > 0 ∧ (c i).xim < mesh.Lx ∧ (c i).yim > 0 ∧ (c i).yim < mesh.Ly
          ∧ (c i).zim > 0 ∧ (c i).zim < mesh.Lz
      · by_cases hsum : weight_sum sqrt (c i) c (image_neighbours mesh (c i)) < TOL14
        · rw [image_step_isolated sqrt mesh i c hg hin hsum]
          exact ⟨rfl, rfl, rfl, rfl, rfl, rfl, fun _ => hg⟩
        · rw [image_step_weighted sqrt mesh i c hg hin hsum]
          exact ⟨rfl, rfl, rfl, rfl, rfl, rfl, fun _ => hg⟩
      · rw [image_step_outside sqrt mesh i c hg hin]
        exact ⟨rfl, rfl, rfl, rfl, rfl, rfl, fun _ => hg⟩
    · rw [image_step_not_ghost sqrt mesh i c hg]
      exact ⟨rfl, rfl, rfl, rfl, rfl, rfl, fun h => h⟩
  · rw [image_step_other sqrt mesh n c i hi]
    exact ⟨rfl, rfl, rfl, rfl, rfl, rfl, fun h => h⟩

lemma image_loop_fields (sqrt : K → K) (mesh : Mesh K) (c0 : Nat → Cell K) (m i : Nat) :
    (forLoop m (image_step sqrt mesh) c0 i).xc = (c0 i).xc
    ∧ (forLoop m (image_step sqrt mesh) c0 i).yc = (c0 i).yc
    ∧ (forLoop m (image_step sqrt mesh) c0 i).zc = (c0 i).zc
    ∧ (forLoop m (image_step sqrt mesh) c0 i).xim = (c0 i).xim
    ∧ (forLoop m (image_step sqrt mesh) c0 i).yim = (c0 i).yim
    ∧ (forLoop m (image_step sqrt mesh) c0 i).zim = (c0 i).zim
    ∧ ((forLoop m (image_step sqrt mesh) c0 i).ghost = 1 → (c0 i).ghost = 1) := by
  induction m with
  | zero => exact ⟨rfl, rfl, rfl, rfl, rfl, rfl, fun h => h⟩
  | succ m ih =>
    rw [forLoop_succ]
    obtain ⟨a1, a2, a3, a4, a5, a6, a7⟩ := image_step_fields sqrt mesh m
      (forLoop m (image_step sqrt mesh) c0) i
    obtain ⟨b1, b2, b3, b4, b5, b6, b7⟩ := ih
    exact ⟨a1.trans b1, a2.trans b2, a3.trans b3, a4.trans b4, a5.trans b5, a6.trans b6,
      fun h => b7 (a7 h)⟩

/-- The cell array when the loop reaches the cell `n`. -/
lemma image_loop_when (sqrt : K → K) (mesh : Mesh K) (n : Nat) (hn : n ≤ mesh.ncells) :
    forLoop n (image_step sqrt mesh) mesh.cell
      = cells_when n mesh.cell (forLoop mesh.ncells (image_step sqrt mesh) mesh.cell) := by
  funext j
  unfold cells_when
  by_cases h : j < n
  · rw [if_pos h]
    exact (forLoop_stable _ (image_step_other sqrt mesh) mesh.cell n mesh.ncells j h hn).symm
  · rw [if_neg h]
    exact forLoop_untouched _ (image_step_other sqrt mesh) mesh.cell n j (by omega)

lemma assign_image_cells_cell (sqrt : K → K) (mesh : Mesh K) (solids : Solids K)
    (hs : 1 ≤ solids.nsolid) :
    (assign_image_cells sqrt mesh solids).cell
      = forLoop mesh.ncells (image_step sqrt mesh) mesh.cell := by
  unfold assign_image_cells
  rw [if_neg (by omega)]

/-- The cell `n` after `assign_image_cells` is the result of the step for `n`
on the cells as they are when the loop reaches `n`. -/
lemma assign_image_cells_at (sqrt : K → K) (mesh : Mesh K) (solids : Solids K)
    (hs : 1 ≤ solids.nsolid) (n : Nat) (hn : n < mesh.ncells) :
    (assign_image_cells sqrt mesh solids).cell n
      = image_step sqrt mesh n
          (cells_when n mesh.cell (assign_image_cells sqrt mesh solids).cell) n := by
  rw [assign_image_cells_cell sqrt mesh solids hs, ← image_loop_when sqrt mesh n (by omega)]
  exact forLoop_frame _ (image_step_other sqrt mesh) mesh.cell n mesh.ncells hn

lemma cells_when_self (n : Nat) (a b : Nat → Cell K) : cells_when n a b n = a n := by
  unfold cells_when
  rw [if_neg (lt_irrefl n)]

/-- The cells met by the loop have the centres of the cells before the call;
a cell that is a ghost cell after the call is one when it is met, and a cell
that is met as a ghost cell was one before the call. -/
lemma cells_when_fields (sqrt : K → K) (mesh : Mesh K) (solids : Solids K)
    (hs : 1 ≤ solids.nsolid) (n j : Nat) :
    (cells_when n mesh.cell (assign_image_cells sqrt mesh solids).cell j).xc = (mesh.cell j).xc
    ∧ (cells_when n mesh.cell (assign_image_cells sqrt mesh solids).cell j).yc = (mesh.cell j).yc
    ∧ (cells_when n mesh.cell (assign_image_cells sqrt mesh solids).cell j).zc = (mesh.cell j).zc
    ∧ (((assign_image_cells sqrt mesh solids).cell j).ghost = 1 →
        (cells_when n mesh.cell (assign_image_cells sqrt mesh solids).cell j).ghost = 1)
    ∧ ((cells_when n mesh.cell (assign_image_cells sqrt mesh solids).cell j).ghost = 1 →
        (mesh.cell j).ghost = 1) := by
  obtain ⟨a1, a2, a3, -, -, -, a7⟩ := image_loop_fields sqrt mesh mesh.cell mesh.ncells j
  rw [← assign_image_cells_cell sqrt mesh solids hs] at a1 a2 a3 a7
  unfold cells_when
  by_cases h : j < n
  · simp only [if_pos h]
    exact ⟨a1, a2, a3, fun h => h, a7⟩
  · simp only [if_neg h]
    refine ⟨?_, ?_, ?_, a7, fun h => h⟩ <;> first | rfl | trivial

/-- The state of a cell after `assign_image_cells`: the indices and weights
of a cell that is still a ghost cell, and the demotion of the others. -/
lemma assign_image_cells_spec (sqrt : K → K) (mesh : Mesh K) (solids : Solids K) (n : Nat)
    (hs : 1 ≤ solids.nsolid)
    (hd : 0 < mesh.dx ∧ 0 < mesh.dy ∧ 0 < mesh.dz)
    (hL : mesh.Lx = mesh.xcells * mesh.dx ∧ mesh.Ly = mesh.ycells * mesh.dy
      ∧ mesh.Lz = mesh.zcells * mesh.dz)
    (hN : mesh.ncells = mesh.xcells * mesh.ycells * mesh.zcells)
    (hn : n < mesh.ncells) :
    (((assign_image_cells sqrt mesh solids).cell n).ghost = 1 →
      (∀ q, q < 8 → ((assign_image_cells sqrt mesh solids).cell n).ni q < mesh.ncells)
      ∧ (∀ q, q < 8 → 0 ≤ ((assign_image_cells sqrt mesh solids).cell n).li q)
      ∧ (Finset.range 8).sum ((assign_image_cells sqrt mesh solids).cell n).li = 1
      ∧ (∀ q, q < 8 → ((assign_image_cells sqrt mesh solids).cell n).li q
          = image_weight sqrt (mesh.cell n)
              (cells_when n mesh.cell (assign_image_cells sqrt mesh solids).cell
                (((assign_image_cells sqrt mesh solids).cell n).ni q))
            / weight_sum sqrt (mesh.cell n)
                (cells_when n mesh.cell (assign_image_cells sqrt mesh solids).cell)
                ((assign_image_cells sqrt mesh solids).cell n).ni)
      ∧ (∀ q, q < 8 →
          ((assign_image_cells sqrt mesh solids).cell
            (((assign_image_cells sqrt mesh solids).cell n).ni q)).ghost = 1 →
          ((assign_image_cells sqrt mesh solids).cell n).li q = 0)
      ∧ (∀ q, q < 8 →
          (mesh.cell (((assign_image_cells sqrt mesh solids).cell n).ni q)).ghost ≠ 1 →
          ((assign_image_cells sqrt mesh solids).cell n).li q
            = 1 / (image_distance sqrt (mesh.cell n)
                    (mesh.cell (((assign_image_cells sqrt mesh solids).cell n).ni q))
                  * image_distance sqrt (mesh.cell n)
                    (mesh.cell (((assign_image_cells sqrt mesh solids).cell n).ni q)) + TOL14)
              / weight_sum sqrt (mesh.cell n)
                  (cells_when n mesh.cell (assign_image_cells sqrt mesh solids).cell)
                  ((assign_image_cells sqrt mesh solids).cell n).ni))
    ∧ ((mesh.cell n).ghost = 1 →
        (¬ ((mesh.cell n).xim > 0 ∧ (mesh.cell n).xim < mesh.Lx ∧ (mesh.cell n).yim > 0
            ∧ (mesh.cell n).yim < mesh.Ly ∧ (mesh.cell n).zim > 0 ∧ (mesh.cell n).zim < mesh.Lz)
          ∨ weight_sum sqrt (mesh.cell n)
              (cells_when n mesh.cell (assign_image_cells sqrt mesh solids).cell)
              (image_neighbours mesh (mesh.cell n)) < TOL14) →
        ((assign_image_cells sqrt mesh solids).cell n).type = 0
        ∧ ((assign_image_cells sqrt mesh solids).cell n).ghost = 0) := by
  have hat := assign_image_cells_at sqrt mesh solids hs n hn
  have hself := cells_when_self n mesh.cell (assign_image_cells sqrt mesh solids).cell
  have hfld := cells_when_fields sqrt mesh solids hs n
  generalize hP : cells_when n mesh.cell (assign_image_cells sqrt mesh solids).cell = P
    at hat hself hfld ⊢
  generalize hC : (assign_image_cells sqrt mesh solids).cell = C at hat hfld ⊢
  constructor
  · intro hg
    by_cases hg0 : (P n).ghost = 1
    · by_cases hin : (P n).xim > 0 ∧ (P n).xim < mesh.Lx ∧ (P n).yim > 0 ∧ (P n).yim < mesh.Ly
          ∧ (P n).zim > 0 ∧ (P n).zim < mesh.Lz
      · by_cases hsum : weight_sum sqrt (P n) P (image_neighbours mesh (P n)) < TOL14
        · rw [hat, image_step_isolated sqrt mesh n P hg0 hin hsum] at hg
          exact absurd (show (0 : Int) = 1 from hg) (by decide)
        · have e := image_step_weighted sqrt mesh n P hg0 hin hsum
          rw [← hat] at e
          have eni : (C n).ni = image_neighbours mesh (P n) := by rw [e]
          have eli : ∀ q, q < 8 → (C n).li q
              = image_weight sqrt (P n) (P (image_neighbours mesh (P n) q))
                / weight_sum sqrt (P n) P (image_neighbours mesh (P n)) := by
            intro q hq
            rw [e]
            simp only [if_pos hq]
          have hpos : 0 < weight_sum sqrt (P n) P (image_neighbours mesh (P n)) :=
            lt_of_lt_of_le TOL14_pos (not_lt.mp hsum)
          rw [eni, ← hself]
          refine ⟨?_, ?_, ?_, ?_, ?_, ?_⟩
          · intro q hq
            rw [hN]
            exact image_neighbours_lt mesh (P n) hd hL hin q hq
          · intro q hq
            rw [eli q hq]
            exact div_nonneg (image_weight_nonneg _ _ _) hpos.le
          · rw [Finset.sum_congr rfl (fun q hq => eli q (Finset.mem_range.mp hq)),
              ← Finset.sum_div]
            exact div_self hpos.ne'
          · exact eli
          · intro q hq hgq
            rw [eli q hq]
            have : (P (image_neighbours mesh (P n) q)).ghost = 1 := (hfld _).2.2.2.1 hgq
            unfold image_weight
            simp only [this, ne_eq, not_true_eq_false, if_false, zero_div]
          · intro q hq hgq
            rw [eli q hq]
            have hng : (P (image_neighbours mesh (P n) q)).ghost ≠ 1 :=
              fun h => hgq ((hfld _).2.2.2.2 h)
            have hdist : image_distance sqrt (P n) (P (image_neighbours mesh (P n) q))
                = image_distance sqrt (P n) (mesh.cell (image_neighbours mesh (P n) q)) := by
              unfold image_distance
              rw [(hfld _).1, (hfld _).2.1, (hfld _).2.2.1]
            unfold image_weight
            simp only [hng, ne_eq, not_false_eq_true, if_true, hdist]
      · rw [hat, image_step_outside sqrt mesh n P hg0 hin] at hg
        exact absurd (show (0 : Int) = 1 from hg) (by decide)
    · rw [hat, image_step_not_ghost sqrt mesh n P hg0] at hg
      exact absurd hg hg0
  · intro hg hcase
    rw [← hself] at hg hcase
    by_cases hin : (P n).xim > 0 ∧ (P n).xim < mesh.Lx ∧ (P n).yim > 0 ∧ (P n).yim < mesh.Ly
        ∧ (P n).zim > 0 ∧ (P n).zim < mesh.Lz
    · rcases hcase with h | h
      · exact absurd hin h
      · rw [hat, image_step_isolated sqrt mesh n P hg hin h]
        exact ⟨rfl, rfl⟩
    · rw [hat, image_step_outside sqrt mesh n P hg hin]
      exact ⟨rfl, rfl⟩

end image

lemma imageMesh_imin : double_to_int (MAX (((2 : ℝ) - 1 / 2) / 1) 0) = 1 := by
  have h : MAX (((2 : ℝ) - 1 / 2) / 1) 0 = 3 / 2 := by
    unfold MAX
    norm_num
  rw [h, double_to_int_nonneg _ (by norm_num), Int.floor_eq_iff]
  norm_num

lemma imageMesh_jmin : double_to_int (MAX (((1 / 2 : ℝ) - 1 / 2) / 1) 0) = 0 := by
  have h : MAX (((1 / 2 : ℝ) - 1 / 2) / 1) 0 = 0 := by
    unfold MAX
    norm_num
  rw [h, double_to_int_nonneg _ (le_refl _), Int.floor_zero]

/-- The neighbours of the image point of cell 0 of `imageMesh`. -/
lemma imageMesh_neighbours :
    image_neighbours (imageMesh : Mesh ℝ) ((imageMesh : Mesh ℝ).cell 0) 0 = 1
    ∧ image_neighbours (imageMesh : Mesh ℝ) ((imageMesh : Mesh ℝ).cell 0) 1 = 2 := by
  have e1 : ((imageMesh : Mesh ℝ).cell 0).xim = 2 := rfl
  have e2 : ((imageMesh : Mesh ℝ).cell 0).yim = 1 / 2 := rfl
  have e3 : ((imageMesh : Mesh ℝ).cell 0).zim = 1 / 2 := rfl
  have d1 : (imageMesh : Mesh ℝ).dx = 1 := rfl
  have d2 : (imageMesh : Mesh ℝ).dy = 1 := rfl
  have d3 : (imageMesh : Mesh ℝ).dz = 1 := rfl
  have x1 : (imageMesh : Mesh ℝ).xcells = 3 := rfl
  have x2 : (imageMesh : Mesh ℝ).ycells = 1 := rfl
  have x3 : (imageMesh : Mesh ℝ).zcells = 1 := rfl
  constructor
  · unfold image_neighbours
    simp only [e1, e2, e3, d1, d2, d3, x1, x2, x3, imageMesh_imin, imageMesh_jmin]
    decide
  · unfold image_neighbours
    simp only [e1, e2, e3, d1, d2, d3, x1, x2, x3, imageMesh_imin, imageMesh_jmin]
    decide

lemma imageMesh_when0 (C : Nat → Cell ℝ) :
    cells_when 0 (imageMesh : Mesh ℝ).cell C = (imageMesh : Mesh ℝ).cell := by
  funext j
  unfold cells_when
  rw [if_neg (Nat.not_lt_zero j)]

lemma imageMesh_inside :
    ((imageMesh : Mesh ℝ).cell 0).xim > 0
    ∧ ((imageMesh : Mesh ℝ).cell 0).xim < (imageMesh : Mesh ℝ).Lx
    ∧ ((imageMesh : Mesh ℝ).cell 0).yim > 0
    ∧ ((imageMesh : Mesh ℝ).cell 0).yim < (imageMesh : Mesh ℝ).Ly
    ∧ ((imageMesh : Mesh ℝ).cell 0).zim > 0
    ∧ ((imageMesh : Mesh ℝ).cell 0).zim < (imageMesh : Mesh ℝ).Lz := by
  have e1 : ((imageMesh : Mesh ℝ).cell 0).xim = 2 := rfl
  have e2 : ((imageMesh : Mesh ℝ).cell 0).yim = 1 / 2 := rfl
  have e3 : ((imageMesh : Mesh ℝ).cell 0).zim = 1 / 2 := rfl
  have l1 : (imageMesh : Mesh ℝ).Lx = 3 := rfl
  have l2 : (imageMesh : Mesh ℝ).Ly = 1 := rfl
  have l3 : (imageMesh : Mesh ℝ).Lz = 1 := rfl
  rw [e1, e2, e3, l1, l2, l3]
  norm_num

lemma imageMesh_sum :
    ¬ weight_sum Real.sqrt ((imageMesh : Mesh ℝ).cell 0) (imageMesh : Mesh ℝ).cell
        (image_neighbours (imageMesh : Mesh ℝ) ((imageMesh : Mesh ℝ).cell 0)) < TOL14 := by
  rw [not_lt]
  have hterm : image_weight Real.sqrt ((imageMesh : Mesh ℝ).cell 0)
      ((imageMesh : Mesh ℝ).cell
        (image_neighbours (imageMesh : Mesh ℝ) ((imageMesh : Mesh ℝ).cell 0) 1))
      ≤ weight_sum Real.sqrt ((imageMesh : Mesh ℝ).cell 0) (imageMesh : Mesh ℝ).cell
        (image_neighbours (imageMesh : Mesh ℝ) ((imageMesh : Mesh ℝ).cell 0)) := by
    unfold weight_sum
    exact Finset.single_le_sum
      (f := fun q => image_weight Real.sqrt ((imageMesh : Mesh ℝ).cell 0)
        ((imageMesh : Mesh ℝ).cell
          (image_neighbours (imageMesh : Mesh ℝ) ((imageMesh : Mesh ℝ).cell 0) q)))
      (fun q _ => image_weight_nonneg _ _ _) (Finset.mem_range.mpr (by norm_num : 1 < 8))
  refine le_trans ?_ hterm
  rw [imageMesh_neighbours.2]
  have hd : image_distance Real.sqrt ((imageMesh : Mesh ℝ).cell 0) ((imageMesh : Mesh ℝ).cell 2)
      * image_distance Real.sqrt ((imageMesh : Mesh ℝ).cell 0) ((imageMesh : Mesh ℝ).cell 2)
      = 1 / 4 := by
    unfold image_distance
    simp only
    rw [Real.mul_self_sqrt
      (add_nonneg (add_nonneg (mul_self_nonneg _) (mul_self_nonneg _)) (mul_self_nonneg _))]
    simp only [imageMesh, zeroMesh, zeroCell]
    norm_num
  have hg : ((imageMesh : Mesh ℝ).cell 2).ghost ≠ 1 := by decide
  unfold image_weight
  simp only [hg, ne_eq, not_false_eq_true, if_true, hd]
  have h1 : (TOL14 : ℝ) < 1 := TOL14_lt_one
  have h0 : (0 : ℝ) < TOL14 := TOL14_pos
  rw [le_div_iff₀ (by linarith)]
  have h3 : (TOL14 : ℝ) ≤ 1 / 2 := by
    unfold TOL14
    norm_num
  have h2 : (TOL14 : ℝ) * (1 / 4 + TOL14) ≤ 1 / 2 * (1 / 4 + 1 / 2) :=
    mul_le_mul h3 (by linarith) (by linarith) (by norm_num)
  linarith

/-- The cell 0 of `imageMesh` after `assign_image_cells`: still a ghost cell,
with the cell 1 as neighbour 0, of weight 0. -/
lemma imageMesh_cell0 :
    ((assign_image_cells Real.sqrt (imageMesh : Mesh ℝ) oneSolid).cell 0).ghost = 1
    ∧ ((assign_image_cells Real.sqrt (imageMesh : Mesh ℝ) oneSolid).cell 0).ni 0 = 1
    ∧ ((assign_image_cells Real.sqrt (imageMesh : Mesh ℝ) oneSolid).cell 0).li 0 = 0 := by
  have hat := assign_image_cells_at Real.sqrt (imageMesh : Mesh ℝ) oneSolid (by decide) 0
    (by decide)
  rw [imageMesh_when0] at hat
  have hg0 : ((imageMesh : Mesh ℝ).cell 0).ghost = 1 := by decide
  rw [image_step_weighted Real.sqrt imageMesh 0 imageMesh.cell hg0 imageMesh_inside
    imageMesh_sum] at hat
  rw [hat]
  refine ⟨hg0, imageMesh_neighbours.1, ?_⟩
  simp only [if_pos (by norm_num : (0 : Nat) < 8)]
  rw [imageMesh_neighbours.1]
  have hg1 : ((imageMesh : Mesh ℝ).cell 1).ghost = 1 := by decide
  unfold image_weight
  simp only [hg1, ne_eq, not_true_eq_false, if_false, zero_div]

/-- The cell 1 of `imageMesh` after `assign_image_cells`: demoted, its image
point being on the boundary. -/
lemma imageMesh_cell1 :
    ((assign_image_cells Real.sqrt (imageMesh : Mesh ℝ) oneSolid).cell 1).type = 0
    ∧ ((assign_image_cells Real.sqrt (imageMesh : Mesh ℝ) oneSolid).cell 1).ghost = 0 := by
  have hat := assign_image_cells_at Real.sqrt (imageMesh : Mesh ℝ) oneSolid (by decide) 1
    (by decide)
  have hself := cells_when_self 1 (imageMesh : Mesh ℝ).cell
    (assign_image_cells Real.sqrt (imageMesh : Mesh ℝ) oneSolid).cell
  have hg : (cells_when 1 (imageMesh : Mesh ℝ).cell
      (assign_image_cells Real.sqrt (imageMesh : Mesh ℝ) oneSolid).cell 1).ghost = 1 := by
    rw [hself]
    decide
  have ho : ¬ ((cells_when 1 (imageMesh : Mesh ℝ).cell
        (assign_image_cells Real.sqrt (imageMesh : Mesh ℝ) oneSolid).cell 1).xim > 0
      ∧ (cells_when 1 (imageMesh : Mesh ℝ).cell
        (assign_image_cells Real.sqrt (imageMesh : Mesh ℝ) oneSolid).cell 1).xim
          < (imageMesh : Mesh ℝ).Lx
      ∧ (cells_when 1 (imageMesh : Mesh ℝ).cell
        (assign_image_cells Real.sqrt (imageMesh : Mesh ℝ) oneSolid).cell 1).yim > 0
      ∧ (cells_when 1 (imageMesh : Mesh ℝ).cell
        (assign_image_cells Real.sqrt (imageMesh : Mesh ℝ) oneSolid).cell 1).yim
          < (imageMesh : Mesh ℝ).Ly
      ∧ (cells_when 1 (imageMesh : Mesh ℝ).cell
        (assign_image_cells Real.sqrt (imageMesh : Mesh ℝ) oneSolid).cell 1).zim > 0
      ∧ (cells_when 1 (imageMesh : Mesh ℝ).cell
        (assign_image_cells Real.sqrt (imageMesh : Mesh ℝ) oneSolid).cell 1).zim
          < (imageMesh : Mesh ℝ).Lz) := by
    rw [hself]
    rintro ⟨h, -⟩
    have e : ((imageMesh : Mesh ℝ).cell 1).xim = 0 := rfl
    rw [e] at h
    exact lt_irrefl _ h
  rw [image_step_outside Real.sqrt imageMesh 1 _ hg ho] at hat
  rw [hat]
  exact ⟨rfl, rfl⟩

/-- Claim C24 (amended): after `assign_image_cells` (at least one solid, on a
grid with positive cell sizes, `L = cells * d` on each axis and
`ncells = xcells*ycells*zcells`), every cell `n < ncells` still flagged ghost has
eight neighbour indices below `ncells` and eight weights `li[q] >= 0` with sum
1, the weight of a neighbour being `w/sum` with `w = 0` when the neighbour is
a ghost cell at the time the loop reaches `n` (`cells_when`) and
`w = 1/(d_q^2 + eps)` otherwise, `eps` being `TOL14`; in particular every
neighbour that is a ghost cell after the call has weight 0, and every
neighbour that was not a ghost cell before the call has weight
`(1/(d_q^2 + eps))/sum`.  A ghost cell whose image point is not strictly
inside the domain, or whose sum of weights is below `eps`, is left with
`type = 0` and `ghost = 0`. -/
theorem image_weights [FloorRing K] (sqrt : K → K) (mesh : Mesh K) (solids : Solids K) (n : Nat)
    (hs : 1 ≤ solids.nsolid)
    (hd : 0 < mesh.dx ∧ 0 < mesh.dy ∧ 0 < mesh.dz)
    (hL : mesh.Lx = mesh.xcells * mesh.dx ∧ mesh.Ly = mesh.ycells * mesh.dy
      ∧ mesh.Lz = mesh.zcells * mesh.dz)
    (hN : mesh.ncells = mesh.xcells * mesh.ycells * mesh.zcells)
    (hn : n < mesh.ncells) :
    (((assign_image_cells sqrt mesh solids).cell n).ghost = 1 →
      (∀ q, q < 8 → ((assign_image_cells sqrt mesh solids).cell n).ni q < mesh.ncells)
      ∧ (∀ q, q < 8 → 0 ≤ ((assign_image_cells sqrt mesh solids).cell n).li q)
      ∧ (Finset.range 8).sum ((assign_image_cells sqrt mesh solids).cell n).li = 1
      ∧ (∀ q, q < 8 → ((assign_image_cells sqrt mesh solids).cell n).li q
          = image_weight sqrt (mesh.cell n)
              (cells_when n mesh.cell (assign_image_cells sqrt mesh solids).cell
                (((assign_image_cells sqrt mesh solids).cell n).ni q))
            / weight_sum sqrt (mesh.cell n)
                (cells_when n mesh.cell (assign_image_cells sqrt mesh solids).cell)
                ((assign_image_cells sqrt mesh solids).cell n).ni)
      ∧ (∀ q, q < 8 →
          ((assign_image_cells sqrt mesh solids).cell
            (((assign_image_cells sqrt mesh solids).cell n).ni q)).ghost = 1 →
          ((assign_image_cells sqrt mesh solids).cell n).li q = 0)
      ∧ (∀ q, q < 8 →
          (mesh.cell (((assign_image_cells sqrt mesh solids).cell n).ni q)).ghost ≠ 1 →
          ((assign_image_cells sqrt mesh solids).cell n).li q
            = 1 / (image_distance sqrt (mesh.cell n)
                    (mesh.cell (((assign_image_cells sqrt mesh solids).cell n).ni q))
                  * image_distance sqrt (mesh.cell n)
                    (mesh.cell (((assign_image_cells sqrt mesh solids).cell n).ni q)) + TOL14)
              / weight_sum sqrt (mesh.cell n)
                  (cells_when n mesh.cell (assign_image_cells sqrt mesh solids).cell)
                  ((assign_image_cells sqrt mesh solids).cell n).ni))
    ∧ ((mesh.cell n).ghost = 1 →
        (¬ ((mesh.cell n).xim > 0 ∧ (mesh.cell n).xim < mesh.Lx ∧ (mesh.cell n).yim > 0
            ∧ (mesh.cell n).yim < mesh.Ly ∧ (mesh.cell n).zim > 0 ∧ (mesh.cell n).zim < mesh.Lz)
          ∨ weight_sum sqrt (mesh.cell n)
              (cells_when n mesh.cell (assign_image_cells sqrt mesh solids).cell)
              (image_neighbours mesh (mesh.cell n)) < TOL14) →
        ((assign_image_cells sqrt mesh solids).cell n).type = 0
        ∧ ((assign_image_cells sqrt mesh solids).cell n).ghost = 0) :=
  assign_image_cells_spec sqrt mesh solids n hs hd hL hN hn

/-- Instance of `image_weights`: the cell 0 of `imageMesh` stays a ghost cell,
its eight neighbours are cells of the mesh and its weights add up to 1. -/
theorem image_weights_witness :
    1 ≤ (oneSolid : Solids ℝ).nsolid
    ∧ 0 < (imageMesh : Mesh ℝ).ncells
    ∧ ((assign_image_cells Real.sqrt (imageMesh : Mesh ℝ) oneSolid).cell 0).ghost = 1
    ∧ (∀ q, q < 8 →
        ((assign_image_cells Real.sqrt (imageMesh : Mesh ℝ) oneSolid).cell 0).ni q
          < (imageMesh : Mesh ℝ).ncells)
    ∧ (Finset.range 8).sum
        ((assign_image_cells Real.sqrt (imageMesh : Mesh ℝ) oneSolid).cell 0).li = 1 := by
  have h := (image_weights Real.sqrt (imageMesh : Mesh ℝ) oneSolid 0 (by decide)
    ⟨by show (0 : ℝ) < 1; norm_num, by show (0 : ℝ) < 1; norm_num, by show (0 : ℝ) < 1; norm_num⟩
    ⟨by show (3 : ℝ) = ((3 : Nat) : ℝ) * 1; norm_num,
      by show (1 : ℝ) = ((1 : Nat) : ℝ) * 1; norm_num,
      by show (1 : ℝ) = ((1 : Nat) : ℝ) * 1; norm_num⟩
    (by decide) (by decide)).1 imageMesh_cell0.1
  exact ⟨by decide, by decide, imageMesh_cell0.1, h.1, h.2.2.1⟩

/-- Claim C24 as stated fails on `imageMesh`: after `assign_image_cells` the
cell 0 is still a ghost cell and its neighbour 0 is the cell 1, which is not a
ghost cell any more (it is demoted after cell 0 is processed); yet the weight of
that neighbour is 0, whereas `1/(d^2 + eps)` is positive. -/
theorem image_weight_of_demoted_neighbour :
    ((assign_image_cells Real.sqrt (imageMesh : Mesh ℝ) oneSolid).cell 0).ghost = 1
    ∧ ((assign_image_cells Real.sqrt (imageMesh : Mesh ℝ) oneSolid).cell 0).ni 0 = 1
    ∧ ((assign_image_cells Real.sqrt (imageMesh : Mesh ℝ) oneSolid).cell 1).ghost ≠ 1
    ∧ ((assign_image_cells Real.sqrt (imageMesh : Mesh ℝ) oneSolid).cell 0).li 0 = 0
    ∧ 0 < 1 / (image_distance Real.sqrt
          ((assign_image_cells Real.sqrt (imageMesh : Mesh ℝ) oneSolid).cell 0)
          ((assign_image_cells Real.sqrt (imageMesh : Mesh ℝ) oneSolid).cell 1)
        * image_distance Real.sqrt
          ((assign_image_cells Real.sqrt (imageMesh : Mesh ℝ) oneSolid).cell 0)
          ((assign_image_cells Real.sqrt (imageMesh : Mesh ℝ) oneSolid).cell 1) + TOL14) := by
  refine ⟨imageMesh_cell0.1, imageMesh_cell0.2.1, ?_, imageMesh_cell0.2.2, ?_⟩
  · rw [imageMesh_cell1.2]
    decide
  · have : (0 : ℝ) < TOL14 := TOL14_pos
    have h2 := mul_self_nonneg (image_distance Real.sqrt
          ((assign_image_cells Real.sqrt (imageMesh : Mesh ℝ) oneSolid).cell 0)
          ((assign_image_cells Real.sqrt (imageMesh : Mesh ℝ) oneSolid).cell 1))
    positivity

/-! ## Symmetries of the reconstruction -/

lemma weno3_beta_shift (phi : Nat → K) (c : K) :
    weno3_beta (fun i => phi i + c) = weno3_beta phi := by
  unfold weno3_beta
  refine Prod.ext ?_ ?_ <;> simp only <;> ring

lemma weno5_beta_shift (phi : Nat → K) (c : K) :
    weno5_beta (fun i => phi i + c) = weno5_beta phi := by
  unfold weno5_beta
  refine Prod.ext ?_ (Prod.ext ?_ ?_) <;> simp only <;> ring

lemma weno7_beta_shift (phi : Nat → K) (c : K) :
    weno7_beta (fun i => phi i + c) = weno7_beta phi := by
  unfold weno7_beta
  refine Prod.ext ?_ (Prod.ext ?_ (Prod.ext ?_ ?_)) <;> simp only <;> ring

/-- The weights of the third-order routines in terms of `weno3_beta`. -/
lemma weno3R_weights_beta (typeRec : Nat) (phi : Nat → K) :
    weno3R_weights typeRec phi
      = if typeRec = 0 then
          (2 / 3 / (((weno3_beta phi).1 + epsilon) * ((weno3_beta phi).1 + epsilon))
              / (2 / 3 / (((weno3_beta phi).1 + epsilon) * ((weno3_beta phi).1 + epsilon))
                + 1 / 3 / (((weno3_beta phi).2 + epsilon) * ((weno3_beta phi).2 + epsilon))),
            1 / 3 / (((weno3_beta phi).2 + epsilon) * ((weno3_beta phi).2 + epsilon))
              / (2 / 3 / (((weno3_beta phi).1 + epsilon) * ((weno3_beta phi).1 + epsilon))
                + 1 / 3 / (((weno3_beta phi).2 + epsilon) * ((weno3_beta phi).2 + epsilon))))
        else if typeRec = 1 then
          (2 / 3 * (if 1 / ((weno3_beta phi).1 + epsilon2) ^ Q
                / (1 / ((weno3_beta phi).1 + epsilon2) ^ Q
                  + 1 / ((weno3_beta phi).2 + epsilon2) ^ Q) < CT then (0 : K) else 1)
              / (2 / 3 * (if 1 / ((weno3_beta phi).1 + epsilon2) ^ Q
                    / (1 / ((weno3_beta phi).1 + epsilon2) ^ Q
                      + 1 / ((weno3_beta phi).2 + epsilon2) ^ Q) < CT then (0 : K) else 1)
                + 1 / 3 * (if 1 / ((weno3_beta phi).2 + epsilon2) ^ Q
                    / (1 / ((weno3_beta phi).1 + epsilon2) ^ Q
                      + 1 / ((weno3_beta phi).2 + epsilon2) ^ Q) < CT then (0 : K) else 1)),
            1 / 3 * (if 1 / ((weno3_beta phi).2 + epsilon2) ^ Q
                / (1 / ((weno3_beta phi).1 + epsilon2) ^ Q
                  + 1 / ((weno3_beta phi).2 + epsilon2) ^ Q) < CT then (0 : K) else 1)
              / (2 / 3 * (if 1 / ((weno3_beta phi).1 + epsilon2) ^ Q
                    / (1 / ((weno3_beta phi).1 + epsilon2) ^ Q
                      + 1 / ((weno3_beta phi).2 + epsilon2) ^ Q) < CT then (0 : K) else 1)
                + 1 / 3 * (if 1 / ((weno3_beta phi).2 + epsilon2) ^ Q
                    / (1 / ((weno3_beta phi).1 + epsilon2) ^ Q
                      + 1 / ((weno3_beta phi).2 + epsilon2) ^ Q) < CT then (0 : K) else 1)))
        else (2 / 3, 1 / 3) := rfl

lemma weno3L_weights_beta (typeRec : Nat) (phi : Nat → K) :
    weno3L_weights typeRec phi
      = if typeRec = 0 then
          (1 / 3 / (((weno3_beta phi).1 + epsilon) * ((weno3_beta phi).1 + epsilon))
              / (1 / 3 / (((weno3_beta phi).1 + epsilon) * ((weno3_beta phi).1 + epsilon))
                + 2 / 3 / (((weno3_beta phi).2 + epsilon) * ((weno3_beta phi).2 + epsilon))),
            2 / 3 / (((weno3_beta phi).2 + epsilon) * ((weno3_beta phi).2 + epsilon))
              / (1 / 3 / (((weno3_beta phi).1 + epsilon) * ((weno3_beta phi).1 + epsilon))
                + 2 / 3 / (((weno3_beta phi).2 + epsilon) * ((weno3_beta phi).2 + epsilon))))
        else if typeRec = 1 then
          (1 / 3 * (if 1 / ((weno3_beta phi).1 + epsilon2) ^ Q
                / (1 / ((weno3_beta phi).1 + epsilon2) ^ Q
                  + 1 / ((weno3_beta phi).2 + epsilon2) ^ Q) < CT then (0 : K) else 1)
              / (1 / 3 * (if 1 / ((weno3_beta phi).1 + epsilon2) ^ Q
                    / (1 / ((weno3_beta phi).1 + epsilon2) ^ Q
                      + 1 / ((weno3_beta phi).2 + epsilon2) ^ Q) < CT then (0 : K) else 1)
                + 2 / 3 * (if 1 / ((weno3_beta phi).2 + epsilon2) ^ Q
                    / (1 / ((weno3_beta phi).1 + epsilon2) ^ Q
                      + 1 / ((weno3_beta phi).2 + epsilon2) ^ Q) < CT then (0 : K) else 1)),
            2 / 3 * (if 1 / ((weno3_beta phi).2 + epsilon2) ^ Q
                / (1 / ((weno3_beta phi).1 + epsilon2) ^ Q
                  + 1 / ((weno3_beta phi).2 + epsilon2) ^ Q) < CT then (0 : K) else 1)
              / (1 / 3 * (if 1 / ((weno3_beta phi).1 + epsilon2) ^ Q
                    / (1 / ((weno3_beta phi).1 + epsilon2) ^ Q
                      + 1 / ((weno3_beta phi).2 + epsilon2) ^ Q) < CT then (0 : K) else 1)
                + 2 / 3 * (if 1 / ((weno3_beta phi).2 + epsilon2) ^ Q
                    / (1 / ((weno3_beta phi).1 + epsilon2) ^ Q
                      + 1 / ((weno3_beta phi).2 + epsilon2) ^ Q) < CT then (0 : K) else 1)))
        else (1 / 3, 2 / 3) := rfl

lemma weno3R_weights_shift (typeRec : Nat) (phi : Nat → K) (c : K) :
    weno3R_weights typeRec (fun i => phi i + c) = weno3R_weights typeRec phi := by
  rw [weno3R_weights_beta, weno3R_weights_beta, weno3_beta_shift]

lemma weno3L_weights_shift (typeRec : Nat) (phi : Nat → K) (c : K) :
    weno3L_weights typeRec (fun i => phi i + c) = weno3L_weights typeRec phi := by
  rw [weno3L_weights_beta, weno3L_weights_beta, weno3_beta_shift]

lemma weno5_weights_shift (g0 g1 g2 : K) (typeRec : Nat) (phi : Nat → K) (c : K) :
    weno5_weights g0 g1 g2 typeRec (fun i => phi i + c) = weno5_weights g0 g1 g2 typeRec phi := by
  unfold weno5_weights
  rw [weno5_beta_shift]

lemma weno7_weights_shift (g0 g1 g2 g3 : K) (typeRec : Nat) (phi : Nat → K) (c : K) :
    weno7_weights g0 g1 g2 g3 typeRec (fun i => phi i + c)
      = weno7_weights g0 g1 g2 g3 typeRec phi := by
  unfold weno7_weights
  rw [weno7_beta_shift]

/-- Claim C39: for every order (3, 5, 7), side (L or R), value of `TYPE_REC`
(WENO, TENO, UWC), stencil `phi` and constant `c`, the routine applied to
`phi + c` returns its value on `phi` plus `c`; in particular (`phi = 0`) a
constant stencil is reproduced exactly. -/
theorem weno_translation (typeRec : Nat) (phi : Nat → K) (c : K) :
    weno3R typeRec (fun i => phi i + c) = weno3R typeRec phi + c
    ∧ weno3L typeRec (fun i => phi i + c) = weno3L typeRec phi + c
    ∧ weno5R typeRec (fun i => phi i + c) = weno5R typeRec phi + c
    ∧ weno5L typeRec (fun i => phi i + c) = weno5L typeRec phi + c
    ∧ weno7R typeRec (fun i => phi i + c) = weno7R typeRec phi + c
    ∧ weno7L typeRec (fun i => phi i + c) = weno7L typeRec phi + c
    ∧ weno3R typeRec (fun _ => c) = c ∧ weno3L typeRec (fun _ => c) = c
    ∧ weno5R typeRec (fun _ => c) = c ∧ weno5L typeRec (fun _ => c) = c
    ∧ weno7R typeRec (fun _ => c) = c ∧ weno7L typeRec (fun _ => c) = c := by
  have h3R : ∀ (phi : Nat → K) (c : K),
      weno3R typeRec (fun i => phi i + c) = weno3R typeRec phi + c := by
    intro phi c
    unfold weno3R
    simp only [weno3R_weights_shift]
    linear_combination c * weno3R_weights_sum typeRec phi
  have h3L : ∀ (phi : Nat → K) (c : K),
      weno3L typeRec (fun i => phi i + c) = weno3L typeRec phi + c := by
    intro phi c
    unfold weno3L
    simp only [weno3L_weights_shift]
    linear_combination c * weno3L_weights_sum typeRec phi
  have h5R : ∀ (phi : Nat → K) (c : K),
      weno5R typeRec (fun i => phi i + c) = weno5R typeRec phi + c := by
    intro phi c
    unfold weno5R weno5R_weights
    simp only [weno5_weights_shift]
    have hw : (weno5_weights (3 / 10 : K) (3 / 5) (1 / 10) typeRec phi).1
        + (weno5_weights (3 / 10 : K) (3 / 5) (1 / 10) typeRec phi).2.1
        + (weno5_weights (3 / 10 : K) (3 / 5) (1 / 10) typeRec phi).2.2 = 1 :=
      weno5_weights_sum (by norm_num) (by norm_num) (by norm_num) (by norm_num) typeRec phi
    linear_combination c * hw
  have h5L : ∀ (phi : Nat → K) (c : K),
      weno5L typeRec (fun i => phi i + c) = weno5L typeRec phi + c := by
    intro phi c
    unfold weno5L weno5L_weights
    simp only [weno5_weights_shift]
    have hw : (weno5_weights (1 / 10 : K) (3 / 5) (3 / 10) typeRec phi).1
        + (weno5_weights (1 / 10 : K) (3 / 5) (3 / 10) typeRec phi).2.1
        + (weno5_weights (1 / 10 : K) (3 / 5) (3 / 10) typeRec phi).2.2 = 1 :=
      weno5_weights_sum (by norm_num) (by norm_num) (by norm_num) (by norm_num) typeRec phi
    linear_combination c * hw
  have h7R : ∀ (phi : Nat → K) (c : K),
      weno7R typeRec (fun i => phi i + c) = weno7R typeRec phi + c := by
    intro phi c
    unfold weno7R weno7R_weights
    simp only [weno7_weights_shift]
    have hw : (weno7_weights (4 / 35 : K) (18 / 35) (12 / 35) (1 / 35) typeRec phi).1
        + (weno7_weights (4 / 35 : K) (18 / 35) (12 / 35) (1 / 35) typeRec phi).2.1
        + (weno7_weights (4 / 35 : K) (18 / 35) (12 / 35) (1 / 35) typeRec phi).2.2.1
        + (weno7_weights (4 / 35 : K) (18 / 35) (12 / 35) (1 / 35) typeRec phi).2.2.2 = 1 :=
      weno7_weights_sum (by norm_num) (by norm_num) (by norm_num) (by norm_num) (by norm_num)
        typeRec phi
    linear_combination c * hw
  have h7L : ∀ (phi : Nat → K) (c : K),
      weno7L typeRec (fun i => phi i + c) = weno7L typeRec phi + c := by
    intro phi c
    unfold weno7L weno7L_weights
    simp only [weno7_weights_shift]
    have hw : (weno7_weights (1 / 35 : K) (12 / 35) (18 / 35) (4 / 35) typeRec phi).1
        + (weno7_weights (1 / 35 : K) (12 / 35) (18 / 35) (4 / 35) typeRec phi).2.1
        + (weno7_weights (1 / 35 : K) (12 / 35) (18 / 35) (4 / 35) typeRec phi).2.2.1
        + (weno7_weights (1 / 35 : K) (12 / 35) (18 / 35) (4 / 35) typeRec phi).2.2.2 = 1 :=
      weno7_weights_sum (by norm_num) (by norm_num) (by norm_num) (by norm_num) (by norm_num)
        typeRec phi
    linear_combination c * hw
  have hc := weno_const typeRec (fun _ : Nat => c) c
  exact ⟨h3R phi c, h3L phi c, h5R phi c, h5L phi c, h7R phi c, h7L phi c,
    (hc.1 (fun _ _ => rfl)).1, (hc.1 (fun _ _ => rfl)).2, (hc.2.1 (fun _ _ => rfl)).1,
    (hc.2.1 (fun _ _ => rfl)).2, (hc.2.2 (fun _ _ => rfl)).1, (hc.2.2 (fun _ _ => rfl)).2⟩

/-! ## Mirror symmetry of the reconstruction -/

lemma reverse_stencil_3 (phi : Nat → K) :
    reverse_stencil 3 phi 0 = phi 2 ∧ reverse_stencil 3 phi 1 = phi 1
      ∧ reverse_stencil 3 phi 2 = phi 0 := ⟨rfl, rfl, rfl⟩

lemma reverse_stencil_5 (phi : Nat → K) :
    reverse_stencil 5 phi 0 = phi 4 ∧ reverse_stencil 5 phi 1 = phi 3
      ∧ reverse_stencil 5 phi 2 = phi 2 ∧ reverse_stencil 5 phi 3 = phi 1
      ∧ reverse_stencil 5 phi 4 = phi 0 := ⟨rfl, rfl, rfl, rfl, rfl⟩

lemma reverse_stencil_7 (phi : Nat → K) :
    reverse_stencil 7 phi 0 = phi 6 ∧ reverse_stencil 7 phi 1 = phi 5
      ∧ reverse_stencil 7 phi 2 = phi 4 ∧ reverse_stencil 7 phi 3 = phi 3
      ∧ reverse_stencil 7 phi 4 = phi 2 ∧ reverse_stencil 7 phi 5 = phi 1
      ∧ reverse_stencil 7 phi 6 = phi 0 := ⟨rfl, rfl, rfl, rfl, rfl, rfl, rfl⟩

lemma weno5_beta_reverse (phi : Nat → K) :
    weno5_beta (reverse_stencil 5 phi)
      = ((weno5_beta phi).2.2, (weno5_beta phi).2.1, (weno5_beta phi).1) := by
  obtain ⟨e0, e1, e2, e3, e4⟩ := reverse_stencil_5 phi
  unfold weno5_beta
  rw [e0, e1, e2, e3, e4]
  refine Prod.ext ?_ (Prod.ext ?_ ?_) <;> simp only <;> ring

lemma weno7_beta_reverse (phi : Nat → K) :
    weno7_beta (reverse_stencil 7 phi)
      = ((weno7_beta phi).2.2.2, (weno7_beta phi).2.2.1, (weno7_beta phi).2.1,
          (weno7_beta phi).1) := by
  obtain ⟨e0, e1, e2, e3, e4, e5, e6⟩ := reverse_stencil_7 phi
  unfold weno7_beta
  rw [e0, e1, e2, e3, e4, e5, e6]
  refine Prod.ext ?_ (Prod.ext ?_ (Prod.ext ?_ ?_)) <;> simp only <;> ring

lemma add_rev2 (x y : K) : y + x = x + y := add_comm y x

lemma add_rev3 (x y z : K) : z + y + x = x + y + z := by ring

lemma add_rev4 (x y z t : K) : t + z + y + x = x + y + z + t := by ring

lemma weno3_weights_reverse (typeRec : Nat) (phi : Nat → K) :
    weno3L_weights typeRec (reverse_stencil 3 phi)
      = ((weno3R_weights typeRec phi).2, (weno3R_weights typeRec phi).1) := by
  obtain ⟨e0, e1, e2⟩ := reverse_stencil_3 phi
  unfold weno3L_weights weno3R_weights
  rw [e0, e1, e2]
  have hb0 : (phi 1 - phi 2) * (phi 1 - phi 2) = (phi 2 - phi 1) * (phi 2 - phi 1) := by ring
  have hb1 : (phi 0 - phi 1) * (phi 0 - phi 1) = (phi 1 - phi 0) * (phi 1 - phi 0) := by ring
  by_cases h0 : typeRec = 0
  · simp only [h0, if_true, hb0, hb1]
    refine Prod.ext ?_ ?_ <;> simp only <;> ring
  · by_cases h1 : typeRec = 1
    · simp only [h1, if_true, if_false, one_ne_zero, hb0, hb1]
      rw [add_rev2 (1 / ((phi 1 - phi 0) * (phi 1 - phi 0) + epsilon2) ^ Q)
        (1 / ((phi 2 - phi 1) * (phi 2 - phi 1) + epsilon2) ^ Q)]
      refine Prod.ext ?_ ?_ <;> simp only <;> ring
    · simp only [h0, h1, if_false]

lemma weno5_weights_reverse (g0 g1 g2 : K) (typeRec : Nat) (phi : Nat → K) :
    weno5_weights g2 g1 g0 typeRec (reverse_stencil 5 phi)
      = ((weno5_weights g0 g1 g2 typeRec phi).2.2, (weno5_weights g0 g1 g2 typeRec phi).2.1,
          (weno5_weights g0 g1 g2 typeRec phi).1) := by
  unfold weno5_weights
  rw [weno5_beta_reverse]
  by_cases h0 : typeRec = 0
  · simp only [h0, if_true]
    rw [add_rev3]
  · by_cases h1 : typeRec = 1
    · simp only [h1, if_true, if_false, one_ne_zero]
      rw [add_rev3 (1 / ((weno5_beta phi).1 + epsilon2) ^ Q)]
      rw [add_rev3 (g0 * _)]
    · simp only [h0, h1, if_false]

lemma weno7_weights_reverse (g0 g1 g2 g3 : K) (typeRec : Nat) (phi : Nat → K) :
    weno7_weights g3 g2 g1 g0 typeRec (reverse_stencil 7 phi)
      = ((weno7_weights g0 g1 g2 g3 typeRec phi).2.2.2,
          (weno7_weights g0 g1 g2 g3 typeRec phi).2.2.1,
          (weno7_weights g0 g1 g2 g3 typeRec phi).2.1,
          (weno7_weights g0 g1 g2 g3 typeRec phi).1) := by
  unfold weno7_weights
  rw [weno7_beta_reverse]
  by_cases h0 : typeRec = 0
  · simp only [h0, if_true]
    rw [add_rev4]
  · by_cases h1 : typeRec = 1
    · simp only [h1, if_true, if_false, one_ne_zero]
      rw [add_rev4 (1 / ((weno7_beta phi).1 + epsilon2) ^ Q)]
      rw [add_rev4 (g0 * _)]
    · simp only [h0, h1, if_false]

/-- Claim C31: for every order (3, 5, 7), every value of `TYPE_REC` (WENO,
TENO, UWC) and every stencil `phi`, the left routine on the reversed stencil
returns what the right routine returns on `phi`; the smoothness indicators of
the reversed stencil are those of `phi` in reversed order, and the weights of
the left routine on the reversed stencil are those of the right routine in
reversed order. -/
theorem weno_mirror_symmetry (typeRec : Nat) (phi : Nat → K) :
    weno3L typeRec (reverse_stencil 3 phi) = weno3R typeRec phi
    ∧ weno5L typeRec (reverse_stencil 5 phi) = weno5R typeRec phi
    ∧ weno7L typeRec (reverse_stencil 7 phi) = weno7R typeRec phi
    ∧ weno3_beta (reverse_stencil 3 phi) = ((weno3_beta phi).2, (weno3_beta phi).1)
    ∧ weno5_beta (reverse_stencil 5 phi)
        = ((weno5_beta phi).2.2, (weno5_beta phi).2.1, (weno5_beta phi).1)
    ∧ weno7_beta (reverse_stencil 7 phi)
        = ((weno7_beta phi).2.2.2, (weno7_beta phi).2.2.1, (weno7_beta phi).2.1,
            (weno7_beta phi).1)
    ∧ weno3L_weights typeRec (reverse_stencil 3 phi)
        = ((weno3R_weights typeRec phi).2, (weno3R_weights typeRec phi).1)
    ∧ weno5L_weights typeRec (reverse_stencil 5 phi)
        = ((weno5R_weights typeRec phi).2.2, (weno5R_weights typeRec phi).2.1,
            (weno5R_weights typeRec phi).1)
    ∧ weno7L_weights typeRec (reverse_stencil 7 phi)
        = ((weno7R_weights typeRec phi).2.2.2, (weno7R_weights typeRec phi).2.2.1,
            (weno7R_weights typeRec phi).2.1, (weno7R_weights typeRec phi).1) := by
  have w3 := weno3_weights_reverse typeRec phi
  have w5 : weno5L_weights typeRec (reverse_stencil 5 phi)
      = ((weno5R_weights typeRec phi).2.2, (weno5R_weights typeRec phi).2.1,
          (weno5R_weights typeRec phi).1) :=
    weno5_weights_reverse (3 / 10) (3 / 5) (1 / 10) typeRec phi
  have w7 : weno7L_weights typeRec (reverse_stencil 7 phi)
      = ((weno7R_weights typeRec phi).2.2.2, (weno7R_weights typeRec phi).2.2.1,
          (weno7R_weights typeRec phi).2.1, (weno7R_weights typeRec phi).1) :=
    weno7_weights_reverse (4 / 35) (18 / 35) (12 / 35) (1 / 35) typeRec phi
  refine ⟨?_, ?_, ?_, ?_, weno5_beta_reverse phi, weno7_beta_reverse phi, w3, w5, w7⟩
  · obtain ⟨e0, e1, e2⟩ := reverse_stencil_3 phi
    unfold weno3L weno3R
    rw [w3, e0, e1, e2]
    simp only
    ring
  · obtain ⟨e0, e1, e2, e3, e4⟩ := reverse_stencil_5 phi
    unfold weno5L weno5R
    rw [w5, e0, e1, e2, e3, e4]
  · obtain ⟨e0, e1, e2, e3, e4, e5, e6⟩ := reverse_stencil_7 phi
    unfold weno7L weno7R
    rw [w7, e0, e1, e2, e3, e4, e5, e6]
    simp only
    ring
  · obtain ⟨e0, e1, e2⟩ := reverse_stencil_3 phi
    unfold weno3_beta
    rw [e0, e1, e2]
    refine Prod.ext ?_ ?_ <;> simp only <;> ring

/-! ## Smoothness indicators and the TENO cut-off -/

lemma weno3_beta_nonneg (phi : Nat → K) :
    0 ≤ (weno3_beta phi).1 ∧ 0 ≤ (weno3_beta phi).2 :=
  ⟨mul_self_nonneg _, mul_self_nonneg _⟩

lemma alpha_defined {b : K} (hb : 0 ≤ b) {gk : K} (hg : 0 < gk) :
    0 ≤ b ∧ 0 < b + epsilon ∧ 0 < b + epsilon2
      ∧ 0 < gk / ((b + epsilon) * (b + epsilon)) ∧ 0 < 1 / (b + epsilon2) ^ Q :=
  ⟨hb, add_pos_of_nonneg_of_pos hb epsilon_pos, add_pos_of_nonneg_of_pos hb epsilon2_pos,
    weno_alpha_pos hg hb, teno_alpha_pos hb⟩

/-- Claim C35: for every stencil `phi`, each smoothness indicator `b` of
order 3 (two), order 5 (three) and order 7 (four) is non-negative, so that
`b + epsilon` and `b + epsilon2` are positive and, for every positive optimal
weight `gk`, `gk / (b + epsilon)^2` and `1 / (b + epsilon2)^6` are positive;
on a constant stencil all indicators vanish. -/
theorem smoothness_indicators_nonneg (phi : Nat → K) (c gk : K) (hg : 0 < gk) :
    (∀ b ∈ [(weno3_beta phi).1, (weno3_beta phi).2,
            (weno5_beta phi).1, (weno5_beta phi).2.1, (weno5_beta phi).2.2,
            (weno7_beta phi).1, (weno7_beta phi).2.1, (weno7_beta phi).2.2.1,
            (weno7_beta phi).2.2.2],
        0 ≤ b ∧ 0 < b + epsilon ∧ 0 < b + epsilon2
          ∧ 0 < gk / ((b + epsilon) * (b + epsilon)) ∧ 0 < 1 / (b + epsilon2) ^ Q)
    ∧ weno3_beta (fun _ => c) = (0, 0)
    ∧ weno5_beta (fun _ => c) = (0, 0, 0)
    ∧ weno7_beta (fun _ => c) = (0, 0, 0, 0) := by
  obtain ⟨h30, h31⟩ := weno3_beta_nonneg phi
  obtain ⟨h50, h51, h52⟩ := weno5_beta_nonneg phi
  obtain ⟨h70, h71, h72, h73⟩ := weno7_beta_nonneg phi
  refine ⟨?_, ?_, ?_, ?_⟩
  · intro b hb
    simp only [List.mem_cons, List.mem_singleton, List.not_mem_nil, or_false] at hb
    rcases hb with rfl | rfl | rfl | rfl | rfl | rfl | rfl | rfl | rfl
    · exact alpha_defined h30 hg
    · exact alpha_defined h31 hg
    · exact alpha_defined h50 hg
    · exact alpha_defined h51 hg
    · exact alpha_defined h52 hg
    · exact alpha_defined h70 hg
    · exact alpha_defined h71 hg
    · exact alpha_defined h72 hg
    · exact alpha_defined h73 hg
  · unfold weno3_beta
    refine Prod.ext ?_ ?_ <;> simp only <;> ring
  · unfold weno5_beta
    refine Prod.ext ?_ (Prod.ext ?_ ?_) <;> simp only <;> ring
  · unfold weno7_beta
    refine Prod.ext ?_ (Prod.ext ?_ (Prod.ext ?_ ?_)) <;> simp only <;> ring

/-- Instance of `smoothness_indicators_nonneg` on the stencil `0, 1, 4, 9, ...`
with the optimal weight `2/3`. -/
theorem smoothness_indicators_nonneg_witness :
    (0 : ℚ) < 2 / 3
    ∧ (∀ b ∈ [(weno3_beta (fun i => ((i * i : Nat) : ℚ))).1,
            (weno3_beta (fun i => ((i * i : Nat) : ℚ))).2,
            (weno5_beta (fun i => ((i * i : Nat) : ℚ))).1,
            (weno5_beta (fun i => ((i * i : Nat) : ℚ))).2.1,
            (weno5_beta (fun i => ((i * i : Nat) : ℚ))).2.2,
            (weno7_beta (fun i => ((i * i : Nat) : ℚ))).1,
            (weno7_beta (fun i => ((i * i : Nat) : ℚ))).2.1,
            (weno7_beta (fun i => ((i * i : Nat) : ℚ))).2.2.1,
            (weno7_beta (fun i => ((i * i : Nat) : ℚ))).2.2.2],
        0 ≤ b ∧ 0 < b + epsilon ∧ 0 < b + epsilon2
          ∧ 0 < 2 / 3 / ((b + epsilon) * (b + epsilon)) ∧ 0 < 1 / (b + epsilon2) ^ Q)
    ∧ weno3_beta (fun _ => (5 : ℚ)) = (0, 0)
    ∧ weno5_beta (fun _ => (5 : ℚ)) = (0, 0, 0)
    ∧ weno7_beta (fun _ => (5 : ℚ)) = (0, 0, 0, 0) :=
  ⟨by norm_num, smoothness_indicators_nonneg (fun i => ((i * i : Nat) : ℚ)) 5 (2 / 3)
    (by norm_num)⟩

lemma teno_cut_nonneg (x : K) : 0 ≤ teno_cut x := cut_nonneg x

lemma teno_cut_of_ge {x : K} (hx : 1 / 4 ≤ x) : teno_cut x = 1 := by
  have hc := CT_lt (K := K)
  unfold teno_cut
  rw [if_neg (by linarith)]

lemma teno_cut_of_lt {x : K} (hx : x < CT) : teno_cut x = 0 := by
  unfold teno_cut
  rw [if_pos hx]

lemma teno_cut_le_one (x : K) : teno_cut x ≤ 1 := by
  unfold teno_cut
  split_ifs <;> norm_num

lemma quot_unit {a d : K} (ha : 0 ≤ a) (hd : 0 < d) (had : a ≤ d) : 0 ≤ a / d ∧ a / d ≤ 1 :=
  ⟨div_nonneg ha hd.le, (div_le_one hd).2 had⟩

lemma teno2_generic {g0 g1 a0 a1 : K} (hg0 : 0 < g0) (hg1 : 0 < g1) (h0 : 0 < a0)
    (h1 : 0 < a1) :
    teno_safe2 g0 g1 (a0 / (a0 + a1), a1 / (a0 + a1))
      (g0 * teno_cut (a0 / (a0 + a1))
          / (g0 * teno_cut (a0 / (a0 + a1)) + g1 * teno_cut (a1 / (a0 + a1))),
       g1 * teno_cut (a1 / (a0 + a1))
          / (g0 * teno_cut (a0 / (a0 + a1)) + g1 * teno_cut (a1 / (a0 + a1)))) := by
  have hs := norm2 (add_pos h0 h1)
  have hD : 0 < g0 * teno_cut (a0 / (a0 + a1)) + g1 * teno_cut (a1 / (a0 + a1)) :=
    cut2_pos hg0 hg1 h0 h1
  have n0 : 0 ≤ g0 * teno_cut (a0 / (a0 + a1)) := mul_nonneg hg0.le (teno_cut_nonneg _)
  have n1 : 0 ≤ g1 * teno_cut (a1 / (a0 + a1)) := mul_nonneg hg1.le (teno_cut_nonneg _)
  refine ⟨hs, CT_lt, ?_, hD, rfl, quot_unit n0 hD (by linarith), quot_unit n1 hD (by linarith),
    ?_, ?_⟩
  · rcases le_or_lt (1 / 4) (a0 / (a0 + a1)) with c0 | c0
    · exact Or.inl ⟨c0, teno_cut_of_ge c0⟩
    rcases le_or_lt (1 / 4) (a1 / (a0 + a1)) with c1 | c1
    · exact Or.inr ⟨c1, teno_cut_of_ge c1⟩
    exfalso; linarith
  · intro h
    show g0 * teno_cut (a0 / (a0 + a1)) / _ = 0
    rw [teno_cut_of_lt h, mul_zero, zero_div]
  · intro h
    show g1 * teno_cut (a1 / (a0 + a1)) / _ = 0
    rw [teno_cut_of_lt h, mul_zero, zero_div]

lemma teno3_generic {g0 g1 g2 a0 a1 a2 : K} (hg0 : 0 < g0) (hg1 : 0 < g1) (hg2 : 0 < g2)
    (h0 : 0 < a0) (h1 : 0 < a1) (h2 : 0 < a2) :
    teno_safe3 g0 g1 g2 (a0 / (a0 + a1 + a2), a1 / (a0 + a1 + a2), a2 / (a0 + a1 + a2))
      (g0 * teno_cut (a0 / (a0 + a1 + a2))
          / (g0 * teno_cut (a0 / (a0 + a1 + a2)) + g1 * teno_cut (a1 / (a0 + a1 + a2))
              + g2 * teno_cut (a2 / (a0 + a1 + a2))),
       g1 * teno_cut (a1 / (a0 + a1 + a2))
          / (g0 * teno_cut (a0 / (a0 + a1 + a2)) + g1 * teno_cut (a1 / (a0 + a1 + a2))
              + g2 * teno_cut (a2 / (a0 + a1 + a2))),
       g2 * teno_cut (a2 / (a0 + a1 + a2))
          / (g0 * teno_cut (a0 / (a0 + a1 + a2)) + g1 * teno_cut (a1 / (a0 + a1 + a2))
              + g2 * teno_cut (a2 / (a0 + a1 + a2)))) := by
  have hs := norm3 (add_pos (add_pos h0 h1) h2)
  have hD : 0 < g0 * teno_cut (a0 / (a0 + a1 + a2)) + g1 * teno_cut (a1 / (a0 + a1 + a2))
      + g2 * teno_cut (a2 / (a0 + a1 + a2)) := cut3_pos hg0 hg1 hg2 h0 h1 h2
  have n0 : 0 ≤ g0 * teno_cut (a0 / (a0 + a1 + a2)) := mul_nonneg hg0.le (teno_cut_nonneg _)
  have n1 : 0 ≤ g1 * teno_cut (a1 / (a0 + a1 + a2)) := mul_nonneg hg1.le (teno_cut_nonneg _)
  have n2 : 0 ≤ g2 * teno_cut (a2 / (a0 + a1 + a2)) := mul_nonneg hg2.le (teno_cut_nonneg _)
  refine ⟨hs, CT_lt, ?_, hD, rfl, quot_unit n0 hD (by linarith), quot_unit n1 hD (by linarith),
    quot_unit n2 hD (by linarith), ?_, ?_, ?_⟩
  · rcases le_or_lt (1 / 4) (a0 / (a0 + a1 + a2)) with c0 | c0
    · exact Or.inl ⟨c0, teno_cut_of_ge c0⟩
    rcases le_or_lt (1 / 4) (a1 / (a0 + a1 + a2)) with c1 | c1
    · exact Or.inr (Or.inl ⟨c1, teno_cut_of_ge c1⟩)
    rcases le_or_lt (1 / 4) (a2 / (a0 + a1 + a2)) with c2 | c2
    · exact Or.inr (Or.inr ⟨c2, teno_cut_of_ge c2⟩)
    exfalso; linarith
  · intro h
    show g0 * teno_cut (a0 / (a0 + a1 + a2)) / _ = 0
    rw [teno_cut_of_lt h, mul_zero, zero_div]
  · intro h
    show g1 * teno_cut (a1 / (a0 + a1 + a2)) / _ = 0
    rw [teno_cut_of_lt h, mul_zero, zero_div]
  · intro h
    show g2 * teno_cut (a2 / (a0 + a1 + a2)) / _ = 0
    rw [teno_cut_of_lt h, mul_zero, zero_div]

lemma teno4_generic {g0 g1 g2 g3 a0 a1 a2 a3 : K} (hg0 : 0 < g0) (hg1 : 0 < g1)
    (hg2 : 0 < g2) (hg3 : 0 < g3) (h0 : 0 < a0) (h1 : 0 < a1) (h2 : 0 < a2) (h3 : 0 < a3) :
    teno_safe4 g0 g1 g2 g3
      (a0 / (a0 + a1 + a2 + a3), a1 / (a0 + a1 + a2 + a3), a2 / (a0 + a1 + a2 + a3),
        a3 / (a0 + a1 + a2 + a3))
      (g0 * teno_cut (a0 / (a0 + a1 + a2 + a3))
          / (g0 * teno_cut (a0 / (a0 + a1 + a2 + a3))
              + g1 * teno_cut (a1 / (a0 + a1 + a2 + a3))
              + g2 * teno_cut (a2 / (a0 + a1 + a2 + a3))
              + g3 * teno_cut (a3 / (a0 + a1 + a2 + a3))),
       g1 * teno_cut (a1 / (a0 + a1 + a2 + a3))
          / (g0 * teno_cut (a0 / (a0 + a1 + a2 + a3))
              + g1 * teno_cut (a1 / (a0 + a1 + a2 + a3))
              + g2 * teno_cut (a2 / (a0 + a1 + a2 + a3))
              + g3 * teno_cut (a3 / (a0 + a1 + a2 + a3))),
       g2 * teno_cut (a2 / (a0 + a1 + a2 + a3))
          / (g0 * teno_cut (a0 / (a0 + a1 + a2 + a3))
              + g1 * teno_cut (a1 / (a0 + a1 + a2 + a3))
              + g2 * teno_cut (a2 / (a0 + a1 + a2 + a3))
              + g3 * teno_cut (a3 / (a0 + a1 + a2 + a3))),
       g3 * teno_cut (a3 / (a0 + a1 + a2 + a3))
          / (g0 * teno_cut (a0 / (a0 + a1 + a2 + a3))
              + g1 * teno_cut (a1 / (a0 + a1 + a2 + a3))
              + g2 * teno_cut (a2 / (a0 + a1 + a2 + a3))
              + g3 * teno_cut (a3 / (a0 + a1 + a2 + a3)))) := by
  have hs := norm4 (add_pos (add_pos (add_pos h0 h1) h2) h3)
  have hD : 0 < g0 * teno_cut (a0 / (a0 + a1 + a2 + a3))
      + g1 * teno_cut (a1 / (a0 + a1 + a2 + a3))
      + g2 * teno_cut (a2 / (a0 + a1 + a2 + a3))
      + g3 * teno_cut (a3 / (a0 + a1 + a2 + a3)) := cut4_pos hg0 hg1 hg2 hg3 h0 h1 h2 h3
  have n0 : 0 ≤ g0 * teno_cut (a0 / (a0 + a1 + a2 + a3)) :=
    mul_nonneg hg0.le (teno_cut_nonneg _)
  have n1 : 0 ≤ g1 * teno_cut (a1 / (a0 + a1 + a2 + a3)) :=
    mul_nonneg hg1.le (teno_cut_nonneg _)
  have n2 : 0 ≤ g2 * teno_cut (a2 / (a0 + a1 + a2 + a3)) :=
    mul_nonneg hg2.le (teno_cut_nonneg _)
  have n3 : 0 ≤ g3 * teno_cut (a3 / (a0 + a1 + a2 + a3)) :=
    mul_nonneg hg3.le (teno_cut_nonneg _)
  refine ⟨hs, CT_lt, ?_, hD, rfl, quot_unit n0 hD (by linarith), quot_unit n1 hD (by linarith),
    quot_unit n2 hD (by linarith), quot_unit n3 hD (by linarith), ?_, ?_, ?_, ?_⟩
  · rcases le_or_lt (1 / 4) (a0 / (a0 + a1 + a2 + a3)) with c0 | c0
    · exact Or.inl ⟨c0, teno_cut_of_ge c0⟩
    rcases le_or_lt (1 / 4) (a1 / (a0 + a1 + a2 + a3)) with c1 | c1
    · exact Or.inr (Or.inl ⟨c1, teno_cut_of_ge c1⟩)
    rcases le_or_lt (1 / 4) (a2 / (a0 + a1 + a2 + a3)) with c2 | c2
    · exact Or.inr (Or.inr (Or.inl ⟨c2, teno_cut_of_ge c2⟩))
    rcases le_or_lt (1 / 4) (a3 / (a0 + a1 + a2 + a3)) with c3 | c3
    · exact Or.inr (Or.inr (Or.inr ⟨c3, teno_cut_of_ge c3⟩))
    exfalso; linarith
  · intro h
    show g0 * teno_cut (a0 / (a0 + a1 + a2 + a3)) / _ = 0
    rw [teno_cut_of_lt h, mul_zero, zero_div]
  · intro h
    show g1 * teno_cut (a1 / (a0 + a1 + a2 + a3)) / _ = 0
    rw [teno_cut_of_lt h, mul_zero, zero_div]
  · intro h
    show g2 * teno_cut (a2 / (a0 + a1 + a2 + a3)) / _ = 0
    rw [teno_cut_of_lt h, mul_zero, zero_div]
  · intro h
    show g3 * teno_cut (a3 / (a0 + a1 + a2 + a3)) / _ = 0
    rw [teno_cut_of_lt h, mul_zero, zero_div]

/-- Claim C36: in every TENO routine (`TYPE_REC = 1`; orders 3, 5, 7, right
and left) and for every stencil, the normalised measures sum to one, one of
them is at least `1/4 > CT` so its cut-off flag is 1, the final normalisation
is strictly positive, every weight lies in `[0, 1]`, and a sub-stencil whose
measure is below `CT` gets weight 0 (the content of `teno_safe2`,
`teno_safe3`, `teno_safe4`). -/
theorem teno_division_safe (phi : Nat → K) :
    teno_safe2 (2 / 3) (1 / 3) (teno3_chi phi) (weno3R_weights 1 phi)
    ∧ teno_safe2 (1 / 3) (2 / 3) (teno3_chi phi) (weno3L_weights 1 phi)
    ∧ teno_safe3 (3 / 10) (3 / 5) (1 / 10) (teno5_chi phi) (weno5R_weights 1 phi)
    ∧ teno_safe3 (1 / 10) (3 / 5) (3 / 10) (teno5_chi phi) (weno5L_weights 1 phi)
    ∧ teno_safe4 (4 / 35) (18 / 35) (12 / 35) (1 / 35) (teno7_chi phi) (weno7R_weights 1 phi)
    ∧ teno_safe4 (1 / 35) (12 / 35) (18 / 35) (4 / 35) (teno7_chi phi)
        (weno7L_weights 1 phi) := by
  have hb0 : (0 : K) ≤ (phi 1 - phi 0) * (phi 1 - phi 0) := mul_self_nonneg _
  have hb1 : (0 : K) ≤ (phi 2 - phi 1) * (phi 2 - phi 1) := mul_self_nonneg _
  obtain ⟨h50, h51, h52⟩ := weno5_beta_nonneg phi
  obtain ⟨h70, h71, h72, h73⟩ := weno7_beta_nonneg phi
  exact ⟨teno2_generic (by norm_num) (by norm_num) (teno_alpha_pos hb0) (teno_alpha_pos hb1),
    teno2_generic (by norm_num) (by norm_num) (teno_alpha_pos hb0) (teno_alpha_pos hb1),
    teno3_generic (by norm_num) (by norm_num) (by norm_num) (teno_alpha_pos h50)
      (teno_alpha_pos h51) (teno_alpha_pos h52),
    teno3_generic (by norm_num) (by norm_num) (by norm_num) (teno_alpha_pos h50)
      (teno_alpha_pos h51) (teno_alpha_pos h52),
    teno4_generic (by norm_num) (by norm_num) (by norm_num) (by norm_num) (teno_alpha_pos h70)
      (teno_alpha_pos h71) (teno_alpha_pos h72) (teno_alpha_pos h73),
    teno4_generic (by norm_num) (by norm_num) (by norm_num) (by norm_num) (teno_alpha_pos h70)
      (teno_alpha_pos h71) (teno_alpha_pos h72) (teno_alpha_pos h73)⟩

/-! ## The point-in-triangle test -/

lemma three_signs {s t n : K} (hn : 0 < n) :
    (t * (1 - s - t) * n > 0 ∧ (1 - s - t) * s * n > 0 ∧ s * t * n > 0)
      ↔ (0 < s ∧ 0 < t ∧ s + t < 1) := by
  constructor
  · rintro ⟨h1, h2, h3⟩
    have h1' : 0 < t * (1 - s - t) := pos_of_mul_pos_left h1 hn.le
    have h2' : 0 < (1 - s - t) * s := pos_of_mul_pos_left h2 hn.le
    have h3' : 0 < s * t := pos_of_mul_pos_left h3 hn.le
    rcases lt_trichotomy s 0 with hs | hs | hs
    · have ht : t < 0 := by
        by_contra hc
        push_neg at hc
        nlinarith
      have hu : 1 - s - t < 0 := by
        by_contra hc
        push_neg at hc
        nlinarith
      linarith
    · rw [hs] at h3'
      simp at h3'
    · have ht : 0 < t := by
        by_contra hc
        push_neg at hc
        nlinarith
      have hu : 0 < 1 - s - t := by
        by_contra hc
        push_neg at hc
        nlinarith
      exact ⟨hs, ht, by linarith⟩
  · rintro ⟨hs, ht, hst⟩
    have hu : 0 < 1 - s - t := by linarith
    exact ⟨mul_pos (mul_pos ht hu) hn, mul_pos (mul_pos hu hs) hn, mul_pos (mul_pos hs ht) hn⟩

lemma point_in_triangle_products (tri : Triangle K) (x : Nat → K) (s t : K)
    (hx : ∀ q, q < 3 → x q = tri.p1 q + s * (tri.p2 q - tri.p1 q) + t * (tri.p3 q - tri.p1 q)) :
    point_in_triangle tri x
      ↔ (t * (1 - s - t)
            * dot_product
                (vector_product (fun q => tri.p2 q - tri.p1 q) (fun q => tri.p3 q - tri.p1 q))
                (vector_product (fun q => tri.p2 q - tri.p1 q) (fun q => tri.p3 q - tri.p1 q))
            > 0
          ∧ (1 - s - t) * s
            * dot_product
                (vector_product (fun q => tri.p2 q - tri.p1 q) (fun q => tri.p3 q - tri.p1 q))
                (vector_product (fun q => tri.p2 q - tri.p1 q) (fun q => tri.p3 q - tri.p1 q))
            > 0
          ∧ s * t
            * dot_product
                (vector_product (fun q => tri.p2 q - tri.p1 q) (fun q => tri.p3 q - tri.p1 q))
                (vector_product (fun q => tri.p2 q - tri.p1 q) (fun q => tri.p3 q - tri.p1 q))
            > 0) := by
  have h0 := hx 0 (by decide)
  have h1 := hx 1 (by decide)
  have h2 := hx 2 (by decide)
  unfold point_in_triangle
  simp only [dot_product, vector_product, h0, h1, h2]
  have e1 : ∀ a b : K, a = b → (a > 0 ↔ b > 0) := fun a b h => by rw [h]
  refine and_congr (e1 _ _ (by ring)) (and_congr (e1 _ _ (by ring)) (e1 _ _ (by ring)))

lemma normal_sq_pos (tri : Triangle K)
    (hnd : ∃ q, vector_product (fun q => tri.p2 q - tri.p1 q) (fun q => tri.p3 q - tri.p1 q) q
        ≠ 0) :
    0 < dot_product
          (vector_product (fun q => tri.p2 q - tri.p1 q) (fun q => tri.p3 q - tri.p1 q))
          (vector_product (fun q => tri.p2 q - tri.p1 q) (fun q => tri.p3 q - tri.p1 q)) := by
  obtain ⟨q, hq⟩ := hnd
  unfold dot_product
  have n0 := mul_self_nonneg
    (vector_product (fun q => tri.p2 q - tri.p1 q) (fun q => tri.p3 q - tri.p1 q) 0)
  have n1 := mul_self_nonneg
    (vector_product (fun q => tri.p2 q - tri.p1 q) (fun q => tri.p3 q - tri.p1 q) 1)
  have n2 := mul_self_nonneg
    (vector_product (fun q => tri.p2 q - tri.p1 q) (fun q => tri.p3 q - tri.p1 q) 2)
  match q, hq with
  | 0, hq => have := mul_self_pos.2 hq; linarith
  | 1, hq => have := mul_self_pos.2 hq; linarith
  | 2, hq => have := mul_self_pos.2 hq; linarith
  | (k + 3), hq => exact absurd rfl hq

/-- Claim C33: for a triangle whose edge vectors `p2 - p1` and `p3 - p1` have
a non-zero cross product, and a point `x = p1 + s (p2 - p1) + t (p3 - p1)` of
its plane, the test of the ghost pass (the three pairwise dot products of the
cross products are positive) holds if and only if `0 < s`, `0 < t` and
`s + t < 1`; the test gives the same answer when the corners `p2` and `p3` are
exchanged and when the stored normal is replaced. -/
theorem point_in_triangle_iff (tri : Triangle K) (x : Nat → K) (s t : K) (nr : Nat → K)
    (absnr : K)
    (hnd : ∃ q, vector_product (fun q => tri.p2 q - tri.p1 q) (fun q => tri.p3 q - tri.p1 q) q
        ≠ 0)
    (hx : ∀ q, q < 3 → x q = tri.p1 q + s * (tri.p2 q - tri.p1 q) + t * (tri.p3 q - tri.p1 q)) :
    (point_in_triangle tri x ↔ (0 < s ∧ 0 < t ∧ s + t < 1))
    ∧ (point_in_triangle { tri with p2 := tri.p3, p3 := tri.p2 } x ↔ point_in_triangle tri x)
    ∧ (point_in_triangle { tri with nr := nr, absnr := absnr } x ↔ point_in_triangle tri x) := by
  have hA : point_in_triangle tri x ↔ (0 < s ∧ 0 < t ∧ s + t < 1) :=
    (point_in_triangle_products tri x s t hx).trans (three_signs (normal_sq_pos tri hnd))
  have hnd' : ∃ q, vector_product (fun q => tri.p3 q - tri.p1 q)
      (fun q => tri.p2 q - tri.p1 q) q ≠ 0 := by
    obtain ⟨q, hq⟩ := hnd
    refine ⟨q, ?_⟩
    intro h
    apply hq
    match q, h with
    | 0, h => simp only [vector_product] at h ⊢; linarith
    | 1, h => simp only [vector_product] at h ⊢; linarith
    | 2, h => simp only [vector_product] at h ⊢; linarith
    | (k + 3), h => rfl
  have hx' : ∀ q, q < 3 →
      x q = tri.p1 q + t * (tri.p3 q - tri.p1 q) + s * (tri.p2 q - tri.p1 q) := by
    intro q hq
    rw [hx q hq]
    ring
  have hB : point_in_triangle { tri with p2 := tri.p3, p3 := tri.p2 } x
      ↔ (0 < t ∧ 0 < s ∧ t + s < 1) :=
    (point_in_triangle_products { tri with p2 := tri.p3, p3 := tri.p2 } x t s hx').trans
      (three_signs (normal_sq_pos { tri with p2 := tri.p3, p3 := tri.p2 } hnd'))
  refine ⟨hA, ?_, Iff.rfl⟩
  rw [hA, hB]
  constructor
  · rintro ⟨a, b, c⟩
    exact ⟨b, a, by linarith⟩
  · rintro ⟨a, b, c⟩
    exact ⟨b, a, by linarith⟩

lemma flatTriangle_normal :
    ∃ q, vector_product (fun q => (flatTriangle : Triangle ℚ).p2 q - (flatTriangle : Triangle ℚ).p1 q)
      (fun q => (flatTriangle : Triangle ℚ).p3 q - (flatTriangle : Triangle ℚ).p1 q) q ≠ 0 :=
  ⟨2, by simp [vector_product, flatTriangle, zeroTriangle]⟩

lemma flatTriangle_point :
    ∀ q, q < 3 → (fun q => if q = 2 then (0 : ℚ) else 1) q
      = (flatTriangle : Triangle ℚ).p1 q
        + 1 / 4 * ((flatTriangle : Triangle ℚ).p2 q - (flatTriangle : Triangle ℚ).p1 q)
        + 1 / 4 * ((flatTriangle : Triangle ℚ).p3 q - (flatTriangle : Triangle ℚ).p1 q) := by
  intro q hq
  interval_cases q <;> simp [flatTriangle, zeroTriangle]

/-- Instance of `point_in_triangle_iff`: the point `(1, 1, 0)` and the
triangle with corners `(0,0,0)`, `(4,0,0)`, `(0,4,0)`. -/
theorem point_in_triangle_iff_witness :
    (∃ q, vector_product
        (fun q => (flatTriangle : Triangle ℚ).p2 q - (flatTriangle : Triangle ℚ).p1 q)
        (fun q => (flatTriangle : Triangle ℚ).p3 q - (flatTriangle : Triangle ℚ).p1 q) q ≠ 0)
    ∧ (∀ q, q < 3 → (fun q => if q = 2 then (0 : ℚ) else 1) q
        = (flatTriangle : Triangle ℚ).p1 q
          + 1 / 4 * ((flatTriangle : Triangle ℚ).p2 q - (flatTriangle : Triangle ℚ).p1 q)
          + 1 / 4 * ((flatTriangle : Triangle ℚ).p3 q - (flatTriangle : Triangle ℚ).p1 q))
    ∧ ((point_in_triangle (flatTriangle : Triangle ℚ) (fun q => if q = 2 then (0 : ℚ) else 1)
          ↔ ((0 : ℚ) < 1 / 4 ∧ (0 : ℚ) < 1 / 4 ∧ (1 / 4 : ℚ) + 1 / 4 < 1))
      ∧ (point_in_triangle
            { (flatTriangle : Triangle ℚ) with
              p2 := (flatTriangle : Triangle ℚ).p3, p3 := (flatTriangle : Triangle ℚ).p2 }
            (fun q => if q = 2 then (0 : ℚ) else 1)
          ↔ point_in_triangle (flatTriangle : Triangle ℚ)
              (fun q => if q = 2 then (0 : ℚ) else 1))
      ∧ (point_in_triangle
            { (flatTriangle : Triangle ℚ) with nr := fun _ => 7, absnr := 3 }
            (fun q => if q = 2 then (0 : ℚ) else 1)
          ↔ point_in_triangle (flatTriangle : Triangle ℚ)
              (fun q => if q = 2 then (0 : ℚ) else 1))) :=
  ⟨flatTriangle_normal, flatTriangle_point,
    point_in_triangle_iff flatTriangle (fun q => if q = 2 then (0 : ℚ) else 1) (1 / 4) (1 / 4)
      (fun _ => 7) 3 flatTriangle_normal flatTriangle_point⟩

/-! ## HLLC on a stationary contact -/

lemma HLLC_contact_star (r : Riemann K) (WRp WLp : Nat → K) (p : K)
    (hWRp : WRp = r.WR) (hrL : 0 < r.WL 0) (hrR : 0 < r.WR 0)
    (hWL1 : r.WL 1 = 0) (hWR1 : r.WR 1 = 0) (huL : r.uL = 0) (huR : r.uR = 0)
    (hvR : r.vR = r.WR 2 / r.WR 0) (hwR : r.wR = r.WR 3 / r.WR 0)
    (hpL : r.pL = p) (hpR : r.pR = p) (hS1 : r.S1 < 0) (hS2 : 0 < r.S2)
    (hFR : ∀ m, m < 5 → r.FR m = state6 0 p 0 0 0 0 m) :
    HLLC_S_star r = 0
      ∧ r.WL 0 * (r.S1 - r.uL) - r.WR 0 * (r.S2 - r.uR) < 0
      ∧ ∀ m, m < 5 → HLLC_F_star r WRp WLp m = state6 0 p 0 0 0 0 m := by
  have hS : HLLC_S_star r = 0 := by
    simp only [HLLC_S_star, hpL, hpR, hWL1, hWR1, sub_self, zero_mul, add_zero, zero_div]
  have hden : r.WL 0 * (r.S1 - r.uL) - r.WR 0 * (r.S2 - r.uR) < 0 := by
    rw [huL, huR, sub_zero, sub_zero]
    have h1 : r.WL 0 * r.S1 < 0 := mul_neg_of_pos_of_neg hrL hS1
    have h2 : 0 < r.WR 0 * r.S2 := mul_pos hrR hS2
    linarith
  refine ⟨hS, hden, ?_⟩
  intro m hm
  have hr : r.WR 0 ≠ 0 := hrR.ne'
  have hs : r.S2 ≠ 0 := hS2.ne'
  have aux : r.WR 0 * (r.S2 - 0) / (r.S2 - 0) = r.WR 0 := by
    rw [sub_zero, mul_div_assoc, div_self hs, mul_one]
  have hstar : HLLC_W_star r WRp WLp m = WRp m := by
    rw [hWRp]
    interval_cases m
    · simp only [HLLC_W_star, hS, le_refl, if_true, huR, aux]
    · simp only [HLLC_W_star, hS, le_refl, if_true, huR, aux, mul_zero, hWR1]
    · simp only [HLLC_W_star, hS, le_refl, if_true, huR, aux, hvR]
      field_simp
    · simp only [HLLC_W_star, hS, le_refl, if_true, huR, aux, hwR]
      field_simp
    · simp only [HLLC_W_star, hS, le_refl, if_true, huR, aux, sub_self, zero_mul, add_zero]
      field_simp
  unfold HLLC_F_star
  rw [if_neg (not_le.mpr hS1), if_neg (not_le.mpr hS2), if_pos (le_of_eq hS), hstar, sub_self,
    mul_zero, add_zero]
  exact hFR m hm

lemma HLLC_contact_generic (sqrt : K → K) (hsq : ∀ x, 0 < x → 0 < sqrt x) (wall : Wall K)
    (lambda_max p : K)
    (hn : (wall.nx = 1 ∧ wall.ny = 0 ∧ wall.nz = 0) ∨ (wall.nx = 0 ∧ wall.ny = 1 ∧ wall.nz = 0)
      ∨ (wall.nx = 0 ∧ wall.ny = 0 ∧ wall.nz = 1))
    (hrL : 0 < wall.UL 0) (hrR : 0 < wall.UR 0)
    (huL : wall.UL 1 * wall.nx + wall.UL 2 * wall.ny + wall.UL 3 * wall.nz = 0)
    (huR : wall.UR 1 * wall.nx + wall.UR 2 * wall.ny + wall.UR 3 * wall.nz = 0)
    (hpL : (gamma - 1) * (wall.UL 4 - 1 / 2 * wall.UL 0
      * (wall.UL 1 / wall.UL 0 * (wall.UL 1 / wall.UL 0)
        + wall.UL 2 / wall.UL 0 * (wall.UL 2 / wall.UL 0)
        + wall.UL 3 / wall.UL 0 * (wall.UL 3 / wall.UL 0))) = p)
    (hpR : (gamma - 1) * (wall.UR 4 - 1 / 2 * wall.UR 0
      * (wall.UR 1 / wall.UR 0 * (wall.UR 1 / wall.UR 0)
        + wall.UR 2 / wall.UR 0 * (wall.UR 2 / wall.UR 0)
        + wall.UR 3 / wall.UR 0 * (wall.UR 3 / wall.UR 0))) = p)
    (hp : 0 < p) :
    HLLC_S_star (HLLC_vars sqrt 0 wall) = 0
    ∧ (HLLC_vars sqrt 0 wall).WL 0
          * ((HLLC_vars sqrt 0 wall).S1 - (HLLC_vars sqrt 0 wall).uL)
        - (HLLC_vars sqrt 0 wall).WR 0
          * ((HLLC_vars sqrt 0 wall).S2 - (HLLC_vars sqrt 0 wall).uR) < 0
    ∧ (∀ m, m < 5 → (compute_euler_HLLC sqrt 0 wall lambda_max).1.fR_star m
        = state6 0 (p * wall.nx) (p * wall.ny) (p * wall.nz) 0 0 m)
    ∧ (∀ m, m < 5 → (compute_euler_HLLC sqrt 0 wall lambda_max).1.fL_star m
        = state6 0 (p * wall.nx) (p * wall.ny) (p * wall.nz) 0 0 m) := by
  have hWL1 : (HLLC_vars sqrt 0 wall).WL 1 = 0 := huL
  have hWR1 : (HLLC_vars sqrt 0 wall).WR 1 = 0 := huR
  have huL0 : (HLLC_vars sqrt 0 wall).uL = 0 := by
    have e : (HLLC_vars sqrt 0 wall).uL
        = (HLLC_vars sqrt 0 wall).WL 1 / (HLLC_vars sqrt 0 wall).WL 0 := rfl
    rw [e, hWL1, zero_div]
  have huR0 : (HLLC_vars sqrt 0 wall).uR = 0 := by
    have e : (HLLC_vars sqrt 0 wall).uR
        = (HLLC_vars sqrt 0 wall).WR 1 / (HLLC_vars sqrt 0 wall).WR 0 := rfl
    rw [e, hWR1, zero_div]
  have hpL' : (HLLC_vars sqrt 0 wall).pL = p := by
    rw [← hpL, ← rotated_pressure wall.nx wall.ny wall.nz wall.UL hn]
    rfl
  have hpR' : (HLLC_vars sqrt 0 wall).pR = p := by
    rw [← hpR, ← rotated_pressure wall.nx wall.ny wall.nz wall.UR hn]
    rfl
  have hcL : 0 < (HLLC_vars sqrt 0 wall).cL := by
    have e : (HLLC_vars sqrt 0 wall).cL
        = sqrt (gamma * (HLLC_vars sqrt 0 wall).pL / (HLLC_vars sqrt 0 wall).WL 0) := rfl
    rw [e, hpL']
    exact hsq _ (div_pos (mul_pos gamma_pos hp) hrL)
  have hcR : 0 < (HLLC_vars sqrt 0 wall).cR := by
    have e : (HLLC_vars sqrt 0 wall).cR
        = sqrt (gamma * (HLLC_vars sqrt 0 wall).pR / (HLLC_vars sqrt 0 wall).WR 0) := rfl
    rw [e, hpR']
    exact hsq _ (div_pos (mul_pos gamma_pos hp) hrR)
  have hS1 : (HLLC_vars sqrt 0 wall).S1 < 0 := by
    have e : (HLLC_vars sqrt 0 wall).S1
        = MIN ((HLLC_vars sqrt 0 wall).uL - (HLLC_vars sqrt 0 wall).cL)
            ((HLLC_vars sqrt 0 wall).u_hat - (HLLC_vars sqrt 0 wall).c_hat) := rfl
    rw [e, huL0, zero_sub]
    unfold MIN
    split_ifs with h
    · linarith
    · push_neg at h
      linarith
  have hS2 : 0 < (HLLC_vars sqrt 0 wall).S2 := by
    have e : (HLLC_vars sqrt 0 wall).S2
        = MAX ((HLLC_vars sqrt 0 wall).uR + (HLLC_vars sqrt 0 wall).cR)
            ((HLLC_vars sqrt 0 wall).u_hat + (HLLC_vars sqrt 0 wall).c_hat) := rfl
    rw [e, huR0, zero_add]
    unfold MAX
    split_ifs with h
    · exact hcR
    · push_neg at h
      linarith
  have hFR : ∀ m, m < 5 → (HLLC_vars sqrt 0 wall).FR m = state6 0 p 0 0 0 0 m := by
    intro m hm
    have e1 : (HLLC_vars sqrt 0 wall).FR 0 = (HLLC_vars sqrt 0 wall).WR 1 := rfl
    have e2 : (HLLC_vars sqrt 0 wall).FR 1
        = (HLLC_vars sqrt 0 wall).WR 1 * (HLLC_vars sqrt 0 wall).uR
          + (HLLC_vars sqrt 0 wall).pR := rfl
    have e3 : (HLLC_vars sqrt 0 wall).FR 2
        = (HLLC_vars sqrt 0 wall).WR 1 * (HLLC_vars sqrt 0 wall).vR := rfl
    have e4 : (HLLC_vars sqrt 0 wall).FR 3
        = (HLLC_vars sqrt 0 wall).WR 1 * (HLLC_vars sqrt 0 wall).wR := rfl
    have e5 : (HLLC_vars sqrt 0 wall).FR 4
        = (HLLC_vars sqrt 0 wall).uR
          * ((HLLC_vars sqrt 0 wall).WR 4 + (HLLC_vars sqrt 0 wall).pR) := rfl
    interval_cases m
    · rw [e1, hWR1]; rfl
    · rw [e2, hWR1, zero_mul, zero_add, hpR']; rfl
    · rw [e3, hWR1, zero_mul]; rfl
    · rw [e4, hWR1, zero_mul]; rfl
    · rw [e5, huR0, zero_mul]; rfl
  obtain ⟨hS, hden, hF⟩ := HLLC_contact_star (HLLC_vars sqrt 0 wall)
    (Wprime 0 (HLLC_vars sqrt 0 wall).WR (rotation wall.nx wall.ny wall.nz wall.URe))
    (Wprime 0 (HLLC_vars sqrt 0 wall).WL (rotation wall.nx wall.ny wall.nz wall.ULe)) p
    (by funext j; simp [Wprime]) hrL hrR hWL1 hWR1 huL0 huR0 rfl rfl hpL' hpR' hS1 hS2 hFR
  have hfR : ∀ m, m < 5 → (compute_euler_HLLC sqrt 0 wall lambda_max).1.fR_star m
      = state6 0 (p * wall.nx) (p * wall.ny) (p * wall.nz) 0 0 m := by
    intro m hm
    have e : (compute_euler_HLLC sqrt 0 wall lambda_max).1.fR_star
        = inverse_rotation wall.nx wall.ny wall.nz
            (HLLC_F_star (HLLC_vars sqrt 0 wall)
              (Wprime 0 (HLLC_vars sqrt 0 wall).WR (rotation wall.nx wall.ny wall.nz wall.URe))
              (Wprime 0 (HLLC_vars sqrt 0 wall).WL (rotation wall.nx wall.ny wall.nz wall.ULe)))
            wall.fR_star := rfl
    rw [e, inverse_rotation_congr _ _ _ _ (state6 0 p 0 0 0 0) _ hF]
    interval_cases m <;> simp [inverse_rotation, state6]
  refine ⟨hS, hden, hfR, ?_⟩
  intro m hm
  have e : (compute_euler_HLLC sqrt 0 wall lambda_max).1.fL_star m
      = (compute_euler_HLLC sqrt 0 wall lambda_max).1.fR_star m := by
    simp only [compute_euler_HLLC, hm, if_true]
  rw [e]
  exact hfR m hm

/-- Claim C38: with the source off (`ST = 0`), for each axis-unit wall normal
and every pair of states with positive densities, zero momentum along the
normal, arbitrary tangential momenta and the same pressure `p > 0`,
`compute_euler_HLLC` computes the contact speed `S* = 0` (its denominator is
negative, so the quotient is defined) and writes the flux
`(0, p*nx, p*ny, p*nz, 0)` into `fR_star` and `fL_star`: no mass flux, no
energy flux, pressure `p` in the normal momentum and nothing in the
tangential momenta. -/
theorem HLLC_stationary_contact (wall : Wall ℝ) (lambda_max p : ℝ)
    (hn : (wall.nx = 1 ∧ wall.ny = 0 ∧ wall.nz = 0) ∨ (wall.nx = 0 ∧ wall.ny = 1 ∧ wall.nz = 0)
      ∨ (wall.nx = 0 ∧ wall.ny = 0 ∧ wall.nz = 1))
    (hrL : 0 < wall.UL 0) (hrR : 0 < wall.UR 0)
    (huL : wall.UL 1 * wall.nx + wall.UL 2 * wall.ny + wall.UL 3 * wall.nz = 0)
    (huR : wall.UR 1 * wall.nx + wall.UR 2 * wall.ny + wall.UR 3 * wall.nz = 0)
    (hpL : (gamma - 1) * (wall.UL 4 - 1 / 2 * wall.UL 0
      * (wall.UL 1 / wall.UL 0 * (wall.UL 1 / wall.UL 0)
        + wall.UL 2 / wall.UL 0 * (wall.UL 2 / wall.UL 0)
        + wall.UL 3 / wall.UL 0 * (wall.UL 3 / wall.UL 0))) = p)
    (hpR : (gamma - 1) * (wall.UR 4 - 1 / 2 * wall.UR 0
      * (wall.UR 1 / wall.UR 0 * (wall.UR 1 / wall.UR 0)
        + wall.UR 2 / wall.UR 0 * (wall.UR 2 / wall.UR 0)
        + wall.UR 3 / wall.UR 0 * (wall.UR 3 / wall.UR 0))) = p)
    (hp : 0 < p) :
    HLLC_S_star (HLLC_vars Real.sqrt 0 wall) = 0
    ∧ (HLLC_vars Real.sqrt 0 wall).WL 0
          * ((HLLC_vars Real.sqrt 0 wall).S1 - (HLLC_vars Real.sqrt 0 wall).uL)
        - (HLLC_vars Real.sqrt 0 wall).WR 0
          * ((HLLC_vars Real.sqrt 0 wall).S2 - (HLLC_vars Real.sqrt 0 wall).uR) < 0
    ∧ (∀ m, m < 5 → (compute_euler_HLLC Real.sqrt 0 wall lambda_max).1.fR_star m
        = state6 0 (p * wall.nx) (p * wall.ny) (p * wall.nz) 0 0 m)
    ∧ (∀ m, m < 5 → (compute_euler_HLLC Real.sqrt 0 wall lambda_max).1.fL_star m
        = state6 0 (p * wall.nx) (p * wall.ny) (p * wall.nz) 0 0 m) :=
  HLLC_contact_generic Real.sqrt (fun _ hx => Real.sqrt_pos.mpr hx) wall lambda_max p hn hrL hrR
    huL huR hpL hpR hp

/-- Instance of `HLLC_stationary_contact`: the y-wall `contactWall` (densities
1 and 4, pressure 1, tangential momenta `(1, 2)` and `(-4, 0)`). -/
theorem HLLC_stationary_contact_witness :
    (0 < (contactWall : Wall ℝ).UL 0 ∧ 0 < (contactWall : Wall ℝ).UR 0 ∧ (0 : ℝ) < 1)
    ∧ HLLC_S_star (HLLC_vars Real.sqrt 0 (contactWall : Wall ℝ)) = 0
    ∧ (∀ m, m < 5 → (compute_euler_HLLC Real.sqrt 0 (contactWall : Wall ℝ) 0).1.fR_star m
        = state6 0 (1 * (contactWall : Wall ℝ).nx) (1 * (contactWall : Wall ℝ).ny)
            (1 * (contactWall : Wall ℝ).nz) 0 0 m) := by
  have hrL : 0 < (contactWall : Wall ℝ).UL 0 := by
    show (0 : ℝ) < 1
    norm_num
  have hrR : 0 < (contactWall : Wall ℝ).UR 0 := by
    show (0 : ℝ) < 4
    norm_num
  have h := HLLC_stationary_contact (contactWall : Wall ℝ) 0 1
    (Or.inr (Or.inl ⟨rfl, rfl, rfl⟩)) hrL hrR
    (by simp [contactWall, zeroWall, state6])
    (by simp [contactWall, zeroWall, state6])
    (by simp [contactWall, zeroWall, state6, gamma]; norm_num)
    (by simp [contactWall, zeroWall, state6, gamma]; norm_num)
    (by norm_num)
  exact ⟨⟨hrL, hrR, by norm_num⟩, h.1, h.2.2.1⟩

/-! ## No flux through a solid wall -/

lemma pressure_mirror (ST : Nat) (gm E a v w rho z : K) :
    pressure_from_energy ST gm E (-a / rho) v w rho z
      = pressure_from_energy ST gm E (a / rho) v w rho z := by
  unfold pressure_from_energy
  split_ifs <;> ring

lemma rotated_pressure_mode (ST : Nat) (nx ny nz z : K) (U : Nat → K)
    (hn : (nx = 1 ∧ ny = 0 ∧ nz = 0) ∨ (nx = 0 ∧ ny = 1 ∧ nz = 0) ∨ (nx = 0 ∧ ny = 0 ∧ nz = 1)) :
    pressure_from_energy ST gamma (rotation nx ny nz U 4)
        (rotation nx ny nz U 1 / rotation nx ny nz U 0)
        (rotation nx ny nz U 2 / rotation nx ny nz U 0)
        (rotation nx ny nz U 3 / rotation nx ny nz U 0) (rotation nx ny nz U 0) z
      = pressure_from_energy ST gamma (U 4) (U 1 / U 0) (U 2 / U 0) (U 3 / U 0) (U 0) z := by
  unfold pressure_from_energy
  rcases hn with ⟨h1, h2, h3⟩ | ⟨h1, h2, h3⟩ | ⟨h1, h2, h3⟩ <;> subst h1 h2 h3 <;>
    simp only [rotation_0, rotation_1, rotation_2, rotation_3, rotation_4, mul_zero, mul_one,
      add_zero, zero_add, sub_zero, neg_zero, zero_mul, zero_sub, neg_mul, neg_div, neg_neg,
      mul_neg] <;>
    split_ifs <;> ring1

/-- The argument of the square root that gives the Roe sound speed between a
state and its mirror image is positive. -/
lemma mirror_sound_arg (ST : Nat) (E u v w rho z : K) (hrho : 0 < rho)
    (hp : 0 < pressure_from_energy ST gamma E u v w rho z) :
    0 < (gamma - 1)
      * ((if ST = 3 then (E - rho * g * z + pressure_from_energy ST gamma E u v w rho z) / rho
          else (E + pressure_from_energy ST gamma E u v w rho z) / rho)
        - 1 / 2 * (0 * 0 + v * v + w * w)) := by
  have hg : (0 : K) < gamma - 1 := by unfold gamma; norm_num
  have hr : rho ≠ 0 := hrho.ne'
  apply mul_pos hg
  by_cases h3 : ST = 3
  · rw [if_pos h3]
    have e : (E - rho * g * z + pressure_from_energy ST gamma E u v w rho z) / rho
        - 1 / 2 * (0 * 0 + v * v + w * w)
        = gamma / (gamma - 1) * pressure_from_energy ST gamma E u v w rho z / rho
          + 1 / 2 * (u * u) := by
      unfold pressure_from_energy
      rw [if_pos h3]
      field_simp
      ring
    rw [e]
    have : 0 < gamma / (gamma - 1) * pressure_from_energy ST gamma E u v w rho z / rho :=
      div_pos (mul_pos (div_pos gamma_pos hg) hp) hrho
    have := mul_self_nonneg u
    linarith
  · rw [if_neg h3]
    have e : (E + pressure_from_energy ST gamma E u v w rho z) / rho
        - 1 / 2 * (0 * 0 + v * v + w * w)
        = gamma / (gamma - 1) * pressure_from_energy ST gamma E u v w rho z / rho
          + 1 / 2 * (u * u) := by
      unfold pressure_from_energy
      rw [if_neg h3]
      field_simp
      ring
    rw [e]
    have : 0 < gamma / (gamma - 1) * pressure_from_energy ST gamma E u v w rho z / rho :=
      div_pos (mul_pos (div_pos gamma_pos hg) hp) hrho
    have := mul_self_nonneg u
    linarith

/-- The solver variables for a state `WR` and its mirror image `WL`: opposite
wave speeds, the right one positive, and opposite physical fluxes in the mass,
tangential-momentum and energy components. -/
lemma HLLE_core_mirrored (sqrt : K → K) (hsq : ∀ x, 0 < x → 0 < sqrt x) (ST : Nat)
    (WL WR : Nat → K) (pe z : K)
    (h0 : WL 0 = WR 0) (h1 : WL 1 = -WR 1) (h2 : WL 2 = WR 2) (h3 : WL 3 = WR 3)
    (h4 : WL 4 = WR 4) (hrho : 0 < WR 0)
    (hp : 0 < pressure_from_energy ST gamma (WR 4) (WR 1 / WR 0) (WR 2 / WR 0) (WR 3 / WR 0)
      (WR 0) z) :
    (HLLE_core sqrt ST WL WR pe pe z).S1 = -(HLLE_core sqrt ST WL WR pe pe z).S2
    ∧ 0 < (HLLE_core sqrt ST WL WR pe pe z).S2
    ∧ (HLLE_core sqrt ST WL WR pe pe z).FL 0 = -(HLLE_core sqrt ST WL WR pe pe z).FR 0
    ∧ (HLLE_core sqrt ST WL WR pe pe z).FL 2 = -(HLLE_core sqrt ST WL WR pe pe z).FR 2
    ∧ (HLLE_core sqrt ST WL WR pe pe z).FL 3 = -(HLLE_core sqrt ST WL WR pe pe z).FR 3
    ∧ (HLLE_core sqrt ST WL WR pe pe z).FL 4 = -(HLLE_core sqrt ST WL WR pe pe z).FR 4 := by
  have hs : 0 < sqrt (WR 0) := hsq _ hrho
  have euL : (HLLE_core sqrt ST WL WR pe pe z).uL = -(HLLE_core sqrt ST WL WR pe pe z).uR := by
    show WL 1 / WL 0 = -(WR 1 / WR 0)
    rw [h0, h1, neg_div]
  have evL : (HLLE_core sqrt ST WL WR pe pe z).vL = (HLLE_core sqrt ST WL WR pe pe z).vR := by
    show WL 2 / WL 0 = WR 2 / WR 0
    rw [h0, h2]
  have ewL : (HLLE_core sqrt ST WL WR pe pe z).wL = (HLLE_core sqrt ST WL WR pe pe z).wR := by
    show WL 3 / WL 0 = WR 3 / WR 0
    rw [h0, h3]
  have epR : (HLLE_core sqrt ST WL WR pe pe z).pR
      = pressure_from_energy ST gamma (WR 4) (WR 1 / WR 0) (WR 2 / WR 0) (WR 3 / WR 0)
          (WR 0) z := rfl
  have epL : (HLLE_core sqrt ST WL WR pe pe z).pL = (HLLE_core sqrt ST WL WR pe pe z).pR := by
    show pressure_from_energy ST gamma (WL 4) (WL 1 / WL 0) (WL 2 / WL 0) (WL 3 / WL 0)
        (WL 0) z
      = pressure_from_energy ST gamma (WR 4) (WR 1 / WR 0) (WR 2 / WR 0) (WR 3 / WR 0)
        (WR 0) z
    rw [h0, h1, h2, h3, h4, pressure_mirror]
  have eHR : (HLLE_core sqrt ST WL WR pe pe z).HR
      = (if ST = 3 then
          (WR 4 - WR 0 * g * z + (HLLE_core sqrt ST WL WR pe pe z).pR) / WR 0
        else (WR 4 + (HLLE_core sqrt ST WL WR pe pe z).pR) / WR 0) := rfl
  have eHL : (HLLE_core sqrt ST WL WR pe pe z).HL = (HLLE_core sqrt ST WL WR pe pe z).HR := by
    have e : (HLLE_core sqrt ST WL WR pe pe z).HL
        = (if ST = 3 then
            (WL 4 - WL 0 * g * z + (HLLE_core sqrt ST WL WR pe pe z).pL) / WL 0
          else (WL 4 + (HLLE_core sqrt ST WL WR pe pe z).pL) / WL 0) := rfl
    rw [e, eHR, epL, h0, h4]
  have ecL : (HLLE_core sqrt ST WL WR pe pe z).cL = (HLLE_core sqrt ST WL WR pe pe z).cR := by
    show sqrt (gamma * (HLLE_core sqrt ST WL WR pe pe z).pL / WL 0)
      = sqrt (gamma * (HLLE_core sqrt ST WL WR pe pe z).pR / WR 0)
    rw [epL, h0]
  have ecR : 0 < (HLLE_core sqrt ST WL WR pe pe z).cR := by
    show 0 < sqrt (gamma * (HLLE_core sqrt ST WL WR pe pe z).pR / WR 0)
    rw [epR]
    exact hsq _ (div_pos (mul_pos gamma_pos hp) hrho)
  have eu : (HLLE_core sqrt ST WL WR pe pe z).u_hat = 0 := by
    show ((HLLE_core sqrt ST WL WR pe pe z).uR * sqrt (WR 0)
        + (HLLE_core sqrt ST WL WR pe pe z).uL * sqrt (WL 0)) / (sqrt (WR 0) + sqrt (WL 0)) = 0
    rw [euL, h0]
    have : (HLLE_core sqrt ST WL WR pe pe z).uR * sqrt (WR 0)
        + -(HLLE_core sqrt ST WL WR pe pe z).uR * sqrt (WR 0) = 0 := by ring
    rw [this, zero_div]
  have ev : (HLLE_core sqrt ST WL WR pe pe z).v_hat = (HLLE_core sqrt ST WL WR pe pe z).vR := by
    show ((HLLE_core sqrt ST WL WR pe pe z).vR * sqrt (WR 0)
        + (HLLE_core sqrt ST WL WR pe pe z).vL * sqrt (WL 0)) / (sqrt (WR 0) + sqrt (WL 0))
      = (HLLE_core sqrt ST WL WR pe pe z).vR
    rw [evL, h0]
    exact roe_avg_same _ _ hs
  have ew : (HLLE_core sqrt ST WL WR pe pe z).w_hat = (HLLE_core sqrt ST WL WR pe pe z).wR := by
    show ((HLLE_core sqrt ST WL WR pe pe z).wR * sqrt (WR 0)
        + (HLLE_core sqrt ST WL WR pe pe z).wL * sqrt (WL 0)) / (sqrt (WR 0) + sqrt (WL 0))
      = (HLLE_core sqrt ST WL WR pe pe z).wR
    rw [ewL, h0]
    exact roe_avg_same _ _ hs
  have eH : (HLLE_core sqrt ST WL WR pe pe z).H_hat = (HLLE_core sqrt ST WL WR pe pe z).HR := by
    show ((HLLE_core sqrt ST WL WR pe pe z).HR * sqrt (WR 0)
        + (HLLE_core sqrt ST WL WR pe pe z).HL * sqrt (WL 0)) / (sqrt (WR 0) + sqrt (WL 0))
      = (HLLE_core sqrt ST WL WR pe pe z).HR
    rw [eHL, h0]
    exact roe_avg_same _ _ hs
  have ec : 0 < (HLLE_core sqrt ST WL WR pe pe z).c_hat := by
    show 0 < sqrt ((gamma - 1) * ((HLLE_core sqrt ST WL WR pe pe z).H_hat
      - 1 / 2 * ((HLLE_core sqrt ST WL WR pe pe z).u_hat
            * (HLLE_core sqrt ST WL WR pe pe z).u_hat
          + (HLLE_core sqrt ST WL WR pe pe z).v_hat * (HLLE_core sqrt ST WL WR pe pe z).v_hat
          + (HLLE_core sqrt ST WL WR pe pe z).w_hat
            * (HLLE_core sqrt ST WL WR pe pe z).w_hat)))
    rw [eu, ev, ew, eH, eHR, epR]
    exact hsq _ (mirror_sound_arg ST (WR 4) (WR 1 / WR 0) _ _ (WR 0) z hrho hp)
  have eS2 : (HLLE_core sqrt ST WL WR pe pe z).S2
      = MAX ((HLLE_core sqrt ST WL WR pe pe z).uR + (HLLE_core sqrt ST WL WR pe pe z).cR)
          ((HLLE_core sqrt ST WL WR pe pe z).u_hat
            + (HLLE_core sqrt ST WL WR pe pe z).c_hat) := rfl
  have eS1 : (HLLE_core sqrt ST WL WR pe pe z).S1
      = MIN ((HLLE_core sqrt ST WL WR pe pe z).uL - (HLLE_core sqrt ST WL WR pe pe z).cL)
          ((HLLE_core sqrt ST WL WR pe pe z).u_hat
            - (HLLE_core sqrt ST WL WR pe pe z).c_hat) := rfl
  have hS1 : (HLLE_core sqrt ST WL WR pe pe z).S1 = -(HLLE_core sqrt ST WL WR pe pe z).S2 := by
    rw [eS1, eS2, ← MIN_neg, euL, ecL, eu]
    congr 1 <;> ring
  have hS2 : 0 < (HLLE_core sqrt ST WL WR pe pe z).S2 := by
    rw [eS2, eu, zero_add]
    exact lt_of_lt_of_le ec (le_MAX_right _ _)
  refine ⟨hS1, hS2, ?_, ?_, ?_, ?_⟩
  · show WL 1 = -WR 1
    exact h1
  · show WL 1 * (HLLE_core sqrt ST WL WR pe pe z).vL
      = -(WR 1 * (HLLE_core sqrt ST WL WR pe pe z).vR)
    rw [h1, evL]
    ring
  · show WL 1 * (HLLE_core sqrt ST WL WR pe pe z).wL
      = -(WR 1 * (HLLE_core sqrt ST WL WR pe pe z).wR)
    rw [h1, ewL]
    ring
  · show (HLLE_core sqrt ST WL WR pe pe z).uL * (WL 4 + (HLLE_core sqrt ST WL WR pe pe z).pL)
      = -((HLLE_core sqrt ST WL WR pe pe z).uR
          * (WR 4 + (HLLE_core sqrt ST WL WR pe pe z).pR))
    rw [euL, epL, h4]
    ring

/-- The HLLE combination of opposite fluxes with opposite wave speeds and no
jump vanishes. -/
lemma HLLE_F_star_mirrored (r : Riemann K) (a b : Nat → K) (m : Nat) (hS1 : r.S1 = -r.S2)
    (hS2 : 0 < r.S2) (hF : r.FL m = -r.FR m) (hab : a m = b m) :
    HLLE_F_star r a b m = 0 := by
  unfold HLLE_F_star
  have n1 : ¬ r.S1 ≥ 0 := by rw [hS1]; intro h; linarith
  rw [if_neg n1, if_neg (not_le.mpr hS2), hS1, hF, hab]
  have : r.S2 * -r.FR m - -r.S2 * r.FR m + -r.S2 * r.S2 * (b m - b m) = 0 := by ring
  rw [this, zero_div]

lemma solid_flux_generic (sqrt : K → K) (hsq : ∀ x, 0 < x → 0 < sqrt x) (ST : Nat)
    (wall : Wall K) (lambda_max : K) (wp : Int)
    (hn : (wall.nx = 1 ∧ wall.ny = 0 ∧ wall.nz = 0) ∨ (wall.nx = 0 ∧ wall.ny = 1 ∧ wall.nz = 0)
      ∨ (wall.nx = 0 ∧ wall.ny = 0 ∧ wall.nz = 1))
    (hrho : 0 < (if wp = 1 ∨ wp = 4 ∨ wp = 5 then wall.UR else wall.UL) 0)
    (hp : 0 < pressure_from_energy ST gamma
      ((if wp = 1 ∨ wp = 4 ∨ wp = 5 then wall.UR else wall.UL) 4)
      ((if wp = 1 ∨ wp = 4 ∨ wp = 5 then wall.UR else wall.UL) 1
        / (if wp = 1 ∨ wp = 4 ∨ wp = 5 then wall.UR else wall.UL) 0)
      ((if wp = 1 ∨ wp = 4 ∨ wp = 5 then wall.UR else wall.UL) 2
        / (if wp = 1 ∨ wp = 4 ∨ wp = 5 then wall.UR else wall.UL) 0)
      ((if wp = 1 ∨ wp = 4 ∨ wp = 5 then wall.UR else wall.UL) 3
        / (if wp = 1 ∨ wp = 4 ∨ wp = 5 then wall.UR else wall.UL) 0)
      ((if wp = 1 ∨ wp = 4 ∨ wp = 5 then wall.UR else wall.UL) 0) wall.z) :
    0 < (solid_vars sqrt ST wall wp).diffS
    ∧ ∃ F : K, ∀ m, m < 5 →
      (compute_solid_euler_hlle sqrt ST wall lambda_max wp).1.fR_star m
          = state6 0 (F * wall.nx) (F * wall.ny) (F * wall.nz) 0 0 m
      ∧ (compute_solid_euler_hlle sqrt ST wall lambda_max wp).1.fL_star m
          = state6 0 (F * wall.nx) (F * wall.ny) (F * wall.nz) 0 0 m := by
  have key : (solid_vars sqrt ST wall wp).S1 = -(solid_vars sqrt ST wall wp).S2
      ∧ 0 < (solid_vars sqrt ST wall wp).S2
      ∧ ∀ m, m = 0 ∨ m = 2 ∨ m = 3 ∨ m = 4 →
        (solid_vars sqrt ST wall wp).FL m = -(solid_vars sqrt ST wall wp).FR m
        ∧ (solid_Wprime ST wall wp (solid_vars sqrt ST wall wp)).1 m
            = (solid_Wprime ST wall wp (solid_vars sqrt ST wall wp)).2 m := by
    by_cases hw : wp = 1 ∨ wp = 4 ∨ wp = 5
    · rw [if_pos hw] at hrho
      simp only [if_pos hw] at hp
      rw [← rotated_pressure_mode ST wall.nx wall.ny wall.nz wall.z wall.UR hn] at hp
      have hc := HLLE_core_mirrored sqrt hsq ST
        (fun m => if m < 5 then mirror (rotation wall.nx wall.ny wall.nz wall.UR) m
          else rotation wall.nx wall.ny wall.nz wall.UL m)
        (rotation wall.nx wall.ny wall.nz wall.UR) wall.pRe wall.z
        rfl rfl rfl rfl rfl hrho hp
      have e : solid_vars sqrt ST wall wp
          = HLLE_core sqrt ST
              (fun m => if m < 5 then mirror (rotation wall.nx wall.ny wall.nz wall.UR) m
                else rotation wall.nx wall.ny wall.nz wall.UL m)
              (rotation wall.nx wall.ny wall.nz wall.UR) wall.pRe wall.pRe wall.z := by
        rw [solid_vars_core]
        simp only [if_pos hw]
      rw [e]
      refine ⟨hc.1, hc.2.1, ?_⟩
      intro m hm
      have hW : (solid_Wprime ST wall wp (HLLE_core sqrt ST
              (fun m => if m < 5 then mirror (rotation wall.nx wall.ny wall.nz wall.UR) m
                else rotation wall.nx wall.ny wall.nz wall.UL m)
              (rotation wall.nx wall.ny wall.nz wall.UR) wall.pRe wall.pRe wall.z)).1 m
          = (solid_Wprime ST wall wp (HLLE_core sqrt ST
              (fun m => if m < 5 then mirror (rotation wall.nx wall.ny wall.nz wall.UR) m
                else rotation wall.nx wall.ny wall.nz wall.UL m)
              (rotation wall.nx wall.ny wall.nz wall.UR) wall.pRe wall.pRe wall.z)).2 m := by
        unfold solid_Wprime
        by_cases hst : ST = 2 ∨ ST = 3
        · simp only [if_pos hst]
          rcases hm with rfl | rfl | rfl | rfl
          · simp
          · show rotation wall.nx wall.ny wall.nz wall.UR 2
              = mirror (rotation wall.nx wall.ny wall.nz wall.UR) 2
            rfl
          · show rotation wall.nx wall.ny wall.nz wall.UR 3
              = mirror (rotation wall.nx wall.ny wall.nz wall.UR) 3
            rfl
          · simp
        · simp only [if_neg hst]
          rcases hm with rfl | rfl | rfl | rfl <;> rfl
      rcases hm with rfl | rfl | rfl | rfl
      · exact ⟨hc.2.2.1, hW⟩
      · exact ⟨hc.2.2.2.1, hW⟩
      · exact ⟨hc.2.2.2.2.1, hW⟩
      · exact ⟨hc.2.2.2.2.2, hW⟩
    · rw [if_neg hw] at hrho
      simp only [if_neg hw] at hp
      rw [← rotated_pressure_mode ST wall.nx wall.ny wall.nz wall.z wall.UL hn] at hp
      have hp' : 0 < pressure_from_energy ST gamma
          ((fun m => if m < 5 then mirror (rotation wall.nx wall.ny wall.nz wall.UL) m
            else rotation wall.nx wall.ny wall.nz wall.UR m) 4)
          ((fun m => if m < 5 then mirror (rotation wall.nx wall.ny wall.nz wall.UL) m
            else rotation wall.nx wall.ny wall.nz wall.UR m) 1
            / (fun m => if m < 5 then mirror (rotation wall.nx wall.ny wall.nz wall.UL) m
              else rotation wall.nx wall.ny wall.nz wall.UR m) 0)
          ((fun m => if m < 5 then mirror (rotation wall.nx wall.ny wall.nz wall.UL) m
            else rotation wall.nx wall.ny wall.nz wall.UR m) 2
            / (fun m => if m < 5 then mirror (rotation wall.nx wall.ny wall.nz wall.UL) m
              else rotation wall.nx wall.ny wall.nz wall.UR m) 0)
          ((fun m => if m < 5 then mirror (rotation wall.nx wall.ny wall.nz wall.UL) m
            else rotation wall.nx wall.ny wall.nz wall.UR m) 3
            / (fun m => if m < 5 then mirror (rotation wall.nx wall.ny wall.nz wall.UL) m
              else rotation wall.nx wall.ny wall.nz wall.UR m) 0)
          ((fun m => if m < 5 then mirror (rotation wall.nx wall.ny wall.nz wall.UL) m
            else rotation wall.nx wall.ny wall.nz wall.UR m) 0) wall.z := by
        show 0 < pressure_from_energy ST gamma (rotation wall.nx wall.ny wall.nz wall.UL 4)
          (-rotation wall.nx wall.ny wall.nz wall.UL 1 / rotation wall.nx wall.ny wall.nz wall.UL 0)
          (rotation wall.nx wall.ny wall.nz wall.UL 2 / rotation wall.nx wall.ny wall.nz wall.UL 0)
          (rotation wall.nx wall.ny wall.nz wall.UL 3 / rotation wall.nx wall.ny wall.nz wall.UL 0)
          (rotation wall.nx wall.ny wall.nz wall.UL 0) wall.z
        rw [pressure_mirror]
        exact hp
      have hm1 : rotation wall.nx wall.ny wall.nz wall.UL 1
          = -(fun m => if m < 5 then mirror (rotation wall.nx wall.ny wall.nz wall.UL) m
              else rotation wall.nx wall.ny wall.nz wall.UR m) 1 := by
        show rotation wall.nx wall.ny wall.nz wall.UL 1
          = - -rotation wall.nx wall.ny wall.nz wall.UL 1
        rw [neg_neg]
      have hc := HLLE_core_mirrored sqrt hsq ST
        (rotation wall.nx wall.ny wall.nz wall.UL)
        (fun m => if m < 5 then mirror (rotation wall.nx wall.ny wall.nz wall.UL) m
          else rotation wall.nx wall.ny wall.nz wall.UR m) wall.pLe wall.z
        rfl hm1 rfl rfl rfl hrho hp'
      have e : solid_vars sqrt ST wall wp
          = HLLE_core sqrt ST (rotation wall.nx wall.ny wall.nz wall.UL)
              (fun m => if m < 5 then mirror (rotation wall.nx wall.ny wall.nz wall.UL) m
                else rotation wall.nx wall.ny wall.nz wall.UR m) wall.pLe wall.pLe wall.z := by
        rw [solid_vars_core]
        simp only [if_neg hw]
      rw [e]
      refine ⟨hc.1, hc.2.1, ?_⟩
      intro m hm
      have hW : (solid_Wprime ST wall wp (HLLE_core sqrt ST
              (rotation wall.nx wall.ny wall.nz wall.UL)
              (fun m => if m < 5 then mirror (rotation wall.nx wall.ny wall.nz wall.UL) m
                else rotation wall.nx wall.ny wall.nz wall.UR m) wall.pLe wall.pLe wall.z)).1 m
          = (solid_Wprime ST wall wp (HLLE_core sqrt ST
              (rotation wall.nx wall.ny wall.nz wall.UL)
              (fun m => if m < 5 then mirror (rotation wall.nx wall.ny wall.nz wall.UL) m
                else rotation wall.nx wall.ny wall.nz wall.UR m) wall.pLe wall.pLe wall.z)).2 m := by
        unfold solid_Wprime
        by_cases hst : ST = 2 ∨ ST = 3
        · simp only [if_pos hst]
          rcases hm with rfl | rfl | rfl | rfl
          · simp
          · show mirror (rotation wall.nx wall.ny wall.nz wall.UL) 2
              = rotation wall.nx wall.ny wall.nz wall.UL 2
            rfl
          · show mirror (rotation wall.nx wall.ny wall.nz wall.UL) 3
              = rotation wall.nx wall.ny wall.nz wall.UL 3
            rfl
          · simp
        · simp only [if_neg hst]
          rcases hm with rfl | rfl | rfl | rfl <;> rfl
      rcases hm with rfl | rfl | rfl | rfl
      · exact ⟨hc.2.2.1, hW⟩
      · exact ⟨hc.2.2.2.1, hW⟩
      · exact ⟨hc.2.2.2.2.1, hW⟩
      · exact ⟨hc.2.2.2.2.2, hW⟩
  obtain ⟨hS1, hS2, hk⟩ := key
  have hd : 0 < (solid_vars sqrt ST wall wp).diffS := by
    show 0 < (solid_vars sqrt ST wall wp).S2 - (solid_vars sqrt ST wall wp).S1
    rw [hS1]
    linarith
  have hF : ∀ m, m = 0 ∨ m = 2 ∨ m = 3 ∨ m = 4 →
      HLLE_F_star (solid_vars sqrt ST wall wp)
        (solid_Wprime ST wall wp (solid_vars sqrt ST wall wp)).1
        (solid_Wprime ST wall wp (solid_vars sqrt ST wall wp)).2 m = 0 :=
    fun m hm => HLLE_F_star_mirrored _ _ _ m hS1 hS2 (hk m hm).1 (hk m hm).2
  have hR : ∀ m, m < 5 →
      (compute_solid_euler_hlle sqrt ST wall lambda_max wp).1.fR_star m
        = state6 0
            (HLLE_F_star (solid_vars sqrt ST wall wp)
              (solid_Wprime ST wall wp (solid_vars sqrt ST wall wp)).1
              (solid_Wprime ST wall wp (solid_vars sqrt ST wall wp)).2 1 * wall.nx)
            (HLLE_F_star (solid_vars sqrt ST wall wp)
              (solid_Wprime ST wall wp (solid_vars sqrt ST wall wp)).1
              (solid_Wprime ST wall wp (solid_vars sqrt ST wall wp)).2 1 * wall.ny)
            (HLLE_F_star (solid_vars sqrt ST wall wp)
              (solid_Wprime ST wall wp (solid_vars sqrt ST wall wp)).1
              (solid_Wprime ST wall wp (solid_vars sqrt ST wall wp)).2 1 * wall.nz) 0 0 m := by
    intro m hm
    have e : (compute_solid_euler_hlle sqrt ST wall lambda_max wp).1.fR_star
        = inverse_rotation wall.nx wall.ny wall.nz
            (HLLE_F_star (solid_vars sqrt ST wall wp)
              (solid_Wprime ST wall wp (solid_vars sqrt ST wall wp)).1
              (solid_Wprime ST wall wp (solid_vars sqrt ST wall wp)).2) wall.fR_star := rfl
    rw [e]
    have f0 := hF 0 (Or.inl rfl)
    have f2 := hF 2 (Or.inr (Or.inl rfl))
    have f3 := hF 3 (Or.inr (Or.inr (Or.inl rfl)))
    have f4 := hF 4 (Or.inr (Or.inr (Or.inr rfl)))
    interval_cases m
    · rw [inverse_rotation_0, f0]; rfl
    · rw [inverse_rotation_1, f2, f3, zero_mul, zero_mul, sub_zero, sub_zero]; rfl
    · rw [inverse_rotation_2, f2, zero_mul, zero_mul, add_zero, add_zero]; rfl
    · rw [inverse_rotation_3, f3, zero_mul, zero_mul, zero_add, zero_add]; rfl
    · rw [inverse_rotation_4, f4]; rfl
  refine ⟨hd, _, fun m hm => ⟨hR m hm, ?_⟩⟩
  have e : (compute_solid_euler_hlle sqrt ST wall lambda_max wp).1.fL_star m
      = (compute_solid_euler_hlle sqrt ST wall lambda_max wp).1.fR_star m := by
    simp only [compute_solid_euler_hlle, hm, if_true]
  rw [e]
  exact hR m hm

/-- Claim C37: in every source mode `ST`, for a wall with an axis-unit normal
and boundary id `wp` whose inner state (`UR` for `wp` in 1, 4, 5, `UL`
otherwise) has positive density and pressure, the fluxes written by
`compute_solid_euler_hlle` have zero mass component (0) and zero energy
component (4), and their momentum part is a multiple `F` of the wall normal:
the momentum components along the two axes tangent to the wall are zero.  The
division by `S2 - S1` in the solver is by a positive number. -/
theorem solid_wall_no_flux (ST : Nat) (wall : Wall ℝ) (lambda_max : ℝ) (wp : Int)
    (hn : (wall.nx = 1 ∧ wall.ny = 0 ∧ wall.nz = 0) ∨ (wall.nx = 0 ∧ wall.ny = 1 ∧ wall.nz = 0)
      ∨ (wall.nx = 0 ∧ wall.ny = 0 ∧ wall.nz = 1))
    (hrho : 0 < (if wp = 1 ∨ wp = 4 ∨ wp = 5 then wall.UR else wall.UL) 0)
    (hp : 0 < pressure_from_energy ST gamma
      ((if wp = 1 ∨ wp = 4 ∨ wp = 5 then wall.UR else wall.UL) 4)
      ((if wp = 1 ∨ wp = 4 ∨ wp = 5 then wall.UR else wall.UL) 1
        / (if wp = 1 ∨ wp = 4 ∨ wp = 5 then wall.UR else wall.UL) 0)
      ((if wp = 1 ∨ wp = 4 ∨ wp = 5 then wall.UR else wall.UL) 2
        / (if wp = 1 ∨ wp = 4 ∨ wp = 5 then wall.UR else wall.UL) 0)
      ((if wp = 1 ∨ wp = 4 ∨ wp = 5 then wall.UR else wall.UL) 3
        / (if wp = 1 ∨ wp = 4 ∨ wp = 5 then wall.UR else wall.UL) 0)
      ((if wp = 1 ∨ wp = 4 ∨ wp = 5 then wall.UR else wall.UL) 0) wall.z) :
    0 < (solid_vars Real.sqrt ST wall wp).diffS
    ∧ (compute_solid_euler_hlle Real.sqrt ST wall lambda_max wp).1.fR_star 0 = 0
    ∧ (compute_solid_euler_hlle Real.sqrt ST wall lambda_max wp).1.fR_star 4 = 0
    ∧ (compute_solid_euler_hlle Real.sqrt ST wall lambda_max wp).1.fL_star 0 = 0
    ∧ (compute_solid_euler_hlle Real.sqrt ST wall lambda_max wp).1.fL_star 4 = 0
    ∧ (wall.nx = 0 →
        (compute_solid_euler_hlle Real.sqrt ST wall lambda_max wp).1.fR_star 1 = 0
        ∧ (compute_solid_euler_hlle Real.sqrt ST wall lambda_max wp).1.fL_star 1 = 0)
    ∧ (wall.ny = 0 →
        (compute_solid_euler_hlle Real.sqrt ST wall lambda_max wp).1.fR_star 2 = 0
        ∧ (compute_solid_euler_hlle Real.sqrt ST wall lambda_max wp).1.fL_star 2 = 0)
    ∧ (wall.nz = 0 →
        (compute_solid_euler_hlle Real.sqrt ST wall lambda_max wp).1.fR_star 3 = 0
        ∧ (compute_solid_euler_hlle Real.sqrt ST wall lambda_max wp).1.fL_star 3 = 0)
    ∧ ∃ F : ℝ, ∀ m, m < 5 →
      (compute_solid_euler_hlle Real.sqrt ST wall lambda_max wp).1.fR_star m
          = state6 0 (F * wall.nx) (F * wall.ny) (F * wall.nz) 0 0 m
      ∧ (compute_solid_euler_hlle Real.sqrt ST wall lambda_max wp).1.fL_star m
          = state6 0 (F * wall.nx) (F * wall.ny) (F * wall.nz) 0 0 m := by
  obtain ⟨hd, F, hF⟩ := solid_flux_generic Real.sqrt (fun _ hx => Real.sqrt_pos.mpr hx) ST wall
    lambda_max wp hn hrho hp
  have h0 := hF 0 (by norm_num)
  have h1 := hF 1 (by norm_num)
  have h2 := hF 2 (by norm_num)
  have h3 := hF 3 (by norm_num)
  have h4 := hF 4 (by norm_num)
  refine ⟨hd, h0.1, h4.1, h0.2, h4.2, ?_, ?_, ?_, F, hF⟩
  · intro hz
    rw [h1.1, h1.2]
    simp [state6, hz]
  · intro hz
    rw [h2.1, h2.2]
    simp [state6, hz]
  · intro hz
    rw [h3.1, h3.2]
    simp [state6, hz]

/-- Instance of `solid_wall_no_flux`: source mode 3, the x-wall `shearWall` as
face 4, whose inner state `(2, 0, 1, 0, 6)` moves along the wall. -/
theorem solid_wall_no_flux_witness :
    (0 < (shearWall : Wall ℝ).UR 0)
    ∧ (compute_solid_euler_hlle Real.sqrt 3 (shearWall : Wall ℝ) 0 4).1.fR_star 0 = 0
    ∧ (compute_solid_euler_hlle Real.sqrt 3 (shearWall : Wall ℝ) 0 4).1.fR_star 4 = 0
    ∧ (compute_solid_euler_hlle Real.sqrt 3 (shearWall : Wall ℝ) 0 4).1.fR_star 2 = 0
    ∧ (compute_solid_euler_hlle Real.sqrt 3 (shearWall : Wall ℝ) 0 4).1.fR_star 3 = 0 := by
  have hrho : 0 < (shearWall : Wall ℝ).UR 0 := by
    show (0 : ℝ) < 2
    norm_num
  have h := solid_wall_no_flux 3 (shearWall : Wall ℝ) 0 4 (Or.inl ⟨rfl, rfl, rfl⟩)
    (by simp [shearWall, zeroWall, state6])
    (by simp [pressure_from_energy, shearWall, zeroWall, state6, gamma, g]; norm_num)
  exact ⟨hrho, h.2.1, h.2.2.1, (h.2.2.2.2.2.2.1 rfl).1, (h.2.2.2.2.2.2.2.1 rfl).1⟩

/-! ## The z-momentum balance of HLLS in source mode 1 -/

lemma pressure_at_rest (E rho z : K) (a b c : K) (ha : a = 0) (hb : b = 0) (hc : c = 0) :
    pressure_from_energy 1 gamma E (a / rho) (b / rho) (c / rho) rho z = (gamma - 1) * E := by
  unfold pressure_from_energy
  rw [if_neg (by decide), ha, hb, hc]
  ring

/-- On a z-wall whose two states are at rest and equal the equilibrium states,
HLLS hands each side its own pressure as z-momentum flux. -/
lemma HLLS_z_wall (sqrt : K → K) (hsq : ∀ x, 0 < sqrt x → sqrt x * sqrt x = x)
    (mt : Nat) (W : Wall K) (lam : K)
    (hz : W.nx = 0 ∧ W.ny = 0 ∧ W.nz = 1)
    (hUL : ∀ k, k < 5 → W.UL k = W.ULe k) (hUR : ∀ k, k < 5 → W.UR k = W.URe k)
    (hL : W.UL 1 = 0 ∧ W.UL 2 = 0 ∧ W.UL 3 = 0) (hR : W.UR 1 = 0 ∧ W.UR 2 = 0 ∧ W.UR 3 = 0)
    (hrL : 0 < W.UL 0) (hrR : 0 < W.UR 0)
    (hpLe : W.pLe = pressure_from_energy 1 gamma (W.ULe 4) (W.ULe 1 / W.ULe 0)
      (W.ULe 2 / W.ULe 0) (W.ULe 3 / W.ULe 0) (W.ULe 0) W.z)
    (hpRe : W.pRe = pressure_from_energy 1 gamma (W.URe 4) (W.URe 1 / W.URe 0)
      (W.URe 2 / W.URe 0) (W.URe 3 / W.URe 0) (W.URe 0) W.z) :
    ((HLLS_vars sqrt false mt W).pL = W.pLe ∧ (HLLS_vars sqrt false mt W).pR = W.pRe)
    ∧ (W.pLe = (gamma - 1) * W.UL 4 ∧ W.pRe = (gamma - 1) * W.UR 4)
    ∧ (compute_euler_HLLS sqrt false mt W lam).1.fL_star 3 = W.pLe
    ∧ (compute_euler_HLLS sqrt false mt W lam).1.fR_star 3 = W.pRe := by
  obtain ⟨l1, l2, l3⟩ := hL
  obtain ⟨r1, r2, r3⟩ := hR
  obtain ⟨hnx, hny, hnz⟩ := hz
  have e0L := hUL 0 (by norm_num)
  have e1L := hUL 1 (by norm_num)
  have e2L := hUL 2 (by norm_num)
  have e3L := hUL 3 (by norm_num)
  have e4L := hUL 4 (by norm_num)
  have e0R := hUR 0 (by norm_num)
  have e1R := hUR 1 (by norm_num)
  have e2R := hUR 2 (by norm_num)
  have e3R := hUR 3 (by norm_num)
  have e4R := hUR 4 (by norm_num)
  have pL : W.pLe = (gamma - 1) * W.UL 4 := by
    rw [hpLe, ← e4L]
    exact pressure_at_rest _ _ _ _ _ _ (by rw [← e1L, l1]) (by rw [← e2L, l2])
      (by rw [← e3L, l3])
  have pR : W.pRe = (gamma - 1) * W.UR 4 := by
    rw [hpRe, ← e4R]
    exact pressure_at_rest _ _ _ _ _ _ (by rw [← e1R, r1]) (by rw [← e2R, r2])
      (by rw [← e3R, r3])
  obtain ⟨⟨eWL0, eWL1, eWL2, eWL3, eWL4⟩, ⟨eWR0, eWR1, eWR2, eWR3, eWR4⟩, -⟩ :=
    HLLS_vars_rest sqrt mt W ⟨l1, l2, l3⟩ ⟨r1, r2, r3⟩
  have hvL : (HLLS_vars sqrt false mt W).pL = (gamma - 1) * W.UL 4 := by
    have e : (HLLS_vars sqrt false mt W).pL
        = (gamma - 1) * ((HLLS_vars sqrt false mt W).WL 4
          - 1 / 2 * (HLLS_vars sqrt false mt W).WL 0
            * ((HLLS_vars sqrt false mt W).WL 1 / (HLLS_vars sqrt false mt W).WL 0
                * ((HLLS_vars sqrt false mt W).WL 1 / (HLLS_vars sqrt false mt W).WL 0)
              + (HLLS_vars sqrt false mt W).WL 2 / (HLLS_vars sqrt false mt W).WL 0
                * ((HLLS_vars sqrt false mt W).WL 2 / (HLLS_vars sqrt false mt W).WL 0)
              + (HLLS_vars sqrt false mt W).WL 3 / (HLLS_vars sqrt false mt W).WL 0
                * ((HLLS_vars sqrt false mt W).WL 3 / (HLLS_vars sqrt false mt W).WL 0))) :=
      rfl
    rw [e, eWL1, eWL2, eWL3, eWL4]
    ring
  have hvR : (HLLS_vars sqrt false mt W).pR = (gamma - 1) * W.UR 4 := by
    have e : (HLLS_vars sqrt false mt W).pR
        = (gamma - 1) * ((HLLS_vars sqrt false mt W).WR 4
          - 1 / 2 * (HLLS_vars sqrt false mt W).WR 0
            * ((HLLS_vars sqrt false mt W).WR 1 / (HLLS_vars sqrt false mt W).WR 0
                * ((HLLS_vars sqrt false mt W).WR 1 / (HLLS_vars sqrt false mt W).WR 0)
              + (HLLS_vars sqrt false mt W).WR 2 / (HLLS_vars sqrt false mt W).WR 0
                * ((HLLS_vars sqrt false mt W).WR 2 / (HLLS_vars sqrt false mt W).WR 0)
              + (HLLS_vars sqrt false mt W).WR 3 / (HLLS_vars sqrt false mt W).WR 0
                * ((HLLS_vars sqrt false mt W).WR 3 / (HLLS_vars sqrt false mt W).WR 0))) :=
      rfl
    rw [e, eWR1, eWR2, eWR3, eWR4]
    ring
  have hS : HLLS_S W (HLLS_vars sqrt false mt W) 1
      = (gamma - 1) * W.UR 4 - (gamma - 1) * W.UL 4 := by
    obtain ⟨-, s1, -⟩ := HLLS_S_values W (HLLS_vars sqrt false mt W)
    have habs : ABS W.nz > (TOL14 : K) := by
      rw [hnz]; simp only [ABS]; norm_num; exact TOL14_lt_one
    have hne : W.UR 0 + W.UL 0 ≠ 0 := ne_of_gt (add_pos hrR hrL)
    rw [s1, if_pos habs, eWR0, eWL0, ← e0L, ← e0R, pL, pR]
    field_simp
  obtain ⟨⟨a1, -, a3, -⟩, b1, -, b3, -⟩ :=
    HLLS_rest_star sqrt hsq mt W _ rfl ⟨l1, l2, l3⟩ ⟨r1, r2, r3⟩ hS
  have fL : (compute_euler_HLLS sqrt false mt W lam).1.fL_star
      = inverse_rotation W.nx W.ny W.nz (HLLS_F_star_L W (HLLS_vars sqrt false mt W))
          W.fL_star := rfl
  have fR : (compute_euler_HLLS sqrt false mt W lam).1.fR_star
      = inverse_rotation W.nx W.ny W.nz (HLLS_F_star_R W (HLLS_vars sqrt false mt W))
          W.fR_star := rfl
  refine ⟨⟨by rw [hvL, pL], by rw [hvR, pR]⟩, ⟨pL, pR⟩, ?_, ?_⟩
  · rw [fL, inverse_rotation_3, a1, a3, hnz, pL]
    ring
  · rw [fR, inverse_rotation_3, b1, b3, hnz, pR]
    ring

lemma HLLS_z_residual (sqrt : K → K) (hsq : ∀ x, 0 < sqrt x → sqrt x * sqrt x = x)
    (mt : Nat) (M : Mesh K) (i : Nat) (lamp lamm : K)
    (hi : i < M.ncells) (ht : (M.cell i).type ≠ 0) (hst : (M.cell i).st_sizeZ > 1)
    (hU0 : (M.cell i).U 0 = (M.cell i).Ue 0)
    (hcorr : (M.cell i).S_corr 3
      = ((M.wall (M.cell i).w6).pLe - (M.wall (M.cell i).w5).pRe) / (M.cell i).dz
        + g * (M.cell i).Ue 0)
    (hw : ∀ j, j = (M.cell i).w5 ∨ j = (M.cell i).w6 →
      ((M.wall j).nx = 0 ∧ (M.wall j).ny = 0 ∧ (M.wall j).nz = 1)
      ∧ (∀ k, k < 5 → (M.wall j).UL k = (M.wall j).ULe k)
      ∧ (∀ k, k < 5 → (M.wall j).UR k = (M.wall j).URe k)
      ∧ ((M.wall j).UL 1 = 0 ∧ (M.wall j).UL 2 = 0 ∧ (M.wall j).UL 3 = 0)
      ∧ ((M.wall j).UR 1 = 0 ∧ (M.wall j).UR 2 = 0 ∧ (M.wall j).UR 3 = 0)
      ∧ 0 < (M.wall j).UL 0 ∧ 0 < (M.wall j).UR 0
      ∧ (M.wall j).pLe = pressure_from_energy 1 gamma ((M.wall j).ULe 4)
          ((M.wall j).ULe 1 / (M.wall j).ULe 0) ((M.wall j).ULe 2 / (M.wall j).ULe 0)
          ((M.wall j).ULe 3 / (M.wall j).ULe 0) ((M.wall j).ULe 0) (M.wall j).z
      ∧ (M.wall j).pRe = pressure_from_energy 1 gamma ((M.wall j).URe 4)
          ((M.wall j).URe 1 / (M.wall j).URe 0) ((M.wall j).URe 2 / (M.wall j).URe 0)
          ((M.wall j).URe 3 / (M.wall j).URe 0) ((M.wall j).URe 0) (M.wall j).z) :
    (∀ j, j = (M.cell i).w5 ∨ j = (M.cell i).w6 → ∀ lam,
      ((HLLS_vars sqrt false mt (M.wall j)).pL = (M.wall j).pLe
        ∧ (HLLS_vars sqrt false mt (M.wall j)).pR = (M.wall j).pRe)
      ∧ (compute_euler_HLLS sqrt false mt (M.wall j) lam).1.fL_star 3
          = (HLLS_vars sqrt false mt (M.wall j)).pL
      ∧ (compute_euler_HLLS sqrt false mt (M.wall j) lam).1.fR_star 3
          = (HLLS_vars sqrt false mt (M.wall j)).pR)
    ∧ ((compute_source 1 M).cell i).S 3
        = -g * (M.cell i).U 0
          + (((M.wall (M.cell i).w6).pLe - (M.wall (M.cell i).w5).pRe) / (M.cell i).dz
            + g * (M.cell i).Ue 0)
    ∧ ((compute_euler_HLLS sqrt false mt (M.wall (M.cell i).w6) lamp).1.fL_star 3
          - (compute_euler_HLLS sqrt false mt (M.wall (M.cell i).w5) lamm).1.fR_star 3)
        / (M.cell i).dz - ((compute_source 1 M).cell i).S 3 = 0 := by
  have hwall : ∀ j, j = (M.cell i).w5 ∨ j = (M.cell i).w6 → ∀ lam,
      ((HLLS_vars sqrt false mt (M.wall j)).pL = (M.wall j).pLe
        ∧ (HLLS_vars sqrt false mt (M.wall j)).pR = (M.wall j).pRe)
      ∧ (compute_euler_HLLS sqrt false mt (M.wall j) lam).1.fL_star 3 = (M.wall j).pLe
      ∧ (compute_euler_HLLS sqrt false mt (M.wall j) lam).1.fR_star 3 = (M.wall j).pRe := by
    intro j hj lam
    obtain ⟨hz, hUL, hUR, hL, hR, hrL, hrR, hpLe, hpRe⟩ := hw j hj
    obtain ⟨hp, -, hfL, hfR⟩ :=
      HLLS_z_wall sqrt hsq mt (M.wall j) lam hz hUL hUR hL hR hrL hrR hpLe hpRe
    exact ⟨hp, hfL, hfR⟩
  have hS : ((compute_source 1 M).cell i).S 3
      = -g * (M.cell i).U 0
        + (((M.wall (M.cell i).w6).pLe - (M.wall (M.cell i).w5).pRe) / (M.cell i).dz
          + g * (M.cell i).Ue 0) := by
    rw [compute_source_cell_at, if_pos hi, if_pos ⟨ht, hst⟩]
    show Function.update (Function.update (M.cell i).S 3
      (-g * (M.cell i).U 0 + (M.cell i).S_corr 3)) 4 (-g * (M.cell i).U 3) 3 = _
    rw [Function.update_noteq (by decide), Function.update_same, hcorr]
  refine ⟨?_, hS, ?_⟩
  · intro j hj lam
    obtain ⟨hp, hfL, hfR⟩ := hwall j hj lam
    exact ⟨hp, by rw [hfL, hp.1], by rw [hfR, hp.2]⟩
  · rw [hS, (hwall _ (Or.inr rfl) lamp).2.1, (hwall _ (Or.inl rfl) lamm).2.2, hU0]
    ring

/-- Claim C34: in source mode 1 with HLLS (single gamma), let the cell `i` be
integrated with `st_sizeZ > 1`, `U[0] = Ue[0]` and `S_corr[3]` as
`equilibrium_reconstruction` sets it, and let its two z-walls carry states at
rest with positive densities that equal the equilibrium states, with the
equilibrium pressures computed from these.  Then on each of the two walls the
pressures of the two states are the stored equilibrium pressures, the
z-momentum flux `fL_star[3]` is exactly `pL` and `fR_star[3]` is exactly `pR`,
`compute_source` stores `S[3] = -g U[0] + (pLe(+z) - pRe(-z))/dz + g Ue[0]`,
and the residual `(fL_star(+z)[3] - fR_star(-z)[3])/dz - S[3]` is zero. -/
theorem HLLS_z_momentum_balance (mt : Nat) (M : Mesh ℝ) (i : Nat) (lamp lamm : ℝ)
    (hi : i < M.ncells) (ht : (M.cell i).type ≠ 0) (hst : (M.cell i).st_sizeZ > 1)
    (hU0 : (M.cell i).U 0 = (M.cell i).Ue 0)
    (hcorr : (M.cell i).S_corr 3
      = ((M.wall (M.cell i).w6).pLe - (M.wall (M.cell i).w5).pRe) / (M.cell i).dz
        + g * (M.cell i).Ue 0)
    (hw : ∀ j, j = (M.cell i).w5 ∨ j = (M.cell i).w6 →
      ((M.wall j).nx = 0 ∧ (M.wall j).ny = 0 ∧ (M.wall j).nz = 1)
      ∧ (∀ k, k < 5 → (M.wall j).UL k = (M.wall j).ULe k)
      ∧ (∀ k, k < 5 → (M.wall j).UR k = (M.wall j).URe k)
      ∧ ((M.wall j).UL 1 = 0 ∧ (M.wall j).UL 2 = 0 ∧ (M.wall j).UL 3 = 0)
      ∧ ((M.wall j).UR 1 = 0 ∧ (M.wall j).UR 2 = 0 ∧ (M.wall j).UR 3 = 0)
      ∧ 0 < (M.wall j).UL 0 ∧ 0 < (M.wall j).UR 0
      ∧ (M.wall j).pLe = pressure_from_energy 1 gamma ((M.wall j).ULe 4)
          ((M.wall j).ULe 1 / (M.wall j).ULe 0) ((M.wall j).ULe 2 / (M.wall j).ULe 0)
          ((M.wall j).ULe 3 / (M.wall j).ULe 0) ((M.wall j).ULe 0) (M.wall j).z
      ∧ (M.wall j).pRe = pressure_from_energy 1 gamma ((M.wall j).URe 4)
          ((M.wall j).URe 1 / (M.wall j).URe 0) ((M.wall j).URe 2 / (M.wall j).URe 0)
          ((M.wall j).URe 3 / (M.wall j).URe 0) ((M.wall j).URe 0) (M.wall j).z) :
    (∀ j, j = (M.cell i).w5 ∨ j = (M.cell i).w6 → ∀ lam,
      ((HLLS_vars Real.sqrt false mt (M.wall j)).pL = (M.wall j).pLe
        ∧ (HLLS_vars Real.sqrt false mt (M.wall j)).pR = (M.wall j).pRe)
      ∧ (compute_euler_HLLS Real.sqrt false mt (M.wall j) lam).1.fL_star 3
          = (HLLS_vars Real.sqrt false mt (M.wall j)).pL
      ∧ (compute_euler_HLLS Real.sqrt false mt (M.wall j) lam).1.fR_star 3
          = (HLLS_vars Real.sqrt false mt (M.wall j)).pR)
    ∧ ((compute_source 1 M).cell i).S 3
        = -g * (M.cell i).U 0
          + (((M.wall (M.cell i).w6).pLe - (M.wall (M.cell i).w5).pRe) / (M.cell i).dz
            + g * (M.cell i).Ue 0)
    ∧ ((compute_euler_HLLS Real.sqrt false mt (M.wall (M.cell i).w6) lamp).1.fL_star 3
          - (compute_euler_HLLS Real.sqrt false mt (M.wall (M.cell i).w5) lamm).1.fR_star 3)
        / (M.cell i).dz - ((compute_source 1 M).cell i).S 3 = 0 :=
  HLLS_z_residual Real.sqrt real_sqrt_sq mt M i lamp lamm hi ht hst hU0 hcorr hw

lemma balanceWall_premises (rhoL EL rhoR ER : ℝ) (hL : 0 < rhoL) (hR : 0 < rhoR) :
    ((balanceWall rhoL EL rhoR ER).nx = 0 ∧ (balanceWall rhoL EL rhoR ER).ny = 0
        ∧ (balanceWall rhoL EL rhoR ER).nz = 1)
      ∧ (∀ k, k < 5 → (balanceWall rhoL EL rhoR ER).UL k = (balanceWall rhoL EL rhoR ER).ULe k)
      ∧ (∀ k, k < 5 → (balanceWall rhoL EL rhoR ER).UR k = (balanceWall rhoL EL rhoR ER).URe k)
      ∧ ((balanceWall rhoL EL rhoR ER).UL 1 = 0 ∧ (balanceWall rhoL EL rhoR ER).UL 2 = 0
        ∧ (balanceWall rhoL EL rhoR ER).UL 3 = 0)
      ∧ ((balanceWall rhoL EL rhoR ER).UR 1 = 0 ∧ (balanceWall rhoL EL rhoR ER).UR 2 = 0
        ∧ (balanceWall rhoL EL rhoR ER).UR 3 = 0)
      ∧ 0 < (balanceWall rhoL EL rhoR ER).UL 0 ∧ 0 < (balanceWall rhoL EL rhoR ER).UR 0
      ∧ (balanceWall rhoL EL rhoR ER).pLe
          = pressure_from_energy 1 gamma ((balanceWall rhoL EL rhoR ER).ULe 4)
            ((balanceWall rhoL EL rhoR ER).ULe 1 / (balanceWall rhoL EL rhoR ER).ULe 0)
            ((balanceWall rhoL EL rhoR ER).ULe 2 / (balanceWall rhoL EL rhoR ER).ULe 0)
            ((balanceWall rhoL EL rhoR ER).ULe 3 / (balanceWall rhoL EL rhoR ER).ULe 0)
            ((balanceWall rhoL EL rhoR ER).ULe 0) (balanceWall rhoL EL rhoR ER).z
      ∧ (balanceWall rhoL EL rhoR ER).pRe
          = pressure_from_energy 1 gamma ((balanceWall rhoL EL rhoR ER).URe 4)
            ((balanceWall rhoL EL rhoR ER).URe 1 / (balanceWall rhoL EL rhoR ER).URe 0)
            ((balanceWall rhoL EL rhoR ER).URe 2 / (balanceWall rhoL EL rhoR ER).URe 0)
            ((balanceWall rhoL EL rhoR ER).URe 3 / (balanceWall rhoL EL rhoR ER).URe 0)
            ((balanceWall rhoL EL rhoR ER).URe 0) (balanceWall rhoL EL rhoR ER).z :=
  ⟨⟨rfl, rfl, rfl⟩, fun _ _ => rfl, fun _ _ => rfl, ⟨rfl, rfl, rfl⟩, ⟨rfl, rfl, rfl⟩, hL, hR,
    (pressure_at_rest _ _ _ _ _ _ rfl rfl rfl).symm,
    (pressure_at_rest _ _ _ _ _ _ rfl rfl rfl).symm⟩

/-- Instance of `HLLS_z_momentum_balance`: the cell of `balanceMesh`. -/
theorem HLLS_z_momentum_balance_witness :
    (0 < (balanceMesh : Mesh ℝ).ncells ∧ ((balanceMesh : Mesh ℝ).cell 0).type ≠ 0
      ∧ ((balanceMesh : Mesh ℝ).cell 0).st_sizeZ > 1
      ∧ ((balanceMesh : Mesh ℝ).cell 0).U 0 = ((balanceMesh : Mesh ℝ).cell 0).Ue 0)
    ∧ ((compute_euler_HLLS Real.sqrt false 0
            ((balanceMesh : Mesh ℝ).wall ((balanceMesh : Mesh ℝ).cell 0).w6) 0).1.fL_star 3
          - (compute_euler_HLLS Real.sqrt false 0
            ((balanceMesh : Mesh ℝ).wall ((balanceMesh : Mesh ℝ).cell 0).w5) 0).1.fR_star 3)
        / ((balanceMesh : Mesh ℝ).cell 0).dz
        - ((compute_source 1 (balanceMesh : Mesh ℝ)).cell 0).S 3 = 0 := by
  have hi : 0 < (balanceMesh : Mesh ℝ).ncells := by
    show 0 < 1
    decide
  have ht : ((balanceMesh : Mesh ℝ).cell 0).type ≠ 0 := by
    show (1 : Int) ≠ 0
    decide
  have hst : ((balanceMesh : Mesh ℝ).cell 0).st_sizeZ > 1 := by
    show (3 : Int) > 1
    decide
  have hU0 : ((balanceMesh : Mesh ℝ).cell 0).U 0 = ((balanceMesh : Mesh ℝ).cell 0).Ue 0 := rfl
  have h := HLLS_z_momentum_balance 0 (balanceMesh : Mesh ℝ) 0 0 0 hi ht hst hU0
    (by
      show ((gamma - 1) * 20 - (gamma - 1) * 20) / 1 + g * 9
        = ((gamma - 1) * 20 - (gamma - 1) * 20) / 1 + g * (9 : ℝ)
      rfl)
    (by
      intro j hj
      rcases hj with rfl | rfl
      · exact balanceWall_premises 10 25 9 20 (by norm_num) (by norm_num)
      · exact balanceWall_premises 9 20 5 10 (by norm_num) (by norm_num))
  exact ⟨⟨hi, ht, hst, hU0⟩, h.2.2⟩

/-! ## Fixed point of the perturbation modes with HLLE -/

lemma MIN_le_left (a b : K) : MIN a b ≤ a := by
  unfold MIN
  split_ifs with h
  · exact le_refl a
  · exact not_lt.mp h

lemma le_MAX_left (a b : K) : a ≤ MAX a b := by
  unfold MAX
  split_ifs with h
  · exact le_refl a
  · exact not_lt.mp h

/-- The solver variables of HLLE between two states at rest whose pressures
are the stored equilibrium pressures, in source mode 2 or 3: the pressures are
the equilibrium pressures, the left wave speed is negative and the right one
positive, and the physical fluxes vanish in the five components. -/
lemma HLLE_core_rest (sqrt : K → K) (hsq : ∀ x, 0 < x → 0 < sqrt x) (ST : Nat)
    (hST : ST = 2 ∨ ST = 3) (WL WR : Nat → K) (pLe pRe z : K)
    (hL : 0 < WL 0) (hR : 0 < WR 0)
    (hLm : WL 1 = 0 ∧ WL 2 = 0 ∧ WL 3 = 0) (hRm : WR 1 = 0 ∧ WR 2 = 0 ∧ WR 3 = 0)
    (hpL : 0 < pLe) (hpR : 0 < pRe)
    (epL : pLe = pressure_from_energy ST gamma (WL 4) (WL 1 / WL 0) (WL 2 / WL 0)
      (WL 3 / WL 0) (WL 0) z)
    (epR : pRe = pressure_from_energy ST gamma (WR 4) (WR 1 / WR 0) (WR 2 / WR 0)
      (WR 3 / WR 0) (WR 0) z) :
    ((HLLE_core sqrt ST WL WR pLe pRe z).pL = pLe ∧ (HLLE_core sqrt ST WL WR pLe pRe z).pR = pRe)
    ∧ (HLLE_core sqrt ST WL WR pLe pRe z).S1 < 0
    ∧ 0 < (HLLE_core sqrt ST WL WR pLe pRe z).S2
    ∧ 0 < (HLLE_core sqrt ST WL WR pLe pRe z).diffS
    ∧ (∀ m, m < 5 → (HLLE_core sqrt ST WL WR pLe pRe z).FL m = 0
        ∧ (HLLE_core sqrt ST WL WR pLe pRe z).FR m = 0) := by
  obtain ⟨l1, l2, l3⟩ := hLm
  obtain ⟨r1, r2, r3⟩ := hRm
  have epL' : (HLLE_core sqrt ST WL WR pLe pRe z).pL = pLe := epL.symm
  have epR' : (HLLE_core sqrt ST WL WR pLe pRe z).pR = pRe := epR.symm
  have euL : (HLLE_core sqrt ST WL WR pLe pRe z).uL = 0 := by
    show WL 1 / WL 0 = 0
    rw [l1, zero_div]
  have euR : (HLLE_core sqrt ST WL WR pLe pRe z).uR = 0 := by
    show WR 1 / WR 0 = 0
    rw [r1, zero_div]
  have ecL : 0 < (HLLE_core sqrt ST WL WR pLe pRe z).cL := by
    show 0 < sqrt (gamma * (HLLE_core sqrt ST WL WR pLe pRe z).pL / WL 0)
    rw [epL']
    exact hsq _ (div_pos (mul_pos gamma_pos hpL) hL)
  have ecR : 0 < (HLLE_core sqrt ST WL WR pLe pRe z).cR := by
    show 0 < sqrt (gamma * (HLLE_core sqrt ST WL WR pLe pRe z).pR / WR 0)
    rw [epR']
    exact hsq _ (div_pos (mul_pos gamma_pos hpR) hR)
  have hS1 : (HLLE_core sqrt ST WL WR pLe pRe z).S1 < 0 := by
    have h := MIN_le_left ((HLLE_core sqrt ST WL WR pLe pRe z).uL
        - (HLLE_core sqrt ST WL WR pLe pRe z).cL)
      ((HLLE_core sqrt ST WL WR pLe pRe z).u_hat - (HLLE_core sqrt ST WL WR pLe pRe z).c_hat)
    have e : (HLLE_core sqrt ST WL WR pLe pRe z).S1
        = MIN ((HLLE_core sqrt ST WL WR pLe pRe z).uL - (HLLE_core sqrt ST WL WR pLe pRe z).cL)
          ((HLLE_core sqrt ST WL WR pLe pRe z).u_hat
            - (HLLE_core sqrt ST WL WR pLe pRe z).c_hat) := rfl
    rw [e]
    rw [euL] at h ⊢
    linarith
  have hS2 : 0 < (HLLE_core sqrt ST WL WR pLe pRe z).S2 := by
    have h := le_MAX_left ((HLLE_core sqrt ST WL WR pLe pRe z).uR
        + (HLLE_core sqrt ST WL WR pLe pRe z).cR)
      ((HLLE_core sqrt ST WL WR pLe pRe z).u_hat + (HLLE_core sqrt ST WL WR pLe pRe z).c_hat)
    have e : (HLLE_core sqrt ST WL WR pLe pRe z).S2
        = MAX ((HLLE_core sqrt ST WL WR pLe pRe z).uR + (HLLE_core sqrt ST WL WR pLe pRe z).cR)
          ((HLLE_core sqrt ST WL WR pLe pRe z).u_hat
            + (HLLE_core sqrt ST WL WR pLe pRe z).c_hat) := rfl
    rw [e]
    rw [euR] at h ⊢
    linarith
  have hd : (HLLE_core sqrt ST WL WR pLe pRe z).diffS
      = (HLLE_core sqrt ST WL WR pLe pRe z).S2 - (HLLE_core sqrt ST WL WR pLe pRe z).S1 := rfl
  refine ⟨⟨epL', epR'⟩, hS1, hS2, by rw [hd]; linarith, ?_⟩
  intro m hm
  have eFL : ∀ m, (HLLE_core sqrt ST WL WR pLe pRe z).FL m
      = match m with
        | 0 => WL 1
        | 1 => if ST = 2 ∨ ST = 3 then
            WL 1 * (HLLE_core sqrt ST WL WR pLe pRe z).uL
              + ((HLLE_core sqrt ST WL WR pLe pRe z).pL - pLe)
          else WL 1 * (HLLE_core sqrt ST WL WR pLe pRe z).uL
            + (HLLE_core sqrt ST WL WR pLe pRe z).pL
        | 2 => WL 1 * (HLLE_core sqrt ST WL WR pLe pRe z).vL
        | 3 => WL 1 * (HLLE_core sqrt ST WL WR pLe pRe z).wL
        | 4 => (HLLE_core sqrt ST WL WR pLe pRe z).uL
            * (WL 4 + (HLLE_core sqrt ST WL WR pLe pRe z).pL)
        | _ => 0 := fun _ => rfl
  have eFR : ∀ m, (HLLE_core sqrt ST WL WR pLe pRe z).FR m
      = match m with
        | 0 => WR 1
        | 1 => if ST = 2 ∨ ST = 3 then
            WR 1 * (HLLE_core sqrt ST WL WR pLe pRe z).uR
              + ((HLLE_core sqrt ST WL WR pLe pRe z).pR - pRe)
          else WR 1 * (HLLE_core sqrt ST WL WR pLe pRe z).uR
            + (HLLE_core sqrt ST WL WR pLe pRe z).pR
        | 2 => WR 1 * (HLLE_core sqrt ST WL WR pLe pRe z).vR
        | 3 => WR 1 * (HLLE_core sqrt ST WL WR pLe pRe z).wR
        | 4 => (HLLE_core sqrt ST WL WR pLe pRe z).uR
            * (WR 4 + (HLLE_core sqrt ST WL WR pLe pRe z).pR)
        | _ => 0 := fun _ => rfl
  rw [eFL, eFR]
  interval_cases m
  · exact ⟨l1, r1⟩
  · simp only [if_pos hST, l1, r1, epL', epR', zero_mul, sub_self, add_zero, and_self]
  · simp only [l1, r1, zero_mul, and_self]
  · simp only [l1, r1, zero_mul, and_self]
  · simp only [euL, euR, zero_mul, and_self]

/-- The HLLE combination of vanishing physical fluxes and equal perturbation
states, with the left wave speed negative and the right one positive. -/
lemma HLLE_F_star_rest (r : Riemann K) (a b : Nat → K) (m : Nat)
    (hF : r.FL m = 0 ∧ r.FR m = 0) (hab : a m = b m) :
    HLLE_F_star r a b m = 0 := by
  unfold HLLE_F_star
  split_ifs
  · exact hF.1
  · exact hF.2
  · rw [hF.1, hF.2, hab, sub_self]
    simp

/-- The rotated array of a state without momentum. -/
lemma rotation_rest (nx ny nz : K) (U : Nat → K) (h : U 1 = 0 ∧ U 2 = 0 ∧ U 3 = 0) :
    rotation nx ny nz U 0 = U 0 ∧ rotation nx ny nz U 1 = 0 ∧ rotation nx ny nz U 2 = 0
    ∧ rotation nx ny nz U 3 = 0 ∧ rotation nx ny nz U 4 = U 4 := by
  obtain ⟨h1, h2, h3⟩ := h
  refine ⟨rfl, ?_, ?_, ?_, rfl⟩ <;> simp [rotation, h1, h2, h3]

/-- The rotated arrays of two states that agree in the five Euler components
agree there. -/
lemma rotation_congr5 (nx ny nz : K) (U V : Nat → K) (h : ∀ k, k < 5 → U k = V k) (m : Nat)
    (hm : m < 5) : rotation nx ny nz U m = rotation nx ny nz V m := by
  have h0 := h 0 (by decide)
  have h1 := h 1 (by decide)
  have h2 := h 2 (by decide)
  have h3 := h 3 (by decide)
  have h4 := h 4 (by decide)
  interval_cases m <;> simp [rotation, h0, h1, h2, h3, h4]

/-- The inverse rotation of a flux that vanishes in the five components. -/
lemma inverse_rotation_zero (nx ny nz : K) (F old : Nat → K) (hF : ∀ m, m < 5 → F m = 0)
    (m : Nat) (hm : m < 5) : inverse_rotation nx ny nz F old m = 0 := by
  have h0 := hF 0 (by decide)
  have h1 := hF 1 (by decide)
  have h2 := hF 2 (by decide)
  have h3 := hF 3 (by decide)
  have h4 := hF 4 (by decide)
  interval_cases m <;> simp [inverse_rotation, h0, h1, h2, h3, h4]

/-- The pressure of a state without momentum, through its rotated array. -/
lemma rotated_pressure_rest (ST : Nat) (nx ny nz z : K) (U Ue : Nat → K)
    (hU : ∀ k, k < 5 → U k = Ue k) (h : U 1 = 0 ∧ U 2 = 0 ∧ U 3 = 0) :
    pressure_from_energy ST gamma (Ue 4) (Ue 1 / Ue 0) (Ue 2 / Ue 0) (Ue 3 / Ue 0) (Ue 0) z
      = pressure_from_energy ST gamma (rotation nx ny nz U 4)
          (rotation nx ny nz U 1 / rotation nx ny nz U 0)
          (rotation nx ny nz U 2 / rotation nx ny nz U 0)
          (rotation nx ny nz U 3 / rotation nx ny nz U 0) (rotation nx ny nz U 0) z := by
  obtain ⟨r0, r1, r2, r3, r4⟩ := rotation_rest nx ny nz U h
  rw [r0, r1, r2, r3, r4, ← hU 0 (by decide), ← hU 1 (by decide), ← hU 2 (by decide),
    ← hU 3 (by decide), ← hU 4 (by decide), h.1, h.2.1, h.2.2]

/-- The function `compute_euler_HLLE` (single gamma) on a wall at rest in
source mode 2 or 3: the pressures of the two states are the stored
equilibrium pressures, the solver divides by a positive `S2 - S1`, and the
two fluxes vanish in the five Euler components. -/
lemma HLLE_wall_rest (sqrt : K → K) (hsq : ∀ x, 0 < x → 0 < sqrt x) (ST : Nat)
    (hST : ST = 2 ∨ ST = 3) (mt : Nat) (W : Wall K) (lam : K) (h : wall_at_rest ST W) :
    ((HLLE_vars sqrt ST false mt W).pL = W.pLe ∧ (HLLE_vars sqrt ST false mt W).pR = W.pRe)
    ∧ 0 < (HLLE_vars sqrt ST false mt W).diffS
    ∧ (∀ m, m < 5 → (compute_euler_HLLE sqrt ST false mt W lam).1.fL_star m = 0
        ∧ (compute_euler_HLLE sqrt ST false mt W lam).1.fR_star m = 0) := by
  obtain ⟨hUL, hUR, hLm, hRm, ⟨hL0, hR0⟩, ⟨hpL, hpR⟩, epL, epR⟩ := h
  obtain ⟨l0, l1, l2, l3, l4⟩ := rotation_rest W.nx W.ny W.nz W.UL hLm
  obtain ⟨r0, r1, r2, r3, r4⟩ := rotation_rest W.nx W.ny W.nz W.UR hRm
  obtain ⟨hp, hS1, hS2, hd, hF⟩ := HLLE_core_rest sqrt hsq ST hST
    (rotation W.nx W.ny W.nz W.UL) (rotation W.nx W.ny W.nz W.UR) W.pLe W.pRe W.z
    (by rw [l0]; exact hL0) (by rw [r0]; exact hR0) ⟨l1, l2, l3⟩ ⟨r1, r2, r3⟩ hpL hpR
    (by rw [epL]; exact rotated_pressure_rest ST _ _ _ _ _ _ hUL hLm)
    (by rw [epR]; exact rotated_pressure_rest ST _ _ _ _ _ _ hUR hRm)
  rw [← HLLE_vars_core sqrt ST mt W] at hp hS1 hS2 hd hF
  refine ⟨hp, hd, ?_⟩
  have hW : ∀ m, m < 5 →
      Wprime ST (HLLE_vars sqrt ST false mt W).WR (rotation W.nx W.ny W.nz W.URe) m
        = Wprime ST (HLLE_vars sqrt ST false mt W).WL (rotation W.nx W.ny W.nz W.ULe) m := by
    intro m hm
    have eR : (HLLE_vars sqrt ST false mt W).WR = rotation W.nx W.ny W.nz W.UR := rfl
    have eL : (HLLE_vars sqrt ST false mt W).WL = rotation W.nx W.ny W.nz W.UL := rfl
    rw [eR, eL]
    unfold Wprime
    rw [if_pos hST, if_pos hST, ← rotation_congr5 _ _ _ _ _ hUR m hm,
      ← rotation_congr5 _ _ _ _ _ hUL m hm]
    interval_cases m <;> simp [l1, r1]
  have hFs : ∀ m, m < 5 →
      HLLE_F_star (HLLE_vars sqrt ST false mt W)
        (Wprime ST (HLLE_vars sqrt ST false mt W).WR (rotation W.nx W.ny W.nz W.URe))
        (Wprime ST (HLLE_vars sqrt ST false mt W).WL (rotation W.nx W.ny W.nz W.ULe)) m = 0 :=
    fun m hm => HLLE_F_star_rest _ _ _ m (hF m hm) (hW m hm)
  intro m hm
  have eR : (compute_euler_HLLE sqrt ST false mt W lam).1.fR_star m
      = inverse_rotation W.nx W.ny W.nz
          (HLLE_F_star (HLLE_vars sqrt ST false mt W)
            (Wprime ST (HLLE_vars sqrt ST false mt W).WR (rotation W.nx W.ny W.nz W.URe))
            (Wprime ST (HLLE_vars sqrt ST false mt W).WL (rotation W.nx W.ny W.nz W.ULe)))
          W.fR_star m := rfl
  have eL : (compute_euler_HLLE sqrt ST false mt W lam).1.fL_star m
      = if m < 5 then (compute_euler_HLLE sqrt ST false mt W lam).1.fR_star m
        else W.fL_star m := rfl
  rw [eL, if_pos hm, eR, inverse_rotation_zero _ _ _ _ _ hFs m hm]
  exact ⟨rfl, rfl⟩

/-- The function `compute_solid_euler_hlle` on a solid wall whose inner state
is at rest, in source mode 2 or 3: the solver divides by a positive `S2 - S1`
and the two fluxes vanish in the five Euler components. -/
lemma solid_wall_rest (sqrt : K → K) (hsq : ∀ x, 0 < x → 0 < sqrt x) (ST : Nat)
    (hST : ST = 2 ∨ ST = 3) (W : Wall K) (lam : K) (wp : Int)
    (h : solid_wall_at_rest ST W wp) :
    0 < (solid_vars sqrt ST W wp).diffS
    ∧ (∀ m, m < 5 → (compute_solid_euler_hlle sqrt ST W lam wp).1.fL_star m = 0
        ∧ (compute_solid_euler_hlle sqrt ST W lam wp).1.fR_star m = 0) := by
  have key : ∀ (A B : Nat → K) (pe : K) (U Ue : Nat → K),
      (∀ k, k < 5 → U k = Ue k) → (U 1 = 0 ∧ U 2 = 0 ∧ U 3 = 0) → 0 < U 0 → 0 < pe →
      pe = pressure_from_energy ST gamma (Ue 4) (Ue 1 / Ue 0) (Ue 2 / Ue 0) (Ue 3 / Ue 0)
        (Ue 0) W.z →
      (∀ m, m < 5 → A m = rotation W.nx W.ny W.nz U m) →
      (∀ m, m < 5 → B m = rotation W.nx W.ny W.nz U m) →
      solid_vars sqrt ST W wp = HLLE_core sqrt ST A B pe pe W.z →
      (∀ m, m < 5 → (solid_Wprime ST W wp (solid_vars sqrt ST W wp)).1 m
        = (solid_Wprime ST W wp (solid_vars sqrt ST W wp)).2 m) →
      0 < (solid_vars sqrt ST W wp).diffS
      ∧ (∀ m, m < 5 → (compute_solid_euler_hlle sqrt ST W lam wp).1.fL_star m = 0
          ∧ (compute_solid_euler_hlle sqrt ST W lam wp).1.fR_star m = 0) := by
    intro A B pe U Ue hU hm h0 hpe epe hA hB hcore hWp
    obtain ⟨u0, u1, u2, u3, u4⟩ := rotation_rest W.nx W.ny W.nz U hm
    have ep : pe = pressure_from_energy ST gamma (rotation W.nx W.ny W.nz U 4)
          (rotation W.nx W.ny W.nz U 1 / rotation W.nx W.ny W.nz U 0)
          (rotation W.nx W.ny W.nz U 2 / rotation W.nx W.ny W.nz U 0)
          (rotation W.nx W.ny W.nz U 3 / rotation W.nx W.ny W.nz U 0)
          (rotation W.nx W.ny W.nz U 0) W.z := by
      rw [epe]; exact rotated_pressure_rest ST _ _ _ _ _ _ hU hm
    obtain ⟨-, -, -, hd, hF⟩ := HLLE_core_rest sqrt hsq ST hST A B pe pe W.z
      (by rw [hA 0 (by decide), u0]; exact h0) (by rw [hB 0 (by decide), u0]; exact h0)
      ⟨by rw [hA 1 (by decide), u1], by rw [hA 2 (by decide), u2], by rw [hA 3 (by decide), u3]⟩
      ⟨by rw [hB 1 (by decide), u1], by rw [hB 2 (by decide), u2], by rw [hB 3 (by decide), u3]⟩
      hpe hpe
      (by rw [hA 0 (by decide), hA 1 (by decide), hA 2 (by decide), hA 3 (by decide),
        hA 4 (by decide)]; exact ep)
      (by rw [hB 0 (by decide), hB 1 (by decide), hB 2 (by decide), hB 3 (by decide),
        hB 4 (by decide)]; exact ep)
    rw [← hcore] at hd hF
    refine ⟨hd, ?_⟩
    have hFs : ∀ m, m < 5 →
        HLLE_F_star (solid_vars sqrt ST W wp)
          (solid_Wprime ST W wp (solid_vars sqrt ST W wp)).1
          (solid_Wprime ST W wp (solid_vars sqrt ST W wp)).2 m = 0 :=
      fun m hm => HLLE_F_star_rest _ _ _ m (hF m hm) (hWp m hm)
    intro m hm
    have eR : (compute_solid_euler_hlle sqrt ST W lam wp).1.fR_star m
        = inverse_rotation W.nx W.ny W.nz
            (HLLE_F_star (solid_vars sqrt ST W wp)
              (solid_Wprime ST W wp (solid_vars sqrt ST W wp)).1
              (solid_Wprime ST W wp (solid_vars sqrt ST W wp)).2)
            W.fR_star m := rfl
    have eL : (compute_solid_euler_hlle sqrt ST W lam wp).1.fL_star m
        = if m < 5 then (compute_solid_euler_hlle sqrt ST W lam wp).1.fR_star m
          else W.fL_star m := rfl
    rw [eL, if_pos hm, eR, inverse_rotation_zero _ _ _ _ _ hFs m hm]
    exact ⟨rfl, rfl⟩
  have hcore := solid_vars_core sqrt ST W wp
  by_cases hwp : wp = 1 ∨ wp = 4 ∨ wp = 5
  · unfold solid_wall_at_rest at h
    rw [if_pos hwp] at h
    obtain ⟨hU, hm, h0, hpe, epe⟩ := h
    obtain ⟨u0, u1, u2, u3, u4⟩ := rotation_rest W.nx W.ny W.nz W.UR hm
    simp only [if_pos hwp] at hcore
    refine key _ _ W.pRe W.UR W.URe hU hm h0 hpe epe ?_ ?_ hcore ?_
    · intro m hm5
      simp only [if_pos hm5, mirror]
      interval_cases m <;> simp [u1]
    · intro m _
      rfl
    · intro m hm5
      have eWR : (solid_vars sqrt ST W wp).WR = fun m => rotation W.nx W.ny W.nz W.UR m := by
        rw [hcore]; rfl
      have eWL : (solid_vars sqrt ST W wp).WL
          = fun m => if m < 5 then mirror (rotation W.nx W.ny W.nz W.UR) m
            else rotation W.nx W.ny W.nz W.UL m := by
        rw [hcore]; rfl
      unfold solid_Wprime
      simp only [if_pos hST, if_pos hwp, eWR, eWL, if_pos hm5, mirror]
      interval_cases m <;> simp [u1]
  · unfold solid_wall_at_rest at h
    rw [if_neg hwp] at h
    obtain ⟨hU, hm, h0, hpe, epe⟩ := h
    obtain ⟨u0, u1, u2, u3, u4⟩ := rotation_rest W.nx W.ny W.nz W.UL hm
    simp only [if_neg hwp] at hcore
    refine key _ _ W.pLe W.UL W.ULe hU hm h0 hpe epe ?_ ?_ hcore ?_
    · intro m _
      rfl
    · intro m hm5
      simp only [if_pos hm5, mirror]
      interval_cases m <;> simp [u1]
    · intro m hm5
      have eWL : (solid_vars sqrt ST W wp).WL = fun m => rotation W.nx W.ny W.nz W.UL m := by
        rw [hcore]; rfl
      have eWR : (solid_vars sqrt ST W wp).WR
          = fun m => if m < 5 then mirror (rotation W.nx W.ny W.nz W.UL) m
            else rotation W.nx W.ny W.nz W.UR m := by
        rw [hcore]; rfl
      unfold solid_Wprime
      simp only [if_pos hST, if_neg hwp, eWR, eWL, if_pos hm5, mirror]
      interval_cases m <;> simp [u1]

/-- With only the HLLE solver compiled in (single gamma), the body of the
wall loop of `compute_fluxes` returns a wall that does not depend on the
running maximum, unless a boundary wall has `boundId` 999: on an inner wall
it is what `compute_euler_HLLE` and `compute_transport` make of the
reconstructed wall, on a solid wall what `compute_solid_euler_hlle` and
`compute_transport` make of it. -/
lemma compute_fluxes_wall_HLLE (sqrt : K → K) (fl : Flags) (mesh : Mesh K) (sim : Sim K)
    (wall : Wall K)
    (hfl : fl.HLLE = true ∧ fl.HLLC = false ∧ fl.HLLS = false ∧ fl.LINEAR_TRANSPORT = false
      ∧ fl.MULTICOMPONENT = false)
    (hb : wall.wtype = 3 ∨ wall.wtype = 4 → wall.boundId ≠ 999) :
    ∃ W : Wall K, (∀ lam : K, ∃ lam' : K,
      compute_fluxes_wall sqrt fl mesh sim wall lam = some (W, lam'))
      ∧ (wall.wtype = 1 → W = compute_transport false
          (compute_euler_HLLE sqrt fl.ST false fl.MULTI_TYPE
            (compute_fluxes_reconstruct fl mesh sim wall) 0).1)
      ∧ (wall.wtype = 4 → W = compute_transport false
          (compute_solid_euler_hlle sqrt fl.ST
            (compute_fluxes_reconstruct fl mesh sim wall) 0 wall.boundId).1) := by
  obtain ⟨h1, h2, h3, h4, h5⟩ := hfl
  have hr : (compute_fluxes_reconstruct fl mesh sim wall).wtype = wall.wtype := rfl
  have hrb : (compute_fluxes_reconstruct fl mesh sim wall).boundId = wall.boundId := rfl
  by_cases hw0 : wall.wtype = 0
  · refine ⟨wall, fun lam => ⟨lam, by simp [compute_fluxes_wall, hw0]⟩, ?_, ?_⟩
    · intro h; rw [hw0] at h; exact absurd h (by decide)
    · intro h; rw [hw0] at h; exact absurd h (by decide)
  by_cases hw1 : wall.wtype = 1
  · refine ⟨compute_transport false (compute_euler_HLLE sqrt fl.ST false fl.MULTI_TYPE
      (compute_fluxes_reconstruct fl mesh sim wall) 0).1,
      fun lam => ⟨(compute_euler_HLLE sqrt fl.ST false fl.MULTI_TYPE
        (compute_fluxes_reconstruct fl mesh sim wall) lam).2, ?_⟩, fun _ => rfl, ?_⟩
    · unfold compute_fluxes_wall
      simp only [hw0, hr, hw1, h1, h2, h3, h4, h5, ne_eq, not_false_eq_true, if_true, if_false,
        Bool.false_eq_true, Option.map_some']
      rfl
    · intro h; rw [hw1] at h; exact absurd h (by decide)
  by_cases hw3 : wall.wtype = 3
  · have hb' := hb (Or.inl hw3)
    refine ⟨compute_transport fl.LINEAR_TRANSPORT (compute_transmissive_euler fl.MULTICOMPONENT
      fl.MULTI_TYPE (compute_fluxes_reconstruct fl mesh sim wall) wall.boundId),
      fun lam => ⟨lam, ?_⟩, fun h => absurd h hw1, ?_⟩
    · unfold compute_fluxes_wall
      simp only [hw0, hr, hrb, hw1, hw3, hb', ne_eq, not_false_eq_true, if_true, if_false,
        Option.map_some']
      simp
    · intro h; rw [hw3] at h; exact absurd h (by decide)
  by_cases hw4 : wall.wtype = 4
  · have hb' := hb (Or.inr hw4)
    refine ⟨compute_transport false (compute_solid_euler_hlle sqrt fl.ST
      (compute_fluxes_reconstruct fl mesh sim wall) 0 wall.boundId).1, fun lam =>
        ⟨(compute_solid_euler_hlle sqrt fl.ST
          (compute_fluxes_reconstruct fl mesh sim wall) lam wall.boundId).2, ?_⟩,
      fun h => absurd h hw1, fun _ => rfl⟩
    unfold compute_fluxes_wall
    simp only [hw0, hr, hrb, hw1, hw3, hw4, hb', h4, ne_eq, not_false_eq_true, if_true, if_false,
      Option.map_some']
    rfl
  · refine ⟨compute_transport fl.LINEAR_TRANSPORT (compute_fluxes_reconstruct fl mesh sim wall),
      fun lam => ⟨lam, ?_⟩, fun h => absurd h hw1, fun h => absurd h hw4⟩
    unfold compute_fluxes_wall
    simp only [hw0, hr, hw1, hw3, hw4, ne_eq, not_false_eq_true, if_true, if_false,
      Option.map_some']

/-- The function `compute_transport` on a wall whose two fluxes vanish in the
five Euler components: the scalar flux it writes vanishes too. -/
lemma compute_transport_zero (W : Wall K)
    (h : ∀ m, m < 5 → W.fL_star m = 0 ∧ W.fR_star m = 0) (k : Nat) (hk : k < 6) :
    (compute_transport false W).fL_star k = 0 ∧ (compute_transport false W).fR_star k = 0 := by
  have h0 := h 0 (by decide)
  have f5 : (if W.fR_star 0 < TOL14 then W.fR_star 0 * W.UR 5 / W.UR 0
      else W.fL_star 0 * W.UL 5 / W.UL 0) = (0 : K) := by
    rw [h0.1, h0.2]; simp
  have eR : (compute_transport false W).fR_star
      = Function.update W.fR_star 5 (if W.fR_star 0 < TOL14 then W.fR_star 0 * W.UR 5 / W.UR 0
          else W.fL_star 0 * W.UL 5 / W.UL 0) := rfl
  have eL : (compute_transport false W).fL_star
      = Function.update W.fL_star 5 (Function.update W.fR_star 5
          (if W.fR_star 0 < TOL14 then W.fR_star 0 * W.UR 5 / W.UR 0
            else W.fL_star 0 * W.UL 5 / W.UL 0) 5) := rfl
  rw [eR, eL, f5]
  by_cases h5 : k = 5
  · subst h5; simp
  · rw [Function.update_noteq h5, Function.update_noteq h5]
    exact h k (by omega)

/-- The function `compute_source` writes `S` only. -/
lemma compute_source_cell_frame (ST : Nat) (mesh : Mesh K) (i : Nat) :
    { (compute_source ST mesh).cell i with S := (mesh.cell i).S } = mesh.cell i := by
  rw [compute_source_cell]
  split_ifs <;> rfl

/-- A cell that satisfies `RestCell` is a fixed point of the sub-steps:
`compute_fluxes` returns a mesh in which the fluxes at its six walls vanish,
`compute_source` gives it a zero source, and each of the four update routines
leaves its state as it was. -/
lemma rest_cell_fixed (sqrt : K → K) (hsq : ∀ x, 0 < x → 0 < sqrt x) (fl : Flags)
    (M : Mesh K) (sim : Sim K) (i : Nat) (h : RestCell fl M sim i) :
    ∃ M2 : Mesh K, compute_fluxes sqrt fl M sim = some M2
      ∧ (∀ j, (j = (M.cell i).w1 ∨ j = (M.cell i).w2 ∨ j = (M.cell i).w3
          ∨ j = (M.cell i).w4 ∨ j = (M.cell i).w5 ∨ j = (M.cell i).w6) →
          ∀ k, k < 6 → (M2.wall j).fL_star k = 0 ∧ (M2.wall j).fR_star k = 0)
      ∧ (∀ k, k < 6 → ((compute_source fl.ST M2).cell i).S k = 0)
      ∧ (∀ k, ((update_cell (compute_source fl.ST M2) sim).cell i).U k = (M.cell i).U k)
      ∧ (∀ k, ((update_cellK1 (compute_source fl.ST M2) sim).cell i).U k = (M.cell i).U k)
      ∧ ((∀ k, k < sim.nvar → (M.cell i).U_aux k = (M.cell i).U k) →
          (∀ k, ((update_cellK2 (compute_source fl.ST M2) sim).cell i).U k = (M.cell i).U k)
          ∧ (∀ k, ((update_cellK3 (compute_source fl.ST M2) sim).cell i).U k
              = (M.cell i).U k)) := by
  have hsome : ∀ j, j < M.nwalls → ∃ W : Wall K, (∀ lam : K, ∃ lam' : K,
      compute_fluxes_wall sqrt fl M sim (M.wall j) lam = some (W, lam'))
      ∧ ((M.wall j).wtype = 1 → W = compute_transport false
          (compute_euler_HLLE sqrt fl.ST false fl.MULTI_TYPE
            (compute_fluxes_reconstruct fl M sim (M.wall j)) 0).1)
      ∧ ((M.wall j).wtype = 4 → W = compute_transport false
          (compute_solid_euler_hlle sqrt fl.ST
            (compute_fluxes_reconstruct fl M sim (M.wall j)) 0 (M.wall j).boundId).1) :=
    fun j hj => compute_fluxes_wall_HLLE sqrt fl M sim (M.wall j) h.solver (h.bound_ids j hj)
  choose G hG using hsome
  obtain ⟨M2, hM2, hcell, hncells, -, hwall⟩ :=
    compute_fluxes_walls sqrt fl M sim
      (fun j => if hj : j < M.nwalls then G j hj else M.wall j)
      (fun j hj lam => by
        obtain ⟨lam', hl⟩ := (hG j hj).1 lam
        exact ⟨lam', by simp only [dif_pos hj]; exact hl⟩)
  have hflux : ∀ j, (j = (M.cell i).w1 ∨ j = (M.cell i).w2 ∨ j = (M.cell i).w3
      ∨ j = (M.cell i).w4 ∨ j = (M.cell i).w5 ∨ j = (M.cell i).w6) →
      ∀ k, k < 6 → (M2.wall j).fL_star k = 0 ∧ (M2.wall j).fR_star k = 0 := by
    intro j hj k hk
    obtain ⟨hjn, hw⟩ := h.walls j hj
    rw [hwall j hjn, dif_pos hjn]
    rcases hw with ⟨hw1, hrest⟩ | ⟨hw4, hrest, -⟩
    · rw [(hG j hjn).2.1 hw1]
      exact compute_transport_zero _
        (HLLE_wall_rest sqrt hsq fl.ST h.mode fl.MULTI_TYPE _ 0 hrest).2.2 k hk
    · rw [(hG j hjn).2.2 hw4]
      exact compute_transport_zero _
        (solid_wall_rest sqrt hsq fl.ST h.mode _ 0 _ hrest).2 k hk
  have hsrc : ∀ k, k < 6 → ((compute_source fl.ST M2).cell i).S k = 0 := by
    intro k hk
    have hi : i < M2.ncells := by rw [hncells]; exact h.cell_lt
    have ht : (M2.cell i).type ≠ 0 := by rw [hcell]; exact h.integrated.1
    obtain ⟨s0, s1, s2, s5⟩ := h.source_zero
    obtain ⟨e0, e3⟩ := h.equilibrium
    rw [compute_source_cell, if_pos hi]
    rcases h.mode with h2 | h3
    · rw [if_neg (by rw [h2]; decide), if_pos h2, if_pos ht, hcell]
      interval_cases k <;> simp [s0, s1, s2, s5, e0, e3]
    · rw [if_neg (by rw [h3]; decide), if_neg (by rw [h3]; decide), if_pos ht, hcell]
      interval_cases k <;> simp [s0, s1, s2, s5, e0]
  have hfd : ∀ k, k < 6 →
      flux_divergence (compute_source fl.ST M2).wall ((compute_source fl.ST M2).cell i) k
        = 0 := by
    intro k hk
    have ew : (compute_source fl.ST M2).wall = M2.wall := rfl
    have hc := congrArg (fun c : Cell K => (c.w1, c.w2, c.w3, c.w4, c.w5, c.w6))
      (compute_source_cell_frame fl.ST M2 i)
    simp only [Prod.mk.injEq, hcell] at hc
    obtain ⟨e1, e2, e3, e4, e5, e6⟩ := hc
    unfold flux_divergence
    rw [ew, e1, e2, e3, e4, e5, e6,
      (hflux _ (Or.inl rfl) k hk).2,
      (hflux _ (Or.inr (Or.inl rfl)) k hk).1,
      (hflux _ (Or.inr (Or.inr (Or.inl rfl))) k hk).1,
      (hflux _ (Or.inr (Or.inr (Or.inr (Or.inl rfl)))) k hk).2,
      (hflux _ (Or.inr (Or.inr (Or.inr (Or.inr (Or.inl rfl))))) k hk).2,
      (hflux _ (Or.inr (Or.inr (Or.inr (Or.inr (Or.inr rfl))))) k hk).1]
    simp
  have hU : ((compute_source fl.ST M2).cell i).U = (M.cell i).U := by
    have := congrArg Cell.U (compute_source_cell_frame fl.ST M2 i)
    rw [hcell] at this
    exact this
  have hUa : ((compute_source fl.ST M2).cell i).U_aux = (M.cell i).U_aux := by
    have := congrArg Cell.U_aux (compute_source_cell_frame fl.ST M2 i)
    rw [hcell] at this
    exact this
  have hi2 : i < (compute_source fl.ST M2).ncells := by
    show i < M2.ncells
    rw [hncells]; exact h.cell_lt
  have hty : ((compute_source fl.ST M2).cell i).type ≠ 0
      ∧ ((compute_source fl.ST M2).cell i).ghost ≠ 1 := by
    have e1 : ((compute_source fl.ST M2).cell i).type = (M.cell i).type := by
      have := congrArg Cell.type (compute_source_cell_frame fl.ST M2 i)
      rw [hcell] at this
      exact this
    have e2 : ((compute_source fl.ST M2).cell i).ghost = (M.cell i).ghost := by
      have := congrArg Cell.ghost (compute_source_cell_frame fl.ST M2 i)
      rw [hcell] at this
      exact this
    rw [e1, e2]
    exact h.integrated
  have hn6 := h.nvar_le
  have hA : ∀ k, ((update_cell (compute_source fl.ST M2) sim).cell i).U k = (M.cell i).U k := by
    intro k
    rw [update_cell_cell, if_pos hi2, if_pos hty]
    show (if k < sim.nvar then ((compute_source fl.ST M2).cell i).U k
          - sim.dt * flux_divergence (compute_source fl.ST M2).wall
            ((compute_source fl.ST M2).cell i) k
        else ((compute_source fl.ST M2).cell i).U k) = _
    split_ifs with c
    · rw [hfd k (by omega), hU]
      ring
    · exact congrFun hU k
  have hB : ∀ k, ((update_cellK1 (compute_source fl.ST M2) sim).cell i).U k
      = (M.cell i).U k := by
    intro k
    rw [update_cellK1_cell, if_pos hi2, if_pos hty]
    show (if k < sim.nvar then ((compute_source fl.ST M2).cell i).U k
          - sim.dt * (flux_divergence (compute_source fl.ST M2).wall
            ((compute_source fl.ST M2).cell i) k - ((compute_source fl.ST M2).cell i).S k)
        else ((compute_source fl.ST M2).cell i).U k) = _
    split_ifs with c
    · rw [hfd k (by omega), hsrc k (by omega), hU]
      ring
    · exact congrFun hU k
  have hC : (∀ k, k < sim.nvar → (M.cell i).U_aux k = (M.cell i).U k) →
      (∀ k, ((update_cellK2 (compute_source fl.ST M2) sim).cell i).U k = (M.cell i).U k)
      ∧ (∀ k, ((update_cellK3 (compute_source fl.ST M2) sim).cell i).U k
          = (M.cell i).U k) := by
    intro haux
    constructor
    · intro k
      rw [update_cellK2_cell, if_pos hi2, if_pos hty]
      show (if k < sim.nvar then 3 / 4 * ((compute_source fl.ST M2).cell i).U_aux k
            + 1 / 4 * ((compute_source fl.ST M2).cell i).U k
            - 1 / 4 * sim.dt * (flux_divergence (compute_source fl.ST M2).wall
              ((compute_source fl.ST M2).cell i) k - ((compute_source fl.ST M2).cell i).S k)
          else ((compute_source fl.ST M2).cell i).U k) = _
      split_ifs with c
      · rw [hfd k (by omega), hsrc k (by omega), hU, hUa, haux k c]
        ring
      · exact congrFun hU k
    · intro k
      rw [update_cellK3_cell, if_pos hi2, if_pos hty]
      show (if k < sim.nvar then 1 / 3 * ((compute_source fl.ST M2).cell i).U_aux k
            + 2 / 3 * ((compute_source fl.ST M2).cell i).U k
            - 2 / 3 * sim.dt * (flux_divergence (compute_source fl.ST M2).wall
              ((compute_source fl.ST M2).cell i) k - ((compute_source fl.ST M2).cell i).S k)
          else ((compute_source fl.ST M2).cell i).U k) = _
      split_ifs with c
      · rw [hfd k (by omega), hsrc k (by omega), hU, hUa, haux k c]
        ring
      · exact congrFun hU k
  exact ⟨M2, hM2, hflux, hsrc, hA, hB, hC⟩

/-- Claim C32: in the perturbation modes (`ST` 2 or 3, single gamma), (1) on a
wall at rest (`wall_at_rest`: the two reconstructed states equal the two
equilibrium states in the five Euler components, with zero momentum, positive
densities and positive equilibrium pressures, which are the pressures of the
equilibrium states) the pressures computed by `compute_euler_HLLE` are the
stored equilibrium pressures, the solver divides by a positive `S2 - S1`, and
the fluxes `fL_star` and `fR_star` it writes are zero in the five Euler
components; (2) the same holds for `compute_solid_euler_hlle` on a solid wall
whose inner state is at rest; (3) for an integrated cell at `U = Ue` all of
whose walls are inner walls at rest or solid walls with inner state at rest
(`RestCell`), `compute_fluxes` returns a mesh in which the fluxes at the six
walls of the cell vanish, `compute_source` gives the cell the source 0, and
each update routine (`update_cell`, `update_cellK1`, and `update_cellK2`,
`update_cellK3` when `U_aux = U`) leaves the state of the cell as it was. -/
theorem hydrostatic_fixed_point_HLLE (ST mt : Nat) (W Ws : Wall ℝ) (lam lams : ℝ) (wp : Int)
    (fl : Flags) (M : Mesh ℝ) (sim : Sim ℝ) (i : Nat)
    (hST : ST = 2 ∨ ST = 3) (hW : wall_at_rest ST W) (hWs : solid_wall_at_rest ST Ws wp)
    (hcell : RestCell fl M sim i) :
    (((HLLE_vars Real.sqrt ST false mt W).pL = W.pLe
        ∧ (HLLE_vars Real.sqrt ST false mt W).pR = W.pRe)
      ∧ 0 < (HLLE_vars Real.sqrt ST false mt W).diffS
      ∧ (∀ m, m < 5 → (compute_euler_HLLE Real.sqrt ST false mt W lam).1.fL_star m = 0
          ∧ (compute_euler_HLLE Real.sqrt ST false mt W lam).1.fR_star m = 0))
    ∧ (0 < (solid_vars Real.sqrt ST Ws wp).diffS
      ∧ (∀ m, m < 5 → (compute_solid_euler_hlle Real.sqrt ST Ws lams wp).1.fL_star m = 0
          ∧ (compute_solid_euler_hlle Real.sqrt ST Ws lams wp).1.fR_star m = 0))
    ∧ (∃ M2 : Mesh ℝ, compute_fluxes Real.sqrt fl M sim = some M2
      ∧ (∀ j, (j = (M.cell i).w1 ∨ j = (M.cell i).w2 ∨ j = (M.cell i).w3
          ∨ j = (M.cell i).w4 ∨ j = (M.cell i).w5 ∨ j = (M.cell i).w6) →
          ∀ k, k < 6 → (M2.wall j).fL_star k = 0 ∧ (M2.wall j).fR_star k = 0)
      ∧ (∀ k, k < 6 → ((compute_source fl.ST M2).cell i).S k = 0)
      ∧ (∀ k, ((update_cell (compute_source fl.ST M2) sim).cell i).U k = (M.cell i).U k)
      ∧ (∀ k, ((update_cellK1 (compute_source fl.ST M2) sim).cell i).U k = (M.cell i).U k)
      ∧ ((∀ k, k < sim.nvar → (M.cell i).U_aux k = (M.cell i).U k) →
          (∀ k, ((update_cellK2 (compute_source fl.ST M2) sim).cell i).U k = (M.cell i).U k)
          ∧ (∀ k, ((update_cellK3 (compute_source fl.ST M2) sim).cell i).U k
              = (M.cell i).U k))) :=
  ⟨HLLE_wall_rest Real.sqrt (fun _ hx => Real.sqrt_pos.mpr hx) ST hST mt W lam hW,
    solid_wall_rest Real.sqrt (fun _ hx => Real.sqrt_pos.mpr hx) ST hST Ws lams wp hWs,
    rest_cell_fixed Real.sqrt (fun _ hx => Real.sqrt_pos.mpr hx) fl M sim i hcell⟩

/-- The walls of `hydroMesh` after the reconstruction of `compute_fluxes`:
the states are `hydroState`. -/
lemma hydroMesh_reconstruct (j : Nat) :
    (∀ k, (compute_fluxes_reconstruct hlleFlags (hydroMesh : Mesh K) (eulerSim 1 3)
        ((hydroMesh : Mesh K).wall j)).UL k = hydroState k)
    ∧ (∀ k, (compute_fluxes_reconstruct hlleFlags (hydroMesh : Mesh K) (eulerSim 1 3)
        ((hydroMesh : Mesh K).wall j)).UR k = hydroState k) := by
  have hL : ∀ k, (compute_fluxes_reconstruct hlleFlags (hydroMesh : Mesh K) (eulerSim 1 3)
      ((hydroMesh : Mesh K).wall j)).UL k
      = reconstruct (weno3L 2) (weno5L 2) (weno7L 2) 1
          (wall_stencil ((hydroMesh : Mesh K).wall j) ((hydroMesh : Mesh K).cell 0)).2
          (hydroMesh : Mesh K).cell Cell.U ((hydroMesh : Mesh K).cell 0) 6 hydroState k := by
    intro k
    show reconstruct (weno3L 2) (weno5L 2) (weno7L 2)
        (wall_stencil ((hydroMesh : Mesh K).wall j) ((hydroMesh : Mesh K).cell 0)).1 _ _ _ _ _ _ _
      = _
    have e : (wall_stencil ((hydroMesh : Mesh K).wall j) ((hydroMesh : Mesh K).cell 0)).1 = 1 := by
      unfold wall_stencil
      split_ifs <;> rfl
    rw [e]
    rfl
  have hR : ∀ k, (compute_fluxes_reconstruct hlleFlags (hydroMesh : Mesh K) (eulerSim 1 3)
      ((hydroMesh : Mesh K).wall j)).UR k
      = reconstruct (weno3R 2) (weno5R 2) (weno7R 2) 1
          (wall_stencil ((hydroMesh : Mesh K).wall j) ((hydroMesh : Mesh K).cell 0)).2
          (hydroMesh : Mesh K).cell Cell.U ((hydroMesh : Mesh K).cell 0) 6 hydroState k := by
    intro k
    show reconstruct (weno3R 2) (weno5R 2) (weno7R 2)
        (wall_stencil ((hydroMesh : Mesh K).wall j) ((hydroMesh : Mesh K).cell 0)).1 _ _ _ _ _ _ _
      = _
    have e : (wall_stencil ((hydroMesh : Mesh K).wall j) ((hydroMesh : Mesh K).cell 0)).1 = 1 := by
      unfold wall_stencil
      split_ifs <;> rfl
    rw [e]
    rfl
  constructor
  · intro k
    rw [hL k]
    by_cases hk : k < 6
    · rw [reconstruct_apply _ _ _ _ _ _ _ _ _ _ k hk, if_pos rfl]
      rfl
    · unfold reconstruct
      rw [if_pos rfl, forLoop_assign]
      show (if k < 6 then _ else _) = _
      rw [if_neg hk]
  · intro k
    rw [hR k]
    by_cases hk : k < 6
    · rw [reconstruct_apply _ _ _ _ _ _ _ _ _ _ k hk, if_pos rfl]
      rfl
    · unfold reconstruct
      rw [if_pos rfl, forLoop_assign]
      show (if k < 6 then _ else _) = _
      rw [if_neg hk]

/-- The value of `hydroState` in each component. -/
lemma hydroState_values : (hydroState : Nat → K) 0 = 9 ∧ (hydroState : Nat → K) 1 = 0
    ∧ (hydroState : Nat → K) 2 = 0 ∧ (hydroState : Nat → K) 3 = 0
    ∧ (hydroState : Nat → K) 4 = 20 :=
  ⟨rfl, rfl, rfl, rfl, rfl⟩

/-- The equilibrium pressure 8 is the pressure of `hydroState` in mode 2. -/
lemma hydroState_pressure (z : K) :
    (8 : K) = pressure_from_energy 2 gamma ((hydroState : Nat → K) 4)
      ((hydroState : Nat → K) 1 / (hydroState : Nat → K) 0)
      ((hydroState : Nat → K) 2 / (hydroState : Nat → K) 0)
      ((hydroState : Nat → K) 3 / (hydroState : Nat → K) 0) ((hydroState : Nat → K) 0) z := by
  obtain ⟨h0, h1, h2, h3, h4⟩ := hydroState_values (K := K)
  rw [h0, h1, h2, h3, h4]
  simp only [pressure_from_energy, gamma, if_neg (show ¬ (2 : Nat) = 3 by decide)]
  norm_num

/-- The cell of `hydroMesh` satisfies `RestCell`. -/
lemma hydroMesh_rest : RestCell hlleFlags (hydroMesh : Mesh K) (eulerSim 1 3) 0 where
  mode := Or.inl rfl
  solver := ⟨rfl, rfl, rfl, rfl, rfl⟩
  nvar_le := le_refl 6
  bound_ids := by
    intro j hj hw
    have hj6 : j < 6 := hj
    have hw' : (hydroWall j : Wall K).wtype = 3 ∨ (hydroWall j : Wall K).wtype = 4 := hw
    show (hydroWall j : Wall K).boundId ≠ 999
    interval_cases j <;> simp [hydroWall] at hw' ⊢
  cell_lt := by show 0 < 1; decide
  integrated := ⟨by show (1 : Int) ≠ 0; decide, by show (0 : Int) ≠ 1; decide⟩
  equilibrium := ⟨rfl, rfl⟩
  source_zero := ⟨rfl, rfl, rfl, rfl⟩
  walls := by
    intro j hj
    have hj6 : j < 6 := by
      have e1 : ((hydroMesh : Mesh K).cell 0).w1 = 0 := rfl
      have e2 : ((hydroMesh : Mesh K).cell 0).w2 = 1 := rfl
      have e3 : ((hydroMesh : Mesh K).cell 0).w3 = 2 := rfl
      have e4 : ((hydroMesh : Mesh K).cell 0).w4 = 3 := rfl
      have e5 : ((hydroMesh : Mesh K).cell 0).w5 = 4 := rfl
      have e6 : ((hydroMesh : Mesh K).cell 0).w6 = 5 := rfl
      rw [e1, e2, e3, e4, e5, e6] at hj
      omega
    obtain ⟨hUL, hUR⟩ := hydroMesh_reconstruct (K := K) j
    obtain ⟨h0, h1, h2, h3, h4⟩ := hydroState_values (K := K)
    refine ⟨hj6, ?_⟩
    by_cases h4j : j < 4
    · left
      refine ⟨by show (hydroWall j : Wall K).wtype = 1; simp [hydroWall, h4j], ?_⟩
      refine ⟨fun k _ => hUL k, fun k _ => hUR k,
        ⟨by rw [hUL, h1], by rw [hUL, h2], by rw [hUL, h3]⟩,
        ⟨by rw [hUR, h1], by rw [hUR, h2], by rw [hUR, h3]⟩,
        ⟨by rw [hUL, h0]; norm_num, by rw [hUR, h0]; norm_num⟩,
        ⟨by show (0 : K) < 8; norm_num, by show (0 : K) < 8; norm_num⟩,
        hydroState_pressure _, hydroState_pressure _⟩
    · right
      refine ⟨by show (hydroWall j : Wall K).wtype = 4; simp [hydroWall, h4j], ?_,
        by rw [hUR, h0]; norm_num⟩
      unfold solid_wall_at_rest
      split_ifs
      · exact ⟨fun k _ => hUR k, ⟨by rw [hUR, h1], by rw [hUR, h2], by rw [hUR, h3]⟩,
          by rw [hUR, h0]; norm_num, by show (0 : K) < 8; norm_num, hydroState_pressure _⟩
      · exact ⟨fun k _ => hUL k, ⟨by rw [hUL, h1], by rw [hUL, h2], by rw [hUL, h3]⟩,
          by rw [hUL, h0]; norm_num, by show (0 : K) < 8; norm_num, hydroState_pressure _⟩

/-- Every wall of `hydroMesh` is at rest, on both sides. -/
lemma hydroWall_rest (j : Nat) (wp : Int) :
    wall_at_rest 2 (hydroWall j : Wall K) ∧ solid_wall_at_rest 2 (hydroWall j : Wall K) wp := by
  have h8 : (0 : K) < hydroPressure := by show (0 : K) < 8; norm_num
  have h9 : (0 : K) < hydroState 0 := by show (0 : K) < 9; norm_num
  constructor
  · exact ⟨fun _ _ => rfl, fun _ _ => rfl, ⟨rfl, rfl, rfl⟩, ⟨rfl, rfl, rfl⟩, ⟨h9, h9⟩, ⟨h8, h8⟩,
      hydroState_pressure _, hydroState_pressure _⟩
  · unfold solid_wall_at_rest
    split_ifs
    · exact ⟨fun _ _ => rfl, ⟨rfl, rfl, rfl⟩, h9, h8, hydroState_pressure _⟩
    · exact ⟨fun _ _ => rfl, ⟨rfl, rfl, rfl⟩, h9, h8, hydroState_pressure _⟩

/-- Instance of `hydrostatic_fixed_point_HLLE` in mode 2: the lateral wall 1
and the solid lid (wall 5, boundary id 6) of `hydroMesh` are at rest and its
cell satisfies `RestCell`; the HLLE flux at the wall and the solid-wall flux at
the lid vanish, and `update_cellK1` leaves the cell at `hydroState`. -/
theorem hydrostatic_fixed_point_HLLE_witness :
    (((2 : Nat) = 2 ∨ (2 : Nat) = 3) ∧ wall_at_rest 2 (hydroWall 1 : Wall ℝ)
      ∧ solid_wall_at_rest 2 (hydroWall 5 : Wall ℝ) 6
      ∧ RestCell hlleFlags (hydroMesh : Mesh ℝ) (eulerSim 1 3) 0)
    ∧ (∀ m, m < 5 →
        (compute_euler_HLLE Real.sqrt 2 false 0 (hydroWall 1 : Wall ℝ) 0).1.fL_star m = 0
        ∧ (compute_euler_HLLE Real.sqrt 2 false 0 (hydroWall 1 : Wall ℝ) 0).1.fR_star m = 0)
    ∧ (∀ m, m < 5 →
        (compute_solid_euler_hlle Real.sqrt 2 (hydroWall 5 : Wall ℝ) 0 6).1.fL_star m = 0
        ∧ (compute_solid_euler_hlle Real.sqrt 2 (hydroWall 5 : Wall ℝ) 0 6).1.fR_star m = 0)
    ∧ ∃ M2 : Mesh ℝ, compute_fluxes Real.sqrt hlleFlags (hydroMesh : Mesh ℝ) (eulerSim 1 3)
        = some M2
      ∧ ∀ k, ((update_cellK1 (compute_source 2 M2) (eulerSim 1 3)).cell 0).U k
          = (hydroState : Nat → ℝ) k := by
  have h := hydrostatic_fixed_point_HLLE 2 0 (hydroWall 1) (hydroWall 5) 0 0 6 hlleFlags
    hydroMesh (eulerSim 1 3) 0 (Or.inl rfl) (hydroWall_rest 1 6).1 (hydroWall_rest 5 6).2
    hydroMesh_rest
  obtain ⟨⟨-, -, hw⟩, ⟨-, hs⟩, M2, hM2, -, -, -, hK1, -⟩ := h
  exact ⟨⟨Or.inl rfl, (hydroWall_rest 1 6).1, (hydroWall_rest 5 6).2, hydroMesh_rest⟩, hw, hs,
    M2, hM2, hK1⟩

/-! ## Wall types of the cells the integrator updates -/

/-- A counted loop keeps what each of its iterations keeps. -/
lemma forLoop_invariant_lt {σ : Type} (P : σ → Prop) (n : Nat) (body : Nat → σ → σ) (s : σ)
    (h0 : P s) (hstep : ∀ i, i < n → ∀ s, P s → P (body i s)) : P (forLoop n body s) := by
  induction n with
  | zero => exact h0
  | succ n ih =>
    rw [forLoop_succ]
    exact hstep n (by omega) _ (ih (fun i hi => hstep i (by omega)))

/-- The first wall loop of `assign_wall_type` on a wall with a cell that is not
solid: the wall is a normal or a solid wall, with the cells it had. -/
lemma assign_wall_type_wall_active (AS : Bool) (mesh : Mesh K) (wall : Wall K) (i : Nat)
    (hi : wall.cellL = i ∨ wall.cellR = i) (ht : (mesh.cell i).type ≠ 0) :
    ((assign_wall_type_wall AS mesh wall).wtype = 1
      ∨ (assign_wall_type_wall AS mesh wall).wtype = 4)
    ∧ (assign_wall_type_wall AS mesh wall).cellL = wall.cellL
    ∧ (assign_wall_type_wall AS mesh wall).cellR = wall.cellR := by
  have hboth : ¬ ((mesh.cell wall.cellL).type = 0 ∧ (mesh.cell wall.cellR).type = 0) := by
    rintro ⟨hL, hR⟩
    rcases hi with e | e
    · rw [e] at hL; exact ht hL
    · rw [e] at hR; exact ht hR
  unfold assign_wall_type_wall
  simp only
  split_ifs <;> first
    | exact ⟨Or.inl rfl, rfl, rfl⟩
    | exact ⟨Or.inr rfl, rfl, rfl⟩

/-- One iteration of a boundary loop of `assign_wall_type` keeps a wall of a
cell that is not solid active, when the iteration writes that wall only for
that cell. -/
lemma assign_wall_type_face_active (mesh : Mesh K) (k wid : Nat) (code face : Int)
    (w : Nat → Wall K) (j i : Nat) (cL cR : Nat)
    (hcode : code = 1 ∨ code = 3 ∨ code = 4) (hown : wid = j → k = i)
    (ht : (mesh.cell i).type ≠ 0)
    (h : ((w j).wtype = 1 ∨ (w j).wtype = 3 ∨ (w j).wtype = 4)
      ∧ (w j).cellL = cL ∧ (w j).cellR = cR) :
    ((assign_wall_type_face mesh k wid code face w j).wtype = 1
      ∨ (assign_wall_type_face mesh k wid code face w j).wtype = 3
      ∨ (assign_wall_type_face mesh k wid code face w j).wtype = 4)
    ∧ (assign_wall_type_face mesh k wid code face w j).cellL = cL
    ∧ (assign_wall_type_face mesh k wid code face w j).cellR = cR := by
  by_cases hw : wid = j
  · have hk := hown hw
    subst hw
    unfold assign_wall_type_face
    rw [if_pos (by rw [hk]; exact ht)]
    unfold wset
    rw [Function.update_same]
    exact ⟨hcode, h.2.1, h.2.2⟩
  · have e : assign_wall_type_face mesh k wid code face w j = w j := by
      unfold assign_wall_type_face wset
      split_ifs <;> exact Function.update_noteq (Ne.symm hw) _ _
    rw [e]
    exact h

/-- A boundary loop of `assign_wall_type` (two nested counted loops) keeps a
wall of a cell that is not solid active, when it writes that wall only for
that cell. -/
lemma assign_wall_type_loop_active (mesh : Mesh K) (A B : Nat) (kf : Nat → Nat → Nat)
    (wf : Cell K → Nat) (code face : Int) (w : Nat → Wall K) (j i : Nat) (cL cR : Nat)
    (hcode : code = 1 ∨ code = 3 ∨ code = 4)
    (hown : ∀ a b, a < A → b < B → wf (mesh.cell (kf a b)) = j → kf a b = i)
    (ht : (mesh.cell i).type ≠ 0)
    (h : ((w j).wtype = 1 ∨ (w j).wtype = 3 ∨ (w j).wtype = 4)
      ∧ (w j).cellL = cL ∧ (w j).cellR = cR) :
    ((forLoop A (fun a w => forLoop B (fun b w =>
        assign_wall_type_face mesh (kf a b) (wf (mesh.cell (kf a b))) code face w) w) w j).wtype
          = 1
      ∨ (forLoop A (fun a w => forLoop B (fun b w =>
        assign_wall_type_face mesh (kf a b) (wf (mesh.cell (kf a b))) code face w) w) w j).wtype
          = 3
      ∨ (forLoop A (fun a w => forLoop B (fun b w =>
        assign_wall_type_face mesh (kf a b) (wf (mesh.cell (kf a b))) code face w) w) w j).wtype
          = 4)
    ∧ (forLoop A (fun a w => forLoop B (fun b w =>
        assign_wall_type_face mesh (kf a b) (wf (mesh.cell (kf a b))) code face w) w) w j).cellL
        = cL
    ∧ (forLoop A (fun a w => forLoop B (fun b w =>
        assign_wall_type_face mesh (kf a b) (wf (mesh.cell (kf a b))) code face w) w) w j).cellR
        = cR :=
  forLoop_invariant_lt
    (fun w : Nat → Wall K => ((w j).wtype = 1 ∨ (w j).wtype = 3 ∨ (w j).wtype = 4)
      ∧ (w j).cellL = cL ∧ (w j).cellR = cR) A _ w h
    (fun a ha w hw => forLoop_invariant_lt
      (fun w : Nat → Wall K => ((w j).wtype = 1 ∨ (w j).wtype = 3 ∨ (w j).wtype = 4)
        ∧ (w j).cellL = cL ∧ (w j).cellR = cR) B _ w hw
      (fun b hb w hw => assign_wall_type_face_active mesh _ _ code face w j i cL cR hcode
        (hown a b ha hb) ht hw))

/-- The function `assign_wall_type` leaves every wall of a cell that is not
solid a normal, a transmissive or a solid wall, with the cells it had, when
the six boundary codes are 1, 3 or 4 and the mesh is wired around the cell as
`CellWiring` says. -/
lemma assign_wall_type_active (AS : Bool) (M : Mesh K) (i j : Nat)
    (hbc : ∀ f, f < 6 → M.bc f = 1 ∨ M.bc f = 3 ∨ M.bc f = 4)
    (hw : CellWiring M i) (ht : (M.cell i).type ≠ 0) (hj : cell_wall (M.cell i) j) :
    (((assign_wall_type AS M).wall j).wtype = 1 ∨ ((assign_wall_type AS M).wall j).wtype = 3
      ∨ ((assign_wall_type AS M).wall j).wtype = 4)
    ∧ ((assign_wall_type AS M).wall j).cellL = (M.wall j).cellL
    ∧ ((assign_wall_type AS M).wall j).cellR = (M.wall j).cellR := by
  obtain ⟨hjn, hLR⟩ := hw.walls j hj
  have h0 : ((forLoop M.nwalls
        (fun n w => Function.update w n (assign_wall_type_wall AS M (w n))) M.wall j).wtype = 1
      ∨ (forLoop M.nwalls
        (fun n w => Function.update w n (assign_wall_type_wall AS M (w n))) M.wall j).wtype = 3
      ∨ (forLoop M.nwalls
        (fun n w => Function.update w n (assign_wall_type_wall AS M (w n))) M.wall j).wtype = 4)
      ∧ (forLoop M.nwalls
        (fun n w => Function.update w n (assign_wall_type_wall AS M (w n))) M.wall j).cellL
          = (M.wall j).cellL
      ∧ (forLoop M.nwalls
        (fun n w => Function.update w n (assign_wall_type_wall AS M (w n))) M.wall j).cellR
          = (M.wall j).cellR := by
    rw [forLoop_pointwise (fun _ w => assign_wall_type_wall AS M w)]
    simp only [if_pos hjn]
    obtain ⟨a, b, c⟩ := assign_wall_type_wall_active AS M (M.wall j) i hLR ht
    exact ⟨a.elim Or.inl (fun h => Or.inr (Or.inr h)), b, c⟩
  have h1 := assign_wall_type_loop_active M M.xcells M.zcells
    (fun l n => M.xcells * 0 + l + n * M.xcells * M.ycells) Cell.w1_id (M.bc 0) 1 _ j i _ _
    (hbc 0 (by decide)) (fun l n hl hn e => hw.face1 l n hl hn (e ▸ hj)) ht h0
  have h3 := assign_wall_type_loop_active M M.xcells M.zcells
    (fun l n => M.xcells * (M.ycells - 1) + l + n * M.xcells * M.ycells) Cell.w3_id (M.bc 2) 3
    _ j i _ _ (hbc 2 (by decide)) (fun l n hl hn e => hw.face3 l n hl hn (e ▸ hj)) ht h1
  have h2 := assign_wall_type_loop_active M M.ycells M.zcells
    (fun m n => M.xcells * m + (M.xcells - 1) + n * M.xcells * M.ycells) Cell.w2_id (M.bc 1) 2
    _ j i _ _ (hbc 1 (by decide)) (fun m n hm hn e => hw.face2 m n hm hn (e ▸ hj)) ht h3
  have h4 := assign_wall_type_loop_active M M.ycells M.zcells
    (fun m n => M.xcells * m + 0 + n * M.xcells * M.ycells) Cell.w4_id (M.bc 3) 4
    _ j i _ _ (hbc 3 (by decide)) (fun m n hm hn e => hw.face4 m n hm hn (e ▸ hj)) ht h2
  have h5 := assign_wall_type_loop_active M M.ycells M.xcells
    (fun m l => M.xcells * m + l + 0 * M.xcells * M.ycells) Cell.w5_id (M.bc 4) 5
    _ j i _ _ (hbc 4 (by decide)) (fun m l hm hl e => hw.face5 m l hm hl (e ▸ hj)) ht h4
  have h6 := assign_wall_type_loop_active M M.ycells M.xcells
    (fun m l => M.xcells * m + l + (M.zcells - 1) * M.xcells * M.ycells) Cell.w6_id (M.bc 5) 6
    _ j i _ _ (hbc 5 (by decide)) (fun m l hm hl e => hw.face6 m l hm hl (e ▸ hj)) ht h5
  exact h6

/-- One step of the loop of `assign_image_cells` leaves the wall pointers of
every cell as they are, and the type and the ghost flag of every cell that is
not solid after it. -/
lemma image_step_types [FloorRing K] (sqrt : K → K) (mesh : Mesh K) (n : Nat)
    (c : Nat → Cell K) (i : Nat) :
    ((image_step sqrt mesh n c i).w1 = (c i).w1 ∧ (image_step sqrt mesh n c i).w2 = (c i).w2
      ∧ (image_step sqrt mesh n c i).w3 = (c i).w3 ∧ (image_step sqrt mesh n c i).w4 = (c i).w4
      ∧ (image_step sqrt mesh n c i).w5 = (c i).w5 ∧ (image_step sqrt mesh n c i).w6 = (c i).w6)
    ∧ ((image_step sqrt mesh n c i).type ≠ 0 →
        (image_step sqrt mesh n c i).type = (c i).type
        ∧ (image_step sqrt mesh n c i).ghost = (c i).ghost) := by
  by_cases hi : i = n
  · subst hi
    by_cases hg : (c i).ghost = 1
    · by_cases hin : (c i).xim > 0 ∧ (c i).xim < mesh.Lx ∧ (c i).yim > 0 ∧ (c i).yim < mesh.Ly
          ∧ (c i).zim > 0 ∧ (c i).zim < mesh.Lz
      · by_cases hsum : weight_sum sqrt (c i) c (image_neighbours mesh (c i)) < TOL14
        · rw [image_step_isolated sqrt mesh i c hg hin hsum]
          exact ⟨⟨rfl, rfl, rfl, rfl, rfl, rfl⟩, fun h => absurd rfl h⟩
        · rw [image_step_weighted sqrt mesh i c hg hin hsum]
          exact ⟨⟨rfl, rfl, rfl, rfl, rfl, rfl⟩, fun _ => ⟨rfl, rfl⟩⟩
      · rw [image_step_outside sqrt mesh i c hg hin]
        exact ⟨⟨rfl, rfl, rfl, rfl, rfl, rfl⟩, fun h => absurd rfl h⟩
    · rw [image_step_not_ghost sqrt mesh i c hg]
      exact ⟨⟨rfl, rfl, rfl, rfl, rfl, rfl⟩, fun _ => ⟨rfl, rfl⟩⟩
  · rw [image_step_other sqrt mesh n c i hi]
    exact ⟨⟨rfl, rfl, rfl, rfl, rfl, rfl⟩, fun _ => ⟨rfl, rfl⟩⟩

/-- The loop of `assign_image_cells` leaves the wall pointers of every cell as
they are, and the type and the ghost flag of every cell that is not solid
after it. -/
lemma image_loop_types [FloorRing K] (sqrt : K → K) (mesh : Mesh K) (c0 : Nat → Cell K)
    (m i : Nat) :
    ((forLoop m (image_step sqrt mesh) c0 i).w1 = (c0 i).w1
      ∧ (forLoop m (image_step sqrt mesh) c0 i).w2 = (c0 i).w2
      ∧ (forLoop m (image_step sqrt mesh) c0 i).w3 = (c0 i).w3
      ∧ (forLoop m (image_step sqrt mesh) c0 i).w4 = (c0 i).w4
      ∧ (forLoop m (image_step sqrt mesh) c0 i).w5 = (c0 i).w5
      ∧ (forLoop m (image_step sqrt mesh) c0 i).w6 = (c0 i).w6)
    ∧ ((forLoop m (image_step sqrt mesh) c0 i).type ≠ 0 →
        (forLoop m (image_step sqrt mesh) c0 i).type = (c0 i).type
        ∧ (forLoop m (image_step sqrt mesh) c0 i).ghost = (c0 i).ghost) := by
  induction m with
  | zero => exact ⟨⟨rfl, rfl, rfl, rfl, rfl, rfl⟩, fun _ => ⟨rfl, rfl⟩⟩
  | succ m ih =>
    rw [forLoop_succ]
    obtain ⟨⟨a1, a2, a3, a4, a5, a6⟩, a7⟩ := image_step_types sqrt mesh m
      (forLoop m (image_step sqrt mesh) c0) i
    obtain ⟨⟨b1, b2, b3, b4, b5, b6⟩, b7⟩ := ih
    refine ⟨⟨a1.trans b1, a2.trans b2, a3.trans b3, a4.trans b4, a5.trans b5, a6.trans b6⟩,
      fun h => ?_⟩
    obtain ⟨t1, g1⟩ := a7 h
    obtain ⟨t2, g2⟩ := b7 (by rw [← t1]; exact h)
    exact ⟨t1.trans t2, g1.trans g2⟩

/-- The function `assign_image_cells` writes no wall; it leaves the wall
pointers of every cell as they are, and the type and the ghost flag of every
cell that is not solid after it. -/
lemma assign_image_cells_types [FloorRing K] (sqrt : K → K) (mesh : Mesh K)
    (solids : Solids K) (i : Nat) :
    (assign_image_cells sqrt mesh solids).wall = mesh.wall
    ∧ (assign_image_cells sqrt mesh solids).nwalls = mesh.nwalls
    ∧ (((assign_image_cells sqrt mesh solids).cell i).w1 = (mesh.cell i).w1
      ∧ ((assign_image_cells sqrt mesh solids).cell i).w2 = (mesh.cell i).w2
      ∧ ((assign_image_cells sqrt mesh solids).cell i).w3 = (mesh.cell i).w3
      ∧ ((assign_image_cells sqrt mesh solids).cell i).w4 = (mesh.cell i).w4
      ∧ ((assign_image_cells sqrt mesh solids).cell i).w5 = (mesh.cell i).w5
      ∧ ((assign_image_cells sqrt mesh solids).cell i).w6 = (mesh.cell i).w6)
    ∧ (((assign_image_cells sqrt mesh solids).cell i).type ≠ 0 →
        ((assign_image_cells sqrt mesh solids).cell i).type = (mesh.cell i).type
        ∧ ((assign_image_cells sqrt mesh solids).cell i).ghost = (mesh.cell i).ghost) := by
  by_cases hs : solids.nsolid < 1
  · have e : assign_image_cells sqrt mesh solids = mesh := by
      unfold assign_image_cells
      rw [if_pos hs]
    rw [e]
    exact ⟨rfl, rfl, ⟨rfl, rfl, rfl, rfl, rfl, rfl⟩, fun _ => ⟨rfl, rfl⟩⟩
  · have e : assign_image_cells sqrt mesh solids
        = { mesh with cell := (forLoop mesh.ncells (image_step sqrt mesh) mesh.cell) } := by
      unfold assign_image_cells
      rw [if_neg hs]
    rw [e]
    exact ⟨rfl, rfl, image_loop_types sqrt mesh mesh.cell mesh.ncells i⟩

/-- One iteration of the cell loop of `update_ghost_cells` writes `U` only. -/
lemma ghost_step_frame (sim : Sim K) (j : Nat) (c : Nat → Cell K) (i : Nat) :
    { ghost_step sim j c i with U := (c i).U } = c i := by
  by_cases hi : i = j
  · subst hi
    unfold ghost_step
    by_cases hg : (c i).ghost = 1
    · simp only [if_pos hg, Function.update_same]
    · simp only [if_neg hg]
  · rw [ghost_step_other sim j c i hi]

/-- The cell loop of `update_ghost_cells` writes `U` only. -/
lemma ghost_loop_frame (sim : Sim K) (c0 : Nat → Cell K) (m i : Nat) :
    { forLoop m (ghost_step sim) c0 i with U := (c0 i).U } = c0 i := by
  induction m with
  | zero => rfl
  | succ m ih =>
    rw [forLoop_succ]
    have h := ghost_step_frame sim m (forLoop m (ghost_step sim) c0) i
    rw [← ih, ← h]

/-- The function `update_ghost_cells` writes no wall and, in the cells, `U`
only. -/
lemma update_ghost_cells_frame (sim : Sim K) (mesh : Mesh K) (solids : Solids K) (i : Nat) :
    (update_ghost_cells sim mesh solids).wall = mesh.wall
    ∧ (update_ghost_cells sim mesh solids).nwalls = mesh.nwalls
    ∧ { (update_ghost_cells sim mesh solids).cell i with U := (mesh.cell i).U } = mesh.cell i := by
  unfold update_ghost_cells
  split_ifs
  · exact ⟨rfl, rfl, ghost_loop_frame sim mesh.cell mesh.ncells i⟩
  · exact ⟨rfl, rfl, rfl⟩

/-- The function `update_wall_type` writes no cell, and leaves a wall alone
when one of its two cells is neither solid nor a ghost cell. -/
lemma update_wall_type_keeps (mesh : Mesh K) (solids : Solids K) (i j : Nat)
    (hLR : (mesh.wall j).cellL = i ∨ (mesh.wall j).cellR = i)
    (ht : (mesh.cell i).type ≠ 0) (hg : ¬ (mesh.cell i).ghost > 0) :
    (update_wall_type mesh solids).cell = mesh.cell
    ∧ (update_wall_type mesh solids).wall j = mesh.wall j := by
  by_cases hs : solids.nsolid < 1
  · have e : update_wall_type mesh solids = mesh := by
      unfold update_wall_type
      rw [if_pos hs]
    rw [e]
    exact ⟨rfl, rfl⟩
  · refine ⟨?_, ?_⟩
    · unfold update_wall_type
      rw [if_neg hs]
    · rw [update_wall_type_wall mesh solids hs j]
      split_ifs with h1 h2
      · exfalso
        rcases hLR with e | e
        · rw [e] at h2
          rcases h2 with ⟨a, -⟩ | ⟨-, a⟩ | ⟨a, -⟩ | ⟨a, -⟩
          · exact hg a
          · exact hg a
          · exact ht a
          · exact ht a
        · rw [e] at h2
          rcases h2 with ⟨-, a⟩ | ⟨a, -⟩ | ⟨-, a⟩ | ⟨-, a⟩
          · exact hg a
          · exact ht a
          · exact hg a
          · exact ht a
      · rfl
      · rfl

/-- When `compute_fluxes` returns, every wall below `nwalls` holds what the
body of the wall loop made of the wall of the argument, for some value of the
running maximum. -/
lemma compute_fluxes_wall_at (sqrt : K → K) (fl : Flags) (mesh M2 : Mesh K) (sim : Sim K)
    (h : compute_fluxes sqrt fl mesh sim = some M2) (j : Nat) (hj : j < mesh.nwalls) :
    ∃ (lam : K) (q : Wall K × K),
      compute_fluxes_wall sqrt fl mesh sim (mesh.wall j) lam = some q ∧ M2.wall j = q.1 := by
  have key : ∀ n (r : (Nat → Wall K) × K),
      forLoop n
        (fun n (st : Option ((Nat → Wall K) × K)) =>
          st.bind (fun s =>
            (compute_fluxes_wall sqrt fl mesh sim (s.1 n) s.2).map
              (fun q => (Function.update s.1 n q.1, q.2))))
        (some (mesh.wall, 0)) = some r →
      (∀ k, k < n → ∃ (lam : K) (q : Wall K × K),
        compute_fluxes_wall sqrt fl mesh sim (mesh.wall k) lam = some q ∧ r.1 k = q.1)
      ∧ (∀ k, n ≤ k → r.1 k = mesh.wall k) := by
    intro n
    induction n with
    | zero =>
      intro r hr
      simp only [forLoop, Option.some.injEq] at hr
      rw [← hr]
      exact ⟨fun k hk => absurd hk (Nat.not_lt_zero k), fun _ _ => rfl⟩
    | succ n ih =>
      intro r hr
      rw [forLoop_succ] at hr
      cases hs : forLoop n
          (fun n (st : Option ((Nat → Wall K) × K)) =>
            st.bind (fun s =>
              (compute_fluxes_wall sqrt fl mesh sim (s.1 n) s.2).map
                (fun q => (Function.update s.1 n q.1, q.2))))
          (some (mesh.wall, 0)) with
      | none =>
        rw [hs] at hr
        simp at hr
      | some s =>
        rw [hs] at hr
        simp only [Option.some_bind] at hr
        obtain ⟨ih1, ih2⟩ := ih s hs
        cases hq : compute_fluxes_wall sqrt fl mesh sim (s.1 n) s.2 with
        | none =>
          rw [hq] at hr
          simp at hr
        | some q =>
          rw [hq] at hr
          simp only [Option.map_some', Option.some.injEq] at hr
          rw [← hr]
          refine ⟨?_, ?_⟩
          · intro k hk
            by_cases e : k = n
            · subst e
              rw [ih2 k (le_refl k)] at hq
              exact ⟨s.2, q, hq, by simp only [Function.update_same]⟩
            · obtain ⟨lam, q2, h1, h2⟩ := ih1 k (by omega)
              exact ⟨lam, q2, h1, by simp only [Function.update_noteq e]; exact h2⟩
          · intro k hk
            have e : k ≠ n := by omega
            simp only [Function.update_noteq e]
            exact ih2 k (by omega)
  unfold compute_fluxes at h
  simp only at h
  cases hs : forLoop mesh.nwalls
        (fun n (st : Option ((Nat → Wall K) × K)) =>
          st.bind (fun s =>
            (compute_fluxes_wall sqrt fl mesh sim (s.1 n) s.2).map
              (fun q => (Function.update s.1 n q.1, q.2))))
        (some (mesh.wall, 0)) with
  | none =>
    rw [hs] at h
    simp at h
  | some s =>
    rw [hs] at h
    simp only [Option.map_some', Option.some.injEq] at h
    obtain ⟨lam, q, h1, h2⟩ := (key mesh.nwalls s hs).1 j hj
    rw [← h]
    exact ⟨lam, q, h1, h2⟩

/-- Claim C40: let `M` be the mesh that `assign_wall_type` receives, with the
six boundary codes `bc` in 1, 3, 4, wired around the cell `i` as `create_mesh`
wires it (`CellWiring`, which `create_mesh_cell_wiring` shows of the meshes of
`create_mesh`) and with the ghost flag of the cell 0 or 1 (the values
`assign_cell_type` writes), and let `Ma` be a mesh with the walls of
`assign_wall_type M` and, in the cell `i`, the type, ghost flag and wall
pointers of `M` (the functions that run in between write none of these).
Then (1) right after `assign_wall_type`, every wall of the cell has `wtype` 1,
3 or 4 when the cell is not solid; (2) after `assign_image_cells`,
`update_ghost_cells` and `update_wall_type`, if the cell is one the integrator
updates (`type != 0` and `ghost != 1`) each of its six walls has `wtype` 1, 3
or 4, never 0, and is a wall of the mesh (its index is below `nwalls`), so
that (3) whenever `compute_fluxes` returns on that mesh, the wall it returns
there is the one the body of its wall loop computed from the wall, on the
branch that reconstructs the states and writes the fluxes (`wtype != 0`). -/
theorem updated_cells_have_active_walls [FloorRing K] (sqrt : K → K) (AS : Bool) (M Ma : Mesh K)
    (solids : Solids K) (sim : Sim K) (i j : Nat)
    (hbc : ∀ f, f < 6 → M.bc f = 1 ∨ M.bc f = 3 ∨ M.bc f = 4)
    (hw : CellWiring M i)
    (hg : (M.cell i).ghost = 0 ∨ (M.cell i).ghost = 1)
    (hMa : Ma.wall = (assign_wall_type AS M).wall ∧ Ma.nwalls = M.nwalls
      ∧ (Ma.cell i).type = (M.cell i).type ∧ (Ma.cell i).ghost = (M.cell i).ghost
      ∧ (Ma.cell i).w1 = (M.cell i).w1 ∧ (Ma.cell i).w2 = (M.cell i).w2
      ∧ (Ma.cell i).w3 = (M.cell i).w3 ∧ (Ma.cell i).w4 = (M.cell i).w4
      ∧ (Ma.cell i).w5 = (M.cell i).w5 ∧ (Ma.cell i).w6 = (M.cell i).w6) :
    ((M.cell i).type ≠ 0 → cell_wall (M.cell i) j →
      ((assign_wall_type AS M).wall j).wtype = 1 ∨ ((assign_wall_type AS M).wall j).wtype = 3
      ∨ ((assign_wall_type AS M).wall j).wtype = 4)
    ∧ (((update_wall_type (update_ghost_cells sim (assign_image_cells sqrt Ma solids) solids)
          solids).cell i).type ≠ 0 →
      ((update_wall_type (update_ghost_cells sim (assign_image_cells sqrt Ma solids) solids)
          solids).cell i).ghost ≠ 1 →
      cell_wall ((update_wall_type (update_ghost_cells sim (assign_image_cells sqrt Ma solids)
          solids) solids).cell i) j →
      (((update_wall_type (update_ghost_cells sim (assign_image_cells sqrt Ma solids) solids)
          solids).wall j).wtype = 1
        ∨ ((update_wall_type (update_ghost_cells sim (assign_image_cells sqrt Ma solids) solids)
          solids).wall j).wtype = 3
        ∨ ((update_wall_type (update_ghost_cells sim (assign_image_cells sqrt Ma solids) solids)
          solids).wall j).wtype = 4)
      ∧ j < (update_wall_type (update_ghost_cells sim (assign_image_cells sqrt Ma solids) solids)
          solids).nwalls
      ∧ ∀ (fl : Flags) (sim2 : Sim K) (M4 : Mesh K),
          compute_fluxes sqrt fl (update_wall_type (update_ghost_cells sim
            (assign_image_cells sqrt Ma solids) solids) solids) sim2 = some M4 →
          ∃ (lam : K) (q : Wall K × K),
            compute_fluxes_wall sqrt fl (update_wall_type (update_ghost_cells sim
              (assign_image_cells sqrt Ma solids) solids) solids) sim2
              ((update_wall_type (update_ghost_cells sim (assign_image_cells sqrt Ma solids)
                solids) solids).wall j) lam = some q
            ∧ M4.wall j = q.1) := by
  obtain ⟨hwall, hnwa, hty, hgh, e1, e2, e3, e4, e5, e6⟩ := hMa
  refine ⟨fun ht hj => (assign_wall_type_active AS M i j hbc hw ht hj).1, ?_⟩
  -- the mesh handed to `update_wall_type`
  obtain ⟨iw, inw, ⟨i1, i2, i3, i4, i5, i6⟩, ity⟩ := assign_image_cells_types sqrt Ma solids i
  obtain ⟨gw, gnw, gc⟩ :=
    update_ghost_cells_frame sim (assign_image_cells sqrt Ma solids) solids i
  have unw : (update_wall_type (update_ghost_cells sim (assign_image_cells sqrt Ma solids)
      solids) solids).nwalls
      = (update_ghost_cells sim (assign_image_cells sqrt Ma solids) solids).nwalls := by
    unfold update_wall_type
    split_ifs <;> rfl
  have gty : ((update_ghost_cells sim (assign_image_cells sqrt Ma solids) solids).cell i).type
      = ((assign_image_cells sqrt Ma solids).cell i).type := by
    have h := congrArg Cell.type gc
    exact h
  have ggh : ((update_ghost_cells sim (assign_image_cells sqrt Ma solids) solids).cell i).ghost
      = ((assign_image_cells sqrt Ma solids).cell i).ghost := by
    have h := congrArg Cell.ghost gc
    exact h
  have gp := congrArg (fun c : Cell K => (c.w1, c.w2, c.w3, c.w4, c.w5, c.w6)) gc
  simp only [Prod.mk.injEq] at gp
  obtain ⟨g1, g2, g3, g4, g5, g6⟩ := gp
  have ucell : (update_wall_type (update_ghost_cells sim (assign_image_cells sqrt Ma solids)
      solids) solids).cell
      = (update_ghost_cells sim (assign_image_cells sqrt Ma solids) solids).cell := by
    unfold update_wall_type
    split_ifs <;> rfl
  rw [ucell]
  intro ht hgn hj
  -- the cell was neither solid nor a ghost cell before `assign_image_cells`
  rw [gty] at ht
  rw [ggh] at hgn
  obtain ⟨ty, gh⟩ := ity ht
  have htM : (M.cell i).type ≠ 0 := by rw [← hty, ← ty]; exact ht
  have hgM : (M.cell i).ghost = 0 := by
    rcases hg with h | h
    · exact h
    · exfalso
      apply hgn
      rw [gh, hgh, h]
  have hjM : cell_wall (M.cell i) j := by
    unfold cell_wall at hj ⊢
    rw [g1, g2, g3, g4, g5, g6, i1, i2, i3, i4, i5, i6, e1, e2, e3, e4, e5, e6] at hj
    exact hj
  obtain ⟨hact, hcL, hcR⟩ := assign_wall_type_active AS M i j hbc hw htM hjM
  have hwj : (update_ghost_cells sim (assign_image_cells sqrt Ma solids) solids).wall j
      = (assign_wall_type AS M).wall j := by
    rw [gw, iw, hwall]
  obtain ⟨hjn, hLR⟩ := hw.walls j hjM
  obtain ⟨-, hkeep⟩ := update_wall_type_keeps
    (update_ghost_cells sim (assign_image_cells sqrt Ma solids) solids) solids i j
    (by rw [hwj, hcL, hcR]; exact hLR)
    (by rw [gty]; exact ht)
    (by rw [ggh, gh, hgh, hgM]; decide)
  have hjn3 : j < (update_wall_type (update_ghost_cells sim (assign_image_cells sqrt Ma solids)
      solids) solids).nwalls := by
    rw [unw, gnw, inw, hnwa]
    exact hjn
  refine ⟨?_, hjn3, ?_⟩
  · rw [hkeep, hwj]
    exact hact
  · intro fl sim2 M4 h4
    exact compute_fluxes_wall_at sqrt fl _ M4 sim2 h4 j hjn3

/-- The loop of `assign_image_cells` leaves a cell that is not a ghost cell
as it is. -/
lemma image_loop_not_ghost [FloorRing K] (sqrt : K → K) (mesh : Mesh K) (c0 : Nat → Cell K)
    (m i : Nat) (h : (c0 i).ghost ≠ 1) : forLoop m (image_step sqrt mesh) c0 i = c0 i := by
  induction m with
  | zero => rfl
  | succ m ih =>
    rw [forLoop_succ]
    by_cases e : i = m
    · have hg : (forLoop m (image_step sqrt mesh) c0 m).ghost ≠ 1 := by
        have e2 : forLoop m (image_step sqrt mesh) c0 m = c0 i := by
          rw [← ih, e]
        rw [e2]; exact h
      rw [image_step_not_ghost sqrt mesh m _ hg]
      exact ih
    · rw [image_step_other sqrt mesh m _ i e]
      exact ih

/-- The set-up functions that follow `assign_wall_type` leave a cell that is
not a ghost cell with its type, ghost flag and wall pointers. -/
lemma setup_keeps_fluid_cell [FloorRing K] (sqrt : K → K) (Ma : Mesh K) (solids : Solids K)
    (sim : Sim K) (i : Nat) (h : (Ma.cell i).ghost ≠ 1) :
    { (update_wall_type (update_ghost_cells sim (assign_image_cells sqrt Ma solids) solids)
        solids).cell i with U := (Ma.cell i).U } = Ma.cell i := by
  have ucell : (update_wall_type (update_ghost_cells sim (assign_image_cells sqrt Ma solids)
      solids) solids).cell
      = (update_ghost_cells sim (assign_image_cells sqrt Ma solids) solids).cell := by
    unfold update_wall_type
    split_ifs <;> rfl
  have hi : (assign_image_cells sqrt Ma solids).cell i = Ma.cell i := by
    unfold assign_image_cells
    split_ifs
    · rfl
    · exact image_loop_not_ghost sqrt Ma Ma.cell Ma.ncells i h
  obtain ⟨-, -, gc⟩ := update_ghost_cells_frame sim (assign_image_cells sqrt Ma solids) solids i
  rw [ucell, ← hi]
  exact gc

/-- A wall of the rows of a layer (one of the three walls a cell owns) is not
a wall of the far `y` side of a layer. -/
lemma row_wall_ne_ylast (X Y l m n s l2 n2 : Nat) (hl : l < X) (hm : m < Y) (hs : s < 3)
    (hl2 : l2 < X) :
    wall_base X Y l m n + s ≠ (3 * X * Y + X + Y) * (n2 + 1) - X + l2 := by
  intro h
  have hrow := row_bound X Y l m s hl hm (by omega) (by omega)
  obtain ⟨L, hL⟩ : ∃ L, L = 3 * X * Y + X + Y := ⟨_, rfl⟩
  have hY : Y * (3 * X + 1) = 3 * X * Y + Y := by ring
  have e1 : wall_base X Y l m n + s = (3 * l + s + m * (3 * X + 1)) + n * L := by
    rw [hL]; unfold wall_base; ring
  have e3 : (3 * X * Y + X + Y) * (n2 + 1) = n2 * L + L := by rw [hL]; ring
  have e2 : (3 * X * Y + X + Y) * (n2 + 1) - X + l2 = (L - X + l2) + n2 * L := by
    rw [e3]; omega
  have r1 : 3 * l + s + m * (3 * X + 1) < L := by omega
  have r2 : L - X + l2 < L := by omega
  have m1 := (div_mod_of_lt _ n L r1).2
  have m2 := (div_mod_of_lt _ n2 L r2).2
  rw [e1, e2] at h
  rw [h, m2] at m1
  omega

/-- A wall that a cell owns is not the wall of the far `x` side of a row. -/
lemma row_wall_ne_xlast (X Y l m n s m2 n2 : Nat) (hl : l < X) (hm : m < Y) (hs : s < 3)
    (hm2 : m2 < Y) :
    wall_base X Y l m n + s ≠ wall_base X Y (X - 1) m2 n2 + 4 - 1 := by
  intro h
  have hX : 0 < X := by omega
  have hrow := row_bound X Y l m s hl hm (by omega) (by omega)
  have hrow2 := row_bound X Y (X - 1) m2 3 (by omega) hm2 (by omega) (fun _ => rfl)
  obtain ⟨L, hL⟩ : ∃ L, L = 3 * X * Y + X + Y := ⟨_, rfl⟩
  have hY : Y * (3 * X + 1) = 3 * X * Y + Y := by ring
  have e1 : wall_base X Y l m n + s = (3 * l + s + m * (3 * X + 1)) + n * L := by
    rw [hL]; unfold wall_base; ring
  have e2 : wall_base X Y (X - 1) m2 n2 + 4 - 1
      = (3 * (X - 1) + 3 + m2 * (3 * X + 1)) + n2 * L := by
    have : wall_base X Y (X - 1) m2 n2 = 3 * (X - 1) + m2 * (3 * X + 1) + n2 * L := by
      rw [hL]; unfold wall_base; ring
    omega
  have r1 : 3 * l + s + m * (3 * X + 1) < L := by omega
  have r2 : 3 * (X - 1) + 3 + m2 * (3 * X + 1) < L := by omega
  have m1 := (div_mod_of_lt _ n L r1).2
  have m2' := (div_mod_of_lt _ n2 L r2).2
  rw [e1, e2] at h
  rw [h, m2'] at m1
  have q1 := (div_mod_of_lt (3 * l + s) m (3 * X + 1) (by omega)).2
  have q2 := (div_mod_of_lt (3 * (X - 1) + 3) m2 (3 * X + 1) (by omega)).2
  rw [← m1, q2] at q1
  omega

/-- A wall that a cell owns is not a wall of the far `z` side of the grid. -/
lemma row_wall_ne_zlast (X Y Z l m n s l2 m2 : Nat) (hl : l < X) (hm : m < Y) (hn : n < Z)
    (hs : s < 3) :
    wall_base X Y l m n + s
      ≠ 3 * (X * Y * Z) + X * Z + Y * Z + X * Y - X * Y + l2 + m2 * X := by
  intro h
  have hb := wall_base_lt X Y Z l m n s hl hm hn (by omega) (by omega)
  have e : 3 * (X * Y * Z) + X * Z + Y * Z + X * Y = Z * (3 * X * Y + X + Y) + X * Y := by ring
  rw [e] at h
  omega

/-- The loop that clears `S` and `S_corr` keeps the wall identifiers. -/
lemma clear_source_ids (nvar : Nat) (x : Cell K) :
    let y := forLoop nvar (fun k (x : Cell K) =>
      { x with S := Function.update x.S k 0, S_corr := Function.update x.S_corr k 0 }) x
    y.w1_id = x.w1_id ∧ y.w2_id = x.w2_id ∧ y.w3_id = x.w3_id ∧ y.w4_id = x.w4_id
      ∧ y.w5_id = x.w5_id ∧ y.w6_id = x.w6_id := by
  induction nvar with
  | zero => simp [forLoop]
  | succ k ih =>
    simp only [forLoop_succ]
    exact ih

/-- In the mesh of `create_mesh` the wall identifiers of the cell `(l, m, n)`
are its wall pointers, and what each of them denotes. -/
lemma create_mesh_info (mesh : Mesh K) (sim : Sim K) (l m n : Nat)
    (hl : l < mesh.xcells) (hm : m < mesh.ycells) (hn : n < mesh.zcells) :
    let t := cell_index mesh.xcells mesh.ycells l m n
    let c := (create_mesh mesh sim).cell t
    let info := wall_info mesh.xcells mesh.ycells mesh.zcells
    (c.w1_id = c.w1 ∧ c.w2_id = c.w2 ∧ c.w3_id = c.w3 ∧ c.w4_id = c.w4 ∧ c.w5_id = c.w5
      ∧ c.w6_id = c.w6)
    ∧ info c.w1 =
        { axis := 1, R := t,
          L := if m = 0 then t + (mesh.ycells - 1) * mesh.xcells else t - mesh.xcells }
    ∧ info c.w4 =
        { axis := 0, R := t, L := if l = 0 then t + (mesh.xcells - 1) else t - 1 }
    ∧ info c.w5 =
        { axis := 2, R := t,
          L := if n = 0 then t + (mesh.zcells - 1) * mesh.xcells * mesh.ycells
               else t - mesh.xcells * mesh.ycells }
    ∧ info c.w2 =
        { axis := 0, L := t,
          R := if l = mesh.xcells - 1 then t - (mesh.xcells - 1) else t + 1 }
    ∧ info c.w3 =
        { axis := 1, L := t,
          R := if m = mesh.ycells - 1 then t - m * mesh.xcells else t + mesh.xcells }
    ∧ info c.w6 =
        { axis := 2, L := t,
          R := if n = mesh.zcells - 1 then t - (mesh.zcells - 1) * mesh.xcells * mesh.ycells
               else t + mesh.xcells * mesh.ycells } := by
  intro t c info
  have ht := cell_index_lt mesh.xcells mesh.ycells mesh.zcells l m n hl hm hn
  obtain ⟨f1, f2, f3, f4, f5, f6, -⟩ := clear_source_fields sim.nvar (create_mesh_cells mesh t)
  obtain ⟨g1, g2, g3, g4, g5, g6⟩ := clear_source_ids sim.nvar (create_mesh_cells mesh t)
  have hc : c = forLoop sim.nvar (fun k (x : Cell K) =>
      { x with S := Function.update x.S k 0, S_corr := Function.update x.S_corr k 0 })
      (create_mesh_cells mesh t) := by
    show create_mesh_sources mesh sim _ = _
    rw [create_mesh_sources_apply, if_pos ht]
  rw [← hc] at f1 f2 f3 f4 f5 f6 g1 g2 g3 g4 g5 g6
  obtain ⟨⟨d1, d2, d3, d4, d5, d6⟩, i1, i4, i5, i2, i3, i6⟩ := create_mesh_cell_info mesh l m n
    (create_mesh_cells_init mesh (cell_index mesh.xcells mesh.ycells l m n)) hl hm hn
  rw [← create_mesh_cells_at mesh l m n hl hm hn] at d1 d2 d3 d4 d5 d6 i1 i2 i3 i4 i5 i6
  refine ⟨⟨?_, ?_, ?_, ?_, ?_, ?_⟩, ?_, ?_, ?_, ?_, ?_, ?_⟩
  · rw [g1, f1]; exact d1
  · rw [g2, f2]; exact d2
  · rw [g3, f3]; exact d3
  · rw [g4, f4]; exact d4
  · rw [g5, f5]; exact d5
  · rw [g6, f6]; exact d6
  · rw [f1]; exact i1
  · rw [f4]; exact i4
  · rw [f5]; exact i5
  · rw [f2]; exact i2
  · rw [f3]; exact i3
  · rw [f6]; exact i6

/-- In the mesh of `create_mesh`, a wall of the cell `(l, m, n)` that is the
wall of a face of the domain in a cell of that face is a wall of that very
cell: the walls of the six faces are not shared. -/
lemma create_mesh_face_walls (mesh : Mesh K) (sim : Sim K) (l m n j : Nat)
    (hl : l < mesh.xcells) (hm : m < mesh.ycells) (hn : n < mesh.zcells)
    (hj : cell_wall ((create_mesh mesh sim).cell (cell_index mesh.xcells mesh.ycells l m n)) j) :
    (∀ l2 n2, l2 < mesh.xcells → n2 < mesh.zcells →
      j = ((create_mesh mesh sim).cell (cell_index mesh.xcells mesh.ycells l2 0 n2)).w1 →
      cell_index mesh.xcells mesh.ycells l2 0 n2 = cell_index mesh.xcells mesh.ycells l m n)
    ∧ (∀ l2 n2, l2 < mesh.xcells → n2 < mesh.zcells →
      j = ((create_mesh mesh sim).cell
        (cell_index mesh.xcells mesh.ycells l2 (mesh.ycells - 1) n2)).w3 →
      cell_index mesh.xcells mesh.ycells l2 (mesh.ycells - 1) n2
        = cell_index mesh.xcells mesh.ycells l m n)
    ∧ (∀ m2 n2, m2 < mesh.ycells → n2 < mesh.zcells →
      j = ((create_mesh mesh sim).cell
        (cell_index mesh.xcells mesh.ycells (mesh.xcells - 1) m2 n2)).w2 →
      cell_index mesh.xcells mesh.ycells (mesh.xcells - 1) m2 n2
        = cell_index mesh.xcells mesh.ycells l m n)
    ∧ (∀ m2 n2, m2 < mesh.ycells → n2 < mesh.zcells →
      j = ((create_mesh mesh sim).cell (cell_index mesh.xcells mesh.ycells 0 m2 n2)).w4 →
      cell_index mesh.xcells mesh.ycells 0 m2 n2 = cell_index mesh.xcells mesh.ycells l m n)
    ∧ (∀ m2 l2, m2 < mesh.ycells → l2 < mesh.xcells →
      j = ((create_mesh mesh sim).cell (cell_index mesh.xcells mesh.ycells l2 m2 0)).w5 →
      cell_index mesh.xcells mesh.ycells l2 m2 0 = cell_index mesh.xcells mesh.ycells l m n)
    ∧ (∀ m2 l2, m2 < mesh.ycells → l2 < mesh.xcells →
      j = ((create_mesh mesh sim).cell
        (cell_index mesh.xcells mesh.ycells l2 m2 (mesh.zcells - 1))).w6 →
      cell_index mesh.xcells mesh.ycells l2 m2 (mesh.zcells - 1)
        = cell_index mesh.xcells mesh.ycells l m n) := by
  have hX : 0 < mesh.xcells := by omega
  have hY : 0 < mesh.ycells := by omega
  have hZ : 0 < mesh.zcells := by omega
  have hXY : 0 < mesh.xcells * mesh.ycells := Nat.mul_pos hX hY
  obtain ⟨-, i1, i4, i5, i2, i3, i6⟩ := create_mesh_info mesh sim l m n hl hm hn
  obtain ⟨c1, c4, c5, c2, c3, c6, -⟩ := create_mesh_cell_fields mesh sim l m n hl hm hn
  refine ⟨?_, ?_, ?_, ?_, ?_, ?_⟩
  · -- face 1
    intro l2 n2 hl2 hn2 hk
    obtain ⟨-, k1, k4, k5, k2, k3, k6⟩ := create_mesh_info mesh sim l2 0 n2 hl2 hY hn2
    obtain ⟨g1, g4, g5, g2, g3, g6, -⟩ := create_mesh_cell_fields mesh sim l2 0 n2 hl2 hY hn2
    rcases hj with h | h | h | h | h | h <;> rw [h] at hk
    · have e := congrArg (wall_info mesh.xcells mesh.ycells mesh.zcells) hk
      rw [i1, k1] at e
      exact (congrArg WallInfo.R e).symm
    · have e := congrArg (wall_info mesh.xcells mesh.ycells mesh.zcells) hk
      rw [i2, k1] at e
      exact absurd (congrArg WallInfo.axis e) (by simp)
    · by_cases hm1 : m = mesh.ycells - 1
      · rw [c3, if_pos hm1, g1] at hk
        exact absurd hk.symm
          (row_wall_ne_ylast mesh.xcells mesh.ycells l2 0 n2 0 l n hl2 hY (by omega) hl)
      · have e := congrArg (wall_info mesh.xcells mesh.ycells mesh.zcells) hk
        rw [i3, k1, if_neg hm1, if_pos rfl] at e
        have eL := congrArg WallInfo.L e
        have eR := congrArg WallInfo.R e
        simp only at eL eR
        omega
    · have e := congrArg (wall_info mesh.xcells mesh.ycells mesh.zcells) hk
      rw [i4, k1] at e
      exact absurd (congrArg WallInfo.axis e) (by simp)
    · have e := congrArg (wall_info mesh.xcells mesh.ycells mesh.zcells) hk
      rw [i5, k1] at e
      exact absurd (congrArg WallInfo.axis e) (by simp)
    · have e := congrArg (wall_info mesh.xcells mesh.ycells mesh.zcells) hk
      rw [i6, k1] at e
      exact absurd (congrArg WallInfo.axis e) (by simp)
  · -- face 3
    intro l2 n2 hl2 hn2 hk
    obtain ⟨-, k1, k4, k5, k2, k3, k6⟩ := create_mesh_info mesh sim l2 (mesh.ycells - 1) n2
      hl2 (by omega) hn2
    obtain ⟨g1, g4, g5, g2, g3, g6, -⟩ := create_mesh_cell_fields mesh sim l2
      (mesh.ycells - 1) n2 hl2 (by omega) hn2
    rcases hj with h | h | h | h | h | h <;> rw [h] at hk
    · rw [c1, g3, if_pos rfl] at hk
      exact absurd hk
        (row_wall_ne_ylast mesh.xcells mesh.ycells l m n 0 l2 n2 hl hm (by omega) hl2)
    · have e := congrArg (wall_info mesh.xcells mesh.ycells mesh.zcells) hk
      rw [i2, k3] at e
      exact absurd (congrArg WallInfo.axis e) (by simp)
    · have e := congrArg (wall_info mesh.xcells mesh.ycells mesh.zcells) hk
      rw [i3, k3] at e
      exact (congrArg WallInfo.L e).symm
    · have e := congrArg (wall_info mesh.xcells mesh.ycells mesh.zcells) hk
      rw [i4, k3] at e
      exact absurd (congrArg WallInfo.axis e) (by simp)
    · have e := congrArg (wall_info mesh.xcells mesh.ycells mesh.zcells) hk
      rw [i5, k3] at e
      exact absurd (congrArg WallInfo.axis e) (by simp)
    · have e := congrArg (wall_info mesh.xcells mesh.ycells mesh.zcells) hk
      rw [i6, k3] at e
      exact absurd (congrArg WallInfo.axis e) (by simp)
  · -- face 2
    intro m2 n2 hm2 hn2 hk
    obtain ⟨-, k1, k4, k5, k2, k3, k6⟩ := create_mesh_info mesh sim (mesh.xcells - 1) m2 n2
      (by omega) hm2 hn2
    obtain ⟨g1, g4, g5, g2, g3, g6, -⟩ := create_mesh_cell_fields mesh sim
      (mesh.xcells - 1) m2 n2 (by omega) hm2 hn2
    rcases hj with h | h | h | h | h | h <;> rw [h] at hk
    · have e := congrArg (wall_info mesh.xcells mesh.ycells mesh.zcells) hk
      rw [i1, k2] at e
      exact absurd (congrArg WallInfo.axis e) (by simp)
    · have e := congrArg (wall_info mesh.xcells mesh.ycells mesh.zcells) hk
      rw [i2, k2] at e
      exact (congrArg WallInfo.L e).symm
    · have e := congrArg (wall_info mesh.xcells mesh.ycells mesh.zcells) hk
      rw [i3, k2] at e
      exact absurd (congrArg WallInfo.axis e) (by simp)
    · rw [c4, g2, if_pos rfl] at hk
      exact absurd hk
        (row_wall_ne_xlast mesh.xcells mesh.ycells l m n 1 m2 n2 hl hm (by omega) hm2)
    · have e := congrArg (wall_info mesh.xcells mesh.ycells mesh.zcells) hk
      rw [i5, k2] at e
      exact absurd (congrArg WallInfo.axis e) (by simp)
    · have e := congrArg (wall_info mesh.xcells mesh.ycells mesh.zcells) hk
      rw [i6, k2] at e
      exact absurd (congrArg WallInfo.axis e) (by simp)
  · -- face 4
    intro m2 n2 hm2 hn2 hk
    obtain ⟨-, k1, k4, k5, k2, k3, k6⟩ := create_mesh_info mesh sim 0 m2 n2 hX hm2 hn2
    obtain ⟨g1, g4, g5, g2, g3, g6, -⟩ := create_mesh_cell_fields mesh sim 0 m2 n2 hX hm2 hn2
    rcases hj with h | h | h | h | h | h <;> rw [h] at hk
    · have e := congrArg (wall_info mesh.xcells mesh.ycells mesh.zcells) hk
      rw [i1, k4] at e
      exact absurd (congrArg WallInfo.axis e) (by simp)
    · by_cases hl1 : l = mesh.xcells - 1
      · rw [c2, if_pos hl1, g4, hl1] at hk
        exact absurd hk.symm
          (row_wall_ne_xlast mesh.xcells mesh.ycells 0 m2 n2 1 m n hX hm2 (by omega) hm)
      · have e := congrArg (wall_info mesh.xcells mesh.ycells mesh.zcells) hk
        rw [i2, k4, if_neg hl1, if_pos rfl] at e
        have eL := congrArg WallInfo.L e
        have eR := congrArg WallInfo.R e
        simp only at eL eR
        omega
    · have e := congrArg (wall_info mesh.xcells mesh.ycells mesh.zcells) hk
      rw [i3, k4] at e
      exact absurd (congrArg WallInfo.axis e) (by simp)
    · have e := congrArg (wall_info mesh.xcells mesh.ycells mesh.zcells) hk
      rw [i4, k4] at e
      exact (congrArg WallInfo.R e).symm
    · have e := congrArg (wall_info mesh.xcells mesh.ycells mesh.zcells) hk
      rw [i5, k4] at e
      exact absurd (congrArg WallInfo.axis e) (by simp)
    · have e := congrArg (wall_info mesh.xcells mesh.ycells mesh.zcells) hk
      rw [i6, k4] at e
      exact absurd (congrArg WallInfo.axis e) (by simp)
  · -- face 5
    intro m2 l2 hm2 hl2 hk
    obtain ⟨-, k1, k4, k5, k2, k3, k6⟩ := create_mesh_info mesh sim l2 m2 0 hl2 hm2 hZ
    obtain ⟨g1, g4, g5, g2, g3, g6, -⟩ := create_mesh_cell_fields mesh sim l2 m2 0 hl2 hm2 hZ
    rcases hj with h | h | h | h | h | h <;> rw [h] at hk
    · have e := congrArg (wall_info mesh.xcells mesh.ycells mesh.zcells) hk
      rw [i1, k5] at e
      exact absurd (congrArg WallInfo.axis e) (by simp)
    · have e := congrArg (wall_info mesh.xcells mesh.ycells mesh.zcells) hk
      rw [i2, k5] at e
      exact absurd (congrArg WallInfo.axis e) (by simp)
    · have e := congrArg (wall_info mesh.xcells mesh.ycells mesh.zcells) hk
      rw [i3, k5] at e
      exact absurd (congrArg WallInfo.axis e) (by simp)
    · have e := congrArg (wall_info mesh.xcells mesh.ycells mesh.zcells) hk
      rw [i4, k5] at e
      exact absurd (congrArg WallInfo.axis e) (by simp)
    · have e := congrArg (wall_info mesh.xcells mesh.ycells mesh.zcells) hk
      rw [i5, k5] at e
      exact (congrArg WallInfo.R e).symm
    · by_cases hn1 : n = mesh.zcells - 1
      · rw [c6, if_pos hn1, g5] at hk
        exact absurd hk.symm
          (row_wall_ne_zlast mesh.xcells mesh.ycells mesh.zcells l2 m2 0 2 l m hl2 hm2 hZ
            (by omega))
      · have e := congrArg (wall_info mesh.xcells mesh.ycells mesh.zcells) hk
        rw [i6, k5, if_neg hn1, if_pos rfl] at e
        have eL := congrArg WallInfo.L e
        have eR := congrArg WallInfo.R e
        simp only at eL eR
        omega
  · -- face 6
    intro m2 l2 hm2 hl2 hk
    obtain ⟨-, k1, k4, k5, k2, k3, k6⟩ := create_mesh_info mesh sim l2 m2 (mesh.zcells - 1)
      hl2 hm2 (by omega)
    obtain ⟨g1, g4, g5, g2, g3, g6, -⟩ := create_mesh_cell_fields mesh sim l2 m2
      (mesh.zcells - 1) hl2 hm2 (by omega)
    rcases hj with h | h | h | h | h | h <;> rw [h] at hk
    · have e := congrArg (wall_info mesh.xcells mesh.ycells mesh.zcells) hk
      rw [i1, k6] at e
      exact absurd (congrArg WallInfo.axis e) (by simp)
    · have e := congrArg (wall_info mesh.xcells mesh.ycells mesh.zcells) hk
      rw [i2, k6] at e
      exact absurd (congrArg WallInfo.axis e) (by simp)
    · have e := congrArg (wall_info mesh.xcells mesh.ycells mesh.zcells) hk
      rw [i3, k6] at e
      exact absurd (congrArg WallInfo.axis e) (by simp)
    · have e := congrArg (wall_info mesh.xcells mesh.ycells mesh.zcells) hk
      rw [i4, k6] at e
      exact absurd (congrArg WallInfo.axis e) (by simp)
    · rw [c5, g6, if_pos rfl] at hk
      exact absurd hk
        (row_wall_ne_zlast mesh.xcells mesh.ycells mesh.zcells l m n 2 l2 m2 hl hm hn
          (by omega))
    · have e := congrArg (wall_info mesh.xcells mesh.ycells mesh.zcells) hk
      rw [i6, k6] at e
      exact (congrArg WallInfo.L e).symm

/-- A mesh with the connectivity of the mesh of `create_mesh`, the grid sizes
of its argument and wall identifiers equal to the wall pointers (as
`create_mesh` sets them) is wired around each cell `(l, m, n)` as `CellWiring`
says. -/
lemma create_mesh_cell_wiring (mesh : Mesh K) (sim : Sim K) (M : Mesh K) (l m n : Nat)
    (hl : l < mesh.xcells) (hm : m < mesh.ycells) (hn : n < mesh.zcells)
    (hc : same_connectivity M (create_mesh mesh sim))
    (hs : M.xcells = mesh.xcells ∧ M.ycells = mesh.ycells ∧ M.zcells = mesh.zcells)
    (hid : ∀ l2 m2 n2, l2 < mesh.xcells → m2 < mesh.ycells → n2 < mesh.zcells →
      (M.cell (cell_index mesh.xcells mesh.ycells l2 m2 n2)).w1_id
        = ((create_mesh mesh sim).cell (cell_index mesh.xcells mesh.ycells l2 m2 n2)).w1_id
      ∧ (M.cell (cell_index mesh.xcells mesh.ycells l2 m2 n2)).w2_id
        = ((create_mesh mesh sim).cell (cell_index mesh.xcells mesh.ycells l2 m2 n2)).w2_id
      ∧ (M.cell (cell_index mesh.xcells mesh.ycells l2 m2 n2)).w3_id
        = ((create_mesh mesh sim).cell (cell_index mesh.xcells mesh.ycells l2 m2 n2)).w3_id
      ∧ (M.cell (cell_index mesh.xcells mesh.ycells l2 m2 n2)).w4_id
        = ((create_mesh mesh sim).cell (cell_index mesh.xcells mesh.ycells l2 m2 n2)).w4_id
      ∧ (M.cell (cell_index mesh.xcells mesh.ycells l2 m2 n2)).w5_id
        = ((create_mesh mesh sim).cell (cell_index mesh.xcells mesh.ycells l2 m2 n2)).w5_id
      ∧ (M.cell (cell_index mesh.xcells mesh.ycells l2 m2 n2)).w6_id
        = ((create_mesh mesh sim).cell (cell_index mesh.xcells mesh.ycells l2 m2 n2)).w6_id) :
    CellWiring M (cell_index mesh.xcells mesh.ycells l m n) := by
  obtain ⟨hnc, hnw, hcells, hwalls⟩ := hc
  obtain ⟨sx, sy, sz⟩ := hs
  have hX : 0 < mesh.xcells := by omega
  have hY : 0 < mesh.ycells := by omega
  have hZ : 0 < mesh.zcells := by omega
  have hG : (create_mesh mesh sim).ncells = mesh.xcells * mesh.ycells * mesh.zcells := rfl
  have ht := cell_index_lt mesh.xcells mesh.ycells mesh.zcells l m n hl hm hn
  obtain ⟨t1, t2, t3, t4, t5, t6, -⟩ := hcells _ (by rw [hG]; exact ht)
  have cw : ∀ j, cell_wall (M.cell (cell_index mesh.xcells mesh.ycells l m n)) j →
      cell_wall ((create_mesh mesh sim).cell (cell_index mesh.xcells mesh.ycells l m n)) j := by
    intro j hj
    unfold cell_wall at hj ⊢
    rw [t1, t2, t3, t4, t5, t6] at hj
    exact hj
  have own := fun j hj => create_mesh_face_walls mesh sim l m n j hl hm hn (cw j hj)
  constructor
  · intro j hj
    have hj2 := cw j hj
    obtain ⟨c1, c4, c5, c2, c3, c6, -⟩ := create_mesh_cell_fields mesh sim l m n hl hm hn
    obtain ⟨b1, b4, b5, b2, b3, b6⟩ :=
      wall_ids_lt mesh.xcells mesh.ycells mesh.zcells l m n hl hm hn
    obtain ⟨-, ⟨r1, r4, r5, l2, l3, l6⟩, -⟩ := create_mesh_wiring mesh sim l m n hl hm hn
    have key : j < (create_mesh mesh sim).nwalls
        ∧ (((create_mesh mesh sim).wall j).cellL = cell_index mesh.xcells mesh.ycells l m n
          ∨ ((create_mesh mesh sim).wall j).cellR
            = cell_index mesh.xcells mesh.ycells l m n) := by
      rcases hj2 with h | h | h | h | h | h <;> subst h
      · exact ⟨by rw [c1]; exact b1, Or.inr r1⟩
      · exact ⟨by rw [c2]; exact b2, Or.inl l2⟩
      · exact ⟨by rw [c3]; exact b3, Or.inl l3⟩
      · exact ⟨by rw [c4]; exact b4, Or.inr r4⟩
      · exact ⟨by rw [c5]; exact b5, Or.inr r5⟩
      · exact ⟨by rw [c6]; exact b6, Or.inl l6⟩
    obtain ⟨kb, kc⟩ := key
    obtain ⟨wl, wr, -⟩ := hwalls j kb
    exact ⟨by rw [hnw]; exact kb, by rw [wl, wr]; exact kc⟩
  · intro l2 n2 hl2 hn2 hj
    rw [sx] at hl2
    rw [sz] at hn2
    rw [sx, sy] at hj ⊢
    have ek : mesh.xcells * 0 + l2 + n2 * mesh.xcells * mesh.ycells
        = cell_index mesh.xcells mesh.ycells l2 0 n2 := by unfold cell_index; ring
    rw [ek] at hj ⊢
    have hk := cell_index_lt mesh.xcells mesh.ycells mesh.zcells l2 0 n2 hl2 hY hn2
    obtain ⟨d1, d2, d3, d4, d5, d6⟩ := hid l2 0 n2 hl2 hY hn2
    obtain ⟨⟨u1, u2, u3, u4, u5, u6⟩, -⟩ := create_mesh_info mesh sim l2 0 n2 hl2 hY hn2
    rw [d1, u1] at hj
    exact (own _ hj).1 l2 n2 hl2 hn2 rfl
  · intro l2 n2 hl2 hn2 hj
    rw [sx] at hl2
    rw [sz] at hn2
    rw [sx, sy] at hj ⊢
    have ek : mesh.xcells * (mesh.ycells - 1) + l2 + n2 * mesh.xcells * mesh.ycells
        = cell_index mesh.xcells mesh.ycells l2 (mesh.ycells - 1) n2 := by
      unfold cell_index; ring
    rw [ek] at hj ⊢
    obtain ⟨d1, d2, d3, d4, d5, d6⟩ := hid l2 (mesh.ycells - 1) n2 hl2 (by omega) hn2
    obtain ⟨⟨u1, u2, u3, u4, u5, u6⟩, -⟩ :=
      create_mesh_info mesh sim l2 (mesh.ycells - 1) n2 hl2 (by omega) hn2
    rw [d3, u3] at hj
    exact (own _ hj).2.1 l2 n2 hl2 hn2 rfl
  · intro m2 n2 hm2 hn2 hj
    rw [sy] at hm2
    rw [sz] at hn2
    rw [sx, sy] at hj ⊢
    have ek : mesh.xcells * m2 + (mesh.xcells - 1) + n2 * mesh.xcells * mesh.ycells
        = cell_index mesh.xcells mesh.ycells (mesh.xcells - 1) m2 n2 := by
      unfold cell_index; ring
    rw [ek] at hj ⊢
    obtain ⟨d1, d2, d3, d4, d5, d6⟩ := hid (mesh.xcells - 1) m2 n2 (by omega) hm2 hn2
    obtain ⟨⟨u1, u2, u3, u4, u5, u6⟩, -⟩ :=
      create_mesh_info mesh sim (mesh.xcells - 1) m2 n2 (by omega) hm2 hn2
    rw [d2, u2] at hj
    exact (own _ hj).2.2.1 m2 n2 hm2 hn2 rfl
  · intro m2 n2 hm2 hn2 hj
    rw [sy] at hm2
    rw [sz] at hn2
    rw [sx, sy] at hj ⊢
    have ek : mesh.xcells * m2 + 0 + n2 * mesh.xcells * mesh.ycells
        = cell_index mesh.xcells mesh.ycells 0 m2 n2 := by unfold cell_index; ring
    rw [ek] at hj ⊢
    obtain ⟨d1, d2, d3, d4, d5, d6⟩ := hid 0 m2 n2 hX hm2 hn2
    obtain ⟨⟨u1, u2, u3, u4, u5, u6⟩, -⟩ := create_mesh_info mesh sim 0 m2 n2 hX hm2 hn2
    rw [d4, u4] at hj
    exact (own _ hj).2.2.2.1 m2 n2 hm2 hn2 rfl
  · intro m2 l2 hm2 hl2 hj
    rw [sy] at hm2
    rw [sx] at hl2
    rw [sx, sy] at hj ⊢
    have ek : mesh.xcells * m2 + l2 + 0 * mesh.xcells * mesh.ycells
        = cell_index mesh.xcells mesh.ycells l2 m2 0 := by unfold cell_index; ring
    rw [ek] at hj ⊢
    obtain ⟨d1, d2, d3, d4, d5, d6⟩ := hid l2 m2 0 hl2 hm2 hZ
    obtain ⟨⟨u1, u2, u3, u4, u5, u6⟩, -⟩ := create_mesh_info mesh sim l2 m2 0 hl2 hm2 hZ
    rw [d5, u5] at hj
    exact (own _ hj).2.2.2.2.1 m2 l2 hm2 hl2 rfl
  · intro m2 l2 hm2 hl2 hj
    rw [sy] at hm2
    rw [sx] at hl2
    rw [sx, sy, sz] at hj ⊢
    have ek : mesh.xcells * m2 + l2 + (mesh.zcells - 1) * mesh.xcells * mesh.ycells
        = cell_index mesh.xcells mesh.ycells l2 m2 (mesh.zcells - 1) := by
      unfold cell_index; ring
    rw [ek] at hj ⊢
    obtain ⟨d1, d2, d3, d4, d5, d6⟩ := hid l2 m2 (mesh.zcells - 1) hl2 hm2 (by omega)
    obtain ⟨⟨u1, u2, u3, u4, u5, u6⟩, -⟩ :=
      create_mesh_info mesh sim l2 m2 (mesh.zcells - 1) hl2 hm2 (by omega)
    rw [d6, u6] at hj
    exact (own _ hj).2.2.2.2.2 m2 l2 hm2 hl2 rfl

/-- The cell 0 of `periodicFlowMesh`, a mesh that `create_mesh` wired, is wired
as `CellWiring` says. -/
lemma periodicFlowMesh_wiring : CellWiring (periodicFlowMesh : Mesh ℚ) 0 :=
  create_mesh_cell_wiring (periodicGrid : Mesh ℚ) (eulerSim 0 1) periodicFlowMesh 0 0 0
    (show (0 : Nat) < 2 by decide) (show (0 : Nat) < 2 by decide) (show (0 : Nat) < 2 by decide)
    ⟨rfl, rfl, fun _ _ => ⟨rfl, rfl, rfl, rfl, rfl, rfl, rfl, rfl, rfl⟩,
      fun _ _ => ⟨rfl, rfl, rfl, rfl, rfl⟩⟩
    ⟨rfl, rfl, rfl⟩ (fun _ _ _ _ _ _ => ⟨rfl, rfl, rfl, rfl, rfl, rfl⟩)

/-- Witness of C40: the cell 0 of `periodicFlowMesh`, the mesh `create_mesh`
builds on a grid of 2 x 2 x 2 cells with the boundary code 1 on every face,
filled with fluid cells; its wall 0 lies on the face 1 of the domain. -/
theorem updated_cells_have_active_walls_witness :
    (∀ f, f < 6 → (periodicFlowMesh : Mesh ℚ).bc f = 1 ∨ (periodicFlowMesh : Mesh ℚ).bc f = 3
        ∨ (periodicFlowMesh : Mesh ℚ).bc f = 4)
    ∧ CellWiring (periodicFlowMesh : Mesh ℚ) 0
    ∧ (((periodicFlowMesh : Mesh ℚ).cell 0).type ≠ 0
      → cell_wall ((periodicFlowMesh : Mesh ℚ).cell 0) 0 →
        ((assign_wall_type true (periodicFlowMesh : Mesh ℚ)).wall 0).wtype = 1
        ∨ ((assign_wall_type true (periodicFlowMesh : Mesh ℚ)).wall 0).wtype = 3
        ∨ ((assign_wall_type true (periodicFlowMesh : Mesh ℚ)).wall 0).wtype = 4)
    ∧ ((update_wall_type (update_ghost_cells (eulerSim 0 3)
          (assign_image_cells (fun x => x) (assign_wall_type true (periodicFlowMesh : Mesh ℚ))
            oneSolid) oneSolid) oneSolid).cell 0).type ≠ 0
    ∧ ((update_wall_type (update_ghost_cells (eulerSim 0 3)
          (assign_image_cells (fun x => x) (assign_wall_type true (periodicFlowMesh : Mesh ℚ))
            oneSolid) oneSolid) oneSolid).cell 0).ghost ≠ 1
    ∧ cell_wall ((update_wall_type (update_ghost_cells (eulerSim 0 3)
          (assign_image_cells (fun x => x) (assign_wall_type true (periodicFlowMesh : Mesh ℚ))
            oneSolid) oneSolid) oneSolid).cell 0) 0
    ∧ (((update_wall_type (update_ghost_cells (eulerSim 0 3)
          (assign_image_cells (fun x => x) (assign_wall_type true (periodicFlowMesh : Mesh ℚ))
            oneSolid) oneSolid) oneSolid).wall 0).wtype = 1
      ∨ ((update_wall_type (update_ghost_cells (eulerSim 0 3)
          (assign_image_cells (fun x => x) (assign_wall_type true (periodicFlowMesh : Mesh ℚ))
            oneSolid) oneSolid) oneSolid).wall 0).wtype = 3
      ∨ ((update_wall_type (update_ghost_cells (eulerSim 0 3)
          (assign_image_cells (fun x => x) (assign_wall_type true (periodicFlowMesh : Mesh ℚ))
            oneSolid) oneSolid) oneSolid).wall 0).wtype = 4) := by
  have hbc : ∀ f, f < 6 → (periodicFlowMesh : Mesh ℚ).bc f = 1
      ∨ (periodicFlowMesh : Mesh ℚ).bc f = 3 ∨ (periodicFlowMesh : Mesh ℚ).bc f = 4 :=
    fun _ _ => Or.inl rfl
  have hg : ((assign_wall_type true (periodicFlowMesh : Mesh ℚ)).cell 0).ghost ≠ 1 := by
    show (0 : Int) ≠ 1
    decide
  have hc := setup_keeps_fluid_cell (fun x => x)
    (assign_wall_type true (periodicFlowMesh : Mesh ℚ)) oneSolid (eulerSim 0 3) 0 hg
  have hw1 : ((periodicFlowMesh : Mesh ℚ).cell 0).w1 = 0 :=
    (create_mesh_cell_fields (periodicGrid : Mesh ℚ) (eulerSim 0 1) 0 0 0
      (show (0 : Nat) < 2 by decide) (show (0 : Nat) < 2 by decide)
      (show (0 : Nat) < 2 by decide)).1
  have ht : ((update_wall_type (update_ghost_cells (eulerSim 0 3)
      (assign_image_cells (fun x => x) (assign_wall_type true (periodicFlowMesh : Mesh ℚ))
        oneSolid) oneSolid) oneSolid).cell 0).type ≠ 0 := by
    have h := congrArg Cell.type hc
    have h2 : ((update_wall_type (update_ghost_cells (eulerSim 0 3)
      (assign_image_cells (fun x => x) (assign_wall_type true (periodicFlowMesh : Mesh ℚ))
        oneSolid) oneSolid) oneSolid).cell 0).type = 1 := h
    rw [h2]; decide
  have hgh : ((update_wall_type (update_ghost_cells (eulerSim 0 3)
      (assign_image_cells (fun x => x) (assign_wall_type true (periodicFlowMesh : Mesh ℚ))
        oneSolid) oneSolid) oneSolid).cell 0).ghost ≠ 1 := by
    have h := congrArg Cell.ghost hc
    have h2 : ((update_wall_type (update_ghost_cells (eulerSim 0 3)
      (assign_image_cells (fun x => x) (assign_wall_type true (periodicFlowMesh : Mesh ℚ))
        oneSolid) oneSolid) oneSolid).cell 0).ghost = 0 := h
    rw [h2]; decide
  have hcw : cell_wall ((update_wall_type (update_ghost_cells (eulerSim 0 3)
      (assign_image_cells (fun x => x) (assign_wall_type true (periodicFlowMesh : Mesh ℚ))
        oneSolid) oneSolid) oneSolid).cell 0) 0 := by
    have h := congrArg Cell.w1 hc
    have h2 : ((update_wall_type (update_ghost_cells (eulerSim 0 3)
      (assign_image_cells (fun x => x) (assign_wall_type true (periodicFlowMesh : Mesh ℚ))
        oneSolid) oneSolid) oneSolid).cell 0).w1 = ((periodicFlowMesh : Mesh ℚ).cell 0).w1 := h
    left
    rw [h2, hw1]
  have main := updated_cells_have_active_walls (fun x => x) true (periodicFlowMesh : Mesh ℚ)
    (assign_wall_type true (periodicFlowMesh : Mesh ℚ)) oneSolid (eulerSim 0 3) 0 0 hbc
    periodicFlowMesh_wiring (Or.inl rfl) ⟨rfl, rfl, rfl, rfl, rfl, rfl, rfl, rfl, rfl, rfl⟩
  exact ⟨hbc, periodicFlowMesh_wiring, main.1, ht, hgh, hcw, (main.2 ht hgh hcw).1⟩

end EHOW3D
